import Mathlib

/-!
# LLVM-based codegen (`src/coreclr/jit/llvmcodegen.cpp`): a shallow embedding

The lowering engine `Llvm` is embedded as state-passing functions over an explicit state
record (`Llvm`) and a read-only record of everything the JIT front end supplies (`Compiler`).

Conventions of the embedding.

* IR nodes (`GenTree`) and basic blocks are immutable inputs.  A node is identified by `id`
  (pointer identity in the source), a block by `bbNum`.
* The target IR is modelled at the level of the `IRBuilder` interface: every `Create*`
  call builds one `Instruction` record with a fresh id and places it at the builder's
  insertion point.  Folding inside the builder is not modelled.
* `failFunctionCompilation` is the one unsupported-shape failure.  A violated `assert`
  (checked when `Compiler.debug` is set), `unreached()` and an invalid access are the second
  kind of failure, `Failure.assertion`.  A failed computation carries the state at the point
  of failure.
* `Llvm.sdsuWrites` is a history variable: the keys passed to `_sdsuMap.Set`, in call order.
* `Llvm.emitted` is a history variable: every instruction a builder created, in creation
  order, whichever block it was placed in.
-/

namespace LlvmCodegen

/-! ## JIT side: types, opcodes, nodes, blocks, locals -/

/-- The JIT value types (`var_types`) that the code generator names. -/
inductive var_types where
  | TYP_UNDEF | TYP_VOID | TYP_BOOL | TYP_BYTE | TYP_UBYTE | TYP_SHORT | TYP_USHORT
  | TYP_INT | TYP_UINT | TYP_LONG | TYP_ULONG | TYP_FLOAT | TYP_DOUBLE
  | TYP_REF | TYP_BYREF | TYP_STRUCT | TYP_BLK
  deriving DecidableEq, Repr

/-- Node opcodes (`genTreeOps`).  Every opcode the dispatcher names is a constructor; `GT_SUB`
and `GT_MUL` stand for familiar opcodes it does not name, `GT_OTHER n` for the rest of the
enumeration. -/
inductive genTreeOps where
  | GT_ADD | GT_DIV | GT_CALL | GT_CAST | GT_LCLHEAP | GT_CNS_DBL | GT_CNS_INT | GT_CNS_LNG
  | GT_IL_OFFSET | GT_IND | GT_JTRUE | GT_LCL_FLD | GT_LCL_VAR | GT_LCL_VAR_ADDR
  | GT_LCL_FLD_ADDR | GT_LSH | GT_RSH | GT_RSZ | GT_EQ | GT_NE | GT_LE | GT_LT | GT_GE | GT_GT
  | GT_NEG | GT_NOT | GT_NO_OP | GT_NULLCHECK | GT_OBJ | GT_BLK | GT_PHI | GT_PHI_ARG
  | GT_PUTARG_TYPE | GT_RETURN | GT_STORE_LCL_VAR | GT_STOREIND | GT_STORE_BLK | GT_STORE_OBJ
  | GT_AND | GT_OR | GT_XOR | GT_FIELD_LIST | GT_INIT_VAL
  | GT_SUB | GT_MUL
  | GT_OTHER (code : Nat)
  deriving DecidableEq, Repr

/-- Kinds of handle constants (`GTF_ICON_*_HDL`). -/
inductive IconHandleKind where
  | GTF_ICON_TOKEN_HDL | GTF_ICON_CLASS_HDL | GTF_ICON_METHOD_HDL | GTF_ICON_FIELD_HDL
  | GTF_ICON_STR_HDL | GTF_ICON_OTHER_HDL
  deriving DecidableEq, Repr

/-- Call kinds (`gtCallType`). -/
inductive CallType where
  | CT_USER_FUNC | CT_HELPER | CT_INDIRECT
  deriving DecidableEq, Repr

/-- The EE's classification of signature types (`CorInfoType`). -/
inductive CorInfoType where
  | CORINFO_TYPE_VOID | CORINFO_TYPE_BOOL | CORINFO_TYPE_BYTE | CORINFO_TYPE_UBYTE
  | CORINFO_TYPE_SHORT | CORINFO_TYPE_USHORT | CORINFO_TYPE_INT | CORINFO_TYPE_UINT
  | CORINFO_TYPE_LONG | CORINFO_TYPE_ULONG | CORINFO_TYPE_FLOAT | CORINFO_TYPE_DOUBLE
  | CORINFO_TYPE_PTR | CORINFO_TYPE_BYREF | CORINFO_TYPE_VALUECLASS | CORINFO_TYPE_CLASS
  deriving DecidableEq, Repr

/-- Runtime helpers (`CorInfoHelpFunc`) named by the code generator; `CORINFO_HELP_OTHER n`
stands for the rest of the enumeration. -/
inductive CorInfoHelpFunc where
  | CORINFO_HELP_READYTORUN_GENERIC_HANDLE | CORINFO_HELP_READYTORUN_GENERIC_STATIC_BASE
  | CORINFO_HELP_GVMLOOKUP_FOR_SLOT | CORINFO_HELP_TYPEHANDLE_TO_RUNTIMETYPE
  | CORINFO_HELP_READYTORUN_DELEGATE_CTOR | CORINFO_HELP_THROW_PLATFORM_NOT_SUPPORTED
  | CORINFO_HELP_READYTORUN_STATIC_BASE | CORINFO_HELP_TYPEHANDLE_TO_RUNTIMETYPEHANDLE
  | CORINFO_HELP_DBL2INT_OVF | CORINFO_HELP_DBL2LNG_OVF | CORINFO_HELP_DBL2UINT_OVF
  | CORINFO_HELP_DBL2ULNG_OVF | CORINFO_HELP_LMOD | CORINFO_HELP_LDIV | CORINFO_HELP_LMUL_OVF
  | CORINFO_HELP_ULMUL_OVF | CORINFO_HELP_ULDIV | CORINFO_HELP_ULMOD | CORINFO_HELP_OVERFLOW
  | CORINFO_HELP_OTHER (code : Nat)
  deriving DecidableEq, Repr

/-- Write-barrier classification (`GCInfo::WriteBarrierForm`). -/
inductive WriteBarrierForm where
  | WBF_NoBarrier | WBF_BarrierUnknown | WBF_BarrierChecked | WBF_BarrierUnchecked
  | WBF_NoBarrier_CheckNotHeapInDebug
  deriving DecidableEq, Repr

/-- Block terminator kinds (`BBjumpKinds`). -/
inductive BBjumpKinds where
  | BBJ_EHFINALLYRET | BBJ_EHFILTERRET | BBJ_EHCATCHRET | BBJ_THROW | BBJ_RETURN | BBJ_NONE
  | BBJ_ALWAYS | BBJ_LEAVE | BBJ_CALLFINALLY | BBJ_COND | BBJ_SWITCH
  deriving DecidableEq, Repr

/-- The part of a `ClassLayout` the code generator reads. -/
structure ClassLayout where
  size : Nat := 0
  hasGCPtr : Bool := false
  classHandle : Nat := 0
  deriving DecidableEq, Repr

/-- The per-use record of a `GenTreeFieldList::Use` (offset and type of the field). -/
structure UseData where
  offset : Nat := 0
  type : var_types := .TYP_INT
  deriving DecidableEq, Repr

/-- The non-recursive content of a node: identity, opcode, type, the flags the code generator
tests, and the payload of each node class it downcasts to. -/
structure GenTreeData where
  id : Nat
  gtOper : genTreeOps
  gtType : var_types := .TYP_INT
  GTF_IND_NONFAULTING : Bool := false
  GTF_IND_TGT_NOT_HEAP : Bool := false
  GTF_RELOP_NAN_UN : Bool := false
  GTF_UNSIGNED : Bool := false
  iconHandle : Option IconHandleKind := none
  gtIconVal : Int := 0
  gtLconVal : Int := 0
  gtDconVal : Nat := 0
  lclNum : Nat := 0
  ssaNum : Nat := 0
  lclOffs : Nat := 0
  gtPredBB : Nat := 0
  gtCallType : CallType := .CT_USER_FUNC
  gtReturnType : var_types := .TYP_VOID
  gtCallMethHnd : Nat := 0
  gtEntryPoint : Nat := 0
  isVirtualStub : Bool := false
  isVirtualVtable : Bool := false
  gtCorInfoType : CorInfoType := .CORINFO_TYPE_VOID
  gtClsHnd : Nat := 0
  gtCastType : var_types := .TYP_INT
  layout : ClassLayout := {}
  gtStmtDI : Nat := 0
  deriving DecidableEq, Repr

/-- An IR node with its operands: `gtOp1`/`gtOp2`, the use list (`Uses()` of a phi or field
list, `Args()` of a call), the call's `gtControlExpr` and `gtCallAddr`, and the call's
argument table (`argNum`, node). -/
inductive GenTree where
  | mk (d : GenTreeData) (op1 op2 : Option GenTree) (useList : List (UseData × GenTree))
      (controlExpr callAddr : Option GenTree) (argTab : List (Nat × GenTree))

mutual
/-- Decidable equality of nodes. -/
def GenTree.decEq : (a b : GenTree) → Decidable (a = b)
  | .mk d1 a1 b1 u1 c1 e1 t1, .mk d2 a2 b2 u2 c2 e2 t2 =>
    match (inferInstance : Decidable (d1 = d2)), GenTree.decEqOpt a1 a2, GenTree.decEqOpt b1 b2,
        GenTree.decEqUses u1 u2, GenTree.decEqOpt c1 c2, GenTree.decEqOpt e1 e2,
        GenTree.decEqTab t1 t2 with
    | isTrue h1, isTrue h2, isTrue h3, isTrue h4, isTrue h5, isTrue h6, isTrue h7 =>
      isTrue (by rw [h1, h2, h3, h4, h5, h6, h7])
    | isFalse h, _, _, _, _, _, _ => isFalse (by intro e; cases e; exact h rfl)
    | _, isFalse h, _, _, _, _, _ => isFalse (by intro e; cases e; exact h rfl)
    | _, _, isFalse h, _, _, _, _ => isFalse (by intro e; cases e; exact h rfl)
    | _, _, _, isFalse h, _, _, _ => isFalse (by intro e; cases e; exact h rfl)
    | _, _, _, _, isFalse h, _, _ => isFalse (by intro e; cases e; exact h rfl)
    | _, _, _, _, _, isFalse h, _ => isFalse (by intro e; cases e; exact h rfl)
    | _, _, _, _, _, _, isFalse h => isFalse (by intro e; cases e; exact h rfl)
termination_by structural a => a
/-- Decidable equality of optional operands. -/
def GenTree.decEqOpt : (a b : Option GenTree) → Decidable (a = b)
  | none, none => isTrue rfl
  | none, some _ => isFalse (by intro e; cases e)
  | some _, none => isFalse (by intro e; cases e)
  | some a, some b =>
    match GenTree.decEq a b with
    | isTrue h => isTrue (by rw [h])
    | isFalse h => isFalse (by intro e; cases e; exact h rfl)
termination_by structural a => a
/-- Decidable equality of use lists. -/
def GenTree.decEqUses : (a b : List (UseData × GenTree)) → Decidable (a = b)
  | [], [] => isTrue rfl
  | [], _ :: _ => isFalse (by intro e; cases e)
  | _ :: _, [] => isFalse (by intro e; cases e)
  | (n, a) :: as, (m, b) :: bs =>
    match (inferInstance : Decidable (n = m)), GenTree.decEq a b, GenTree.decEqUses as bs with
    | isTrue h0, isTrue h, isTrue h2 => isTrue (by rw [h0, h, h2])
    | isFalse h, _, _ => isFalse (by intro e; cases e; exact h rfl)
    | _, isFalse h, _ => isFalse (by intro e; cases e; exact h rfl)
    | _, _, isFalse h => isFalse (by intro e; cases e; exact h rfl)
termination_by structural a => a
/-- Decidable equality of argument tables. -/
def GenTree.decEqTab : (a b : List (Nat × GenTree)) → Decidable (a = b)
  | [], [] => isTrue rfl
  | [], _ :: _ => isFalse (by intro e; cases e)
  | _ :: _, [] => isFalse (by intro e; cases e)
  | (n, a) :: as, (m, b) :: bs =>
    match (inferInstance : Decidable (n = m)), GenTree.decEq a b, GenTree.decEqTab as bs with
    | isTrue h0, isTrue h, isTrue h2 => isTrue (by rw [h0, h, h2])
    | isFalse h, _, _ => isFalse (by intro e; cases e; exact h rfl)
    | _, isFalse h, _ => isFalse (by intro e; cases e; exact h rfl)
    | _, _, isFalse h => isFalse (by intro e; cases e; exact h rfl)
termination_by structural a => a
end

instance : DecidableEq GenTree := GenTree.decEq

namespace GenTree

/-- The node's own record. -/
def d : GenTree → GenTreeData
  | .mk d _ _ _ _ _ _ => d

/-- First operand (`gtOp1`, `gtGetOp1()`, `Addr()`, `CastOp()`). -/
def gtOp1 : GenTree → Option GenTree
  | .mk _ a _ _ _ _ _ => a

/-- Second operand (`gtOp2`, `gtGetOp2()`, `Data()`). -/
def gtOp2 : GenTree → Option GenTree
  | .mk _ _ b _ _ _ _ => b

/-- The use list: `Uses()` of a phi or a field list, `Args()` of a call. -/
def Uses : GenTree → List (UseData × GenTree)
  | .mk _ _ _ u _ _ _ => u

/-- The call's `gtControlExpr`. -/
def gtControlExpr : GenTree → Option GenTree
  | .mk _ _ _ _ c _ _ => c

/-- The call's `gtCallAddr`. -/
def gtCallAddr : GenTree → Option GenTree
  | .mk _ _ _ _ _ e _ => e

/-- The call's `fgArgInfo->ArgTable()`: entries (`argNum`, `GetNode()`). -/
def ArgTable : GenTree → List (Nat × GenTree)
  | .mk _ _ _ _ _ _ t => t

/-- Node identity (the pointer value in the source). -/
def id (n : GenTree) : Nat := n.d.id

/-- Opcode of the node (`OperGet()`). -/
def OperGet (n : GenTree) : genTreeOps := n.d.gtOper

/-- Type of the node (`TypeGet()`). -/
def TypeGet (n : GenTree) : var_types := n.d.gtType

/-- A leaf node. -/
def leaf (d : GenTreeData) : GenTree := .mk d none none [] none none []

/-- A node with one operand. -/
def unary (d : GenTreeData) (a : GenTree) : GenTree := .mk d (some a) none [] none none []

/-- A node with two operands. -/
def binary (d : GenTreeData) (a b : GenTree) : GenTree := .mk d (some a) (some b) [] none none []

/-- A node with a use list (phi, field list, call arguments). -/
def withUses (d : GenTreeData) (us : List (UseData × GenTree)) : GenTree :=
  .mk d none none us none none []

/-- Modelled from the spec: `GenTree::IsIntegralConst(v)` of gentree.h, the node is the
compile-time integer constant `v`. -/
def IsIntegralConst (n : GenTree) (v : Int) : Bool :=
  (n.OperGet == .GT_CNS_INT && n.d.gtIconVal == v) || (n.OperGet == .GT_CNS_LNG && n.d.gtLconVal == v)

/-- Modelled from the spec: `GenTree::IsIntegralConst()` of gentree.h, the node is a
compile-time integer constant. -/
def IsIntegralConstAny (n : GenTree) : Bool :=
  n.OperGet == .GT_CNS_INT || n.OperGet == .GT_CNS_LNG

/-- Modelled from the spec: `GenTree::IsIconHandle()` of gentree.h, an integer constant node
that carries a handle kind. -/
def IsIconHandle (n : GenTree) : Bool :=
  n.OperGet == .GT_CNS_INT && n.d.iconHandle.isSome

/-- Modelled from the spec: `GenTree::IsIconHandle(kind)` of gentree.h. -/
def IsIconHandleOf (n : GenTree) (k : IconHandleKind) : Bool :=
  n.OperGet == .GT_CNS_INT && n.d.iconHandle == some k

/-- Modelled from the spec: `GenTree::OperIsLocalAddr()` of gentree.h. -/
def OperIsLocalAddr (n : GenTree) : Bool :=
  n.OperGet == .GT_LCL_VAR_ADDR || n.OperGet == .GT_LCL_FLD_ADDR

/-- Modelled from the spec: `GenTree::OperIsInitVal()` of gentree.h. -/
def OperIsInitVal (n : GenTree) : Bool := n.OperGet == .GT_INIT_VAL

/-- Modelled from the spec: `GenTreeLclVarCommon::isLclField()` of gentree.h. -/
def isLclField (n : GenTree) : Bool :=
  n.OperGet == .GT_LCL_FLD || n.OperGet == .GT_LCL_FLD_ADDR

/-- Modelled from the spec: `GenTree::OperIsInitBlkOp()` of gentree.h, as the comment at its
use says: the data operand is either `INIT_VAL` or constant zero. -/
def OperIsInitBlkOp (n : GenTree) : Bool :=
  match n.gtOp2 with
  | some data => data.OperIsInitVal || data.IsIntegralConst 0
  | none => false

end GenTree

/-- A basic block of the input method: number, terminator kind, lexical successor, jump
target and the nodes of its LIR range in order. -/
structure BasicBlock where
  bbNum : Nat
  bbJumpKind : BBjumpKinds := .BBJ_NONE
  bbNext : Option Nat := none
  bbJumpDest : Option Nat := none
  nodes : List GenTree := []
  deriving DecidableEq

/-- Per-SSA-definition data of a local: whether the definition has an assignment node
(`GetAssignment() != nullptr`). -/
structure LclSsaVarDsc where
  hasAssignment : Bool := true
  deriving DecidableEq, Repr

/-- Local variable descriptor (`LclVarDsc`). -/
structure LclVarDsc where
  lvType : var_types := .TYP_INT
  lvRefCnt : Nat := 0
  lvIsParam : Bool := false
  lvLlvmArgNum : Option Nat := none
  lvInSsa : Bool := false
  lvPerSsaData : List LclSsaVarDsc := []
  lvMustInit : Bool := false
  lvHasExplicitInit : Bool := false
  lvTracked : Bool := false
  deriving DecidableEq, Repr

/-- The first SSA number (`SsaConfig::FIRST_SSA_NUM`). -/
def FIRST_SSA_NUM : Nat := 1

/-- Field descriptor of a struct layout (`FieldDesc`). -/
structure FieldDesc where
  fieldOffset : Nat := 0
  isGcPointer : Bool := false
  classHandle : Option Nat := none
  deriving DecidableEq, Repr

/-- Struct layout description (`StructDesc`): the fields in order, each with the layout that
`getStructDesc` gives for the field's class handle (when it has one), and the
significant-padding flag. -/
inductive StructDesc where
  | mk (fields : List (FieldDesc × Option StructDesc)) (hasSignificantPadding : Bool)

/-- The fields of a layout. -/
def StructDesc.fields : StructDesc → List (FieldDesc × Option StructDesc)
  | .mk fs _ => fs

/-- Whether padding bytes of the layout must be preserved. -/
def StructDesc.hasSignificantPadding : StructDesc → Bool
  | .mk _ p => p

/-! ## Target side: types, values, instructions, blocks -/

/-- Target-IR types. -/
inductive LType where
  | void | int (bits : Nat) | float | double
  | ptr (pointee : LType)
  | struct (id : Nat)
  | func (ret : LType) (params : List LType)

mutual
/-- Decidable equality of target types. -/
def LType.decEq : (a b : LType) → Decidable (a = b)
  | .void, b => by cases b <;> first | exact isTrue rfl | exact isFalse (by intro h; cases h)
  | .float, b => by cases b <;> first | exact isTrue rfl | exact isFalse (by intro h; cases h)
  | .double, b => by cases b <;> first | exact isTrue rfl | exact isFalse (by intro h; cases h)
  | .int n, .int m =>
    if h : n = m then isTrue (by rw [h]) else isFalse (by intro h2; cases h2; exact h rfl)
  | .int _, .void | .int _, .float | .int _, .double | .int _, .ptr _ | .int _, .struct _
  | .int _, .func _ _ => isFalse (by intro h; cases h)
  | .struct n, .struct m =>
    if h : n = m then isTrue (by rw [h]) else isFalse (by intro h2; cases h2; exact h rfl)
  | .struct _, .void | .struct _, .float | .struct _, .double | .struct _, .ptr _
  | .struct _, .int _ | .struct _, .func _ _ => isFalse (by intro h; cases h)
  | .ptr a, .ptr b =>
    match LType.decEq a b with
    | isTrue h => isTrue (by rw [h])
    | isFalse h => isFalse (by intro h2; cases h2; exact h rfl)
  | .ptr _, .void | .ptr _, .float | .ptr _, .double | .ptr _, .int _ | .ptr _, .struct _
  | .ptr _, .func _ _ => isFalse (by intro h; cases h)
  | .func r ps, .func r2 ps2 =>
    match LType.decEq r r2, LType.decEqList ps ps2 with
    | isTrue h, isTrue h2 => isTrue (by rw [h, h2])
    | isFalse h, _ => isFalse (by intro h2; cases h2; exact h rfl)
    | _, isFalse h => isFalse (by intro h2; cases h2; exact h rfl)
  | .func _ _, .void | .func _ _, .float | .func _ _, .double | .func _ _, .int _
  | .func _ _, .struct _ | .func _ _, .ptr _ => isFalse (by intro h; cases h)
/-- Decidable equality of lists of target types. -/
def LType.decEqList : (a b : List LType) → Decidable (a = b)
  | [], [] => isTrue rfl
  | [], _ :: _ => isFalse (by intro h; cases h)
  | _ :: _, [] => isFalse (by intro h; cases h)
  | a :: as, b :: bs =>
    match LType.decEq a b, LType.decEqList as bs with
    | isTrue h, isTrue h2 => isTrue (by rw [h, h2])
    | isFalse h, _ => isFalse (by intro h2; cases h2; exact h rfl)
    | _, isFalse h => isFalse (by intro h2; cases h2; exact h rfl)
end

instance : DecidableEq LType := LType.decEq

namespace LType

/-- The target `isIntegerTy()`. -/
def isIntegerTy : LType → Bool
  | .int _ => true
  | _ => false

/-- The target `isPointerTy()`. -/
def isPointerTy : LType → Bool
  | .ptr _ => true
  | _ => false

/-- The target `isStructTy()`. -/
def isStructTy : LType → Bool
  | .struct _ => true
  | _ => false

/-- The target `isFloatingPointTy()`. -/
def isFloatingPointTy : LType → Bool
  | .float => true
  | .double => true
  | _ => false

/-- The target `getPrimitiveSizeInBits()`: the width of an integer or floating type and 0 for
every other type (pointers and aggregates included). -/
def getPrimitiveSizeInBits : LType → Nat
  | .int n => n
  | .float => 32
  | .double => 64
  | _ => 0

/-- The target `getPointerTo()`. -/
def getPointerTo (t : LType) : LType := .ptr t

end LType

/-- `Type::getInt1Ty`. -/
abbrev getInt1Ty : LType := .int 1
/-- `Type::getInt8Ty`. -/
abbrev getInt8Ty : LType := .int 8
/-- `Type::getInt32Ty`. -/
abbrev getInt32Ty : LType := .int 32
/-- `Type::getInt64Ty`. -/
abbrev getInt64Ty : LType := .int 64
/-- `Type::getInt8PtrTy`. -/
abbrev getInt8PtrTy : LType := .ptr (.int 8)
/-- `Type::getInt32PtrTy`. -/
abbrev getInt32PtrTy : LType := .ptr (.int 32)

/-- Target values.  An instruction result is named by the instruction's id; constants,
arguments and module-level symbols are structural. -/
inductive Value where
  | inst (id : Nat) (ty : LType)
  | argument (idx : Nat) (ty : LType)
  | constInt (bits : Nat) (val : Int)
  | constFP (ty : LType) (bits : Nat)
  | nullValue (ty : LType)
  | undef (ty : LType)
  | globalVariable (name : String) (valueTy : LType)
  | function (name : String) (fty : LType)
  deriving DecidableEq

/-- The target `Value::getType()`. -/
def Value.getType : Value → LType
  | .inst _ ty => ty
  | .argument _ ty => ty
  | .constInt bits _ => .int bits
  | .constFP ty _ => ty
  | .nullValue ty => ty
  | .undef ty => ty
  | .globalVariable _ ty => .ptr ty
  | .function _ fty => .ptr fty

/-- Comparison predicates (`llvm::CmpInst::Predicate`). -/
inductive Predicate where
  | ICMP_EQ | ICMP_NE | ICMP_ULE | ICMP_SLE | ICMP_ULT | ICMP_SLT | ICMP_UGE | ICMP_SGE
  | ICMP_UGT | ICMP_SGT
  | FCMP_UEQ | FCMP_OEQ | FCMP_UNE | FCMP_ONE | FCMP_ULE | FCMP_OLE | FCMP_ULT | FCMP_OLT
  | FCMP_UGE | FCMP_OGE | FCMP_UGT | FCMP_OGT
  deriving DecidableEq, Repr

/-- Instruction kinds, one per `IRBuilder::Create*` entry point that the code generator
calls. -/
inductive Opcode where
  | Ret | RetVoid | Br | CondBr | Unreachable
  | Add | SDiv | FDiv | Shl | AShr | LShr | And | Or | Xor | Neg | FNeg | Not
  | Alloca (allocated : LType) | Load | Store | GEP
  | Trunc | ZExt | SExt | FPToUI | FPToSI | UIToFP | SIToFP | FPCast
  | PtrToInt | IntToPtr | BitCast | PointerCast
  | Cmp (pred : Predicate) | PHI | Call | Select | ExtractValue (index : Nat) | Freeze
  | MemSet | MemCpy
  deriving DecidableEq

/-- A debug location (`llvm::DILocation`): line and owning subprogram. -/
structure DILocation where
  line : Nat
  scope : String
  deriving DecidableEq, Repr

/-- One target instruction: fresh id, kind, result type, value operands, branch targets
(block ids), the name and alignment given at creation and the debug location current at
creation. -/
structure Instruction where
  id : Nat := 0
  opcode : Opcode
  ty : LType
  operands : List Value := []
  targets : List Nat := []
  name : String := ""
  align : Option Nat := none
  dbg : Option DILocation := none
  deriving DecidableEq

/-- The target `Instruction::isTerminator()`. -/
def Instruction.isTerminator (i : Instruction) : Bool :=
  match i.opcode with
  | .Ret | .RetVoid | .Br | .CondBr | .Unreachable => true
  | _ => false

/-- A target basic block: id, name, owning function and instructions in order. -/
structure LBasicBlock where
  id : Nat
  name : String
  parent : String
  insts : List Instruction := []
  deriving DecidableEq

/-- The target `BasicBlock::getTerminator()`: the last instruction when it is a terminator. -/
def LBasicBlock.getTerminator (b : LBasicBlock) : Option Instruction :=
  match b.insts.getLast? with
  | some i => if i.isTerminator then some i else none
  | none => none

/-- Linkage of a module-level function. -/
inductive Linkage where
  | ExternalLinkage | InternalLinkage
  deriving DecidableEq, Repr

/-- A function of the module: name, function type and linkage.  Its body is the blocks whose
`parent` is the name. -/
structure LFunction where
  name : String
  fty : LType
  linkage : Linkage := .ExternalLinkage
  deriving DecidableEq

/-- The target `Function::getArg(i)`: the argument value, when the function type has a
parameter `i`. -/
def LFunction.getArg (f : LFunction) (i : Nat) : Option Value :=
  match f.fty with
  | .func _ params => params[i]?.map (fun t => Value.argument i t)
  | _ => none

/-- A global variable of the module. -/
structure LGlobal where
  name : String
  valueTy : LType
  deriving DecidableEq

/-- An `IRBuilder`: insertion block, the instruction before which it inserts (`none` is the
end of the block) and its current debug location. -/
structure IRBuilder where
  block : Option Nat := none
  before : Option Nat := none
  debugLoc : Option DILocation := none
  deriving DecidableEq

/-- Debug metadata of a document (`DebugMetadata`): file and compile unit. -/
structure DebugMetadata where
  fileMetadata : Option (String × String) := none
  diCompileUnit : Option String := none
  deriving DecidableEq

/-- A pending phi (`PhiPair`): the source phi node and the id and type of the target phi. -/
structure PhiPair where
  irPhiNode : GenTree
  llvmPhiNode : Value
  deriving DecidableEq


/-! ## What the JIT front end and the EE supply -/

/-- Everything the code generator reads but never writes: the build flavour, the JIT's type
tables, the type mapping and layout queries of the rest of the `Llvm` class, the EE
interface, the method's options and signature, and the flow graph with its dominator
pre-order.  These are declared outside `llvmcodegen.cpp` and are parameters here. -/
structure Compiler where
  debug : Bool := true
  genActualType : var_types → var_types
  varTypeIsSmall : var_types → Bool
  varTypeIsSigned : var_types → Bool
  varTypeIsIntegralOrI : var_types → Bool
  genTypeSize : var_types → Nat
  TARGET_POINTER_SIZE : Nat := 4
  TYP_I_IMPL : var_types := .TYP_INT
  getLlvmTypeForVarType : var_types → LType
  getLlvmTypeForLclVar : LclVarDsc → LType
  getLlvmTypeForStruct : ClassLayout → LType
  getLlvmTypeForCorInfoType : CorInfoType → Nat → LType
  canStoreLocalOnLlvmStack : LclVarDsc → Bool
  getStructDesc : Nat → StructDesc
  getElementContainingOffset : LType → Nat → Nat
  getStructElementType : LType → Nat → LType
  mangledMethodName : String
  GetMangledSymbolName : Nat → String
  GetMangledMethodName : Nat → String
  GetCompilerHelpersMethodHandle : String → String → Nat
  eeFindHelper : CorInfoHelpFunc → Nat
  eeGetHelperNum : Nat → CorInfoHelpFunc
  compGetHelperFtn : CorInfoHelpFunc → Nat
  documentFileName : Option String := none
  GetOffsetLineNumber : Nat → Nat
  FirstSequencePointLineNumber : Nat := 0
  methodName : String := ""
  IsReversePInvoke : Bool := false
  compDbgInfo : Bool := false
  compInitMem : Bool := false
  OptimizationEnabled : Bool := false
  hasExplicitThis : Bool := false
  hasTypeArg : Bool := false
  retType : CorInfoType := .CORINFO_TYPE_VOID
  retTypeClass : Nat := 0
  llvmArgCount : Nat := 0
  retAddressLclNum : Option Nat := none
  shadowStackLocalsSize : Nat := 0
  fgFirstBB : Nat := 1
  fgSsaDomTreePreOrder : List BasicBlock := []
  fgVarNeedsExplicitZeroInit : Nat → Bool
  fgSsaPassesCompleted : Nat := 1
  gcIsWriteBarrierCandidate : GenTree → WriteBarrierForm
  compHndBBtabCount : Nat := 0

/-! ## State of the code generator -/

/-- The mutable state: the target module (functions, globals, blocks, incoming edges of phi
instructions, relocations), the two builders and the fields of the `Llvm` object.  The local
table is here because `initializeLocals` finalises `lvMustInit`. -/
structure Llvm where
  functions : List LFunction := []
  globals : List LGlobal := []
  blocks : List LBasicBlock := []
  phiIncoming : List (Nat × Value × Nat) := []
  nextValueId : Nat := 0
  nextBlockId : Nat := 0
  relocs : List Nat := []
  builder : IRBuilder := {}
  prologBuilder : IRBuilder := {}
  function : Option LFunction := none
  debugFunction : Option String := none
  debugMetadata : DebugMetadata := {}
  debugMetadataMap : List (String × DebugMetadata) := []
  diBuilder : Bool := false
  finalizedSubprograms : List String := []
  functionSubprograms : List (String × String) := []
  currentOffset : Nat := 0
  currentOffsetDiLocation : Option DILocation := none
  m_allocas : List (Option Value) := []
  sdsuMap : List (Nat × Value) := []
  localsMap : List ((Nat × Nat) × Value) := []
  phiPairs : List PhiPair := []
  blkToLlvmBlkVectorMap : List (Nat × Nat) := []
  currentBlock : Option BasicBlock := none
  doNothingFunction : Option LFunction := none
  lvaTable : List LclVarDsc := []
  sdsuWrites : List Nat := []
  emitted : List Instruction := []
  deriving DecidableEq

/-- The two ways a lowering step stops without a result. -/
inductive Failure where
  | unsupportedShape
  | assertion
  deriving DecidableEq, Repr

/-- Result of a lowering step: a value and the new state, or a failure and the state at the
point of failure. -/
inductive Outcome (α : Type) where
  | ok (a : α) (s : Llvm)
  | failed (f : Failure) (s : Llvm)
  deriving DecidableEq

/-- The state an outcome carries. -/
def Outcome.state {α : Type} : Outcome α → Llvm
  | .ok _ s => s
  | .failed _ s => s

/-- Whether the step returned. -/
def Outcome.isOk {α : Type} : Outcome α → Bool
  | .ok _ _ => true
  | .failed _ _ => false

/-- Lowering steps: state-passing computations that may fail. -/
def M (α : Type) : Type := Llvm → Outcome α

/-- Sequencing of lowering steps: a failure stops the sequence. -/
def M.bind {α β : Type} (m : M α) (f : α → M β) : M β := fun s =>
  match m s with
  | .ok a s1 => f a s1
  | .failed k s1 => .failed k s1

instance : Monad M where
  pure a := fun s => .ok a s
  bind := M.bind

/-- Read the state. -/
def getState : M Llvm := fun s => .ok s s

/-- Update the state. -/
def modifyState (f : Llvm → Llvm) : M Unit := fun s => .ok () (f s)

/-- The body of `_function` is dropped (`Function::deleteBody`). -/
def Llvm.deleteBody (s : Llvm) : Llvm :=
  match s.function with
  | some f => { s with blocks := s.blocks.filter (fun b => b.parent != f.name) }
  | none => s

/-- Modelled from the spec: `Llvm::failFunctionCompilation` (declared `[[noreturn]]`, defined
outside this file).  It aborts lowering immediately, discards any partially built function
body and surfaces the per-method compilation failure. -/
def failFunctionCompilation {α : Type} : M α := fun s =>
  .failed .unsupportedShape s.deleteBody

/-- The JIT's `assert`: checked in a DEBUG build, absent otherwise. -/
def jitAssert (c : Compiler) (cond : Bool) : M Unit := fun s =>
  if c.debug && !cond then .failed .assertion s else .ok () s

/-- The JIT's `unreached()`, and every access that has no defined result. -/
def unreached {α : Type} : M α := fun s => .failed .assertion s

/-- The value of an optional reference that the source dereferences. -/
def deref {α : Type} : Option α → M α
  | some a => pure a
  | none => unreached

/-- Run a step for every element of a list, in order. -/
def forEach {α : Type} (f : α → M Unit) : List α → M Unit
  | [] => pure ()
  | x :: xs => do f x; forEach f xs

/-- Run a step for every element of a list, in order, collecting the results. -/
def mapEach {α β : Type} (f : α → M β) : List α → M (List β)
  | [] => pure []
  | x :: xs => do
    let y ← f x
    let ys ← mapEach f xs
    pure (y :: ys)

/-! ### Hash tables (`JitHashTable`) -/

/-- Lookup in a table (`Lookup`). -/
def tableLookup {κ ν : Type} [DecidableEq κ] (m : List (κ × ν)) (k : κ) : Option ν :=
  match m with
  | [] => none
  | (k1, v) :: rest => if k1 = k then some v else tableLookup rest k

/-- The table after `Set(k, v)`: the entry of `k` holds `v`, other entries are untouched. -/
def tableSet {κ ν : Type} [DecidableEq κ] (m : List (κ × ν)) (k : κ) (v : ν) : List (κ × ν) :=
  match m with
  | [] => [(k, v)]
  | (k1, v1) :: rest => if k1 = k then (k, v) :: rest else (k1, v1) :: tableSet rest k v

/-- Modelled from the spec: `JitHashTable::operator[]` of jithashtable.h.  The key must be
present (single materialisation per key is an assert-guarded invariant). -/
def tableGet {κ ν : Type} [DecidableEq κ] (m : List (κ × ν)) (k : κ) : M ν :=
  deref (tableLookup m k)

/-- Modelled from the spec: `JitHashTable::Set` of jithashtable.h with its default kind: the
key must not be present yet (single materialisation per key is an assert-guarded invariant);
without the check the entry is overwritten. -/
def tableSetChecked {κ ν : Type} [DecidableEq κ] (c : Compiler) (m : List (κ × ν)) (k : κ)
    (v : ν) : M (List (κ × ν)) := do
  jitAssert c (tableLookup m k).isNone
  pure (tableSet m k v)

/-! ### The builders -/

/-- Place an instruction in a list before the instruction with id `before`, or at the end. -/
def insertBefore (i : Instruction) (before : Option Nat) : List Instruction → List Instruction
  | [] => [i]
  | x :: xs => if before = some x.id then i :: x :: xs else x :: insertBefore i before xs

/-- Place an instruction at a builder's insertion point.  A builder without an insertion
block creates the instruction without placing it. -/
def insertAt (b : IRBuilder) (i : Instruction) (bs : List LBasicBlock) : List LBasicBlock :=
  match b.block with
  | none => bs
  | some blk =>
    bs.map (fun x => if x.id = blk then { x with insts := insertBefore i b.before x.insts } else x)

/-- The instruction a builder creates from a description: fresh id, the builder's debug
location. -/
def Llvm.newInst (s : Llvm) (b : IRBuilder) (i : Instruction) : Instruction :=
  { i with id := s.nextValueId, dbg := b.debugLoc }

/-- The state after a builder created and placed an instruction. -/
def Llvm.insert (s : Llvm) (b : IRBuilder) (i : Instruction) : Llvm :=
  { s with blocks := insertAt b (s.newInst b i) s.blocks, nextValueId := s.nextValueId + 1,
           emitted := s.emitted ++ [s.newInst b i] }

/-- A `Create*` call on a given builder: builds the instruction, places it at the builder's
insertion point and returns its value. -/
def createWith (b : IRBuilder) (i : Instruction) : M Value := fun s =>
  .ok (.inst s.nextValueId i.ty) (s.insert b i)

/-- A `Create*` call on `_builder`. -/
def create (i : Instruction) : M Value := fun s => createWith s.builder i s

/-- A `Create*` call on `_prologBuilder`. -/
def createProlog (i : Instruction) : M Value := fun s => createWith s.prologBuilder i s

/-- The block with a given id. -/
def Llvm.getBlock (s : Llvm) (id : Nat) : Option LBasicBlock :=
  s.blocks.find? (fun b => b.id = id)

/-- The target `BasicBlock::Create(context, name, function)`. -/
def createBasicBlock (name : String) (parent : String) : M Nat := fun s =>
  .ok s.nextBlockId
    { s with blocks := s.blocks ++ [{ id := s.nextBlockId, name := name, parent := parent }],
             nextBlockId := s.nextBlockId + 1 }

/-- The target `_builder.SetInsertPoint(block)`: insert at the end of the block. -/
def builderSetInsertPoint (blk : Nat) : M Unit :=
  modifyState (fun s => { s with builder := { s.builder with block := some blk, before := none } })

/-- The target `Module::getFunction(name)`. -/
def Llvm.getFunction (s : Llvm) (name : String) : Option LFunction :=
  s.functions.find? (fun f => f.name = name)

/-- The target `Function::Create(type, linkage, 0, name, module)`. -/
def createFunction (fty : LType) (linkage : Linkage) (name : String) : M LFunction := fun s =>
  let f : LFunction := { name := name, fty := fty, linkage := linkage }
  .ok f { s with functions := s.functions ++ [f] }

/-- The descriptor of a local (`lvaGetDesc`). -/
def lvaGetDesc (lclNum : Nat) : M LclVarDsc := fun s =>
  match s.lvaTable[lclNum]? with
  | some d => .ok d s
  | none => .failed .assertion s

/-! ## Value materialisation and normalisation (lines 291 to 408) -/

/-- The source `Llvm::getGenTreeValue`: lines 291 to 294. -/
def getGenTreeValue (op : GenTree) : M Value := fun s =>
  tableGet s.sdsuMap op.id s

/-- The source `Llvm::mapGenTreeToValue`: lines 405 to 408. -/
def mapGenTreeToValue (c : Compiler) (node : GenTree) (nodeValue : Value) : M Unit := fun s =>
  match tableSetChecked c s.sdsuMap node.id nodeValue s with
  | .ok m s1 => .ok () { s1 with sdsuMap := m, sdsuWrites := s1.sdsuWrites ++ [node.id] }
  | .failed k s1 => .failed k s1

/-- Whether the opcode is one of the six relational operators. -/
def genTreeOps.isRelop : genTreeOps → Bool
  | .GT_EQ | .GT_NE | .GT_LT | .GT_LE | .GT_GE | .GT_GT => true
  | _ => false

/-- The `switch` of lines 361 to 388 of `consumeValue`: the true type of the producing node. -/
def consumeValueTrueNodeType (c : Compiler) (node : GenTree) (nodeValue : Value) : M var_types :=
  match node.OperGet with
  | .GT_CALL => pure node.d.gtReturnType
  | .GT_LCL_VAR => do
    let varDsc ← lvaGetDesc node.d.lclNum
    pure varDsc.lvType
  | .GT_EQ | .GT_NE | .GT_LT | .GT_LE | .GT_GE | .GT_GT => do
    jitAssert c (nodeValue.getType == getInt1Ty)
    pure .TYP_UBYTE
  | .GT_CAST => pure node.d.gtCastType
  | _ => pure node.TypeGet

/-- Lines 334 to 402 of `consumeValue`: convert the raw value to the target type. -/
def consumeValueTo (c : Compiler) (node : GenTree) (nodeValue : Value) (targetLlvmType : LType) :
    M Value :=
  if nodeValue.getType ≠ targetLlvmType then
    if nodeValue.getType = getInt32Ty ∧ targetLlvmType.isPointerTy then
      create { opcode := .IntToPtr, ty := targetLlvmType, operands := [nodeValue] }
    else if nodeValue.getType.isPointerTy ∧ targetLlvmType = getInt32Ty then
      create { opcode := .PtrToInt, ty := getInt32Ty, operands := [nodeValue] }
    else if nodeValue.getType.isPointerTy ∧ targetLlvmType.isPointerTy then
      create { opcode := .BitCast, ty := targetLlvmType, operands := [nodeValue] }
    else do
      jitAssert c (targetLlvmType.isIntegerTy && nodeValue.getType.isIntegerTy &&
        decide (nodeValue.getType.getPrimitiveSizeInBits ≤ 32) &&
        decide (targetLlvmType.getPrimitiveSizeInBits ≤ 32))
      if nodeValue.getType.getPrimitiveSizeInBits < targetLlvmType.getPrimitiveSizeInBits then do
        let trueNodeType ← consumeValueTrueNodeType c node nodeValue
        jitAssert c (c.varTypeIsSmall trueNodeType)
        if c.varTypeIsSigned trueNodeType then
          create { opcode := .SExt, ty := targetLlvmType, operands := [nodeValue] }
        else
          create { opcode := .ZExt, ty := targetLlvmType, operands := [nodeValue] }
      else
        create { opcode := .Trunc, ty := targetLlvmType, operands := [nodeValue] }
  else
    pure nodeValue

/-- The source `Llvm::consumeValue`: lines 319 to 403.  `targetLlvmType = none` is the
omitted (null) target type. -/
def consumeValue (c : Compiler) (node : GenTree) (targetLlvmType : Option LType) : M Value := do
  let nodeValue ← getGenTreeValue node
  match targetLlvmType with
  | none =>
    if !nodeValue.getType.isIntegerTy then
      pure nodeValue
    else
      consumeValueTo c node nodeValue (c.getLlvmTypeForVarType (c.genActualType node.TypeGet))
  | some t => consumeValueTo c node nodeValue t

/-! ## Helpers of the code generator (lines 1411 to 1785) -/

/-- The return type of a function type. -/
def LType.returnType : LType → LType
  | .func r _ => r
  | _ => .void

/-- The parameter types of a function type. -/
def LType.paramTypes : LType → List LType
  | .func _ ps => ps
  | _ => []

/-- The target `_builder.getInt32`. -/
def getInt32 (v : Int) : Value := .constInt 32 v

/-- The target `_builder.getInt8`. -/
def getInt8 (v : Int) : Value := .constInt 8 v

/-- The target `_builder.getInt64`. -/
def getInt64 (v : Int) : Value := .constInt 64 v

/-- The target `CreateLoad(ptr)`: the loaded type is the pointee type. -/
def createLoad (ptr : Value) : M Value :=
  match ptr.getType with
  | .ptr t => create { opcode := .Load, ty := t, operands := [ptr] }
  | _ => unreached

/-- The target `CreateLoad(type, ptr)`. -/
def createLoadTyped (ty : LType) (ptr : Value) : M Value :=
  create { opcode := .Load, ty := ty, operands := [ptr] }

/-- The target `CreateStore(value, ptr)`. -/
def createStore (v ptr : Value) : M Value :=
  create { opcode := .Store, ty := .void, operands := [v, ptr] }

/-- The target `CreateCall(callee, args)` on `_builder`. -/
def createCall (callee : Value) (fty : LType) (args : List Value) : M Value :=
  create { opcode := .Call, ty := fty.returnType, operands := callee :: args }

/-- The target `CreateCall` for a module function. -/
def createCallTo (f : LFunction) (args : List Value) : M Value :=
  createCall (.function f.name f.fty) f.fty args

/-- The import `AddCodeReloc`: the handle joins the relocation list. -/
def AddCodeReloc (handle : Nat) : M Unit :=
  modifyState (fun s => { s with relocs := s.relocs ++ [handle] })

/-- The argument `i` of `_function`. -/
def functionGetArg (i : Nat) : M Value := fun s =>
  match s.function with
  | some f => deref (f.getArg i) s
  | none => unreached s

/-- The source `Llvm::getCast`: lines 1631 to 1669.  The instruction is built but not placed;
`none` is the null result for equal types. -/
def getCast (source : Value) (targetType : LType) : M (Option Instruction) :=
  if source.getType = targetType then
    pure none
  else if targetType.isPointerTy then
    match source.getType with
    | .ptr _ =>
      pure (some { opcode := .BitCast, ty := targetType, operands := [source],
                   name := "CastPtrToPtr" })
    | .int _ =>
      pure (some { opcode := .IntToPtr, ty := targetType, operands := [source],
                   name := "CastPtrToInt" })
    | _ => failFunctionCompilation
  else if targetType.isIntegerTy then
    match source.getType with
    | .ptr _ =>
      pure (some { opcode := .PtrToInt, ty := targetType, operands := [source],
                   name := "CastPtrToInt" })
    | .int _ =>
      if source.getType.getPrimitiveSizeInBits > targetType.getPrimitiveSizeInBits then
        pure (some { opcode := .Trunc, ty := targetType, operands := [source],
                     name := "TruncInt" })
      else
        failFunctionCompilation
    | _ => failFunctionCompilation
  else
    failFunctionCompilation

/-- The source `Llvm::castIfNecessary` with its default builder: lines 1671 to 1683. -/
def castIfNecessary (source : Value) (targetType : LType) : M Value := do
  let castInst ← getCast source targetType
  match castInst with
  | none => pure source
  | some i => create i

/-- The source `Llvm::gepOrAddr`: lines 1685 to 1693. -/
def gepOrAddr (addr : Value) (offset : Nat) : M Value :=
  if offset = 0 then
    pure addr
  else
    create { opcode := .GEP, ty := addr.getType, operands := [addr, getInt32 offset] }

/-- The source `Llvm::getTotalLocalOffset`: lines 1781 to 1785. -/
def getTotalLocalOffset (c : Compiler) : M Nat := do
  jitAssert c (c.shadowStackLocalsSize % c.TARGET_POINTER_SIZE == 0)
  pure c.shadowStackLocalsSize

/-- The source `Llvm::getShadowStackForCallee`: lines 1696 to 1701. -/
def getShadowStackForCallee (c : Compiler) : M Value := do
  let offset ← getTotalLocalOffset c
  let arg0 ← functionGetArg 0
  gepOrAddr arg0 offset

/-- The name given to the target block of block `bbNum`. -/
def llvmBlockName (bbNum : Nat) : String :=
  if bbNum ≥ 10 then "BB" ++ toString bbNum else "BB0" ++ toString bbNum

/-- The source `Llvm::getLLVMBasicBlockForBlock`: lines 1761 to 1773.  The argument is the
block pointer, `none` for a null one. -/
def getLLVMBasicBlockForBlock (c : Compiler) (block : Option Nat) : M Nat := do
  let s ← getState
  let bbNum ← deref block
  match tableLookup s.blkToLlvmBlkVectorMap bbNum with
  | some llvmBlock => pure llvmBlock
  | none => do
    let parent := match s.function with
      | some f => f.name
      | none => ""
    let llvmBlock ← createBasicBlock (llvmBlockName bbNum) parent
    let s1 ← getState
    let m ← tableSetChecked c s1.blkToLlvmBlkVectorMap bbNum llvmBlock
    modifyState (fun s2 => { s2 with blkToLlvmBlkVectorMap := m })
    pure llvmBlock

/-- The source `Llvm::isLlvmFrameLocal`: lines 1775 to 1779. -/
def isLlvmFrameLocal (c : Compiler) (varDsc : LclVarDsc) : M Bool := do
  jitAssert c (c.canStoreLocalOnLlvmStack varDsc && decide (c.fgSsaPassesCompleted ≥ 1))
  pure (!varDsc.lvInSsa && decide (varDsc.lvRefCnt > 0))

/-- The target `Module::getGlobalVariable(name)`. -/
def Llvm.getGlobalVariable (s : Llvm) (name : String) : Option LGlobal :=
  s.globals.find? (fun g => g.name = name)

/-- The source `Llvm::getOrCreateExternalSymbol`: lines 1555 to 1568.  `symbolType = none`
is the omitted (null) type. -/
def getOrCreateExternalSymbol (symbolName : String) (symbolType : Option LType) : M Value := do
  let symbolType := symbolType.getD getInt32PtrTy
  let s ← getState
  match s.getGlobalVariable symbolName with
  | some g => pure (.globalVariable g.name g.valueTy)
  | none => do
    modifyState (fun s1 =>
      { s1 with globals := s1.globals ++ [{ name := symbolName, valueTy := symbolType }] })
    pure (.globalVariable symbolName symbolType)

/-- The lookup-or-declare step shared by the `getOrCreate*` functions: the module's function
of that name, or a new one of the given type and linkage. -/
def getOrCreateFunction (name : String) (fty : LType) (linkage : Linkage) : M LFunction := do
  let s ← getState
  match s.getFunction name with
  | some f => pure f
  | none => createFunction fty linkage name

/-- The source `Llvm::getOrCreateRhpAssignRef`: lines 1570 to 1582. -/
def getOrCreateRhpAssignRef : M LFunction :=
  getOrCreateFunction "RhpAssignRef" (.func .void [getInt8PtrTy, getInt8PtrTy]) .ExternalLinkage

/-- The source `Llvm::getOrCreateRhpCheckedAssignRef`: lines 1584 to 1596. -/
def getOrCreateRhpCheckedAssignRef : M LFunction :=
  getOrCreateFunction "RhpCheckedAssignRef" (.func .void [getInt8PtrTy, getInt8PtrTy])
    .ExternalLinkage

/-- The source `Llvm::buildThrowException`: lines 1432 to 1451. -/
def buildThrowException (c : Compiler) (builder : IRBuilder) (helperClass : String)
    (helperMethodName : String) (shadowStack : Value) : M Unit := do
  let methodHandle := c.GetCompilerHelpersMethodHandle helperClass helperMethodName
  let mangledName := c.GetMangledMethodName methodHandle
  let s ← getState
  let llvmFunc ← match s.getFunction mangledName with
    | some f => pure f
    | none => do
      let f ← createFunction (.func .void [getInt8PtrTy]) .ExternalLinkage mangledName
      AddCodeReloc methodHandle
      pure f
  let _ ← createWith builder
    { opcode := .Call, ty := llvmFunc.fty.returnType,
      operands := [.function llvmFunc.name llvmFunc.fty, shadowStack] }
  let _ ← createWith builder { opcode := .Unreachable, ty := .void }
  pure ()

/-- The source `Llvm::getOrCreateThrowIfNullFunction`: lines 1598 to 1629. -/
def getOrCreateThrowIfNullFunction (c : Compiler) : M LFunction := do
  let funcName := "nativeaot.throwifnull"
  let s ← getState
  match s.getFunction funcName with
  | some f => pure f
  | none => do
    let llvmFunc ← createFunction (.func .void [getInt8PtrTy, getInt8PtrTy]) .InternalLinkage
      funcName
    let block ← createBasicBlock "Block" funcName
    let throwBlock ← createBasicBlock "ThrowBlock" funcName
    let retBlock ← createBasicBlock "RetBlock" funcName
    let arg1 ← deref (llvmFunc.getArg 1)
    let cmp ← createWith { block := some block }
      { opcode := .Cmp .ICMP_EQ, ty := getInt1Ty,
        operands := [arg1, .nullValue getInt8PtrTy], name := "nullCheck" }
    let _ ← createWith { block := some block }
      { opcode := .CondBr, ty := .void, operands := [cmp], targets := [throwBlock, retBlock] }
    let arg0 ← deref (llvmFunc.getArg 0)
    buildThrowException c { block := some throwBlock } "ThrowHelpers"
      "ThrowNullReferenceException" arg0
    let _ ← createWith { block := some retBlock } { opcode := .RetVoid, ty := .void }
    pure llvmFunc

/-- The source `Llvm::buildLlvmCallOrInvoke`: lines 1453 to 1457. -/
def buildLlvmCallOrInvoke (callee : LFunction) (args : List Value) : M Unit := do
  let _ ← createCallTo callee args
  pure ()

/-- The source `Llvm::emitDoNothingCall`: lines 1411 to 1418. -/
def emitDoNothingCall : M Unit := do
  let s ← getState
  let f ← match s.doNothingFunction with
    | some f => pure f
    | none => do
      let f ← createFunction (.func .void []) .ExternalLinkage "llvm.donothing"
      modifyState (fun s1 => { s1 with doNothingFunction := some f })
      pure f
  let _ ← createCallTo f []
  pure ()

/-- The source `Llvm::emitNullCheckForIndir`: lines 1420 to 1430. -/
def emitNullCheckForIndir (c : Compiler) (indir : GenTree) (addrValue : Value) : M Unit :=
  if indir.d.GTF_IND_NONFAULTING = false then do
    let throwIfNullFunc ← getOrCreateThrowIfNullFunction c
    let addrValue ← castIfNecessary addrValue getInt8PtrTy
    let shadowStack ← getShadowStackForCallee c
    buildLlvmCallOrInvoke throwIfNullFunc [shadowStack, addrValue]
  else
    pure ()

/-- The empty argument vector of `getFunctionType`, `_llvmArgCount` null entries. -/
def emptyArgVec (n : Nat) : List (Option LType) := List.replicate n none

/-- One iteration of the loop of `getFunctionType`: lines 1470 to 1475. -/
def getFunctionTypeStep (c : Compiler) (argVec : List (Option LType)) (varDsc : LclVarDsc) :
    M (List (Option LType)) :=
  if varDsc.lvIsParam then
    match varDsc.lvLlvmArgNum with
    | some n =>
      if n < argVec.length then pure (argVec.set n (some (c.getLlvmTypeForLclVar varDsc)))
      else unreached
    | none => unreached
  else
    pure argVec

/-- The loop of `getFunctionType` over the local table. -/
def getFunctionTypeLoop (c : Compiler) (argVec : List (Option LType)) :
    List LclVarDsc → M (List (Option LType))
  | [] => pure argVec
  | varDsc :: rest => do
    let argVec1 ← getFunctionTypeStep c argVec varDsc
    getFunctionTypeLoop c argVec1 rest

/-- The types of a filled argument vector; a remaining null entry has no type. -/
def argVecTypes : List (Option LType) → Option (List LType)
  | [] => some []
  | some t :: rest => (argVecTypes rest).map (fun ts => t :: ts)
  | none :: _ => none

/-- The source `Llvm::getFunctionType`: lines 1459 to 1483. -/
def getFunctionType (c : Compiler) : M LType := do
  if c.hasExplicitThis || c.hasTypeArg then
    failFunctionCompilation
  let s ← getState
  let argVec ← getFunctionTypeLoop c (emptyArgVec c.llvmArgCount) s.lvaTable
  let retLlvmType :=
    match c.retAddressLclNum with
    | none => c.getLlvmTypeForCorInfoType c.retType c.retTypeClass
    | some _ => LType.void
  let params ← deref (argVecTypes argVec)
  pure (.func retLlvmType params)

/-- The source `Llvm::createFunctionTypeForCall`: lines 1499 to 1512. -/
def createFunctionTypeForCall (c : Compiler) (call : GenTree) : LType :=
  .func (c.getLlvmTypeForCorInfoType call.d.gtCorInfoType call.d.gtClsHnd)
    (call.Uses.map (fun u => c.getLlvmTypeForCorInfoType u.2.d.gtCorInfoType u.2.d.gtClsHnd))

/-- The source `Llvm::getOrCreateLlvmFunction`: lines 1485 to 1497. -/
def getOrCreateLlvmFunction (c : Compiler) (symbolName : String) (call : GenTree) :
    M LFunction := do
  let s ← getState
  match s.getFunction symbolName with
  | some f => pure f
  | none => createFunction (createFunctionTypeForCall c call) .ExternalLinkage symbolName

/-- The source `Llvm::buildHelperLlvmFunctionType`: lines 1514 to 1531. -/
def buildHelperLlvmFunctionType (c : Compiler) (call : GenTree) (withShadowStack : Bool) :
    LType :=
  .func (c.getLlvmTypeForVarType call.TypeGet)
    ((if withShadowStack then [getInt8PtrTy] else []) ++
      call.Uses.map (fun u => c.getLlvmTypeForVarType u.2.TypeGet))

/-- The helpers that `helperRequiresShadowStack` lists. -/
def shadowStackHelpers : List CorInfoHelpFunc :=
  [.CORINFO_HELP_TYPEHANDLE_TO_RUNTIMETYPEHANDLE, .CORINFO_HELP_GVMLOOKUP_FOR_SLOT,
   .CORINFO_HELP_DBL2INT_OVF, .CORINFO_HELP_DBL2LNG_OVF, .CORINFO_HELP_DBL2UINT_OVF,
   .CORINFO_HELP_DBL2ULNG_OVF, .CORINFO_HELP_LMOD, .CORINFO_HELP_LDIV,
   .CORINFO_HELP_LMUL_OVF, .CORINFO_HELP_ULMUL_OVF, .CORINFO_HELP_ULDIV,
   .CORINFO_HELP_ULMOD, .CORINFO_HELP_OVERFLOW, .CORINFO_HELP_TYPEHANDLE_TO_RUNTIMETYPE,
   .CORINFO_HELP_THROW_PLATFORM_NOT_SUPPORTED]

/-- The source `Llvm::helperRequiresShadowStack`: lines 1533 to 1553. -/
def helperRequiresShadowStack (c : Compiler) (corinfoMethodHnd : Nat) : Bool :=
  shadowStackHelpers.any (fun h => corinfoMethodHnd == c.eeFindHelper h)

/-! ## Opcode handlers (lines 544 to 1409) -/

/-- The source `Llvm::buildLocalVar`: lines 544 to 567. -/
def buildLocalVar (c : Compiler) (lclVar : GenTree) : M Unit := do
  let lclNum := lclVar.d.lclNum
  let ssaNum := lclVar.d.ssaNum
  let varDsc ← lvaGetDesc lclNum
  let s ← getState
  let llvmRef ←
    if (← isLlvmFrameLocal c varDsc) then do
      let slot ← deref (s.m_allocas[lclNum]?)
      let addr ← deref slot
      createLoad addr
    else
      tableGet s.localsMap (lclNum, ssaNum)
  let llvmRef ←
    if varDsc.lvType = .TYP_LONG ∧ lclVar.TypeGet = .TYP_INT then
      create { opcode := .Trunc, ty := getInt32Ty, operands := [llvmRef] }
    else
      pure llvmRef
  mapGenTreeToValue c lclVar llvmRef

/-- The source `Llvm::buildStoreLocalVar`: lines 569 to 594. -/
def buildStoreLocalVar (c : Compiler) (lclVar : GenTree) : M Unit := do
  let lclNum := lclVar.d.lclNum
  let varDsc ← lvaGetDesc lclNum
  let destLlvmType := c.getLlvmTypeForLclVar varDsc
  let op1 ← deref lclVar.gtOp1
  let localValue ←
    if lclVar.TypeGet = .TYP_STRUCT ∧ op1.IsIntegralConst 0 = true then
      pure (Value.nullValue destLlvmType)
    else
      consumeValue c op1 (some destLlvmType)
  if (← isLlvmFrameLocal c varDsc) then do
    let s ← getState
    let slot ← deref (s.m_allocas[lclNum]?)
    let addr ← deref slot
    let _ ← createStore localValue addr
    pure ()
  else do
    let s ← getState
    let m ← tableSetChecked c s.localsMap (lclNum, lclVar.d.ssaNum) localValue
    modifyState (fun s1 => { s1 with localsMap := m })

/-- The source `Llvm::buildEmptyPhi`: lines 597 to 606. -/
def buildEmptyPhi (c : Compiler) (phi : GenTree) : M Unit := do
  let firstUse ← deref phi.Uses.head?
  let varDsc ← lvaGetDesc firstUse.2.d.lclNum
  let lclLlvmType := c.getLlvmTypeForLclVar varDsc
  let llvmPhiNode ← create { opcode := .PHI, ty := lclLlvmType }
  modifyState (fun s =>
    { s with phiPairs := s.phiPairs ++ [{ irPhiNode := phi, llvmPhiNode := llvmPhiNode }] })
  mapGenTreeToValue c phi llvmPhiNode

/-- The source `Llvm::buildLocalField`: lines 608 to 624. -/
def buildLocalField (c : Compiler) (lclFld : GenTree) : M Unit := do
  jitAssert c (lclFld.TypeGet != .TYP_STRUCT)
  let lclNum := lclFld.d.lclNum
  let varDsc ← lvaGetDesc lclNum
  let isFrameLocal ← isLlvmFrameLocal c varDsc
  jitAssert c isFrameLocal
  let s ← getState
  let slot ← deref (s.m_allocas[lclNum]?)
  let structAddrValue ← deref slot
  let structAddrInt8Ptr ← castIfNecessary structAddrValue getInt8PtrTy
  let fieldAddressValue ← gepOrAddr structAddrInt8Ptr lclFld.d.lclOffs
  let fieldAddressTypedValue ←
    castIfNecessary fieldAddressValue (c.getLlvmTypeForVarType lclFld.TypeGet).getPointerTo
  let loadValue ← createLoad fieldAddressTypedValue
  mapGenTreeToValue c lclFld loadValue

/-- The source `Llvm::buildLocalVarAddr`: lines 626 to 638. -/
def buildLocalVarAddr (c : Compiler) (lclAddr : GenTree) : M Unit := do
  let lclNum := lclAddr.d.lclNum
  let s ← getState
  let slot ← deref (s.m_allocas[lclNum]?)
  let alloca ← deref slot
  if lclAddr.isLclField then do
    let bytePtr ← castIfNecessary alloca getInt8PtrTy
    let addr ← gepOrAddr bytePtr lclAddr.d.lclOffs
    mapGenTreeToValue c lclAddr addr
  else
    mapGenTreeToValue c lclAddr alloca

/-- The source `Llvm::buildAdd`: lines 640 to 664. -/
def buildAdd (c : Compiler) (node : GenTree) : M Unit := do
  let op1 ← deref node.gtOp1
  let op1Value ← consumeValue c op1 none
  let op2 ← deref node.gtOp2
  let op2Value ← consumeValue c op2 none
  let op1Type := op1Value.getType
  let op2Type := op2Value.getType
  let addValue ←
    if op1Type.isPointerTy ∧ op2Type.isIntegerTy then do
      let base ← castIfNecessary op1Value getInt8PtrTy
      create { opcode := .GEP, ty := base.getType, operands := [base, op2Value] }
    else if op1Type.isIntegerTy ∧ op1Type = op2Type then
      create { opcode := .Add, ty := op1Type, operands := [op1Value, op2Value] }
    else
      failFunctionCompilation
  mapGenTreeToValue c node addValue

/-- The source `Llvm::buildDiv`: lines 666 to 686. -/
def buildDiv (c : Compiler) (node : GenTree) : M Unit := do
  let targetType := c.getLlvmTypeForVarType node.TypeGet
  let op1 ← deref node.gtOp1
  let dividendValue ← consumeValue c op1 (some targetType)
  let op2 ← deref node.gtOp2
  let divisorValue ← consumeValue c op2 (some targetType)
  let resultValue ←
    match node.TypeGet with
    | .TYP_FLOAT | .TYP_DOUBLE =>
      create { opcode := .FDiv, ty := dividendValue.getType,
               operands := [dividendValue, divisorValue] }
    | _ =>
      create { opcode := .SDiv, ty := dividendValue.getType,
               operands := [dividendValue, divisorValue] }
  mapGenTreeToValue c node resultValue

/-- The source `Llvm::buildCast`: lines 688 to 766. -/
def buildCast (c : Compiler) (cast : GenTree) : M Unit := do
  let castOp ← deref cast.gtOp1
  let castFromType := c.genActualType castOp.TypeGet
  let castToType := cast.d.gtCastType
  let castFromValue ← consumeValue c castOp (some (c.getLlvmTypeForVarType castFromType))
  let castToLlvmType := c.getLlvmTypeForVarType castToType
  let castValue ←
    match castFromType with
    | .TYP_INT | .TYP_LONG =>
      match castToType with
      | .TYP_BOOL | .TYP_BYTE | .TYP_UBYTE | .TYP_SHORT | .TYP_USHORT | .TYP_INT | .TYP_UINT =>
        create { opcode := .Trunc, ty := castToLlvmType, operands := [castFromValue] }
      | .TYP_LONG =>
        if cast.d.GTF_UNSIGNED then
          create { opcode := .ZExt, ty := castToLlvmType, operands := [castFromValue] }
        else
          create { opcode := .SExt, ty := castToLlvmType, operands := [castFromValue] }
      | .TYP_FLOAT | .TYP_DOUBLE =>
        if cast.d.GTF_UNSIGNED then
          create { opcode := .UIToFP, ty := castToLlvmType, operands := [castFromValue] }
        else
          create { opcode := .SIToFP, ty := castToLlvmType, operands := [castFromValue] }
      | _ => failFunctionCompilation
    | .TYP_FLOAT | .TYP_DOUBLE =>
      match castToType with
      | .TYP_FLOAT | .TYP_DOUBLE =>
        create { opcode := .FPCast, ty := castToLlvmType, operands := [castFromValue] }
      | .TYP_BYTE | .TYP_SHORT | .TYP_INT | .TYP_LONG =>
        create { opcode := .FPToSI, ty := castToLlvmType, operands := [castFromValue] }
      | .TYP_BOOL | .TYP_UBYTE | .TYP_USHORT | .TYP_UINT | .TYP_ULONG =>
        create { opcode := .FPToUI, ty := castToLlvmType, operands := [castFromValue] }
      | _ => unreached
    | _ => failFunctionCompilation
  mapGenTreeToValue c cast castValue

/-- Modelled from the spec: `genActualTypeIsIntOrI` of the JIT, the node's actual type is the
natural integer type. -/
def genActualTypeIsIntOrI (c : Compiler) (node : GenTree) : Bool :=
  c.genActualType node.TypeGet == .TYP_INT || c.genActualType node.TypeGet == c.TYP_I_IMPL

/-- The source `Llvm::buildLclHeap`: lines 768 to 811. -/
def buildLclHeap (c : Compiler) (lclHeap : GenTree) : M Unit := do
  let sizeNode ← deref lclHeap.gtOp1
  jitAssert c (genActualTypeIsIntOrI c sizeNode)
  let sizeValue ← consumeValue c sizeNode
    (some (c.getLlvmTypeForVarType (c.genActualType sizeNode.TypeGet)))
  let lclHeapValue ←
    if sizeNode.IsIntegralConst 0 then
      pure (Value.nullValue getInt8PtrTy)
    else do
      let allocaAlignment := c.genTypeSize .TYP_DOUBLE
      let allocaInst ← create
        { opcode := .Alloca getInt8Ty, ty := getInt8PtrTy, operands := [sizeValue],
          align := some allocaAlignment }
      if c.compInitMem then do
        let _ ← create
          { opcode := .MemSet, ty := .void, operands := [allocaInst, getInt8 0, sizeValue],
            align := some allocaAlignment }
        pure ()
      if !sizeNode.IsIntegralConstAny then do
        let zeroSizeValue := Value.nullValue sizeValue.getType
        let isSizeNotZeroValue ← create
          { opcode := .Cmp .ICMP_NE, ty := getInt1Ty, operands := [sizeValue, zeroSizeValue] }
        let nullValue := Value.nullValue getInt8PtrTy
        create { opcode := .Select, ty := allocaInst.getType,
                 operands := [isSizeNotZeroValue, allocaInst, nullValue] }
      else
        pure allocaInst
  mapGenTreeToValue c lclHeap lclHeapValue

/-- The predicate table of `buildCmp`: lines 821 to 847; `none` is the `unreached()` arm. -/
def cmpPredicate (oper : genTreeOps) (isIntOrPtr isUnsigned isUnordered : Bool) :
    Option Predicate :=
  match oper with
  | .GT_EQ => some (if isIntOrPtr then .ICMP_EQ else (if isUnordered then .FCMP_UEQ else .FCMP_OEQ))
  | .GT_NE => some (if isIntOrPtr then .ICMP_NE else (if isUnordered then .FCMP_UNE else .FCMP_ONE))
  | .GT_LE =>
    some (if isIntOrPtr then (if isUnsigned then .ICMP_ULE else .ICMP_SLE)
      else (if isUnordered then .FCMP_ULE else .FCMP_OLE))
  | .GT_LT =>
    some (if isIntOrPtr then (if isUnsigned then .ICMP_ULT else .ICMP_SLT)
      else (if isUnordered then .FCMP_ULT else .FCMP_OLT))
  | .GT_GE =>
    some (if isIntOrPtr then (if isUnsigned then .ICMP_UGE else .ICMP_SGE)
      else (if isUnordered then .FCMP_UGE else .FCMP_OGE))
  | .GT_GT =>
    some (if isIntOrPtr then (if isUnsigned then .ICMP_UGT else .ICMP_SGT)
      else (if isUnordered then .FCMP_UGT else .FCMP_OGT))
  | _ => none

/-- The source `Llvm::buildCmp`: lines 813 to 869. -/
def buildCmp (c : Compiler) (node : GenTree) : M Unit := do
  let op1 ← deref node.gtOp1
  let isIntOrPtr := c.varTypeIsIntegralOrI op1.TypeGet
  let isUnsigned := node.d.GTF_UNSIGNED
  let isUnordered := node.d.GTF_RELOP_NAN_UN
  let predicate ← deref (cmpPredicate node.OperGet isIntOrPtr isUnsigned isUnordered)
  let op1Value ← consumeValue c op1 none
  let op2 ← deref node.gtOp2
  let op2Value ← consumeValue c op2 none
  let op1Type := op1Value.getType
  let op2Type := op2Value.getType
  let operands ←
    if op1Type ≠ op2Type then do
      jitAssert c ((op1Type.isPointerTy && op2Type.isIntegerTy) ||
        (op1Type.isIntegerTy && op2Type.isPointerTy))
      if op1Type.isPointerTy then do
        let op2Cast ← create { opcode := .IntToPtr, ty := op1Type, operands := [op2Value] }
        pure (op1Value, op2Cast)
      else do
        let op1Cast ← create { opcode := .IntToPtr, ty := op2Type, operands := [op1Value] }
        pure (op1Cast, op2Value)
    else
      pure (op1Value, op2Value)
  let cmpValue ← create
    { opcode := .Cmp predicate, ty := getInt1Ty, operands := [operands.1, operands.2] }
  mapGenTreeToValue c node cmpValue

/-- The source `Llvm::buildCnsDouble`: lines 871 to 882. -/
def buildCnsDouble (c : Compiler) (node : GenTree) : M Unit :=
  if node.TypeGet = .TYP_DOUBLE then
    mapGenTreeToValue c node (.constFP .double node.d.gtDconVal)
  else do
    jitAssert c (node.TypeGet == .TYP_FLOAT)
    mapGenTreeToValue c node (.constFP .float node.d.gtDconVal)

/-- The source `Llvm::buildCnsInt`: lines 884 to 930. -/
def buildCnsInt (c : Compiler) (node : GenTree) : M Unit :=
  if node.TypeGet = .TYP_INT then
    if node.IsIconHandle then
      if node.IsIconHandleOf .GTF_ICON_TOKEN_HDL || node.IsIconHandleOf .GTF_ICON_CLASS_HDL ||
          node.IsIconHandleOf .GTF_ICON_METHOD_HDL || node.IsIconHandleOf .GTF_ICON_FIELD_HDL
      then do
        let symbolName := c.GetMangledSymbolName node.d.gtIconVal.toNat
        AddCodeReloc node.d.gtIconVal.toNat
        let symbol ← getOrCreateExternalSymbol symbolName none
        let loadValue ← createLoad symbol
        mapGenTreeToValue c node loadValue
      else
        failFunctionCompilation
    else
      mapGenTreeToValue c node (getInt32 node.d.gtIconVal)
  else if node.TypeGet = .TYP_REF then
    let intCon := node.d.gtIconVal
    if node.IsIconHandleOf .GTF_ICON_STR_HDL then do
      let symbolName := c.GetMangledSymbolName node.d.gtIconVal.toNat
      AddCodeReloc node.d.gtIconVal.toNat
      let symbol ← getOrCreateExternalSymbol symbolName none
      let loadValue ← createLoad symbol
      mapGenTreeToValue c node loadValue
    else do
      if intCon ≠ 0 then
        failFunctionCompilation
      let nullRef ← create
        { opcode := .IntToPtr, ty := getInt8PtrTy, operands := [getInt32 intCon] }
      mapGenTreeToValue c node nullRef
  else
    failFunctionCompilation

/-- The source `Llvm::buildCnsLng`: lines 932 to 935. -/
def buildCnsLng (c : Compiler) (node : GenTree) : M Unit :=
  mapGenTreeToValue c node (getInt64 node.d.gtLconVal)

/-- The body of the loop of `buildFieldList`: lines 1114 to 1117. -/
def buildFieldListStore (c : Compiler) (allocaAsBytePtr : Value) (use : UseData × GenTree) :
    M Unit := do
  let fieldAddr ← gepOrAddr allocaAsBytePtr use.1.offset
  let fieldType := c.getLlvmTypeForVarType use.1.type
  let fieldAddr ← castIfNecessary fieldAddr fieldType.getPointerTo
  let fieldValue ← consumeValue c use.2 (some fieldType)
  let _ ← createStore fieldValue fieldAddr
  pure ()

/-- The source `Llvm::buildFieldList`: lines 1103 to 1127. -/
def buildFieldList (c : Compiler) (fieldList : GenTree) (llvmType : LType) : M Value := do
  jitAssert c (fieldList.TypeGet == .TYP_STRUCT)
  if llvmType.isStructTy then do
    let alloca ← create { opcode := .Alloca llvmType, ty := llvmType.getPointerTo }
    let allocaAsBytePtr ← create
      { opcode := .PointerCast, ty := getInt8PtrTy, operands := [alloca] }
    forEach (buildFieldListStore c allocaAsBytePtr) fieldList.Uses
    createLoad alloca
  else do
    let firstUse ← deref fieldList.Uses.head?
    jitAssert c (fieldList.Uses.length == 1)
    consumeValue c firstUse.2 (some llvmType)

/-- The body of the argument loop of `buildUserFuncCall`: lines 1080 to 1096. -/
def buildUserFuncCallArg (c : Compiler) (use : UseData × GenTree) : M Value := do
  let lastArg := use.2
  let argNode ← deref lastArg.gtOp1
  let argLlvmType := c.getLlvmTypeForCorInfoType lastArg.d.gtCorInfoType lastArg.d.gtClsHnd
  if argNode.OperGet = .GT_FIELD_LIST then do
    jitAssert c (lastArg.d.gtCorInfoType == .CORINFO_TYPE_VALUECLASS)
    buildFieldList c argNode argLlvmType
  else
    consumeValue c argNode (some argLlvmType)

/-- The source `Llvm::buildUserFuncCall`: lines 1049 to 1101.  The callee is the pair of the
called value and its function type. -/
def buildUserFuncCall (c : Compiler) (call : GenTree) : M Unit := do
  let llvmFuncCallee ←
    if call.d.gtCallType = .CT_USER_FUNC ∨ call.d.gtCallType = .CT_INDIRECT then
      if call.d.isVirtualVtable = true ∨ call.d.gtCallType = .CT_INDIRECT then do
        let functionType := createFunctionTypeForCall c call
        let calleeNode ← deref (if call.d.isVirtualVtable then call.gtControlExpr else call.gtCallAddr)
        let calleeValue ← getGenTreeValue calleeNode
        let funcPtr ← castIfNecessary calleeValue functionType.getPointerTo
        pure (funcPtr, functionType)
      else do
        let symbolName := c.GetMangledSymbolName call.d.gtEntryPoint
        AddCodeReloc call.d.gtEntryPoint
        let llvmFunc ← getOrCreateLlvmFunction c symbolName call
        pure (Value.function llvmFunc.name llvmFunc.fty, llvmFunc.fty)
    else
      unreached
  let argVec ← mapEach (buildUserFuncCallArg c) call.Uses
  let llvmCall ← createCall llvmFuncCallee.1 llvmFuncCallee.2 argVec
  mapGenTreeToValue c call llvmCall

/-- The helpers that `buildHelperFuncCall` rejects: lines 957 to 962. -/
def rejectedHelpers : List CorInfoHelpFunc :=
  [.CORINFO_HELP_READYTORUN_GENERIC_HANDLE, .CORINFO_HELP_READYTORUN_GENERIC_STATIC_BASE,
   .CORINFO_HELP_GVMLOOKUP_FOR_SLOT, .CORINFO_HELP_TYPEHANDLE_TO_RUNTIMETYPE,
   .CORINFO_HELP_READYTORUN_DELEGATE_CTOR, .CORINFO_HELP_THROW_PLATFORM_NOT_SUPPORTED]

/-- The loop of lines 993 to 999 of `buildHelperFuncCall`: entry `argNum` of the sorted
vector receives the table entry with that `argNum`. -/
def sortHelperArgs (sorted : List (Option (Nat × GenTree))) :
    List (Nat × GenTree) → M (List (Option (Nat × GenTree)))
  | [] => pure sorted
  | entry :: rest =>
    if entry.1 < sorted.length then
      sortHelperArgs (sorted.set entry.1 (some entry)) rest
    else
      unreached

/-- The loop of lines 1029 to 1043 of `buildHelperFuncCall`: the explicit arguments, in
the order of the sorted vector; `argIx` is the index of the formal parameter. -/
def buildHelperArgs (c : Compiler) (llvmFunc : LFunction) :
    (argIx : Nat) → List (Option (Nat × GenTree)) → M (List Value)
  | _, [] => pure []
  | argIx, opAndArg :: rest => do
    let entry ← deref opAndArg
    let operand := entry.2
    let argValue ←
      if operand.OperGet = .GT_CNS_INT ∧ operand.IsIconHandle = true then do
        let iconValue := operand.d.gtIconVal.toNat
        let methodTableName := c.GetMangledSymbolName iconValue
        AddCodeReloc iconValue
        let symbol ← getOrCreateExternalSymbol methodTableName none
        let symbolCast ← castIfNecessary symbol getInt32PtrTy.getPointerTo
        let loaded ← createLoad symbolCast
        let paramType ← deref (llvmFunc.fty.paramTypes[argIx]?)
        castIfNecessary loaded paramType
      else do
        let paramType ← deref (llvmFunc.fty.paramTypes[argIx]?)
        consumeValue c operand (some paramType)
    let restValues ← buildHelperArgs c llvmFunc (argIx + 1) rest
    pure (argValue :: restValues)

/-- The source `Llvm::buildHelperFuncCall`: lines 955 to 1047. -/
def buildHelperFuncCall (c : Compiler) (call : GenTree) : M Unit := do
  if rejectedHelpers.any (fun h => call.d.gtCallMethHnd == c.eeFindHelper h) then
    failFunctionCompilation
  if call.d.gtCallMethHnd = c.eeFindHelper .CORINFO_HELP_READYTORUN_STATIC_BASE then do
    let symbolName := c.GetMangledSymbolName call.d.gtEntryPoint
    let llvmFunc ← getOrCreateFunction symbolName (buildHelperLlvmFunctionType c call true)
      .ExternalLinkage
    AddCodeReloc call.d.gtEntryPoint
    let shadowStack ← getShadowStackForCallee c
    let callValue ← createCallTo llvmFunc [shadowStack]
    mapGenTreeToValue c call callValue
  else do
    let argTable := call.ArgTable
    let argCount := argTable.length
    let requiresShadowStack := helperRequiresShadowStack c call.d.gtCallMethHnd
    let sortedArgs ← sortHelperArgs (List.replicate argCount none) argTable
    let helperNum := c.eeGetHelperNum call.d.gtCallMethHnd
    let addr := c.compGetHelperFtn helperNum
    let symbolName := c.GetMangledSymbolName addr
    let llvmFunc ← getOrCreateFunction symbolName
      (buildHelperLlvmFunctionType c call requiresShadowStack) .ExternalLinkage
    AddCodeReloc addr
    let shadowStackForCallee ← getShadowStackForCallee c
    if !requiresShadowStack then do
      let symbol ← getOrCreateExternalSymbol "t_pShadowStackTop" (some getInt8PtrTy)
      let _ ← createStore shadowStackForCallee symbol
      pure ()
    let explicitArgs ← buildHelperArgs c llvmFunc (if requiresShadowStack then 1 else 0) sortedArgs
    let argVec := (if requiresShadowStack then [shadowStackForCallee] else []) ++ explicitArgs
    let callValue ← createCallTo llvmFunc argVec
    mapGenTreeToValue c call callValue

/-- The source `Llvm::buildCall`: lines 937 to 953. -/
def buildCall (c : Compiler) (node : GenTree) : M Unit :=
  if node.d.gtCallType = .CT_HELPER then
    buildHelperFuncCall c node
  else if (node.d.gtCallType = .CT_USER_FUNC ∨ node.d.gtCallType = .CT_INDIRECT) ∧
      node.d.isVirtualStub = false then
    buildUserFuncCall c node
  else
    failFunctionCompilation

/-- The source `Llvm::buildInd`: lines 1129 to 1138. -/
def buildInd (c : Compiler) (indNode : GenTree) : M Unit := do
  let loadLlvmType := c.getLlvmTypeForVarType indNode.TypeGet
  let addr ← deref indNode.gtOp1
  let addrValue ← consumeValue c addr (some loadLlvmType.getPointerTo)
  emitNullCheckForIndir c indNode addrValue
  let loadValue ← createLoadTyped loadLlvmType addrValue
  mapGenTreeToValue c indNode loadValue

/-- The source `Llvm::buildBlk`: lines 1140 to 1149. -/
def buildBlk (c : Compiler) (blkNode : GenTree) : M Unit := do
  let blkLlvmType := c.getLlvmTypeForStruct blkNode.d.layout
  let addr ← deref blkNode.gtOp1
  let addrValue ← consumeValue c addr (some blkLlvmType.getPointerTo)
  emitNullCheckForIndir c blkNode addrValue
  let blkValue ← createLoadTyped blkLlvmType addrValue
  mapGenTreeToValue c blkNode blkValue

/-- The source `Llvm::buildStoreInd`: lines 1151 to 1180. -/
def buildStoreInd (c : Compiler) (storeIndOp : GenTree) : M Unit := do
  let wbf := c.gcIsWriteBarrierCandidate storeIndOp
  let storeLlvmType := c.getLlvmTypeForVarType storeIndOp.TypeGet
  let addrLlvmType :=
    if wbf = .WBF_NoBarrier then storeLlvmType.getPointerTo else getInt8PtrTy
  let addr ← deref storeIndOp.gtOp1
  let addrValue ← consumeValue c addr (some addrLlvmType)
  let data ← deref storeIndOp.gtOp2
  let dataValue ← consumeValue c data (some storeLlvmType)
  emitNullCheckForIndir c storeIndOp addrValue
  match wbf with
  | .WBF_BarrierUnchecked => do
    let f ← getOrCreateRhpAssignRef
    let _ ← createCallTo f [addrValue, dataValue]
    pure ()
  | .WBF_BarrierChecked | .WBF_BarrierUnknown => do
    let f ← getOrCreateRhpCheckedAssignRef
    let _ ← createCallTo f [addrValue, dataValue]
    pure ()
  | .WBF_NoBarrier => do
    let _ ← createStore dataValue addrValue
    pure ()
  | _ => unreached

/-- The source `Llvm::buildMemCpy`: lines 1401 to 1409.  The size is an `unsigned`
difference. -/
def buildMemCpy (baseAddress : Value) (startOffset endOffset : Nat) (srcAddress : Value) :
    M Nat := do
  let destAddress ← gepOrAddr baseAddress startOffset
  let size : Nat := (endOffset + 2 ^ 32 - startOffset % 2 ^ 32) % 2 ^ 32
  let _ ← create
    { opcode := .MemCpy, ty := .void, operands := [destAddress, srcAddress, getInt64 (Int.ofNat size)],
      align := some 1 }
  pure size

/-- The body of the loop of `storeObjAtAddress`, lines 1340 to 1388, for one field.
`recurse` is the recursive call of line 1368 on the layout of the field's class;
the result is the new `bytesStored`. -/
def storeObjField (c : Compiler) (baseAddress data : Value) (hasSignificantPadding : Bool)
    (fieldDesc : FieldDesc) (recurse : Value → Value → M Unit) (bytesStored : Nat) : M Nat := do
  let fieldOffset := fieldDesc.fieldOffset
  let address ← gepOrAddr baseAddress fieldOffset
  let bytesStored ←
    if hasSignificantPadding = true ∧ fieldOffset > bytesStored then do
      let copied ← buildMemCpy baseAddress bytesStored fieldOffset address
      pure (bytesStored + copied)
    else
      pure bytesStored
  let fieldData ←
    if data.getType.isStructTy then
      create
        { opcode := .ExtractValue (c.getElementContainingOffset data.getType fieldOffset),
          ty := c.getStructElementType data.getType
            (c.getElementContainingOffset data.getType fieldOffset),
          operands := [data] }
    else
      pure data
  if fieldData.getType.isStructTy then do
    jitAssert c fieldDesc.classHandle.isSome
    recurse address fieldData
    pure (bytesStored + fieldData.getType.getPrimitiveSizeInBits / 8)
  else if fieldDesc.isGcPointer then do
    let f ← getOrCreateRhpCheckedAssignRef
    let fieldPtr ← castIfNecessary fieldData getInt8PtrTy
    let _ ← createCallTo f [address, fieldPtr]
    pure (bytesStored + c.TARGET_POINTER_SIZE)
  else do
    let typedAddress ← castIfNecessary address fieldData.getType.getPointerTo
    let _ ← createStore fieldData typedAddress
    pure (bytesStored + fieldData.getType.getPrimitiveSizeInBits / 8)

/-- Lines 1391 to 1397 of `storeObjAtAddress`: the trailing padding copy. -/
def storeObjTail (baseAddress data : Value) (hasSignificantPadding : Bool) (bytesStored : Nat) :
    M Unit :=
  let llvmStructSize := data.getType.getPrimitiveSizeInBits / 8
  if hasSignificantPadding = true ∧ llvmStructSize > bytesStored then do
    let srcAddress ← create
      { opcode := .GEP, ty := baseAddress.getType,
        operands := [baseAddress, getInt32 bytesStored] }
    let _ ← buildMemCpy baseAddress bytesStored llvmStructSize srcAddress
    pure ()
  else
    pure ()

mutual
/-- The source `Llvm::storeObjAtAddress`: lines 1333 to 1398. -/
def storeObjAtAddress (c : Compiler) (baseAddress data : Value) : StructDesc → M Unit
  | .mk fields hasSignificantPadding =>
    storeObjFields c baseAddress data hasSignificantPadding fields 0 >>=
      storeObjTail baseAddress data hasSignificantPadding
/-- The loop of `storeObjAtAddress` over the fields, lines 1338 to 1389, threading
`bytesStored`. -/
def storeObjFields (c : Compiler) (baseAddress data : Value) (hasSignificantPadding : Bool) :
    List (FieldDesc × Option StructDesc) → Nat → M Nat
  | [], bytesStored => pure bytesStored
  | (fieldDesc, none) :: rest, bytesStored =>
    storeObjField c baseAddress data hasSignificantPadding fieldDesc (fun _ _ => unreached)
        bytesStored >>=
      storeObjFields c baseAddress data hasSignificantPadding rest
  | (fieldDesc, some structDesc) :: rest, bytesStored =>
    storeObjField c baseAddress data hasSignificantPadding fieldDesc
        (fun address fieldData => storeObjAtAddress c address fieldData structDesc)
        bytesStored >>=
      storeObjFields c baseAddress data hasSignificantPadding rest
end

/-- The source `Llvm::buildStoreBlk`: lines 1182 to 1209. -/
def buildStoreBlk (c : Compiler) (blockOp : GenTree) : M Unit := do
  let layout := blockOp.d.layout
  let addrNode ← deref blockOp.gtOp1
  let dataNode ← deref blockOp.gtOp2
  let addrValue ← consumeValue c addrNode (some getInt8PtrTy)
  emitNullCheckForIndir c blockOp addrValue
  if blockOp.OperIsInitBlkOp then do
    let fillValue ←
      if dataNode.OperIsInitVal then do
        let initOp ← deref dataNode.gtOp1
        consumeValue c initOp (some getInt8Ty)
      else
        pure (getInt8 0)
    let _ ← create
      { opcode := .MemSet, ty := .void, operands := [addrValue, fillValue, getInt32 layout.size],
        align := some 1 }
    pure ()
  else do
    let dataValue ← consumeValue c dataNode (some (c.getLlvmTypeForStruct layout))
    if layout.hasGCPtr = true ∧ blockOp.d.GTF_IND_TGT_NOT_HEAP = false ∧
        addrNode.OperIsLocalAddr = false then
      storeObjAtAddress c addrValue dataValue (c.getStructDesc layout.classHandle)
    else do
      let typedAddr ← castIfNecessary addrValue dataValue.getType.getPointerTo
      let _ ← createStore dataValue typedAddr
      pure ()

/-- The source `Llvm::buildUnaryOperation`: lines 1211 to 1235. -/
def buildUnaryOperation (c : Compiler) (node : GenTree) : M Unit := do
  let op1 ← deref node.gtOp1
  let op1Value ← consumeValue c op1 (some (c.getLlvmTypeForVarType node.TypeGet))
  let result ←
    match node.OperGet with
    | .GT_NEG =>
      if op1Value.getType.isFloatingPointTy then
        create { opcode := .FNeg, ty := op1Value.getType, operands := [op1Value], name := "fneg" }
      else
        create { opcode := .Neg, ty := op1Value.getType, operands := [op1Value], name := "neg" }
    | .GT_NOT =>
      create { opcode := .Not, ty := op1Value.getType, operands := [op1Value], name := "not" }
    | _ => failFunctionCompilation
  mapGenTreeToValue c node result

/-- The source `Llvm::buildBinaryOperation`: lines 1237 to 1259. -/
def buildBinaryOperation (c : Compiler) (node : GenTree) : M Unit := do
  let targetType := c.getLlvmTypeForVarType node.TypeGet
  let op1Node ← deref node.gtOp1
  let op1 ← consumeValue c op1Node (some targetType)
  let op2Node ← deref node.gtOp2
  let op2 ← consumeValue c op2Node (some targetType)
  let result ←
    match node.OperGet with
    | .GT_AND => create { opcode := .And, ty := op1.getType, operands := [op1, op2], name := "and" }
    | .GT_OR => create { opcode := .Or, ty := op1.getType, operands := [op1, op2], name := "or" }
    | .GT_XOR => create { opcode := .Xor, ty := op1.getType, operands := [op1, op2], name := "xor" }
    | _ => failFunctionCompilation
  mapGenTreeToValue c node result

/-- The source `Llvm::buildShift`: lines 1261 to 1291. -/
def buildShift (c : Compiler) (node : GenTree) : M Unit := do
  let llvmTargetType := c.getLlvmTypeForVarType node.TypeGet
  let op2Node ← deref node.gtOp2
  let numBitsToShift ← consumeValue c op2Node (some (c.getLlvmTypeForVarType op2Node.TypeGet))
  let numBitsToShift ←
    if numBitsToShift.getType.getPrimitiveSizeInBits < llvmTargetType.getPrimitiveSizeInBits then
      create { opcode := .ZExt, ty := llvmTargetType, operands := [numBitsToShift] }
    else
      pure numBitsToShift
  let op1Node ← deref node.gtOp1
  let op1Value ← consumeValue c op1Node (some llvmTargetType)
  let result ←
    match node.OperGet with
    | .GT_LSH =>
      create { opcode := .Shl, ty := op1Value.getType, operands := [op1Value, numBitsToShift],
               name := "lsh" }
    | .GT_RSH =>
      create { opcode := .AShr, ty := op1Value.getType, operands := [op1Value, numBitsToShift],
               name := "rsh" }
    | .GT_RSZ =>
      create { opcode := .LShr, ty := op1Value.getType, operands := [op1Value, numBitsToShift],
               name := "rsz" }
    | _ => failFunctionCompilation
  mapGenTreeToValue c node result

/-- The source `Llvm::buildReturn`: lines 1293 to 1320. -/
def buildReturn (c : Compiler) (node : GenTree) : M Unit :=
  if node.TypeGet = .TYP_VOID then do
    let _ ← create { opcode := .RetVoid, ty := .void }
    pure ()
  else do
    let retValNode ← deref node.gtOp1
    let retLlvmType := c.getLlvmTypeForCorInfoType c.retType c.retTypeClass
    let retValValue ←
      if node.TypeGet = .TYP_STRUCT ∧ retValNode.IsIntegralConst 0 = true then
        pure (Value.nullValue retLlvmType)
      else if c.genActualType node.TypeGet ≠ c.genActualType retValNode.TypeGet then
        failFunctionCompilation
      else
        consumeValue c retValNode (some retLlvmType)
    let _ ← create { opcode := .Ret, ty := .void, operands := [retValValue] }
    pure ()

/-- The source `Llvm::buildJTrue`: lines 1322 to 1325.  The two target blocks are looked up
in the order written. -/
def buildJTrue (c : Compiler) (_node : GenTree) (opValue : Value) : M Unit := do
  let s ← getState
  let currentBlock ← deref s.currentBlock
  let jumpDest ← getLLVMBasicBlockForBlock c currentBlock.bbJumpDest
  let next ← getLLVMBasicBlockForBlock c currentBlock.bbNext
  let _ ← create { opcode := .CondBr, ty := .void, operands := [opValue], targets := [jumpDest, next] }
  pure ()

/-- The source `Llvm::buildNullCheck`: lines 1327 to 1331. -/
def buildNullCheck (c : Compiler) (nullCheckNode : GenTree) : M Unit := do
  let addr ← deref nullCheckNode.gtOp1
  let addrValue ← consumeValue c addr (some getInt8PtrTy)
  emitNullCheckForIndir c nullCheckNode addrValue

/-! ## The dispatcher, the block walk, phi resolution and `Compile` (lines 10 to 542) -/

/-- The position of the last occurrence of a character (`std::string::find_last_of`). -/
def findLastOf (ch : Char) : List Char → Option Nat
  | [] => none
  | x :: xs =>
    match findLastOf ch xs with
    | some i => some (i + 1)
    | none => if x = ch then some 0 else none

/-- The source `Llvm::getOrCreateDebugMetadata`: lines 1703 to 1741. -/
def getOrCreateDebugMetadata (documentFileName : String) : M DebugMetadata := do
  let fullPath := documentFileName
  let s ← getState
  match tableLookup s.debugMetadataMap fullPath with
  | some debugMetadata => pure debugMetadata
  | none => do
    let chars := fullPath.toList
    let botDirPos :=
      match findLastOf (Char.ofNat 47) chars with
      | some i => some i
      | none => findLastOf (Char.ofNat 92) chars
    let directory :=
      match botDirPos with
      | some i => String.mk (chars.take i)
      | none => ""
    let fileName :=
      match botDirPos with
      | some i => String.mk (chars.drop (i + 1))
      | none => fullPath
    let debugMetadata : DebugMetadata :=
      { fileMetadata := some (fileName, directory), diCompileUnit := some "ILC" }
    modifyState (fun s1 =>
      { s1 with diBuilder := true,
                debugMetadataMap := tableSet s1.debugMetadataMap fullPath debugMetadata })
    pure debugMetadata

/-- The source `Llvm::createDebugFunctionAndDiLocation`: lines 1743 to 1759. -/
def createDebugFunctionAndDiLocation (c : Compiler) (_debugMetadata : DebugMetadata)
    (lineNo : Nat) : M DILocation := do
  let s ← getState
  let debugFunction ←
    match s.debugFunction with
    | some f => pure f
    | none => do
      let f ← deref s.function
      modifyState (fun s1 =>
        { s1 with debugFunction := some c.methodName,
                  functionSubprograms := s1.functionSubprograms ++ [(f.name, c.methodName)] })
      pure c.methodName
  pure { line := lineNo, scope := debugFunction }

/-- The source `Llvm::startImportingNode`: lines 410 to 419. -/
def startImportingNode (c : Compiler) : M Unit := do
  let s ← getState
  if s.debugMetadata.diCompileUnit.isSome ∧ s.currentOffsetDiLocation.isNone then do
    let lineNo := c.GetOffsetLineNumber s.currentOffset
    let loc ← createDebugFunctionAndDiLocation c s.debugMetadata lineNo
    modifyState (fun s1 =>
      { s1 with currentOffsetDiLocation := some loc,
                builder := { s1.builder with debugLoc := some loc } })
  else
    pure ()

/-- The source `Llvm::visitNode`: lines 421 to 542. -/
def visitNode (c : Compiler) (node : GenTree) : M Unit :=
  match node.OperGet with
  | .GT_ADD => buildAdd c node
  | .GT_DIV => buildDiv c node
  | .GT_CALL => buildCall c node
  | .GT_CAST => buildCast c node
  | .GT_LCLHEAP => buildLclHeap c node
  | .GT_CNS_DBL => buildCnsDouble c node
  | .GT_CNS_INT => buildCnsInt c node
  | .GT_CNS_LNG => buildCnsLng c node
  | .GT_IL_OFFSET =>
    modifyState (fun s =>
      { s with currentOffset := node.d.gtStmtDI, currentOffsetDiLocation := none })
  | .GT_IND => buildInd c node
  | .GT_JTRUE => do
    let op1 ← deref node.gtOp1
    let opValue ← getGenTreeValue op1
    buildJTrue c node opValue
  | .GT_LCL_FLD => buildLocalField c node
  | .GT_LCL_VAR => buildLocalVar c node
  | .GT_LCL_VAR_ADDR | .GT_LCL_FLD_ADDR => buildLocalVarAddr c node
  | .GT_LSH | .GT_RSH | .GT_RSZ => buildShift c node
  | .GT_EQ | .GT_NE | .GT_LE | .GT_LT | .GT_GE | .GT_GT => buildCmp c node
  | .GT_NEG | .GT_NOT => buildUnaryOperation c node
  | .GT_NO_OP => emitDoNothingCall
  | .GT_NULLCHECK => buildNullCheck c node
  | .GT_OBJ | .GT_BLK => buildBlk c node
  | .GT_PHI => buildEmptyPhi c node
  | .GT_PHI_ARG | .GT_PUTARG_TYPE => pure ()
  | .GT_RETURN => buildReturn c node
  | .GT_STORE_LCL_VAR => buildStoreLocalVar c node
  | .GT_STOREIND => buildStoreInd c node
  | .GT_STORE_BLK | .GT_STORE_OBJ => buildStoreBlk c node
  | .GT_AND | .GT_OR | .GT_XOR => buildBinaryOperation c node
  | .GT_FIELD_LIST | .GT_INIT_VAL => pure ()
  | _ => failFunctionCompilation

/-- The source `Llvm::startImportingBasicBlock`: lines 226 to 232. -/
def startImportingBasicBlock (block : BasicBlock) : M Unit :=
  modifyState (fun s => { s with currentBlock := some block })

/-- The source `Llvm::endImportingBasicBlock`: lines 234 to 252. -/
def endImportingBasicBlock (c : Compiler) (block : BasicBlock) : M Unit :=
  if block.bbJumpKind = .BBJ_NONE ∧ block.bbNext.isSome then do
    let target ← getLLVMBasicBlockForBlock c block.bbNext
    let _ ← create { opcode := .Br, ty := .void, targets := [target] }
    pure ()
  else if block.bbJumpKind = .BBJ_ALWAYS ∧ block.bbJumpDest.isSome then do
    let target ← getLLVMBasicBlockForBlock c block.bbJumpDest
    let _ ← create { opcode := .Br, ty := .void, targets := [target] }
    pure ()
  else if block.bbJumpKind = .BBJ_THROW then do
    let _ ← create { opcode := .Unreachable, ty := .void }
    pure ()
  else
    pure ()

/-- The target `PHINode::addIncoming`. -/
def addIncoming (phi : Value) (v : Value) (blk : Nat) : M Unit :=
  match phi with
  | .inst id _ => modifyState (fun s => { s with phiIncoming := s.phiIncoming ++ [(id, v, blk)] })
  | _ => unreached

/-- The incoming (value, block) entries of a phi instruction, in the order they were added. -/
def Llvm.incomingOf (s : Llvm) (phiId : Nat) : List (Value × Nat) :=
  (s.phiIncoming.filter (fun e => e.1 = phiId)).map (fun e => e.2)

/-- The target `_builder.SetInsertPoint(instruction)`: insert before the instruction, in its
block, with its debug location. -/
def builderSetInsertPointBefore (blk : Nat) (i : Instruction) : M Unit :=
  modifyState (fun s =>
    { s with builder := { block := some blk, before := some i.id, debugLoc := i.dbg } })

/-- The target `_builder.SetInsertPoint(block, point)`: the saved block and point; the
debug location follows the instruction at the point, if there is one. -/
def builderRestoreInsertPoint (saved : IRBuilder) : M Unit := do
  let blk ← deref saved.block
  let s ← getState
  let dbg :=
    match saved.before with
    | some id =>
      match (s.getBlock blk).bind (fun b => b.insts.find? (fun i => i.id = id)) with
      | some i => i.dbg
      | none => s.builder.debugLoc
    | none => s.builder.debugLoc
  modifyState (fun s1 =>
    { s1 with builder := { block := some blk, before := saved.before, debugLoc := dbg } })

/-- Lines 262 to 285 of `fillPhis`: the value wired for one operand of a phi, the operand's
materialised value or a cast of it placed before the terminator of the predecessor's target
block. -/
def fillPhiArgValue (c : Compiler) (llvmPhiNode : Value) (phiArg : GenTree) : M Value := do
  let lclNum := phiArg.d.lclNum
  let ssaNum := phiArg.d.ssaNum
  let s ← getState
  let localPhiArg ← tableGet s.localsMap (lclNum, ssaNum)
  let castRequired ← getCast localPhiArg llvmPhiNode.getType
  match castRequired with
  | some castInst => do
    let s1 ← getState
    let savedBuilder := s1.builder
    let predBlock ← getLLVMBasicBlockForBlock c (some phiArg.d.gtPredBB)
    let s2 ← getState
    let predLlvmBlock ← deref (s2.getBlock predBlock)
    let predBlockTerminator ← deref predLlvmBlock.getTerminator
    builderSetInsertPointBefore predBlock predBlockTerminator
    let inserted ← create castInst
    builderRestoreInsertPoint savedBuilder
    pure inserted
  | none => pure localPhiArg

/-- The body of the inner loop of `fillPhis`, lines 262 to 286, for one operand of a phi. -/
def fillPhiArg (c : Compiler) (llvmPhiNode : Value) (use : UseData × GenTree) : M Unit :=
  fillPhiArgValue c llvmPhiNode use.2 >>= fun phiRealArgValue =>
    getLLVMBasicBlockForBlock c (some use.2.d.gtPredBB) >>= fun incomingBlock =>
      addIncoming llvmPhiNode phiRealArgValue incomingBlock

/-- The body of the outer loop of `fillPhis` for one pending pair. -/
def fillPhiPair (c : Compiler) (phiPair : PhiPair) : M Unit :=
  forEach (fillPhiArg c phiPair.llvmPhiNode) phiPair.irPhiNode.Uses

/-- The source `Llvm::fillPhis`: lines 254 to 289. -/
def fillPhis (c : Compiler) : M Unit := do
  let s ← getState
  forEach (fillPhiPair c) s.phiPairs

/-- The decision of lines 146 to 193 of `initializeLocals`: the initial value of a local.
The outer `none` is the `continue` of lines 160 and 168, the inner `none` is the null
initial value. -/
def initialValueOf (c : Compiler) (lclNum : Nat) (varDsc : LclVarDsc) (zeroValue : Value) :
    M (Option (Option Value)) :=
  if varDsc.lvIsParam then do
    jitAssert c varDsc.lvLlvmArgNum.isSome
    let argNum ← deref varDsc.lvLlvmArgNum
    let arg ← functionGetArg argNum
    pure (some (some arg))
  else if varDsc.lvInSsa then
    match varDsc.lvPerSsaData.head? with
    | none => pure none
    | some firstDef =>
      let hasImplicitDef := !firstDef.hasAssignment
      if !hasImplicitDef then do
        jitAssert c (!varDsc.lvMustInit)
        pure none
      else if varDsc.lvMustInit then
        pure (some (some zeroValue))
      else
        pure (some none)
  else if !varDsc.lvHasExplicitInit then
    if !c.fgVarNeedsExplicitZeroInit lclNum then
      if !varDsc.lvTracked || varDsc.lvMustInit then
        pure (some (some zeroValue))
      else
        pure (some none)
    else
      pure (some none)
  else
    pure (some none)

/-- The body of the loop of `initializeLocals`, lines 127 to 222, for one local. -/
def initializeLocal (c : Compiler) (lclNum : Nat) : M Unit := do
  let varDsc ← lvaGetDesc lclNum
  if varDsc.lvRefCnt = 0 then
    pure ()
  else if !c.canStoreLocalOnLlvmStack varDsc then
    pure ()
  else do
    let lclLlvmType := c.getLlvmTypeForLclVar varDsc
    let zeroValue := Value.nullValue lclLlvmType
    let decision ← initialValueOf c lclNum varDsc zeroValue
    match decision with
    | none => pure ()
    | some initValue => do
      modifyState (fun s =>
        { s with lvaTable :=
            s.lvaTable.set lclNum { varDsc with lvMustInit := decide (initValue = some zeroValue) } })
      let initValue ←
        match initValue with
        | some v => pure v
        | none => createProlog { opcode := .Freeze, ty := lclLlvmType, operands := [.undef lclLlvmType] }
      jitAssert c (initValue.getType == lclLlvmType)
      if (← isLlvmFrameLocal c varDsc) then do
        let allocaInst ← createProlog { opcode := .Alloca lclLlvmType, ty := lclLlvmType.getPointerTo }
        modifyState (fun s => { s with m_allocas := s.m_allocas.set lclNum (some allocaInst) })
        let _ ← createProlog { opcode := .Store, ty := .void, operands := [initValue, allocaInst] }
        pure ()
      else do
        jitAssert c varDsc.lvInSsa
        let s ← getState
        let m ← tableSetChecked c s.localsMap (lclNum, FIRST_SSA_NUM) initValue
        modifyState (fun s1 => { s1 with localsMap := m })

/-- The source `Llvm::initializeLocals`: lines 121 to 224. -/
def initializeLocals (c : Compiler) : M Unit := do
  let s ← getState
  modifyState (fun s1 => { s1 with m_allocas := List.replicate s.lvaTable.length none })
  forEach (initializeLocal c) (List.range s.lvaTable.length)

/-- The source `Llvm::generateProlog`: lines 107 to 119. -/
def generateProlog (c : Compiler) : M Unit := do
  let s ← getState
  let parent := match s.function with
    | some f => f.name
    | none => ""
  let prologBlock ← createBasicBlock "Prolog" parent
  modifyState (fun s1 =>
    { s1 with prologBuilder := { s1.prologBuilder with block := some prologBlock, before := none } })
  initializeLocals c
  let block0 ← getLLVMBasicBlockForBlock c (some c.fgFirstBB)
  let br ← createProlog { opcode := .Br, ty := .void, targets := [block0] }
  match br with
  | .inst brId _ =>
    modifyState (fun s1 =>
      { s1 with prologBuilder := { s1.prologBuilder with block := some prologBlock,
                                                         before := some brId } })
  | _ => pure ()
  builderSetInsertPoint block0

/-- The body of `LlvmCompileDomTreeVisitor::PreOrderVisit`: lines 63 to 81. -/
def PreOrderVisit (c : Compiler) (block : BasicBlock) : M Unit := do
  if block.bbJumpKind = .BBJ_EHFINALLYRET then
    failFunctionCompilation
  startImportingBasicBlock block
  let entry ← getLLVMBasicBlockForBlock c (some block.bbNum)
  builderSetInsertPoint entry
  forEach (fun node => do startImportingNode c; visitNode c node) block.nodes
  endImportingBasicBlock c block

/-- The walk `visitor.WalkTree()`: `PreOrderVisit` of every block in the pre-order of the SSA
dominator tree. -/
def WalkTree (c : Compiler) : M Unit :=
  forEach (PreOrderVisit c) c.fgSsaDomTreePreOrder

/-- Lines 12 to 21 of `Compile`: the method's function is looked up in the module or
declared. -/
def compileFunctionLookup (c : Compiler) : M Unit := do
  let mangledName := c.mangledMethodName
  let s ← getState
  modifyState (fun s1 =>
    { s1 with function := s.getFunction mangledName, debugFunction := none,
              debugMetadata := { s1.debugMetadata with diCompileUnit := none } })
  if (s.getFunction mangledName).isNone then do
    let fty ← getFunctionType c
    let f ← createFunction fty .ExternalLinkage mangledName
    modifyState (fun s1 => { s1 with function := some f })

/-- Lines 34 to 50 of `Compile`: the reverse-P/Invoke rejection, the debug metadata and the
prolog. -/
def compileProlog (c : Compiler) : M Unit := do
  if c.IsReversePInvoke then
    failFunctionCompilation
  if c.compDbgInfo then
    match c.documentFileName with
    | some documentFileName =>
      if documentFileName ≠ "" then do
        let debugMetadata ← getOrCreateDebugMetadata documentFileName
        modifyState (fun s1 => { s1 with debugMetadata := debugMetadata })
      else
        pure ()
    | none => pure ()
  generateProlog c

/-- Lines 89 to 92 of `Compile`: the debug subprogram is finalised. -/
def compileFinalize : M Unit := do
  let s ← getState
  match s.debugFunction with
  | some f => modifyState (fun s1 => { s1 with finalizedSubprograms := s1.finalizedSubprograms ++ [f] })
  | none => pure ()

/-- The name of the method that `Compile` replaces by a stub (line 25). -/
def randomBytesStubName : String := "S_P_CoreLib_Interop__GetRandomBytes"

/-- The source `Llvm::Compile`: lines 10 to 105. -/
def Compile (c : Compiler) : M Unit := do
  compileFunctionLookup c
  if c.mangledMethodName = randomBytesStubName then do
    let llvmBlock ← createBasicBlock "" c.mangledMethodName
    builderSetInsertPoint llvmBlock
    let _ ← create { opcode := .RetVoid, ty := .void }
    pure ()
  else do
    compileProlog c
    WalkTree c
    fillPhis c
    compileFinalize

/-! ## Specification-side definitions -/

/-- The true type of the producing node, in the words of the specification: the call's return
type for a call, the local's declared type for a local-variable read, unsigned byte for a
relational operator, the cast target type for a cast, the node's own type otherwise. -/
def specTrueType (s : Llvm) (node : GenTree) : Option var_types :=
  match node.OperGet with
  | .GT_CALL => some node.d.gtReturnType
  | .GT_LCL_VAR => s.lvaTable[node.d.lclNum]?.map (fun d => d.lvType)
  | .GT_CAST => some node.d.gtCastType
  | op => if op.isRelop then some .TYP_UBYTE else some node.TypeGet

/-- The (raw type, demanded type) pairs for which `consumeValue` is specified to convert:
equal types, 32-bit integer to pointer, pointer to 32-bit integer, pointer to pointer, and
integer to integer of at most 32 bits each where a widening needs a small true type. -/
def Normalizable (c : Compiler) (s : Llvm) (node : GenTree) (raw demanded : LType) : Prop :=
  raw = demanded ∨
  (raw = getInt32Ty ∧ demanded.isPointerTy = true) ∨
  (raw.isPointerTy = true ∧ demanded = getInt32Ty) ∨
  (raw.isPointerTy = true ∧ demanded.isPointerTy = true) ∨
  (raw.isIntegerTy = true ∧ demanded.isIntegerTy = true ∧
    raw.getPrimitiveSizeInBits ≤ 32 ∧ demanded.getPrimitiveSizeInBits ≤ 32 ∧
    (raw.getPrimitiveSizeInBits < demanded.getPrimitiveSizeInBits →
      ∃ t, specTrueType s node = some t ∧ c.varTypeIsSmall t = true))

/-- The pairs of different types outside the four supported conversion families. -/
def UnsupportedPair (raw demanded : LType) : Prop :=
  raw ≠ demanded ∧
  ¬ (raw = getInt32Ty ∧ demanded.isPointerTy = true) ∧
  ¬ (raw.isPointerTy = true ∧ demanded = getInt32Ty) ∧
  ¬ (raw.isPointerTy = true ∧ demanded.isPointerTy = true) ∧
  ¬ (raw.isIntegerTy = true ∧ demanded.isIntegerTy = true ∧
      raw.getPrimitiveSizeInBits ≤ 32 ∧ demanded.getPrimitiveSizeInBits ≤ 32)

/-- In a DEBUG build a relational node carries the 1-bit result that `buildCmp` records for
it (the assert of line 378). -/
def RelopRawIsBool (c : Compiler) (node : GenTree) (v : Value) : Prop :=
  c.debug = true → node.OperGet.isRelop = true → v.getType = getInt1Ty

/-! ## A concrete front end and concrete inputs, for evaluating the code generator -/

/-- A front end for a 32-bit target with the JIT's usual type tables: small types are the
8- and 16-bit integers, signed types are `BYTE`, `SHORT`, `INT` and `LONG`, managed
references are byte pointers. -/
def sampleCompiler : Compiler where
  debug := true
  genActualType := fun t =>
    match t with
    | .TYP_BOOL | .TYP_BYTE | .TYP_UBYTE | .TYP_SHORT | .TYP_USHORT | .TYP_UINT => .TYP_INT
    | .TYP_ULONG => .TYP_LONG
    | t => t
  varTypeIsSmall := fun t =>
    match t with
    | .TYP_BOOL | .TYP_BYTE | .TYP_UBYTE | .TYP_SHORT | .TYP_USHORT => true
    | _ => false
  varTypeIsSigned := fun t =>
    match t with
    | .TYP_BYTE | .TYP_SHORT | .TYP_INT | .TYP_LONG => true
    | _ => false
  varTypeIsIntegralOrI := fun t =>
    match t with
    | .TYP_FLOAT | .TYP_DOUBLE | .TYP_STRUCT | .TYP_BLK | .TYP_VOID | .TYP_UNDEF => false
    | _ => true
  genTypeSize := fun t =>
    match t with
    | .TYP_BOOL | .TYP_BYTE | .TYP_UBYTE => 1
    | .TYP_SHORT | .TYP_USHORT => 2
    | .TYP_LONG | .TYP_ULONG | .TYP_DOUBLE => 8
    | .TYP_UNDEF | .TYP_VOID | .TYP_STRUCT | .TYP_BLK => 0
    | _ => 4
  getLlvmTypeForVarType := fun t =>
    match t with
    | .TYP_BOOL | .TYP_BYTE | .TYP_UBYTE => .int 8
    | .TYP_SHORT | .TYP_USHORT => .int 16
    | .TYP_INT | .TYP_UINT => .int 32
    | .TYP_LONG | .TYP_ULONG => .int 64
    | .TYP_FLOAT => .float
    | .TYP_DOUBLE => .double
    | .TYP_REF | .TYP_BYREF => .ptr (.int 8)
    | .TYP_STRUCT | .TYP_BLK => .struct 0
    | .TYP_UNDEF | .TYP_VOID => .void
  getLlvmTypeForLclVar := fun d =>
    match d.lvType with
    | .TYP_BOOL | .TYP_BYTE | .TYP_UBYTE => .int 8
    | .TYP_SHORT | .TYP_USHORT => .int 16
    | .TYP_INT | .TYP_UINT => .int 32
    | .TYP_LONG | .TYP_ULONG => .int 64
    | .TYP_FLOAT => .float
    | .TYP_DOUBLE => .double
    | .TYP_REF | .TYP_BYREF => .ptr (.int 8)
    | .TYP_STRUCT | .TYP_BLK => .struct 0
    | .TYP_UNDEF | .TYP_VOID => .void
  getLlvmTypeForStruct := fun l => .struct l.classHandle
  getLlvmTypeForCorInfoType := fun t cls =>
    match t with
    | .CORINFO_TYPE_VOID => .void
    | .CORINFO_TYPE_BOOL | .CORINFO_TYPE_BYTE | .CORINFO_TYPE_UBYTE => .int 8
    | .CORINFO_TYPE_SHORT | .CORINFO_TYPE_USHORT => .int 16
    | .CORINFO_TYPE_INT | .CORINFO_TYPE_UINT => .int 32
    | .CORINFO_TYPE_LONG | .CORINFO_TYPE_ULONG => .int 64
    | .CORINFO_TYPE_FLOAT => .float
    | .CORINFO_TYPE_DOUBLE => .double
    | .CORINFO_TYPE_VALUECLASS => .struct cls
    | _ => .ptr (.int 8)
  canStoreLocalOnLlvmStack := fun _ => true
  getStructDesc := fun _ => .mk [] false
  getElementContainingOffset := fun _ _ => 0
  getStructElementType := fun _ _ => .int 32
  mangledMethodName := "Sample__Method"
  GetMangledSymbolName := fun _ => "Sample__Symbol"
  GetMangledMethodName := fun _ => "Sample__Callee"
  GetCompilerHelpersMethodHandle := fun _ _ => 0
  eeFindHelper := fun h =>
    match h with
    | .CORINFO_HELP_OTHER n => 1000 + n
    | .CORINFO_HELP_READYTORUN_GENERIC_HANDLE => 1
    | .CORINFO_HELP_READYTORUN_GENERIC_STATIC_BASE => 2
    | .CORINFO_HELP_GVMLOOKUP_FOR_SLOT => 3
    | .CORINFO_HELP_TYPEHANDLE_TO_RUNTIMETYPE => 4
    | .CORINFO_HELP_READYTORUN_DELEGATE_CTOR => 5
    | .CORINFO_HELP_THROW_PLATFORM_NOT_SUPPORTED => 6
    | .CORINFO_HELP_READYTORUN_STATIC_BASE => 7
    | .CORINFO_HELP_TYPEHANDLE_TO_RUNTIMETYPEHANDLE => 8
    | .CORINFO_HELP_DBL2INT_OVF => 9
    | .CORINFO_HELP_DBL2LNG_OVF => 10
    | .CORINFO_HELP_DBL2UINT_OVF => 11
    | .CORINFO_HELP_DBL2ULNG_OVF => 12
    | .CORINFO_HELP_LMOD => 13
    | .CORINFO_HELP_LDIV => 14
    | .CORINFO_HELP_LMUL_OVF => 15
    | .CORINFO_HELP_ULMUL_OVF => 16
    | .CORINFO_HELP_ULDIV => 17
    | .CORINFO_HELP_ULMOD => 18
    | .CORINFO_HELP_OVERFLOW => 19
  eeGetHelperNum := fun h => .CORINFO_HELP_OTHER h
  compGetHelperFtn := fun _ => 0
  GetOffsetLineNumber := fun off => off
  fgVarNeedsExplicitZeroInit := fun _ => false
  gcIsWriteBarrierCandidate := fun _ => .WBF_NoBarrier

/-- The same front end in a build without assertions. -/
def sampleReleaseCompiler : Compiler := { sampleCompiler with debug := false }

/-- A read of local 0, node 1, of type `INT`. -/
def sampleLclVarNode : GenTree := .leaf { id := 1, gtOper := .GT_LCL_VAR, gtType := .TYP_INT, lclNum := 0 }

/-- A state in which local 0 is declared `BYTE` and node 1 carries an 8-bit raw value. -/
def sampleByteState : Llvm :=
  { lvaTable := [{ lvType := .TYP_BYTE, lvRefCnt := 1 }],
    sdsuMap := [(1, .argument 0 (.int 8))] }

/-- A floating constant, node 1. -/
def sampleDblNode : GenTree := .leaf { id := 1, gtOper := .GT_CNS_DBL, gtType := .TYP_FLOAT }

/-- A state in which node 1 carries a floating raw value. -/
def sampleFloatState : Llvm := { sdsuMap := [(1, .constFP .float 0)] }

/-- The state after the 8-bit raw value of node 1 has been sign-extended to `i32`. -/
def sampleByteStateWidened : Llvm :=
  sampleByteState.insert sampleByteState.builder
    { opcode := .SExt, ty := getInt32Ty, operands := [.argument 0 (.int 8)] }

/-! ## Bookkeeping of the node-to-value map -/

/-- One step of map bookkeeping: between two states the keys `ids` were written, in this
order; every key written has an entry afterwards and the entry of every other key is
untouched. -/
def Step (ids : List Nat) (s s1 : Llvm) : Prop :=
  s1.sdsuWrites = s.sdsuWrites ++ ids ∧
  (∀ k, k ∉ ids → tableLookup s1.sdsuMap k = tableLookup s.sdsuMap k) ∧
  (∀ k, k ∈ ids → (tableLookup s1.sdsuMap k).isSome = true)

/-- The map effect of a lowering step: when it returns it has written exactly the keys `ids`,
in order; when it fails it has written a prefix of them. -/
structure Effect {α : Type} (ids : List Nat) (m : M α) : Prop where
  run : ∀ s, match m s with
    | .ok _ s1 => Step ids s s1
    | .failed _ s1 => ∃ l, l <+: ids ∧ Step l s s1

/-- The opcodes whose handler records a value for the node. -/
def producesValue : genTreeOps → Bool
  | .GT_ADD | .GT_DIV | .GT_CALL | .GT_CAST | .GT_LCLHEAP | .GT_CNS_DBL | .GT_CNS_INT
  | .GT_CNS_LNG | .GT_IND | .GT_LCL_FLD | .GT_LCL_VAR | .GT_LCL_VAR_ADDR | .GT_LCL_FLD_ADDR
  | .GT_LSH | .GT_RSH | .GT_RSZ | .GT_EQ | .GT_NE | .GT_LE | .GT_LT | .GT_GE | .GT_GT
  | .GT_NEG | .GT_NOT | .GT_OBJ | .GT_BLK | .GT_PHI | .GT_AND | .GT_OR | .GT_XOR => true
  | _ => false

/-- The keys a successful `visitNode` writes for a node. -/
def writtenBy (node : GenTree) : List Nat :=
  if producesValue node.OperGet then [node.id] else []

/-- The opcodes the dispatcher handles, as the specification lists them. -/
def dispatcherHandled : List genTreeOps :=
  [.GT_ADD, .GT_DIV, .GT_CALL, .GT_CAST, .GT_LCLHEAP, .GT_CNS_DBL, .GT_CNS_INT, .GT_CNS_LNG,
   .GT_IL_OFFSET, .GT_IND, .GT_JTRUE, .GT_LCL_FLD, .GT_LCL_VAR, .GT_LCL_VAR_ADDR,
   .GT_LCL_FLD_ADDR, .GT_LSH, .GT_RSH, .GT_RSZ, .GT_EQ, .GT_NE, .GT_LE, .GT_LT, .GT_GE, .GT_GT,
   .GT_NEG, .GT_NOT, .GT_NO_OP, .GT_NULLCHECK, .GT_OBJ, .GT_BLK, .GT_PHI, .GT_PHI_ARG,
   .GT_PUTARG_TYPE, .GT_RETURN, .GT_STORE_LCL_VAR, .GT_STOREIND, .GT_STORE_BLK, .GT_STORE_OBJ,
   .GT_AND, .GT_OR, .GT_XOR, .GT_FIELD_LIST, .GT_INIT_VAL]

/-- The keys a successful lowering of a node list writes, in order. -/
def writtenByNodes : List GenTree → List Nat
  | [] => []
  | n :: ns => writtenBy n ++ writtenByNodes ns

/-- The keys a successful walk of a block list writes, in order. -/
def writtenByBlocks : List BasicBlock → List Nat
  | [] => []
  | b :: bs => writtenByNodes b.nodes ++ writtenByBlocks bs

/-- The ids of the nodes of a block list, in walk order. -/
def nodeIdsOfBlocks : List BasicBlock → List Nat
  | [] => []
  | b :: bs => b.nodes.map (fun n => n.id) ++ nodeIdsOfBlocks bs

/-- The nodes of a block list, in walk order. -/
def nodesOfBlocks : List BasicBlock → List GenTree
  | [] => []
  | b :: bs => b.nodes ++ nodesOfBlocks bs

/-- A method whose single block holds one `RETURN` of type `VOID`, with the shadow-stack
argument as its only parameter. -/
def sampleVoidMethod : Compiler :=
  { sampleCompiler with
    llvmArgCount := 1
    fgSsaDomTreePreOrder :=
      [{ bbNum := 1, bbJumpKind := .BBJ_RETURN,
         nodes := [.leaf { id := 1, gtOper := .GT_RETURN, gtType := .TYP_VOID }] }] }

/-- The initial state for a method whose only local is the shadow-stack parameter. -/
def sampleInitialState : Llvm :=
  { lvaTable := [{ lvType := .TYP_BYREF, lvRefCnt := 0, lvIsParam := true, lvLlvmArgNum := some 0 }] }

/-- The method `int Add(int a, int b)`: the locals 0 and 1 are the parameters `a` and `b`,
both in SSA; the single block reads both, adds them and returns the sum. -/
def sampleAddMethod : Compiler :=
  { sampleCompiler with
    llvmArgCount := 3
    retType := .CORINFO_TYPE_INT
    fgSsaDomTreePreOrder :=
      [{ bbNum := 1, bbJumpKind := .BBJ_RETURN,
         nodes :=
          [.leaf { id := 1, gtOper := .GT_LCL_VAR, lclNum := 0, ssaNum := 1 },
           .leaf { id := 2, gtOper := .GT_LCL_VAR, lclNum := 1, ssaNum := 1 },
           .binary { id := 3, gtOper := .GT_ADD }
             (.leaf { id := 1, gtOper := .GT_LCL_VAR, lclNum := 0, ssaNum := 1 })
             (.leaf { id := 2, gtOper := .GT_LCL_VAR, lclNum := 1, ssaNum := 1 }),
           .unary { id := 4, gtOper := .GT_RETURN }
             (.binary { id := 3, gtOper := .GT_ADD }
               (.leaf { id := 1, gtOper := .GT_LCL_VAR, lclNum := 0, ssaNum := 1 })
               (.leaf { id := 2, gtOper := .GT_LCL_VAR, lclNum := 1, ssaNum := 1 }))] }] }

/-- The initial state for `sampleAddMethod`: the two `INT` parameters and the shadow-stack
parameter. -/
def sampleAddState : Llvm :=
  { lvaTable :=
      [{ lvType := .TYP_INT, lvRefCnt := 1, lvIsParam := true, lvLlvmArgNum := some 1,
         lvInSsa := true, lvPerSsaData := [{ hasAssignment := false }] },
       { lvType := .TYP_INT, lvRefCnt := 1, lvIsParam := true, lvLlvmArgNum := some 2,
         lvInSsa := true, lvPerSsaData := [{ hasAssignment := false }] },
       { lvType := .TYP_BYREF, lvRefCnt := 0, lvIsParam := true, lvLlvmArgNum := some 0 }] }

/-- A method with one exception-handler region: block 1 is the protected region, block 2
returns, block 3 is a catch handler that ends with a catch-return to block 2. -/
def sampleCatchMethod : Compiler :=
  { sampleCompiler with
    llvmArgCount := 1
    compHndBBtabCount := 1
    fgSsaDomTreePreOrder :=
      [{ bbNum := 1, bbJumpKind := .BBJ_NONE, bbNext := some 2,
         nodes := [.leaf { id := 1, gtOper := .GT_NO_OP, gtType := .TYP_VOID }] },
       { bbNum := 2, bbJumpKind := .BBJ_RETURN, bbNext := some 3,
         nodes := [.leaf { id := 2, gtOper := .GT_RETURN, gtType := .TYP_VOID }] },
       { bbNum := 3, bbJumpKind := .BBJ_EHCATCHRET, bbJumpDest := some 2, nodes := [] }] }

/-- A method with a finally handler: block 1 is the protected region, block 2 is the handler
that ends with a finally-return, block 3 returns. -/
def sampleFinallyMethod : Compiler :=
  { sampleCompiler with
    llvmArgCount := 1
    compHndBBtabCount := 1
    fgSsaDomTreePreOrder :=
      [{ bbNum := 1, bbJumpKind := .BBJ_NONE, bbNext := some 2,
         nodes := [.leaf { id := 1, gtOper := .GT_NO_OP, gtType := .TYP_VOID }] },
       { bbNum := 2, bbJumpKind := .BBJ_EHFINALLYRET, bbNext := some 3,
         nodes := [.leaf { id := 2, gtOper := .GT_NO_OP, gtType := .TYP_VOID }] },
       { bbNum := 3, bbJumpKind := .BBJ_RETURN,
         nodes := [.leaf { id := 3, gtOper := .GT_RETURN, gtType := .TYP_VOID }] }] }

/-- The state in which `Compile` starts the walk of `sampleFinallyMethod`. -/
def sampleFinallyWalkStart : Llvm :=
  ((compileFunctionLookup sampleFinallyMethod >>= fun _ => compileProlog sampleFinallyMethod)
    sampleInitialState).state

/-- The state in which the walk of `sampleFinallyMethod` reaches the finally-return block. -/
def sampleFinallyReached : Llvm :=
  (forEach (PreOrderVisit sampleFinallyMethod)
    [{ bbNum := 1, bbJumpKind := .BBJ_NONE, bbNext := some 2,
       nodes := [.leaf { id := 1, gtOper := .GT_NO_OP, gtType := .TYP_VOID }] }]
    sampleFinallyWalkStart).state

/-- A subtraction node, an opcode the dispatcher does not handle. -/
def sampleSubNode : GenTree :=
  .binary { id := 3, gtOper := .GT_SUB }
    (.leaf { id := 1, gtOper := .GT_LCL_VAR, lclNum := 0, ssaNum := 1 })
    (.leaf { id := 2, gtOper := .GT_LCL_VAR, lclNum := 1, ssaNum := 1 })

/-! ## Phi resolution -/

/-- The id of an instruction value. -/
def Value.instId : Value → Option Nat
  | .inst id _ => some id
  | _ => none

/-- Between two states the source-block-to-target-block map only grew, and no incoming edge
of any phi was added. -/
def PhiFrame (s s1 : Llvm) : Prop :=
  s1.phiIncoming = s.phiIncoming ∧
  ∀ k b, tableLookup s.blkToLlvmBlkVectorMap k = some b →
    tableLookup s1.blkToLlvmBlkVectorMap k = some b

/-- A lowering step that adds no incoming edge and only grows the block map, whether it
returns or fails. -/
structure KeepsPhis {α : Type} (m : M α) : Prop where
  run : ∀ s, PhiFrame s (m s).state

/-- A pending phi with two operands, as for a loop-carried local assigned on two incoming
paths: versions 1 and 2 of local 0 arrive from blocks 1 and 2. -/
def sampleLoopPhi : GenTree :=
  .withUses { id := 20, gtOper := .GT_PHI }
    [({}, .leaf { id := 21, gtOper := .GT_PHI_ARG, lclNum := 0, ssaNum := 1, gtPredBB := 1 }),
     ({}, .leaf { id := 22, gtOper := .GT_PHI_ARG, lclNum := 0, ssaNum := 2, gtPredBB := 2 })]

/-- The state after the walk of a loop: the target phi (instruction 5) is pending with no
incoming edge, both versions of local 0 have values, blocks 1 and 2 have target blocks. -/
def sampleLoopState : Llvm :=
  { function := some { name := "Sample__Method", fty := .func .void [getInt8PtrTy] },
    blocks := [{ id := 10, name := "BB01", parent := "Sample__Method" },
               { id := 11, name := "BB02", parent := "Sample__Method" }],
    nextValueId := 8, nextBlockId := 12,
    builder := { block := some 11 },
    localsMap := [((0, 1), .argument 1 (.int 32)), ((0, 2), .inst 7 (.int 32))],
    blkToLlvmBlkVectorMap := [(1, 10), (2, 11)],
    phiPairs := [{ irPhiNode := sampleLoopPhi, llvmPhiNode := .inst 5 (.int 32) }],
    lvaTable := [{ lvType := .TYP_INT, lvRefCnt := 3, lvInSsa := true }] }

/-- The state in which a lowering step returns satisfies `Q`. -/
structure EndsIn {α : Type} (Q : Llvm → Prop) (m : M α) : Prop where
  run : ∀ s a s1, m s = .ok a s1 → Q s1

/-- The node-to-value map holds a 1-bit raw value for the node. -/
def RecordsBool (node : GenTree) (s : Llvm) : Prop :=
  ∃ v, tableLookup s.sdsuMap node.id = some v ∧ v.getType = getInt1Ty

/-! ## The instructions a lowering step creates -/

/-- The instructions a returning lowering step creates all satisfy `P`: the step only appends
to the history of created instructions, and what it appends satisfies `P`. -/
structure Emits {α : Type} (P : Instruction → Prop) (m : M α) : Prop where
  run : ∀ s a s1, m s = .ok a s1 → ∃ l, s1.emitted = s.emitted ++ l ∧ ∀ i ∈ l, P i

/-- The value a returning lowering step returns satisfies `Q`. -/
structure Returns {α : Type} (Q : α → Prop) (m : M α) : Prop where
  run : ∀ s a s1, m s = .ok a s1 → Q a

/-- The conversion instructions that `consumeValue` creates (lines 339 to 401). -/
def Opcode.isConversion : Opcode → Bool
  | .IntToPtr | .PtrToInt | .BitCast | .SExt | .ZExt | .Trunc => true
  | _ => false

/-- The instruction is a call of the module function `name`. -/
def Instruction.isCallTo (name : String) (i : Instruction) : Bool :=
  i.opcode == .Call &&
    match i.operands.head? with
    | some (.function n _) => n == name
    | _ => false

/-! ## Concrete inputs for the handlers -/

/-- The constant 0 of type `INT`, node 1. -/
def sampleZeroNode : GenTree :=
  .leaf { id := 1, gtOper := .GT_CNS_INT, gtType := .TYP_INT, gtIconVal := 0 }

/-- A dynamic-extent stack allocation whose size operand is node 1, node 2. -/
def sampleLclHeapNode : GenTree :=
  .unary { id := 2, gtOper := .GT_LCLHEAP, gtType := .TYP_INT } sampleZeroNode

/-- A state in which node 1 carries the 32-bit constant 0 and the builder stands at the end
of target block 0. -/
def sampleZeroState : Llvm :=
  { sdsuMap := [(1, .constInt 32 0)],
    blocks := [{ id := 0, name := "BB01", parent := "Sample__Method" }],
    nextBlockId := 1,
    builder := { block := some 0 } }

/-- The callee's shadow-stack pointer, among instructions `l`: the current function's
argument 0 itself when the method's shadow-stack locals take no space, otherwise the result
of an address computation in `l` that advances argument 0 by the constant size in bytes. -/
def IsCalleeShadowStack (c : Compiler) (arg0 : Value) (l : List Instruction) (ss : Value) :
    Prop :=
  (c.shadowStackLocalsSize = 0 ∧ ss = arg0) ∨
  (c.shadowStackLocalsSize ≠ 0 ∧
    ∃ g ∈ l, g.opcode = .GEP ∧ g.operands = [arg0, getInt32 c.shadowStackLocalsSize] ∧
      ss = .inst g.id g.ty)

/-! ## Declarations of the module -/

/-- The number of functions the module holds under a name. -/
def Llvm.functionCount (s : Llvm) (name : String) : Nat :=
  (s.functions.filter (fun f => f.name = name)).length

/-- The number of global variables the module holds under a name. -/
def Llvm.globalCount (s : Llvm) (name : String) : Nat :=
  (s.globals.filter (fun g => g.name = name)).length

/-- A lookup of the function declaration `name` is idempotent: a declaration the module
already holds under the name is returned in the untouched state; and the lookup always
returns a declaration, after which the module holds it under the name, a second lookup
returns the same declaration and changes nothing, and a module that held at most one
declaration under the name holds exactly one. -/
def IdempotentLookup (name : String) (lookup : M LFunction) : Prop :=
  ∀ s : Llvm,
    (∀ f, s.getFunction name = some f → lookup s = .ok f s) ∧
    (∃ f s1, lookup s = .ok f s1 ∧ lookup s1 = .ok f s1 ∧ s1.getFunction name = some f ∧
      (s.functionCount name ≤ 1 → s1.functionCount name = 1))

/-- A lookup of the global variable `name` is idempotent, in the sense of
`IdempotentLookup`. -/
def IdempotentSymbolLookup (name : String) (lookup : M Value) : Prop :=
  ∀ s : Llvm,
    (∀ g, s.getGlobalVariable name = some g →
      lookup s = .ok (.globalVariable g.name g.valueTy) s) ∧
    (∃ v s1, lookup s = .ok v s1 ∧ lookup s1 = .ok v s1 ∧
      (∃ g, s1.getGlobalVariable name = some g ∧ v = .globalVariable g.name g.valueTy) ∧
      (s.globalCount name ≤ 1 → s1.globalCount name = 1))

/-! ## Call arguments -/

/-- A state in which nodes 1 and 2 carry the function arguments 1 and 2 and the builder
stands at the end of target block 0. -/
def sampleOperandState : Llvm :=
  { sdsuMap := [(1, .argument 1 (.int 32)), (2, .argument 2 (.int 32))],
    blocks := [{ id := 0, name := "BB01", parent := "Sample__Method" }],
    nextBlockId := 1,
    builder := { block := some 0 } }

/-! ## Phi operands that need a conversion -/

/-- A pending phi of type `i32` (instruction 5) with one operand, version 1 of local 0
arriving from block 1. -/
def sampleOnePhi : GenTree :=
  .withUses { id := 20, gtOper := .GT_PHI }
    [({}, .leaf { id := 21, gtOper := .GT_PHI_ARG, lclNum := 0, ssaNum := 1, gtPredBB := 1 })]

/-- The state after a walk in which the operand of the pending phi is materialised as the
value `v`; target block 10 of block 1 ends in a branch (instruction 6) to target block 11,
where the builder stands. -/
def samplePhiState (v : Value) : Llvm :=
  { function := some { name := "Sample__Method", fty := .func .void [getInt8PtrTy] },
    blocks := [{ id := 10, name := "BB01", parent := "Sample__Method",
                 insts := [{ id := 6, opcode := .Br, ty := .void, targets := [11] }] },
               { id := 11, name := "BB02", parent := "Sample__Method",
                 insts := [{ id := 5, opcode := .PHI, ty := .int 32 }] }],
    nextValueId := 8, nextBlockId := 12,
    builder := { block := some 11 },
    localsMap := [((0, 1), v)],
    blkToLlvmBlkVectorMap := [(1, 10), (2, 11)],
    phiPairs := [{ irPhiNode := sampleOnePhi, llvmPhiNode := .inst 5 (.int 32) }],
    lvaTable := [{ lvType := .TYP_INT, lvRefCnt := 3, lvInSsa := true }] }

/-- The addition of nodes 1 and 2, node 3. -/
def sampleAddNode : GenTree :=
  .binary { id := 3, gtOper := .GT_ADD }
    (.leaf { id := 1, gtOper := .GT_LCL_VAR, lclNum := 0, ssaNum := 1 })
    (.leaf { id := 2, gtOper := .GT_LCL_VAR, lclNum := 1, ssaNum := 1 })

/-- A front end whose method has 8 bytes of shadow-stack locals. -/
def sampleFrameCompiler : Compiler := { sampleCompiler with shadowStackLocalsSize := 8 }

/-- A state whose current function has the shadow stack as its argument 0 and whose builder
stands at the end of target block 0. -/
def sampleFunctionState : Llvm :=
  { function := some { name := "Sample__Method", fty := .func .void [getInt8PtrTy] },
    functions := [{ name := "Sample__Method", fty := .func .void [getInt8PtrTy] }],
    blocks := [{ id := 0, name := "BB01", parent := "Sample__Method" }],
    nextBlockId := 1,
    builder := { block := some 0 } }

/-- A fallthrough block, block 1, whose lexical successor is block 2. -/
def sampleFallthroughBlock : BasicBlock :=
  { bbNum := 1, bbJumpKind := .BBJ_NONE, bbNext := some 2 }

/-! ## Memory accesses -/

/-- The instruction accesses memory on behalf of an IR node: a load, a store, a memory fill
or copy, or a call of a write barrier. -/
def Instruction.isAccess (i : Instruction) : Bool :=
  i.opcode == .Load || i.opcode == .Store || i.opcode == .MemSet || i.opcode == .MemCpy ||
    i.isCallTo "RhpAssignRef" || i.isCallTo "RhpCheckedAssignRef"

/-- The symbol of the throw helper that the throw-if-null function calls is not a
write-barrier symbol. -/
def ThrowHelperIsNoBarrier (c : Compiler) : Prop :=
  c.GetMangledMethodName
      (c.GetCompilerHelpersMethodHandle "ThrowHelpers" "ThrowNullReferenceException")
    ≠ "RhpAssignRef" ∧
  c.GetMangledMethodName
      (c.GetCompilerHelpersMethodHandle "ThrowHelpers" "ThrowNullReferenceException")
    ≠ "RhpCheckedAssignRef"

/-- How a field of a struct is written to memory. -/
inductive FieldWrite where
  | checkedBarrier
  | plainStore
  deriving DecidableEq, Repr

/-- The field write an instruction performs, if it performs one: a call of the checked write
barrier, or a plain store. -/
def Instruction.fieldWrite (i : Instruction) : Option FieldWrite :=
  if i.isCallTo "RhpCheckedAssignRef" then some .checkedBarrier
  else if i.opcode = .Store then some .plainStore
  else none

/-- The target type of the value of a field within data of type `dataTy`: the element that
contains the field's offset, or the data itself when it is not a target struct. -/
def fieldValueType (c : Compiler) (dataTy : LType) (fd : FieldDesc) : LType :=
  if dataTy.isStructTy then
    c.getStructElementType dataTy (c.getElementContainingOffset dataTy fd.fieldOffset)
  else dataTy

mutual
/-- The leaf fields of a layout for data of type `dataTy`, in layout order: the fields whose
value is not itself a target struct, those of nested structs included. -/
def leafFields (c : Compiler) (dataTy : LType) : StructDesc → List FieldDesc
  | .mk fields _ => leafFieldsOf c dataTy fields
/-- The leaf fields of a list of fields. -/
def leafFieldsOf (c : Compiler) (dataTy : LType) :
    List (FieldDesc × Option StructDesc) → List FieldDesc
  | [] => []
  | (fd, none) :: rest =>
    (if (fieldValueType c dataTy fd).isStructTy then [] else [fd]) ++ leafFieldsOf c dataTy rest
  | (fd, some sd) :: rest =>
    (if (fieldValueType c dataTy fd).isStructTy then leafFields c (fieldValueType c dataTy fd) sd
     else [fd]) ++ leafFieldsOf c dataTy rest
end

/-- The way the leaf field is to be written: through the checked barrier if it is a
garbage-collected pointer, by a plain store otherwise. -/
def FieldDesc.expectedWrite (fd : FieldDesc) : FieldWrite :=
  if fd.isGcPointer then .checkedBarrier else .plainStore

/-- The field writes among instructions `l` are exactly `ws`, in order. -/
structure Writes {α : Type} (ws : List FieldWrite) (m : M α) : Prop where
  run : ∀ s a s1, m s = .ok a s1 →
    ∃ l, s1.emitted = s.emitted ++ l ∧ l.filterMap Instruction.fieldWrite = ws

/-- Among instructions `l`, `dst` is `src` itself or the result of a conversion of `src`. -/
def CastOf (l : List Instruction) (src dst : Value) : Prop :=
  dst = src ∨ ∃ g ∈ l, g.opcode.isConversion = true ∧ g.operands = [src] ∧ dst = .inst g.id g.ty

/-- Between the states `s` and `s1` a handler created a call of the throw-if-null function
before any instruction that accesses memory: the instructions created are `l1`, the call,
`l2`, no instruction of `l1` accesses memory, and the arguments of the call are the callee's
shadow-stack pointer and, as a byte pointer, the value recorded for `addrNode` (itself or
converted). -/
def NullCheckFirst (c : Compiler) (addrNode : GenTree) (s s1 : Llvm) : Prop :=
  ∃ l1 callI l2 fty ss addr8 f arg0 raw addrValue,
    s1.emitted = s.emitted ++ l1 ++ [callI] ++ l2 ∧ (∀ i ∈ l1, i.isAccess = false) ∧
    callI.opcode = .Call ∧
    callI.operands = [.function "nativeaot.throwifnull" fty, ss, addr8] ∧
    s.function = some f ∧ f.getArg 0 = some arg0 ∧ IsCalleeShadowStack c arg0 l1 ss ∧
    tableLookup s.sdsuMap addrNode.id = some raw ∧
    CastOf l1 raw addrValue ∧ CastOf l1 addrValue addr8 ∧ addr8.getType = getInt8PtrTy

/-- Between the states `s` and `s1` no call of the throw-if-null function was created. -/
def NoNullCheck (s s1 : Llvm) : Prop :=
  ∃ l, s1.emitted = s.emitted ++ l ∧ ∀ i ∈ l, i.isCallTo "nativeaot.throwifnull" = false

/-- The null-check contract of a handler for a node with address operand `addrNode`: when
the handler returns, with the known-non-faulting flag clear the throw-if-null call comes
before every memory access, and with the flag set there is no throw-if-null call. -/
def NullCheckContract (c : Compiler) (node : GenTree) (handler : M Unit) : Prop :=
  ∀ s s1 addrNode, node.gtOp1 = some addrNode → handler s = .ok () s1 →
    (node.d.GTF_IND_NONFAULTING = false → NullCheckFirst c addrNode s s1) ∧
    (node.d.GTF_IND_NONFAULTING = true → NoNullCheck s s1)

/-! ## Concrete inputs for the memory handlers -/

/-- An indirect load of type `INT` through the address node 1, node 7, with the
known-non-faulting flag clear. -/
def sampleIndNode : GenTree :=
  .unary { id := 7, gtOper := .GT_IND, gtType := .TYP_INT }
    (.leaf { id := 1, gtOper := .GT_LCL_VAR, gtType := .TYP_BYREF })

/-- A state whose current function has the shadow stack as its argument 0, in which node 1
carries a pointer to `i32` and node 2 carries a value of the struct type 0. -/
def sampleMemoryState : Llvm :=
  { function := some { name := "Sample__Method", fty := .func .void [getInt8PtrTy] },
    functions := [{ name := "Sample__Method", fty := .func .void [getInt8PtrTy] }],
    blocks := [{ id := 0, name := "BB01", parent := "Sample__Method" }],
    nextBlockId := 1, nextValueId := 5,
    builder := { block := some 0 },
    sdsuMap := [(1, .inst 3 (.ptr (.int 32))), (2, .inst 4 (.struct 0))] }

/-- A front end whose struct 0 has two fields: a garbage-collected pointer at offset 0 and an
`INT` at offset 4. -/
def sampleGcCompiler : Compiler :=
  { sampleCompiler with
    getStructDesc := fun _ =>
      .mk [({ fieldOffset := 0, isGcPointer := true }, none), ({ fieldOffset := 4 }, none)] false
    getElementContainingOffset := fun _ off => off / 4
    getStructElementType := fun _ idx => if idx = 0 then .ptr (.int 8) else .int 32 }

/-- A store of node 2, a value of struct 0, through the address node 1; node 3. -/
def sampleStoreObjNode : GenTree :=
  .binary { id := 3, gtOper := .GT_STORE_OBJ, gtType := .TYP_STRUCT,
            layout := { size := 8, hasGCPtr := true, classHandle := 0 } }
    (.leaf { id := 1, gtOper := .GT_LCL_VAR, gtType := .TYP_BYREF })
    (.leaf { id := 2, gtOper := .GT_LCL_VAR, gtType := .TYP_STRUCT })

/-! ## Placement of the conversions of phi operands -/

/-- Every returning run of a lowering step relates the state before and the state after
by `R`. -/
structure Relates {α : Type} (R : Llvm → Llvm → Prop) (m : M α) : Prop where
  run : ∀ s a s1, m s = .ok a s1 → R s s1

/-- The insertion block and the insertion point of `_builder` are the same in two states. -/
def SameInsertionPoint (s s1 : Llvm) : Prop :=
  s1.builder.block = s.builder.block ∧ s1.builder.before = s.builder.before

/-- The block that holds the instruction with a given id. -/
def Llvm.blockOfInst (s : Llvm) (instId : Nat) : Option Nat :=
  (s.blocks.find? (fun b => b.insts.any (fun i => i.id == instId))).map (fun b => b.id)

/-- The state after the walk of a single-block loop: target block 10 of block 1 holds the
pending phi of type `i32` (instruction 5) and ends with a branch to itself (instruction 6);
the operand of the phi arrives from block 1 itself and is materialised as a 64-bit
integer. -/
def sampleSelfLoopState : Llvm :=
  { function := some { name := "Sample__Method", fty := .func .void [getInt8PtrTy] },
    blocks := [{ id := 10, name := "BB01", parent := "Sample__Method",
                 insts := [{ id := 5, opcode := .PHI, ty := .int 32 },
                           { id := 6, opcode := .Br, ty := .void, targets := [10] }] }],
    nextValueId := 7, nextBlockId := 11,
    builder := { block := some 10 },
    localsMap := [((0, 1), .argument 1 (.int 64))],
    blkToLlvmBlkVectorMap := [(1, 10)],
    phiPairs := [{ irPhiNode := sampleOnePhi, llvmPhiNode := .inst 5 (.int 32) }],
    lvaTable := [{ lvType := .TYP_INT, lvRefCnt := 3, lvInSsa := true }] }

/-- The state `samplePhiState` in which the operand of the pending `i32` phi is materialised
as a 64-bit integer. -/
def sampleWidePhiState : Llvm := samplePhiState (.argument 1 (.int 64))

/-- The operand of `sampleOnePhi`: version 1 of local 0 arriving from block 1. -/
def samplePhiUse : UseData × GenTree :=
  ({}, .leaf { id := 21, gtOper := .GT_PHI_ARG, lclNum := 0, ssaNum := 1, gtPredBB := 1 })

/-! ## Comparisons -/

/-- The predicate of a comparison in the words of the specification.  For operands of
integer or pointer kind: integer equal and not-equal for `EQ` and `NE` whatever the unsigned
flag, and for `LE`, `LT`, `GE`, `GT` the unsigned integer predicate when the node is flagged
unsigned and the signed one otherwise.  For floating operands: the unordered floating
predicate when the NaN-unordered flag is set and the ordered one otherwise, whatever the
unsigned flag. -/
def specCmpPredicate (oper : genTreeOps) (intKind isUnsigned nanUnordered : Bool) :
    Option Predicate :=
  if intKind then
    match oper with
    | .GT_EQ => some .ICMP_EQ
    | .GT_NE => some .ICMP_NE
    | .GT_LE => some (if isUnsigned then .ICMP_ULE else .ICMP_SLE)
    | .GT_LT => some (if isUnsigned then .ICMP_ULT else .ICMP_SLT)
    | .GT_GE => some (if isUnsigned then .ICMP_UGE else .ICMP_SGE)
    | .GT_GT => some (if isUnsigned then .ICMP_UGT else .ICMP_SGT)
    | _ => none
  else
    match oper with
    | .GT_EQ => some (if nanUnordered then .FCMP_UEQ else .FCMP_OEQ)
    | .GT_NE => some (if nanUnordered then .FCMP_UNE else .FCMP_ONE)
    | .GT_LE => some (if nanUnordered then .FCMP_ULE else .FCMP_OLE)
    | .GT_LT => some (if nanUnordered then .FCMP_ULT else .FCMP_OLT)
    | .GT_GE => some (if nanUnordered then .FCMP_UGE else .FCMP_OGE)
    | .GT_GT => some (if nanUnordered then .FCMP_UGT else .FCMP_OGT)
    | _ => none

/-- The unsigned comparison `a < b` of the two `INT` parameters: node 3 with the operand
nodes 1 and 2. -/
def sampleCmpNode : GenTree :=
  .binary { id := 3, gtOper := .GT_LT, GTF_UNSIGNED := true }
    (.leaf { id := 1, gtOper := .GT_LCL_VAR, lclNum := 0, ssaNum := 1 })
    (.leaf { id := 2, gtOper := .GT_LCL_VAR, lclNum := 1, ssaNum := 1 })

/-! ## Casts -/

/-- Between the states `sA` and `s1` exactly one instruction was created, `op` applied to
`v` with result type `T`, and its result is the value recorded for `node`. -/
def EmitsOneAs (sA s1 : Llvm) (node : GenTree) (op : Opcode) (T : LType) (v : Value) : Prop :=
  ∃ i : Instruction, s1.emitted = sA.emitted ++ [i] ∧ i.opcode = op ∧ i.ty = T ∧
    i.operands = [v] ∧ tableLookup s1.sdsuMap node.id = some (.inst i.id T)

/-- The operand of the sample casts: the read of the `INT` parameter `a`, node 1. -/
def sampleCastOperand : GenTree :=
  .leaf { id := 1, gtOper := .GT_LCL_VAR, lclNum := 0, ssaNum := 1 }

/-- A cast of node 1, an `INT`, to the type `castTo`, flagged unsigned or not: node 3. -/
def sampleCast (castTo : var_types) (isUnsigned : Bool) : GenTree :=
  .unary { id := 3, gtOper := .GT_CAST, gtCastType := castTo, GTF_UNSIGNED := isUnsigned }
    sampleCastOperand

/-- The operand of the sample floating cast: a `DOUBLE` constant, node 1. -/
def sampleDoubleOperand : GenTree :=
  .leaf { id := 1, gtOper := .GT_CNS_DBL, gtType := .TYP_DOUBLE }

/-- A cast of node 1, a `DOUBLE`, to the type `castTo`, flagged unsigned or not: node 3. -/
def sampleDoubleCast (castTo : var_types) (isUnsigned : Bool) : GenTree :=
  .unary { id := 3, gtOper := .GT_CAST, gtCastType := castTo, GTF_UNSIGNED := isUnsigned }
    sampleDoubleOperand

/-- A state in which node 1 carries a `double` constant and the builder stands at the end of
target block 0. -/
def sampleDoubleOperandState : Llvm :=
  { sdsuMap := [(1, .constFP .double 0)],
    blocks := [{ id := 0, name := "BB01", parent := "Sample__Method" }],
    nextBlockId := 1,
    builder := { block := some 0 } }

/-- A dynamic-extent stack allocation whose size is the `INT` parameter read by node 1:
node 3. -/
def sampleDynamicLclHeap : GenTree :=
  .unary { id := 3, gtOper := .GT_LCLHEAP, gtType := .TYP_BYREF } sampleCastOperand

/-! ## Operands read without normalisation -/

/-- A conditional branch on the comparison `sampleCmpNode`: node 4. -/
def sampleJTrueNode : GenTree :=
  .unary { id := 4, gtOper := .GT_JTRUE, gtType := .TYP_VOID } sampleCmpNode

/-- A state in the walk of block 1, a conditional block with jump target block 2 and
successor block 3: the comparison, node 3, carries the 1-bit value of instruction 0, and the
builder stands at the end of target block 10. -/
def sampleBranchState : Llvm :=
  { blocks := [{ id := 10, name := "BB01", parent := "Sample__Method" },
               { id := 11, name := "BB02", parent := "Sample__Method" },
               { id := 12, name := "BB03", parent := "Sample__Method" }],
    nextBlockId := 13, nextValueId := 1,
    builder := { block := some 10 },
    blkToLlvmBlkVectorMap := [(1, 10), (2, 11), (3, 12)],
    currentBlock := some { bbNum := 1, bbJumpKind := .BBJ_COND, bbJumpDest := some 2,
                           bbNext := some 3 },
    sdsuMap := [(3, .inst 0 getInt1Ty)] }

/-- The callee of the sample indirect call: a read of a `LONG` local, node 1. -/
def sampleCalleeNode : GenTree :=
  .leaf { id := 1, gtOper := .GT_LCL_VAR, gtType := .TYP_LONG }

/-- An indirect call without arguments that returns nothing, through the address computed by
node 1: node 5. -/
def sampleIndirectCall : GenTree :=
  .mk { id := 5, gtOper := .GT_CALL, gtCallType := .CT_INDIRECT, gtType := .TYP_VOID }
    none none [] none (some sampleCalleeNode) []

/-- A state in which node 1 carries a 64-bit integer and the builder stands at the end of
target block 0. -/
def sampleWideCalleeState : Llvm :=
  { sdsuMap := [(1, .argument 1 (.int 64))],
    blocks := [{ id := 0, name := "BB01", parent := "Sample__Method" }],
    nextBlockId := 1,
    builder := { block := some 0 } }

/-! ## Helper calls -/

/-- A call of a runtime helper (method handle 1005, none that the code generator names) with
one `INT` argument, the value of node 1: node 5. -/
def sampleHelperCall : GenTree :=
  .mk { id := 5, gtOper := .GT_CALL, gtCallType := .CT_HELPER, gtCallMethHnd := 1005,
        gtType := .TYP_INT }
    none none
    [({}, .leaf { id := 1, gtOper := .GT_LCL_VAR })]
    none none
    [(0, .leaf { id := 1, gtOper := .GT_LCL_VAR })]

/-- A state whose current function has the shadow stack as its argument 0, in which node 1
carries the function argument 1 and the builder stands at the end of target block 0. -/
def sampleHelperState : Llvm :=
  { sampleFunctionState with sdsuMap := [(1, .argument 1 (.int 32))] }

/-! ## The writes of `storeObjAtAddress`, field by field -/

/-- Among instructions `l`, `a` is the address `b` advanced by `o` bytes: `b` itself when
`o` is 0, otherwise the result of an address computation in `l` that advances `b` by the
constant `o`. -/
def AdvancedBy (l : List Instruction) (b : Value) (o : Nat) (a : Value) : Prop :=
  (o = 0 ∧ a = b) ∨
  (o ≠ 0 ∧ ∃ g ∈ l, g.opcode = .GEP ∧ g.operands = [b, getInt32 o] ∧ a = .inst g.id g.ty)

/-- Among instructions `l`, `a` is the address reached from `b` by advancing by each of the
offsets `path` in turn, outermost field first. -/
def AddressAt (l : List Instruction) : Value → List Nat → Value → Prop
  | b, [], a => a = b
  | b, o :: rest, a => ∃ m, AdvancedBy l b o m ∧ AddressAt l m rest a

/-- The instruction `w` writes the leaf field `fd`, reached from the base address through
the field offsets `path`: for a garbage-collected pointer it is a call of the checked write
barrier with the field address and the value as a byte pointer, for any other field a store
of the value through the field address (itself or converted to a pointer to the value's
type). -/
def WritesLeaf (l : List Instruction) (base : Value) (path : List Nat) (fd : FieldDesc)
    (w : Instruction) : Prop :=
  ∃ addr, AddressAt l base path addr ∧
    ((fd.isGcPointer = true ∧ ∃ fty v8, w.opcode = .Call ∧
        w.operands = [.function "RhpCheckedAssignRef" fty, addr, v8] ∧
        v8.getType = getInt8PtrTy) ∨
     (fd.isGcPointer = false ∧ ∃ v typedAddr, w.opcode = .Store ∧
        w.operands = [v, typedAddr] ∧ CastOf l addr typedAddr))

mutual
/-- The leaf fields of a layout for data of type `dataTy`, in layout order, each with the
offsets of the fields that lead to it, outermost first and its own offset last. -/
def leafPaths (c : Compiler) (dataTy : LType) : StructDesc → List (List Nat × FieldDesc)
  | .mk fields _ => leafPathsOf c dataTy fields
/-- The leaf fields, with their offset paths, of a list of fields. -/
def leafPathsOf (c : Compiler) (dataTy : LType) :
    List (FieldDesc × Option StructDesc) → List (List Nat × FieldDesc)
  | [] => []
  | (fd, none) :: rest =>
    (if (fieldValueType c dataTy fd).isStructTy then [] else [([fd.fieldOffset], fd)]) ++
      leafPathsOf c dataTy rest
  | (fd, some sd) :: rest =>
    (if (fieldValueType c dataTy fd).isStructTy then
        (leafPaths c (fieldValueType c dataTy fd) sd).map (fun p => (fd.fieldOffset :: p.1, p.2))
     else [([fd.fieldOffset], fd)]) ++ leafPathsOf c dataTy rest
end

/-- The field writes among the instructions a returning step creates are, one for one and in
order, writes of the leaves `leaves` relative to the address `base`. -/
structure WritesAt {α : Type} (base : Value) (leaves : List (List Nat × FieldDesc)) (m : M α) :
    Prop where
  run : ∀ s a s1, m s = .ok a s1 →
    ∃ l, s1.emitted = s.emitted ++ l ∧
      List.Forall₂ (fun w (leaf : List Nat × FieldDesc) => WritesLeaf l base leaf.1 leaf.2 w)
        (l.filter (fun i => i.fieldWrite.isSome)) leaves

/-- A struct of a garbage-collected pointer at offset 0 and, at offset 8, a nested struct of
an `INT` at offset 0 and a garbage-collected pointer at offset 4. -/
def sampleNestedDesc : StructDesc :=
  .mk [({ fieldOffset := 0, isGcPointer := true }, none),
       ({ fieldOffset := 8, classHandle := some 1 },
          some (.mk [({ fieldOffset := 0 }, none),
                     ({ fieldOffset := 4, isGcPointer := true }, none)] false))] false

/-- A front end for `sampleNestedDesc`: the target struct 0 has the pointer as element 0 and
the target struct 1 as element 1, and the target struct 1 has an `i32` as element 0 and a
pointer as element 1. -/
def sampleNestedCompiler : Compiler :=
  { sampleCompiler with
    getElementContainingOffset := fun ty off =>
      if ty = .struct 0 then off / 8 else off / 4
    getStructElementType := fun ty idx =>
      if ty = .struct 0 then (if idx = 0 then .ptr (.int 8) else .struct 1)
      else (if idx = 0 then .int 32 else .ptr (.int 8)) }


/-! ## Samples and predicates for stores, locals and helper calls -/

/-- A store of node 2, a managed reference, through the address node 1; node 7. -/
def sampleStoreIndNode : GenTree :=
  .binary { id := 7, gtOper := .GT_STOREIND, gtType := .TYP_REF }
    (.leaf { id := 1, gtOper := .GT_LCL_VAR, gtType := .TYP_BYREF })
    (.leaf { id := 2, gtOper := .GT_LCL_VAR, gtType := .TYP_REF })

/-- A state whose current function has the shadow stack as its argument 0, in which node 1
carries a pointer to `i32` and node 2 carries a byte pointer. -/
def sampleStoreIndState : Llvm :=
  { function := some { name := "Sample__Method", fty := .func .void [getInt8PtrTy] },
    functions := [{ name := "Sample__Method", fty := .func .void [getInt8PtrTy] }],
    blocks := [{ id := 0, name := "BB01", parent := "Sample__Method" }],
    nextBlockId := 1, nextValueId := 5,
    builder := { block := some 0 },
    sdsuMap := [(1, .inst 3 (.ptr (.int 32))), (2, .inst 4 getInt8PtrTy)] }

/-- A front end whose GC-info classifier reports the given barrier form for every store. -/
def sampleBarrierCompiler (wbf : WriteBarrierForm) : Compiler :=
  { sampleCompiler with gcIsWriteBarrierCandidate := fun _ => wbf }

/-- A state with one local, a `LONG` in SSA with one reference, in which node 2 carries a
64-bit value. -/
def sampleLongLocalState : Llvm :=
  { function := some { name := "Sample__Method", fty := .func .void [getInt8PtrTy] },
    functions := [{ name := "Sample__Method", fty := .func .void [getInt8PtrTy] }],
    blocks := [{ id := 0, name := "BB01", parent := "Sample__Method" }],
    nextBlockId := 1, nextValueId := 5,
    builder := { block := some 0 },
    lvaTable := [{ lvType := .TYP_LONG, lvRefCnt := 1, lvInSsa := true }],
    sdsuMap := [(2, .inst 4 (.int 64))] }

/-- The store of node 2 to the SSA number 2 of local 0; node 3. -/
def sampleStoreLclNode : GenTree :=
  .unary { id := 3, gtOper := .GT_STORE_LCL_VAR, gtType := .TYP_LONG, lclNum := 0, ssaNum := 2 }
    (.leaf { id := 2, gtOper := .GT_LCL_VAR, gtType := .TYP_LONG })

/-- The read of the SSA number 2 of local 0 as an `INT`; node 5. -/
def sampleReadLclNode : GenTree :=
  .leaf { id := 5, gtOper := .GT_LCL_VAR, gtType := .TYP_INT, lclNum := 0, ssaNum := 2 }

/-- A call of a runtime helper (method handle 1005, none that the code generator names) with
an `INT` argument, the value of node 1, and a `LONG` argument, the value of node 2, whose
argument table lists the second argument first: node 5. -/
def sampleSwappedHelperCall : GenTree :=
  .mk { id := 5, gtOper := .GT_CALL, gtCallType := .CT_HELPER, gtCallMethHnd := 1005,
        gtType := .TYP_INT }
    none none
    [({}, .leaf { id := 1, gtOper := .GT_LCL_VAR }),
     ({}, .leaf { id := 2, gtOper := .GT_LCL_VAR, gtType := .TYP_LONG })]
    none none
    [(1, .leaf { id := 2, gtOper := .GT_LCL_VAR, gtType := .TYP_LONG }),
     (0, .leaf { id := 1, gtOper := .GT_LCL_VAR })]

/-- A state whose current function has the shadow stack as its argument 0, in which node 1
carries the function argument 1, a 32-bit integer, and node 2 the function argument 2, a
64-bit integer. -/
def sampleTwoArgState : Llvm :=
  { sampleFunctionState with
    sdsuMap := [(1, .argument 1 (.int 32)), (2, .argument 2 (.int 64))] }

/-! ## The padding copies of `storeObjAtAddress` -/

/-- Among instructions `l`, the copy `m` fills the gap before offset `stop` of the object at
`b`: it copies `stop - start` bytes to `b` advanced by `start`, an offset below `stop`, from
`b` advanced by `stop`. -/
def GapCopy (l : List Instruction) (b : Value) (m : Instruction) : Prop :=
  ∃ (start stop : Nat) (dest src : Value) (sz : Nat),
    start < stop ∧ m.operands = [dest, src, getInt64 (Int.ofNat sz)] ∧
    AdvancedBy l b start dest ∧ AdvancedBy l b stop src ∧ (stop < 2 ^ 32 → sz = stop - start)

/-- Among instructions `l`, the copy `m` is a trailing copy of the object at `b`: it copies
`stop - start` bytes to `b` advanced by `start` from the result of an address computation
that advances `b` by `start` as well. -/
def TrailingCopy (l : List Instruction) (b : Value) (m : Instruction) : Prop :=
  ∃ (start stop : Nat) (dest src : Value) (sz : Nat),
    start < stop ∧ m.operands = [dest, src, getInt64 (Int.ofNat sz)] ∧
    AdvancedBy l b start dest ∧
    (∃ g ∈ l, g.opcode = .GEP ∧ g.operands = [b, getInt32 start] ∧ src = .inst g.id g.ty) ∧
    (stop < 2 ^ 32 → sz = stop - start)

/-- Among instructions `l`, the copy `m` is a padding copy of a store to the object at
`base`: a gap copy or a trailing copy of that object or of a nested object, whose address is
reached from `base` through field offsets. -/
def PaddingCopy (l : List Instruction) (base : Value) (m : Instruction) : Prop :=
  ∃ (path : List Nat) (b : Value), AddressAt l base path b ∧ (GapCopy l b m ∨ TrailingCopy l b m)

/-- Every byte copy a returning step creates is a padding copy of the object at `base`. -/
structure Copies {α : Type} (base : Value) (m : M α) : Prop where
  run : ∀ s a s1, m s = .ok a s1 →
    ∃ l, s1.emitted = s.emitted ++ l ∧ ∀ i ∈ l, i.opcode = .MemCpy → PaddingCopy l base i

/-- Every byte copy a returning step creates, in the handling of the field at offset `fo`
whose address is `address`, is a padding copy of the nested object at `address` or copies to
`base` advanced by an offset below `fo` from `address`. -/
structure CopiesFrom {α : Type} (base address : Value) (fo : Nat) (m : M α) : Prop where
  run : ∀ s a s1, m s = .ok a s1 →
    ∃ l, s1.emitted = s.emitted ++ l ∧ ∀ i ∈ l, i.opcode = .MemCpy →
      (PaddingCopy l address i ∨
        ∃ (start : Nat) (dest : Value) (sz : Nat), start < fo ∧
          i.operands = [dest, address, getInt64 (Int.ofNat sz)] ∧ AdvancedBy l base start dest ∧
          (fo < 2 ^ 32 → sz = fo - start))

/-- A layout with significant padding: at offset 0 a nested struct of a garbage-collected
pointer at offset 0 and an `INT` at offset 4, and at offset 8 an `INT`.  The fields are in
ascending order and do not overlap, and there is no gap between them (pointers are 4 bytes). -/
def samplePaddedDesc : StructDesc :=
  .mk [({ fieldOffset := 0, classHandle := some 1 },
          some (.mk [({ fieldOffset := 0, isGcPointer := true }, none),
                     ({ fieldOffset := 4 }, none)] false)),
       ({ fieldOffset := 8 }, none)] true

/-- A front end for `samplePaddedDesc`: the target struct 0 has the target struct 1 as
element 0 and an `i32` as element 1, and the target struct 1 has a byte pointer as element 0
and an `i32` as element 1. -/
def samplePaddedCompiler : Compiler :=
  { sampleCompiler with
    getElementContainingOffset := fun ty off =>
      if ty = .struct 0 then off / 8 else off / 4
    getStructElementType := fun ty idx =>
      if ty = .struct 0 then (if idx = 0 then .struct 1 else .int 32)
      else (if idx = 0 then .ptr (.int 8) else .int 32) }

/-- A layout with significant padding of a garbage-collected pointer at offset 0 and an `INT`
at offset 4, for a target struct of 12 bytes: the bytes from 8 to 12 are trailing padding. -/
def sampleTrailingDesc : StructDesc :=
  .mk [({ fieldOffset := 0, isGcPointer := true }, none), ({ fieldOffset := 4 }, none)] true

/-- The value a step returned, if it returned. -/
def Outcome.value? {α : Type} : Outcome α → Option α
  | .ok a _ => some a
  | .failed _ _ => none

/-! ## The initial values of locals -/

/-- The descriptor after line 194 of `initializeLocals`: the must-initialise flag says
whether the chosen initial value `iv` is the zero constant of the local's type. -/
def LclVarDsc.finalised (d : LclVarDsc) (c : Compiler) (iv : Option Value) : LclVarDsc :=
  { d with lvMustInit := decide (iv = some (.nullValue (c.getLlvmTypeForLclVar d))) }

/-- The state in which the descriptor of the local `n` is `d`. -/
def Llvm.withLocal (s : Llvm) (n : Nat) (d : LclVarDsc) : Llvm :=
  { s with lvaTable := s.lvaTable.set n d }

/-- The blocks after a builder placed the instructions `l`, in order. -/
def placeAll (b : IRBuilder) (l : List Instruction) (bs : List LBasicBlock) : List LBasicBlock :=
  l.foldl (fun acc i => insertAt b i acc) bs

/-- Between the states `s` and `s1` the prolog builder created and placed the instructions
`l`, nothing else was created or placed, and the prolog builder, the current function and the
sizes of the local table and of the slot vector are as before. -/
def PrologStep (l : List Instruction) (s s1 : Llvm) : Prop :=
  s1.emitted = s.emitted ++ l ∧ s1.blocks = placeAll s.prologBuilder l s.blocks ∧
  s1.prologBuilder = s.prologBuilder ∧ s1.function = s.function ∧
  s1.lvaTable.length = s.lvaTable.length ∧ s1.m_allocas.length = s.m_allocas.length ∧
  s1.nextBlockId = s.nextBlockId ∧ s1.blkToLlvmBlkVectorMap = s.blkToLlvmBlkVectorMap

/-- What a step left untouched for the local `j`: its descriptor, its slot and its entries in
the map of locals. -/
def LocalFrame (j : Nat) (s s1 : Llvm) : Prop :=
  s1.lvaTable[j]? = s.lvaTable[j]? ∧ s1.m_allocas[j]? = s.m_allocas[j]? ∧
  ∀ k, tableLookup s1.localsMap (j, k) = tableLookup s.localsMap (j, k)

/-- The value `v` is the initial value that goes with the choice `iv` of `initialValueOf` for
a local with descriptor `d`: the chosen value itself, or, when none was chosen, the result of
an instruction among `l` that freezes the undefined value of the local's type. -/
def ChosenValue (c : Compiler) (d : LclVarDsc) (l : List Instruction) (iv : Option Value)
    (v : Value) : Prop :=
  iv = some v ∨
  (iv = none ∧ ∃ fr ∈ l, fr.opcode = .Freeze ∧
    fr.operands = [.undef (c.getLlvmTypeForLclVar d)] ∧
    v = .inst fr.id (c.getLlvmTypeForLclVar d))

/-- Among the instructions `l`, the local `n` of type `T` got a slot initialised with `v`: an
allocation of `T` immediately followed by a store of `v` through it, and the allocation is
the local's entry in the slot vector `allocas`. -/
def SlotWith (l : List Instruction) (allocas : List (Option Value)) (n : Nat) (T : LType)
    (v : Value) : Prop :=
  ∃ (l1 l2 : List Instruction) (a st : Instruction),
    l = l1 ++ [a, st] ++ l2 ∧ a.opcode = .Alloca T ∧ st.opcode = .Store ∧
    st.operands = [v, .inst a.id T.getPointerTo] ∧
    allocas[n]? = some (some (.inst a.id T.getPointerTo))

/-- What the loop of `initializeLocals` did for the local `n` whose descriptor was `d`, as
seen in the state `sF` after it; `l` are the instructions created, `fn` the current function,
`m0` the map of locals and `a0` the local's entry of the slot vector before the loop.
Either the local was skipped (no references, not storable on the stack, or no initial value
to give) and its descriptor, slot and map entries are as before; or it was processed to the
end: its must-initialise flag is finalised for the choice `iv`, and the initial value `v`
that goes with the choice is stored in a fresh slot when the local is not in SSA and is the
entry of its first SSA number otherwise. -/
def LocalInit (c : Compiler) (n : Nat) (d : LclVarDsc) (fn : Option LFunction)
    (m0 : List ((Nat × Nat) × Value)) (a0 : Option (Option Value)) (l : List Instruction)
    (sF : Llvm) : Prop :=
  ((d.lvRefCnt = 0 ∨ c.canStoreLocalOnLlvmStack d = false ∨
      ∃ t : Llvm, t.function = fn ∧
        initialValueOf c n d (.nullValue (c.getLlvmTypeForLclVar d)) t = .ok none t) ∧
    sF.lvaTable[n]? = some d ∧ sF.m_allocas[n]? = a0 ∧
    ∀ k, tableLookup sF.localsMap (n, k) = tableLookup m0 (n, k)) ∨
  (d.lvRefCnt ≠ 0 ∧ c.canStoreLocalOnLlvmStack d = true ∧
    ∃ (iv : Option Value) (v : Value),
      (∃ t : Llvm, t.function = fn ∧
        initialValueOf c n d (.nullValue (c.getLlvmTypeForLclVar d)) t = .ok (some iv) t) ∧
      sF.lvaTable[n]? = some (d.finalised c iv) ∧ ChosenValue c d l iv v ∧
      ((d.lvInSsa = false ∧ SlotWith l sF.m_allocas n (c.getLlvmTypeForLclVar d) v ∧
          ∀ k, tableLookup sF.localsMap (n, k) = tableLookup m0 (n, k)) ∨
       (d.lvInSsa = true ∧ tableLookup sF.localsMap (n, FIRST_SSA_NUM) = some v ∧
          (∀ k, k ≠ FIRST_SSA_NUM →
            tableLookup sF.localsMap (n, k) = tableLookup m0 (n, k)) ∧
          sF.m_allocas[n]? = a0 ∧
          (c.debug = true → tableLookup m0 (n, FIRST_SSA_NUM) = none))))

/-- The value `v` is the result of an instruction among `l` that freezes the undefined value
of type `T`. -/
def FrozenUndef (l : List Instruction) (T : LType) (v : Value) : Prop :=
  ∃ fr ∈ l, fr.opcode = .Freeze ∧ fr.operands = [.undef T] ∧ v = .inst fr.id T

/-- The `continue` of lines 160 and 168 of `initializeLocals`: the local is no parameter, is
in SSA, and its first SSA definition is absent or has an explicit defining assignment. -/
def LclVarDsc.noInitialValue (d : LclVarDsc) : Prop :=
  d.lvIsParam = false ∧ d.lvInSsa = true ∧
  ∀ fd, d.lvPerSsaData.head? = some fd → fd.hasAssignment = true

/-- The choice `iv` of lines 146 to 193 of `initializeLocals` for a local that is given an
initial value, with `z` the zero constant and `fn` the current function: the argument of a
parameter; for a local in SSA with an implicit first definition, `z` when the must-initialise
flag is set and nothing otherwise; for a local not in SSA, `z` when it has no explicit
initialisation, needs no explicit zero initialisation in the body, and is untracked or has
the must-initialise flag set, and nothing otherwise. -/
def InitialChoice (c : Compiler) (n : Nat) (d : LclVarDsc) (z : Value) (fn : Option LFunction)
    (iv : Option Value) : Prop :=
  (d.lvIsParam = true ∧ ∃ k f arg, d.lvLlvmArgNum = some k ∧ fn = some f ∧
      f.getArg k = some arg ∧ iv = some arg) ∨
  (d.lvIsParam = false ∧ d.lvInSsa = true ∧
      (∃ fd, d.lvPerSsaData.head? = some fd ∧ fd.hasAssignment = false) ∧
      iv = if d.lvMustInit = true then some z else none) ∨
  (d.lvIsParam = false ∧ d.lvInSsa = false ∧
      iv = if (!d.lvHasExplicitInit && !c.fgVarNeedsExplicitZeroInit n &&
               (!d.lvTracked || d.lvMustInit)) = true then some z else none)

/-- The initial value of the local `n`, of type `T`, in the state `sF` after the instructions
`l` were created is `v`: stored in the local's slot when the local is not in SSA, the entry
of its first SSA number otherwise. -/
def InitialisedWith (l : List Instruction) (sF : Llvm) (n : Nat) (d : LclVarDsc) (T : LType)
    (v : Value) : Prop :=
  (d.lvInSsa = false ∧ SlotWith l sF.m_allocas n T v) ∨
  (d.lvInSsa = true ∧ tableLookup sF.localsMap (n, FIRST_SSA_NUM) = some v)

/-- The local `n` was left alone between `s` and `sF`: its descriptor is still `d`, it has no
slot, and its entries in the map of locals are those of `s`. -/
def LeftAlone (n : Nat) (d : LclVarDsc) (s sF : Llvm) : Prop :=
  sF.lvaTable[n]? = some d ∧ sF.m_allocas[n]? = some none ∧
  ∀ k, tableLookup sF.localsMap (n, k) = tableLookup s.localsMap (n, k)

/-- What a read of a local hands to its node `rd`, given the value `ref` of the local and the
instructions `l` created so far: `ref` itself with nothing more created, or the result of one
truncation of `ref` to 32 bits. -/
def ReadYields (ref : Value) (rd : GenTree) (l : List Instruction) (t1 : Llvm) : Prop :=
  (t1.emitted = l ∧ tableLookup t1.sdsuMap rd.id = some ref) ∨
  (∃ tr : Instruction, t1.emitted = l ++ [tr] ∧ tr.opcode = .Trunc ∧ tr.operands = [ref] ∧
    tableLookup t1.sdsuMap rd.id = some (.inst tr.id getInt32Ty))

/-- A compiler like `sampleCompiler`, except that every local needs its explicit zero
initialisation in the body: none is taken to be zeroed by the prolog. -/
def sampleExplicitZeroCompiler : Compiler :=
  { sampleCompiler with fgVarNeedsExplicitZeroInit := fun _ => true }

/-- A state before the prolog of a method with a shadow stack and an `INT` argument, with five
locals: 0 is the `INT` parameter, in SSA; 1 is a `LONG` in SSA whose first definition is
implicit; 2 is an `INT` that is not in SSA, untracked, with no explicit initialisation; 3 is
an `INT` in SSA whose first definition is an assignment; 4 is unreferenced. -/
def samplePrologState : Llvm :=
  { function := some { name := "Sample__Method", fty := .func .void [getInt8PtrTy, .int 32] },
    functions := [{ name := "Sample__Method", fty := .func .void [getInt8PtrTy, .int 32] }],
    lvaTable :=
      [{ lvType := .TYP_INT, lvRefCnt := 1, lvIsParam := true, lvLlvmArgNum := some 1,
         lvInSsa := true, lvPerSsaData := [{ hasAssignment := false }], lvTracked := true },
       { lvType := .TYP_LONG, lvRefCnt := 2, lvInSsa := true,
         lvPerSsaData := [{ hasAssignment := false }], lvTracked := true },
       { lvType := .TYP_INT, lvRefCnt := 1 },
       { lvType := .TYP_INT, lvRefCnt := 1, lvInSsa := true,
         lvPerSsaData := [{ hasAssignment := true }], lvTracked := true },
       { lvType := .TYP_INT }] }

/-! ## Reads of the node-to-value map -/

/-- The outcome with the node-to-value map of its state replaced. -/
def Outcome.withMap {α : Type} (o : Outcome α) (map : List (Nat × Value)) : Outcome α :=
  match o with
  | .ok a s => .ok a { s with sdsuMap := map }
  | .failed k s => .failed k { s with sdsuMap := map }

/-- A lowering step that neither reads nor writes the node-to-value map: started with any
other map in place of the current one, it returns the same value or fails the same way, and
its final state is the same but for that map, which is still in place. -/
structure MapFree {α : Type} (m : M α) : Prop where
  run : ∀ (s : Llvm) (map : List (Nat × Value)),
    m { s with sdsuMap := map } = (m s).withMap map

/-- How a lowering step uses the node-to-value map.  It is built, by sequencing, from:
`consumeValue` of a node (`consume`); the raw read `getGenTreeValue` of a node for which `raw`
allows it (`direct`); `mapGenTreeToValue`, which records a value (`record`); steps that
neither read nor write the map (`free`); and reads of the state that use nothing of the map
(`state`).  With `raw` false everywhere, the step obtains every value it takes from the map
through `consumeValue`. -/
inductive Reads (c : Compiler) (raw : GenTree → Prop) : (α : Type) → M α → Prop
  | consume (node : GenTree) (T : Option LType) : Reads c raw Value (consumeValue c node T)
  | direct (node : GenTree) (h : raw node) : Reads c raw Value (getGenTreeValue node)
  | record (node : GenTree) (v : Value) : Reads c raw Unit (mapGenTreeToValue c node v)
  | free (α : Type) (m : M α) (h : MapFree m) : Reads c raw α m
  | state (α : Type) (f : Llvm → M α)
      (h1 : ∀ (s : Llvm) (map : List (Nat × Value)), f { s with sdsuMap := map } = f s)
      (h2 : ∀ s, Reads c raw α (f s)) : Reads c raw α (getState >>= f)
  | bind (α β : Type) (m : M α) (f : α → M β) (h1 : Reads c raw α m)
      (h2 : ∀ a, Reads c raw β (f a)) : Reads c raw β (m >>= f)

/-- The operands that the handler of a node reads raw from the node-to-value map: the
condition of a conditional branch (line 460) and the callee of an indirect or virtual call
that `buildCall` hands to `buildUserFuncCall` (line 1060). -/
def rawOperands (node : GenTree) (op : GenTree) : Prop :=
  (node.OperGet = .GT_JTRUE ∧ node.gtOp1 = some op) ∨
  (node.OperGet = .GT_CALL ∧
    ((node.d.gtCallType = .CT_USER_FUNC ∨ node.d.gtCallType = .CT_INDIRECT) ∧
      node.d.isVirtualStub = false) ∧
    (node.d.isVirtualVtable = true ∨ node.d.gtCallType = .CT_INDIRECT) ∧
    (if node.d.isVirtualVtable then node.gtControlExpr else node.gtCallAddr) = some op)

/-- Two states that differ at most in the node-to-value map, and whose maps hold the same
value for every node, except that a node may hold a 64-bit integer in the first map and a
16-bit integer in the second. -/
def MapTwin (sA sB : Llvm) : Prop :=
  ∃ mB : List (Nat × Value), sB = { sA with sdsuMap := mB } ∧
    ∀ key : Nat, tableLookup sA.sdsuMap key = tableLookup mB key ∨
      ∃ vA vB : Value, tableLookup sA.sdsuMap key = some vA ∧ tableLookup mB key = some vB ∧
        vA.getType = .int 64 ∧ vB.getType = .int 16

/-- A step that cannot tell twin states apart without failing: started in twin states, it
fails in one of them, or returns the same value in both and ends in twin states. -/
def SameOnTwins {α : Type} (m : M α) : Prop :=
  ∀ sA sB : Llvm, MapTwin sA sB →
    (m sA).isOk = false ∨ (m sB).isOk = false ∨
      ∃ (a : α) (sA1 sB1 : Llvm), m sA = .ok a sA1 ∧ m sB = .ok a sB1 ∧ MapTwin sA1 sB1


/-! # Theorems -/

/-! ## The monad of lowering steps -/

theorem m_pure_apply {α : Type} (a : α) (s : Llvm) : (pure a : M α) s = .ok a s := rfl

theorem m_bind_apply {α β : Type} (m : M α) (f : α → M β) (s : Llvm) :
    (m >>= f) s = match m s with
      | .ok a s1 => f a s1
      | .failed k s1 => .failed k s1 := rfl

theorem m_bind_ok {α β : Type} {m : M α} {f : α → M β} {s s1 : Llvm} {a : α}
    (h : m s = .ok a s1) : (m >>= f) s = f a s1 := by
  rw [m_bind_apply, h]

theorem m_bind_failed {α β : Type} {m : M α} {f : α → M β} {s s1 : Llvm} {k : Failure}
    (h : m s = .failed k s1) : (m >>= f) s = .failed k s1 := by
  rw [m_bind_apply, h]

theorem m_bind_assoc {α β γ : Type} (m : M α) (f : α → M β) (g : β → M γ) :
    (m >>= f >>= g) = (m >>= fun a => f a >>= g) := by
  funext s
  simp only [m_bind_apply]
  cases m s <;> rfl

theorem jitAssert_true (c : Compiler) (s : Llvm) : jitAssert c true s = .ok () s := by
  simp [jitAssert]

theorem jitAssert_release {c : Compiler} (h : c.debug = false) (b : Bool) (s : Llvm) :
    jitAssert c b s = .ok () s := by
  simp [jitAssert, h]

theorem jitAssert_false {c : Compiler} (h : c.debug = true) (s : Llvm) :
    jitAssert c false s = .failed .assertion s := by
  simp [jitAssert, h]

theorem getGenTreeValue_of_lookup {node : GenTree} {s : Llvm} {v : Value}
    (h : tableLookup s.sdsuMap node.id = some v) : getGenTreeValue node s = .ok v s := by
  simp [getGenTreeValue, tableGet, h, deref, m_pure_apply]

theorem consumeValueTrueNodeType_eq (c : Compiler) (node : GenTree) (v : Value) (s : Llvm)
    (t : var_types) (ht : specTrueType s node = some t)
    (hrel : RelopRawIsBool c node v) :
    consumeValueTrueNodeType c node v s = .ok t s := by
  unfold consumeValueTrueNodeType
  unfold RelopRawIsBool at hrel
  unfold specTrueType at ht
  cases hop : node.OperGet <;> simp only [hop, genTreeOps.isRelop] at ht hrel ⊢ <;>
    first
    | (simp at ht; subst ht; rfl)
    | (simp at ht; obtain ⟨d, hd, rfl⟩ := ht
       simp [m_bind_apply, lvaGetDesc, hd, m_pure_apply])
    | (simp at ht; subst ht
       cases hdbg : c.debug
       · simp [m_bind_apply, jitAssert, hdbg, m_pure_apply]
       · simp [m_bind_apply, jitAssert, hdbg, hrel hdbg, m_pure_apply])

theorem create_apply (i : Instruction) (s : Llvm) :
    create i s = .ok (.inst s.nextValueId i.ty) (s.insert s.builder i) := rfl

theorem consumeValue_some_eq (c : Compiler) (node : GenTree) (T : LType) (s : Llvm) (v : Value)
    (hv : tableLookup s.sdsuMap node.id = some v) :
    consumeValue c node (some T) s = consumeValueTo c node v T s := by
  unfold consumeValue
  rw [m_bind_ok (getGenTreeValue_of_lookup hv)]

theorem consumeValueTo_same (c : Compiler) (node : GenTree) (v : Value) (s : Llvm) :
    consumeValueTo c node v v.getType s = .ok v s := by
  simp [consumeValueTo, m_pure_apply]

/-- C1: for a node with recorded raw value `v` and a demanded type `T` such that the pair
(type of `v`, `T`) is one of the supported conversions, `consumeValue` returns a value whose
type is exactly `T`; when the type of `v` is `T` it returns `v` itself and leaves the whole
state (hence the instruction stream) unchanged. -/
theorem consumeValue_returns_demanded_type (c : Compiler) (s : Llvm) (node : GenTree)
    (v : Value) (T : LType)
    (hv : tableLookup s.sdsuMap node.id = some v)
    (hconv : Normalizable c s node v.getType T)
    (hrel : RelopRawIsBool c node v) :
    ∃ r s1, consumeValue c node (some T) s = .ok r s1 ∧ r.getType = T ∧
      (v.getType = T → r = v ∧ s1 = s) := by
  rw [consumeValue_some_eq c node T s v hv]
  by_cases hsame : v.getType = T
  · subst hsame
    exact ⟨v, s, consumeValueTo_same c node v s, rfl, fun _ => ⟨rfl, rfl⟩⟩
  · unfold consumeValueTo
    rw [if_pos hsame]
    rcases hconv with h | h | h | h | ⟨h1, h2, h3, h4, h5⟩
    · exact absurd h hsame
    · rw [if_pos h]
      exact ⟨_, _, create_apply _ s, rfl, fun e => absurd e hsame⟩
    · by_cases g1 : v.getType = getInt32Ty ∧ T.isPointerTy = true
      · rw [if_pos g1]
        exact ⟨_, _, create_apply _ s, rfl, fun e => absurd e hsame⟩
      · rw [if_neg g1, if_pos h]
        exact ⟨_, _, create_apply _ s, h.2.symm, fun e => absurd e hsame⟩
    · by_cases g1 : v.getType = getInt32Ty ∧ T.isPointerTy = true
      · rw [if_pos g1]
        exact ⟨_, _, create_apply _ s, rfl, fun e => absurd e hsame⟩
      · by_cases g2 : v.getType.isPointerTy = true ∧ T = getInt32Ty
        · rw [if_neg g1, if_pos g2]
          exact ⟨_, _, create_apply _ s, g2.2.symm, fun e => absurd e hsame⟩
        · rw [if_neg g1, if_neg g2, if_pos h]
          exact ⟨_, _, create_apply _ s, rfl, fun e => absurd e hsame⟩
    · have g1 : ¬ (v.getType = getInt32Ty ∧ T.isPointerTy = true) := by
        rintro ⟨_, hp⟩
        cases T <;> simp [LType.isPointerTy, LType.isIntegerTy] at hp h2
      have g2 : ¬ (v.getType.isPointerTy = true ∧ T = getInt32Ty) := by
        rintro ⟨hp, _⟩
        cases hvt : v.getType <;> simp [hvt, LType.isPointerTy, LType.isIntegerTy] at hp h1
      have g3 : ¬ (v.getType.isPointerTy = true ∧ T.isPointerTy = true) := by
        rintro ⟨hp, _⟩
        cases hvt : v.getType <;> simp [hvt, LType.isPointerTy, LType.isIntegerTy] at hp h1
      rw [if_neg g1, if_neg g2, if_neg g3]
      have hassert : (T.isIntegerTy && v.getType.isIntegerTy &&
          decide (v.getType.getPrimitiveSizeInBits ≤ 32) &&
          decide (T.getPrimitiveSizeInBits ≤ 32)) = true := by
        simp [h1, h2, h3, h4]
      rw [hassert, m_bind_ok (jitAssert_true c s)]
      by_cases hw : v.getType.getPrimitiveSizeInBits < T.getPrimitiveSizeInBits
      · obtain ⟨t, ht, hsmall⟩ := h5 hw
        rw [if_pos hw, m_bind_ok (consumeValueTrueNodeType_eq c node v s t ht hrel), hsmall,
          m_bind_ok (jitAssert_true c s)]
        by_cases hsg : c.varTypeIsSigned t = true
        · rw [if_pos hsg]
          exact ⟨_, _, create_apply _ s, rfl, fun e => absurd e hsame⟩
        · rw [if_neg hsg]
          exact ⟨_, _, create_apply _ s, rfl, fun e => absurd e hsame⟩
      · rw [if_neg hw]
        exact ⟨_, _, create_apply _ s, rfl, fun e => absurd e hsame⟩

theorem consumeValueTrueNodeType_state (c : Compiler) (node : GenTree) (v : Value) (s : Llvm) :
    (∃ t, ∀ s2 : Llvm, s2.lvaTable = s.lvaTable →
        consumeValueTrueNodeType c node v s2 = .ok t s2) ∨
    (∀ s2 : Llvm, s2.lvaTable = s.lvaTable →
        consumeValueTrueNodeType c node v s2 = .failed .assertion s2) := by
  unfold consumeValueTrueNodeType
  cases hop : node.OperGet <;> simp only []
  case GT_LCL_VAR =>
    cases hd : s.lvaTable[node.d.lclNum]? with
    | none =>
      right
      intro s2 h2
      simp [m_bind_apply, lvaGetDesc, h2, hd]
    | some d =>
      left
      refine ⟨d.lvType, ?_⟩
      intro s2 h2
      simp [m_bind_apply, lvaGetDesc, h2, hd, m_pure_apply]
  case GT_EQ | GT_NE | GT_LT | GT_LE | GT_GE | GT_GT =>
    by_cases hb : (c.debug && !(v.getType == getInt1Ty)) = true
    · right
      intro s2 _
      simp only [m_bind_apply, jitAssert, hb, if_true]
    · left
      refine ⟨.TYP_UBYTE, ?_⟩
      intro s2 _
      simp only [m_bind_apply, jitAssert, hb, m_pure_apply]
      rfl
  all_goals
    left
    exact ⟨_, fun s2 _ => rfl⟩

/-- The result of the conversion part of `consumeValue` has one of three shapes, the same in
every state with the same local table: the raw value itself (equal types), a failed
assertion, or one fresh conversion instruction of the raw value to the target type. -/
theorem consumeValueTo_shape (c : Compiler) (node : GenTree) (v : Value) (T : LType)
    (s : Llvm) :
    (v.getType = T ∧ ∀ s2 : Llvm, consumeValueTo c node v T s2 = .ok v s2) ∨
    (v.getType ≠ T ∧ ∀ s2 : Llvm, s2.lvaTable = s.lvaTable →
        consumeValueTo c node v T s2 = .failed .assertion s2) ∨
    (v.getType ≠ T ∧ ∃ op, ∀ s2 : Llvm, s2.lvaTable = s.lvaTable →
        consumeValueTo c node v T s2 =
          .ok (.inst s2.nextValueId T)
            (s2.insert s2.builder { opcode := op, ty := T, operands := [v] })) := by
  by_cases hsame : v.getType = T
  · left
    refine ⟨hsame, fun s2 => ?_⟩
    subst hsame
    exact consumeValueTo_same c node v s2
  · right
    unfold consumeValueTo
    simp only [if_pos hsame]
    by_cases g1 : v.getType = getInt32Ty ∧ T.isPointerTy = true
    · right
      exact ⟨hsame, .IntToPtr, fun s2 _ => by rw [if_pos g1]; rfl⟩
    by_cases g2 : v.getType.isPointerTy = true ∧ T = getInt32Ty
    · right
      refine ⟨hsame, .PtrToInt, fun s2 _ => ?_⟩
      rw [if_neg g1, if_pos g2, g2.2]
      rfl
    by_cases g3 : v.getType.isPointerTy = true ∧ T.isPointerTy = true
    · right
      exact ⟨hsame, .BitCast, fun s2 _ => by rw [if_neg g1, if_neg g2, if_pos g3]; rfl⟩
    simp only [if_neg g1, if_neg g2, if_neg g3]
    by_cases ha : (c.debug && !(T.isIntegerTy && v.getType.isIntegerTy &&
          decide (v.getType.getPrimitiveSizeInBits ≤ 32) &&
          decide (T.getPrimitiveSizeInBits ≤ 32))) = true
    · left
      refine ⟨hsame, fun s2 _ => ?_⟩
      simp only [m_bind_apply, jitAssert, ha, if_true]
    have hassert : ∀ s2 : Llvm, jitAssert c (T.isIntegerTy && v.getType.isIntegerTy &&
          decide (v.getType.getPrimitiveSizeInBits ≤ 32) &&
          decide (T.getPrimitiveSizeInBits ≤ 32)) s2 = .ok () s2 := by
      intro s2
      simp only [jitAssert, ha]
      rfl
    by_cases hw : v.getType.getPrimitiveSizeInBits < T.getPrimitiveSizeInBits
    · simp only [if_pos hw]
      rcases consumeValueTrueNodeType_state c node v s with ⟨t, ht⟩ | hf
      · by_cases hb : (c.debug && !(c.varTypeIsSmall t)) = true
        · left
          refine ⟨hsame, fun s2 h2 => ?_⟩
          rw [m_bind_ok (hassert s2), m_bind_ok (ht s2 h2)]
          simp only [m_bind_apply, jitAssert, hb, if_true]
        · right
          have hsm : ∀ s2 : Llvm, jitAssert c (c.varTypeIsSmall t) s2 = .ok () s2 := by
            intro s2
            simp only [jitAssert, hb]
            rfl
          by_cases hsg : c.varTypeIsSigned t = true
          · refine ⟨hsame, .SExt, fun s2 h2 => ?_⟩
            rw [m_bind_ok (hassert s2), m_bind_ok (ht s2 h2), m_bind_ok (hsm s2), if_pos hsg]
            rfl
          · refine ⟨hsame, .ZExt, fun s2 h2 => ?_⟩
            rw [m_bind_ok (hassert s2), m_bind_ok (ht s2 h2), m_bind_ok (hsm s2), if_neg hsg]
            rfl
      · left
        refine ⟨hsame, fun s2 h2 => ?_⟩
        rw [m_bind_ok (hassert s2), m_bind_failed (hf s2 h2)]
    · right
      refine ⟨hsame, .Trunc, fun s2 _ => ?_⟩
      rw [m_bind_ok (hassert s2), if_neg hw]
      rfl

/-- Witness of C1: an 8-bit raw value of a `BYTE` local read, demanded as `i32`. -/
theorem consumeValue_returns_demanded_type_witness :
    ∃ r s1, consumeValue sampleCompiler sampleLclVarNode (some getInt32Ty) sampleByteState
        = .ok r s1 ∧ r.getType = getInt32Ty ∧
      ((Value.argument 0 (.int 8)).getType = getInt32Ty →
        r = .argument 0 (.int 8) ∧ s1 = sampleByteState) :=
  consumeValue_returns_demanded_type sampleCompiler sampleByteState sampleLclVarNode
    (.argument 0 (.int 8)) getInt32Ty (by decide)
    (Or.inr (Or.inr (Or.inr (Or.inr ⟨by decide, by decide, by decide, by decide,
      fun _ => ⟨.TYP_BYTE, by decide, by decide⟩⟩))))
    (fun _ h => absurd h (by decide))

/-- C2: when `consumeValue` widens a narrower integer raw value to a wider integer type, the
one instruction it emits is a sign-extension if the true type of the producing node is signed
and a zero-extension otherwise, where the true type is the call's return type for a call, the
local's declared type for a local-variable read, unsigned byte for a relational operator, the
cast target type for a cast and the node's own type for every other opcode. -/
theorem consumeValue_widen_sign (c : Compiler) (s : Llvm) (node : GenTree) (v : Value)
    (T : LType) (t : var_types)
    (hv : tableLookup s.sdsuMap node.id = some v)
    (hi : v.getType.isIntegerTy = true) (hT : T.isIntegerTy = true)
    (h32 : T.getPrimitiveSizeInBits ≤ 32)
    (hw : v.getType.getPrimitiveSizeInBits < T.getPrimitiveSizeInBits)
    (ht : specTrueType s node = some t) (hsmall : c.varTypeIsSmall t = true)
    (hrel : RelopRawIsBool c node v) :
    ∃ op, consumeValue c node (some T) s =
        .ok (.inst s.nextValueId T)
          (s.insert s.builder { opcode := op, ty := T, operands := [v] }) ∧
      (op = .SExt ↔ c.varTypeIsSigned t = true) ∧
      (op = .ZExt ↔ c.varTypeIsSigned t = false) := by
  rw [consumeValue_some_eq c node T s v hv]
  have hsame : v.getType ≠ T := fun e => by rw [e] at hw; exact Nat.lt_irrefl _ hw
  have g1 : ¬ (v.getType = getInt32Ty ∧ T.isPointerTy = true) := by
    rintro ⟨_, hp⟩
    cases T <;> simp [LType.isPointerTy, LType.isIntegerTy] at hp hT
  have g2 : ¬ (v.getType.isPointerTy = true ∧ T = getInt32Ty) := by
    rintro ⟨hp, _⟩
    cases hvt : v.getType <;> simp [hvt, LType.isPointerTy, LType.isIntegerTy] at hp hi
  have g3 : ¬ (v.getType.isPointerTy = true ∧ T.isPointerTy = true) := by
    rintro ⟨hp, _⟩
    cases hvt : v.getType <;> simp [hvt, LType.isPointerTy, LType.isIntegerTy] at hp hi
  have hassert : (T.isIntegerTy && v.getType.isIntegerTy &&
      decide (v.getType.getPrimitiveSizeInBits ≤ 32) &&
      decide (T.getPrimitiveSizeInBits ≤ 32)) = true := by
    have : v.getType.getPrimitiveSizeInBits ≤ 32 := by omega
    simp [hi, hT, h32, this]
  unfold consumeValueTo
  rw [if_pos hsame, if_neg g1, if_neg g2, if_neg g3, hassert, m_bind_ok (jitAssert_true c s),
    if_pos hw, m_bind_ok (consumeValueTrueNodeType_eq c node v s t ht hrel), hsmall,
    m_bind_ok (jitAssert_true c s)]
  cases hsg : c.varTypeIsSigned t
  · exact ⟨.ZExt, by simp [create_apply], by simp, by simp⟩
  · exact ⟨.SExt, by simp [create_apply], by simp, by simp⟩

/-- Witness of C2: the 8-bit raw value of a read of a `BYTE` local is sign-extended. -/
theorem consumeValue_widen_sign_witness :
    ∃ op, consumeValue sampleCompiler sampleLclVarNode (some getInt32Ty) sampleByteState =
        .ok (.inst sampleByteState.nextValueId getInt32Ty)
          (sampleByteState.insert sampleByteState.builder
            { opcode := op, ty := getInt32Ty, operands := [.argument 0 (.int 8)] }) ∧
      (op = .SExt ↔ sampleCompiler.varTypeIsSigned .TYP_BYTE = true) ∧
      (op = .ZExt ↔ sampleCompiler.varTypeIsSigned .TYP_BYTE = false) :=
  consumeValue_widen_sign sampleCompiler sampleByteState sampleLclVarNode
    (.argument 0 (.int 8)) getInt32Ty .TYP_BYTE (by decide) (by decide) (by decide) (by decide)
    (by decide) (by decide) (by decide) (fun _ h => absurd h (by decide))

/-- Counterexample to C3 as stated: demanding `i32` of a floating raw value does not signal
the unsupported-shape failure.  With assertions enabled `consumeValue` stops at its assertion;
without them it returns a truncation of the floating value. -/
theorem consumeValue_unsupported_pair_counterexample :
    consumeValue sampleCompiler sampleDblNode (some getInt32Ty) sampleFloatState
        = .failed .assertion sampleFloatState ∧
    consumeValue sampleReleaseCompiler sampleDblNode (some getInt32Ty) sampleFloatState
        = .ok (.inst 0 getInt32Ty)
            (sampleFloatState.insert sampleFloatState.builder
              { opcode := .Trunc, ty := getInt32Ty, operands := [.constFP .float 0] }) := by
  constructor <;> decide

/-- C3, amended: for a pair of different types outside the supported conversions,
`consumeValue` never signals the unsupported-shape failure; with assertions enabled it stops
at the assertion of line 355 in the unchanged state, so nothing is emitted or recorded. -/
theorem consumeValue_unsupported_pair (c : Compiler) (s : Llvm) (node : GenTree) (v : Value)
    (T : LType)
    (hv : tableLookup s.sdsuMap node.id = some v)
    (hpair : UnsupportedPair v.getType T) :
    (c.debug = true → consumeValue c node (some T) s = .failed .assertion s) ∧
    (∀ s1, consumeValue c node (some T) s ≠ .failed .unsupportedShape s1) := by
  rw [consumeValue_some_eq c node T s v hv]
  obtain ⟨hsame, g1, g2, g3, g4⟩ := hpair
  constructor
  · intro hdbg
    have hassert : (T.isIntegerTy && v.getType.isIntegerTy &&
        decide (v.getType.getPrimitiveSizeInBits ≤ 32) &&
        decide (T.getPrimitiveSizeInBits ≤ 32)) = false := by
      by_contra hne
      apply g4
      simp at hne
      exact ⟨hne.2.1, hne.1, hne.2.2.1, hne.2.2.2⟩
    unfold consumeValueTo
    rw [if_pos hsame, if_neg g1, if_neg g2, if_neg g3, hassert,
      m_bind_failed (jitAssert_false hdbg s)]
  · intro s1 h
    rcases consumeValueTo_shape c node v T s with ⟨_, h2⟩ | ⟨_, h2⟩ | ⟨_, op, h2⟩
    · rw [h2 s] at h
      cases h
    · rw [h2 s rfl] at h
      cases h
    · rw [h2 s rfl] at h
      cases h

/-- Witness of C3, amended: a floating raw value demanded as `i32`. -/
theorem consumeValue_unsupported_pair_witness :
    (sampleCompiler.debug = true →
      consumeValue sampleCompiler sampleDblNode (some getInt32Ty) sampleFloatState
        = .failed .assertion sampleFloatState) ∧
    (∀ s1, consumeValue sampleCompiler sampleDblNode (some getInt32Ty) sampleFloatState
        ≠ .failed .unsupportedShape s1) :=
  consumeValue_unsupported_pair sampleCompiler sampleFloatState sampleDblNode
    (.constFP .float 0) getInt32Ty (by decide)
    ⟨by decide, by decide, by decide, by decide, by decide⟩

/-- The type `consumeValue` converts to: the demanded type, or for an omitted one the target
type of the node's actual type. -/
theorem consumeValue_eq (c : Compiler) (node : GenTree) (U : Option LType) (s : Llvm)
    (v : Value) (hv : tableLookup s.sdsuMap node.id = some v) :
    consumeValue c node U s =
      if U = none ∧ v.getType.isIntegerTy = false then .ok v s
      else consumeValueTo c node v
        (U.getD (c.getLlvmTypeForVarType (c.genActualType node.TypeGet))) s := by
  unfold consumeValue
  rw [m_bind_ok (getGenTreeValue_of_lookup hv)]
  cases U with
  | none =>
    cases hi : v.getType.isIntegerTy <;> simp [m_pure_apply]
  | some t => simp

theorem consumeValue_lookup_of_ok {c : Compiler} {node : GenTree} {U : Option LType}
    {s s1 : Llvm} {r : Value} (h : consumeValue c node U s = .ok r s1) :
    ∃ v, tableLookup s.sdsuMap node.id = some v := by
  cases hv : tableLookup s.sdsuMap node.id with
  | some v => exact ⟨v, rfl⟩
  | none =>
    unfold consumeValue at h
    have : getGenTreeValue node s = .failed .assertion s := by
      simp [getGenTreeValue, tableGet, hv, deref, unreached]
    rw [m_bind_failed this] at h
    cases h

/-- C4: re-normalisation is idempotent.  When `consumeValue` succeeds for a node and a
consumption type it leaves the node-to-value map unchanged, and a second call with the same
arguments succeeds with a representationally equal result: either both calls return the
recorded raw value itself, or each emits one fresh instruction with the same conversion
opcode, the same result type and the same raw operand.  When the consumption type is the raw
value's type both calls return the identical recorded value. -/
theorem consumeValue_idempotent (c : Compiler) (s s1 : Llvm) (node : GenTree)
    (U : Option LType) (r : Value) (h : consumeValue c node U s = .ok r s1) :
    s1.sdsuMap = s.sdsuMap ∧
    ∃ v, tableLookup s.sdsuMap node.id = some v ∧
      ((r = v ∧ s1 = s ∧ consumeValue c node U s1 = .ok v s1) ∨
       (∃ op T, v.getType ≠ T ∧ r = .inst s.nextValueId T ∧
          s1 = s.insert s.builder { opcode := op, ty := T, operands := [v] } ∧
          consumeValue c node U s1 =
            .ok (.inst s1.nextValueId T)
              (s1.insert s1.builder { opcode := op, ty := T, operands := [v] }))) ∧
      (U = some v.getType → r = v ∧ consumeValue c node U s1 = .ok v s1) := by
  obtain ⟨v, hv⟩ := consumeValue_lookup_of_ok h
  have key : (r = v ∧ s1 = s) ∨
      (∃ op T, v.getType ≠ T ∧ r = .inst s.nextValueId T ∧
          s1 = s.insert s.builder { opcode := op, ty := T, operands := [v] } ∧
          consumeValue c node U s1 =
            .ok (.inst s1.nextValueId T)
              (s1.insert s1.builder { opcode := op, ty := T, operands := [v] })) := by
    rw [consumeValue_eq c node U s v hv] at h
    by_cases hraw : U = none ∧ v.getType.isIntegerTy = false
    · rw [if_pos hraw] at h
      injection h with h1 h2
      exact Or.inl ⟨h1.symm, h2.symm⟩
    · rw [if_neg hraw] at h
      rcases consumeValueTo_shape c node v
          (U.getD (c.getLlvmTypeForVarType (c.genActualType node.TypeGet))) s with
        ⟨_, h2⟩ | ⟨_, h2⟩ | ⟨hne, op, h2⟩
      · rw [h2 s] at h
        injection h with h1 h2
        exact Or.inl ⟨h1.symm, h2.symm⟩
      · rw [h2 s rfl] at h
        cases h
      · rw [h2 s rfl] at h
        injection h with h3 h4
        refine Or.inr ⟨op, _, hne, h3.symm, h4.symm, ?_⟩
        have hv1 : tableLookup s1.sdsuMap node.id = some v := by rw [← h4]; exact hv
        rw [consumeValue_eq c node U s1 v hv1, if_neg hraw]
        exact h2 s1 (by rw [← h4]; rfl)
  have hmap : s1.sdsuMap = s.sdsuMap := by
    rcases key with ⟨_, h2⟩ | ⟨_, _, _, _, h2, _⟩
    · rw [h2]
    · rw [h2]
      rfl
  refine ⟨hmap, v, hv, ?_, ?_⟩
  · rcases key with ⟨h1, h2⟩ | hk
    · left
      refine ⟨h1, h2, ?_⟩
      rw [h2, ← h1]
      rw [h2] at h
      exact h
    · exact Or.inr hk
  · intro hU
    rcases key with ⟨h1, h2⟩ | ⟨op, T, hne, h1, h2, h3⟩
    · refine ⟨h1, ?_⟩
      rw [h2, ← h1]
      rw [h2] at h
      exact h
    · exfalso
      rw [consumeValue_eq c node U s v hv, hU] at h
      simp only [Option.getD_some, reduceCtorEq, false_and, if_false] at h
      rw [consumeValueTo_same] at h
      injection h with h4 h5
      rw [h1] at h4
      exact hne (congrArg Value.getType h4)

/-- Witness of C4: widening the 8-bit raw value of a `BYTE` local read to `i32` succeeds and
leaves the node-to-value map unchanged. -/
theorem consumeValue_idempotent_witness :
    consumeValue sampleCompiler sampleLclVarNode (some getInt32Ty) sampleByteState
      = .ok (.inst 0 getInt32Ty) sampleByteStateWidened ∧
    sampleByteStateWidened.sdsuMap = sampleByteState.sdsuMap :=
  ⟨by decide,
    (consumeValue_idempotent sampleCompiler sampleByteState sampleByteStateWidened
      sampleLclVarNode (some getInt32Ty) (.inst 0 getInt32Ty) (by decide)).1⟩

/-! ## Bookkeeping of the node-to-value map: the effect of every lowering step -/

theorem step_refl (s : Llvm) : Step [] s s := by
  refine ⟨by simp, fun _ _ => rfl, fun k hk => ?_⟩
  simp at hk

theorem step_of_same {s s1 : Llvm} (h1 : s1.sdsuWrites = s.sdsuWrites)
    (h2 : s1.sdsuMap = s.sdsuMap) : Step [] s s1 := by
  refine ⟨by simp [h1], fun _ _ => by rw [h2], fun k hk => ?_⟩
  simp at hk

theorem step_trans {l1 l2 : List Nat} {s s1 s2 : Llvm} (h1 : Step l1 s s1) (h2 : Step l2 s1 s2) :
    Step (l1 ++ l2) s s2 := by
  refine ⟨by rw [h2.1, h1.1, List.append_assoc], fun k hk => ?_, fun k hk => ?_⟩
  · rw [List.mem_append, not_or] at hk
    rw [h2.2.1 k hk.2, h1.2.1 k hk.1]
  · by_cases hk2 : k ∈ l2
    · exact h2.2.2 k hk2
    · rw [h2.2.1 k hk2]
      rcases List.mem_append.mp hk with h | h
      · exact h1.2.2 k h
      · exact absurd h hk2

theorem effect_of_state {α : Type} {m : M α} (h : ∀ s, Step [] s (m s).state) : Effect [] m := by
  constructor
  intro s
  have := h s
  cases hm : m s with
  | ok a s1 =>
    rw [hm] at this
    exact this
  | failed k s1 =>
    rw [hm] at this
    exact ⟨[], List.prefix_refl _, this⟩

theorem effect_state {α : Type} {m : M α} (h : Effect [] m) (s : Llvm) : Step [] s (m s).state := by
  have := h.run s
  cases hm : m s with
  | ok a s1 =>
    rw [hm] at this
    exact this
  | failed k s1 =>
    rw [hm] at this
    obtain ⟨l, hl, hs⟩ := this
    have : l = [] := List.eq_nil_of_prefix_nil hl
    subst this
    exact hs

theorem effect_pure {α : Type} (a : α) : Effect [] (pure a : M α) :=
  ⟨fun s => step_refl s⟩

theorem effect_bind_silent {α β : Type} {ids : List Nat} {m : M α} {f : α → M β}
    (hm : Effect [] m) (hf : ∀ a, Effect ids (f a)) : Effect ids (m >>= f) := by
  constructor
  intro s
  have h1 := hm.run s
  rw [m_bind_apply]
  cases hms : m s with
  | ok a s1 =>
    rw [hms] at h1
    have h2 := (hf a).run s1
    simp only
    cases hfs : f a s1 with
    | ok b s2 =>
      rw [hfs] at h2
      exact step_trans h1 h2
    | failed k s2 =>
      rw [hfs] at h2
      obtain ⟨l, hl, hs⟩ := h2
      exact ⟨l, hl, step_trans h1 hs⟩
  | failed k s1 =>
    rw [hms] at h1
    obtain ⟨l, hl, hs⟩ := h1
    simp only
    have : l = [] := List.eq_nil_of_prefix_nil hl
    subst this
    exact ⟨[], List.nil_prefix, hs⟩

theorem effect_failFunctionCompilation {α : Type} (ids : List Nat) :
    Effect ids (failFunctionCompilation : M α) := by
  constructor
  intro s
  refine ⟨[], List.nil_prefix, step_of_same ?_ ?_⟩ <;>
    (unfold Llvm.deleteBody; split <;> rfl)

theorem effect_unreached {α : Type} (ids : List Nat) : Effect ids (unreached : M α) :=
  ⟨fun s => ⟨[], List.nil_prefix, step_refl s⟩⟩

theorem effect_getState : Effect [] getState := ⟨fun s => step_refl s⟩

theorem effect_modifyState {f : Llvm → Llvm}
    (h : ∀ s, (f s).sdsuWrites = s.sdsuWrites ∧ (f s).sdsuMap = s.sdsuMap) :
    Effect [] (modifyState f) :=
  ⟨fun s => step_of_same (h s).1 (h s).2⟩

theorem effect_jitAssert (c : Compiler) (b : Bool) : Effect [] (jitAssert c b) := by
  apply effect_of_state
  intro s
  unfold jitAssert
  split <;> exact step_refl s

theorem effect_deref {α : Type} (o : Option α) : Effect [] (deref o) := by
  cases o with
  | none => exact effect_unreached []
  | some a => exact effect_pure a

theorem effect_tableGet {κ ν : Type} [DecidableEq κ] (m : List (κ × ν)) (k : κ) :
    Effect [] (tableGet m k) :=
  effect_deref _

theorem effect_tableSetChecked {κ ν : Type} [DecidableEq κ] (c : Compiler) (m : List (κ × ν))
    (k : κ) (v : ν) : Effect [] (tableSetChecked c m k v) :=
  effect_bind_silent (effect_jitAssert c _) (fun _ => effect_pure _)

theorem effect_createWith (b : IRBuilder) (i : Instruction) : Effect [] (createWith b i) :=
  ⟨fun _ => step_of_same rfl rfl⟩

theorem effect_create (i : Instruction) : Effect [] (create i) :=
  ⟨fun _ => step_of_same rfl rfl⟩

theorem effect_createProlog (i : Instruction) : Effect [] (createProlog i) :=
  ⟨fun _ => step_of_same rfl rfl⟩

theorem effect_createBasicBlock (name parent : String) :
    Effect [] (createBasicBlock name parent) :=
  ⟨fun _ => step_of_same rfl rfl⟩

theorem effect_createFunction (fty : LType) (l : Linkage) (name : String) :
    Effect [] (createFunction fty l name) :=
  ⟨fun _ => step_of_same rfl rfl⟩

theorem effect_builderSetInsertPoint (blk : Nat) : Effect [] (builderSetInsertPoint blk) :=
  ⟨fun _ => step_of_same rfl rfl⟩

theorem effect_lvaGetDesc (n : Nat) : Effect [] (lvaGetDesc n) := by
  apply effect_of_state
  intro s
  unfold lvaGetDesc
  split <;> exact step_refl s

theorem effect_getGenTreeValue (op : GenTree) : Effect [] (getGenTreeValue op) :=
  ⟨fun s => (effect_tableGet s.sdsuMap op.id).run s⟩

theorem tableLookup_tableSet {κ ν : Type} [DecidableEq κ] (m : List (κ × ν)) (k k1 : κ) (v : ν) :
    tableLookup (tableSet m k v) k1 = if k = k1 then some v else tableLookup m k1 := by
  induction m with
  | nil => simp [tableSet, tableLookup]
  | cons e rest ih =>
    obtain ⟨k0, v0⟩ := e
    unfold tableSet
    by_cases h0 : k0 = k
    · subst h0
      simp only [if_true, tableLookup]
      by_cases h1 : k0 = k1 <;> simp [h1]
    · simp only [if_neg h0, tableLookup, ih]
      by_cases h1 : k0 = k1
      · subst h1
        simp [Ne.symm h0]
      · simp [h1]

theorem mapGenTreeToValue_apply (c : Compiler) (node : GenTree) (v : Value) (s : Llvm) :
    mapGenTreeToValue c node v s =
      if (c.debug && !(tableLookup s.sdsuMap node.id).isNone) = true then .failed .assertion s
      else .ok () { s with sdsuMap := tableSet s.sdsuMap node.id v,
                           sdsuWrites := s.sdsuWrites ++ [node.id] } := by
  unfold LlvmCodegen.mapGenTreeToValue LlvmCodegen.tableSetChecked
  rw [m_bind_apply]
  unfold jitAssert
  by_cases h : (c.debug && !(tableLookup s.sdsuMap node.id).isNone) = true
  · simp only [h, if_true]
  · simp only [h, m_pure_apply]
    rfl

theorem effect_mapGenTreeToValue (c : Compiler) (node : GenTree) (v : Value) :
    Effect [node.id] (mapGenTreeToValue c node v) := by
  constructor
  intro s
  rw [mapGenTreeToValue_apply]
  by_cases h : (c.debug && !(tableLookup s.sdsuMap node.id).isNone) = true
  · rw [if_pos h]
    exact ⟨[], List.nil_prefix, step_refl s⟩
  · rw [if_neg h]
    refine ⟨rfl, fun k hk => ?_, fun k hk => ?_⟩
    · have hne : node.id ≠ k := fun e => hk (by simp [e])
      simp only [tableLookup_tableSet, if_neg hne]
    · have he : node.id = k := by
        simp at hk
        exact hk.symm
      simp only [tableLookup_tableSet, if_pos he, Option.isSome_some]

theorem effect_forEach {α : Type} {f : α → M Unit} (hf : ∀ a, Effect [] (f a)) (l : List α) :
    Effect [] (forEach f l) := by
  induction l with
  | nil => exact effect_pure ()
  | cons x xs ih => exact effect_bind_silent (hf x) (fun _ => ih)

theorem effect_mapEach {α β : Type} {f : α → M β} (hf : ∀ a, Effect [] (f a)) (l : List α) :
    Effect [] (mapEach f l) := by
  induction l with
  | nil => exact effect_pure []
  | cons x xs ih =>
    exact effect_bind_silent (hf x) (fun _ => effect_bind_silent ih (fun _ => effect_pure _))

theorem effect_consumeValueTrueNodeType (c : Compiler) (node : GenTree) (v : Value) :
    Effect [] (consumeValueTrueNodeType c node v) := by
  unfold LlvmCodegen.consumeValueTrueNodeType
  repeat (first
    | exact effect_pure _
    | exact effect_jitAssert _ _
    | exact effect_lvaGetDesc _
    | apply effect_bind_silent
    | intro _
    | split)

theorem effect_consumeValueTo (c : Compiler) (node : GenTree) (v : Value) (T : LType) :
    Effect [] (consumeValueTo c node v T) := by
  unfold LlvmCodegen.consumeValueTo
  repeat (first
    | exact effect_pure _
    | exact effect_jitAssert _ _
    | exact effect_create _
    | exact effect_consumeValueTrueNodeType _ _ _
    | apply effect_bind_silent
    | intro _
    | split)

theorem effect_consumeValue (c : Compiler) (node : GenTree) (U : Option LType) :
    Effect [] (consumeValue c node U) := by
  unfold LlvmCodegen.consumeValue
  repeat (first
    | exact effect_pure _
    | exact effect_getGenTreeValue _
    | exact effect_consumeValueTo _ _ _ _
    | apply effect_bind_silent
    | intro _
    | split)

/-! ### The raw value of a relational node -/

theorem endsIn_bind {α β : Type} {Q : Llvm → Prop} {m : M α} {f : α → M β}
    (hf : ∀ a, EndsIn Q (f a)) : EndsIn Q (m >>= f) := by
  constructor
  intro s b s2 h
  rw [m_bind_apply] at h
  cases hm : m s with
  | ok a s1 =>
    rw [hm] at h
    exact (hf a).run s1 b s2 h
  | failed k s1 =>
    rw [hm] at h
    cases h

theorem endsIn_mapGenTreeToValue (c : Compiler) (node : GenTree) (v : Value)
    (hv : v.getType = getInt1Ty) : EndsIn (RecordsBool node) (mapGenTreeToValue c node v) := by
  constructor
  intro s a s1 h
  rw [mapGenTreeToValue_apply] at h
  split at h
  · cases h
  · injection h with _ h2
    refine ⟨v, ?_, hv⟩
    rw [← h2]
    simp only [tableLookup_tableSet, if_true]

theorem endsIn_create_map (c : Compiler) (node : GenTree) (i : Instruction)
    (hi : i.ty = getInt1Ty) :
    EndsIn (RecordsBool node) (create i >>= fun v => mapGenTreeToValue c node v) := by
  constructor
  intro s a s1 h
  rw [m_bind_apply, create_apply] at h
  exact (endsIn_mapGenTreeToValue c node (.inst s.nextValueId i.ty) hi).run _ a s1 h

/-- The value that `buildCmp` records for its node is a 1-bit integer: the invariant that the
assertion of line 378 of `consumeValue` checks. -/
theorem buildCmp_records_bool (c : Compiler) (node : GenTree) :
    EndsIn (RecordsBool node) (buildCmp c node) := by
  unfold buildCmp
  repeat (first
    | exact endsIn_create_map c node _ rfl
    | apply endsIn_bind
    | intro _
    | split
    | dsimp only)

set_option maxRecDepth 8192 in
theorem effect_createLoad (ptr : Value) :
    Effect [] (createLoad ptr) := by
  unfold LlvmCodegen.createLoad
  repeat (first
    | exact effect_pure _
    | exact effect_failFunctionCompilation _
    | exact effect_unreached _
    | exact effect_getState
    | exact effect_modifyState (fun _ => ⟨rfl, rfl⟩)
    | exact effect_jitAssert _ _
    | exact effect_deref _
    | exact effect_create _
    | apply effect_bind_silent
    | intro _
    | split
    | dsimp only)

set_option maxRecDepth 8192 in
theorem effect_createLoadTyped (ty : LType) (ptr : Value) :
    Effect [] (createLoadTyped ty ptr) := by
  unfold LlvmCodegen.createLoadTyped
  repeat (first
    | exact effect_pure _
    | exact effect_failFunctionCompilation _
    | exact effect_unreached _
    | exact effect_getState
    | exact effect_modifyState (fun _ => ⟨rfl, rfl⟩)
    | exact effect_jitAssert _ _
    | exact effect_deref _
    | exact effect_create _
    | apply effect_bind_silent
    | intro _
    | split
    | dsimp only)

set_option maxRecDepth 8192 in
theorem effect_createStore (v ptr : Value) :
    Effect [] (createStore v ptr) := by
  unfold LlvmCodegen.createStore
  repeat (first
    | exact effect_pure _
    | exact effect_failFunctionCompilation _
    | exact effect_unreached _
    | exact effect_getState
    | exact effect_modifyState (fun _ => ⟨rfl, rfl⟩)
    | exact effect_jitAssert _ _
    | exact effect_deref _
    | exact effect_create _
    | apply effect_bind_silent
    | intro _
    | split
    | dsimp only)

set_option maxRecDepth 8192 in
theorem effect_createCall (callee : Value) (fty : LType) (args : List Value) :
    Effect [] (createCall callee fty args) := by
  unfold LlvmCodegen.createCall
  repeat (first
    | exact effect_pure _
    | exact effect_failFunctionCompilation _
    | exact effect_unreached _
    | exact effect_getState
    | exact effect_modifyState (fun _ => ⟨rfl, rfl⟩)
    | exact effect_jitAssert _ _
    | exact effect_deref _
    | exact effect_create _
    | apply effect_bind_silent
    | intro _
    | split
    | dsimp only)

set_option maxRecDepth 8192 in
theorem effect_createCallTo (f : LFunction) (args : List Value) :
    Effect [] (createCallTo f args) := by
  unfold LlvmCodegen.createCallTo
  repeat (first
    | exact effect_pure _
    | exact effect_failFunctionCompilation _
    | exact effect_unreached _
    | exact effect_getState
    | exact effect_modifyState (fun _ => ⟨rfl, rfl⟩)
    | exact effect_jitAssert _ _
    | exact effect_deref _
    | exact effect_createCall _ _ _
    | apply effect_bind_silent
    | intro _
    | split
    | dsimp only)

set_option maxRecDepth 8192 in
theorem effect_AddCodeReloc (handle : Nat) :
    Effect [] (AddCodeReloc handle) := by
  unfold LlvmCodegen.AddCodeReloc
  repeat (first
    | exact effect_pure _
    | exact effect_failFunctionCompilation _
    | exact effect_unreached _
    | exact effect_getState
    | exact effect_modifyState (fun _ => ⟨rfl, rfl⟩)
    | exact effect_jitAssert _ _
    | exact effect_deref _
    | apply effect_bind_silent
    | intro _
    | split
    | dsimp only)

theorem effect_functionGetArg (i : Nat) : Effect [] (functionGetArg i) := by
  constructor
  intro s
  unfold LlvmCodegen.functionGetArg
  cases s.function with
  | none => exact (effect_unreached (α := Value) []).run s
  | some f => exact (effect_deref (f.getArg i)).run s

set_option maxRecDepth 8192 in
theorem effect_getCast (source : Value) (targetType : LType) :
    Effect [] (getCast source targetType) := by
  unfold LlvmCodegen.getCast
  repeat (first
    | exact effect_pure _
    | exact effect_failFunctionCompilation _
    | exact effect_unreached _
    | exact effect_getState
    | exact effect_modifyState (fun _ => ⟨rfl, rfl⟩)
    | exact effect_jitAssert _ _
    | exact effect_deref _
    | apply effect_bind_silent
    | intro _
    | split
    | dsimp only)

set_option maxRecDepth 8192 in
theorem effect_castIfNecessary (source : Value) (targetType : LType) :
    Effect [] (castIfNecessary source targetType) := by
  unfold LlvmCodegen.castIfNecessary
  repeat (first
    | exact effect_pure _
    | exact effect_failFunctionCompilation _
    | exact effect_unreached _
    | exact effect_getState
    | exact effect_modifyState (fun _ => ⟨rfl, rfl⟩)
    | exact effect_jitAssert _ _
    | exact effect_deref _
    | exact effect_create _
    | exact effect_getCast _ _
    | apply effect_bind_silent
    | intro _
    | split
    | dsimp only)

set_option maxRecDepth 8192 in
theorem effect_gepOrAddr (addr : Value) (offset : Nat) :
    Effect [] (gepOrAddr addr offset) := by
  unfold LlvmCodegen.gepOrAddr
  repeat (first
    | exact effect_pure _
    | exact effect_failFunctionCompilation _
    | exact effect_unreached _
    | exact effect_getState
    | exact effect_modifyState (fun _ => ⟨rfl, rfl⟩)
    | exact effect_jitAssert _ _
    | exact effect_deref _
    | exact effect_create _
    | apply effect_bind_silent
    | intro _
    | split
    | dsimp only)

set_option maxRecDepth 8192 in
theorem effect_getTotalLocalOffset (c : Compiler) :
    Effect [] (getTotalLocalOffset c) := by
  unfold LlvmCodegen.getTotalLocalOffset
  repeat (first
    | exact effect_pure _
    | exact effect_failFunctionCompilation _
    | exact effect_unreached _
    | exact effect_getState
    | exact effect_modifyState (fun _ => ⟨rfl, rfl⟩)
    | exact effect_jitAssert _ _
    | exact effect_deref _
    | apply effect_bind_silent
    | intro _
    | split
    | dsimp only)

set_option maxRecDepth 8192 in
theorem effect_getShadowStackForCallee (c : Compiler) :
    Effect [] (getShadowStackForCallee c) := by
  unfold LlvmCodegen.getShadowStackForCallee
  repeat (first
    | exact effect_pure _
    | exact effect_failFunctionCompilation _
    | exact effect_unreached _
    | exact effect_getState
    | exact effect_modifyState (fun _ => ⟨rfl, rfl⟩)
    | exact effect_jitAssert _ _
    | exact effect_deref _
    | exact effect_getTotalLocalOffset _
    | exact effect_functionGetArg _
    | exact effect_gepOrAddr _ _
    | apply effect_bind_silent
    | intro _
    | split
    | dsimp only)

set_option maxRecDepth 8192 in
theorem effect_getLLVMBasicBlockForBlock (c : Compiler) (block : Option Nat) :
    Effect [] (getLLVMBasicBlockForBlock c block) := by
  unfold LlvmCodegen.getLLVMBasicBlockForBlock
  repeat (first
    | exact effect_pure _
    | exact effect_failFunctionCompilation _
    | exact effect_unreached _
    | exact effect_getState
    | exact effect_modifyState (fun _ => ⟨rfl, rfl⟩)
    | exact effect_jitAssert _ _
    | exact effect_deref _
    | exact effect_createBasicBlock _ _
    | exact effect_tableSetChecked _ _ _ _
    | apply effect_bind_silent
    | intro _
    | split
    | dsimp only)

set_option maxRecDepth 8192 in
theorem effect_isLlvmFrameLocal (c : Compiler) (varDsc : LclVarDsc) :
    Effect [] (isLlvmFrameLocal c varDsc) := by
  unfold LlvmCodegen.isLlvmFrameLocal
  repeat (first
    | exact effect_pure _
    | exact effect_failFunctionCompilation _
    | exact effect_unreached _
    | exact effect_getState
    | exact effect_modifyState (fun _ => ⟨rfl, rfl⟩)
    | exact effect_jitAssert _ _
    | exact effect_deref _
    | apply effect_bind_silent
    | intro _
    | split
    | dsimp only)

set_option maxRecDepth 8192 in
theorem effect_getOrCreateExternalSymbol (symbolName : String) (symbolType : Option LType) :
    Effect [] (getOrCreateExternalSymbol symbolName symbolType) := by
  unfold LlvmCodegen.getOrCreateExternalSymbol
  repeat (first
    | exact effect_pure _
    | exact effect_failFunctionCompilation _
    | exact effect_unreached _
    | exact effect_getState
    | exact effect_modifyState (fun _ => ⟨rfl, rfl⟩)
    | exact effect_jitAssert _ _
    | exact effect_deref _
    | apply effect_bind_silent
    | intro _
    | split
    | dsimp only)

set_option maxRecDepth 8192 in
theorem effect_getOrCreateFunction (name : String) (fty : LType) (linkage : Linkage) :
    Effect [] (getOrCreateFunction name fty linkage) := by
  unfold LlvmCodegen.getOrCreateFunction
  repeat (first
    | exact effect_pure _
    | exact effect_failFunctionCompilation _
    | exact effect_unreached _
    | exact effect_getState
    | exact effect_modifyState (fun _ => ⟨rfl, rfl⟩)
    | exact effect_jitAssert _ _
    | exact effect_deref _
    | exact effect_createFunction _ _ _
    | apply effect_bind_silent
    | intro _
    | split
    | dsimp only)

set_option maxRecDepth 8192 in
theorem effect_getOrCreateRhpAssignRef :
    Effect [] (getOrCreateRhpAssignRef) := by
  unfold LlvmCodegen.getOrCreateRhpAssignRef
  repeat (first
    | exact effect_pure _
    | exact effect_failFunctionCompilation _
    | exact effect_unreached _
    | exact effect_getState
    | exact effect_modifyState (fun _ => ⟨rfl, rfl⟩)
    | exact effect_jitAssert _ _
    | exact effect_deref _
    | exact effect_getOrCreateFunction _ _ _
    | apply effect_bind_silent
    | intro _
    | split
    | dsimp only)

set_option maxRecDepth 8192 in
theorem effect_getOrCreateRhpCheckedAssignRef :
    Effect [] (getOrCreateRhpCheckedAssignRef) := by
  unfold LlvmCodegen.getOrCreateRhpCheckedAssignRef
  repeat (first
    | exact effect_pure _
    | exact effect_failFunctionCompilation _
    | exact effect_unreached _
    | exact effect_getState
    | exact effect_modifyState (fun _ => ⟨rfl, rfl⟩)
    | exact effect_jitAssert _ _
    | exact effect_deref _
    | exact effect_getOrCreateFunction _ _ _
    | apply effect_bind_silent
    | intro _
    | split
    | dsimp only)

set_option maxRecDepth 8192 in
theorem effect_buildThrowException (c : Compiler) (builder : IRBuilder) (helperClass helperMethodName : String) (shadowStack : Value) :
    Effect [] (buildThrowException c builder helperClass helperMethodName shadowStack) := by
  unfold LlvmCodegen.buildThrowException
  repeat (first
    | exact effect_pure _
    | exact effect_failFunctionCompilation _
    | exact effect_unreached _
    | exact effect_getState
    | exact effect_modifyState (fun _ => ⟨rfl, rfl⟩)
    | exact effect_jitAssert _ _
    | exact effect_deref _
    | exact effect_createFunction _ _ _
    | exact effect_AddCodeReloc _
    | exact effect_createWith _ _
    | apply effect_bind_silent
    | intro _
    | split
    | dsimp only)

set_option maxRecDepth 8192 in
theorem effect_getOrCreateThrowIfNullFunction (c : Compiler) :
    Effect [] (getOrCreateThrowIfNullFunction c) := by
  unfold LlvmCodegen.getOrCreateThrowIfNullFunction
  repeat (first
    | exact effect_pure _
    | exact effect_failFunctionCompilation _
    | exact effect_unreached _
    | exact effect_getState
    | exact effect_modifyState (fun _ => ⟨rfl, rfl⟩)
    | exact effect_jitAssert _ _
    | exact effect_deref _
    | exact effect_createFunction _ _ _
    | exact effect_createBasicBlock _ _
    | exact effect_createWith _ _
    | exact effect_buildThrowException _ _ _ _ _
    | apply effect_bind_silent
    | intro _
    | split
    | dsimp only)

set_option maxRecDepth 8192 in
theorem effect_buildLlvmCallOrInvoke (callee : LFunction) (args : List Value) :
    Effect [] (buildLlvmCallOrInvoke callee args) := by
  unfold LlvmCodegen.buildLlvmCallOrInvoke
  repeat (first
    | exact effect_pure _
    | exact effect_failFunctionCompilation _
    | exact effect_unreached _
    | exact effect_getState
    | exact effect_modifyState (fun _ => ⟨rfl, rfl⟩)
    | exact effect_jitAssert _ _
    | exact effect_deref _
    | exact effect_createCallTo _ _
    | apply effect_bind_silent
    | intro _
    | split
    | dsimp only)

set_option maxRecDepth 8192 in
theorem effect_emitDoNothingCall :
    Effect [] (emitDoNothingCall) := by
  unfold LlvmCodegen.emitDoNothingCall
  repeat (first
    | exact effect_pure _
    | exact effect_failFunctionCompilation _
    | exact effect_unreached _
    | exact effect_getState
    | exact effect_modifyState (fun _ => ⟨rfl, rfl⟩)
    | exact effect_jitAssert _ _
    | exact effect_deref _
    | exact effect_createFunction _ _ _
    | exact effect_createCallTo _ _
    | apply effect_bind_silent
    | intro _
    | split
    | dsimp only)

set_option maxRecDepth 8192 in
theorem effect_emitNullCheckForIndir (c : Compiler) (indir : GenTree) (addrValue : Value) :
    Effect [] (emitNullCheckForIndir c indir addrValue) := by
  unfold LlvmCodegen.emitNullCheckForIndir
  repeat (first
    | exact effect_pure _
    | exact effect_failFunctionCompilation _
    | exact effect_unreached _
    | exact effect_getState
    | exact effect_modifyState (fun _ => ⟨rfl, rfl⟩)
    | exact effect_jitAssert _ _
    | exact effect_deref _
    | exact effect_getOrCreateThrowIfNullFunction _
    | exact effect_castIfNecessary _ _
    | exact effect_getShadowStackForCallee _
    | exact effect_buildLlvmCallOrInvoke _ _
    | apply effect_bind_silent
    | intro _
    | split
    | dsimp only)

set_option maxRecDepth 8192 in
theorem effect_getFunctionTypeStep (c : Compiler) (argVec : List (Option LType)) (varDsc : LclVarDsc) :
    Effect [] (getFunctionTypeStep c argVec varDsc) := by
  unfold LlvmCodegen.getFunctionTypeStep
  repeat (first
    | exact effect_pure _
    | exact effect_failFunctionCompilation _
    | exact effect_unreached _
    | exact effect_getState
    | exact effect_modifyState (fun _ => ⟨rfl, rfl⟩)
    | exact effect_jitAssert _ _
    | exact effect_deref _
    | apply effect_bind_silent
    | intro _
    | split
    | dsimp only)

theorem effect_getFunctionTypeLoop (c : Compiler) (l : List LclVarDsc) :
    ∀ argVec, Effect [] (getFunctionTypeLoop c argVec l) := by
  induction l with
  | nil => exact fun _ => effect_pure _
  | cons x xs ih =>
    exact fun _ => effect_bind_silent (effect_getFunctionTypeStep _ _ _) (fun _ => ih _)

set_option maxRecDepth 8192 in
theorem effect_getFunctionType (c : Compiler) :
    Effect [] (getFunctionType c) := by
  unfold LlvmCodegen.getFunctionType
  repeat (first
    | exact effect_pure _
    | exact effect_failFunctionCompilation _
    | exact effect_unreached _
    | exact effect_getState
    | exact effect_modifyState (fun _ => ⟨rfl, rfl⟩)
    | exact effect_jitAssert _ _
    | exact effect_deref _
    | exact effect_getFunctionTypeLoop _ _ _
    | apply effect_bind_silent
    | intro _
    | split
    | dsimp only)

set_option maxRecDepth 8192 in
theorem effect_getOrCreateLlvmFunction (c : Compiler) (symbolName : String) (call : GenTree) :
    Effect [] (getOrCreateLlvmFunction c symbolName call) := by
  unfold LlvmCodegen.getOrCreateLlvmFunction
  repeat (first
    | exact effect_pure _
    | exact effect_failFunctionCompilation _
    | exact effect_unreached _
    | exact effect_getState
    | exact effect_modifyState (fun _ => ⟨rfl, rfl⟩)
    | exact effect_jitAssert _ _
    | exact effect_deref _
    | exact effect_createFunction _ _ _
    | apply effect_bind_silent
    | intro _
    | split
    | dsimp only)

set_option maxRecDepth 8192 in
theorem effect_buildLocalVar (c : Compiler) (lclVar : GenTree) :
    Effect [lclVar.id] (buildLocalVar c lclVar) := by
  unfold LlvmCodegen.buildLocalVar
  repeat (first
    | exact effect_pure _
    | exact effect_failFunctionCompilation _
    | exact effect_unreached _
    | exact effect_getState
    | exact effect_modifyState (fun _ => ⟨rfl, rfl⟩)
    | exact effect_jitAssert _ _
    | exact effect_deref _
    | exact effect_lvaGetDesc _
    | exact effect_isLlvmFrameLocal _ _
    | exact effect_createLoad _
    | exact effect_tableGet _ _
    | exact effect_create _
    | exact effect_mapGenTreeToValue _ _ _
    | apply effect_bind_silent
    | intro _
    | split
    | dsimp only)

set_option maxRecDepth 8192 in
theorem effect_buildStoreLocalVar (c : Compiler) (lclVar : GenTree) :
    Effect [] (buildStoreLocalVar c lclVar) := by
  unfold LlvmCodegen.buildStoreLocalVar
  repeat (first
    | exact effect_pure _
    | exact effect_failFunctionCompilation _
    | exact effect_unreached _
    | exact effect_getState
    | exact effect_modifyState (fun _ => ⟨rfl, rfl⟩)
    | exact effect_jitAssert _ _
    | exact effect_deref _
    | exact effect_lvaGetDesc _
    | exact effect_isLlvmFrameLocal _ _
    | exact effect_consumeValue _ _ _
    | exact effect_createStore _ _
    | exact effect_tableSetChecked _ _ _ _
    | apply effect_bind_silent
    | intro _
    | split
    | dsimp only)

set_option maxRecDepth 8192 in
theorem effect_buildEmptyPhi (c : Compiler) (phi : GenTree) :
    Effect [phi.id] (buildEmptyPhi c phi) := by
  unfold LlvmCodegen.buildEmptyPhi
  repeat (first
    | exact effect_pure _
    | exact effect_failFunctionCompilation _
    | exact effect_unreached _
    | exact effect_getState
    | exact effect_modifyState (fun _ => ⟨rfl, rfl⟩)
    | exact effect_jitAssert _ _
    | exact effect_deref _
    | exact effect_lvaGetDesc _
    | exact effect_create _
    | exact effect_mapGenTreeToValue _ _ _
    | apply effect_bind_silent
    | intro _
    | split
    | dsimp only)

set_option maxRecDepth 8192 in
theorem effect_buildLocalField (c : Compiler) (lclFld : GenTree) :
    Effect [lclFld.id] (buildLocalField c lclFld) := by
  unfold LlvmCodegen.buildLocalField
  repeat (first
    | exact effect_pure _
    | exact effect_failFunctionCompilation _
    | exact effect_unreached _
    | exact effect_getState
    | exact effect_modifyState (fun _ => ⟨rfl, rfl⟩)
    | exact effect_jitAssert _ _
    | exact effect_deref _
    | exact effect_lvaGetDesc _
    | exact effect_isLlvmFrameLocal _ _
    | exact effect_castIfNecessary _ _
    | exact effect_gepOrAddr _ _
    | exact effect_createLoad _
    | exact effect_mapGenTreeToValue _ _ _
    | apply effect_bind_silent
    | intro _
    | split
    | dsimp only)

set_option maxRecDepth 8192 in
theorem effect_buildLocalVarAddr (c : Compiler) (lclAddr : GenTree) :
    Effect [lclAddr.id] (buildLocalVarAddr c lclAddr) := by
  unfold LlvmCodegen.buildLocalVarAddr
  repeat (first
    | exact effect_pure _
    | exact effect_failFunctionCompilation _
    | exact effect_unreached _
    | exact effect_getState
    | exact effect_modifyState (fun _ => ⟨rfl, rfl⟩)
    | exact effect_jitAssert _ _
    | exact effect_deref _
    | exact effect_castIfNecessary _ _
    | exact effect_gepOrAddr _ _
    | exact effect_mapGenTreeToValue _ _ _
    | apply effect_bind_silent
    | intro _
    | split
    | dsimp only)

set_option maxRecDepth 8192 in
theorem effect_buildAdd (c : Compiler) (node : GenTree) :
    Effect [node.id] (buildAdd c node) := by
  unfold LlvmCodegen.buildAdd
  repeat (first
    | exact effect_pure _
    | exact effect_failFunctionCompilation _
    | exact effect_unreached _
    | exact effect_getState
    | exact effect_modifyState (fun _ => ⟨rfl, rfl⟩)
    | exact effect_jitAssert _ _
    | exact effect_deref _
    | exact effect_consumeValue _ _ _
    | exact effect_castIfNecessary _ _
    | exact effect_create _
    | exact effect_mapGenTreeToValue _ _ _
    | apply effect_bind_silent
    | intro _
    | split
    | dsimp only)

set_option maxRecDepth 8192 in
theorem effect_buildDiv (c : Compiler) (node : GenTree) :
    Effect [node.id] (buildDiv c node) := by
  unfold LlvmCodegen.buildDiv
  repeat (first
    | exact effect_pure _
    | exact effect_failFunctionCompilation _
    | exact effect_unreached _
    | exact effect_getState
    | exact effect_modifyState (fun _ => ⟨rfl, rfl⟩)
    | exact effect_jitAssert _ _
    | exact effect_deref _
    | exact effect_consumeValue _ _ _
    | exact effect_create _
    | exact effect_mapGenTreeToValue _ _ _
    | apply effect_bind_silent
    | intro _
    | split
    | dsimp only)

set_option maxRecDepth 8192 in
theorem effect_buildCast (c : Compiler) (cast : GenTree) :
    Effect [cast.id] (buildCast c cast) := by
  unfold LlvmCodegen.buildCast
  repeat (first
    | exact effect_pure _
    | exact effect_failFunctionCompilation _
    | exact effect_unreached _
    | exact effect_getState
    | exact effect_modifyState (fun _ => ⟨rfl, rfl⟩)
    | exact effect_jitAssert _ _
    | exact effect_deref _
    | exact effect_consumeValue _ _ _
    | exact effect_create _
    | exact effect_mapGenTreeToValue _ _ _
    | apply effect_bind_silent
    | intro _
    | split
    | dsimp only)

set_option maxRecDepth 8192 in
theorem effect_buildLclHeap (c : Compiler) (lclHeap : GenTree) :
    Effect [lclHeap.id] (buildLclHeap c lclHeap) := by
  unfold LlvmCodegen.buildLclHeap
  repeat (first
    | exact effect_pure _
    | exact effect_failFunctionCompilation _
    | exact effect_unreached _
    | exact effect_getState
    | exact effect_modifyState (fun _ => ⟨rfl, rfl⟩)
    | exact effect_jitAssert _ _
    | exact effect_deref _
    | exact effect_consumeValue _ _ _
    | exact effect_create _
    | exact effect_mapGenTreeToValue _ _ _
    | apply effect_bind_silent
    | intro _
    | split
    | dsimp only)

set_option maxRecDepth 8192 in
theorem effect_buildCmp (c : Compiler) (node : GenTree) :
    Effect [node.id] (buildCmp c node) := by
  unfold LlvmCodegen.buildCmp
  repeat (first
    | exact effect_pure _
    | exact effect_failFunctionCompilation _
    | exact effect_unreached _
    | exact effect_getState
    | exact effect_modifyState (fun _ => ⟨rfl, rfl⟩)
    | exact effect_jitAssert _ _
    | exact effect_deref _
    | exact effect_consumeValue _ _ _
    | exact effect_create _
    | exact effect_mapGenTreeToValue _ _ _
    | apply effect_bind_silent
    | intro _
    | split
    | dsimp only)

set_option maxRecDepth 8192 in
theorem effect_buildCnsDouble (c : Compiler) (node : GenTree) :
    Effect [node.id] (buildCnsDouble c node) := by
  unfold LlvmCodegen.buildCnsDouble
  repeat (first
    | exact effect_pure _
    | exact effect_failFunctionCompilation _
    | exact effect_unreached _
    | exact effect_getState
    | exact effect_modifyState (fun _ => ⟨rfl, rfl⟩)
    | exact effect_jitAssert _ _
    | exact effect_deref _
    | exact effect_mapGenTreeToValue _ _ _
    | apply effect_bind_silent
    | intro _
    | split
    | dsimp only)

set_option maxRecDepth 8192 in
theorem effect_buildCnsInt (c : Compiler) (node : GenTree) :
    Effect [node.id] (buildCnsInt c node) := by
  unfold LlvmCodegen.buildCnsInt
  repeat (first
    | exact effect_pure _
    | exact effect_failFunctionCompilation _
    | exact effect_unreached _
    | exact effect_getState
    | exact effect_modifyState (fun _ => ⟨rfl, rfl⟩)
    | exact effect_jitAssert _ _
    | exact effect_deref _
    | exact effect_AddCodeReloc _
    | exact effect_getOrCreateExternalSymbol _ _
    | exact effect_createLoad _
    | exact effect_create _
    | exact effect_mapGenTreeToValue _ _ _
    | apply effect_bind_silent
    | intro _
    | split
    | dsimp only)

set_option maxRecDepth 8192 in
theorem effect_buildCnsLng (c : Compiler) (node : GenTree) :
    Effect [node.id] (buildCnsLng c node) := by
  unfold LlvmCodegen.buildCnsLng
  repeat (first
    | exact effect_pure _
    | exact effect_failFunctionCompilation _
    | exact effect_unreached _
    | exact effect_getState
    | exact effect_modifyState (fun _ => ⟨rfl, rfl⟩)
    | exact effect_jitAssert _ _
    | exact effect_deref _
    | exact effect_mapGenTreeToValue _ _ _
    | apply effect_bind_silent
    | intro _
    | split
    | dsimp only)

set_option maxRecDepth 8192 in
theorem effect_buildFieldListStore (c : Compiler) (allocaAsBytePtr : Value) (use : UseData × GenTree) :
    Effect [] (buildFieldListStore c allocaAsBytePtr use) := by
  unfold LlvmCodegen.buildFieldListStore
  repeat (first
    | exact effect_pure _
    | exact effect_failFunctionCompilation _
    | exact effect_unreached _
    | exact effect_getState
    | exact effect_modifyState (fun _ => ⟨rfl, rfl⟩)
    | exact effect_jitAssert _ _
    | exact effect_deref _
    | exact effect_gepOrAddr _ _
    | exact effect_castIfNecessary _ _
    | exact effect_consumeValue _ _ _
    | exact effect_createStore _ _
    | apply effect_bind_silent
    | intro _
    | split
    | dsimp only)

set_option maxRecDepth 8192 in
theorem effect_buildFieldList (c : Compiler) (fieldList : GenTree) (llvmType : LType) :
    Effect [] (buildFieldList c fieldList llvmType) := by
  unfold LlvmCodegen.buildFieldList
  repeat (first
    | exact effect_pure _
    | exact effect_failFunctionCompilation _
    | exact effect_unreached _
    | exact effect_getState
    | exact effect_modifyState (fun _ => ⟨rfl, rfl⟩)
    | exact effect_jitAssert _ _
    | exact effect_deref _
    | exact effect_create _
    | exact effect_forEach (effect_buildFieldListStore _ _) _
    | exact effect_createLoad _
    | exact effect_consumeValue _ _ _
    | apply effect_bind_silent
    | intro _
    | split
    | dsimp only)

set_option maxRecDepth 8192 in
theorem effect_buildUserFuncCallArg (c : Compiler) (use : UseData × GenTree) :
    Effect [] (buildUserFuncCallArg c use) := by
  unfold LlvmCodegen.buildUserFuncCallArg
  repeat (first
    | exact effect_pure _
    | exact effect_failFunctionCompilation _
    | exact effect_unreached _
    | exact effect_getState
    | exact effect_modifyState (fun _ => ⟨rfl, rfl⟩)
    | exact effect_jitAssert _ _
    | exact effect_deref _
    | exact effect_buildFieldList _ _ _
    | exact effect_consumeValue _ _ _
    | apply effect_bind_silent
    | intro _
    | split
    | dsimp only)

set_option maxRecDepth 8192 in
theorem effect_buildUserFuncCall (c : Compiler) (call : GenTree) :
    Effect [call.id] (buildUserFuncCall c call) := by
  unfold LlvmCodegen.buildUserFuncCall
  repeat (first
    | exact effect_pure _
    | exact effect_failFunctionCompilation _
    | exact effect_unreached _
    | exact effect_getState
    | exact effect_modifyState (fun _ => ⟨rfl, rfl⟩)
    | exact effect_jitAssert _ _
    | exact effect_deref _
    | exact effect_getGenTreeValue _
    | exact effect_castIfNecessary _ _
    | exact effect_AddCodeReloc _
    | exact effect_getOrCreateLlvmFunction _ _ _
    | exact effect_mapEach (effect_buildUserFuncCallArg _) _
    | exact effect_createCall _ _ _
    | exact effect_mapGenTreeToValue _ _ _
    | apply effect_bind_silent
    | intro _
    | split
    | dsimp only)

theorem effect_sortHelperArgs (l : List (Nat × GenTree)) :
    ∀ sorted, Effect [] (sortHelperArgs sorted l) := by
  induction l with
  | nil => exact fun _ => effect_pure _
  | cons x xs ih =>
    intro sorted
    unfold LlvmCodegen.sortHelperArgs
    split
    · exact ih _
    · exact effect_unreached _

theorem effect_buildHelperArgs (c : Compiler) (llvmFunc : LFunction)
    (l : List (Option (Nat × GenTree))) :
    ∀ argIx, Effect [] (buildHelperArgs c llvmFunc argIx l) := by
  induction l with
  | nil => exact fun _ => effect_pure _
  | cons x xs ih =>
    intro argIx
    unfold LlvmCodegen.buildHelperArgs
    repeat (first
      | exact effect_pure _
      | exact effect_deref _
      | exact effect_AddCodeReloc _
      | exact effect_getOrCreateExternalSymbol _ _
      | exact effect_castIfNecessary _ _
      | exact effect_createLoad _
      | exact effect_consumeValue _ _ _
      | exact ih _
      | apply effect_bind_silent
      | intro _
      | split
      | dsimp only)

set_option maxRecDepth 8192 in
theorem effect_buildHelperFuncCall (c : Compiler) (call : GenTree) :
    Effect [call.id] (buildHelperFuncCall c call) := by
  unfold LlvmCodegen.buildHelperFuncCall
  repeat (first
    | exact effect_pure _
    | exact effect_failFunctionCompilation _
    | exact effect_unreached _
    | exact effect_getState
    | exact effect_modifyState (fun _ => ⟨rfl, rfl⟩)
    | exact effect_jitAssert _ _
    | exact effect_deref _
    | exact effect_getOrCreateFunction _ _ _
    | exact effect_AddCodeReloc _
    | exact effect_getShadowStackForCallee _
    | exact effect_createCallTo _ _
    | exact effect_sortHelperArgs _ _
    | exact effect_getOrCreateExternalSymbol _ _
    | exact effect_createStore _ _
    | exact effect_buildHelperArgs _ _ _ _
    | exact effect_mapGenTreeToValue _ _ _
    | apply effect_bind_silent
    | intro _
    | split
    | dsimp only)

set_option maxRecDepth 8192 in
theorem effect_buildCall (c : Compiler) (node : GenTree) :
    Effect [node.id] (buildCall c node) := by
  unfold LlvmCodegen.buildCall
  repeat (first
    | exact effect_pure _
    | exact effect_failFunctionCompilation _
    | exact effect_unreached _
    | exact effect_getState
    | exact effect_modifyState (fun _ => ⟨rfl, rfl⟩)
    | exact effect_jitAssert _ _
    | exact effect_deref _
    | exact effect_buildHelperFuncCall _ _
    | exact effect_buildUserFuncCall _ _
    | apply effect_bind_silent
    | intro _
    | split
    | dsimp only)

set_option maxRecDepth 8192 in
theorem effect_buildInd (c : Compiler) (indNode : GenTree) :
    Effect [indNode.id] (buildInd c indNode) := by
  unfold LlvmCodegen.buildInd
  repeat (first
    | exact effect_pure _
    | exact effect_failFunctionCompilation _
    | exact effect_unreached _
    | exact effect_getState
    | exact effect_modifyState (fun _ => ⟨rfl, rfl⟩)
    | exact effect_jitAssert _ _
    | exact effect_deref _
    | exact effect_consumeValue _ _ _
    | exact effect_emitNullCheckForIndir _ _ _
    | exact effect_createLoadTyped _ _
    | exact effect_mapGenTreeToValue _ _ _
    | apply effect_bind_silent
    | intro _
    | split
    | dsimp only)

set_option maxRecDepth 8192 in
theorem effect_buildBlk (c : Compiler) (blkNode : GenTree) :
    Effect [blkNode.id] (buildBlk c blkNode) := by
  unfold LlvmCodegen.buildBlk
  repeat (first
    | exact effect_pure _
    | exact effect_failFunctionCompilation _
    | exact effect_unreached _
    | exact effect_getState
    | exact effect_modifyState (fun _ => ⟨rfl, rfl⟩)
    | exact effect_jitAssert _ _
    | exact effect_deref _
    | exact effect_consumeValue _ _ _
    | exact effect_emitNullCheckForIndir _ _ _
    | exact effect_createLoadTyped _ _
    | exact effect_mapGenTreeToValue _ _ _
    | apply effect_bind_silent
    | intro _
    | split
    | dsimp only)

set_option maxRecDepth 8192 in
theorem effect_buildStoreInd (c : Compiler) (storeIndOp : GenTree) :
    Effect [] (buildStoreInd c storeIndOp) := by
  unfold LlvmCodegen.buildStoreInd
  repeat (first
    | exact effect_pure _
    | exact effect_failFunctionCompilation _
    | exact effect_unreached _
    | exact effect_getState
    | exact effect_modifyState (fun _ => ⟨rfl, rfl⟩)
    | exact effect_jitAssert _ _
    | exact effect_deref _
    | exact effect_consumeValue _ _ _
    | exact effect_emitNullCheckForIndir _ _ _
    | exact effect_getOrCreateRhpAssignRef
    | exact effect_getOrCreateRhpCheckedAssignRef
    | exact effect_createCallTo _ _
    | exact effect_createStore _ _
    | apply effect_bind_silent
    | intro _
    | split
    | dsimp only)

set_option maxRecDepth 8192 in
theorem effect_buildMemCpy (baseAddress : Value) (startOffset endOffset : Nat) (srcAddress : Value) :
    Effect [] (buildMemCpy baseAddress startOffset endOffset srcAddress) := by
  unfold LlvmCodegen.buildMemCpy
  repeat (first
    | exact effect_pure _
    | exact effect_failFunctionCompilation _
    | exact effect_unreached _
    | exact effect_getState
    | exact effect_modifyState (fun _ => ⟨rfl, rfl⟩)
    | exact effect_jitAssert _ _
    | exact effect_deref _
    | exact effect_gepOrAddr _ _
    | exact effect_create _
    | apply effect_bind_silent
    | intro _
    | split
    | dsimp only)

set_option maxRecDepth 8192 in
theorem effect_storeObjField (c : Compiler) (baseAddress data : Value) (p : Bool)
    (fieldDesc : FieldDesc) (recurse : Value → Value → M Unit)
    (hrec : ∀ a v, Effect [] (recurse a v)) (bytesStored : Nat) :
    Effect [] (storeObjField c baseAddress data p fieldDesc recurse bytesStored) := by
  unfold LlvmCodegen.storeObjField
  repeat (first
    | exact effect_pure _
    | exact effect_jitAssert _ _
    | exact effect_create _
    | exact effect_gepOrAddr _ _
    | exact effect_buildMemCpy _ _ _ _
    | exact effect_getOrCreateRhpCheckedAssignRef
    | exact effect_castIfNecessary _ _
    | exact effect_createCallTo _ _
    | exact effect_createStore _ _
    | exact hrec _ _
    | apply effect_bind_silent
    | intro _
    | split
    | dsimp only)

set_option maxRecDepth 8192 in
theorem effect_storeObjTail (baseAddress data : Value) (p : Bool) (bytesStored : Nat) :
    Effect [] (storeObjTail baseAddress data p bytesStored) := by
  unfold LlvmCodegen.storeObjTail
  repeat (first
    | exact effect_pure _
    | exact effect_failFunctionCompilation _
    | exact effect_unreached _
    | exact effect_getState
    | exact effect_modifyState (fun _ => ⟨rfl, rfl⟩)
    | exact effect_jitAssert _ _
    | exact effect_deref _
    | exact effect_create _
    | exact effect_buildMemCpy _ _ _ _
    | apply effect_bind_silent
    | intro _
    | split
    | dsimp only)

mutual
theorem effect_storeObjAtAddress (c : Compiler) (baseAddress data : Value) :
    ∀ sd, Effect [] (storeObjAtAddress c baseAddress data sd)
  | .mk fields p => by
    rw [LlvmCodegen.storeObjAtAddress]
    exact effect_bind_silent (effect_storeObjFields c baseAddress data p fields 0)
      (fun _ => effect_storeObjTail _ _ _ _)
theorem effect_storeObjFields (c : Compiler) (baseAddress data : Value) (p : Bool) :
    ∀ fields n, Effect [] (storeObjFields c baseAddress data p fields n)
  | [], n => by
    rw [LlvmCodegen.storeObjFields]
    exact effect_pure n
  | (fd, none) :: rest, n => by
    rw [LlvmCodegen.storeObjFields]
    exact effect_bind_silent
      (effect_storeObjField c baseAddress data p fd _ (fun _ _ => effect_unreached _) n)
      (fun n1 => effect_storeObjFields c baseAddress data p rest n1)
  | (fd, some sd) :: rest, n => by
    rw [LlvmCodegen.storeObjFields]
    exact effect_bind_silent
      (effect_storeObjField c baseAddress data p fd _
        (fun a v => effect_storeObjAtAddress c a v sd) n)
      (fun n1 => effect_storeObjFields c baseAddress data p rest n1)
end

set_option maxRecDepth 8192 in
theorem effect_buildStoreBlk (c : Compiler) (blockOp : GenTree) :
    Effect [] (buildStoreBlk c blockOp) := by
  unfold LlvmCodegen.buildStoreBlk
  repeat (first
    | exact effect_pure _
    | exact effect_failFunctionCompilation _
    | exact effect_unreached _
    | exact effect_getState
    | exact effect_modifyState (fun _ => ⟨rfl, rfl⟩)
    | exact effect_jitAssert _ _
    | exact effect_deref _
    | exact effect_consumeValue _ _ _
    | exact effect_emitNullCheckForIndir _ _ _
    | exact effect_create _
    | exact effect_storeObjAtAddress _ _ _ _
    | exact effect_castIfNecessary _ _
    | exact effect_createStore _ _
    | apply effect_bind_silent
    | intro _
    | split
    | dsimp only)

set_option maxRecDepth 8192 in
theorem effect_buildUnaryOperation (c : Compiler) (node : GenTree) :
    Effect [node.id] (buildUnaryOperation c node) := by
  unfold LlvmCodegen.buildUnaryOperation
  repeat (first
    | exact effect_pure _
    | exact effect_failFunctionCompilation _
    | exact effect_unreached _
    | exact effect_getState
    | exact effect_modifyState (fun _ => ⟨rfl, rfl⟩)
    | exact effect_jitAssert _ _
    | exact effect_deref _
    | exact effect_consumeValue _ _ _
    | exact effect_create _
    | exact effect_mapGenTreeToValue _ _ _
    | apply effect_bind_silent
    | intro _
    | split
    | dsimp only)

set_option maxRecDepth 8192 in
theorem effect_buildBinaryOperation (c : Compiler) (node : GenTree) :
    Effect [node.id] (buildBinaryOperation c node) := by
  unfold LlvmCodegen.buildBinaryOperation
  repeat (first
    | exact effect_pure _
    | exact effect_failFunctionCompilation _
    | exact effect_unreached _
    | exact effect_getState
    | exact effect_modifyState (fun _ => ⟨rfl, rfl⟩)
    | exact effect_jitAssert _ _
    | exact effect_deref _
    | exact effect_consumeValue _ _ _
    | exact effect_create _
    | exact effect_mapGenTreeToValue _ _ _
    | apply effect_bind_silent
    | intro _
    | split
    | dsimp only)

set_option maxRecDepth 8192 in
theorem effect_buildShift (c : Compiler) (node : GenTree) :
    Effect [node.id] (buildShift c node) := by
  unfold LlvmCodegen.buildShift
  repeat (first
    | exact effect_pure _
    | exact effect_failFunctionCompilation _
    | exact effect_unreached _
    | exact effect_getState
    | exact effect_modifyState (fun _ => ⟨rfl, rfl⟩)
    | exact effect_jitAssert _ _
    | exact effect_deref _
    | exact effect_consumeValue _ _ _
    | exact effect_create _
    | exact effect_mapGenTreeToValue _ _ _
    | apply effect_bind_silent
    | intro _
    | split
    | dsimp only)

set_option maxRecDepth 8192 in
theorem effect_buildReturn (c : Compiler) (node : GenTree) :
    Effect [] (buildReturn c node) := by
  unfold LlvmCodegen.buildReturn
  repeat (first
    | exact effect_pure _
    | exact effect_failFunctionCompilation _
    | exact effect_unreached _
    | exact effect_getState
    | exact effect_modifyState (fun _ => ⟨rfl, rfl⟩)
    | exact effect_jitAssert _ _
    | exact effect_deref _
    | exact effect_consumeValue _ _ _
    | exact effect_create _
    | apply effect_bind_silent
    | intro _
    | split
    | dsimp only)

set_option maxRecDepth 8192 in
theorem effect_buildJTrue (c : Compiler) (node : GenTree) (opValue : Value) :
    Effect [] (buildJTrue c node opValue) := by
  unfold LlvmCodegen.buildJTrue
  repeat (first
    | exact effect_pure _
    | exact effect_failFunctionCompilation _
    | exact effect_unreached _
    | exact effect_getState
    | exact effect_modifyState (fun _ => ⟨rfl, rfl⟩)
    | exact effect_jitAssert _ _
    | exact effect_deref _
    | exact effect_getLLVMBasicBlockForBlock _ _
    | exact effect_create _
    | apply effect_bind_silent
    | intro _
    | split
    | dsimp only)

set_option maxRecDepth 8192 in
theorem effect_buildNullCheck (c : Compiler) (nullCheckNode : GenTree) :
    Effect [] (buildNullCheck c nullCheckNode) := by
  unfold LlvmCodegen.buildNullCheck
  repeat (first
    | exact effect_pure _
    | exact effect_failFunctionCompilation _
    | exact effect_unreached _
    | exact effect_getState
    | exact effect_modifyState (fun _ => ⟨rfl, rfl⟩)
    | exact effect_jitAssert _ _
    | exact effect_deref _
    | exact effect_consumeValue _ _ _
    | exact effect_emitNullCheckForIndir _ _ _
    | apply effect_bind_silent
    | intro _
    | split
    | dsimp only)

set_option maxRecDepth 8192 in
theorem effect_getOrCreateDebugMetadata (documentFileName : String) :
    Effect [] (getOrCreateDebugMetadata documentFileName) := by
  unfold LlvmCodegen.getOrCreateDebugMetadata
  repeat (first
    | exact effect_pure _
    | exact effect_failFunctionCompilation _
    | exact effect_unreached _
    | exact effect_getState
    | exact effect_modifyState (fun _ => ⟨rfl, rfl⟩)
    | exact effect_jitAssert _ _
    | exact effect_deref _
    | apply effect_bind_silent
    | intro _
    | split
    | dsimp only)

set_option maxRecDepth 8192 in
theorem effect_createDebugFunctionAndDiLocation (c : Compiler) (dm : DebugMetadata) (lineNo : Nat) :
    Effect [] (createDebugFunctionAndDiLocation c dm lineNo) := by
  unfold LlvmCodegen.createDebugFunctionAndDiLocation
  repeat (first
    | exact effect_pure _
    | exact effect_failFunctionCompilation _
    | exact effect_unreached _
    | exact effect_getState
    | exact effect_modifyState (fun _ => ⟨rfl, rfl⟩)
    | exact effect_jitAssert _ _
    | exact effect_deref _
    | apply effect_bind_silent
    | intro _
    | split
    | dsimp only)

set_option maxRecDepth 8192 in
theorem effect_startImportingNode (c : Compiler) :
    Effect [] (startImportingNode c) := by
  unfold LlvmCodegen.startImportingNode
  repeat (first
    | exact effect_pure _
    | exact effect_failFunctionCompilation _
    | exact effect_unreached _
    | exact effect_getState
    | exact effect_modifyState (fun _ => ⟨rfl, rfl⟩)
    | exact effect_jitAssert _ _
    | exact effect_deref _
    | exact effect_createDebugFunctionAndDiLocation _ _ _
    | apply effect_bind_silent
    | intro _
    | split
    | dsimp only)

set_option maxRecDepth 8192 in
theorem effect_startImportingBasicBlock (block : BasicBlock) :
    Effect [] (startImportingBasicBlock block) := by
  unfold LlvmCodegen.startImportingBasicBlock
  repeat (first
    | exact effect_pure _
    | exact effect_failFunctionCompilation _
    | exact effect_unreached _
    | exact effect_getState
    | exact effect_modifyState (fun _ => ⟨rfl, rfl⟩)
    | exact effect_jitAssert _ _
    | exact effect_deref _
    | apply effect_bind_silent
    | intro _
    | split
    | dsimp only)

set_option maxRecDepth 8192 in
theorem effect_endImportingBasicBlock (c : Compiler) (block : BasicBlock) :
    Effect [] (endImportingBasicBlock c block) := by
  unfold LlvmCodegen.endImportingBasicBlock
  repeat (first
    | exact effect_pure _
    | exact effect_failFunctionCompilation _
    | exact effect_unreached _
    | exact effect_getState
    | exact effect_modifyState (fun _ => ⟨rfl, rfl⟩)
    | exact effect_jitAssert _ _
    | exact effect_deref _
    | exact effect_getLLVMBasicBlockForBlock _ _
    | exact effect_create _
    | apply effect_bind_silent
    | intro _
    | split
    | dsimp only)

set_option maxRecDepth 8192 in
theorem effect_addIncoming (phi v : Value) (blk : Nat) :
    Effect [] (addIncoming phi v blk) := by
  unfold LlvmCodegen.addIncoming
  repeat (first
    | exact effect_pure _
    | exact effect_failFunctionCompilation _
    | exact effect_unreached _
    | exact effect_getState
    | exact effect_modifyState (fun _ => ⟨rfl, rfl⟩)
    | exact effect_jitAssert _ _
    | exact effect_deref _
    | apply effect_bind_silent
    | intro _
    | split
    | dsimp only)

set_option maxRecDepth 8192 in
theorem effect_builderSetInsertPointBefore (blk : Nat) (i : Instruction) :
    Effect [] (builderSetInsertPointBefore blk i) := by
  unfold LlvmCodegen.builderSetInsertPointBefore
  repeat (first
    | exact effect_pure _
    | exact effect_failFunctionCompilation _
    | exact effect_unreached _
    | exact effect_getState
    | exact effect_modifyState (fun _ => ⟨rfl, rfl⟩)
    | exact effect_jitAssert _ _
    | exact effect_deref _
    | apply effect_bind_silent
    | intro _
    | split
    | dsimp only)

set_option maxRecDepth 8192 in
theorem effect_builderRestoreInsertPoint (saved : IRBuilder) :
    Effect [] (builderRestoreInsertPoint saved) := by
  unfold LlvmCodegen.builderRestoreInsertPoint
  repeat (first
    | exact effect_pure _
    | exact effect_failFunctionCompilation _
    | exact effect_unreached _
    | exact effect_getState
    | exact effect_modifyState (fun _ => ⟨rfl, rfl⟩)
    | exact effect_jitAssert _ _
    | exact effect_deref _
    | apply effect_bind_silent
    | intro _
    | split
    | dsimp only)

set_option maxRecDepth 8192 in
theorem effect_fillPhiArgValue (c : Compiler) (llvmPhiNode : Value) (phiArg : GenTree) :
    Effect [] (fillPhiArgValue c llvmPhiNode phiArg) := by
  unfold LlvmCodegen.fillPhiArgValue
  repeat (first
    | exact effect_pure _
    | exact effect_failFunctionCompilation _
    | exact effect_unreached _
    | exact effect_getState
    | exact effect_modifyState (fun _ => ⟨rfl, rfl⟩)
    | exact effect_jitAssert _ _
    | exact effect_deref _
    | exact effect_tableGet _ _
    | exact effect_getCast _ _
    | exact effect_getLLVMBasicBlockForBlock _ _
    | exact effect_builderSetInsertPointBefore _ _
    | exact effect_create _
    | exact effect_builderRestoreInsertPoint _
    | apply effect_bind_silent
    | intro _
    | split
    | dsimp only)

set_option maxRecDepth 8192 in
theorem effect_fillPhiArg (c : Compiler) (llvmPhiNode : Value) (use : UseData × GenTree) :
    Effect [] (fillPhiArg c llvmPhiNode use) := by
  unfold LlvmCodegen.fillPhiArg
  repeat (first
    | exact effect_pure _
    | exact effect_failFunctionCompilation _
    | exact effect_unreached _
    | exact effect_getState
    | exact effect_modifyState (fun _ => ⟨rfl, rfl⟩)
    | exact effect_jitAssert _ _
    | exact effect_deref _
    | exact effect_fillPhiArgValue _ _ _
    | exact effect_getLLVMBasicBlockForBlock _ _
    | exact effect_addIncoming _ _ _
    | apply effect_bind_silent
    | intro _
    | split
    | dsimp only)

set_option maxRecDepth 8192 in
theorem effect_fillPhiPair (c : Compiler) (phiPair : PhiPair) :
    Effect [] (fillPhiPair c phiPair) := by
  unfold LlvmCodegen.fillPhiPair
  repeat (first
    | exact effect_pure _
    | exact effect_failFunctionCompilation _
    | exact effect_unreached _
    | exact effect_getState
    | exact effect_modifyState (fun _ => ⟨rfl, rfl⟩)
    | exact effect_jitAssert _ _
    | exact effect_deref _
    | exact effect_forEach (effect_fillPhiArg _ _) _
    | apply effect_bind_silent
    | intro _
    | split
    | dsimp only)

set_option maxRecDepth 8192 in
theorem effect_fillPhis (c : Compiler) :
    Effect [] (fillPhis c) := by
  unfold LlvmCodegen.fillPhis
  repeat (first
    | exact effect_pure _
    | exact effect_failFunctionCompilation _
    | exact effect_unreached _
    | exact effect_getState
    | exact effect_modifyState (fun _ => ⟨rfl, rfl⟩)
    | exact effect_jitAssert _ _
    | exact effect_deref _
    | exact effect_forEach (effect_fillPhiPair _) _
    | apply effect_bind_silent
    | intro _
    | split
    | dsimp only)

set_option maxRecDepth 8192 in
theorem effect_initialValueOf (c : Compiler) (lclNum : Nat) (varDsc : LclVarDsc) (zeroValue : Value) :
    Effect [] (initialValueOf c lclNum varDsc zeroValue) := by
  unfold LlvmCodegen.initialValueOf
  repeat (first
    | exact effect_pure _
    | exact effect_failFunctionCompilation _
    | exact effect_unreached _
    | exact effect_getState
    | exact effect_modifyState (fun _ => ⟨rfl, rfl⟩)
    | exact effect_jitAssert _ _
    | exact effect_deref _
    | exact effect_functionGetArg _
    | apply effect_bind_silent
    | intro _
    | split
    | dsimp only)

set_option maxRecDepth 8192 in
theorem effect_initializeLocal (c : Compiler) (lclNum : Nat) :
    Effect [] (initializeLocal c lclNum) := by
  unfold LlvmCodegen.initializeLocal
  repeat (first
    | exact effect_pure _
    | exact effect_failFunctionCompilation _
    | exact effect_unreached _
    | exact effect_getState
    | exact effect_modifyState (fun _ => ⟨rfl, rfl⟩)
    | exact effect_jitAssert _ _
    | exact effect_deref _
    | exact effect_lvaGetDesc _
    | exact effect_initialValueOf _ _ _ _
    | exact effect_createProlog _
    | exact effect_isLlvmFrameLocal _ _
    | exact effect_tableSetChecked _ _ _ _
    | apply effect_bind_silent
    | intro _
    | split
    | dsimp only)

set_option maxRecDepth 8192 in
theorem effect_initializeLocals (c : Compiler) :
    Effect [] (initializeLocals c) := by
  unfold LlvmCodegen.initializeLocals
  repeat (first
    | exact effect_pure _
    | exact effect_failFunctionCompilation _
    | exact effect_unreached _
    | exact effect_getState
    | exact effect_modifyState (fun _ => ⟨rfl, rfl⟩)
    | exact effect_jitAssert _ _
    | exact effect_deref _
    | exact effect_forEach (effect_initializeLocal _) _
    | apply effect_bind_silent
    | intro _
    | split
    | dsimp only)

set_option maxRecDepth 8192 in
theorem effect_generateProlog (c : Compiler) :
    Effect [] (generateProlog c) := by
  unfold LlvmCodegen.generateProlog
  repeat (first
    | exact effect_pure _
    | exact effect_failFunctionCompilation _
    | exact effect_unreached _
    | exact effect_getState
    | exact effect_modifyState (fun _ => ⟨rfl, rfl⟩)
    | exact effect_jitAssert _ _
    | exact effect_deref _
    | exact effect_createBasicBlock _ _
    | exact effect_initializeLocals _
    | exact effect_getLLVMBasicBlockForBlock _ _
    | exact effect_createProlog _
    | exact effect_builderSetInsertPoint _
    | apply effect_bind_silent
    | intro _
    | split
    | dsimp only)

theorem effect_bind {α β : Type} {l1 l2 : List Nat} {m : M α} {f : α → M β}
    (hm : Effect l1 m) (hf : ∀ a, Effect l2 (f a)) : Effect (l1 ++ l2) (m >>= f) := by
  constructor
  intro s
  have h1 := hm.run s
  rw [m_bind_apply]
  cases hms : m s with
  | ok a s1 =>
    rw [hms] at h1
    have h2 := (hf a).run s1
    simp only
    cases hfs : f a s1 with
    | ok b s2 =>
      rw [hfs] at h2
      exact step_trans h1 h2
    | failed k s2 =>
      rw [hfs] at h2
      obtain ⟨l, hl, hs⟩ := h2
      exact ⟨l1 ++ l, (List.prefix_append_right_inj l1).mpr hl, step_trans h1 hs⟩
  | failed k s1 =>
    rw [hms] at h1
    obtain ⟨l, hl, hs⟩ := h1
    exact ⟨l, hl.trans (List.prefix_append l1 l2), hs⟩

theorem effect_visitNode (c : Compiler) (node : GenTree) :
    Effect (writtenBy node) (visitNode c node) := by
  unfold LlvmCodegen.visitNode writtenBy
  cases hop : node.OperGet <;> simp only [producesValue, if_true, if_false, Bool.false_eq_true]
  case GT_ADD => exact effect_buildAdd c node
  case GT_DIV => exact effect_buildDiv c node
  case GT_CALL => exact effect_buildCall c node
  case GT_CAST => exact effect_buildCast c node
  case GT_LCLHEAP => exact effect_buildLclHeap c node
  case GT_CNS_DBL => exact effect_buildCnsDouble c node
  case GT_CNS_INT => exact effect_buildCnsInt c node
  case GT_CNS_LNG => exact effect_buildCnsLng c node
  case GT_IL_OFFSET => exact effect_modifyState (fun _ => ⟨rfl, rfl⟩)
  case GT_IND => exact effect_buildInd c node
  case GT_JTRUE =>
    exact effect_bind_silent (effect_deref _)
      (fun _ => effect_bind_silent (effect_getGenTreeValue _) (fun _ => effect_buildJTrue _ _ _))
  case GT_LCL_FLD => exact effect_buildLocalField c node
  case GT_LCL_VAR => exact effect_buildLocalVar c node
  case GT_LCL_VAR_ADDR | GT_LCL_FLD_ADDR => exact effect_buildLocalVarAddr c node
  case GT_LSH | GT_RSH | GT_RSZ => exact effect_buildShift c node
  case GT_EQ | GT_NE | GT_LE | GT_LT | GT_GE | GT_GT => exact effect_buildCmp c node
  case GT_NEG | GT_NOT => exact effect_buildUnaryOperation c node
  case GT_NO_OP => exact effect_emitDoNothingCall
  case GT_NULLCHECK => exact effect_buildNullCheck c node
  case GT_OBJ | GT_BLK => exact effect_buildBlk c node
  case GT_PHI => exact effect_buildEmptyPhi c node
  case GT_PHI_ARG | GT_PUTARG_TYPE | GT_FIELD_LIST | GT_INIT_VAL => exact effect_pure ()
  case GT_RETURN => exact effect_buildReturn c node
  case GT_STORE_LCL_VAR => exact effect_buildStoreLocalVar c node
  case GT_STOREIND => exact effect_buildStoreInd c node
  case GT_STORE_BLK | GT_STORE_OBJ => exact effect_buildStoreBlk c node
  case GT_AND | GT_OR | GT_XOR => exact effect_buildBinaryOperation c node
  case GT_SUB | GT_MUL | GT_OTHER => exact effect_failFunctionCompilation _

theorem effect_visitNodes (c : Compiler) (nodes : List GenTree) :
    Effect (writtenByNodes nodes)
      (forEach (fun node => do startImportingNode c; visitNode c node) nodes) := by
  induction nodes with
  | nil => exact effect_pure ()
  | cons n ns ih =>
    exact effect_bind
      (effect_bind_silent (effect_startImportingNode c) (fun _ => effect_visitNode c n))
      (fun _ => ih)

theorem effect_PreOrderVisit (c : Compiler) (block : BasicBlock) :
    Effect (writtenByNodes block.nodes) (PreOrderVisit c block) := by
  have hrest : Effect (writtenByNodes block.nodes)
      (startImportingBasicBlock block >>= fun _ =>
        getLLVMBasicBlockForBlock c (some block.bbNum) >>= fun entry =>
          builderSetInsertPoint entry >>= fun _ =>
            forEach (fun node => do startImportingNode c; visitNode c node) block.nodes >>=
              fun _ => endImportingBasicBlock c block) := by
    apply effect_bind_silent (effect_startImportingBasicBlock _)
    intro _
    apply effect_bind_silent (effect_getLLVMBasicBlockForBlock _ _)
    intro _
    apply effect_bind_silent (effect_builderSetInsertPoint _)
    intro _
    have := effect_bind (effect_visitNodes c block.nodes)
      (fun _ => effect_endImportingBasicBlock c block)
    rw [List.append_nil] at this
    exact this
  unfold PreOrderVisit
  dsimp only
  split
  · exact effect_bind_silent (effect_failFunctionCompilation _) (fun _ => hrest)
  · exact effect_bind_silent (effect_pure _) (fun _ => hrest)

theorem effect_walk (c : Compiler) (blocks : List BasicBlock) :
    Effect (writtenByBlocks blocks) (forEach (PreOrderVisit c) blocks) := by
  induction blocks with
  | nil => exact effect_pure ()
  | cons b bs ih => exact effect_bind (effect_PreOrderVisit c b) (fun _ => ih)

theorem effect_WalkTree (c : Compiler) :
    Effect (writtenByBlocks c.fgSsaDomTreePreOrder) (WalkTree c) :=
  effect_walk c _

theorem effect_compileFunctionLookup (c : Compiler) : Effect [] (compileFunctionLookup c) := by
  unfold LlvmCodegen.compileFunctionLookup
  repeat (first
    | exact effect_pure _
    | exact effect_getState
    | exact effect_modifyState (fun _ => ⟨rfl, rfl⟩)
    | exact effect_getFunctionType _
    | exact effect_createFunction _ _ _
    | apply effect_bind_silent
    | intro _
    | split
    | dsimp only)

theorem effect_compileProlog (c : Compiler) : Effect [] (compileProlog c) := by
  unfold LlvmCodegen.compileProlog
  repeat (first
    | exact effect_pure _
    | exact effect_failFunctionCompilation _
    | exact effect_modifyState (fun _ => ⟨rfl, rfl⟩)
    | exact effect_getOrCreateDebugMetadata _
    | exact effect_generateProlog _
    | apply effect_bind_silent
    | intro _
    | split
    | dsimp only)

theorem effect_compileFinalize : Effect [] compileFinalize := by
  unfold LlvmCodegen.compileFinalize
  repeat (first
    | exact effect_pure _
    | exact effect_getState
    | exact effect_modifyState (fun _ => ⟨rfl, rfl⟩)
    | apply effect_bind_silent
    | intro _
    | split
    | dsimp only)

theorem Compile_eq_of_not_stub (c : Compiler) (h : c.mangledMethodName ≠ randomBytesStubName) :
    Compile c = (compileFunctionLookup c >>= fun _ => compileProlog c >>= fun _ =>
      WalkTree c >>= fun _ => fillPhis c >>= fun _ => compileFinalize) := by
  unfold Compile
  simp only [if_neg h]

theorem effect_Compile (c : Compiler) (h : c.mangledMethodName ≠ randomBytesStubName) :
    Effect (writtenByBlocks c.fgSsaDomTreePreOrder) (Compile c) := by
  rw [Compile_eq_of_not_stub c h]
  refine effect_bind_silent (effect_compileFunctionLookup c)
    (fun _ => effect_bind_silent (effect_compileProlog c) (fun _ => ?_))
  have := effect_bind (effect_WalkTree c)
    (fun _ => effect_bind_silent (effect_fillPhis c) (fun _ => effect_compileFinalize))
  rw [List.append_nil] at this
  exact this

/-! ## Single materialisation, the dispatcher and the block walk -/

theorem effect_writes {α : Type} {ids : List Nat} {m : M α} (h : Effect ids m) (s : Llvm) :
    ∃ l, l <+: ids ∧ Step l s (m s).state := by
  have := h.run s
  cases hm : m s with
  | ok a s1 =>
    rw [hm] at this
    exact ⟨ids, List.prefix_refl _, this⟩
  | failed k s1 =>
    rw [hm] at this
    exact this

theorem effect_ok {α : Type} {ids : List Nat} {m : M α} (h : Effect ids m) {s s1 : Llvm} {a : α}
    (hm : m s = .ok a s1) : Step ids s s1 := by
  have := h.run s
  rw [hm] at this
  exact this

theorem writtenByNodes_sublist (ns : List GenTree) :
    (writtenByNodes ns).Sublist (ns.map (fun n => n.id)) := by
  induction ns with
  | nil => exact List.Sublist.slnil
  | cons n rest ih =>
    unfold writtenByNodes writtenBy
    split
    · exact List.Sublist.cons₂ _ ih
    · exact List.Sublist.cons _ ih

theorem writtenByBlocks_sublist (bs : List BasicBlock) :
    (writtenByBlocks bs).Sublist (nodeIdsOfBlocks bs) := by
  induction bs with
  | nil => exact List.Sublist.slnil
  | cons b rest ih => exact List.Sublist.append (writtenByNodes_sublist b.nodes) ih

theorem nodeIdsOfBlocks_eq (bs : List BasicBlock) :
    nodeIdsOfBlocks bs = (nodesOfBlocks bs).map (fun n => n.id) := by
  induction bs with
  | nil => rfl
  | cons b rest ih => simp [nodeIdsOfBlocks, nodesOfBlocks, ih]

theorem mem_writtenByNodes (ns : List GenTree) (k : Nat) :
    k ∈ writtenByNodes ns ↔ ∃ n ∈ ns, producesValue n.OperGet = true ∧ n.id = k := by
  induction ns with
  | nil => simp [writtenByNodes]
  | cons n rest ih =>
    unfold writtenByNodes writtenBy
    by_cases hp : producesValue n.OperGet = true
    · simp only [hp, if_true, List.singleton_append, List.mem_cons, ih]
      constructor
      · rintro (h | ⟨n1, h1, h2⟩)
        · exact ⟨n, Or.inl rfl, hp, h.symm⟩
        · exact ⟨n1, Or.inr h1, h2⟩
      · rintro ⟨n1, h1 | h1, h2, h3⟩
        · left
          rw [← h3, h1]
        · exact Or.inr ⟨n1, h1, h2, h3⟩
    · simp only [hp, if_false, List.nil_append, List.mem_cons, ih, Bool.false_eq_true]
      constructor
      · rintro ⟨n1, h1, h2⟩
        exact ⟨n1, Or.inr h1, h2⟩
      · rintro ⟨n1, h1 | h1, h2, h3⟩
        · rw [h1] at h2
          exact absurd h2 hp
        · exact ⟨n1, h1, h2, h3⟩

theorem writtenByBlocks_eq (bs : List BasicBlock) :
    writtenByBlocks bs = writtenByNodes (nodesOfBlocks bs) := by
  have happ : ∀ a b : List GenTree, writtenByNodes (a ++ b) = writtenByNodes a ++ writtenByNodes b := by
    intro a b
    induction a with
    | nil => rfl
    | cons x xs ih => simp [writtenByNodes, ih]
  induction bs with
  | nil => rfl
  | cons b rest ih => simp [writtenByBlocks, nodesOfBlocks, happ, ih]

theorem effect_Compile_stub (c : Compiler) (h : c.mangledMethodName = randomBytesStubName) :
    Effect [] (Compile c) := by
  unfold Compile
  simp only [if_pos h]
  repeat (first
    | exact effect_pure _
    | exact effect_compileFunctionLookup _
    | exact effect_createBasicBlock _ _
    | exact effect_builderSetInsertPoint _
    | exact effect_create _
    | apply effect_bind_silent
    | intro _)

/-- Counterexample to C5 as stated: the method whose only node is a `RETURN` of type `VOID`
is lowered without failure, and that node has no entry in the node-to-value map. -/
theorem single_materialization_counterexample :
    (Compile sampleVoidMethod sampleInitialState).isOk = true ∧
    nodesOfBlocks sampleVoidMethod.fgSsaDomTreePreOrder
      = [.leaf { id := 1, gtOper := .GT_RETURN, gtType := .TYP_VOID }] ∧
    tableLookup (Compile sampleVoidMethod sampleInitialState).state.sdsuMap 1 = none := by
  decide!

/-- C5, amended: once the lowering of a method (other than the stubbed one) completes without
failure from an empty node-to-value map, every node of the walked blocks whose opcode
produces a value has an entry in the map, written exactly once, and `getGenTreeValue`
returns that entry and leaves the state unchanged; a node of any other opcode has no entry.
Node ids are pairwise distinct. -/
theorem single_materialization (c : Compiler) (s s1 : Llvm)
    (hok : Compile c s = .ok () s1)
    (hname : c.mangledMethodName ≠ randomBytesStubName)
    (hids : (nodeIdsOfBlocks c.fgSsaDomTreePreOrder).Nodup)
    (hmap : s.sdsuMap = []) (hwrites : s.sdsuWrites = []) :
    ∀ n ∈ nodesOfBlocks c.fgSsaDomTreePreOrder,
      (producesValue n.OperGet = true →
        (∃ v, tableLookup s1.sdsuMap n.id = some v ∧ getGenTreeValue n s1 = .ok v s1) ∧
        s1.sdsuWrites.count n.id = 1) ∧
      (producesValue n.OperGet = false →
        tableLookup s1.sdsuMap n.id = none ∧ s1.sdsuWrites.count n.id = 0) := by
  have hstep := effect_ok (effect_Compile c hname) hok
  obtain ⟨hw, hother, hsome⟩ := hstep
  rw [hwrites, List.nil_append] at hw
  have hnodupW : (writtenByBlocks c.fgSsaDomTreePreOrder).Nodup :=
    (writtenByBlocks_sublist _).nodup hids
  intro n hn
  constructor
  · intro hp
    have hmem : n.id ∈ writtenByBlocks c.fgSsaDomTreePreOrder := by
      rw [writtenByBlocks_eq, mem_writtenByNodes]
      exact ⟨n, hn, hp, rfl⟩
    have h1 := hsome n.id hmem
    obtain ⟨v, hv⟩ := Option.isSome_iff_exists.mp h1
    refine ⟨⟨v, hv, getGenTreeValue_of_lookup hv⟩, ?_⟩
    rw [hw]
    exact List.count_eq_one_of_mem hnodupW hmem
  · intro hp
    have hnot : n.id ∉ writtenByBlocks c.fgSsaDomTreePreOrder := by
      rw [writtenByBlocks_eq, mem_writtenByNodes]
      rintro ⟨n1, hn1, hp1, heq⟩
      rw [nodeIdsOfBlocks_eq] at hids
      have : n1 = n := List.inj_on_of_nodup_map hids hn1 hn heq
      rw [this, hp] at hp1
      cases hp1
    refine ⟨?_, ?_⟩
    · rw [hother n.id hnot, hmap]
      rfl
    · rw [hw]
      exact List.count_eq_zero_of_not_mem hnot

/-- Witness of C5, amended: the method `Add` is lowered from the empty map. -/
theorem single_materialization_witness :
    Compile sampleAddMethod sampleAddState
      = .ok () (Compile sampleAddMethod sampleAddState).state ∧
    ∀ n ∈ nodesOfBlocks sampleAddMethod.fgSsaDomTreePreOrder,
      (producesValue n.OperGet = true →
        (∃ v, tableLookup (Compile sampleAddMethod sampleAddState).state.sdsuMap n.id = some v ∧
          getGenTreeValue n (Compile sampleAddMethod sampleAddState).state
            = .ok v (Compile sampleAddMethod sampleAddState).state) ∧
        (Compile sampleAddMethod sampleAddState).state.sdsuWrites.count n.id = 1) ∧
      (producesValue n.OperGet = false →
        tableLookup (Compile sampleAddMethod sampleAddState).state.sdsuMap n.id = none ∧
        (Compile sampleAddMethod sampleAddState).state.sdsuWrites.count n.id = 0) :=
  ⟨by decide!,
    single_materialization sampleAddMethod sampleAddState
      (Compile sampleAddMethod sampleAddState).state (by decide!) (by decide) (by decide)
      (by decide) (by decide)⟩

/-- C6: the single-definition invariant.  In a lowering whose nodes are pairwise distinct
(each node is visited at most once) and that starts with no write made, no key of the
node-to-value map is written twice, whether `Compile` returns or fails.  The dispatcher
`visitNode` calls `mapGenTreeToValue` at most once and only with the node it lowers as the
key, leaving the entry of every other key untouched; `consumeValue` and `getGenTreeValue`
never write the map. -/
theorem single_definition (c : Compiler) (s : Llvm)
    (hids : (nodeIdsOfBlocks c.fgSsaDomTreePreOrder).Nodup)
    (hwrites : s.sdsuWrites = []) :
    (Compile c s).state.sdsuWrites.Nodup ∧
    (∀ node s0,
      ((visitNode c node s0).state.sdsuWrites = s0.sdsuWrites ∨
        (visitNode c node s0).state.sdsuWrites = s0.sdsuWrites ++ [node.id]) ∧
      ∀ k, k ≠ node.id →
        tableLookup (visitNode c node s0).state.sdsuMap k = tableLookup s0.sdsuMap k) ∧
    (∀ node U s0,
      (consumeValue c node U s0).state.sdsuWrites = s0.sdsuWrites ∧
      ∀ k, tableLookup (consumeValue c node U s0).state.sdsuMap k = tableLookup s0.sdsuMap k) ∧
    (∀ node s0,
      (getGenTreeValue node s0).state.sdsuWrites = s0.sdsuWrites ∧
      ∀ k, tableLookup (getGenTreeValue node s0).state.sdsuMap k = tableLookup s0.sdsuMap k) := by
  refine ⟨?_, ?_, ?_, ?_⟩
  · by_cases hname : c.mangledMethodName = randomBytesStubName
    · have := (effect_state (effect_Compile_stub c hname) s).1
      rw [this, hwrites]
      exact List.nodup_nil
    · obtain ⟨l, hl, hstep⟩ := effect_writes (effect_Compile c hname) s
      rw [hstep.1, hwrites, List.nil_append]
      exact (hl.sublist.trans (writtenByBlocks_sublist _)).nodup hids
  · intro node s0
    obtain ⟨l, hl, hstep⟩ := effect_writes (effect_visitNode c node) s0
    have hl2 : l = [] ∨ l = [node.id] := by
      unfold writtenBy at hl
      split at hl
      · rcases l with _ | ⟨x, _ | ⟨y, t⟩⟩
        · exact Or.inl rfl
        · right
          have := hl.sublist
          simp at this
          rw [this]
        · have := hl.length_le
          simp at this
      · exact Or.inl (List.eq_nil_of_prefix_nil hl)
    constructor
    · rcases hl2 with h | h
      · left
        rw [hstep.1, h, List.append_nil]
      · right
        rw [hstep.1, h]
    · intro k hk
      apply hstep.2.1 k
      rcases hl2 with h | h <;> simp [h, hk]
  · intro node U s0
    have h := effect_state (effect_consumeValue c node U) s0
    refine ⟨by simpa using h.1, fun k => h.2.1 k (by simp)⟩
  · intro node s0
    have h := effect_state (effect_getGenTreeValue node) s0
    refine ⟨by simpa using h.1, fun k => h.2.1 k (by simp)⟩

/-- Witness of C6: the method `Add`, whose four nodes have distinct ids. -/
theorem single_definition_witness :
    (nodeIdsOfBlocks sampleAddMethod.fgSsaDomTreePreOrder).Nodup ∧
    (Compile sampleAddMethod sampleAddState).state.sdsuWrites.Nodup :=
  ⟨by decide, (single_definition sampleAddMethod sampleAddState (by decide) (by decide)).1⟩

/-- C7: for every node whose opcode is outside the dispatcher's handled set, `visitNode`
signals the unsupported-shape failure, the outcome being exactly that of
`failFunctionCompilation` in the incoming state: no instruction has been created and no
value has been recorded. -/
theorem visitNode_unhandled (c : Compiler) (node : GenTree) (s : Llvm)
    (h : node.OperGet ∉ dispatcherHandled) :
    visitNode c node s = .failed .unsupportedShape s.deleteBody ∧
    s.deleteBody.nextValueId = s.nextValueId ∧
    s.deleteBody.sdsuMap = s.sdsuMap ∧
    s.deleteBody.sdsuWrites = s.sdsuWrites := by
  refine ⟨?_, ?_, ?_, ?_⟩
  · unfold visitNode
    cases hop : node.OperGet <;> simp [hop, dispatcherHandled] at h <;> rfl
  all_goals (unfold Llvm.deleteBody; split <;> rfl)

/-- Witness of C7: a subtraction node. -/
theorem visitNode_unhandled_witness :
    sampleSubNode.OperGet ∉ dispatcherHandled ∧
    visitNode sampleCompiler sampleSubNode sampleAddState
      = .failed .unsupportedShape sampleAddState.deleteBody :=
  ⟨by decide, (visitNode_unhandled sampleCompiler sampleSubNode sampleAddState (by decide)).1⟩

theorem forEach_append_failed {α : Type} (f : α → M Unit) (pre post : List α) (b : α)
    (s0 s1 s2 : Llvm) (k : Failure) (hpre : forEach f pre s0 = .ok () s1)
    (hb : f b s1 = .failed k s2) : forEach f (pre ++ b :: post) s0 = .failed k s2 := by
  induction pre generalizing s0 with
  | nil =>
    simp only [forEach, m_pure_apply] at hpre
    injection hpre with _ h
    subst h
    simp only [List.nil_append, forEach]
    exact m_bind_failed hb
  | cons x xs ih =>
    simp only [forEach] at hpre
    rw [m_bind_apply] at hpre
    cases hx : f x s0 with
    | ok a sx =>
      rw [hx] at hpre
      simp only [List.cons_append, forEach]
      rw [m_bind_ok hx]
      exact ih sx hpre
    | failed k1 sx =>
      rw [hx] at hpre
      cases hpre

theorem deleteBody_fields (s : Llvm) :
    s.deleteBody.sdsuWrites = s.sdsuWrites ∧ s.deleteBody.sdsuMap = s.sdsuMap ∧
    s.deleteBody.nextValueId = s.nextValueId ∧ s.deleteBody.currentBlock = s.currentBlock ∧
    s.deleteBody.phiIncoming = s.phiIncoming := by
  unfold Llvm.deleteBody
  split <;> exact ⟨rfl, rfl, rfl, rfl, rfl⟩

theorem PreOrderVisit_finret (c : Compiler) (b : BasicBlock) (s : Llvm)
    (hb : b.bbJumpKind = .BBJ_EHFINALLYRET) :
    PreOrderVisit c b s = .failed .unsupportedShape s.deleteBody := by
  unfold PreOrderVisit
  simp only [hb, if_true]
  rfl

/-- C8: if the dominator pre-order walk reaches a block with the finally-return terminator
kind, `PreOrderVisit` signals the unsupported-shape failure in the state in which the walk
reached the block, before the block is started and before any of its nodes is lowered (no
write to the map, no instruction created, the current block unchanged), and `Compile` stops
with that very failure, so phi resolution is never run (no incoming edge is added). -/
theorem finret_block_fails (c : Compiler) (s s0 s1 : Llvm) (pre post : List BasicBlock)
    (b : BasicBlock)
    (horder : c.fgSsaDomTreePreOrder = pre ++ b :: post)
    (hb : b.bbJumpKind = .BBJ_EHFINALLYRET)
    (hname : c.mangledMethodName ≠ randomBytesStubName)
    (hsetup : (compileFunctionLookup c >>= fun _ => compileProlog c) s = .ok () s0)
    (hpre : forEach (PreOrderVisit c) pre s0 = .ok () s1) :
    PreOrderVisit c b s1 = .failed .unsupportedShape s1.deleteBody ∧
    WalkTree c s0 = .failed .unsupportedShape s1.deleteBody ∧
    Compile c s = .failed .unsupportedShape s1.deleteBody ∧
    s1.deleteBody.sdsuWrites = s1.sdsuWrites ∧ s1.deleteBody.sdsuMap = s1.sdsuMap ∧
    s1.deleteBody.nextValueId = s1.nextValueId ∧
    s1.deleteBody.currentBlock = s1.currentBlock ∧
    s1.deleteBody.phiIncoming = s1.phiIncoming := by
  have hvisit := PreOrderVisit_finret c b s1 hb
  have hwalk : WalkTree c s0 = .failed .unsupportedShape s1.deleteBody := by
    unfold WalkTree
    rw [horder]
    exact forEach_append_failed _ pre post b s0 s1 _ _ hpre hvisit
  refine ⟨hvisit, hwalk, ?_, deleteBody_fields s1⟩
  rw [Compile_eq_of_not_stub c hname, ← m_bind_assoc, m_bind_ok hsetup]
  exact m_bind_failed hwalk

/-- Witness of C8: a method whose second block ends with a finally-return. -/
theorem finret_block_fails_witness :
    forEach (PreOrderVisit sampleFinallyMethod)
      [{ bbNum := 1, bbJumpKind := .BBJ_NONE, bbNext := some 2,
         nodes := [.leaf { id := 1, gtOper := .GT_NO_OP, gtType := .TYP_VOID }] }]
      sampleFinallyWalkStart = .ok () sampleFinallyReached ∧
    Compile sampleFinallyMethod sampleInitialState
      = .failed .unsupportedShape sampleFinallyReached.deleteBody :=
  ⟨by decide!,
    (finret_block_fails sampleFinallyMethod sampleInitialState sampleFinallyWalkStart
      sampleFinallyReached
      [{ bbNum := 1, bbJumpKind := .BBJ_NONE, bbNext := some 2,
         nodes := [.leaf { id := 1, gtOper := .GT_NO_OP, gtType := .TYP_VOID }] }]
      [{ bbNum := 3, bbJumpKind := .BBJ_RETURN,
         nodes := [.leaf { id := 3, gtOper := .GT_RETURN, gtType := .TYP_VOID }] }]
      { bbNum := 2, bbJumpKind := .BBJ_EHFINALLYRET, bbNext := some 3,
        nodes := [.leaf { id := 2, gtOper := .GT_NO_OP, gtType := .TYP_VOID }] }
      (by decide) (by decide) (by decide) (by decide!) (by decide!)).2.2.1⟩

/-- C9, the code at the failing input: a method with an exception-handler region whose
handler block ends with a catch-return is lowered without any failure signal, and the
function body it leaves has a block without a terminator. -/
theorem catch_handler_method_is_lowered :
    0 < sampleCatchMethod.compHndBBtabCount ∧
    (Compile sampleCatchMethod sampleInitialState).isOk = true ∧
    (Compile sampleCatchMethod sampleInitialState).state.blocks.map
        (fun b => (b.name, b.insts.length, b.getTerminator.isSome))
      = [("Prolog", 1, true), ("BB01", 2, true), ("BB02", 1, true), ("BB03", 0, false)] := by
  decide!

/-! ## Phi resolution -/

theorem phiFrame_refl (s : Llvm) : PhiFrame s s := ⟨rfl, fun _ _ h => h⟩

theorem phiFrame_trans {s s1 s2 : Llvm} (h1 : PhiFrame s s1) (h2 : PhiFrame s1 s2) :
    PhiFrame s s2 :=
  ⟨by rw [h2.1, h1.1], fun k b h => h2.2 k b (h1.2 k b h)⟩

theorem phiFrame_of_same {s s1 : Llvm} (h1 : s1.phiIncoming = s.phiIncoming)
    (h2 : s1.blkToLlvmBlkVectorMap = s.blkToLlvmBlkVectorMap) : PhiFrame s s1 :=
  ⟨h1, fun k b h => by rw [h2]; exact h⟩

theorem keeps_pure {α : Type} (a : α) : KeepsPhis (pure a : M α) := ⟨fun s => phiFrame_refl s⟩

theorem keeps_bind {α β : Type} {m : M α} {f : α → M β} (hm : KeepsPhis m)
    (hf : ∀ a, KeepsPhis (f a)) : KeepsPhis (m >>= f) := by
  constructor
  intro s
  have h1 := hm.run s
  rw [m_bind_apply]
  cases hms : m s with
  | ok a s1 =>
    rw [hms] at h1
    exact phiFrame_trans h1 ((hf a).run s1)
  | failed k s1 =>
    rw [hms] at h1
    exact h1

theorem keeps_failFunctionCompilation {α : Type} : KeepsPhis (failFunctionCompilation : M α) := by
  constructor
  intro s
  apply phiFrame_of_same <;>
    (unfold failFunctionCompilation Llvm.deleteBody; simp only [Outcome.state]; split <;> rfl)

theorem keeps_unreached {α : Type} : KeepsPhis (unreached : M α) := ⟨fun s => phiFrame_refl s⟩

theorem keeps_getState : KeepsPhis getState := ⟨fun s => phiFrame_refl s⟩

theorem keeps_modifyState {f : Llvm → Llvm}
    (h : ∀ s, (f s).phiIncoming = s.phiIncoming ∧
      (f s).blkToLlvmBlkVectorMap = s.blkToLlvmBlkVectorMap) : KeepsPhis (modifyState f) :=
  ⟨fun s => phiFrame_of_same (h s).1 (h s).2⟩

theorem keeps_jitAssert (c : Compiler) (b : Bool) : KeepsPhis (jitAssert c b) := by
  constructor
  intro s
  unfold jitAssert
  split <;> exact phiFrame_refl s

theorem keeps_deref {α : Type} (o : Option α) : KeepsPhis (deref o) := by
  cases o with
  | none => exact keeps_unreached
  | some a => exact keeps_pure a

theorem keeps_tableGet {κ ν : Type} [DecidableEq κ] (m : List (κ × ν)) (k : κ) :
    KeepsPhis (tableGet m k) :=
  keeps_deref _

theorem keeps_create (i : Instruction) : KeepsPhis (create i) :=
  ⟨fun _ => phiFrame_of_same rfl rfl⟩

theorem keeps_createBasicBlock (name parent : String) :
    KeepsPhis (createBasicBlock name parent) :=
  ⟨fun _ => phiFrame_of_same rfl rfl⟩

theorem keeps_getCast (source : Value) (targetType : LType) :
    KeepsPhis (getCast source targetType) := by
  unfold getCast
  repeat (first
    | exact keeps_pure _
    | exact keeps_failFunctionCompilation
    | split)

theorem keeps_builderSetInsertPointBefore (blk : Nat) (i : Instruction) :
    KeepsPhis (builderSetInsertPointBefore blk i) :=
  keeps_modifyState (fun _ => ⟨rfl, rfl⟩)

theorem keeps_builderRestoreInsertPoint (saved : IRBuilder) :
    KeepsPhis (builderRestoreInsertPoint saved) := by
  unfold builderRestoreInsertPoint
  repeat (first
    | exact keeps_deref _
    | exact keeps_getState
    | exact keeps_modifyState (fun _ => ⟨rfl, rfl⟩)
    | apply keeps_bind
    | intro _
    | dsimp only)

/-- The target block that `getLLVMBasicBlockForBlock` returns is the one the map holds for
the source block afterwards; the step adds no incoming edge and only grows the map. -/
theorem getLLVMBasicBlockForBlock_spec (c : Compiler) (k : Nat) (s : Llvm) :
    PhiFrame s (getLLVMBasicBlockForBlock c (some k) s).state ∧
    ∀ b s1, getLLVMBasicBlockForBlock c (some k) s = .ok b s1 →
      tableLookup s1.blkToLlvmBlkVectorMap k = some b := by
  cases hl : tableLookup s.blkToLlvmBlkVectorMap k with
  | some b0 =>
    have hrun : getLLVMBasicBlockForBlock c (some k) s = .ok b0 s := by
      simp only [getLLVMBasicBlockForBlock, m_bind_apply, getState, deref, m_pure_apply, hl]
    rw [hrun]
    refine ⟨phiFrame_refl s, fun b s1 h => ?_⟩
    injection h with h1 h2
    rw [← h1, ← h2]
    exact hl
  | none =>
    have hrun : getLLVMBasicBlockForBlock c (some k) s = .ok s.nextBlockId
        { s with
          blocks := s.blocks ++ [{ id := s.nextBlockId, name := llvmBlockName k,
                                   parent := match s.function with
                                     | some f => f.name
                                     | none => "" }],
          nextBlockId := s.nextBlockId + 1,
          blkToLlvmBlkVectorMap := tableSet s.blkToLlvmBlkVectorMap k s.nextBlockId } := by
      simp only [getLLVMBasicBlockForBlock, m_bind_apply, getState, deref, m_pure_apply, hl,
        createBasicBlock, tableSetChecked, jitAssert, Option.isNone_none,
        Bool.not_true, Bool.and_false, Bool.false_eq_true, if_false, modifyState] <;> rfl
    rw [hrun]
    refine ⟨⟨rfl, fun k1 b1 h1 => ?_⟩, fun b s1 h => ?_⟩
    · simp only [Outcome.state, tableLookup_tableSet]
      by_cases hk : k = k1
      · rw [← hk, hl] at h1
        cases h1
      · rw [if_neg hk]
        exact h1
    · injection h with h1 h2
      rw [← h1, ← h2]
      simp only [tableLookup_tableSet, if_true]

theorem keeps_getLLVMBasicBlockForBlock (c : Compiler) (k : Nat) :
    KeepsPhis (getLLVMBasicBlockForBlock c (some k)) :=
  ⟨fun s => (getLLVMBasicBlockForBlock_spec c k s).1⟩

theorem keeps_fillPhiArgValue (c : Compiler) (phi : Value) (phiArg : GenTree) :
    KeepsPhis (fillPhiArgValue c phi phiArg) := by
  unfold fillPhiArgValue
  repeat (first
    | exact keeps_pure _
    | exact keeps_getState
    | exact keeps_tableGet _ _
    | exact keeps_getCast _ _
    | exact keeps_getLLVMBasicBlockForBlock _ _
    | exact keeps_deref _
    | exact keeps_builderSetInsertPointBefore _ _
    | exact keeps_create _
    | exact keeps_builderRestoreInsertPoint _
    | apply keeps_bind
    | intro _
    | split
    | dsimp only)

/-- What one successful `fillPhiArg` does to a phi: exactly one incoming entry is appended,
whose block is the target block of the operand's recorded predecessor. -/
theorem fillPhiArg_ok (c : Compiler) (phi : Value) (use : UseData × GenTree) (s s1 : Llvm)
    (h : fillPhiArg c phi use s = .ok () s1) :
    ∃ id v b, phi.instId = some id ∧ s1.phiIncoming = s.phiIncoming ++ [(id, v, b)] ∧
      tableLookup s1.blkToLlvmBlkVectorMap use.2.d.gtPredBB = some b ∧
      ∀ k b1, tableLookup s.blkToLlvmBlkVectorMap k = some b1 →
        tableLookup s1.blkToLlvmBlkVectorMap k = some b1 := by
  unfold fillPhiArg at h
  rw [m_bind_apply] at h
  have hp := (keeps_fillPhiArgValue c phi use.2).run s
  cases hm : fillPhiArgValue c phi use.2 s with
  | failed k sa =>
    rw [hm] at h
    cases h
  | ok v sa =>
    rw [hm] at h hp
    simp only [Outcome.state] at hp
    simp only [m_bind_apply] at h
    have hb := getLLVMBasicBlockForBlock_spec c use.2.d.gtPredBB sa
    cases hg : getLLVMBasicBlockForBlock c (some use.2.d.gtPredBB) sa with
    | failed k sb =>
      rw [hg] at h
      cases h
    | ok b sb =>
      rw [hg] at h hb
      simp only [Outcome.state] at hb
      cases phi with
      | inst id ty =>
        simp only [addIncoming, modifyState] at h
        injection h with _ h2
        refine ⟨id, v, b, rfl, ?_, ?_, ?_⟩
        · rw [← h2]
          simp only
          rw [hb.1.1, hp.1]
        · rw [← h2]
          exact hb.2 b sb rfl
        · intro k b1 hk
          rw [← h2]
          exact hb.1.2 k b1 (hp.2 k b1 hk)
      | _ =>
        simp only [addIncoming, unreached] at h
        cases h

theorem map_some_transfer {α β : Type} (p : β → Nat) (l : List β) (us : List α)
    (f g : α → Option Nat)
    (h : l.map (fun e => some (p e)) = us.map f) (hfg : ∀ u b, f u = some b → g u = some b) :
    l.map (fun e => some (p e)) = us.map g := by
  induction us generalizing l with
  | nil =>
    cases l with
    | nil => rfl
    | cons x xs => simp at h
  | cons u rest ih =>
    cases l with
    | nil => simp at h
    | cons x xs =>
      simp only [List.map_cons, List.cons.injEq] at h ⊢
      exact ⟨(hfg u (p x) h.1.symm).symm, ih xs h.2⟩

theorem incomingOf_append (s s1 : Llvm) (key : Nat) (entries : List (Value × Nat))
    (h : s1.phiIncoming = s.phiIncoming ++ entries.map (fun e => (key, e.1, e.2)))
    (id : Nat) :
    s1.incomingOf id = s.incomingOf id ++ (if key = id then entries else []) := by
  unfold Llvm.incomingOf
  rw [h, List.filter_append, List.map_append]
  congr 1
  clear h
  by_cases hk : key = id
  · rw [if_pos hk]
    induction entries with
    | nil => rfl
    | cons e rest ih =>
      simp [hk] at ih ⊢
      exact ih
  · rw [if_neg hk]
    induction entries with
    | nil => rfl
    | cons e rest ih =>
      simp [hk] at ih ⊢
      exact ih

/-- What a successful inner loop of `fillPhis` does for one phi: one incoming entry per
operand, in operand order, each with the target block of the operand's predecessor. -/
theorem fillPhiArgs_ok (c : Compiler) (phi : Value) (uses : List (UseData × GenTree)) :
    ∀ s s1, forEach (fillPhiArg c phi) uses s = .ok () s1 →
    ∃ entries : List (Value × Nat),
      s1.phiIncoming = s.phiIncoming ++ entries.map (fun e => (phi.instId.getD 0, e.1, e.2)) ∧
      entries.map (fun e => some e.2)
        = uses.map (fun u => tableLookup s1.blkToLlvmBlkVectorMap u.2.d.gtPredBB) ∧
      (∀ k b, tableLookup s.blkToLlvmBlkVectorMap k = some b →
        tableLookup s1.blkToLlvmBlkVectorMap k = some b) := by
  induction uses with
  | nil =>
    intro s s1 h
    simp only [forEach, m_pure_apply] at h
    injection h with _ h2
    subst h2
    exact ⟨[], by simp, rfl, fun _ _ hk => hk⟩
  | cons u rest ih =>
    intro s s1 h
    simp only [forEach] at h
    rw [m_bind_apply] at h
    cases hu : fillPhiArg c phi u s with
    | failed k sa =>
      rw [hu] at h
      cases h
    | ok x sa =>
      rw [hu] at h
      obtain ⟨id, v, b, hid, hinc, hblk, hmono⟩ := fillPhiArg_ok c phi u s sa hu
      obtain ⟨entries, hinc2, hmap2, hmono2⟩ := ih sa s1 h
      refine ⟨(v, b) :: entries, ?_, ?_, fun k b1 hk => hmono2 k b1 (hmono k b1 hk)⟩
      · rw [hinc2, hinc, hid]
        simp
      · simp only [List.map_cons, List.cons.injEq]
        exact ⟨(hmono2 _ _ hblk).symm, hmap2⟩

/-- What a successful `fillPhis` loop does over the pending pairs. -/
theorem fillPhiPairs_ok (c : Compiler) (pairs : List PhiPair) :
    ∀ s s1, forEach (fillPhiPair c) pairs s = .ok () s1 →
    (∀ k b, tableLookup s.blkToLlvmBlkVectorMap k = some b →
      tableLookup s1.blkToLlvmBlkVectorMap k = some b) ∧
    (∀ id, (∀ p ∈ pairs, p.llvmPhiNode.instId ≠ some id) →
      s1.incomingOf id = s.incomingOf id) ∧
    ((pairs.map (fun p => p.llvmPhiNode.instId)).Nodup →
      ∀ p ∈ pairs, ∀ id, p.llvmPhiNode.instId = some id →
        ∃ entries : List (Value × Nat),
          s1.incomingOf id = s.incomingOf id ++ entries ∧
          entries.map (fun e => some e.2)
            = p.irPhiNode.Uses.map
                (fun u => tableLookup s1.blkToLlvmBlkVectorMap u.2.d.gtPredBB)) := by
  induction pairs with
  | nil =>
    intro s s1 h
    simp only [forEach, m_pure_apply] at h
    injection h with _ h2
    subst h2
    refine ⟨fun _ _ hk => hk, fun _ _ => rfl, fun _ p hp => ?_⟩
    simp at hp
  | cons p0 rest ih =>
    intro s s1 h
    simp only [forEach] at h
    rw [m_bind_apply] at h
    cases hp0 : fillPhiPair c p0 s with
    | failed k sa =>
      rw [hp0] at h
      cases h
    | ok x sa =>
      rw [hp0] at h
      obtain ⟨entries, hinc, hmap, hmono⟩ :=
        fillPhiArgs_ok c p0.llvmPhiNode p0.irPhiNode.Uses s sa hp0
      obtain ⟨hmono2, hA, hB⟩ := ih sa s1 h
      have hother : ∀ id, p0.llvmPhiNode.instId ≠ some id → sa.incomingOf id = s.incomingOf id := by
        intro id hne
        rw [incomingOf_append s sa _ entries hinc id]
        by_cases hk : p0.llvmPhiNode.instId.getD 0 = id
        · cases hi : p0.llvmPhiNode.instId with
          | some j =>
            rw [hi] at hk hne
            simp only [Option.getD_some] at hk
            exact absurd (congrArg some hk) hne
          | none =>
            cases entries with
            | nil => simp
            | cons e es =>
              exfalso
              cases hu : p0.irPhiNode.Uses with
              | nil =>
                rw [hu] at hmap
                simp at hmap
              | cons u us =>
                have hfp : forEach (fillPhiArg c p0.llvmPhiNode) (u :: us) s = .ok x sa := by
                  rw [← hu]
                  exact hp0
                simp only [forEach] at hfp
                rw [m_bind_apply] at hfp
                cases hfu : fillPhiArg c p0.llvmPhiNode u s with
                | failed k sb =>
                  rw [hfu] at hfp
                  cases hfp
                | ok y sb =>
                  obtain ⟨id1, _, _, hid1, _⟩ := fillPhiArg_ok c p0.llvmPhiNode u s sb hfu
                  rw [hi] at hid1
                  cases hid1
        · rw [if_neg hk, List.append_nil]
      refine ⟨fun k b hk => hmono2 k b (hmono k b hk), fun id hid => ?_, fun hnd p hp id hpid => ?_⟩
      · rw [hA id (fun p hp => hid p (List.mem_cons_of_mem _ hp))]
        exact hother id (hid p0 (List.mem_cons_self _ _))
      · rw [List.map_cons, List.nodup_cons] at hnd
        rcases List.mem_cons.mp hp with hpe | hpr
        · subst hpe
          have hrest : ∀ q ∈ rest, q.llvmPhiNode.instId ≠ some id := by
            intro q hq heq
            apply hnd.1
            rw [hpid, ← heq]
            exact List.mem_map_of_mem _ hq
          rw [hA id hrest, incomingOf_append s sa _ entries hinc id]
          have hkey : p.llvmPhiNode.instId.getD 0 = id := by rw [hpid]; rfl
          rw [if_pos hkey]
          exact ⟨entries, rfl, map_some_transfer (fun e : Value × Nat => e.2) _ _ _ _ hmap
            (fun u b hub => hmono2 _ b hub)⟩
        · have hne : p0.llvmPhiNode.instId ≠ some id := by
            intro heq
            apply hnd.1
            rw [heq, ← hpid]
            exact List.mem_map_of_mem _ hpr
          obtain ⟨es, h1, h2⟩ := hB hnd.2 p hpr id hpid
          rw [hother id hne] at h1
          exact ⟨es, h1, h2⟩

theorem buildEmptyPhi_ok (c : Compiler) (phi : GenTree) (s s1 : Llvm)
    (h : buildEmptyPhi c phi s = .ok () s1) :
    ∃ ty, s1.phiPairs = s.phiPairs ++ [{ irPhiNode := phi, llvmPhiNode := .inst s.nextValueId ty }] ∧
      s1.phiIncoming = s.phiIncoming ∧
      tableLookup s1.sdsuMap phi.id = some (.inst s.nextValueId ty) := by
  unfold buildEmptyPhi at h
  simp only [m_bind_apply] at h
  cases hu : phi.Uses.head? with
  | none =>
    simp only [hu, deref, unreached] at h
    cases h
  | some u =>
    simp only [hu, deref, m_pure_apply] at h
    cases hd : lvaGetDesc u.2.d.lclNum s with
    | failed k sa =>
      rw [hd] at h
      cases h
    | ok d sa =>
      have hsa : sa = s := by
        unfold lvaGetDesc at hd
        split at hd
        · injection hd with _ h2
          exact h2.symm
        · cases hd
      subst hsa
      rw [hd] at h
      simp only [create, createWith, modifyState, mapGenTreeToValue_apply] at h
      split at h
      · cases h
      · injection h with _ h2
        refine ⟨c.getLlvmTypeForLclVar d, ?_, ?_, ?_⟩
        · rw [← h2]
          rfl
        · rw [← h2]
          rfl
        · rw [← h2]
          simp only [tableLookup_tableSet, if_true]

/-- C10: every target phi is created by `buildEmptyPhi` as a fresh phi instruction, recorded
as a pending pair, with no incoming value added; and after a successful `fillPhis` over
pending pairs with distinct target phis, a phi that had no incoming value has exactly one
incoming (value, block) entry per operand of its source phi, in operand order, whose block is
the target block of that operand's recorded predecessor.  Hence the number of incoming edges
is the number of operands of the source phi. -/
theorem phi_incoming_edges (c : Compiler) (s s1 : Llvm)
    (hok : fillPhis c s = .ok () s1)
    (hnodup : (s.phiPairs.map (fun p => p.llvmPhiNode.instId)).Nodup) :
    (∀ phi s0 s2, buildEmptyPhi c phi s0 = .ok () s2 →
      ∃ ty, s2.phiPairs = s0.phiPairs ++
          [{ irPhiNode := phi, llvmPhiNode := .inst s0.nextValueId ty }] ∧
        s2.phiIncoming = s0.phiIncoming) ∧
    ∀ p ∈ s.phiPairs, ∀ id, p.llvmPhiNode.instId = some id → s.incomingOf id = [] →
      (s1.incomingOf id).map (fun e => some e.2)
        = p.irPhiNode.Uses.map (fun u => tableLookup s1.blkToLlvmBlkVectorMap u.2.d.gtPredBB) ∧
      (s1.incomingOf id).length = p.irPhiNode.Uses.length := by
  constructor
  · intro phi s0 s2 h
    obtain ⟨ty, h1, h2, _⟩ := buildEmptyPhi_ok c phi s0 s2 h
    exact ⟨ty, h1, h2⟩
  · intro p hp id hid hempty
    unfold fillPhis at hok
    rw [m_bind_apply] at hok
    simp only [getState] at hok
    obtain ⟨_, _, hB⟩ := fillPhiPairs_ok c s.phiPairs s s1 hok
    obtain ⟨entries, h1, h2⟩ := hB hnodup p hp id hid
    rw [hempty, List.nil_append] at h1
    rw [h1]
    refine ⟨h2, ?_⟩
    have := congrArg List.length h2
    simpa using this

/-- Witness of C10: the pending phi of a loop-carried local with two operands gets two
incoming edges, from the target blocks of blocks 1 and 2 in this order. -/
theorem phi_incoming_edges_witness :
    fillPhis sampleCompiler sampleLoopState
      = .ok () (fillPhis sampleCompiler sampleLoopState).state ∧
    (fillPhis sampleCompiler sampleLoopState).state.incomingOf 5
      = [(.argument 1 (.int 32), 10), (.inst 7 (.int 32), 11)] ∧
    ((fillPhis sampleCompiler sampleLoopState).state.incomingOf 5).length
      = sampleLoopPhi.Uses.length :=
  ⟨by decide!, by decide!,
    ((phi_incoming_edges sampleCompiler sampleLoopState
      (fillPhis sampleCompiler sampleLoopState).state (by decide!) (by decide)).2
        { irPhiNode := sampleLoopPhi, llvmPhiNode := .inst 5 (.int 32) } (by decide) 5 (by decide)
        (by decide)).2⟩

/-! ## Inversion of returning steps -/

theorem m_bind_inv {α β : Type} {m : M α} {f : α → M β} {s s2 : Llvm} {b : β}
    (h : (m >>= f) s = .ok b s2) : ∃ a s1, m s = .ok a s1 ∧ f a s1 = .ok b s2 := by
  rw [m_bind_apply] at h
  cases hm : m s with
  | ok a s1 =>
    rw [hm] at h
    exact ⟨a, s1, rfl, h⟩
  | failed k s1 =>
    rw [hm] at h
    cases h

theorem m_pure_inv {α : Type} {a b : α} {s s1 : Llvm} (h : (pure a : M α) s = .ok b s1) :
    b = a ∧ s1 = s := by
  rw [m_pure_apply] at h
  injection h with h1 h2
  exact ⟨h1.symm, h2.symm⟩

theorem jitAssert_inv {c : Compiler} {b : Bool} {s s1 : Llvm} {u : Unit}
    (h : jitAssert c b s = .ok u s1) : s1 = s ∧ (c.debug = true → b = true) := by
  unfold jitAssert at h
  split at h
  · cases h
  · rename_i hc
    injection h with _ h2
    refine ⟨h2.symm, fun hd => ?_⟩
    cases b
    · simp [hd] at hc
    · rfl

theorem jitAssert_ok {c : Compiler} {b : Bool} (h : c.debug = true → b = true) (s : Llvm) :
    jitAssert c b s = .ok () s := by
  cases hd : c.debug
  · exact jitAssert_release hd b s
  · rw [h hd]
    exact jitAssert_true c s

theorem deref_inv {α : Type} {o : Option α} {a : α} {s s1 : Llvm}
    (h : deref o s = .ok a s1) : o = some a ∧ s1 = s := by
  cases o with
  | none => cases h
  | some x =>
    injection h with h1 h2
    exact ⟨by rw [h1], h2.symm⟩

theorem deref_some {α : Type} (a : α) (s : Llvm) : deref (some a) s = .ok a s := rfl

theorem getGenTreeValue_inv {node : GenTree} {s s1 : Llvm} {v : Value}
    (h : getGenTreeValue node s = .ok v s1) :
    tableLookup s.sdsuMap node.id = some v ∧ s1 = s :=
  deref_inv h

theorem mapGenTreeToValue_inv {c : Compiler} {node : GenTree} {v : Value} {s s1 : Llvm}
    {u : Unit} (h : mapGenTreeToValue c node v s = .ok u s1) :
    s1 = { s with sdsuMap := tableSet s.sdsuMap node.id v,
                  sdsuWrites := s.sdsuWrites ++ [node.id] } := by
  rw [mapGenTreeToValue_apply] at h
  split at h
  · cases h
  · injection h with _ h2
    exact h2.symm

theorem mapGenTreeToValue_ok {c : Compiler} {node : GenTree} {s : Llvm}
    (h : c.debug = true → tableLookup s.sdsuMap node.id = none) (v : Value) :
    mapGenTreeToValue c node v s =
      .ok () { s with sdsuMap := tableSet s.sdsuMap node.id v,
                      sdsuWrites := s.sdsuWrites ++ [node.id] } := by
  rw [mapGenTreeToValue_apply, if_neg]
  intro hc
  cases hd : c.debug
  · simp [hd] at hc
  · simp [hd, h hd] at hc

theorem consumeValueTrueNodeType_inv {c : Compiler} {node : GenTree} {v : Value}
    {s s1 : Llvm} {t : var_types}
    (h : consumeValueTrueNodeType c node v s = .ok t s1) : s1 = s := by
  rcases consumeValueTrueNodeType_state c node v s with ⟨t0, h0⟩ | hf
  · rw [h0 s rfl] at h
    injection h with _ h2
    exact h2.symm
  · rw [hf s rfl] at h
    cases h

theorem jitAssert_bind_inv {α : Type} {c : Compiler} {b : Bool} {f : Unit → M α}
    {s s1 : Llvm} {r : α} (h : (jitAssert c b >>= f) s = .ok r s1) :
    f () s = .ok r s1 ∧ (c.debug = true → b = true) := by
  obtain ⟨u, s2, ha, h⟩ := m_bind_inv h
  have e := jitAssert_inv ha
  rw [e.1] at h
  exact ⟨h, e.2⟩

theorem deref_bind_inv {α β : Type} {o : Option α} {f : α → M β} {s s1 : Llvm} {r : β}
    (h : (deref o >>= f) s = .ok r s1) : ∃ a, o = some a ∧ f a s = .ok r s1 := by
  obtain ⟨a, s2, ha, h⟩ := m_bind_inv h
  have e := deref_inv ha
  rw [e.2] at h
  exact ⟨a, e.1, h⟩

theorem getState_bind_inv {α : Type} {f : Llvm → M α} {s s1 : Llvm} {r : α}
    (h : (getState >>= f) s = .ok r s1) : f s s = .ok r s1 := h

theorem modifyState_bind_inv {α : Type} {g : Llvm → Llvm} {f : Unit → M α} {s s1 : Llvm}
    {r : α} (h : (modifyState g >>= f) s = .ok r s1) : f () (g s) = .ok r s1 := h

theorem consumeValueTrueNodeType_bind_inv {α : Type} {c : Compiler} {node : GenTree}
    {v : Value} {f : var_types → M α} {s s1 : Llvm} {r : α}
    (h : (consumeValueTrueNodeType c node v >>= f) s = .ok r s1) :
    ∃ t, f t s = .ok r s1 := by
  obtain ⟨t, s2, ha, h⟩ := m_bind_inv h
  rw [consumeValueTrueNodeType_inv ha] at h
  exact ⟨t, h⟩

theorem getGenTreeValue_bind_inv {α : Type} {node : GenTree} {f : Value → M α}
    {s s1 : Llvm} {r : α} (h : (getGenTreeValue node >>= f) s = .ok r s1) :
    ∃ v, tableLookup s.sdsuMap node.id = some v ∧ f v s = .ok r s1 := by
  obtain ⟨v, s2, ha, h⟩ := m_bind_inv h
  have e := getGenTreeValue_inv ha
  rw [e.2] at h
  exact ⟨v, e.1, h⟩

theorem create_inv {i : Instruction} {s s1 : Llvm} {r : Value}
    (h : create i s = .ok r s1) : r = .inst s.nextValueId i.ty ∧ s1 = s.insert s.builder i := by
  rw [create_apply] at h
  injection h with h1 h2
  exact ⟨h1.symm, h2.symm⟩

/-- A returning conversion step of `consumeValue` returned the raw value in the same state, or
created exactly one conversion instruction of the raw value to the target type. -/
theorem consumeValueTo_inv {c : Compiler} {node : GenTree} {v r : Value} {T : LType}
    {s s1 : Llvm} (h : consumeValueTo c node v T s = .ok r s1) :
    (v.getType = T ∧ r = v ∧ s1 = s) ∨
    (v.getType ≠ T ∧ ∃ op, op.isConversion = true ∧ r = .inst s.nextValueId T ∧
      s1 = s.insert s.builder { opcode := op, ty := T, operands := [v] }) := by
  unfold consumeValueTo at h
  split at h
  · rename_i hne
    right
    refine ⟨hne, ?_⟩
    split at h
    · exact ⟨.IntToPtr, rfl, create_inv h⟩
    split at h
    · exact ⟨.PtrToInt, rfl, by rename_i h2; rw [h2.2]; exact create_inv h⟩
    split at h
    · exact ⟨.BitCast, rfl, create_inv h⟩
    have h := (jitAssert_bind_inv h).1
    split at h
    · obtain ⟨t, h⟩ := consumeValueTrueNodeType_bind_inv h
      have h := (jitAssert_bind_inv h).1
      split at h
      · exact ⟨.SExt, rfl, create_inv h⟩
      · exact ⟨.ZExt, rfl, create_inv h⟩
    · exact ⟨.Trunc, rfl, create_inv h⟩
  · rename_i heq
    left
    obtain ⟨h1, h2⟩ := m_pure_inv h
    exact ⟨not_not.mp heq, h1, h2⟩

/-- A returning `consumeValue` read the recorded raw value and returned it in the same state,
or created exactly one conversion instruction of it. -/
theorem consumeValue_inv {c : Compiler} {node : GenTree} {T : Option LType} {r : Value}
    {s s1 : Llvm} (h : consumeValue c node T s = .ok r s1) :
    ∃ raw, tableLookup s.sdsuMap node.id = some raw ∧
      ((r = raw ∧ s1 = s) ∨
       (∃ op ty, op.isConversion = true ∧ raw.getType ≠ ty ∧ r = .inst s.nextValueId ty ∧
          (∀ t, T = some t → ty = t) ∧
          s1 = s.insert s.builder { opcode := op, ty := ty, operands := [raw] })) := by
  cases T with
  | none =>
    unfold consumeValue at h
    obtain ⟨raw, hl, h⟩ := getGenTreeValue_bind_inv h
    refine ⟨raw, hl, ?_⟩
    simp only [] at h
    split at h
    · exact Or.inl (m_pure_inv h)
    · rcases consumeValueTo_inv h with ⟨_, h1, h2⟩ | ⟨hne, op, hop, h1, h2⟩
      · exact Or.inl ⟨h1, h2⟩
      · exact Or.inr ⟨op, _, hop, hne, h1, (fun t ht => nomatch ht), h2⟩
  | some t =>
    unfold consumeValue at h
    obtain ⟨raw, hl, h⟩ := getGenTreeValue_bind_inv h
    refine ⟨raw, hl, ?_⟩
    simp only [] at h
    rcases consumeValueTo_inv h with ⟨_, h1, h2⟩ | ⟨hne, op, hop, h1, h2⟩
    · exact Or.inl ⟨h1, h2⟩
    · exact Or.inr ⟨op, _, hop, hne, h1, (fun t2 ht => Option.some.inj ht), h2⟩

/-! ## Dynamic-extent stack allocation -/

theorem isConversion_not_alloc {op : Opcode} (h : op.isConversion = true) :
    (∀ t, op ≠ .Alloca t) ∧ op ≠ .MemSet ∧ (∀ p, op ≠ .Cmp p) ∧ op ≠ .Select := by
  cases op <;> simp [Opcode.isConversion] at h ⊢

/-- C11: `buildLclHeap` of a node whose size operand is the compile-time constant 0.  When the
recorded size value already has the demanded type the handler returns in the incoming state
with only the null byte pointer recorded for the node; and whenever the handler returns, the
node's entry is the null byte pointer and the handler created at most one instruction, a
conversion of the size value: no allocation, no memory fill, no compare and no select. -/
theorem lclHeap_zero_size (c : Compiler) (s : Llvm) (lclHeap sizeNode : GenTree)
    (hop : lclHeap.gtOp1 = some sizeNode)
    (hzero : sizeNode.IsIntegralConst 0 = true) :
    (∀ v, tableLookup s.sdsuMap sizeNode.id = some v →
        v.getType = c.getLlvmTypeForVarType (c.genActualType sizeNode.TypeGet) →
        (c.debug = true →
          genActualTypeIsIntOrI c sizeNode = true ∧ tableLookup s.sdsuMap lclHeap.id = none) →
        buildLclHeap c lclHeap s =
          .ok () { s with sdsuMap := tableSet s.sdsuMap lclHeap.id (.nullValue getInt8PtrTy),
                          sdsuWrites := s.sdsuWrites ++ [lclHeap.id] }) ∧
    (∀ s1, buildLclHeap c lclHeap s = .ok () s1 →
        tableLookup s1.sdsuMap lclHeap.id = some (.nullValue getInt8PtrTy) ∧
        ∃ l, s1.emitted = s.emitted ++ l ∧ l.length ≤ 1 ∧
          ∀ i ∈ l, i.opcode.isConversion = true ∧ (∀ t, i.opcode ≠ .Alloca t) ∧
            i.opcode ≠ .MemSet ∧ (∀ p, i.opcode ≠ .Cmp p) ∧ i.opcode ≠ .Select) := by
  constructor
  · intro v hv hty hdbg
    unfold buildLclHeap
    rw [hop, m_bind_ok (deref_some sizeNode s),
      m_bind_ok (jitAssert_ok (fun hd => (hdbg hd).1) s),
      m_bind_ok (by rw [consumeValue_some_eq c sizeNode _ s v hv, ← hty]
                    exact consumeValueTo_same c sizeNode v s)]
    simp only [hzero, if_true]
    rw [m_bind_ok (m_pure_apply _ s)]
    exact mapGenTreeToValue_ok (fun hd => (hdbg hd).2) _
  · intro s1 h
    unfold buildLclHeap at h
    rw [hop] at h
    obtain ⟨a, ha, h⟩ := deref_bind_inv h
    rw [← Option.some.inj ha] at h
    have h := (jitAssert_bind_inv h).1
    obtain ⟨sizeValue, s2, hc, h⟩ := m_bind_inv h
    simp only [hzero, if_true] at h
    rw [m_bind_ok (m_pure_apply _ s2)] at h
    have hs1 := mapGenTreeToValue_inv h
    refine ⟨by rw [hs1]; simp only [tableLookup_tableSet, if_true], ?_⟩
    obtain ⟨raw, _, hcase⟩ := consumeValue_inv hc
    rcases hcase with ⟨_, h2⟩ | ⟨op, ty, hconv, _, _, _, h2⟩
    · refine ⟨[], ?_, by simp, by simp⟩
      rw [hs1, h2]
      simp
    · refine ⟨[s.newInst s.builder { opcode := op, ty := ty, operands := [raw] }], ?_, by simp, ?_⟩
      · rw [hs1, h2]
        rfl
      · intro i hi
        simp only [List.mem_singleton] at hi
        rw [hi]
        exact ⟨hconv, isConversion_not_alloc hconv⟩

/-- Witness of C11: a zero-sized allocation in a state that holds the 32-bit constant 0 for
the size node. -/
theorem lclHeap_zero_size_witness :
    sampleLclHeapNode.gtOp1 = some sampleZeroNode ∧
    sampleZeroNode.IsIntegralConst 0 = true ∧
    buildLclHeap sampleCompiler sampleLclHeapNode sampleZeroState =
      .ok () { sampleZeroState with
        sdsuMap := tableSet sampleZeroState.sdsuMap sampleLclHeapNode.id (.nullValue getInt8PtrTy),
        sdsuWrites := sampleZeroState.sdsuWrites ++ [sampleLclHeapNode.id] } :=
  ⟨by decide, by decide,
    (lclHeap_zero_size sampleCompiler sampleZeroState sampleLclHeapNode sampleZeroNode
      (by decide) (by decide)).1 (.constInt 32 0) (by decide) (by decide) (by decide)⟩

/-! ## Casts -/

theorem castIfNecessary_same (v : Value) (s : Llvm) :
    castIfNecessary v v.getType s = .ok v s := by
  simp [castIfNecessary, getCast, m_bind_apply, m_pure_apply]

theorem castIfNecessary_ptr {v : Value} {T : LType} (hv : v.getType.isPointerTy = true)
    (hT : T.isPointerTy = true) (hne : v.getType ≠ T) (s : Llvm) :
    castIfNecessary v T s =
      .ok (.inst s.nextValueId T)
        (s.insert s.builder
          { opcode := .BitCast, ty := T, operands := [v], name := "CastPtrToPtr" }) := by
  unfold castIfNecessary getCast
  rw [if_neg hne, if_pos hT]
  cases hty : v.getType <;> simp [hty, LType.isPointerTy] at hv
  simp only [m_bind_apply, m_pure_apply]
  rfl

/-! ## Addition -/

/-- C19: `buildAdd` after both operands were consumed without a demanded type, as `v1` and
`v2`.  A pointer and an integer give one address computation whose base is `v1` as a byte
pointer (`v1` itself, or one pointer cast of it) and whose index is `v2`; two integers of the
same type give one integer add; every other combination is the unsupported-shape failure, in
a state whose node-to-value map is the incoming one. -/
theorem buildAdd_cases (c : Compiler) (node op1 op2 : GenTree) (s s1 s2 : Llvm)
    (v1 v2 : Value)
    (h1 : node.gtOp1 = some op1) (h2 : node.gtOp2 = some op2)
    (hc1 : consumeValue c op1 none s = .ok v1 s1)
    (hc2 : consumeValue c op2 none s1 = .ok v2 s2) :
    (v1.getType.isPointerTy = true ∧ v2.getType.isIntegerTy = true →
      ∃ base s3, castIfNecessary v1 getInt8PtrTy s2 = .ok base s3 ∧
        ((base = v1 ∧ s3 = s2) ∨
         (base = .inst s2.nextValueId getInt8PtrTy ∧
          s3 = s2.insert s2.builder
            { opcode := .BitCast, ty := getInt8PtrTy, operands := [v1],
              name := "CastPtrToPtr" })) ∧
        base.getType = getInt8PtrTy ∧
        buildAdd c node s =
          mapGenTreeToValue c node (.inst s3.nextValueId getInt8PtrTy)
            (s3.insert s3.builder
              { opcode := .GEP, ty := getInt8PtrTy, operands := [base, v2] })) ∧
    (v1.getType.isIntegerTy = true ∧ v1.getType = v2.getType →
      buildAdd c node s =
        mapGenTreeToValue c node (.inst s2.nextValueId v1.getType)
          (s2.insert s2.builder
            { opcode := .Add, ty := v1.getType, operands := [v1, v2] })) ∧
    (¬ (v1.getType.isPointerTy = true ∧ v2.getType.isIntegerTy = true) ∧
      ¬ (v1.getType.isIntegerTy = true ∧ v1.getType = v2.getType) →
      buildAdd c node s = .failed .unsupportedShape s2.deleteBody ∧
      s2.deleteBody.sdsuMap = s.sdsuMap ∧ s2.deleteBody.sdsuWrites = s.sdsuWrites) := by
  refine ⟨fun hp => ?_, fun hi => ?_, fun hn => ?_⟩
  · by_cases hty : v1.getType = getInt8PtrTy
    · have hcast : castIfNecessary v1 getInt8PtrTy s2 = .ok v1 s2 := by
        rw [← hty]
        exact castIfNecessary_same v1 s2
      refine ⟨v1, s2, hcast, Or.inl ⟨rfl, rfl⟩, hty, ?_⟩
      unfold buildAdd
      rw [h1, m_bind_ok (deref_some op1 s), m_bind_ok hc1, h2, m_bind_ok (deref_some op2 s1),
        m_bind_ok hc2]
      simp only []
      rw [if_pos hp, m_bind_ok hcast, m_bind_apply, create_apply, hty]
    · have hcast := castIfNecessary_ptr hp.1 (T := getInt8PtrTy) rfl hty s2
      refine ⟨_, _, hcast, Or.inr ⟨rfl, rfl⟩, rfl, ?_⟩
      unfold buildAdd
      rw [h1, m_bind_ok (deref_some op1 s), m_bind_ok hc1, h2, m_bind_ok (deref_some op2 s1),
        m_bind_ok hc2]
      simp only []
      rw [if_pos hp, m_bind_ok hcast, m_bind_apply, create_apply]
      rfl
  · have hnp : ¬ (v1.getType.isPointerTy = true ∧ v2.getType.isIntegerTy = true) := by
      intro hp
      cases hty : v1.getType <;> simp [hty, LType.isPointerTy, LType.isIntegerTy] at hp hi
    unfold buildAdd
    rw [h1, m_bind_ok (deref_some op1 s), m_bind_ok hc1, h2, m_bind_ok (deref_some op2 s1),
      m_bind_ok hc2]
    simp only []
    rw [if_neg hnp, if_pos hi, m_bind_apply, create_apply]
  · refine ⟨?_, ?_⟩
    · unfold buildAdd
      rw [h1, m_bind_ok (deref_some op1 s), m_bind_ok hc1, h2, m_bind_ok (deref_some op2 s1),
        m_bind_ok hc2]
      simp only []
      rw [if_neg hn.1, if_neg hn.2]
      rfl
    obtain ⟨_, _, hk1⟩ := consumeValue_inv hc1
    obtain ⟨_, _, hk2⟩ := consumeValue_inv hc2
    have e1 : s1.sdsuMap = s.sdsuMap ∧ s1.sdsuWrites = s.sdsuWrites := by
      rcases hk1 with ⟨_, e⟩ | ⟨_, _, _, _, _, _, e⟩ <;> rw [e] <;> exact ⟨rfl, rfl⟩
    have e2 : s2.sdsuMap = s1.sdsuMap ∧ s2.sdsuWrites = s1.sdsuWrites := by
      rcases hk2 with ⟨_, e⟩ | ⟨_, _, _, _, _, _, e⟩ <;> rw [e] <;> exact ⟨rfl, rfl⟩
    have e3 : s2.deleteBody.sdsuMap = s2.sdsuMap ∧ s2.deleteBody.sdsuWrites = s2.sdsuWrites := by
      unfold Llvm.deleteBody
      split <;> exact ⟨rfl, rfl⟩
    exact ⟨e3.1.trans (e2.1.trans e1.1), e3.2.trans (e2.2.trans e1.2)⟩

/-- Witness of C19: the addition of two `i32` function arguments. -/
theorem buildAdd_cases_witness :
    sampleAddNode.gtOp1 = some (.leaf { id := 1, gtOper := .GT_LCL_VAR, lclNum := 0, ssaNum := 1 }) ∧
    sampleAddNode.gtOp2 = some (.leaf { id := 2, gtOper := .GT_LCL_VAR, lclNum := 1, ssaNum := 1 }) ∧
    consumeValue sampleCompiler (.leaf { id := 1, gtOper := .GT_LCL_VAR, lclNum := 0, ssaNum := 1 })
      none sampleOperandState = .ok (.argument 1 (.int 32)) sampleOperandState ∧
    consumeValue sampleCompiler (.leaf { id := 2, gtOper := .GT_LCL_VAR, lclNum := 1, ssaNum := 1 })
      none sampleOperandState = .ok (.argument 2 (.int 32)) sampleOperandState ∧
    buildAdd sampleCompiler sampleAddNode sampleOperandState =
      mapGenTreeToValue sampleCompiler sampleAddNode
        (.inst sampleOperandState.nextValueId (Value.argument 1 (.int 32)).getType)
        (sampleOperandState.insert sampleOperandState.builder
          { opcode := .Add, ty := (Value.argument 1 (.int 32)).getType,
            operands := [.argument 1 (.int 32), .argument 2 (.int 32)] }) :=
  ⟨by decide, by decide, by decide!, by decide!,
    (buildAdd_cases sampleCompiler sampleAddNode
      (.leaf { id := 1, gtOper := .GT_LCL_VAR, lclNum := 0, ssaNum := 1 })
      (.leaf { id := 2, gtOper := .GT_LCL_VAR, lclNum := 1, ssaNum := 1 })
      sampleOperandState sampleOperandState
      sampleOperandState (.argument 1 (.int 32)) (.argument 2 (.int 32))
      (by decide) (by decide) (by decide!) (by decide!)).2.1 ⟨by decide, by decide⟩⟩

/-! ## Target blocks of source blocks -/

/-- The two runs of `getLLVMBasicBlockForBlock`: the block the map holds, in the same state,
or a new target block, recorded in the map.  It always returns and creates no instruction. -/
theorem getLLVMBasicBlockForBlock_run (c : Compiler) (k : Nat) (s : Llvm) :
    (∃ b, tableLookup s.blkToLlvmBlkVectorMap k = some b ∧
      getLLVMBasicBlockForBlock c (some k) s = .ok b s) ∨
    (tableLookup s.blkToLlvmBlkVectorMap k = none ∧
      getLLVMBasicBlockForBlock c (some k) s = .ok s.nextBlockId
        { s with
          blocks := s.blocks ++ [{ id := s.nextBlockId, name := llvmBlockName k,
                                   parent := match s.function with
                                     | some f => f.name
                                     | none => "" }],
          nextBlockId := s.nextBlockId + 1,
          blkToLlvmBlkVectorMap := tableSet s.blkToLlvmBlkVectorMap k s.nextBlockId }) := by
  cases hl : tableLookup s.blkToLlvmBlkVectorMap k with
  | some b0 =>
    left
    refine ⟨b0, rfl, ?_⟩
    simp only [getLLVMBasicBlockForBlock, m_bind_apply, getState, deref, m_pure_apply, hl]
  | none =>
    right
    refine ⟨rfl, ?_⟩
    simp only [getLLVMBasicBlockForBlock, m_bind_apply, getState, deref, m_pure_apply, hl,
      createBasicBlock, tableSetChecked, jitAssert, Option.isNone_none,
      Bool.not_true, Bool.and_false, Bool.false_eq_true, if_false, modifyState] <;> rfl

theorem getLLVMBasicBlockForBlock_total (c : Compiler) (k : Nat) (s : Llvm) :
    ∃ t s1, getLLVMBasicBlockForBlock c (some k) s = .ok t s1 ∧
      tableLookup s1.blkToLlvmBlkVectorMap k = some t ∧
      s1.emitted = s.emitted ∧ s1.builder = s.builder ∧ s1.nextValueId = s.nextValueId ∧
      s1.sdsuMap = s.sdsuMap ∧ s1.function = s.function := by
  rcases getLLVMBasicBlockForBlock_run c k s with ⟨b, hl, h⟩ | ⟨_, h⟩
  · exact ⟨b, s, h, hl, rfl, rfl, rfl, rfl, rfl⟩
  · refine ⟨_, _, h, ?_, rfl, rfl, rfl, rfl, rfl⟩
    simp only [tableLookup_tableSet, if_true]

/-! ## Block terminators -/

/-- C18: `endImportingBasicBlock` always returns.  For a fallthrough block with a lexical
successor and for an unconditional-jump block with a target it creates exactly one
instruction, an unconditional branch to the target block of that successor or target (the
block the map holds for it afterwards); for a throw block it creates exactly one
`unreachable`; in every other case it leaves the state untouched. -/
theorem endImportingBasicBlock_terminator (c : Compiler) (block : BasicBlock) (s : Llvm) :
    (∀ n, block.bbJumpKind = .BBJ_NONE → block.bbNext = some n →
      ∃ t s1, getLLVMBasicBlockForBlock c (some n) s = .ok t s1 ∧
        tableLookup s1.blkToLlvmBlkVectorMap n = some t ∧ s1.emitted = s.emitted ∧
        endImportingBasicBlock c block s =
          .ok () (s1.insert s1.builder { opcode := .Br, ty := .void, targets := [t] }) ∧
        (s1.insert s1.builder { opcode := .Br, ty := .void, targets := [t] }).emitted =
          s.emitted ++ [s1.newInst s1.builder { opcode := .Br, ty := .void, targets := [t] }]) ∧
    (∀ n, block.bbJumpKind = .BBJ_ALWAYS → block.bbJumpDest = some n →
      ∃ t s1, getLLVMBasicBlockForBlock c (some n) s = .ok t s1 ∧
        tableLookup s1.blkToLlvmBlkVectorMap n = some t ∧ s1.emitted = s.emitted ∧
        endImportingBasicBlock c block s =
          .ok () (s1.insert s1.builder { opcode := .Br, ty := .void, targets := [t] }) ∧
        (s1.insert s1.builder { opcode := .Br, ty := .void, targets := [t] }).emitted =
          s.emitted ++ [s1.newInst s1.builder { opcode := .Br, ty := .void, targets := [t] }]) ∧
    (block.bbJumpKind = .BBJ_THROW →
      endImportingBasicBlock c block s =
        .ok () (s.insert s.builder { opcode := .Unreachable, ty := .void }) ∧
      (s.insert s.builder { opcode := .Unreachable, ty := .void }).emitted =
        s.emitted ++ [s.newInst s.builder { opcode := .Unreachable, ty := .void }]) ∧
    (¬ (block.bbJumpKind = .BBJ_NONE ∧ block.bbNext.isSome = true) →
      ¬ (block.bbJumpKind = .BBJ_ALWAYS ∧ block.bbJumpDest.isSome = true) →
      block.bbJumpKind ≠ .BBJ_THROW →
      endImportingBasicBlock c block s = .ok () s) := by
  refine ⟨fun n hk hn => ?_, fun n hk hn => ?_, fun hk => ?_, fun h1 h2 h3 => ?_⟩
  · obtain ⟨t, s1, hrun, hl, he, _⟩ := getLLVMBasicBlockForBlock_total c n s
    refine ⟨t, s1, hrun, hl, he, ?_, ?_⟩
    · unfold endImportingBasicBlock
      rw [if_pos ⟨hk, by rw [hn]; rfl⟩, hn, m_bind_ok hrun, m_bind_apply, create_apply]
      rfl
    · show s1.emitted ++ _ = _
      rw [he]
  · obtain ⟨t, s1, hrun, hl, he, _⟩ := getLLVMBasicBlockForBlock_total c n s
    refine ⟨t, s1, hrun, hl, he, ?_, ?_⟩
    · unfold endImportingBasicBlock
      rw [if_neg (by rw [hk]; simp), if_pos ⟨hk, by rw [hn]; rfl⟩, hn, m_bind_ok hrun,
        m_bind_apply, create_apply]
      rfl
    · show s1.emitted ++ _ = _
      rw [he]
  · refine ⟨?_, rfl⟩
    unfold endImportingBasicBlock
    rw [if_neg (by rw [hk]; simp), if_neg (by rw [hk]; simp), if_pos hk, m_bind_apply,
      create_apply]
    rfl
  · unfold endImportingBasicBlock
    rw [if_neg h1, if_neg h2, if_neg h3]
    rfl

/-- Witness of C18: a fallthrough block whose successor has no target block yet. -/
theorem endImportingBasicBlock_terminator_witness :
    ∃ t s1, getLLVMBasicBlockForBlock sampleCompiler (some 2) sampleZeroState = .ok t s1 ∧
      tableLookup s1.blkToLlvmBlkVectorMap 2 = some t ∧ s1.emitted = sampleZeroState.emitted ∧
      endImportingBasicBlock sampleCompiler sampleFallthroughBlock sampleZeroState =
        .ok () (s1.insert s1.builder { opcode := .Br, ty := .void, targets := [t] }) ∧
      (s1.insert s1.builder { opcode := .Br, ty := .void, targets := [t] }).emitted =
        sampleZeroState.emitted ++
          [s1.newInst s1.builder { opcode := .Br, ty := .void, targets := [t] }] :=
  (endImportingBasicBlock_terminator sampleCompiler sampleFallthroughBlock sampleZeroState).1
    2 (by decide) (by decide)

/-! ## Created instructions: the frame rules -/

theorem emits_mono {α : Type} {P Q : Instruction → Prop} {m : M α}
    (hPQ : ∀ i, P i → Q i) (h : Emits P m) : Emits Q m := by
  constructor
  intro s a s1 hrun
  obtain ⟨l, hl, hP⟩ := h.run s a s1 hrun
  exact ⟨l, hl, fun i hi => hPQ i (hP i hi)⟩

theorem emits_of_state {α : Type} {P : Instruction → Prop} {m : M α}
    (h : ∀ s a s1, m s = .ok a s1 → s1.emitted = s.emitted) : Emits P m := by
  constructor
  intro s a s1 hrun
  exact ⟨[], by rw [h s a s1 hrun]; simp, by simp⟩

theorem emits_pure {α : Type} {P : Instruction → Prop} (a : α) : Emits P (pure a : M α) :=
  emits_of_state (fun _ _ _ h => by rw [(m_pure_inv h).2])

theorem emits_bind {α β : Type} {P : Instruction → Prop} {m : M α} {f : α → M β}
    (hm : Emits P m) (hf : ∀ a, Emits P (f a)) : Emits P (m >>= f) := by
  constructor
  intro s b s2 h
  obtain ⟨a, s1, h1, h2⟩ := m_bind_inv h
  obtain ⟨l1, e1, p1⟩ := hm.run s a s1 h1
  obtain ⟨l2, e2, p2⟩ := (hf a).run s1 b s2 h2
  refine ⟨l1 ++ l2, by rw [e2, e1, List.append_assoc], ?_⟩
  intro i hi
  rcases List.mem_append.mp hi with hi | hi
  · exact p1 i hi
  · exact p2 i hi

theorem emits_bind_ret {α β : Type} {P : Instruction → Prop} {Q : α → Prop} {m : M α}
    {f : α → M β} (hm : Emits P m) (hq : Returns Q m) (hf : ∀ a, Q a → Emits P (f a)) :
    Emits P (m >>= f) := by
  constructor
  intro s b s2 h
  obtain ⟨a, s1, h1, h2⟩ := m_bind_inv h
  obtain ⟨l1, e1, p1⟩ := hm.run s a s1 h1
  obtain ⟨l2, e2, p2⟩ := (hf a (hq.run s a s1 h1)).run s1 b s2 h2
  refine ⟨l1 ++ l2, by rw [e2, e1, List.append_assoc], ?_⟩
  intro i hi
  rcases List.mem_append.mp hi with hi | hi
  · exact p1 i hi
  · exact p2 i hi

theorem emits_failFunctionCompilation {α : Type} {P : Instruction → Prop} :
    Emits P (failFunctionCompilation : M α) :=
  ⟨fun _ _ _ h => by cases h⟩

theorem emits_unreached {α : Type} {P : Instruction → Prop} : Emits P (unreached : M α) :=
  ⟨fun _ _ _ h => by cases h⟩

theorem emits_getState {P : Instruction → Prop} : Emits P getState :=
  emits_of_state (fun _ _ _ h => by injection h with _ h2; rw [h2])

theorem emits_modifyState {P : Instruction → Prop} {g : Llvm → Llvm}
    (hg : ∀ s, (g s).emitted = s.emitted) : Emits P (modifyState g) :=
  emits_of_state (fun s _ _ h => by injection h with _ h2; rw [← h2, hg])

theorem emits_jitAssert {P : Instruction → Prop} (c : Compiler) (b : Bool) :
    Emits P (jitAssert c b) :=
  emits_of_state (fun _ _ _ h => by rw [(jitAssert_inv h).1])

theorem emits_deref {α : Type} {P : Instruction → Prop} (o : Option α) : Emits P (deref o) :=
  emits_of_state (fun _ _ _ h => by rw [(deref_inv h).2])

theorem emits_tableGet {κ ν : Type} [DecidableEq κ] {P : Instruction → Prop}
    (m : List (κ × ν)) (k : κ) : Emits P (tableGet m k) :=
  emits_deref _

theorem emits_tableSetChecked {κ ν : Type} [DecidableEq κ] {P : Instruction → Prop}
    (c : Compiler) (m : List (κ × ν)) (k : κ) (v : ν) : Emits P (tableSetChecked c m k v) :=
  emits_bind (emits_jitAssert c _) (fun _ => emits_pure _)

theorem emits_createWith {P : Instruction → Prop} {b : IRBuilder} {i : Instruction}
    (h : ∀ id dbg, P { i with id := id, dbg := dbg }) : Emits P (createWith b i) := by
  constructor
  intro s a s1 hrun
  injection hrun with _ h2
  exact ⟨[s.newInst b i], by rw [← h2]; rfl, fun j hj => by
    rw [List.mem_singleton.mp hj]
    exact h _ _⟩

theorem emits_create {P : Instruction → Prop} {i : Instruction}
    (h : ∀ id dbg, P { i with id := id, dbg := dbg }) : Emits P (create i) :=
  ⟨fun s a s1 hrun => (emits_createWith (b := s.builder) h).run s a s1 hrun⟩

theorem emits_createProlog {P : Instruction → Prop} {i : Instruction}
    (h : ∀ id dbg, P { i with id := id, dbg := dbg }) : Emits P (createProlog i) :=
  ⟨fun s a s1 hrun => (emits_createWith (b := s.prologBuilder) h).run s a s1 hrun⟩

theorem emits_createBasicBlock {P : Instruction → Prop} (name parent : String) :
    Emits P (createBasicBlock name parent) :=
  emits_of_state (fun _ _ _ h => by injection h with _ h2; rw [← h2])

theorem emits_createFunction {P : Instruction → Prop} (fty : LType) (l : Linkage)
    (name : String) : Emits P (createFunction fty l name) :=
  emits_of_state (fun _ _ _ h => by injection h with _ h2; rw [← h2])

theorem emits_forEach {α : Type} {P : Instruction → Prop} {f : α → M Unit}
    (hf : ∀ a, Emits P (f a)) : ∀ l : List α, Emits P (forEach f l)
  | [] => emits_pure ()
  | x :: xs => emits_bind (hf x) (fun _ => emits_forEach hf xs)

theorem emits_mapEach {α β : Type} {P : Instruction → Prop} {f : α → M β}
    (hf : ∀ a, Emits P (f a)) : ∀ l : List α, Emits P (mapEach f l)
  | [] => emits_pure []
  | x :: xs =>
    emits_bind (hf x) (fun _ => emits_bind (emits_mapEach hf xs) (fun _ => emits_pure _))

theorem emits_mapGenTreeToValue {P : Instruction → Prop} (c : Compiler) (node : GenTree)
    (v : Value) : Emits P (mapGenTreeToValue c node v) :=
  emits_of_state (fun _ _ _ h => by rw [mapGenTreeToValue_inv h])

theorem emits_getGenTreeValue {P : Instruction → Prop} (node : GenTree) :
    Emits P (getGenTreeValue node) :=
  emits_of_state (fun _ _ _ h => by rw [(getGenTreeValue_inv h).2])

/-- The instructions `consumeValue` creates are conversions. -/
theorem emits_consumeValue (c : Compiler) (node : GenTree) (T : Option LType) :
    Emits (fun i => i.opcode.isConversion = true) (consumeValue c node T) := by
  constructor
  intro s r s1 h
  obtain ⟨raw, _, hcase⟩ := consumeValue_inv h
  rcases hcase with ⟨_, e⟩ | ⟨op, ty, hop, _, _, _, e⟩
  · exact ⟨[], by rw [e]; simp, by simp⟩
  · exact ⟨[s.newInst s.builder { opcode := op, ty := ty, operands := [raw] }],
      by rw [e]; rfl, fun j hj => by rw [List.mem_singleton.mp hj]; exact hop⟩

/-- A returning `getCast` left the state untouched and described no instruction (equal
types) or one cast of the source to the target type. -/
theorem getCast_inv {v : Value} {T : LType} {s s1 : Llvm} {r : Option Instruction}
    (h : getCast v T s = .ok r s1) :
    s1 = s ∧
    ((r = none ∧ v.getType = T) ∨
     (∃ i, r = some i ∧ i.opcode.isConversion = true ∧ i.ty = T ∧ i.operands = [v] ∧
        v.getType ≠ T)) := by
  unfold getCast at h
  split at h
  · rename_i heq
    obtain ⟨h1, h2⟩ := m_pure_inv h
    exact ⟨h2, Or.inl ⟨h1, heq⟩⟩
  rename_i hne
  split at h
  · cases hty : v.getType <;> rw [hty] at h <;> simp only [] at h <;>
      first
      | (obtain ⟨h1, h2⟩ := m_pure_inv h
         exact ⟨h2, Or.inr ⟨_, h1, rfl, rfl, rfl, by rw [← hty]; exact hne⟩⟩)
      | cases h
  split at h
  · cases hty : v.getType <;> rw [hty] at h <;> simp only [] at h <;>
      first
      | (obtain ⟨h1, h2⟩ := m_pure_inv h
         exact ⟨h2, Or.inr ⟨_, h1, rfl, rfl, rfl, by rw [← hty]; exact hne⟩⟩)
      | (split at h
         · obtain ⟨h1, h2⟩ := m_pure_inv h
           exact ⟨h2, Or.inr ⟨_, h1, rfl, rfl, rfl, by rw [← hty]; exact hne⟩⟩
         · cases h)
      | cases h
  · cases h

/-- A returning `castIfNecessary` returned the source in the same state (equal types) or
created exactly one cast of the source to the target type. -/
theorem castIfNecessary_inv {v r : Value} {T : LType} {s s1 : Llvm}
    (h : castIfNecessary v T s = .ok r s1) :
    (r = v ∧ s1 = s ∧ v.getType = T) ∨
    (∃ i, i.opcode.isConversion = true ∧ i.ty = T ∧ i.operands = [v] ∧ v.getType ≠ T ∧
      r = .inst s.nextValueId T ∧ s1 = s.insert s.builder i) := by
  unfold castIfNecessary at h
  obtain ⟨o, s2, hc, h⟩ := m_bind_inv h
  obtain ⟨e, hcase⟩ := getCast_inv hc
  rw [e] at h
  rcases hcase with ⟨rfl, hty⟩ | ⟨i, rfl, hop, hty, hops, hne⟩
  · obtain ⟨h1, h2⟩ := m_pure_inv h
    exact Or.inl ⟨h1, h2, hty⟩
  · obtain ⟨h1, h2⟩ := create_inv h
    rw [hty] at h1
    exact Or.inr ⟨i, hop, hty, hops, hne, h1, h2⟩

theorem castIfNecessary_type {v r : Value} {T : LType} {s s1 : Llvm}
    (h : castIfNecessary v T s = .ok r s1) : r.getType = T := by
  rcases castIfNecessary_inv h with ⟨h1, _, h3⟩ | ⟨_, _, _, _, _, h1, _⟩
  · rw [h1, h3]
  · rw [h1]
    rfl

theorem emits_castIfNecessary (v : Value) (T : LType) :
    Emits (fun i => i.opcode.isConversion = true) (castIfNecessary v T) := by
  constructor
  intro s r s1 h
  rcases castIfNecessary_inv h with ⟨_, e, _⟩ | ⟨i, hop, _, _, _, _, e⟩
  · exact ⟨[], by rw [e]; simp, by simp⟩
  · exact ⟨[s.newInst s.builder i], by rw [e]; rfl,
      fun j hj => by rw [List.mem_singleton.mp hj]; exact hop⟩

/-- A returning `gepOrAddr` returned the address in the same state (offset 0) or created
exactly one address computation with the constant offset. -/
theorem gepOrAddr_run (addr : Value) (offset : Nat) (s : Llvm) :
    (offset = 0 → gepOrAddr addr offset s = .ok addr s) ∧
    (offset ≠ 0 → gepOrAddr addr offset s =
      .ok (.inst s.nextValueId addr.getType)
        (s.insert s.builder
          { opcode := .GEP, ty := addr.getType, operands := [addr, getInt32 offset] })) := by
  unfold gepOrAddr
  refine ⟨fun h => by rw [if_pos h]; rfl, fun h => by rw [if_neg h]; rfl⟩

theorem emits_gepOrAddr (addr : Value) (offset : Nat) :
    Emits (fun i => i.opcode = .GEP) (gepOrAddr addr offset) := by
  unfold gepOrAddr
  split
  · exact emits_pure _
  · exact emits_create (fun _ _ => rfl)

/-! ## The callee's shadow stack -/

theorem getShadowStackForCallee_eq (c : Compiler) (s : Llvm) (f : LFunction) (arg0 : Value)
    (hf : s.function = some f) (ha : f.getArg 0 = some arg0)
    (hal : c.debug = true → c.shadowStackLocalsSize % c.TARGET_POINTER_SIZE = 0) :
    getShadowStackForCallee c s = gepOrAddr arg0 c.shadowStackLocalsSize s := by
  unfold getShadowStackForCallee getTotalLocalOffset
  rw [m_bind_assoc, m_bind_ok (jitAssert_ok (fun hd => by simp [hal hd]) s),
    m_bind_ok (m_pure_apply _ s)]
  have harg : functionGetArg 0 s = .ok arg0 s := by
    unfold functionGetArg
    rw [hf]
    simp only [ha]
    rfl
  rw [m_bind_ok harg]

theorem getShadowStackForCallee_inv {c : Compiler} {s s1 : Llvm} {r : Value}
    (h : getShadowStackForCallee c s = .ok r s1) :
    ∃ f arg0, s.function = some f ∧ f.getArg 0 = some arg0 ∧
      gepOrAddr arg0 c.shadowStackLocalsSize s = .ok r s1 := by
  unfold getShadowStackForCallee getTotalLocalOffset at h
  rw [m_bind_assoc] at h
  have h := (jitAssert_bind_inv h).1
  rw [m_bind_ok (m_pure_apply _ s)] at h
  obtain ⟨a, s2, harg, h⟩ := m_bind_inv h
  unfold functionGetArg at harg
  cases hf : s.function with
  | none =>
    rw [hf] at harg
    cases harg
  | some f =>
    rw [hf] at harg
    simp only [] at harg
    obtain ⟨h1, h2⟩ := deref_inv harg
    rw [h2] at h
    exact ⟨f, a, rfl, h1, h⟩

/-- The value `getShadowStackForCallee` returns is the callee's shadow-stack pointer among
the instructions it created. -/
theorem getShadowStackForCallee_spec {c : Compiler} {s s1 : Llvm} {r : Value} {f : LFunction}
    {arg0 : Value} (hf : s.function = some f) (ha : f.getArg 0 = some arg0)
    (h : getShadowStackForCallee c s = .ok r s1) :
    ∃ l, s1.emitted = s.emitted ++ l ∧ IsCalleeShadowStack c arg0 l r ∧
      s1.function = s.function ∧ s1.sdsuMap = s.sdsuMap := by
  obtain ⟨f2, a2, hf2, ha2, h⟩ := getShadowStackForCallee_inv h
  rw [hf] at hf2
  rw [← Option.some.inj hf2, ha] at ha2
  rw [← Option.some.inj ha2] at h
  by_cases hz : c.shadowStackLocalsSize = 0
  · rw [(gepOrAddr_run arg0 _ s).1 hz] at h
    injection h with h1 h2
    exact ⟨[], by rw [← h2]; simp, Or.inl ⟨hz, h1.symm⟩, by rw [← h2], by rw [← h2]⟩
  · rw [(gepOrAddr_run arg0 _ s).2 hz] at h
    injection h with h1 h2
    refine ⟨[s.newInst s.builder
        { opcode := .GEP, ty := arg0.getType,
          operands := [arg0, getInt32 c.shadowStackLocalsSize] }],
      by rw [← h2]; rfl, Or.inr ⟨hz, _, List.mem_singleton.mpr rfl, rfl, rfl, h1.symm⟩,
      by rw [← h2]; rfl, by rw [← h2]; rfl⟩

theorem getOrCreateFunction_inv {name : String} {fty : LType} {l : Linkage} {s s1 : Llvm}
    {f : LFunction} (h : getOrCreateFunction name fty l s = .ok f s1) :
    s1.emitted = s.emitted ∧ s1.function = s.function ∧ f.name = name ∧
    s1.getFunction name = some f ∧
    ((s.getFunction name = some f ∧ s1 = s) ∨
     (s.getFunction name = none ∧ f = { name := name, fty := fty, linkage := l } ∧
      s1 = { s with functions := s.functions ++ [f] })) := by
  unfold getOrCreateFunction at h
  have h := getState_bind_inv h
  cases hg : s.getFunction name with
  | some g =>
    rw [hg] at h
    obtain ⟨h1, h2⟩ := m_pure_inv h
    have hname : g.name = name := by
      unfold Llvm.getFunction at hg
      have := List.find?_some hg
      simpa using this
    rw [h1, h2]
    exact ⟨rfl, rfl, hname, hg, Or.inl ⟨rfl, rfl⟩⟩
  | none =>
    rw [hg] at h
    injection h with h1 h2
    rw [← h1, ← h2]
    refine ⟨rfl, rfl, rfl, ?_, Or.inr ⟨rfl, rfl, rfl⟩⟩
    unfold Llvm.getFunction at hg ⊢
    simp only [List.find?_append, hg, Option.none_or]
    simp

theorem emits_getOrCreateFunction {P : Instruction → Prop} (name : String) (fty : LType)
    (l : Linkage) : Emits P (getOrCreateFunction name fty l) :=
  emits_of_state (fun _ _ _ h => (getOrCreateFunction_inv h).1)

theorem getOrCreateExternalSymbol_inv {name : String} {ty : Option LType} {s s1 : Llvm}
    {v : Value} (h : getOrCreateExternalSymbol name ty s = .ok v s1) :
    s1.emitted = s.emitted ∧ s1.function = s.function := by
  unfold getOrCreateExternalSymbol at h
  have h := getState_bind_inv h
  cases hg : s.getGlobalVariable name with
  | some g =>
    rw [hg] at h
    rw [(m_pure_inv h).2]
    exact ⟨rfl, rfl⟩
  | none =>
    rw [hg] at h
    have h := modifyState_bind_inv h
    rw [(m_pure_inv h).2]
    exact ⟨rfl, rfl⟩

theorem emits_getOrCreateExternalSymbol {P : Instruction → Prop} (name : String)
    (ty : Option LType) : Emits P (getOrCreateExternalSymbol name ty) :=
  emits_of_state (fun _ _ _ h => (getOrCreateExternalSymbol_inv h).1)

theorem emits_AddCodeReloc {P : Instruction → Prop} (handle : Nat) :
    Emits P (AddCodeReloc handle) :=
  emits_modifyState (fun _ => rfl)

theorem emits_createLoad {P : Instruction → Prop} (ptr : Value)
    (h : ∀ i : Instruction, i.opcode = .Load → P i) : Emits P (createLoad ptr) := by
  unfold createLoad
  split
  · exact emits_create (fun _ _ => h _ rfl)
  · exact emits_unreached

theorem emits_buildHelperArgs (c : Compiler) (llvmFunc : LFunction) :
    ∀ (l : List (Option (Nat × GenTree))) (argIx : Nat),
      Emits (fun _ => True) (buildHelperArgs c llvmFunc argIx l)
  | [], _ => by
    unfold buildHelperArgs
    exact emits_pure _
  | x :: xs, argIx => by
    unfold buildHelperArgs
    have ih := fun n => emits_buildHelperArgs c llvmFunc xs n
    repeat (first
      | exact emits_pure _
      | exact emits_deref _
      | exact emits_AddCodeReloc _
      | exact emits_getOrCreateExternalSymbol _ _
      | exact emits_mono (fun _ _ => trivial) (emits_castIfNecessary _ _)
      | exact emits_mono (fun _ _ => trivial) (emits_consumeValue _ _ _)
      | exact emits_createLoad _ (fun _ _ => trivial)
      | exact ih _
      | apply emits_bind
      | intro _
      | split
      | dsimp only)

theorem sortHelperArgs_inv {sorted r : List (Option (Nat × GenTree))}
    {tab : List (Nat × GenTree)} {s s1 : Llvm}
    (h : sortHelperArgs sorted tab s = .ok r s1) : s1 = s := by
  induction tab generalizing sorted with
  | nil =>
    unfold sortHelperArgs at h
    exact (m_pure_inv h).2
  | cons e rest ih =>
    unfold sortHelperArgs at h
    split at h
    · exact ih h
    · cases h

theorem createCallTo_inv {f : LFunction} {args : List Value} {s s1 : Llvm} {r : Value}
    (h : createCallTo f args s = .ok r s1) :
    r = .inst s.nextValueId f.fty.returnType ∧
    s1 = s.insert s.builder
      { opcode := .Call, ty := f.fty.returnType,
        operands := .function f.name f.fty :: args } :=
  create_inv h

/-- C13: `getShadowStackForCallee` returns the current function's argument 0 itself, in the
same state, exactly when the method's shadow-stack locals take no space, and otherwise the
result of one address computation that advances argument 0 by that size in bytes; and the
call that `buildHelperFuncCall` creates for a helper with the shadow-stack convention (the
static-base helper, or a helper that `helperRequiresShadowStack` lists) is the last
instruction it creates and has that value, computed at this call site, as its first actual
argument. -/
theorem shadowStackForCallee (c : Compiler) (s : Llvm) (f : LFunction) (arg0 : Value)
    (hf : s.function = some f) (ha : f.getArg 0 = some arg0)
    (hal : c.debug = true → c.shadowStackLocalsSize % c.TARGET_POINTER_SIZE = 0) :
    (c.shadowStackLocalsSize = 0 → getShadowStackForCallee c s = .ok arg0 s) ∧
    (c.shadowStackLocalsSize ≠ 0 →
      getShadowStackForCallee c s =
        .ok (.inst s.nextValueId arg0.getType)
          (s.insert s.builder
            { opcode := .GEP, ty := arg0.getType,
              operands := [arg0, getInt32 c.shadowStackLocalsSize] })) ∧
    (∀ call s1, buildHelperFuncCall c call s = .ok () s1 →
      (call.d.gtCallMethHnd = c.eeFindHelper .CORINFO_HELP_READYTORUN_STATIC_BASE ∨
        helperRequiresShadowStack c call.d.gtCallMethHnd = true) →
      ∃ l callInst callee ss rest,
        s1.emitted = s.emitted ++ l ++ [callInst] ∧
        callInst.opcode = .Call ∧ callInst.operands = callee :: ss :: rest ∧
        IsCalleeShadowStack c arg0 l ss ∧
        tableLookup s1.sdsuMap call.id = some (.inst callInst.id callInst.ty)) := by
  refine ⟨fun hz => ?_, fun hz => ?_, fun call s1 h hreq => ?_⟩
  · rw [getShadowStackForCallee_eq c s f arg0 hf ha hal]
    exact (gepOrAddr_run arg0 _ s).1 hz
  · rw [getShadowStackForCallee_eq c s f arg0 hf ha hal]
    exact (gepOrAddr_run arg0 _ s).2 hz
  · unfold buildHelperFuncCall at h
    split at h
    · obtain ⟨_, s0, h0, _⟩ := m_bind_inv h
      cases h0
    obtain ⟨_, s0, h0, h⟩ := m_bind_inv h
    rw [(m_pure_inv h0).2] at h
    clear h0 s0
    dsimp only at h
    split at h
    · -- the static-base helper
      obtain ⟨llvmFunc, sA, hA, h⟩ := m_bind_inv h
      obtain ⟨eA, fA, _⟩ := getOrCreateFunction_inv hA
      have h := modifyState_bind_inv h
      obtain ⟨ss, sB, hB, h⟩ := m_bind_inv h
      obtain ⟨l, eB, hss, _, _⟩ :=
        @getShadowStackForCallee_spec _ _ _ _ f arg0 (by show sA.function = _; rw [fA, hf])
          ha hB
      obtain ⟨callValue, sC, hC, h⟩ := m_bind_inv h
      obtain ⟨hv, eC⟩ := createCallTo_inv hC
      have e1 := mapGenTreeToValue_inv h
      refine ⟨l, sB.newInst sB.builder
          { opcode := .Call, ty := llvmFunc.fty.returnType,
            operands := [.function llvmFunc.name llvmFunc.fty, ss] },
        _, ss, [], ?_, rfl, rfl, hss, ?_⟩
      · rw [e1, eC]
        show sB.emitted ++ _ = _
        rw [eB]
        show (sA.emitted ++ l) ++ _ = _
        rw [eA]
      · rw [e1, hv]
        simp only [tableLookup_tableSet, if_true]
        rfl
    · -- every other helper
      rename_i hns
      have hrq : helperRequiresShadowStack c call.d.gtCallMethHnd = true := by
        rcases hreq with hreq | hreq
        · exact absurd hreq hns
        · exact hreq
      obtain ⟨sortedArgs, s0, h0, h⟩ := m_bind_inv h
      rw [sortHelperArgs_inv h0] at h
      clear h0 s0
      obtain ⟨llvmFunc, sA, hA, h⟩ := m_bind_inv h
      obtain ⟨eA, fA, _⟩ := getOrCreateFunction_inv hA
      have h := modifyState_bind_inv h
      obtain ⟨ss, sB, hB, h⟩ := m_bind_inv h
      obtain ⟨l, eB, hss, _, _⟩ :=
        @getShadowStackForCallee_spec _ _ _ _ f arg0 (by show sA.function = _; rw [fA, hf])
          ha hB
      rw [hrq] at h
      simp only [Bool.not_true, Bool.false_eq_true, if_false, if_true] at h
      rw [m_bind_ok (m_pure_apply _ sB)] at h
      obtain ⟨explicitArgs, sC, hC, h⟩ := m_bind_inv h
      obtain ⟨l2, eC, _⟩ := (emits_buildHelperArgs c llvmFunc sortedArgs 1).run _ _ _ hC
      obtain ⟨callValue, sD, hD, h⟩ := m_bind_inv h
      obtain ⟨hv, eD⟩ := createCallTo_inv hD
      have e1 := mapGenTreeToValue_inv h
      refine ⟨l ++ l2, sC.newInst sC.builder
          { opcode := .Call, ty := llvmFunc.fty.returnType,
            operands := .function llvmFunc.name llvmFunc.fty :: ss :: explicitArgs },
        _, ss, explicitArgs, ?_, rfl, rfl, ?_, ?_⟩
      · rw [e1, eD]
        show sC.emitted ++ _ = _
        rw [eC, eB]
        show ((sA.emitted ++ l) ++ l2) ++ _ = _
        rw [eA, List.append_assoc s.emitted l l2]
        rfl
      · rcases hss with hss | ⟨hz, g, hg, hrest⟩
        · exact Or.inl hss
        · exact Or.inr ⟨hz, g, List.mem_append_left _ hg, hrest⟩
      · rw [e1, hv]
        simp only [tableLookup_tableSet, if_true]
        rfl

/-- Witness of C13: a method with 8 bytes of shadow-stack locals. -/
theorem shadowStackForCallee_witness :
    sampleFunctionState.function
      = some { name := "Sample__Method", fty := .func .void [getInt8PtrTy] } ∧
    LFunction.getArg { name := "Sample__Method", fty := .func .void [getInt8PtrTy] } 0
      = some (.argument 0 getInt8PtrTy) ∧
    getShadowStackForCallee sampleFrameCompiler sampleFunctionState =
      .ok (.inst sampleFunctionState.nextValueId (Value.argument 0 getInt8PtrTy).getType)
        (sampleFunctionState.insert sampleFunctionState.builder
          { opcode := .GEP, ty := (Value.argument 0 getInt8PtrTy).getType,
            operands := [.argument 0 getInt8PtrTy,
              getInt32 sampleFrameCompiler.shadowStackLocalsSize] }) :=
  ⟨by decide, by decide,
    (shadowStackForCallee sampleFrameCompiler sampleFunctionState
      { name := "Sample__Method", fty := .func .void [getInt8PtrTy] } (.argument 0 getInt8PtrTy)
      (by decide) (by decide) (by decide)).2.1 (by decide)⟩

/-! ## Declaration lookup -/

theorem find_filter_length {α : Type} (p : α → Bool) (l : List α) :
    (l.find? p = none → (l.filter p).length = 0) ∧
    (∀ a, l.find? p = some a → 1 ≤ (l.filter p).length) := by
  induction l with
  | nil => simp
  | cons x xs ih =>
    by_cases hx : p x = true
    · simp [List.find?, List.filter, hx]
    · have hx2 : p x = false := by simpa using hx
      simp only [List.find?, List.filter, hx2]
      exact ih

theorem functionCount_of_getFunction {s : Llvm} {name : String} {f : LFunction}
    (h : s.getFunction name = some f) (hc : s.functionCount name ≤ 1) :
    s.functionCount name = 1 := by
  have := (find_filter_length (fun f : LFunction => decide (f.name = name)) s.functions).2 f h
  unfold Llvm.functionCount at hc ⊢
  omega

theorem functionCount_append (s : Llvm) (name : String) (l : List LFunction) :
    ({ s with functions := s.functions ++ l } : Llvm).functionCount name =
      s.functionCount name + (l.filter (fun f => f.name = name)).length := by
  simp [Llvm.functionCount, List.filter_append]

theorem functionCount_of_none {s : Llvm} {name : String} (h : s.getFunction name = none) :
    s.functionCount name = 0 :=
  (find_filter_length (fun f : LFunction => decide (f.name = name)) s.functions).1 h

theorem getOrCreateFunction_hit {name : String} (fty : LType) (l : Linkage) {s : Llvm}
    {f : LFunction} (h : s.getFunction name = some f) :
    getOrCreateFunction name fty l s = .ok f s := by
  unfold getOrCreateFunction
  rw [m_bind_apply]
  simp only [getState, h]
  rfl

theorem getOrCreateFunction_miss {name : String} (fty : LType) (l : Linkage) {s : Llvm}
    (h : s.getFunction name = none) :
    getOrCreateFunction name fty l s =
      .ok { name := name, fty := fty, linkage := l }
        { s with functions := s.functions ++ [{ name := name, fty := fty, linkage := l }] } := by
  unfold getOrCreateFunction
  rw [m_bind_apply]
  simp only [getState, h]
  rfl

theorem getFunction_append_new {s : Llvm} {name : String} (h : s.getFunction name = none)
    (f : LFunction) (hf : f.name = name) (l : List LFunction) :
    ({ s with functions := s.functions ++ f :: l } : Llvm).getFunction name = some f := by
  unfold Llvm.getFunction at h ⊢
  simp only [List.find?_append, h, Option.none_or, List.find?, hf, decide_True]

theorem idempotent_getOrCreateFunction (name : String) (fty : LType) (l : Linkage) :
    IdempotentLookup name (getOrCreateFunction name fty l) := by
  intro s
  refine ⟨fun f h => getOrCreateFunction_hit fty l h, ?_⟩
  cases hg : s.getFunction name with
  | some f =>
    exact ⟨f, s, getOrCreateFunction_hit fty l hg, getOrCreateFunction_hit fty l hg, hg,
      functionCount_of_getFunction hg⟩
  | none =>
    have hnew := getFunction_append_new hg { name := name, fty := fty, linkage := l } rfl []
    refine ⟨_, _, getOrCreateFunction_miss fty l hg, getOrCreateFunction_hit fty l hnew, hnew,
      fun _ => ?_⟩
    rw [functionCount_append, functionCount_of_none hg]
    simp
theorem buildThrowException_run (c : Compiler) (b : IRBuilder) (hc hm : String) (ss : Value)
    (s : Llvm) :
    ∃ s1 l, buildThrowException c b hc hm ss s = .ok () s1 ∧
      s1.functions = s.functions ++ l ∧
      (∀ g ∈ l, s.getFunction g.name = none) ∧ l.length ≤ 1 ∧
      s1.function = s.function ∧ s1.sdsuMap = s.sdsuMap ∧ s1.builder = s.builder ∧
      ∃ callI fty endI, s1.emitted = s.emitted ++ [callI] ++ [endI] ∧
        callI.opcode = .Call ∧
        callI.operands = [.function
          (c.GetMangledMethodName (c.GetCompilerHelpersMethodHandle hc hm)) fty, ss] ∧
        endI.opcode = .Unreachable := by
  unfold buildThrowException
  simp only []
  rw [m_bind_apply]
  simp only [getState]
  cases hg : s.getFunction (c.GetMangledMethodName (c.GetCompilerHelpersMethodHandle hc hm)) with
  | some g =>
    have hname : g.name = c.GetMangledMethodName (c.GetCompilerHelpersMethodHandle hc hm) := by
      unfold Llvm.getFunction at hg
      have := List.find?_some hg
      simpa using this
    simp only [m_bind_apply, m_pure_apply, createWith]
    exact ⟨_, [], rfl, by simp [Llvm.insert], by simp, by simp, rfl, rfl, rfl,
      _, g.fty, _, rfl, rfl, by rw [← hname]; rfl, rfl⟩
  | none =>
    simp only [m_bind_apply, m_pure_apply, createWith, createFunction, AddCodeReloc, modifyState]
    exact ⟨_, [_], rfl, rfl, by simpa using hg, by simp, rfl, rfl, rfl,
      _, _, _, rfl, rfl, rfl, rfl⟩

theorem getOrCreateThrowIfNullFunction_hit (c : Compiler) {s : Llvm} {f : LFunction}
    (h : s.getFunction "nativeaot.throwifnull" = some f) :
    getOrCreateThrowIfNullFunction c s = .ok f s := by
  unfold getOrCreateThrowIfNullFunction
  simp only []
  rw [m_bind_apply]
  simp only [getState, h]
  rfl

theorem getOrCreateThrowIfNullFunction_miss (c : Compiler) {s : Llvm}
    (h : s.getFunction "nativeaot.throwifnull" = none) :
    ∃ s1 l, getOrCreateThrowIfNullFunction c s =
        .ok { name := "nativeaot.throwifnull", fty := .func .void [getInt8PtrTy, getInt8PtrTy],
              linkage := .InternalLinkage } s1 ∧
      s1.functions = s.functions ++
        { name := "nativeaot.throwifnull", fty := .func .void [getInt8PtrTy, getInt8PtrTy],
          linkage := .InternalLinkage } :: l ∧
      (∀ g ∈ l, g.name ≠ "nativeaot.throwifnull") ∧
      s1.function = s.function ∧ s1.sdsuMap = s.sdsuMap ∧ s1.builder = s.builder ∧
      ∃ e, s1.emitted = s.emitted ++ e ∧
        ∀ i ∈ e, i.opcode ≠ .Load ∧ i.opcode ≠ .Store ∧ i.opcode ≠ .MemSet ∧
          i.opcode ≠ .MemCpy ∧
          (i.opcode = .Call → ∃ fty a, i.operands = [.function
            (c.GetMangledMethodName
              (c.GetCompilerHelpersMethodHandle "ThrowHelpers" "ThrowNullReferenceException"))
            fty, a]) := by
  unfold getOrCreateThrowIfNullFunction
  simp only []
  rw [m_bind_apply]
  simp only [getState, h, m_bind_apply, createFunction, createBasicBlock, deref, LFunction.getArg,
    List.getElem?_cons_succ, List.getElem?_cons_zero, Option.map_some', m_pure_apply, createWith]
  generalize hst : Llvm.insert (Llvm.insert _ _ _) _ _ = st
  have hfs : st.functions = s.functions ++
      [{ name := "nativeaot.throwifnull", fty := .func .void [getInt8PtrTy, getInt8PtrTy],
         linkage := .InternalLinkage }] := by
    rw [← hst]
    rfl
  have hframe : st.function = s.function ∧ st.sdsuMap = s.sdsuMap ∧ st.builder = s.builder ∧
      ∃ i1 i2, st.emitted = s.emitted ++ [i1] ++ [i2] ∧ (∃ p, i1.opcode = .Cmp p) ∧
        i2.opcode = .CondBr := by
    rw [← hst]
    exact ⟨rfl, rfl, rfl, _, _, rfl, ⟨_, rfl⟩, rfl⟩
  obtain ⟨hf1, hf2, hf3, i1, i2, hf4, ⟨pr, hi1⟩, hi2⟩ := hframe
  obtain ⟨s2, l, hrun, hfn, hnew, _, hg1, hg2, hg3, callI, fty, endI, hg4, hc1, hc2, hc3⟩ :=
    buildThrowException_run c
      { block := some (s.nextBlockId + 1) } "ThrowHelpers" "ThrowNullReferenceException"
      (.argument 0 getInt8PtrTy) st
  rw [hrun]
  refine ⟨_, l, rfl, ?_, fun g hg hname => ?_, ?_, ?_, ?_, ?_⟩
  · show s2.functions = _
    rw [hfn, hfs]
    simp
  · have h1 := hnew g hg
    have h2 : st.getFunction "nativeaot.throwifnull" = some _ :=
      (congrArg (fun fs => List.find? (fun f : LFunction => decide (f.name = "nativeaot.throwifnull")) fs) hfs).trans
        (getFunction_append_new h _ rfl [])
    rw [hname, h2] at h1
    cases h1
  · show s2.function = _
    rw [hg1, hf1]
  · show s2.sdsuMap = _
    rw [hg2, hf2]
  · show s2.builder = _
    rw [hg3, hf3]
  · refine ⟨[i1, i2, callI, endI,
        s2.newInst { block := some (s.nextBlockId + 1 + 1) } { opcode := .RetVoid, ty := .void }],
      ?_, ?_⟩
    · show s2.emitted ++ _ = _
      rw [hg4, hf4]
      simp
    · intro i hi
      simp only [List.mem_cons, List.mem_singleton, List.not_mem_nil, or_false] at hi
      rcases hi with rfl | rfl | rfl | rfl | rfl
      · simp [hi1]
      · simp [hi2]
      · simp only [hc1, ne_eq, not_false_eq_true, true_and, reduceCtorEq]
        exact fun _ => ⟨fty, _, hc2⟩
      · simp [hc3]
      · simp [Llvm.newInst]

theorem idempotent_getOrCreateThrowIfNullFunction (c : Compiler) :
    IdempotentLookup "nativeaot.throwifnull" (getOrCreateThrowIfNullFunction c) := by
  intro s
  refine ⟨fun f h => getOrCreateThrowIfNullFunction_hit c h, ?_⟩
  cases hg : s.getFunction "nativeaot.throwifnull" with
  | some f =>
    exact ⟨f, s, getOrCreateThrowIfNullFunction_hit c hg, getOrCreateThrowIfNullFunction_hit c hg,
      hg, functionCount_of_getFunction hg⟩
  | none =>
    obtain ⟨s1, l, hrun, hfs, hl, _⟩ := getOrCreateThrowIfNullFunction_miss c hg
    have hnew : s1.getFunction "nativeaot.throwifnull" = some _ :=
      (congrArg (fun fs => List.find?
          (fun f : LFunction => decide (f.name = "nativeaot.throwifnull")) fs) hfs).trans
        (getFunction_append_new hg _ rfl l)
    refine ⟨_, s1, hrun, getOrCreateThrowIfNullFunction_hit c hnew, hnew, fun _ => ?_⟩
    have hz := functionCount_of_none hg
    unfold Llvm.functionCount at hz ⊢
    rw [hfs, List.filter_append, List.length_append, hz]
    have hl0 : (l.filter (fun f => decide (f.name = "nativeaot.throwifnull"))) = [] := by
      rw [List.filter_eq_nil_iff]
      intro g hgl
      simpa using hl g hgl
    simp [List.filter, hl0]

theorem idempotent_getOrCreateExternalSymbol (symbolName : String) (ty : Option LType) :
    IdempotentSymbolLookup symbolName (getOrCreateExternalSymbol symbolName ty) := by
  have hit : ∀ (s : Llvm) (g : LGlobal), s.getGlobalVariable symbolName = some g →
      getOrCreateExternalSymbol symbolName ty s = .ok (.globalVariable g.name g.valueTy) s := by
    intro s g h
    unfold getOrCreateExternalSymbol
    rw [m_bind_apply]
    simp only [getState, h]
    rfl
  intro s
  refine ⟨hit s, ?_⟩
  cases hg : s.getGlobalVariable symbolName with
  | some g =>
    refine ⟨_, s, hit s g hg, hit s g hg, ⟨g, hg, rfl⟩, fun hc => ?_⟩
    have := (find_filter_length (fun g : LGlobal => decide (g.name = symbolName)) s.globals).2 g hg
    unfold Llvm.globalCount at hc ⊢
    omega
  | none =>
    have hrun : getOrCreateExternalSymbol symbolName ty s =
        .ok (.globalVariable symbolName (ty.getD getInt32PtrTy))
          { s with globals := s.globals ++
              [{ name := symbolName, valueTy := ty.getD getInt32PtrTy }] } := by
      unfold getOrCreateExternalSymbol
      rw [m_bind_apply]
      simp only [getState, hg]
      rfl
    have hnew : ({ s with globals := s.globals ++
        [{ name := symbolName, valueTy := ty.getD getInt32PtrTy }] } : Llvm).getGlobalVariable
          symbolName = some { name := symbolName, valueTy := ty.getD getInt32PtrTy } := by
      unfold Llvm.getGlobalVariable at hg ⊢
      simp only [List.find?_append, hg, Option.none_or, List.find?, decide_True]
    refine ⟨_, _, hrun, hit _ _ hnew, ⟨_, hnew, rfl⟩, fun _ => ?_⟩
    have hz := (find_filter_length (fun g : LGlobal => decide (g.name = symbolName)) s.globals).1 hg
    unfold Llvm.globalCount
    simp only [List.filter_append, List.length_append, hz]
    simp [List.filter]

/-- C16: each declaration lookup is idempotent.  A declaration the module already holds under
the looked-up name is returned and nothing is added; the lookup always returns, a second
lookup of the name returns the same declaration in the same state, and a module that held at
most one declaration under the name holds exactly one afterwards. -/
theorem declaration_lookup_idempotent (c : Compiler) :
    (∀ symbolName call,
      IdempotentLookup symbolName (getOrCreateLlvmFunction c symbolName call)) ∧
    (∀ symbolName symbolType,
      IdempotentSymbolLookup symbolName (getOrCreateExternalSymbol symbolName symbolType)) ∧
    IdempotentLookup "RhpAssignRef" getOrCreateRhpAssignRef ∧
    IdempotentLookup "RhpCheckedAssignRef" getOrCreateRhpCheckedAssignRef ∧
    IdempotentLookup "nativeaot.throwifnull" (getOrCreateThrowIfNullFunction c) :=
  ⟨fun symbolName call =>
      idempotent_getOrCreateFunction symbolName (createFunctionTypeForCall c call)
        .ExternalLinkage,
    fun symbolName symbolType => idempotent_getOrCreateExternalSymbol symbolName symbolType,
    idempotent_getOrCreateFunction _ _ _,
    idempotent_getOrCreateFunction _ _ _,
    idempotent_getOrCreateThrowIfNullFunction c⟩

/-! ## Arguments of user calls -/

theorem getCast_trunc {v : Value} {n m : Nat} (hv : v.getType = .int n) (hlt : m < n)
    (s : Llvm) :
    getCast v (.int m) s =
      .ok (some { opcode := .Trunc, ty := .int m, operands := [v], name := "TruncInt" }) s := by
  unfold getCast
  have hne : v.getType ≠ .int m := by
    rw [hv]
    intro h
    injection h with h
    omega
  rw [if_neg hne]
  simp only [LType.isPointerTy, LType.isIntegerTy, hv, LType.getPrimitiveSizeInBits,
    Bool.false_eq_true, if_false, if_true, gt_iff_lt, hlt]
  rfl

theorem getCast_widen {v : Value} {n m : Nat} (hv : v.getType = .int n) (hlt : n < m)
    (s : Llvm) :
    getCast v (.int m) s = .failed .unsupportedShape s.deleteBody := by
  unfold getCast
  have hne : v.getType ≠ .int m := by
    rw [hv]
    intro h
    injection h with h
    omega
  rw [if_neg hne]
  have hnlt : ¬ m < n := by omega
  simp only [LType.isPointerTy, LType.isIntegerTy, hv, LType.getPrimitiveSizeInBits,
    Bool.false_eq_true, if_false, if_true, gt_iff_lt, hnlt]
  rfl

theorem getCast_bitcast {v : Value} {a b : LType} (hv : v.getType = .ptr a) (hne : a ≠ b)
    (s : Llvm) :
    getCast v (.ptr b) s =
      .ok (some { opcode := .BitCast, ty := .ptr b, operands := [v], name := "CastPtrToPtr" })
        s := by
  unfold getCast
  have hne2 : v.getType ≠ .ptr b := by
    rw [hv]
    intro h
    injection h with h
    exact hne h
  rw [if_neg hne2]
  simp only [LType.isPointerTy, hv, if_true]
  rfl

/-- The run of `fillPhiArg` when the operand needs the cast `castInst`: the cast is created
before the terminator of the predecessor's target block and its result is wired as the
incoming value for that block. -/
theorem fillPhiArg_cast (c : Compiler) (s : Llvm) (phiId : Nat) (T : LType)
    (use : UseData × GenTree) (v : Value) (castInst : Instruction) (predBlock b0 : Nat)
    (blk : LBasicBlock) (term : Instruction)
    (hv : tableLookup s.localsMap (use.2.d.lclNum, use.2.d.ssaNum) = some v)
    (hcast : ∀ s2 : Llvm, getCast v T s2 = .ok (some castInst) s2)
    (hty : castInst.ty = T)
    (hpred : tableLookup s.blkToLlvmBlkVectorMap use.2.d.gtPredBB = some predBlock)
    (hblk : s.getBlock predBlock = some blk) (hterm : blk.getTerminator = some term)
    (hb : s.builder.block = some b0) :
    ∃ s1, fillPhiArg c (.inst phiId T) use s = .ok () s1 ∧
      s1.emitted = s.emitted ++
        [{ castInst with id := s.nextValueId, dbg := term.dbg }] ∧
      s1.phiIncoming = s.phiIncoming ++ [(phiId, .inst s.nextValueId T, predBlock)] ∧
      s1.blocks = insertAt { block := some predBlock, before := some term.id }
        { castInst with id := s.nextValueId, dbg := term.dbg } s.blocks ∧
      s1.builder.block = s.builder.block ∧ s1.builder.before = s.builder.before := by
  have hget : ∀ s2 : Llvm, s2.blkToLlvmBlkVectorMap = s.blkToLlvmBlkVectorMap →
      getLLVMBasicBlockForBlock c (some use.2.d.gtPredBB) s2 = .ok predBlock s2 := by
    intro s2 h2
    simp only [getLLVMBasicBlockForBlock, m_bind_apply, getState, deref, m_pure_apply, h2, hpred]
  have hcast2 : getCast v (Value.inst phiId T).getType s = .ok (some castInst) s := hcast s
  have hval : ∃ sV, fillPhiArgValue c (.inst phiId T) use.2 s =
        .ok (.inst s.nextValueId castInst.ty) sV ∧
      sV.blkToLlvmBlkVectorMap = s.blkToLlvmBlkVectorMap ∧
      sV.emitted = s.emitted ++ [{ castInst with id := s.nextValueId, dbg := term.dbg }] ∧
      sV.phiIncoming = s.phiIncoming ∧
      sV.blocks = insertAt { block := some predBlock, before := some term.id }
        { castInst with id := s.nextValueId, dbg := term.dbg } s.blocks ∧
      sV.builder.block = s.builder.block ∧ sV.builder.before = s.builder.before := by
    unfold fillPhiArgValue
    simp only [m_bind_apply, getState, tableGet, hv, deref, m_pure_apply, hcast2, hget s rfl,
      hblk, hterm, builderSetInsertPointBefore, modifyState, create_apply,
      builderRestoreInsertPoint, hb]
    exact ⟨_, rfl, rfl, rfl, rfl, rfl, rfl, rfl⟩
  obtain ⟨sV, hV, hmap, hem, hphi, hblocks, hbb, hbf⟩ := hval
  unfold fillPhiArg
  rw [m_bind_ok hV, m_bind_ok (hget sV hmap)]
  exact ⟨_, rfl, hem, by show sV.phiIncoming ++ _ = _; rw [hphi, hty], hblocks, hbb, hbf⟩

/-- Counterexample to C20 as stated: the operand of the pending `i32` phi is materialised as
an 8-bit integer, narrower than the phi, and phi resolution fails with the unsupported-shape
failure instead of inserting a widening conversion. -/
theorem phi_operand_conversion_counterexample :
    fillPhis sampleCompiler (samplePhiState (.argument 1 (.int 8)))
      = .failed .unsupportedShape (samplePhiState (.argument 1 (.int 8))).deleteBody := by
  decide!

/-- C20 as the code has it.  For a phi operand whose materialised value is an integer wider
than the phi's type, or a pointer of a different pointer type, and whose predecessor's
target block ends in a terminator, `fillPhiArg` returns, creates exactly one conversion (a
truncation, a pointer cast) of the value to the phi's type, placed before that terminator,
and wires its result, of exactly the phi's type, as the incoming value for that block.  For
an operand that is an integer narrower than the phi's type it is the unsupported-shape
failure. -/
theorem phi_operand_conversion (c : Compiler) (s : Llvm) (phiId : Nat)
    (use : UseData × GenTree) (v : Value)
    (hv : tableLookup s.localsMap (use.2.d.lclNum, use.2.d.ssaNum) = some v) :
    (∀ n m, v.getType = .int n → n < m →
      fillPhiArg c (.inst phiId (.int m)) use s = .failed .unsupportedShape s.deleteBody) ∧
    (∀ T op,
      ((∃ n m, v.getType = .int n ∧ T = .int m ∧ m < n ∧ op = Opcode.Trunc) ∨
       (∃ a b, v.getType = .ptr a ∧ T = .ptr b ∧ a ≠ b ∧ op = Opcode.BitCast)) →
      ∀ predBlock b0 blk term,
        tableLookup s.blkToLlvmBlkVectorMap use.2.d.gtPredBB = some predBlock →
        s.getBlock predBlock = some blk → blk.getTerminator = some term →
        s.builder.block = some b0 →
        ∃ s1 castInst, fillPhiArg c (.inst phiId T) use s = .ok () s1 ∧
          s1.emitted = s.emitted ++ [castInst] ∧
          castInst.id = s.nextValueId ∧ castInst.opcode = op ∧ castInst.ty = T ∧
          castInst.operands = [v] ∧
          s1.phiIncoming = s.phiIncoming ++ [(phiId, .inst castInst.id T, predBlock)] ∧
          (Value.inst castInst.id T).getType = T ∧
          s1.blocks = insertAt { block := some predBlock, before := some term.id } castInst
            s.blocks) := by
  constructor
  · intro n m hn hlt
    unfold fillPhiArg fillPhiArgValue
    have hc : getCast v (Value.inst phiId (.int m)).getType s =
        .failed .unsupportedShape s.deleteBody := getCast_widen hn hlt s
    simp only [m_bind_apply, getState, tableGet, hv, deref, m_pure_apply, hc]
  · intro T op hcase predBlock b0 blk term hpred hblk hterm hb
    rcases hcase with ⟨n, m, hn, rfl, hlt, rfl⟩ | ⟨a, b, ha, rfl, hne, rfl⟩
    · obtain ⟨s1, h1, h2, h3, h4, _⟩ := fillPhiArg_cast c s phiId (.int m) use v
        { opcode := .Trunc, ty := .int m, operands := [v], name := "TruncInt" }
        predBlock b0 blk term hv (fun s2 => getCast_trunc hn hlt s2) rfl hpred hblk hterm hb
      exact ⟨s1, _, h1, h2, rfl, rfl, rfl, rfl, h3, rfl, h4⟩
    · obtain ⟨s1, h1, h2, h3, h4, _⟩ := fillPhiArg_cast c s phiId (.ptr b) use v
        { opcode := .BitCast, ty := .ptr b, operands := [v], name := "CastPtrToPtr" }
        predBlock b0 blk term hv (fun s2 => getCast_bitcast ha hne s2) rfl hpred hblk hterm hb
      exact ⟨s1, _, h1, h2, rfl, rfl, rfl, rfl, h3, rfl, h4⟩

/-- Witness of the amended C20: the operand of the pending `i32` phi is materialised as a
64-bit integer and is truncated before the branch that ends the predecessor's block. -/
theorem phi_operand_conversion_witness :
    tableLookup (samplePhiState (.argument 1 (.int 64))).localsMap (0, 1)
      = some (.argument 1 (.int 64)) ∧
    ∃ s1 castInst,
      fillPhiArg sampleCompiler (.inst 5 (.int 32))
          ({}, .leaf { id := 21, gtOper := .GT_PHI_ARG, lclNum := 0, ssaNum := 1, gtPredBB := 1 })
          (samplePhiState (.argument 1 (.int 64))) = .ok () s1 ∧
      s1.emitted = (samplePhiState (.argument 1 (.int 64))).emitted ++ [castInst] ∧
      castInst.id = (samplePhiState (.argument 1 (.int 64))).nextValueId ∧
      castInst.opcode = .Trunc ∧ castInst.ty = .int 32 ∧
      castInst.operands = [.argument 1 (.int 64)] ∧
      s1.phiIncoming = (samplePhiState (.argument 1 (.int 64))).phiIncoming ++
        [(5, .inst castInst.id (.int 32), 10)] ∧
      (Value.inst castInst.id (.int 32)).getType = .int 32 ∧
      s1.blocks = insertAt { block := some 10, before := some 6 } castInst
        (samplePhiState (.argument 1 (.int 64))).blocks :=
  ⟨by decide,
    (phi_operand_conversion sampleCompiler (samplePhiState (.argument 1 (.int 64))) 5
      ({}, .leaf { id := 21, gtOper := .GT_PHI_ARG, lclNum := 0, ssaNum := 1, gtPredBB := 1 })
      (.argument 1 (.int 64)) (by decide)).2 (.int 32) .Trunc
      (Or.inl ⟨64, 32, rfl, rfl, by decide, rfl⟩) 10 11
      { id := 10, name := "BB01", parent := "Sample__Method",
        insts := [{ id := 6, opcode := .Br, ty := .void, targets := [11] }] }
      { id := 6, opcode := .Br, ty := .void, targets := [11] }
      (by decide) (by decide) (by decide) (by decide)⟩

/-! ## Field writes of a struct store -/

theorem fieldWrite_of_not_access {i : Instruction} (h : i.isAccess = false) :
    i.fieldWrite = none := by
  unfold Instruction.isAccess at h
  simp only [Bool.or_eq_false_iff] at h
  obtain ⟨⟨⟨⟨⟨_, hst⟩, _⟩, _⟩, _⟩, hcb⟩ := h
  unfold Instruction.fieldWrite
  rw [if_neg (by rw [hcb]; simp), if_neg (by simpa using hst)]

theorem isAccess_of_conversion {i : Instruction} (h : i.opcode.isConversion = true) :
    i.isAccess = false := by
  unfold Instruction.isAccess Instruction.isCallTo
  cases hop : i.opcode <;> simp [hop, Opcode.isConversion] at h ⊢

theorem isAccess_of_opcode {i : Instruction} (h1 : i.opcode ≠ .Load) (h2 : i.opcode ≠ .Store)
    (h3 : i.opcode ≠ .MemSet) (h4 : i.opcode ≠ .MemCpy) (h5 : i.opcode ≠ .Call) :
    i.isAccess = false := by
  unfold Instruction.isAccess Instruction.isCallTo
  simp [h1, h2, h3, h4, h5]

theorem writes_of_emits {α : Type} {m : M α}
    (h : Emits (fun i => i.fieldWrite = none) m) : Writes [] m := by
  constructor
  intro s a s1 hrun
  obtain ⟨l, hl, hP⟩ := h.run s a s1 hrun
  refine ⟨l, hl, ?_⟩
  rw [List.filterMap_eq_nil_iff]
  exact hP

theorem writes_pure {α : Type} (a : α) : Writes [] (pure a : M α) :=
  writes_of_emits (emits_pure a)

theorem writes_bind {α β : Type} {w1 w2 : List FieldWrite} {m : M α} {f : α → M β}
    (hm : Writes w1 m) (hf : ∀ a, Writes w2 (f a)) : Writes (w1 ++ w2) (m >>= f) := by
  constructor
  intro s b s2 h
  obtain ⟨a, s1, h1, h2⟩ := m_bind_inv h
  obtain ⟨l1, e1, p1⟩ := hm.run s a s1 h1
  obtain ⟨l2, e2, p2⟩ := (hf a).run s1 b s2 h2
  exact ⟨l1 ++ l2, by rw [e2, e1, List.append_assoc], by rw [List.filterMap_append, p1, p2]⟩

theorem writes_bind_silent {α β : Type} {w : List FieldWrite} {m : M α} {f : α → M β}
    (hm : Writes [] m) (hf : ∀ a, Writes w (f a)) : Writes w (m >>= f) :=
  writes_bind hm hf

theorem writes_bind_last {α β : Type} {w : List FieldWrite} {m : M α} {f : α → M β}
    (hm : Writes w m) (hf : ∀ a, Writes [] (f a)) : Writes w (m >>= f) := by
  have := writes_bind hm hf
  rwa [List.append_nil] at this

theorem writes_bind_ret {α β : Type} {w : List FieldWrite} {Q : α → Prop} {m : M α}
    {f : α → M β} (hm : Writes [] m) (hq : Returns Q m) (hf : ∀ a, Q a → Writes w (f a)) :
    Writes w (m >>= f) := by
  constructor
  intro s b s2 h
  obtain ⟨a, s1, h1, h2⟩ := m_bind_inv h
  obtain ⟨l1, e1, p1⟩ := hm.run s a s1 h1
  obtain ⟨l2, e2, p2⟩ := (hf a (hq.run s a s1 h1)).run s1 b s2 h2
  exact ⟨l1 ++ l2, by rw [e2, e1, List.append_assoc], by rw [List.filterMap_append, p1, p2]; rfl⟩

theorem writes_castIfNecessary (v : Value) (T : LType) : Writes [] (castIfNecessary v T) :=
  writes_of_emits (emits_mono
    (fun _ h => fieldWrite_of_not_access (isAccess_of_conversion h)) (emits_castIfNecessary v T))

theorem writes_consumeValue (c : Compiler) (node : GenTree) (T : Option LType) :
    Writes [] (consumeValue c node T) :=
  writes_of_emits (emits_mono
    (fun _ h => fieldWrite_of_not_access (isAccess_of_conversion h)) (emits_consumeValue c node T))

theorem writes_gepOrAddr (addr : Value) (offset : Nat) : Writes [] (gepOrAddr addr offset) :=
  writes_of_emits (emits_mono
    (fun i (h : i.opcode = .GEP) => fieldWrite_of_not_access
      (isAccess_of_opcode (by rw [h]; simp) (by rw [h]; simp) (by rw [h]; simp)
        (by rw [h]; simp) (by rw [h]; simp)))
    (emits_gepOrAddr addr offset))

theorem fieldWrite_memcpy {i : Instruction} (h : i.opcode = .MemCpy) : i.fieldWrite = none := by
  unfold Instruction.fieldWrite Instruction.isCallTo
  simp [h]

theorem fieldWrite_gep {i : Instruction} (h : i.opcode = .GEP) : i.fieldWrite = none := by
  unfold Instruction.fieldWrite Instruction.isCallTo
  simp [h]

theorem writes_buildMemCpy (base : Value) (a b : Nat) (src : Value) :
    Writes [] (buildMemCpy base a b src) := by
  apply writes_of_emits
  unfold buildMemCpy
  refine emits_bind (emits_mono (fun i h => fieldWrite_gep h) (emits_gepOrAddr _ _)) (fun _ => ?_)
  dsimp only
  exact emits_bind (emits_create (fun _ _ => fieldWrite_memcpy rfl)) (fun _ => emits_pure _)

theorem writes_createStore (v p : Value) : Writes [.plainStore] (createStore v p) := by
  constructor
  intro s a s1 h
  obtain ⟨_, e⟩ := create_inv h
  refine ⟨[_], by rw [e]; rfl, ?_⟩
  simp [Llvm.newInst, Instruction.fieldWrite, Instruction.isCallTo]

theorem writes_createCallTo_checked {f : LFunction} (hf : f.name = "RhpCheckedAssignRef")
    (args : List Value) : Writes [.checkedBarrier] (createCallTo f args) := by
  constructor
  intro s a s1 h
  obtain ⟨_, e⟩ := createCallTo_inv h
  refine ⟨[_], by rw [e]; rfl, ?_⟩
  simp [Llvm.newInst, Instruction.fieldWrite, Instruction.isCallTo, hf]

theorem returns_getOrCreateRhpCheckedAssignRef :
    Returns (fun f : LFunction => f.name = "RhpCheckedAssignRef")
      getOrCreateRhpCheckedAssignRef :=
  ⟨fun _ _ _ h => (getOrCreateFunction_inv h).2.2.1⟩

theorem writes_getOrCreateRhpCheckedAssignRef : Writes [] getOrCreateRhpCheckedAssignRef :=
  writes_of_emits (emits_getOrCreateFunction _ _ _)

theorem writes_jitAssert (c : Compiler) (b : Bool) : Writes [] (jitAssert c b) :=
  writes_of_emits (emits_jitAssert c b)

theorem returns_create (i : Instruction) :
    Returns (fun v : Value => v.getType = i.ty) (create i) :=
  ⟨fun _ _ _ h => by rw [(create_inv h).1]; rfl⟩

theorem returns_pure {α : Type} (a : α) : Returns (fun x : α => x = a) (pure a : M α) :=
  ⟨fun _ _ _ h => (m_pure_inv h).1⟩

theorem fieldWrite_extract {i : Instruction} {k : Nat} (h : i.opcode = .ExtractValue k) :
    i.fieldWrite = none := by
  unfold Instruction.fieldWrite Instruction.isCallTo
  simp [h]

/-- The field writes of one iteration of the loop of `storeObjAtAddress`: those of the
recursive call for a field whose value is a target struct, otherwise one write, through the
checked barrier for a garbage-collected pointer and a plain store for any other field. -/
theorem writes_storeObjField (c : Compiler) (baseAddress data : Value) (p : Bool)
    (fd : FieldDesc) (recurse : Value → Value → M Unit) (wsub : List FieldWrite)
    (hrec : ∀ a v, v.getType = fieldValueType c data.getType fd → Writes wsub (recurse a v))
    (n : Nat) :
    Writes (if (fieldValueType c data.getType fd).isStructTy then wsub else [fd.expectedWrite])
      (storeObjField c baseAddress data p fd recurse n) := by
  have tail : ∀ (address fieldData : Value) (bytes : Nat),
      fieldData.getType = fieldValueType c data.getType fd →
      Writes (if (fieldValueType c data.getType fd).isStructTy then wsub
              else [fd.expectedWrite])
        (if fieldData.getType.isStructTy = true then do
            jitAssert c fd.classHandle.isSome
            recurse address fieldData
            pure (bytes + fieldData.getType.getPrimitiveSizeInBits / 8)
          else
            if fd.isGcPointer = true then do
              let f ← getOrCreateRhpCheckedAssignRef
              let fieldPtr ← castIfNecessary fieldData getInt8PtrTy
              let _ ← createCallTo f [address, fieldPtr]
              pure (bytes + c.TARGET_POINTER_SIZE)
            else do
              let typedAddress ← castIfNecessary address fieldData.getType.getPointerTo
              let _ ← createStore fieldData typedAddress
              pure (bytes + fieldData.getType.getPrimitiveSizeInBits / 8)) := by
    intro address fieldData bytes hty
    rw [← hty]
    by_cases hs : fieldData.getType.isStructTy = true
    · rw [if_pos hs, if_pos hs]
      exact writes_bind_silent (writes_jitAssert _ _)
        (fun _ => writes_bind_last (hrec address fieldData hty) (fun _ => writes_pure _))
    · rw [if_neg hs, if_neg hs]
      unfold FieldDesc.expectedWrite
      by_cases hg : fd.isGcPointer = true
      · rw [if_pos hg, if_pos hg]
        exact writes_bind_ret writes_getOrCreateRhpCheckedAssignRef
          returns_getOrCreateRhpCheckedAssignRef
          (fun f hf => writes_bind_silent (writes_castIfNecessary _ _)
            (fun _ => writes_bind_last (writes_createCallTo_checked hf _)
              (fun _ => writes_pure _)))
      · rw [if_neg hg, if_neg hg]
        exact writes_bind_silent (writes_castIfNecessary _ _)
          (fun _ => writes_bind_last (writes_createStore _ _) (fun _ => writes_pure _))
  have mid : ∀ (address : Value) (bytes : Nat),
      Writes (if (fieldValueType c data.getType fd).isStructTy then wsub
              else [fd.expectedWrite])
        (if data.getType.isStructTy = true then
          create
              { opcode := .ExtractValue (c.getElementContainingOffset data.getType fd.fieldOffset),
                ty := c.getStructElementType data.getType
                  (c.getElementContainingOffset data.getType fd.fieldOffset),
                operands := [data] } >>= fun fieldData =>
            if fieldData.getType.isStructTy = true then do
              jitAssert c fd.classHandle.isSome
              recurse address fieldData
              pure (bytes + fieldData.getType.getPrimitiveSizeInBits / 8)
            else
              if fd.isGcPointer = true then do
                let f ← getOrCreateRhpCheckedAssignRef
                let fieldPtr ← castIfNecessary fieldData getInt8PtrTy
                let _ ← createCallTo f [address, fieldPtr]
                pure (bytes + c.TARGET_POINTER_SIZE)
              else do
                let typedAddress ← castIfNecessary address fieldData.getType.getPointerTo
                let _ ← createStore fieldData typedAddress
                pure (bytes + fieldData.getType.getPrimitiveSizeInBits / 8)
        else
          (pure data : M Value) >>= fun fieldData =>
            if fieldData.getType.isStructTy = true then do
              jitAssert c fd.classHandle.isSome
              recurse address fieldData
              pure (bytes + fieldData.getType.getPrimitiveSizeInBits / 8)
            else
              if fd.isGcPointer = true then do
                let f ← getOrCreateRhpCheckedAssignRef
                let fieldPtr ← castIfNecessary fieldData getInt8PtrTy
                let _ ← createCallTo f [address, fieldPtr]
                pure (bytes + c.TARGET_POINTER_SIZE)
              else do
                let typedAddress ← castIfNecessary address fieldData.getType.getPointerTo
                let _ ← createStore fieldData typedAddress
                pure (bytes + fieldData.getType.getPrimitiveSizeInBits / 8)) := by
    intro address bytes
    by_cases hd : data.getType.isStructTy = true
    · rw [if_pos hd]
      refine writes_bind_ret
        (writes_of_emits (emits_create (fun _ _ => fieldWrite_extract rfl)))
        (returns_create _) (fun fieldData hfd => tail address fieldData bytes ?_)
      rw [hfd]
      unfold fieldValueType
      rw [if_pos hd]
    · rw [if_neg hd]
      refine writes_bind_ret (writes_pure _) (returns_pure _)
        (fun fieldData hfd => tail address fieldData bytes ?_)
      rw [hfd]
      unfold fieldValueType
      rw [if_neg hd]
  unfold storeObjField
  dsimp only
  refine writes_bind_silent (writes_gepOrAddr _ _) (fun address => ?_)
  by_cases hp : p = true ∧ fd.fieldOffset > n
  · rw [if_pos hp]
    refine writes_bind_silent (writes_buildMemCpy _ _ _ _) (fun copied => ?_)
    exact writes_bind_silent (writes_pure _) (fun y => mid address y)
  · rw [if_neg hp]
    exact writes_bind_silent (writes_pure _) (fun y => mid address y)

theorem writes_storeObjTail (baseAddress data : Value) (p : Bool) (n : Nat) :
    Writes [] (storeObjTail baseAddress data p n) := by
  unfold storeObjTail
  dsimp only
  split
  · exact writes_bind_silent (writes_of_emits (emits_create (fun _ _ => fieldWrite_gep rfl)))
      (fun _ => writes_bind_silent (writes_buildMemCpy _ _ _ _) (fun _ => writes_pure _))
  · exact writes_pure _

theorem writes_unreached {α : Type} (w : List FieldWrite) : Writes w (unreached : M α) :=
  ⟨fun _ _ _ h => by cases h⟩

theorem map_expectedWrite_ite (b : Bool) (l : List FieldDesc) (fd : FieldDesc) :
    (if b = true then l else [fd]).map FieldDesc.expectedWrite =
      if b = true then l.map FieldDesc.expectedWrite else [fd.expectedWrite] := by
  cases b <;> rfl

mutual
/-- The field writes of `storeObjAtAddress` are one write per leaf field of the layout, in
layout order: through the checked barrier for a garbage-collected pointer field, a plain
store for any other field. -/
theorem writes_storeObjAtAddress (c : Compiler) :
    ∀ (sd : StructDesc) (baseAddress data : Value),
      Writes ((leafFields c data.getType sd).map FieldDesc.expectedWrite)
        (storeObjAtAddress c baseAddress data sd)
  | .mk fields p, baseAddress, data => by
    rw [storeObjAtAddress, leafFields]
    exact writes_bind_last (writes_storeObjFields c p fields baseAddress data 0)
      (fun _ => writes_storeObjTail _ _ _ _)
theorem writes_storeObjFields (c : Compiler) (p : Bool) :
    ∀ (fields : List (FieldDesc × Option StructDesc)) (baseAddress data : Value) (n : Nat),
      Writes ((leafFieldsOf c data.getType fields).map FieldDesc.expectedWrite)
        (storeObjFields c baseAddress data p fields n)
  | [], _, _, n => by
    rw [storeObjFields, leafFieldsOf]
    exact writes_pure n
  | (fd, none) :: rest, baseAddress, data, n => by
    rw [storeObjFields, leafFieldsOf, List.map_append, map_expectedWrite_ite]
    exact writes_bind
      (writes_storeObjField c baseAddress data p fd _ _ (fun _ _ _ => writes_unreached _) n)
      (fun n1 => writes_storeObjFields c p rest baseAddress data n1)
  | (fd, some sd) :: rest, baseAddress, data, n => by
    rw [storeObjFields, leafFieldsOf, List.map_append, map_expectedWrite_ite]
    exact writes_bind
      (writes_storeObjField c baseAddress data p fd _ _
        (fun a v hv => by
          rw [← hv]
          exact writes_storeObjAtAddress c sd a v) n)
      (fun n1 => writes_storeObjFields c p rest baseAddress data n1)
end

/-! ## The null check of an indirection -/

theorem isAccess_of_call {i : Instruction} {n : String} {fty : LType} {args : List Value}
    (hop : i.opcode = .Call) (hops : i.operands = .function n fty :: args)
    (h1 : n ≠ "RhpAssignRef") (h2 : n ≠ "RhpCheckedAssignRef") : i.isAccess = false := by
  unfold Instruction.isAccess Instruction.isCallTo
  simp [hop, hops, h1, h2]

theorem getOrCreateThrowIfNullFunction_inv {c : Compiler} (hname : ThrowHelperIsNoBarrier c)
    {s s1 : Llvm} {f : LFunction} (h : getOrCreateThrowIfNullFunction c s = .ok f s1) :
    f.name = "nativeaot.throwifnull" ∧ s1.function = s.function ∧ s1.sdsuMap = s.sdsuMap ∧
    s1.builder = s.builder ∧
    ∃ l, s1.emitted = s.emitted ++ l ∧ ∀ i ∈ l, i.isAccess = false := by
  cases hg : s.getFunction "nativeaot.throwifnull" with
  | some g =>
    rw [getOrCreateThrowIfNullFunction_hit c hg] at h
    injection h with h1 h2
    have hn : g.name = "nativeaot.throwifnull" := by
      unfold Llvm.getFunction at hg
      have := List.find?_some hg
      simpa using this
    rw [← h1, ← h2]
    exact ⟨hn, rfl, rfl, rfl, [], by simp, by simp⟩
  | none =>
    obtain ⟨s2, l, hrun, _, _, hf, hm, hb, e, he, hall⟩ := getOrCreateThrowIfNullFunction_miss c hg
    rw [hrun] at h
    injection h with h1 h2
    rw [← h1, ← h2]
    refine ⟨rfl, hf, hm, hb, e, he, fun i hi => ?_⟩
    obtain ⟨n1, n2, n3, n4, hcall⟩ := hall i hi
    by_cases hc : i.opcode = .Call
    · obtain ⟨fty, a, hops⟩ := hcall hc
      exact isAccess_of_call hc hops hname.1 hname.2
    · exact isAccess_of_opcode n1 n2 n3 n4 hc

/-- A returning `emitNullCheckForIndir`.  With the known-non-faulting flag set it leaves the
state untouched.  With the flag clear the last instruction it creates is a call of the
throw-if-null function whose arguments are the callee's shadow-stack pointer and the address
as a byte pointer (the address itself, or a cast of it created here); the instructions
created before the call access no memory. -/
theorem emitNullCheckForIndir_inv {c : Compiler} (hname : ThrowHelperIsNoBarrier c)
    {indir : GenTree} {addr : Value} {s s1 : Llvm}
    (h : emitNullCheckForIndir c indir addr s = .ok () s1) :
    (indir.d.GTF_IND_NONFAULTING = true ∧ s1 = s) ∨
    (indir.d.GTF_IND_NONFAULTING = false ∧
      s1.function = s.function ∧ s1.sdsuMap = s.sdsuMap ∧
      ∃ l callI fty ss addr8 f arg0,
        s1.emitted = s.emitted ++ l ++ [callI] ∧ (∀ i ∈ l, i.isAccess = false) ∧
        callI.opcode = .Call ∧
        callI.operands = [.function "nativeaot.throwifnull" fty, ss, addr8] ∧
        s.function = some f ∧ f.getArg 0 = some arg0 ∧ IsCalleeShadowStack c arg0 l ss ∧
        addr8.getType = getInt8PtrTy ∧
        (addr8 = addr ∨
          ∃ g ∈ l, g.opcode.isConversion = true ∧ g.operands = [addr] ∧
            addr8 = .inst g.id g.ty)) := by
  unfold emitNullCheckForIndir at h
  split at h
  · rename_i hflag
    right
    refine ⟨hflag, ?_⟩
    obtain ⟨fn, sA, hA, h⟩ := m_bind_inv h
    obtain ⟨hfn, fA, mA, _, lA, eA, pA⟩ := getOrCreateThrowIfNullFunction_inv hname hA
    obtain ⟨addr8, sB, hB, h⟩ := m_bind_inv h
    have hty := castIfNecessary_type hB
    obtain ⟨ss, sC, hC, h⟩ := m_bind_inv h
    unfold buildLlvmCallOrInvoke at h
    obtain ⟨r, sD, hD, h⟩ := m_bind_inv h
    obtain ⟨_, eD⟩ := createCallTo_inv hD
    have e1 := (m_pure_inv h).2
    have hBcases : sB.function = sA.function ∧ sB.sdsuMap = sA.sdsuMap ∧
        ∃ lB, sB.emitted = sA.emitted ++ lB ∧ (∀ i ∈ lB, i.isAccess = false) ∧
          (addr8 = addr ∨ ∃ g ∈ lB, g.opcode.isConversion = true ∧ g.operands = [addr] ∧
            addr8 = .inst g.id g.ty) := by
      rcases castIfNecessary_inv hB with ⟨h1, h2, _⟩ | ⟨i, hop, hity, hops, _, h1, h2⟩
      · rw [h2]
        exact ⟨rfl, rfl, [], by simp, by simp, Or.inl h1⟩
      · rw [h2]
        refine ⟨rfl, rfl, [sA.newInst sA.builder i], rfl, fun j hj => ?_, Or.inr ⟨_, List.mem_singleton.mpr rfl, hop, hops, ?_⟩⟩
        · rw [List.mem_singleton.mp hj]
          exact isAccess_of_conversion hop
        · rw [h1, ← hity]
          rfl
    obtain ⟨fB, mB, lB, eB, pB, hadd⟩ := hBcases
    obtain ⟨f, arg0, hf, harg, hgep⟩ := getShadowStackForCallee_inv hC
    obtain ⟨lC, eC, hss, fC, mC⟩ := getShadowStackForCallee_spec hf harg hC
    have pC : ∀ i ∈ lC, i.isAccess = false := by
      intro i hi
      rcases hss with ⟨hz, _⟩ | ⟨hz, g, hg, _⟩
      · rw [(gepOrAddr_run arg0 _ sB).1 hz] at hgep
        injection hgep with _ h2
        rw [← h2] at eC
        have : lC = [] := by simpa using eC
        rw [this] at hi
        cases hi
      · rw [(gepOrAddr_run arg0 _ sB).2 hz] at hgep
        injection hgep with _ h2
        rw [← h2] at eC
        have : lC = [sB.newInst sB.builder
            { opcode := .GEP, ty := arg0.getType,
              operands := [arg0, getInt32 c.shadowStackLocalsSize] }] := by
          have e3 : sB.emitted ++ [sB.newInst sB.builder
            { opcode := .GEP, ty := arg0.getType,
              operands := [arg0, getInt32 c.shadowStackLocalsSize] }] = sB.emitted ++ lC := eC
          exact (List.append_cancel_left e3).symm
        rw [this, List.mem_singleton] at hi
        rw [hi]
        exact isAccess_of_opcode (by simp [Llvm.newInst]) (by simp [Llvm.newInst])
          (by simp [Llvm.newInst]) (by simp [Llvm.newInst]) (by simp [Llvm.newInst])
    refine ⟨?_, ?_, lA ++ lB ++ lC,
      sC.newInst sC.builder
        { opcode := .Call, ty := fn.fty.returnType,
          operands := .function fn.name fn.fty :: [ss, addr8] },
      fn.fty, ss, addr8, f, arg0, ?_, ?_, rfl, ?_, ?_, harg, ?_, hty, ?_⟩
    · rw [e1, eD]
      show sC.function = _
      rw [fC, fB, fA]
    · rw [e1, eD]
      show sC.sdsuMap = _
      rw [mC, mB, mA]
    · rw [e1, eD]
      show sC.emitted ++ _ = _
      rw [eC, eB, eA]
      simp
    · intro i hi
      rcases List.mem_append.mp hi with hi | hi
      · rcases List.mem_append.mp hi with hi | hi
        · exact pA i hi
        · exact pB i hi
      · exact pC i hi
    · show [Value.function fn.name fn.fty, ss, addr8] = _
      rw [hfn]
    · rw [← fA, ← fB]
      exact hf
    · rcases hss with hss | ⟨hz, g, hg, hrest⟩
      · exact Or.inl hss
      · exact Or.inr ⟨hz, g, List.mem_append_right _ hg, hrest⟩
    · rcases hadd with h1 | ⟨g, hg, hrest⟩
      · exact Or.inl h1
      · exact Or.inr ⟨g, List.mem_append_left _ (List.mem_append_right _ hg), hrest⟩
  · rename_i hflag
    left
    exact ⟨by simpa using hflag, (m_pure_inv h).2⟩

/-! ## Handlers create no throw-if-null call of their own -/

theorem notCall_of_opcode {i : Instruction} {n : String} (h : i.opcode ≠ .Call) :
    i.isCallTo n = false := by
  unfold Instruction.isCallTo
  simp [h]

theorem notCall_of_conversion {i : Instruction} {n : String}
    (h : i.opcode.isConversion = true) : i.isCallTo n = false := by
  apply notCall_of_opcode
  intro hc
  rw [hc] at h
  cases h

theorem emits_noCheck_consumeValue (c : Compiler) (node : GenTree) (T : Option LType) :
    Emits (fun i => i.isCallTo "nativeaot.throwifnull" = false) (consumeValue c node T) :=
  emits_mono (fun _ h => notCall_of_conversion h) (emits_consumeValue c node T)

theorem emits_noCheck_castIfNecessary (v : Value) (T : LType) :
    Emits (fun i => i.isCallTo "nativeaot.throwifnull" = false) (castIfNecessary v T) :=
  emits_mono (fun _ h => notCall_of_conversion h) (emits_castIfNecessary v T)

theorem emits_noCheck_gepOrAddr (addr : Value) (offset : Nat) :
    Emits (fun i => i.isCallTo "nativeaot.throwifnull" = false) (gepOrAddr addr offset) :=
  emits_mono (fun i (h : i.opcode = .GEP) => notCall_of_opcode (by rw [h]; simp))
    (emits_gepOrAddr addr offset)

theorem emits_noCheck_create {i : Instruction} (h : i.opcode ≠ .Call) :
    Emits (fun i => i.isCallTo "nativeaot.throwifnull" = false) (create i) :=
  emits_create (fun _ _ => notCall_of_opcode h)

theorem emits_noCheck_createCallTo {f : LFunction} (hf : f.name ≠ "nativeaot.throwifnull")
    (args : List Value) :
    Emits (fun i => i.isCallTo "nativeaot.throwifnull" = false) (createCallTo f args) := by
  unfold createCallTo createCall
  apply emits_create
  intro _ _
  unfold Instruction.isCallTo
  simp [hf]

theorem emits_noCheck_buildMemCpy (base : Value) (a b : Nat) (src : Value) :
    Emits (fun i => i.isCallTo "nativeaot.throwifnull" = false) (buildMemCpy base a b src) := by
  unfold buildMemCpy
  refine emits_bind (emits_noCheck_gepOrAddr _ _) (fun _ => ?_)
  dsimp only
  exact emits_bind (emits_noCheck_create (fun h => Opcode.noConfusion h)) (fun _ => emits_pure _)

theorem returns_getOrCreateFunction (name : String) (fty : LType) (l : Linkage) :
    Returns (fun f : LFunction => f.name = name) (getOrCreateFunction name fty l) :=
  ⟨fun _ _ _ h => (getOrCreateFunction_inv h).2.2.1⟩

set_option maxRecDepth 8192 in
theorem emits_noCheck_storeObjField (c : Compiler) (baseAddress data : Value) (p : Bool)
    (fd : FieldDesc) (recurse : Value → Value → M Unit)
    (hrec : ∀ a v, Emits (fun i => i.isCallTo "nativeaot.throwifnull" = false) (recurse a v))
    (n : Nat) :
    Emits (fun i => i.isCallTo "nativeaot.throwifnull" = false)
      (storeObjField c baseAddress data p fd recurse n) := by
  unfold storeObjField
  repeat (first
    | exact emits_pure _
    | exact emits_jitAssert _ _
    | exact emits_noCheck_create (fun h => Opcode.noConfusion h)
    | exact emits_noCheck_gepOrAddr _ _
    | exact emits_noCheck_buildMemCpy _ _ _ _
    | exact emits_noCheck_castIfNecessary _ _
    | exact hrec _ _
    | (refine emits_bind_ret (emits_getOrCreateFunction _ _ _)
        (returns_getOrCreateFunction "RhpCheckedAssignRef" _ _) (fun f hf => ?_))
    | exact emits_noCheck_createCallTo (by rw [hf]; decide) _
    | apply emits_bind
    | intro _
    | split
    | dsimp only)

theorem emits_noCheck_storeObjTail (baseAddress data : Value) (p : Bool) (n : Nat) :
    Emits (fun i => i.isCallTo "nativeaot.throwifnull" = false)
      (storeObjTail baseAddress data p n) := by
  unfold storeObjTail
  dsimp only
  split
  · exact emits_bind (emits_noCheck_create (fun h => Opcode.noConfusion h))
      (fun _ => emits_bind (emits_noCheck_buildMemCpy _ _ _ _) (fun _ => emits_pure _))
  · exact emits_pure _

mutual
theorem emits_noCheck_storeObjAtAddress (c : Compiler) :
    ∀ (sd : StructDesc) (baseAddress data : Value),
      Emits (fun i => i.isCallTo "nativeaot.throwifnull" = false)
        (storeObjAtAddress c baseAddress data sd)
  | .mk fields p, baseAddress, data => by
    rw [storeObjAtAddress]
    exact emits_bind (emits_noCheck_storeObjFields c p fields baseAddress data 0)
      (fun _ => emits_noCheck_storeObjTail _ _ _ _)
theorem emits_noCheck_storeObjFields (c : Compiler) (p : Bool) :
    ∀ (fields : List (FieldDesc × Option StructDesc)) (baseAddress data : Value) (n : Nat),
      Emits (fun i => i.isCallTo "nativeaot.throwifnull" = false)
        (storeObjFields c baseAddress data p fields n)
  | [], _, _, n => by
    rw [storeObjFields]
    exact emits_pure n
  | (fd, none) :: rest, baseAddress, data, n => by
    rw [storeObjFields]
    exact emits_bind
      (emits_noCheck_storeObjField c baseAddress data p fd _ (fun _ _ => emits_unreached) n)
      (fun n1 => emits_noCheck_storeObjFields c p rest baseAddress data n1)
  | (fd, some sd) :: rest, baseAddress, data, n => by
    rw [storeObjFields]
    exact emits_bind
      (emits_noCheck_storeObjField c baseAddress data p fd _
        (fun a v => emits_noCheck_storeObjAtAddress c sd a v) n)
      (fun n1 => emits_noCheck_storeObjFields c p rest baseAddress data n1)
end

/-- The parts that make up the null-check contract of a handler: conversions of recorded
values first, then `emitNullCheckForIndir` on the converted address, then instructions that
are no throw-if-null call. -/
theorem nullCheck_assemble {c : Compiler} (hname : ThrowHelperIsNoBarrier c)
    {node addrNode : GenTree} {s sA sB s1 : Llvm} {raw addrValue : Value}
    {lpre lpost : List Instruction}
    (hraw : tableLookup s.sdsuMap addrNode.id = some raw)
    (hpre : sA.emitted = s.emitted ++ lpre)
    (hconv : ∀ i ∈ lpre, i.opcode.isConversion = true)
    (hcast : CastOf lpre raw addrValue)
    (hfun : sA.function = s.function)
    (hchk : emitNullCheckForIndir c node addrValue sA = .ok () sB)
    (hpost : s1.emitted = sB.emitted ++ lpost)
    (hpostP : ∀ i ∈ lpost, i.isCallTo "nativeaot.throwifnull" = false) :
    (node.d.GTF_IND_NONFAULTING = false → NullCheckFirst c addrNode s s1) ∧
    (node.d.GTF_IND_NONFAULTING = true → NoNullCheck s s1) := by
  unfold NullCheckFirst NoNullCheck
  rcases emitNullCheckForIndir_inv hname hchk with ⟨hflag, e⟩ |
    ⟨hflag, _, _, l, callI, fty, ss, addr8, f, arg0, he, hl, hop, hops, hf, harg, hss, hty, hadd⟩
  · refine ⟨fun h => (by rw [hflag] at h; cases h), fun _ => ⟨lpre ++ lpost, ?_, ?_⟩⟩
    · rw [hpost, e, hpre, List.append_assoc]
    · intro i hi
      rcases List.mem_append.mp hi with hi | hi
      · exact notCall_of_conversion (hconv i hi)
      · exact hpostP i hi
  · refine ⟨fun _ => ?_, fun h => (by rw [hflag] at h; cases h)⟩
    refine ⟨lpre ++ l, callI, lpost, fty, ss, addr8, f, arg0, raw, addrValue, ?_, ?_, hop, hops,
      by rw [← hfun]; exact hf, harg, ?_, hraw, ?_, ?_, hty⟩
    · rw [hpost, he, hpre]
      simp
    · intro i hi
      rcases List.mem_append.mp hi with hi | hi
      · exact isAccess_of_conversion (hconv i hi)
      · exact hl i hi
    · rcases hss with hss | ⟨hz, g, hg, hrest⟩
      · exact Or.inl hss
      · exact Or.inr ⟨hz, g, List.mem_append_right _ hg, hrest⟩
    · rcases hcast with h1 | ⟨g, hg, hrest⟩
      · exact Or.inl h1
      · exact Or.inr ⟨g, List.mem_append_left _ hg, hrest⟩
    · rcases hadd with h1 | ⟨g, hg, hrest⟩
      · exact Or.inl h1
      · exact Or.inr ⟨g, List.mem_append_right _ hg, hrest⟩

/-- What a returning `consumeValue` contributes to the null-check contract. -/
theorem consumeValue_pre {c : Compiler} {node : GenTree} {T : Option LType} {r : Value}
    {s s1 : Llvm} (h : consumeValue c node T s = .ok r s1) :
    ∃ raw l, tableLookup s.sdsuMap node.id = some raw ∧ s1.emitted = s.emitted ++ l ∧
      (∀ i ∈ l, i.opcode.isConversion = true) ∧ CastOf l raw r ∧
      s1.function = s.function ∧ s1.sdsuMap = s.sdsuMap := by
  obtain ⟨raw, hraw, hcase⟩ := consumeValue_inv h
  rcases hcase with ⟨h1, e⟩ | ⟨op, ty, hop, _, h1, _, e⟩
  · exact ⟨raw, [], hraw, by rw [e]; simp, by simp, Or.inl h1, by rw [e], by rw [e]⟩
  · refine ⟨raw, [s.newInst s.builder { opcode := op, ty := ty, operands := [raw] }], hraw,
      by rw [e]; rfl, fun j hj => by rw [List.mem_singleton.mp hj]; exact hop,
      Or.inr ⟨_, List.mem_singleton.mpr rfl, hop, rfl, h1⟩, by rw [e]; rfl, by rw [e]; rfl⟩

/-! ## Null checks of the indirection handlers -/

theorem contract_buildInd {c : Compiler} (hname : ThrowHelperIsNoBarrier c) (node : GenTree) :
    NullCheckContract c node (buildInd c node) := by
  intro s s1 addrNode hop h
  unfold buildInd at h
  rw [hop] at h
  obtain ⟨a, ha, h⟩ := deref_bind_inv h
  rw [← Option.some.inj ha] at h
  obtain ⟨addrValue, sA, hA, h⟩ := m_bind_inv h
  obtain ⟨raw, lpre, hraw, hpre, hconv, hcast, hfun, _⟩ := consumeValue_pre hA
  obtain ⟨_, sB, hB, h⟩ := m_bind_inv h
  have hpostE : Emits (fun i => i.isCallTo "nativeaot.throwifnull" = false)
      (createLoadTyped (c.getLlvmTypeForVarType node.TypeGet) addrValue >>= fun loadValue =>
        mapGenTreeToValue c node loadValue) :=
    emits_bind (emits_noCheck_create (fun h => Opcode.noConfusion h))
      (fun _ => emits_mapGenTreeToValue _ _ _)
  obtain ⟨lpost, hpost, hpostP⟩ := hpostE.run _ _ _ h
  exact nullCheck_assemble hname hraw hpre hconv hcast hfun hB hpost hpostP

theorem contract_buildBlk {c : Compiler} (hname : ThrowHelperIsNoBarrier c) (node : GenTree) :
    NullCheckContract c node (buildBlk c node) := by
  intro s s1 addrNode hop h
  unfold buildBlk at h
  rw [hop] at h
  obtain ⟨a, ha, h⟩ := deref_bind_inv h
  rw [← Option.some.inj ha] at h
  obtain ⟨addrValue, sA, hA, h⟩ := m_bind_inv h
  obtain ⟨raw, lpre, hraw, hpre, hconv, hcast, hfun, _⟩ := consumeValue_pre hA
  obtain ⟨_, sB, hB, h⟩ := m_bind_inv h
  have hpostE : Emits (fun i => i.isCallTo "nativeaot.throwifnull" = false)
      (createLoadTyped (c.getLlvmTypeForStruct node.d.layout) addrValue >>= fun blkValue =>
        mapGenTreeToValue c node blkValue) :=
    emits_bind (emits_noCheck_create (fun h => Opcode.noConfusion h))
      (fun _ => emits_mapGenTreeToValue _ _ _)
  obtain ⟨lpost, hpost, hpostP⟩ := hpostE.run _ _ _ h
  exact nullCheck_assemble hname hraw hpre hconv hcast hfun hB hpost hpostP

theorem contract_buildNullCheck {c : Compiler} (hname : ThrowHelperIsNoBarrier c)
    (node : GenTree) : NullCheckContract c node (buildNullCheck c node) := by
  intro s s1 addrNode hop h
  unfold buildNullCheck at h
  rw [hop] at h
  obtain ⟨a, ha, h⟩ := deref_bind_inv h
  rw [← Option.some.inj ha] at h
  obtain ⟨addrValue, sA, hA, h⟩ := m_bind_inv h
  obtain ⟨raw, lpre, hraw, hpre, hconv, hcast, hfun, _⟩ := consumeValue_pre hA
  exact @nullCheck_assemble _ hname _ _ _ _ _ _ _ _ _ [] hraw hpre hconv hcast hfun h (by simp)
    (by simp)

theorem castOf_append_left {l : List Instruction} {a b : Value} (l2 : List Instruction)
    (h : CastOf l a b) : CastOf (l ++ l2) a b := by
  rcases h with h | ⟨g, hg, hrest⟩
  · exact Or.inl h
  · exact Or.inr ⟨g, List.mem_append_left _ hg, hrest⟩

theorem contract_buildStoreInd {c : Compiler} (hname : ThrowHelperIsNoBarrier c)
    (node : GenTree) : NullCheckContract c node (buildStoreInd c node) := by
  intro s s1 addrNode hop h
  unfold buildStoreInd at h
  dsimp only at h
  rw [hop] at h
  obtain ⟨a, ha, h⟩ := deref_bind_inv h
  rw [← Option.some.inj ha] at h
  obtain ⟨addrValue, sA, hA, h⟩ := m_bind_inv h
  obtain ⟨raw, l1, hraw, hpre1, hconv1, hcast, hfun1, _⟩ := consumeValue_pre hA
  obtain ⟨dataNode, _, h⟩ := deref_bind_inv h
  obtain ⟨dataValue, sA2, hA2, h⟩ := m_bind_inv h
  obtain ⟨_, l2, _, hpre2, hconv2, _, hfun2, _⟩ := consumeValue_pre hA2
  obtain ⟨_, sB, hB, h⟩ := m_bind_inv h
  have hpostE : Emits (fun i => i.isCallTo "nativeaot.throwifnull" = false)
      (match c.gcIsWriteBarrierCandidate node with
        | .WBF_BarrierUnchecked => do
          let f ← getOrCreateRhpAssignRef
          let _ ← createCallTo f [addrValue, dataValue]
          pure ()
        | .WBF_BarrierChecked | .WBF_BarrierUnknown => do
          let f ← getOrCreateRhpCheckedAssignRef
          let _ ← createCallTo f [addrValue, dataValue]
          pure ()
        | .WBF_NoBarrier => do
          let _ ← createStore dataValue addrValue
          pure ()
        | _ => unreached) := by
    split
    · exact emits_bind_ret (emits_getOrCreateFunction _ _ _)
        (returns_getOrCreateFunction "RhpAssignRef" _ _)
        (fun f hf => emits_bind (emits_noCheck_createCallTo (by rw [hf]; decide) _)
          (fun _ => emits_pure _))
    · exact emits_bind_ret (emits_getOrCreateFunction _ _ _)
        (returns_getOrCreateFunction "RhpCheckedAssignRef" _ _)
        (fun f hf => emits_bind (emits_noCheck_createCallTo (by rw [hf]; decide) _)
          (fun _ => emits_pure _))
    · exact emits_bind_ret (emits_getOrCreateFunction _ _ _)
        (returns_getOrCreateFunction "RhpCheckedAssignRef" _ _)
        (fun f hf => emits_bind (emits_noCheck_createCallTo (by rw [hf]; decide) _)
          (fun _ => emits_pure _))
    · exact emits_bind (emits_noCheck_create (fun h => Opcode.noConfusion h))
        (fun _ => emits_pure _)
    · exact emits_unreached
  obtain ⟨lpost, hpost, hpostP⟩ := hpostE.run _ _ _ h
  refine @nullCheck_assemble _ hname _ _ _ _ _ _ _ _ (l1 ++ l2) _ hraw ?_ ?_
    (castOf_append_left l2 hcast)
    (hfun2.trans hfun1) hB hpost hpostP
  · rw [hpre2, hpre1, List.append_assoc]
  · intro i hi
    rcases List.mem_append.mp hi with hi | hi
    · exact hconv1 i hi
    · exact hconv2 i hi

set_option maxRecDepth 8192 in
theorem emits_noCheck_storeBlkBody (c : Compiler) (blockOp dataNode : GenTree)
    (addrNode : GenTree) (addrValue : Value) :
    Emits (fun i => i.isCallTo "nativeaot.throwifnull" = false)
      (if blockOp.OperIsInitBlkOp then do
        let fillValue ←
          if dataNode.OperIsInitVal then do
            let initOp ← deref dataNode.gtOp1
            consumeValue c initOp (some getInt8Ty)
          else
            pure (getInt8 0)
        let _ ← create
          { opcode := .MemSet, ty := .void,
            operands := [addrValue, fillValue, getInt32 blockOp.d.layout.size],
            align := some 1 }
        pure ()
      else do
        let dataValue ← consumeValue c dataNode (some (c.getLlvmTypeForStruct blockOp.d.layout))
        if blockOp.d.layout.hasGCPtr = true ∧ blockOp.d.GTF_IND_TGT_NOT_HEAP = false ∧
            addrNode.OperIsLocalAddr = false then
          storeObjAtAddress c addrValue dataValue (c.getStructDesc blockOp.d.layout.classHandle)
        else do
          let typedAddr ← castIfNecessary addrValue dataValue.getType.getPointerTo
          let _ ← createStore dataValue typedAddr
          pure ()) := by
  repeat (first
    | exact emits_pure _
    | exact emits_deref _
    | exact emits_noCheck_consumeValue _ _ _
    | exact emits_noCheck_create (fun h => Opcode.noConfusion h)
    | exact emits_noCheck_castIfNecessary _ _
    | exact emits_noCheck_storeObjAtAddress _ _ _ _
    | apply emits_bind
    | intro _
    | split
    | dsimp only)

theorem contract_buildStoreBlk {c : Compiler} (hname : ThrowHelperIsNoBarrier c)
    (node : GenTree) : NullCheckContract c node (buildStoreBlk c node) := by
  intro s s1 addrNode hop h
  unfold buildStoreBlk at h
  dsimp only at h
  rw [hop] at h
  obtain ⟨a, ha, h⟩ := deref_bind_inv h
  rw [← Option.some.inj ha] at h
  obtain ⟨dataNode, _, h⟩ := deref_bind_inv h
  obtain ⟨addrValue, sA, hA, h⟩ := m_bind_inv h
  obtain ⟨raw, lpre, hraw, hpre, hconv, hcast, hfun, _⟩ := consumeValue_pre hA
  obtain ⟨_, sB, hB, h⟩ := m_bind_inv h
  obtain ⟨lpost, hpost, hpostP⟩ :=
    (emits_noCheck_storeBlkBody c node dataNode addrNode addrValue).run _ _ _ h
  exact nullCheck_assemble hname hraw hpre hconv hcast hfun hB hpost hpostP

/-- C17: for every node that `visitNode` hands to the handler of an indirect load, an
indirect store, a block load or store, or a null check: when the handler returns and the
node's known-non-faulting flag is clear, the instructions it created are conversions and
other instructions that access no memory, then a call of the throw-if-null function with
the callee's shadow-stack pointer and the address as a byte pointer as its arguments, then
the rest (the node's load, store, memory fill or write-barrier call); when the flag is set,
none of the instructions it created is a call of the throw-if-null function. -/
theorem null_check_before_access (c : Compiler) (hname : ThrowHelperIsNoBarrier c)
    (node : GenTree)
    (hop : node.OperGet ∈ [genTreeOps.GT_IND, .GT_OBJ, .GT_BLK, .GT_STOREIND, .GT_STORE_BLK,
      .GT_STORE_OBJ, .GT_NULLCHECK]) :
    NullCheckContract c node (visitNode c node) := by
  simp only [List.mem_cons, List.mem_singleton, List.not_mem_nil, or_false] at hop
  unfold visitNode
  rcases hop with h | h | h | h | h | h | h <;> rw [h] <;> dsimp only
  · exact contract_buildInd hname node
  · exact contract_buildBlk hname node
  · exact contract_buildBlk hname node
  · exact contract_buildStoreInd hname node
  · exact contract_buildStoreBlk hname node
  · exact contract_buildStoreBlk hname node
  · exact contract_buildNullCheck hname node

/-- Witness of C17: the indirect load `sampleIndNode` run in `sampleMemoryState`. -/
theorem null_check_before_access_witness :
    ThrowHelperIsNoBarrier sampleCompiler ∧
    sampleIndNode.OperGet ∈ [genTreeOps.GT_IND, .GT_OBJ, .GT_BLK, .GT_STOREIND, .GT_STORE_BLK,
      .GT_STORE_OBJ, .GT_NULLCHECK] ∧
    visitNode sampleCompiler sampleIndNode sampleMemoryState
      = .ok () (visitNode sampleCompiler sampleIndNode sampleMemoryState).state ∧
    NullCheckFirst sampleCompiler (.leaf { id := 1, gtOper := .GT_LCL_VAR, gtType := .TYP_BYREF })
      sampleMemoryState (visitNode sampleCompiler sampleIndNode sampleMemoryState).state :=
  ⟨⟨by decide, by decide⟩, by decide, by decide!,
    ((null_check_before_access sampleCompiler ⟨by decide, by decide⟩ sampleIndNode (by decide))
      sampleMemoryState (visitNode sampleCompiler sampleIndNode sampleMemoryState).state
      (.leaf { id := 1, gtOper := .GT_LCL_VAR, gtType := .TYP_BYREF }) rfl (by decide!)).1 rfl⟩

/-! ## Block stores and the write barrier -/

theorem fieldWrite_of_notCall_notStore {i : Instruction} (h1 : i.opcode = .Call)
    {n : String} {fty : LType} {args : List Value} (hops : i.operands = .function n fty :: args)
    (hn : n ≠ "RhpCheckedAssignRef") : i.fieldWrite = none := by
  unfold Instruction.fieldWrite Instruction.isCallTo
  simp [h1, hops, hn]

theorem writes_emitNullCheckForIndir {c : Compiler} (hname : ThrowHelperIsNoBarrier c)
    (indir : GenTree) (addr : Value) : Writes [] (emitNullCheckForIndir c indir addr) := by
  constructor
  intro s a s1 h
  rcases emitNullCheckForIndir_inv hname h with ⟨_, e⟩ |
    ⟨_, _, _, l, callI, fty, ss, addr8, f, arg0, he, hl, hop, hops, _⟩
  · exact ⟨[], by rw [e]; simp, rfl⟩
  · refine ⟨l ++ [callI], by rw [he, List.append_assoc], ?_⟩
    rw [List.filterMap_append, List.filterMap_eq_nil_iff.mpr
      (fun i hi => fieldWrite_of_not_access (hl i hi))]
    simp [fieldWrite_of_notCall_notStore hop hops (by decide)]

theorem consumeValue_some_type {c : Compiler} {node : GenTree} {T : LType} {r : Value}
    {s s1 : Llvm} (h : consumeValue c node (some T) s = .ok r s1) : r.getType = T := by
  unfold consumeValue at h
  obtain ⟨raw, _, h⟩ := getGenTreeValue_bind_inv h
  rcases consumeValueTo_inv h with ⟨h1, h2, _⟩ | ⟨_, _, _, h2, _⟩
  · rw [h2, h1]
  · rw [h2]
    rfl

/-- C12: a returning `buildStoreBlk` of a non-initialising store whose layout has
garbage-collected pointer fields.  When the destination is not flagged not-heap and the
address operand is not a local address, the field writes among the instructions created are
exactly one per leaf field of the layout, in layout order, a call of the checked write
barrier for every garbage-collected pointer field and a plain store for every other field.
When the destination is flagged not-heap or the address operand is a local address, the
field writes are exactly one plain store, the last instruction created, which stores the
whole data value through the address as a pointer to the data's type. -/
theorem storeBlk_gc_fields (c : Compiler) (hname : ThrowHelperIsNoBarrier c)
    (blockOp addrNode dataNode : GenTree) (s s1 : Llvm)
    (ha : blockOp.gtOp1 = some addrNode) (hd : blockOp.gtOp2 = some dataNode)
    (hinit : blockOp.OperIsInitBlkOp = false) (hgc : blockOp.d.layout.hasGCPtr = true)
    (h : buildStoreBlk c blockOp s = .ok () s1) :
    ∃ l, s1.emitted = s.emitted ++ l ∧
      (blockOp.d.GTF_IND_TGT_NOT_HEAP = false ∧ addrNode.OperIsLocalAddr = false →
        l.filterMap Instruction.fieldWrite =
          (leafFields c (c.getLlvmTypeForStruct blockOp.d.layout)
            (c.getStructDesc blockOp.d.layout.classHandle)).map FieldDesc.expectedWrite) ∧
      (blockOp.d.GTF_IND_TGT_NOT_HEAP = true ∨ addrNode.OperIsLocalAddr = true →
        l.filterMap Instruction.fieldWrite = [.plainStore] ∧
        ∃ st dataValue addr, l.getLast? = some st ∧ st.opcode = .Store ∧
          st.operands = [dataValue, addr] ∧
          dataValue.getType = c.getLlvmTypeForStruct blockOp.d.layout ∧
          addr.getType = (c.getLlvmTypeForStruct blockOp.d.layout).getPointerTo) := by
  unfold buildStoreBlk at h
  dsimp only at h
  rw [ha, hd] at h
  rw [m_bind_ok (deref_some addrNode s), m_bind_ok (deref_some dataNode s)] at h
  obtain ⟨addrValue, sA, hA, h⟩ := m_bind_inv h
  obtain ⟨lA, eA, wA⟩ := (writes_consumeValue c addrNode _).run _ _ _ hA
  obtain ⟨_, sB, hB, h⟩ := m_bind_inv h
  obtain ⟨lB, eB, wB⟩ := (writes_emitNullCheckForIndir hname blockOp addrValue).run _ _ _ hB
  rw [hinit] at h
  simp only [Bool.false_eq_true, if_false] at h
  obtain ⟨dataValue, sC, hC, h⟩ := m_bind_inv h
  obtain ⟨lC, eC, wC⟩ := (writes_consumeValue c dataNode _).run _ _ _ hC
  have hty := consumeValue_some_type hC
  by_cases hcond : blockOp.d.GTF_IND_TGT_NOT_HEAP = false ∧ addrNode.OperIsLocalAddr = false
  · rw [if_pos ⟨hgc, hcond⟩] at h
    obtain ⟨lD, eD, wD⟩ := (writes_storeObjAtAddress c _ addrValue dataValue).run _ _ _ h
    refine ⟨lA ++ lB ++ lC ++ lD, by rw [eD, eC, eB, eA]; simp, fun _ => ?_, fun hor => ?_⟩
    · rw [List.filterMap_append, List.filterMap_append, List.filterMap_append, wA, wB, wC, wD,
        hty]
      rfl
    · rcases hor with hor | hor
      · rw [hcond.1] at hor
        cases hor
      · rw [hcond.2] at hor
        cases hor
  · rw [if_neg (fun hh => hcond hh.2)] at h
    obtain ⟨typedAddr, sD, hD, h⟩ := m_bind_inv h
    obtain ⟨lD, eD, wD⟩ := (writes_castIfNecessary addrValue _).run _ _ _ hD
    have htyA := castIfNecessary_type hD
    obtain ⟨r, sE, hE, h⟩ := m_bind_inv h
    obtain ⟨_, eE⟩ := create_inv hE
    have e1 := (m_pure_inv h).2
    refine ⟨lA ++ lB ++ lC ++ lD ++
        [sD.newInst sD.builder { opcode := .Store, ty := .void, operands := [dataValue, typedAddr] }],
      ?_, fun hc => absurd hc hcond, fun _ => ⟨?_,
        sD.newInst sD.builder { opcode := .Store, ty := .void, operands := [dataValue, typedAddr] },
        dataValue, typedAddr, ?_, rfl, rfl, hty, ?_⟩⟩
    · rw [e1, eE]
      show sD.emitted ++ _ = _
      rw [eD, eC, eB, eA]
      simp
    · rw [List.filterMap_append, List.filterMap_append, List.filterMap_append,
        List.filterMap_append, wA, wB, wC, wD]
      simp [Llvm.newInst, Instruction.fieldWrite, Instruction.isCallTo]
    · simp
    · rw [htyA, hty]

/-- Witness of C12: the store of a two-field struct, a garbage-collected pointer and an
`INT`, through a heap address writes the first field with the checked write barrier and the
second with a plain store. -/
theorem storeBlk_gc_fields_witness :
    ThrowHelperIsNoBarrier sampleGcCompiler ∧
    buildStoreBlk sampleGcCompiler sampleStoreObjNode sampleMemoryState
      = .ok () (buildStoreBlk sampleGcCompiler sampleStoreObjNode sampleMemoryState).state ∧
    ∃ l, (buildStoreBlk sampleGcCompiler sampleStoreObjNode sampleMemoryState).state.emitted
        = sampleMemoryState.emitted ++ l ∧
      l.filterMap Instruction.fieldWrite = [.checkedBarrier, .plainStore] :=
  ⟨⟨by decide, by decide⟩, by decide!,
    (storeBlk_gc_fields sampleGcCompiler ⟨by decide, by decide⟩ sampleStoreObjNode
      (.leaf { id := 1, gtOper := .GT_LCL_VAR, gtType := .TYP_BYREF })
      (.leaf { id := 2, gtOper := .GT_LCL_VAR, gtType := .TYP_STRUCT })
      sampleMemoryState
      (buildStoreBlk sampleGcCompiler sampleStoreObjNode sampleMemoryState).state
      rfl rfl (by decide) (by decide) (by decide!)).imp
      (fun _ hl => ⟨hl.1, (hl.2.1 ⟨by decide, by decide⟩).trans (by decide!)⟩)⟩

/-- C14: lowering the method `int Add(int a, int b)` of `sampleAddMethod`, whose only referenced
locals are the two `INT` parameters in SSA and whose single block reads `a`, reads `b`, adds
them and returns the sum, in either build flavour: `Compile` returns; no local has a stack
slot; the first SSA versions of the parameters are bound to the function arguments 1 and 2
and nothing else is bound, so there is no zero or frozen-undef initial value; the
instructions created are the branch of the prolog to the body, one integer add of the two
arguments and a return of that sum, and the block of the body holds exactly the add followed
by the return. -/
theorem add_method_lowering (dbg : Bool) :
    Compile { sampleAddMethod with debug := dbg } sampleAddState
      = .ok () (Compile { sampleAddMethod with debug := dbg } sampleAddState).state ∧
    (Compile { sampleAddMethod with debug := dbg } sampleAddState).state.m_allocas
      = [none, none, none] ∧
    (Compile { sampleAddMethod with debug := dbg } sampleAddState).state.localsMap
      = [((0, FIRST_SSA_NUM), .argument 1 (.int 32)), ((1, FIRST_SSA_NUM), .argument 2 (.int 32))] ∧
    (Compile { sampleAddMethod with debug := dbg } sampleAddState).state.emitted.map
        (fun i => (i.opcode, i.ty, i.operands))
      = [(.Br, .void, []),
         (.Add, .int 32, [.argument 1 (.int 32), .argument 2 (.int 32)]),
         (.Ret, .void, [.inst 1 (.int 32)])] ∧
    (Compile { sampleAddMethod with debug := dbg } sampleAddState).state.blkToLlvmBlkVectorMap
      = [(1, 1)] ∧
    ((Compile { sampleAddMethod with debug := dbg } sampleAddState).state.blocks.filter
        (fun b => b.id = 1)).map (fun b => b.insts.map (fun i => (i.id, i.opcode, i.operands)))
      = [[(1, .Add, [.argument 1 (.int 32), .argument 2 (.int 32)]),
          (2, .Ret, [.inst 1 (.int 32)])]] := by
  cases dbg <;> decide!

/-! ## Where the conversions of phi operands are placed -/

theorem sameInsertionPoint_refl (s : Llvm) : SameInsertionPoint s s := ⟨rfl, rfl⟩

theorem sameInsertionPoint_trans {s s1 s2 : Llvm} (h1 : SameInsertionPoint s s1)
    (h2 : SameInsertionPoint s1 s2) : SameInsertionPoint s s2 :=
  ⟨h2.1.trans h1.1, h2.2.trans h1.2⟩

theorem relates_forEach {α : Type} {R : Llvm → Llvm → Prop} (hrefl : ∀ s, R s s)
    (htrans : ∀ s s1 s2, R s s1 → R s1 s2 → R s s2) {f : α → M Unit}
    (hf : ∀ a, Relates R (f a)) : ∀ l : List α, Relates R (forEach f l)
  | [] => ⟨fun s _ _ h => by rw [(m_pure_inv h).2]; exact hrefl s⟩
  | x :: xs => ⟨fun s _ s2 h => by
      obtain ⟨_, s1, h1, h2⟩ := m_bind_inv h
      exact htrans s s1 s2 ((hf x).run s _ s1 h1) ((relates_forEach hrefl htrans hf xs).run s1 _ s2 h2)⟩

theorem find_insertAt (p : Nat) (bf : Option Nat) (i : Instruction) (k : Nat) :
    ∀ bs : List LBasicBlock,
      (insertAt { block := some p, before := bf } i bs).find? (fun b => b.id = k) =
        if k = p then
          (bs.find? (fun b => b.id = k)).map
            (fun b => { b with insts := insertBefore i bf b.insts })
        else bs.find? (fun b => b.id = k)
  | [] => by simp [insertAt]
  | b :: bs => by
    have ih := find_insertAt p bf i k bs
    simp only [insertAt] at ih ⊢
    simp only [List.map_cons, List.find?_cons]
    by_cases hb : b.id = p
    · rw [if_pos hb]
      by_cases hk : k = p
      · have hbk : b.id = k := hb.trans hk.symm
        simp [hbk, hk]
      · have hbk : ¬ b.id = k := fun h => hk (h.symm.trans hb)
        simp only [hbk, decide_False, if_neg hk]
        rw [ih, if_neg hk]
    · rw [if_neg hb]
      by_cases hbk : b.id = k
      · have hk : ¬ k = p := fun h => hb (hbk.trans h)
        simp [hbk, hk]
      · simp only [hbk, decide_False]
        rw [ih]

theorem insertBefore_last (i t : Instruction) :
    ∀ pre : List Instruction, (∀ x ∈ pre, x.id ≠ t.id) →
      insertBefore i (some t.id) (pre ++ [t]) = pre ++ [i, t]
  | [], _ => by simp [insertBefore]
  | x :: xs, h => by
    have hx : ¬ (some t.id = some x.id) := fun e => h x (List.mem_cons_self _ _) (Option.some.inj e).symm
    have ih := insertBefore_last i t xs (fun y hy => h y (List.mem_cons_of_mem _ hy))
    show insertBefore i (some t.id) (x :: (xs ++ [t])) = x :: (xs ++ [i, t])
    rw [insertBefore, if_neg hx, ih]

theorem getTerminator_inv {b : LBasicBlock} {t : Instruction} (h : b.getTerminator = some t) :
    ∃ pre, b.insts = pre ++ [t] ∧ t.isTerminator = true := by
  unfold LBasicBlock.getTerminator at h
  cases hl : b.insts.getLast? with
  | none => rw [hl] at h; cases h
  | some i =>
    rw [hl] at h
    dsimp only at h
    by_cases ht : i.isTerminator = true
    · rw [if_pos ht] at h
      have e := Option.some.inj h
      rw [e] at hl ht
      obtain ⟨pre, hpre⟩ := List.getLast?_eq_some_iff.mp hl
      exact ⟨pre, hpre, ht⟩
    · rw [if_neg ht] at h
      cases h

/-- A returning `fillPhiArgValue` returned the materialised value in the same state, or
created one conversion of it before the terminator of the predecessor's target block and
put the builder back. -/
theorem fillPhiArgValue_inv {c : Compiler} {phi : Value} {phiArg : GenTree} {s s1 : Llvm}
    {r : Value} (h : fillPhiArgValue c phi phiArg s = .ok r s1) :
    ∃ v, tableLookup s.localsMap (phiArg.d.lclNum, phiArg.d.ssaNum) = some v ∧
      ((v.getType = phi.getType ∧ r = v ∧ s1 = s) ∨
       (v.getType ≠ phi.getType ∧ ∃ (castInst : Instruction) (predBlock : Nat) (sP : Llvm)
          (blk : LBasicBlock) (term : Instruction),
          castInst.opcode.isConversion = true ∧ castInst.ty = phi.getType ∧
          castInst.operands = [v] ∧
          getLLVMBasicBlockForBlock c (some phiArg.d.gtPredBB) s = .ok predBlock sP ∧
          sP.getBlock predBlock = some blk ∧ blk.getTerminator = some term ∧
          r = .inst sP.nextValueId castInst.ty ∧
          s1.emitted = sP.emitted ++ [{ castInst with id := sP.nextValueId, dbg := term.dbg }] ∧
          s1.blocks = insertAt { block := some predBlock, before := some term.id }
            { castInst with id := sP.nextValueId, dbg := term.dbg } sP.blocks ∧
          s1.phiIncoming = sP.phiIncoming ∧
          s1.blkToLlvmBlkVectorMap = sP.blkToLlvmBlkVectorMap ∧
          SameInsertionPoint s s1)) := by
  unfold fillPhiArgValue at h
  dsimp only at h
  have h := getState_bind_inv h
  obtain ⟨v, hv, h⟩ := deref_bind_inv h
  obtain ⟨cr, sC, hC, h⟩ := m_bind_inv h
  obtain ⟨e, hcase⟩ := getCast_inv hC
  rw [e] at h
  refine ⟨v, hv, ?_⟩
  rcases hcase with ⟨rn, hty⟩ | ⟨i, ri, hconv, hity, hops, hne⟩
  · rw [rn] at h
    exact Or.inl ⟨hty, (m_pure_inv h).1, (m_pure_inv h).2⟩
  · rw [ri] at h
    dsimp only at h
    have h := getState_bind_inv h
    obtain ⟨predBlock, sP, hP, h⟩ := m_bind_inv h
    have h := getState_bind_inv h
    obtain ⟨blk, hblk, h⟩ := deref_bind_inv h
    obtain ⟨term, hterm, h⟩ := deref_bind_inv h
    have h := modifyState_bind_inv h
    obtain ⟨ins, sI, hI, h⟩ := m_bind_inv h
    obtain ⟨hr, hsI⟩ := create_inv hI
    obtain ⟨_, sR, hR, h⟩ := m_bind_inv h
    obtain ⟨hr2, hs2⟩ := m_pure_inv h
    unfold builderRestoreInsertPoint at hR
    obtain ⟨b0, hb0, hR⟩ := deref_bind_inv hR
    have hR := getState_bind_inv hR
    have hsR := (Outcome.ok.inj hR).2
    refine Or.inr ⟨hne, i, predBlock, sP, blk, term, hconv, hity, hops, hP, hblk, hterm,
      by rw [hr2, hr], ?_, ?_, ?_, ?_, ?_⟩
    · rw [hs2, ← hsR, hsI]
      rfl
    · rw [hs2, ← hsR, hsI]
      rfl
    · rw [hs2, ← hsR, hsI]
      rfl
    · rw [hs2, ← hsR, hsI]
      rfl
    · rw [hs2, ← hsR, hsI]
      exact ⟨hb0.symm, rfl⟩

theorem addIncoming_inv {phi v : Value} {blk : Nat} {s s1 : Llvm}
    (h : addIncoming phi v blk s = .ok () s1) :
    ∃ id T, phi = .inst id T ∧ s1 = { s with phiIncoming := s.phiIncoming ++ [(id, v, blk)] } := by
  cases phi with
  | inst id T => exact ⟨id, T, rfl, (Outcome.ok.inj h).2.symm⟩
  | argument _ _ => cases h
  | constInt _ _ => cases h
  | constFP _ _ => cases h
  | nullValue _ => cases h
  | undef _ => cases h
  | globalVariable _ _ => cases h
  | function _ _ => cases h

theorem getLLVMBasicBlockForBlock_hit (c : Compiler) {k b : Nat} {s : Llvm}
    (h : tableLookup s.blkToLlvmBlkVectorMap k = some b) :
    getLLVMBasicBlockForBlock c (some k) s = .ok b s := by
  simp only [getLLVMBasicBlockForBlock, m_bind_apply, getState, deref, m_pure_apply, h]

theorem relates_fillPhiArg (c : Compiler) (phi : Value) (use : UseData × GenTree) :
    Relates SameInsertionPoint (fillPhiArg c phi use) := by
  constructor
  intro s _ s1 h
  unfold fillPhiArg at h
  obtain ⟨r, sV, hV, h⟩ := m_bind_inv h
  obtain ⟨blk, sB, hB, h⟩ := m_bind_inv h
  obtain ⟨_, _, _, e⟩ := addIncoming_inv h
  obtain ⟨t2, sB2, hB2, _, _, hbuilder, _⟩ :=
    getLLVMBasicBlockForBlock_total c use.2.d.gtPredBB sV
  rw [hB] at hB2
  rw [← (Outcome.ok.inj hB2).2] at hbuilder
  have hVs : SameInsertionPoint s sV := by
    obtain ⟨v, _, hcase⟩ := fillPhiArgValue_inv hV
    rcases hcase with ⟨_, _, e2⟩ | ⟨_, _, _, _, _, _, _, _, _, _, _, _, _, _, _, _, _, hs⟩
    · rw [e2]
      exact sameInsertionPoint_refl s
    · exact hs
  rw [e]
  exact ⟨by show sB.builder.block = _; rw [hbuilder]; exact hVs.1,
    by show sB.builder.before = _; rw [hbuilder]; exact hVs.2⟩

theorem relates_fillPhiPair (c : Compiler) (pair : PhiPair) :
    Relates SameInsertionPoint (fillPhiPair c pair) := by
  unfold fillPhiPair
  exact relates_forEach sameInsertionPoint_refl
    (fun _ _ _ h1 h2 => sameInsertionPoint_trans h1 h2)
    (fun use => relates_fillPhiArg c pair.llvmPhiNode use) pair.irPhiNode.Uses

theorem relates_fillPhis (c : Compiler) : Relates SameInsertionPoint (fillPhis c) := by
  constructor
  intro s _ s1 h
  unfold fillPhis at h
  have h := getState_bind_inv h
  exact (relates_forEach sameInsertionPoint_refl
    (fun _ _ _ h1 h2 => sameInsertionPoint_trans h1 h2)
    (relates_fillPhiPair c) s.phiPairs).run s _ s1 h

/-- Counterexample to C21 as stated: in a single-block loop the operand of the pending phi
arrives from the phi's own block; `fillPhis` returns and the truncation it creates
(instruction 7) is placed in the phi's own block, target block 10, between the phi and the
branch that ends the block. -/
theorem phi_cast_placement_counterexample :
    fillPhis sampleCompiler sampleSelfLoopState
      = .ok () (fillPhis sampleCompiler sampleSelfLoopState).state ∧
    sampleSelfLoopState.blockOfInst 5 = some 10 ∧
    (fillPhis sampleCompiler sampleSelfLoopState).state.blockOfInst 5 = some 10 ∧
    (fillPhis sampleCompiler sampleSelfLoopState).state.blockOfInst 7 = some 10 ∧
    (fillPhis sampleCompiler sampleSelfLoopState).state.blocks.map
        (fun b => (b.id, b.insts.map (fun i => (i.id, i.opcode, i.operands))))
      = [(10, [(5, .PHI, []), (7, .Trunc, [.argument 1 (.int 64)]), (6, .Br, [])])] ∧
    (fillPhis sampleCompiler sampleSelfLoopState).state.phiIncoming
      = [(5, .inst 7 (.int 32), 10)] := by
  decide!

/-- C21 as the code has it, for one operand of a phi whose predecessor has a target block.
When the operand's materialised value has the phi's type, `fillPhiArg` returns, creates no
instruction and wires the value itself.  When it has another type and `fillPhiArg` returns,
exactly one conversion of the value to the phi's type was created; it stands in the target
block of the operand's predecessor immediately before that block's terminator (which is the
phi's own block when the predecessor is the phi's block), every other block is as before,
the conversion's result is the incoming value wired for that block, and the builder's
insertion block and insertion point are as before.  The insertion block and insertion point
are also the same before and after every returning `fillPhis`. -/
theorem phi_cast_placement (c : Compiler) (s : Llvm) (phiId : Nat) (T : LType)
    (use : UseData × GenTree) (v : Value) (predBlock : Nat)
    (hv : tableLookup s.localsMap (use.2.d.lclNum, use.2.d.ssaNum) = some v)
    (hpred : tableLookup s.blkToLlvmBlkVectorMap use.2.d.gtPredBB = some predBlock) :
    (v.getType = T →
      fillPhiArg c (.inst phiId T) use s =
        .ok () { s with phiIncoming := s.phiIncoming ++ [(phiId, v, predBlock)] }) ∧
    (v.getType ≠ T → ∀ s1, fillPhiArg c (.inst phiId T) use s = .ok () s1 →
      ∃ (castInst : Instruction) (blk : LBasicBlock) (pre : List Instruction)
          (term : Instruction),
        s.getBlock predBlock = some blk ∧ blk.insts = pre ++ [term] ∧
        term.isTerminator = true ∧
        castInst.opcode.isConversion = true ∧ castInst.operands = [v] ∧ castInst.ty = T ∧
        s1.emitted = s.emitted ++ [castInst] ∧
        ((∀ x ∈ pre, x.id ≠ term.id) →
          s1.getBlock predBlock = some { blk with insts := pre ++ [castInst, term] }) ∧
        (∀ k, k ≠ predBlock → s1.getBlock k = s.getBlock k) ∧
        s1.phiIncoming = s.phiIncoming ++ [(phiId, .inst castInst.id T, predBlock)] ∧
        SameInsertionPoint s s1) ∧
    (∀ s0 s2, fillPhis c s0 = .ok () s2 → SameInsertionPoint s0 s2) := by
  refine ⟨fun hty => ?_, fun hne s1 h => ?_, fun s0 s2 h => (relates_fillPhis c).run s0 _ s2 h⟩
  · have hc : getCast v (Value.inst phiId T).getType s = .ok none s := by
      have hty2 : v.getType = (Value.inst phiId T).getType := hty
      unfold getCast
      rw [if_pos hty2]
      rfl
    unfold fillPhiArg fillPhiArgValue
    simp only [m_bind_apply, getState, tableGet, hv, deref, m_pure_apply, hc,
      getLLVMBasicBlockForBlock_hit c hpred, addIncoming, modifyState]
  · have hsame := (relates_fillPhiArg c (.inst phiId T) use).run s _ s1 h
    unfold fillPhiArg at h
    obtain ⟨r, sV, hV, h⟩ := m_bind_inv h
    obtain ⟨v2, hv2, hcase⟩ := fillPhiArgValue_inv hV
    rw [hv] at hv2
    have ev : v2 = v := (Option.some.inj hv2).symm
    rw [ev] at hcase
    rcases hcase with ⟨hty, _, _⟩ |
      ⟨_, castInst, pb, sP, blk, term, hconv, hity, hops, hP, hblk, hterm, hr, hem, hbl, hphi,
        hmap, _⟩
    · exact absurd hty hne
    rw [getLLVMBasicBlockForBlock_hit c hpred] at hP
    have epb : pb = predBlock := (Outcome.ok.inj hP).1.symm
    have esP : sP = s := (Outcome.ok.inj hP).2.symm
    rw [epb, esP] at hblk hbl
    rw [esP] at hem hphi hmap hr
    have hpredV : tableLookup sV.blkToLlvmBlkVectorMap use.2.d.gtPredBB = some predBlock := by
      rw [hmap]
      exact hpred
    rw [m_bind_ok (getLLVMBasicBlockForBlock_hit c hpredV)] at h
    have e1 : s1 = { sV with phiIncoming := sV.phiIncoming ++ [(phiId, r, predBlock)] } :=
      (Outcome.ok.inj h).2.symm
    obtain ⟨pre, hpre, hisT⟩ := getTerminator_inv hterm
    have hfind : ∀ k, s1.getBlock k =
        if k = predBlock then
          (s.getBlock k).map (fun b =>
            { b with insts := (insertBefore ({ castInst with id := s.nextValueId, dbg := term.dbg })
                (some term.id) b.insts) })
        else s.getBlock k := by
      intro k
      rw [e1]
      show sV.blocks.find? (fun b => b.id = k) = _
      rw [hbl]
      exact find_insertAt predBlock (some term.id) _ k s.blocks
    refine ⟨{ castInst with id := s.nextValueId, dbg := term.dbg }, blk, pre, term, hblk, hpre,
      hisT, hconv, hops, hity, ?_, fun hnd => ?_, fun k hk => ?_, ?_, hsame⟩
    · rw [e1]
      exact hem
    · rw [hfind predBlock, if_pos rfl, hblk]
      dsimp only [Option.map]
      rw [hpre, insertBefore_last _ term pre hnd]
    · rw [hfind k, if_neg hk]
    · rw [e1]
      show sV.phiIncoming ++ _ = _
      rw [hphi, hr, hity]
      rfl

/-- Witness of the amended C21: the 64-bit operand of the pending `i32` phi arrives from
block 1, whose target block 10 ends in a branch. -/
theorem phi_cast_placement_witness :
    tableLookup sampleWidePhiState.localsMap (samplePhiUse.2.d.lclNum, samplePhiUse.2.d.ssaNum)
      = some (.argument 1 (.int 64)) ∧
    tableLookup sampleWidePhiState.blkToLlvmBlkVectorMap samplePhiUse.2.d.gtPredBB = some 10 ∧
    fillPhiArg sampleCompiler (.inst 5 (.int 32)) samplePhiUse sampleWidePhiState
      = .ok () (fillPhiArg sampleCompiler (.inst 5 (.int 32)) samplePhiUse
          sampleWidePhiState).state ∧
    ∃ (castInst : Instruction) (blk : LBasicBlock) (pre : List Instruction)
        (term : Instruction),
      sampleWidePhiState.getBlock 10 = some blk ∧ blk.insts = pre ++ [term] ∧
      term.isTerminator = true ∧
      castInst.opcode.isConversion = true ∧ castInst.operands = [.argument 1 (.int 64)] ∧
      castInst.ty = .int 32 ∧
      (fillPhiArg sampleCompiler (.inst 5 (.int 32)) samplePhiUse sampleWidePhiState).state.emitted
        = sampleWidePhiState.emitted ++ [castInst] ∧
      ((∀ x ∈ pre, x.id ≠ term.id) →
        (fillPhiArg sampleCompiler (.inst 5 (.int 32)) samplePhiUse
            sampleWidePhiState).state.getBlock 10
          = some { blk with insts := pre ++ [castInst, term] }) ∧
      (∀ k, k ≠ 10 →
        (fillPhiArg sampleCompiler (.inst 5 (.int 32)) samplePhiUse
            sampleWidePhiState).state.getBlock k = sampleWidePhiState.getBlock k) ∧
      (fillPhiArg sampleCompiler (.inst 5 (.int 32)) samplePhiUse
          sampleWidePhiState).state.phiIncoming
        = sampleWidePhiState.phiIncoming ++ [(5, .inst castInst.id (.int 32), 10)] ∧
      SameInsertionPoint sampleWidePhiState
        (fillPhiArg sampleCompiler (.inst 5 (.int 32)) samplePhiUse sampleWidePhiState).state :=
  ⟨by decide, by decide, by decide!,
    (phi_cast_placement sampleCompiler sampleWidePhiState 5 (.int 32) samplePhiUse
      (.argument 1 (.int 64)) 10 (by decide) (by decide)).2.1 (by decide)
      (fillPhiArg sampleCompiler (.inst 5 (.int 32)) samplePhiUse sampleWidePhiState).state
      (by decide!)⟩

/-! ## The predicate of a comparison -/

theorem cmpPredicate_eq_spec (oper : genTreeOps) (k u n : Bool) :
    cmpPredicate oper k u n = specCmpPredicate oper k u n := by
  cases oper <;> cases k <;> rfl

/-- C22: a returning `buildCmp` created, after the conversions of its operands, exactly one
compare instruction, whose predicate is the one the specification's table gives for the
node's opcode, the kind of operand 1, the unsigned flag and the NaN-unordered flag, and
recorded that instruction as the node's value. -/
theorem buildCmp_predicate (c : Compiler) (node op1 : GenTree) (s s1 : Llvm)
    (h1 : node.gtOp1 = some op1) (h : buildCmp c node s = .ok () s1) :
    ∃ (p : Predicate) (l : List Instruction) (cmpInst : Instruction) (a b : Value),
      specCmpPredicate node.OperGet (c.varTypeIsIntegralOrI op1.TypeGet) node.d.GTF_UNSIGNED
        node.d.GTF_RELOP_NAN_UN = some p ∧
      s1.emitted = s.emitted ++ l ++ [cmpInst] ∧
      (∀ i ∈ l, i.opcode.isConversion = true) ∧
      cmpInst.opcode = .Cmp p ∧ cmpInst.operands = [a, b] ∧ cmpInst.ty = getInt1Ty ∧
      tableLookup s1.sdsuMap node.id = some (.inst cmpInst.id getInt1Ty) := by
  unfold buildCmp at h
  rw [h1] at h
  rw [m_bind_ok (deref_some op1 s)] at h
  dsimp only at h
  obtain ⟨p, hp, h⟩ := deref_bind_inv h
  rw [cmpPredicate_eq_spec] at hp
  obtain ⟨v1, sA, hA, h⟩ := m_bind_inv h
  obtain ⟨lA, eA, pA⟩ := (emits_consumeValue c op1 none).run _ _ _ hA
  obtain ⟨op2, _, h⟩ := deref_bind_inv h
  obtain ⟨v2, sB, hB, h⟩ := m_bind_inv h
  obtain ⟨lB, eB, pB⟩ := (emits_consumeValue c op2 none).run _ _ _ hB
  have htail : ∀ (y : Value × Value) (sC : Llvm) (lC : List Instruction),
      sC.emitted = sB.emitted ++ lC → (∀ i ∈ lC, i.opcode.isConversion = true) →
      (create { opcode := .Cmp p, ty := getInt1Ty, operands := [y.1, y.2] } >>=
        fun cmpValue => mapGenTreeToValue c node cmpValue) sC = .ok () s1 →
      ∃ (p : Predicate) (l : List Instruction) (cmpInst : Instruction) (a b : Value),
        specCmpPredicate node.OperGet (c.varTypeIsIntegralOrI op1.TypeGet) node.d.GTF_UNSIGNED
          node.d.GTF_RELOP_NAN_UN = some p ∧
        s1.emitted = s.emitted ++ l ++ [cmpInst] ∧
        (∀ i ∈ l, i.opcode.isConversion = true) ∧
        cmpInst.opcode = .Cmp p ∧ cmpInst.operands = [a, b] ∧ cmpInst.ty = getInt1Ty ∧
        tableLookup s1.sdsuMap node.id = some (.inst cmpInst.id getInt1Ty) := by
    intro y sC lC eC pC h
    obtain ⟨cv, sD, hD, h⟩ := m_bind_inv h
    obtain ⟨hcv, esD⟩ := create_inv hD
    have e1 := mapGenTreeToValue_inv h
    refine ⟨p, lA ++ lB ++ lC,
      sC.newInst sC.builder { opcode := .Cmp p, ty := getInt1Ty, operands := [y.1, y.2] },
      y.1, y.2, hp, ?_, ?_, rfl, rfl, rfl, ?_⟩
    · rw [e1, esD]
      show sC.emitted ++ _ = _
      rw [eC, eB, eA]
      simp
    · intro i hi
      rcases List.mem_append.mp hi with hi | hi
      · rcases List.mem_append.mp hi with hi | hi
        · exact pA i hi
        · exact pB i hi
      · exact pC i hi
    · rw [e1, hcv]
      show tableLookup (tableSet sD.sdsuMap node.id _) node.id = _
      rw [tableLookup_tableSet, if_pos rfl]
      rfl
  by_cases hne : v1.getType ≠ v2.getType
  · rw [if_pos hne] at h
    obtain ⟨h, _⟩ := jitAssert_bind_inv h
    by_cases hptr : v1.getType.isPointerTy = true
    · rw [if_pos hptr] at h
      obtain ⟨cst, sD, hD, h⟩ := m_bind_inv h
      have hE : Emits (fun i => i.opcode.isConversion = true)
          (create { opcode := .IntToPtr, ty := v1.getType, operands := [v2] }) :=
        emits_create (fun _ _ => rfl)
      obtain ⟨lD, eD, pD⟩ := hE.run _ _ _ hD
      exact htail (v1, cst) sD lD eD pD h
    · rw [if_neg hptr] at h
      obtain ⟨cst, sD, hD, h⟩ := m_bind_inv h
      have hE : Emits (fun i => i.opcode.isConversion = true)
          (create { opcode := .IntToPtr, ty := v2.getType, operands := [v1] }) :=
        emits_create (fun _ _ => rfl)
      obtain ⟨lD, eD, pD⟩ := hE.run _ _ _ hD
      exact htail (cst, v2) sD lD eD pD h
  · rw [if_neg hne] at h
    exact htail (v1, v2) sB [] (by simp) (by simp) h

/-- Witness of C22: the unsigned comparison `a < b` of two `INT` values is lowered to one
unsigned integer less-than compare. -/
theorem buildCmp_predicate_witness :
    sampleCmpNode.gtOp1 = some (.leaf { id := 1, gtOper := .GT_LCL_VAR, lclNum := 0, ssaNum := 1 }) ∧
    buildCmp sampleCompiler sampleCmpNode sampleOperandState
      = .ok () (buildCmp sampleCompiler sampleCmpNode sampleOperandState).state ∧
    (buildCmp sampleCompiler sampleCmpNode sampleOperandState).state.emitted.map
        (fun i => (i.opcode, i.operands))
      = [(.Cmp .ICMP_ULT, [.argument 1 (.int 32), .argument 2 (.int 32)])] ∧
    ∃ (p : Predicate) (l : List Instruction) (cmpInst : Instruction) (a b : Value),
      specCmpPredicate sampleCmpNode.OperGet
        (sampleCompiler.varTypeIsIntegralOrI
          (GenTree.leaf { id := 1, gtOper := .GT_LCL_VAR, lclNum := 0, ssaNum := 1 }).TypeGet)
        sampleCmpNode.d.GTF_UNSIGNED sampleCmpNode.d.GTF_RELOP_NAN_UN = some p ∧
      (buildCmp sampleCompiler sampleCmpNode sampleOperandState).state.emitted
        = sampleOperandState.emitted ++ l ++ [cmpInst] ∧
      (∀ i ∈ l, i.opcode.isConversion = true) ∧
      cmpInst.opcode = .Cmp p ∧ cmpInst.operands = [a, b] ∧ cmpInst.ty = getInt1Ty ∧
      tableLookup (buildCmp sampleCompiler sampleCmpNode sampleOperandState).state.sdsuMap
        sampleCmpNode.id = some (.inst cmpInst.id getInt1Ty) :=
  ⟨rfl, by decide!, by decide!,
    buildCmp_predicate sampleCompiler sampleCmpNode
      (.leaf { id := 1, gtOper := .GT_LCL_VAR, lclNum := 0, ssaNum := 1 }) sampleOperandState
      (buildCmp sampleCompiler sampleCmpNode sampleOperandState).state rfl (by decide!)⟩

/-! ## Casts -/

/-- The tail of every arm of `buildCast` that creates an instruction: the instruction is
created and recorded as the value of the cast. -/
theorem buildCast_tail (c : Compiler) (cast : GenTree) (sA : Llvm) (v : Value) (op : Opcode)
    (T : LType) (hfresh : c.debug = true → tableLookup sA.sdsuMap cast.id = none) :
    ∃ s1, (create { opcode := op, ty := T, operands := [v] } >>=
        fun castValue => mapGenTreeToValue c cast castValue) sA = .ok () s1 ∧
      EmitsOneAs sA s1 cast op T v := by
  have hfresh2 : c.debug = true →
      tableLookup (sA.insert sA.builder { opcode := op, ty := T, operands := [v] }).sdsuMap
        cast.id = none := hfresh
  have hrun : (create { opcode := op, ty := T, operands := [v] } >>=
      fun castValue => mapGenTreeToValue c cast castValue) sA =
      .ok () { (sA.insert sA.builder { opcode := op, ty := T, operands := [v] }) with
        sdsuMap := tableSet sA.sdsuMap cast.id (.inst sA.nextValueId T),
        sdsuWrites := sA.sdsuWrites ++ [cast.id] } := by
    rw [m_bind_ok (create_apply _ sA), mapGenTreeToValue_ok hfresh2]
    rfl
  refine ⟨_, hrun, ?_⟩
  unfold EmitsOneAs
  refine ⟨sA.newInst sA.builder { opcode := op, ty := T, operands := [v] }, rfl, rfl, rfl, rfl,
    ?_⟩
  show tableLookup (tableSet _ cast.id _) cast.id = _
  rw [tableLookup_tableSet, if_pos rfl]
  rfl

/-- C23: a cast whose operand has the actual type `INT` or `LONG` and whose target type is
`BOOL`, `BYTE`, `UBYTE`, `SHORT`, `USHORT`, `INT` or `UINT`, once its operand is consumed as
`v`: `buildCast` returns, the one instruction it creates is a truncation of `v` to the
target's type (no sign or zero extension), and the truncation is recorded as the value of
the cast. -/
theorem buildCast_int_to_small (c : Compiler) (cast castOp : GenTree) (s sA : Llvm) (v : Value)
    (hop : cast.gtOp1 = some castOp)
    (hfrom : c.genActualType castOp.TypeGet = .TYP_INT ∨
      c.genActualType castOp.TypeGet = .TYP_LONG)
    (hto : cast.d.gtCastType ∈ [var_types.TYP_BOOL, .TYP_BYTE, .TYP_UBYTE, .TYP_SHORT,
      .TYP_USHORT, .TYP_INT, .TYP_UINT])
    (hc : consumeValue c castOp
      (some (c.getLlvmTypeForVarType (c.genActualType castOp.TypeGet))) s = .ok v sA)
    (hfresh : c.debug = true → tableLookup sA.sdsuMap cast.id = none) :
    ∃ s1, buildCast c cast s = .ok () s1 ∧
      EmitsOneAs sA s1 cast .Trunc (c.getLlvmTypeForVarType cast.d.gtCastType) v := by
  simp only [List.mem_cons, List.mem_singleton, List.not_mem_nil, or_false] at hto
  unfold buildCast
  rw [hop, m_bind_ok (deref_some _ _)]
  dsimp only
  rw [m_bind_ok hc]
  rcases hfrom with hf | hf <;> rw [hf] <;> dsimp only <;>
    rcases hto with ht | ht | ht | ht | ht | ht | ht <;> rw [ht] <;> dsimp only <;>
    exact buildCast_tail c cast sA v _ _ hfresh

/-- Witness of C23: the cast of an `INT` to `SHORT`. -/
theorem buildCast_int_to_small_witness :
    ∃ s1, buildCast sampleCompiler (sampleCast .TYP_SHORT false) sampleOperandState = .ok () s1 ∧
      EmitsOneAs sampleOperandState s1 (sampleCast .TYP_SHORT false) .Trunc
        (sampleCompiler.getLlvmTypeForVarType (sampleCast .TYP_SHORT false).d.gtCastType)
        (.argument 1 (.int 32)) :=
  buildCast_int_to_small sampleCompiler (sampleCast .TYP_SHORT false) sampleCastOperand
    sampleOperandState sampleOperandState (.argument 1 (.int 32)) rfl (Or.inl (by decide))
    (by decide) (by decide!) (by decide)

/-- Counterexample to C24 as stated: the cast of an `INT` to `ULONG` is not lowered, it is
the unsupported-shape failure, whether the cast is flagged unsigned or not. -/
theorem buildCast_int_to_wide_counterexample :
    sampleCompiler.genActualType sampleCastOperand.TypeGet = .TYP_INT ∧
    buildCast sampleCompiler (sampleCast .TYP_ULONG true) sampleOperandState
      = .failed .unsupportedShape sampleOperandState.deleteBody ∧
    buildCast sampleCompiler (sampleCast .TYP_ULONG false) sampleOperandState
      = .failed .unsupportedShape sampleOperandState.deleteBody := by
  decide!

/-- C24 as the code has it: a cast whose operand has the actual type `INT`, once its operand
is consumed as `v`.  To `LONG`: `buildCast` returns and the one instruction it creates is a
zero extension of `v` when the cast is flagged unsigned and a sign extension otherwise.  To
`FLOAT` or `DOUBLE`: it returns and the one instruction is an unsigned-integer-to-floating
conversion when the cast is flagged unsigned and a signed one otherwise.  To `ULONG`: it is
the unsupported-shape failure. -/
theorem buildCast_int_to_wide (c : Compiler) (cast castOp : GenTree) (s sA : Llvm) (v : Value)
    (hop : cast.gtOp1 = some castOp)
    (hfrom : c.genActualType castOp.TypeGet = .TYP_INT)
    (hc : consumeValue c castOp
      (some (c.getLlvmTypeForVarType (c.genActualType castOp.TypeGet))) s = .ok v sA)
    (hfresh : c.debug = true → tableLookup sA.sdsuMap cast.id = none) :
    (cast.d.gtCastType = .TYP_LONG →
      ∃ s1, buildCast c cast s = .ok () s1 ∧
        EmitsOneAs sA s1 cast (if cast.d.GTF_UNSIGNED = true then .ZExt else .SExt)
          (c.getLlvmTypeForVarType cast.d.gtCastType) v) ∧
    (cast.d.gtCastType = .TYP_FLOAT ∨ cast.d.gtCastType = .TYP_DOUBLE →
      ∃ s1, buildCast c cast s = .ok () s1 ∧
        EmitsOneAs sA s1 cast (if cast.d.GTF_UNSIGNED = true then .UIToFP else .SIToFP)
          (c.getLlvmTypeForVarType cast.d.gtCastType) v) ∧
    (cast.d.gtCastType = .TYP_ULONG →
      buildCast c cast s = .failed .unsupportedShape sA.deleteBody) := by
  refine ⟨fun ht => ?_, fun ht => ?_, fun ht => ?_⟩
  · unfold buildCast
    rw [hop, m_bind_ok (deref_some _ _)]
    dsimp only
    rw [m_bind_ok hc, hfrom]
    dsimp only
    rw [ht]
    dsimp only
    cases hu : cast.d.GTF_UNSIGNED
    · simp only [Bool.false_eq_true, if_false]
      exact buildCast_tail c cast sA v _ _ hfresh
    · simp only [if_true]
      exact buildCast_tail c cast sA v _ _ hfresh
  · unfold buildCast
    rw [hop, m_bind_ok (deref_some _ _)]
    dsimp only
    rw [m_bind_ok hc, hfrom]
    dsimp only
    rcases ht with ht | ht <;> rw [ht] <;> dsimp only <;> cases hu : cast.d.GTF_UNSIGNED
    · simp only [Bool.false_eq_true, if_false]
      exact buildCast_tail c cast sA v _ _ hfresh
    · simp only [if_true]
      exact buildCast_tail c cast sA v _ _ hfresh
    · simp only [Bool.false_eq_true, if_false]
      exact buildCast_tail c cast sA v _ _ hfresh
    · simp only [if_true]
      exact buildCast_tail c cast sA v _ _ hfresh
  · unfold buildCast
    rw [hop, m_bind_ok (deref_some _ _)]
    dsimp only
    rw [m_bind_ok hc, hfrom]
    dsimp only
    rw [ht]
    rfl

/-- Witness of the amended C24: the cast of an `INT` to `LONG`, flagged unsigned, is one
zero extension. -/
theorem buildCast_int_to_wide_witness :
    sampleCompiler.genActualType sampleCastOperand.TypeGet = .TYP_INT ∧
    ∃ s1, buildCast sampleCompiler (sampleCast .TYP_LONG true) sampleOperandState = .ok () s1 ∧
      EmitsOneAs sampleOperandState s1 (sampleCast .TYP_LONG true)
        (if (sampleCast .TYP_LONG true).d.GTF_UNSIGNED = true then .ZExt else .SExt)
        (sampleCompiler.getLlvmTypeForVarType (sampleCast .TYP_LONG true).d.gtCastType)
        (.argument 1 (.int 32)) :=
  ⟨by decide,
    (buildCast_int_to_wide sampleCompiler (sampleCast .TYP_LONG true) sampleCastOperand
      sampleOperandState sampleOperandState (.argument 1 (.int 32)) rfl (by decide)
      (by decide!) (by decide)).1 rfl⟩

/-- C25: a cast once its operand is consumed as `v`.  When the operand's actual type is
`FLOAT` or `DOUBLE`, `buildCast` returns and the one instruction it creates is a
floating-to-floating conversion for a `FLOAT` or `DOUBLE` target, a floating-to-signed
conversion for a `BYTE`, `SHORT`, `INT` or `LONG` target and a floating-to-unsigned
conversion for a `BOOL`, `UBYTE`, `USHORT`, `UINT` or `ULONG` target, whatever the cast's
unsigned flag.  When the operand's actual type is none of `INT`, `LONG`, `FLOAT`, `DOUBLE`
it is the unsupported-shape failure. -/
theorem buildCast_from_float (c : Compiler) (cast castOp : GenTree) (s sA : Llvm) (v : Value)
    (hop : cast.gtOp1 = some castOp)
    (hc : consumeValue c castOp
      (some (c.getLlvmTypeForVarType (c.genActualType castOp.TypeGet))) s = .ok v sA)
    (hfresh : c.debug = true → tableLookup sA.sdsuMap cast.id = none) :
    (c.genActualType castOp.TypeGet = .TYP_FLOAT ∨ c.genActualType castOp.TypeGet = .TYP_DOUBLE →
      (cast.d.gtCastType ∈ [var_types.TYP_FLOAT, .TYP_DOUBLE] →
        ∃ s1, buildCast c cast s = .ok () s1 ∧
          EmitsOneAs sA s1 cast .FPCast (c.getLlvmTypeForVarType cast.d.gtCastType) v) ∧
      (cast.d.gtCastType ∈ [var_types.TYP_BYTE, .TYP_SHORT, .TYP_INT, .TYP_LONG] →
        ∃ s1, buildCast c cast s = .ok () s1 ∧
          EmitsOneAs sA s1 cast .FPToSI (c.getLlvmTypeForVarType cast.d.gtCastType) v) ∧
      (cast.d.gtCastType ∈ [var_types.TYP_BOOL, .TYP_UBYTE, .TYP_USHORT, .TYP_UINT, .TYP_ULONG] →
        ∃ s1, buildCast c cast s = .ok () s1 ∧
          EmitsOneAs sA s1 cast .FPToUI (c.getLlvmTypeForVarType cast.d.gtCastType) v)) ∧
    (c.genActualType castOp.TypeGet ∉ [var_types.TYP_INT, .TYP_LONG, .TYP_FLOAT, .TYP_DOUBLE] →
      buildCast c cast s = .failed .unsupportedShape sA.deleteBody) := by
  refine ⟨fun hfrom => ⟨fun hto => ?_, fun hto => ?_, fun hto => ?_⟩, fun hfrom => ?_⟩
  · simp only [List.mem_cons, List.mem_singleton, List.not_mem_nil, or_false] at hto
    unfold buildCast
    rw [hop, m_bind_ok (deref_some _ _)]
    dsimp only
    rw [m_bind_ok hc]
    rcases hfrom with hf | hf <;> rw [hf] <;> dsimp only <;>
      rcases hto with ht | ht <;> rw [ht] <;> dsimp only <;>
      exact buildCast_tail c cast sA v _ _ hfresh
  · simp only [List.mem_cons, List.mem_singleton, List.not_mem_nil, or_false] at hto
    unfold buildCast
    rw [hop, m_bind_ok (deref_some _ _)]
    dsimp only
    rw [m_bind_ok hc]
    rcases hfrom with hf | hf <;> rw [hf] <;> dsimp only <;>
      rcases hto with ht | ht | ht | ht <;> rw [ht] <;> dsimp only <;>
      exact buildCast_tail c cast sA v _ _ hfresh
  · simp only [List.mem_cons, List.mem_singleton, List.not_mem_nil, or_false] at hto
    unfold buildCast
    rw [hop, m_bind_ok (deref_some _ _)]
    dsimp only
    rw [m_bind_ok hc]
    rcases hfrom with hf | hf <;> rw [hf] <;> dsimp only <;>
      rcases hto with ht | ht | ht | ht | ht <;> rw [ht] <;> dsimp only <;>
      exact buildCast_tail c cast sA v _ _ hfresh
  · simp only [List.mem_cons, List.mem_singleton, List.not_mem_nil, or_false, not_or] at hfrom
    unfold buildCast
    rw [hop, m_bind_ok (deref_some _ _)]
    dsimp only
    rw [m_bind_ok hc]
    cases hf : c.genActualType castOp.TypeGet <;>
      first
      | exact absurd hf hfrom.1
      | exact absurd hf hfrom.2.1
      | exact absurd hf hfrom.2.2.1
      | exact absurd hf hfrom.2.2.2
      | rfl

/-- Witness of C25: the cast of a `DOUBLE` to `UINT`, not flagged unsigned, is one
floating-to-unsigned conversion. -/
theorem buildCast_from_float_witness :
    sampleCompiler.genActualType sampleDoubleOperand.TypeGet = .TYP_DOUBLE ∧
    ∃ s1, buildCast sampleCompiler (sampleDoubleCast .TYP_UINT false) sampleDoubleOperandState
        = .ok () s1 ∧
      EmitsOneAs sampleDoubleOperandState s1 (sampleDoubleCast .TYP_UINT false) .FPToUI
        (sampleCompiler.getLlvmTypeForVarType (sampleDoubleCast .TYP_UINT false).d.gtCastType)
        (.constFP .double 0) :=
  ⟨by decide,
    ((buildCast_from_float sampleCompiler (sampleDoubleCast .TYP_UINT false) sampleDoubleOperand
      sampleDoubleOperandState sampleDoubleOperandState (.constFP .double 0) rfl (by decide!)
      (by decide)).1 (Or.inr (by decide))).2.2 (by decide)⟩

/-! ## Dynamic-extent stack allocation of a non-zero size -/

/-- Recording the value of a node that has no entry yet: the step returns, creates nothing
and the node's entry is the value. -/
theorem mapGenTreeToValue_finish (c : Compiler) (node : GenTree) (v : Value) (S sA : Llvm)
    (hmap : S.sdsuMap = sA.sdsuMap)
    (hfresh : c.debug = true → tableLookup sA.sdsuMap node.id = none) :
    ∃ s1, mapGenTreeToValue c node v S = .ok () s1 ∧ s1.emitted = S.emitted ∧
      tableLookup s1.sdsuMap node.id = some v := by
  refine ⟨_, mapGenTreeToValue_ok (fun hd => by rw [hmap]; exact hfresh hd) v, rfl, ?_⟩
  show tableLookup (tableSet _ node.id _) node.id = _
  rw [tableLookup_tableSet, if_pos rfl]

/-- C26: `buildLclHeap` of a node whose size operand is not the constant 0, once the size is
consumed as `sizeValue`, where the size of a `DOUBLE` is 8 bytes.  The handler returns.  It
creates one allocation of `sizeValue` bytes aligned to 8; then, exactly when the method
requires zero-initialised memory, one zero fill of `sizeValue` bytes of the allocation; then,
for a constant size, nothing more, and the allocation is the value recorded for the node;
for a size that is not a constant, a compare of the size with zero and a select between the
allocation and the null byte pointer, and the select is the value recorded. -/
theorem lclHeap_nonzero_size (c : Compiler) (lclHeap sizeNode : GenTree) (s sA : Llvm)
    (sizeValue : Value)
    (hop : lclHeap.gtOp1 = some sizeNode)
    (hnz : sizeNode.IsIntegralConst 0 = false)
    (hty : c.debug = true → genActualTypeIsIntOrI c sizeNode = true)
    (hsz : c.genTypeSize .TYP_DOUBLE = 8)
    (hc : consumeValue c sizeNode
      (some (c.getLlvmTypeForVarType (c.genActualType sizeNode.TypeGet))) s = .ok sizeValue sA)
    (hfresh : c.debug = true → tableLookup sA.sdsuMap lclHeap.id = none) :
    ∃ (s1 : Llvm) (allocaInst : Instruction) (fill tail : List Instruction),
      buildLclHeap c lclHeap s = .ok () s1 ∧
      s1.emitted = sA.emitted ++ [allocaInst] ++ fill ++ tail ∧
      allocaInst.opcode = .Alloca getInt8Ty ∧ allocaInst.operands = [sizeValue] ∧
      allocaInst.align = some 8 ∧ allocaInst.ty = getInt8PtrTy ∧
      (c.compInitMem = true → ∃ m : Instruction, fill = [m] ∧ m.opcode = .MemSet ∧
        m.operands = [.inst allocaInst.id getInt8PtrTy, getInt8 0, sizeValue] ∧
        m.align = some 8) ∧
      (c.compInitMem = false → fill = []) ∧
      (sizeNode.IsIntegralConstAny = true → tail = [] ∧
        tableLookup s1.sdsuMap lclHeap.id = some (.inst allocaInst.id getInt8PtrTy)) ∧
      (sizeNode.IsIntegralConstAny = false → ∃ cmp sel : Instruction, tail = [cmp, sel] ∧
        cmp.opcode = .Cmp .ICMP_NE ∧
        cmp.operands = [sizeValue, .nullValue sizeValue.getType] ∧
        sel.opcode = .Select ∧
        sel.operands = [.inst cmp.id getInt1Ty, .inst allocaInst.id getInt8PtrTy,
          .nullValue getInt8PtrTy] ∧
        tableLookup s1.sdsuMap lclHeap.id = some (.inst sel.id getInt8PtrTy)) := by
  unfold buildLclHeap
  rw [hop, m_bind_ok (deref_some sizeNode s), m_bind_ok (jitAssert_ok hty s), m_bind_ok hc]
  simp only [hnz, Bool.false_eq_true, if_false, hsz]
  cases hm : c.compInitMem <;> cases hk : sizeNode.IsIntegralConstAny <;>
    simp only [Bool.false_eq_true, if_false, if_true, Bool.not_false, Bool.not_true]
  · -- no zero fill, size not a constant
    obtain ⟨s1, hrun, hem, hlk⟩ := mapGenTreeToValue_finish c lclHeap
      (.inst (sA.nextValueId + 1 + 1) getInt8PtrTy)
      (((sA.insert sA.builder { opcode := .Alloca getInt8Ty, ty := getInt8PtrTy, operands := [sizeValue], align := some 8 }).insert sA.builder { opcode := .Cmp .ICMP_NE, ty := getInt1Ty, operands := [sizeValue, .nullValue sizeValue.getType] }).insert sA.builder
        { opcode := .Select, ty := getInt8PtrTy, operands := [.inst (sA.nextValueId + 1) getInt1Ty, .inst sA.nextValueId getInt8PtrTy, .nullValue getInt8PtrTy] }) sA rfl hfresh
    refine ⟨s1, sA.newInst sA.builder { opcode := .Alloca getInt8Ty, ty := getInt8PtrTy, operands := [sizeValue], align := some 8 }, [],
      [(sA.insert sA.builder { opcode := .Alloca getInt8Ty, ty := getInt8PtrTy, operands := [sizeValue], align := some 8 }).newInst sA.builder { opcode := .Cmp .ICMP_NE, ty := getInt1Ty, operands := [sizeValue, .nullValue sizeValue.getType] },
       ((sA.insert sA.builder { opcode := .Alloca getInt8Ty, ty := getInt8PtrTy, operands := [sizeValue], align := some 8 }).insert sA.builder { opcode := .Cmp .ICMP_NE, ty := getInt1Ty, operands := [sizeValue, .nullValue sizeValue.getType] }).newInst sA.builder
         { opcode := .Select, ty := getInt8PtrTy, operands := [.inst (sA.nextValueId + 1) getInt1Ty, .inst sA.nextValueId getInt8PtrTy, .nullValue getInt8PtrTy] }],
      ?_, ?_, rfl, rfl, rfl, rfl, fun h => h.elim, fun _ => rfl, fun h => h.elim,
      fun _ => ⟨_, _, rfl, rfl, rfl, rfl, rfl, hlk⟩⟩
    · rw [m_bind_ok (create_apply _ _), m_bind_ok (m_pure_apply _ _),
        m_bind_ok (create_apply _ _), m_bind_ok (create_apply _ _)]
      exact hrun
    · rw [hem]
      simp [Llvm.insert]
  · -- no zero fill, constant size
    obtain ⟨s1, hrun, hem, hlk⟩ := mapGenTreeToValue_finish c lclHeap
      (.inst sA.nextValueId getInt8PtrTy) (sA.insert sA.builder { opcode := .Alloca getInt8Ty, ty := getInt8PtrTy, operands := [sizeValue], align := some 8 }) sA rfl hfresh
    refine ⟨s1, sA.newInst sA.builder { opcode := .Alloca getInt8Ty, ty := getInt8PtrTy, operands := [sizeValue], align := some 8 }, [], [],
      ?_, ?_, rfl, rfl, rfl, rfl, fun h => h.elim, fun _ => rfl, fun _ => ⟨rfl, hlk⟩,
      fun h => Bool.noConfusion h⟩
    · rw [m_bind_ok (create_apply _ _), m_bind_ok (m_pure_apply _ _),
        m_bind_ok (m_pure_apply _ _)]
      exact hrun
    · rw [hem]
      simp [Llvm.insert]
  · -- zero fill, size not a constant
    obtain ⟨s1, hrun, hem, hlk⟩ := mapGenTreeToValue_finish c lclHeap
      (.inst (sA.nextValueId + 1 + 1 + 1) getInt8PtrTy)
      ((((sA.insert sA.builder { opcode := .Alloca getInt8Ty, ty := getInt8PtrTy, operands := [sizeValue], align := some 8 }).insert sA.builder { opcode := .MemSet, ty := .void, operands := [.inst sA.nextValueId getInt8PtrTy, getInt8 0, sizeValue], align := some 8 }).insert sA.builder { opcode := .Cmp .ICMP_NE, ty := getInt1Ty, operands := [sizeValue, .nullValue sizeValue.getType] }).insert sA.builder
        { opcode := .Select, ty := getInt8PtrTy, operands := [.inst (sA.nextValueId + 1 + 1) getInt1Ty, .inst sA.nextValueId getInt8PtrTy, .nullValue getInt8PtrTy] }) sA rfl hfresh
    refine ⟨s1, sA.newInst sA.builder { opcode := .Alloca getInt8Ty, ty := getInt8PtrTy, operands := [sizeValue], align := some 8 },
      [(sA.insert sA.builder { opcode := .Alloca getInt8Ty, ty := getInt8PtrTy, operands := [sizeValue], align := some 8 }).newInst sA.builder { opcode := .MemSet, ty := .void, operands := [.inst sA.nextValueId getInt8PtrTy, getInt8 0, sizeValue], align := some 8 }],
      [((sA.insert sA.builder { opcode := .Alloca getInt8Ty, ty := getInt8PtrTy, operands := [sizeValue], align := some 8 }).insert sA.builder { opcode := .MemSet, ty := .void, operands := [.inst sA.nextValueId getInt8PtrTy, getInt8 0, sizeValue], align := some 8 }).newInst sA.builder { opcode := .Cmp .ICMP_NE, ty := getInt1Ty, operands := [sizeValue, .nullValue sizeValue.getType] },
       (((sA.insert sA.builder { opcode := .Alloca getInt8Ty, ty := getInt8PtrTy, operands := [sizeValue], align := some 8 }).insert sA.builder { opcode := .MemSet, ty := .void, operands := [.inst sA.nextValueId getInt8PtrTy, getInt8 0, sizeValue], align := some 8 }).insert sA.builder { opcode := .Cmp .ICMP_NE, ty := getInt1Ty, operands := [sizeValue, .nullValue sizeValue.getType] }).newInst sA.builder
         { opcode := .Select, ty := getInt8PtrTy, operands := [.inst (sA.nextValueId + 1 + 1) getInt1Ty, .inst sA.nextValueId getInt8PtrTy, .nullValue getInt8PtrTy] }],
      ?_, ?_, rfl, rfl, rfl, rfl, fun _ => ⟨_, rfl, rfl, rfl, rfl⟩, fun h => Bool.noConfusion h,
      fun h => h.elim, fun _ => ⟨_, _, rfl, rfl, rfl, rfl, rfl, hlk⟩⟩
    · rw [m_bind_ok (create_apply _ _), m_bind_ok (create_apply _ _),
        m_bind_ok (m_pure_apply _ _), m_bind_ok (create_apply _ _),
        m_bind_ok (create_apply _ _)]
      exact hrun
    · rw [hem]
      simp [Llvm.insert]
  · -- zero fill, constant size
    obtain ⟨s1, hrun, hem, hlk⟩ := mapGenTreeToValue_finish c lclHeap
      (.inst sA.nextValueId getInt8PtrTy) ((sA.insert sA.builder { opcode := .Alloca getInt8Ty, ty := getInt8PtrTy, operands := [sizeValue], align := some 8 }).insert sA.builder { opcode := .MemSet, ty := .void, operands := [.inst sA.nextValueId getInt8PtrTy, getInt8 0, sizeValue], align := some 8 }) sA rfl hfresh
    refine ⟨s1, sA.newInst sA.builder { opcode := .Alloca getInt8Ty, ty := getInt8PtrTy, operands := [sizeValue], align := some 8 },
      [(sA.insert sA.builder { opcode := .Alloca getInt8Ty, ty := getInt8PtrTy, operands := [sizeValue], align := some 8 }).newInst sA.builder { opcode := .MemSet, ty := .void, operands := [.inst sA.nextValueId getInt8PtrTy, getInt8 0, sizeValue], align := some 8 }], [],
      ?_, ?_, rfl, rfl, rfl, rfl, fun _ => ⟨_, rfl, rfl, rfl, rfl⟩, fun h => Bool.noConfusion h,
      fun _ => ⟨rfl, hlk⟩, fun h => Bool.noConfusion h⟩
    · rw [m_bind_ok (create_apply _ _), m_bind_ok (create_apply _ _),
        m_bind_ok (m_pure_apply _ _), m_bind_ok (m_pure_apply _ _)]
      exact hrun
    · rw [hem]
      simp [Llvm.insert]

/-- Witness of C26: an allocation whose size is a parameter, in a method that does not
require zero-initialised memory. -/
theorem lclHeap_nonzero_size_witness :
    sampleCastOperand.IsIntegralConst 0 = false ∧
    sampleCompiler.genTypeSize .TYP_DOUBLE = 8 ∧
    sampleCompiler.compInitMem = false ∧
    sampleCastOperand.IsIntegralConstAny = false ∧
    ∃ (s1 : Llvm) (allocaInst : Instruction) (fill tail : List Instruction),
      buildLclHeap sampleCompiler sampleDynamicLclHeap sampleOperandState = .ok () s1 ∧
      s1.emitted = sampleOperandState.emitted ++ [allocaInst] ++ fill ++ tail ∧
      allocaInst.opcode = .Alloca getInt8Ty ∧ allocaInst.operands = [.argument 1 (.int 32)] ∧
      allocaInst.align = some 8 ∧ allocaInst.ty = getInt8PtrTy ∧
      (sampleCompiler.compInitMem = true → ∃ m : Instruction, fill = [m] ∧ m.opcode = .MemSet ∧
        m.operands = [.inst allocaInst.id getInt8PtrTy, getInt8 0, .argument 1 (.int 32)] ∧
        m.align = some 8) ∧
      (sampleCompiler.compInitMem = false → fill = []) ∧
      (sampleCastOperand.IsIntegralConstAny = true → tail = [] ∧
        tableLookup s1.sdsuMap sampleDynamicLclHeap.id
          = some (.inst allocaInst.id getInt8PtrTy)) ∧
      (sampleCastOperand.IsIntegralConstAny = false → ∃ cmp sel : Instruction,
        tail = [cmp, sel] ∧
        cmp.opcode = .Cmp .ICMP_NE ∧
        cmp.operands = [.argument 1 (.int 32), .nullValue (Value.argument 1 (.int 32)).getType] ∧
        sel.opcode = .Select ∧
        sel.operands = [.inst cmp.id getInt1Ty, .inst allocaInst.id getInt8PtrTy,
          .nullValue getInt8PtrTy] ∧
        tableLookup s1.sdsuMap sampleDynamicLclHeap.id = some (.inst sel.id getInt8PtrTy)) :=
  ⟨by decide, by decide, by decide, by decide,
    lclHeap_nonzero_size sampleCompiler sampleDynamicLclHeap sampleCastOperand
      sampleOperandState sampleOperandState (.argument 1 (.int 32)) rfl (by decide)
      (fun _ => by decide) (by decide) (by decide!) (fun _ => by decide)⟩

/-! ## Consuming a value without a demanded type -/

theorem consumeValue_none_eq (c : Compiler) (node : GenTree) (s : Llvm) (v : Value)
    (hv : tableLookup s.sdsuMap node.id = some v) :
    consumeValue c node none s =
      if (!v.getType.isIntegerTy) = true then .ok v s
      else consumeValueTo c node v (c.getLlvmTypeForVarType (c.genActualType node.TypeGet)) s := by
  unfold consumeValue
  rw [m_bind_ok (getGenTreeValue_of_lookup hv)]
  dsimp only
  split <;> rfl

/-- C27: `consumeValue` without a demanded type, for a node whose raw value is `v`.  When
`v` is not of integer type it is returned as it is and nothing is created.  When `v` is of
integer type and `consumeValue` returns, the result has the target type of the node's actual
type; `v` itself is returned, and nothing is created, when its type is that type already;
and when `v` is an integer narrower than 32 bits and that type is the 32-bit integer, the
result is one sign or zero extension of `v` to the 32-bit integer. -/
theorem consumeValue_no_demand (c : Compiler) (s : Llvm) (node : GenTree) (v : Value)
    (hv : tableLookup s.sdsuMap node.id = some v) :
    (v.getType.isIntegerTy = false → consumeValue c node none s = .ok v s) ∧
    (v.getType.isIntegerTy = true →
      (v.getType = c.getLlvmTypeForVarType (c.genActualType node.TypeGet) →
        consumeValue c node none s = .ok v s) ∧
      (∀ r s1, consumeValue c node none s = .ok r s1 →
        r.getType = c.getLlvmTypeForVarType (c.genActualType node.TypeGet)) ∧
      (∀ n, v.getType = .int n → n < 32 →
        c.getLlvmTypeForVarType (c.genActualType node.TypeGet) = getInt32Ty →
        ∀ r s1, consumeValue c node none s = .ok r s1 →
          ∃ op, (op = Opcode.SExt ∨ op = Opcode.ZExt) ∧ r = .inst s.nextValueId getInt32Ty ∧
            s1 = s.insert s.builder { opcode := op, ty := getInt32Ty, operands := [v] })) := by
  rw [consumeValue_none_eq c node s v hv]
  refine ⟨fun hni => ?_, fun hi => ⟨fun hty => ?_, fun r s1 h => ?_, fun n hn hlt hT r s1 h => ?_⟩⟩
  · rw [hni]
    rfl
  · rw [hi, ← hty]
    exact consumeValueTo_same c node v s
  · rw [hi] at h
    rcases consumeValueTo_inv h with ⟨e1, e2, _⟩ | ⟨_, op, _, e2, _⟩
    · rw [e2, e1]
    · rw [e2]
      rfl
  · rw [hi, hT] at h
    unfold consumeValueTo at h
    have hsame : v.getType ≠ getInt32Ty := by
      rw [hn]
      intro e
      injection e with e
      omega
    have g1 : ¬ (v.getType = getInt32Ty ∧ getInt32Ty.isPointerTy = true) := fun g => hsame g.1
    have g2 : ¬ (v.getType.isPointerTy = true ∧ getInt32Ty = getInt32Ty) := by
      rw [hn]
      exact fun g => Bool.noConfusion g.1
    have g3 : ¬ (v.getType.isPointerTy = true ∧ getInt32Ty.isPointerTy = true) := by
      rw [hn]
      exact fun g => Bool.noConfusion g.1
    rw [if_pos hsame, if_neg g1, if_neg g2, if_neg g3] at h
    have h := (jitAssert_bind_inv h).1
    have hlt2 : v.getType.getPrimitiveSizeInBits < getInt32Ty.getPrimitiveSizeInBits := by
      rw [hn]
      exact hlt
    rw [if_pos hlt2] at h
    obtain ⟨t, h⟩ := consumeValueTrueNodeType_bind_inv h
    have h := (jitAssert_bind_inv h).1
    by_cases hs : c.varTypeIsSigned t = true
    · rw [if_pos hs] at h
      obtain ⟨e1, e2⟩ := create_inv h
      exact ⟨.SExt, Or.inl rfl, e1, e2⟩
    · rw [if_neg hs] at h
      obtain ⟨e1, e2⟩ := create_inv h
      exact ⟨.ZExt, Or.inr rfl, e1, e2⟩

/-- Witness of C27: the 8-bit raw value of a read of a `BYTE` local, consumed without a
demanded type, is sign-extended to the 32-bit integer. -/
theorem consumeValue_no_demand_witness :
    tableLookup sampleByteState.sdsuMap sampleLclVarNode.id = some (.argument 0 (.int 8)) ∧
    consumeValue sampleCompiler sampleLclVarNode none sampleByteState
      = .ok (.inst 0 getInt32Ty) sampleByteStateWidened ∧
    ∃ op, (op = Opcode.SExt ∨ op = Opcode.ZExt) ∧
      Value.inst 0 getInt32Ty = .inst sampleByteState.nextValueId getInt32Ty ∧
      sampleByteStateWidened = sampleByteState.insert sampleByteState.builder
        { opcode := op, ty := getInt32Ty, operands := [.argument 0 (.int 8)] } :=
  ⟨by decide, by decide!,
    ((consumeValue_no_demand sampleCompiler sampleByteState sampleLclVarNode
      (.argument 0 (.int 8)) (by decide)).2 (by decide)).2.2 8 rfl (by decide) (by decide)
      (.inst 0 getInt32Ty) sampleByteStateWidened (by decide!)⟩

/-! ## Operands read without normalisation -/

theorem getLLVMBasicBlockForBlock_emitted {c : Compiler} {o : Option Nat} {s s1 : Llvm}
    {b : Nat} (h : getLLVMBasicBlockForBlock c o s = .ok b s1) : s1.emitted = s.emitted := by
  cases o with
  | none =>
    unfold getLLVMBasicBlockForBlock at h
    have h := getState_bind_inv h
    obtain ⟨_, hn, _⟩ := deref_bind_inv h
    cases hn
  | some k =>
    obtain ⟨t, s2, h2, _, he, _⟩ := getLLVMBasicBlockForBlock_total c k s
    rw [h] at h2
    rw [(Outcome.ok.inj h2).2]
    exact he

theorem emits_any_buildFieldListStore (c : Compiler) (p : Value) (use : UseData × GenTree) :
    Emits (fun _ => True) (buildFieldListStore c p use) := by
  unfold buildFieldListStore createStore
  repeat (first
    | exact emits_pure _
    | exact emits_mono (fun _ _ => trivial) (emits_gepOrAddr _ _)
    | exact emits_mono (fun _ _ => trivial) (emits_castIfNecessary _ _)
    | exact emits_mono (fun _ _ => trivial) (emits_consumeValue _ _ _)
    | exact emits_create (fun _ _ => trivial)
    | apply emits_bind
    | intro _
    | dsimp only)

theorem emits_any_buildUserFuncCallArg (c : Compiler) (use : UseData × GenTree) :
    Emits (fun _ => True) (buildUserFuncCallArg c use) := by
  unfold buildUserFuncCallArg buildFieldList
  repeat (first
    | exact emits_pure _
    | exact emits_deref _
    | exact emits_jitAssert _ _
    | exact emits_mono (fun _ _ => trivial) (emits_consumeValue _ _ _)
    | exact emits_create (fun _ _ => trivial)
    | exact emits_createLoad _ (fun _ _ => trivial)
    | exact emits_forEach (fun u => emits_any_buildFieldListStore c _ u) _
    | apply emits_bind
    | intro _
    | split
    | dsimp only)

theorem getCast_toPtr_inv {v : Value} {T : LType} {s s1 : Llvm} {i : Instruction}
    (hT : T.isPointerTy = true) (h : getCast v T s = .ok (some i) s1) :
    (v.getType.isPointerTy = true ∧ i.opcode = .BitCast) ∨
    (v.getType.isIntegerTy = true ∧ i.opcode = .IntToPtr) := by
  unfold getCast at h
  by_cases hsame : v.getType = T
  · rw [if_pos hsame] at h
    cases (m_pure_inv h).1
  rw [if_neg hsame, if_pos hT] at h
  cases hty : v.getType <;> rw [hty] at h <;> dsimp only at h <;>
    first
    | (have e := Option.some.inj (m_pure_inv h).1
       rw [e]
       first | exact Or.inl ⟨rfl, rfl⟩ | exact Or.inr ⟨rfl, rfl⟩)
    | cases h

/-! ## The shadow stack at helper calls -/

theorem sortHelperArgs_length {sorted r : List (Option (Nat × GenTree))}
    {tab : List (Nat × GenTree)} {s s1 : Llvm}
    (h : sortHelperArgs sorted tab s = .ok r s1) : r.length = sorted.length := by
  induction tab generalizing sorted with
  | nil =>
    unfold sortHelperArgs at h
    rw [(m_pure_inv h).1]
  | cons e rest ih =>
    unfold sortHelperArgs at h
    split at h
    · rw [ih h, List.length_set]
    · cases h

theorem buildHelperArgs_length (c : Compiler) (llvmFunc : LFunction) :
    ∀ (l : List (Option (Nat × GenTree))) (argIx : Nat) (s s1 : Llvm) (r : List Value),
      buildHelperArgs c llvmFunc argIx l s = .ok r s1 → r.length = l.length
  | [], _, s, s1, r, h => by
    unfold buildHelperArgs at h
    rw [(m_pure_inv h).1]
    rfl
  | x :: xs, argIx, s, s1, r, h => by
    unfold buildHelperArgs at h
    obtain ⟨entry, _, h⟩ := deref_bind_inv h
    dsimp only at h
    have htail : ∀ (y : Value) (sA : Llvm),
        (buildHelperArgs c llvmFunc (argIx + 1) xs >>= fun restValues =>
          pure (y :: restValues)) sA = .ok r s1 → r.length = (x :: xs).length := by
      intro y sA h
      obtain ⟨restValues, sB, hB, h⟩ := m_bind_inv h
      rw [(m_pure_inv h).1, List.length_cons, List.length_cons,
        buildHelperArgs_length c llvmFunc xs _ _ _ _ hB]
    split at h
    · have h := modifyState_bind_inv h
      obtain ⟨_, _, _, h⟩ := m_bind_inv h
      obtain ⟨_, _, _, h⟩ := m_bind_inv h
      obtain ⟨_, _, _, h⟩ := m_bind_inv h
      obtain ⟨_, _, h⟩ := deref_bind_inv h
      obtain ⟨y, sA, _, h⟩ := m_bind_inv h
      exact htail y sA h
    · obtain ⟨_, _, h⟩ := deref_bind_inv h
      obtain ⟨y, sA, _, h⟩ := m_bind_inv h
      exact htail y sA h

theorem getOrCreateExternalSymbol_value {name : String} {ty : Option LType} {s s1 : Llvm}
    {v : Value} (h : getOrCreateExternalSymbol name ty s = .ok v s1) :
    ∃ T, v = .globalVariable name T := by
  unfold getOrCreateExternalSymbol at h
  have h := getState_bind_inv h
  cases hg : s.getGlobalVariable name with
  | some g =>
    rw [hg] at h
    have hn : g.name = name := by
      have := List.find?_some hg
      exact of_decide_eq_true this
    exact ⟨g.valueTy, by rw [(m_pure_inv h).1, hn]⟩
  | none =>
    rw [hg] at h
    have h := modifyState_bind_inv h
    exact ⟨_, (m_pure_inv h).1⟩

/-- C29: a returning `buildHelperFuncCall` for a helper that is not on the rejected list and
is not the static-base helper, in a function whose argument 0 is `arg0`.  The call is the
last instruction created.  When `helperRequiresShadowStack` holds for the callee, the
call's actual arguments are the callee's shadow-stack pointer followed by as many explicit
arguments as the call's argument table has entries.  Otherwise the callee's shadow-stack
pointer is stored to the symbol `t_pShadowStackTop` before the arguments are built and
the call is created, and the call's actual arguments are exactly the explicit ones, as many
as the argument table has entries. -/
theorem helper_call_shadow_stack (c : Compiler) (call : GenTree) (s s1 : Llvm) (f : LFunction)
    (arg0 : Value)
    (hf : s.function = some f) (ha : f.getArg 0 = some arg0)
    (hnr : rejectedHelpers.any (fun h => call.d.gtCallMethHnd == c.eeFindHelper h) = false)
    (hns : call.d.gtCallMethHnd ≠ c.eeFindHelper .CORINFO_HELP_READYTORUN_STATIC_BASE)
    (h : buildHelperFuncCall c call s = .ok () s1) :
    (helperRequiresShadowStack c call.d.gtCallMethHnd = true →
      ∃ (l largs : List Instruction) (callInst : Instruction) (callee ss : Value)
          (explicit : List Value),
        s1.emitted = s.emitted ++ l ++ largs ++ [callInst] ∧
        IsCalleeShadowStack c arg0 l ss ∧ (∀ i ∈ l, i.opcode ≠ .Store) ∧
        callInst.opcode = .Call ∧ callInst.operands = callee :: ss :: explicit ∧
        explicit.length = call.ArgTable.length) ∧
    (helperRequiresShadowStack c call.d.gtCallMethHnd = false →
      ∃ (l largs : List Instruction) (storeInst callInst : Instruction) (callee ss : Value)
          (T : LType) (explicit : List Value),
        s1.emitted = s.emitted ++ l ++ [storeInst] ++ largs ++ [callInst] ∧
        IsCalleeShadowStack c arg0 l ss ∧
        storeInst.opcode = .Store ∧
        storeInst.operands = [ss, .globalVariable "t_pShadowStackTop" T] ∧
        callInst.opcode = .Call ∧ callInst.operands = callee :: explicit ∧
        explicit.length = call.ArgTable.length) := by
  unfold buildHelperFuncCall at h
  rw [hnr] at h
  simp only [Bool.false_eq_true, if_false] at h
  rw [m_bind_ok (m_pure_apply _ s), if_neg hns] at h
  obtain ⟨sortedArgs, s0, h0, h⟩ := m_bind_inv h
  have hlen := sortHelperArgs_length h0
  rw [List.length_replicate] at hlen
  rw [sortHelperArgs_inv h0] at h
  clear h0 s0
  obtain ⟨llvmFunc, sA, hA, h⟩ := m_bind_inv h
  obtain ⟨eA, fA, _⟩ := getOrCreateFunction_inv hA
  have h := modifyState_bind_inv h
  obtain ⟨ss, sB, hB, h⟩ := m_bind_inv h
  obtain ⟨l, eB, hss, _, _⟩ :=
    @getShadowStackForCallee_spec _ _ _ _ f arg0 (by show sA.function = _; rw [fA, hf]) ha hB
  have hlS : ∀ i ∈ l, i.opcode ≠ .Store := by
    obtain ⟨_, a0, _, _, hgep⟩ := getShadowStackForCallee_inv hB
    obtain ⟨l0, e0, p0⟩ := (emits_gepOrAddr a0 c.shadowStackLocalsSize).run _ _ _ hgep
    have : l0 = l := List.append_cancel_left (e0.symm.trans eB)
    rw [← this]
    intro i hi hst
    have := p0 i hi
    rw [hst] at this
    cases this
  have eBs : sB.emitted = s.emitted ++ l := by
    rw [eB]
    show sA.emitted ++ l = _
    rw [eA]
  constructor
  · intro hrq
    rw [hrq] at h
    simp only [Bool.not_true, Bool.false_eq_true, if_false, if_true] at h
    rw [m_bind_ok (m_pure_apply _ sB)] at h
    obtain ⟨explicitArgs, sC, hC, h⟩ := m_bind_inv h
    obtain ⟨l2, eC, _⟩ := (emits_buildHelperArgs c llvmFunc sortedArgs 1).run _ _ _ hC
    have hl2 := buildHelperArgs_length c llvmFunc _ _ _ _ _ hC
    obtain ⟨callValue, sD, hD, h⟩ := m_bind_inv h
    obtain ⟨hv, eD⟩ := createCallTo_inv hD
    have e1 := mapGenTreeToValue_inv h
    refine ⟨l, l2, sC.newInst sC.builder
        { opcode := .Call, ty := llvmFunc.fty.returnType,
          operands := .function llvmFunc.name llvmFunc.fty :: ss :: explicitArgs },
      _, ss, explicitArgs, ?_, hss, hlS, rfl, rfl, by rw [hl2, hlen]⟩
    rw [e1, eD]
    show sC.emitted ++ _ = _
    rw [eC, eBs]
    rfl
  · intro hrq
    rw [hrq] at h
    simp only [Bool.not_false, Bool.false_eq_true, if_false, if_true] at h
    obtain ⟨sym, sG, hG, h⟩ := m_bind_inv h
    obtain ⟨T, hT⟩ := getOrCreateExternalSymbol_value hG
    obtain ⟨eG, _⟩ := getOrCreateExternalSymbol_inv hG
    obtain ⟨_, sH, hH, h⟩ := m_bind_inv h
    obtain ⟨_, eH⟩ := create_inv hH
    rw [m_bind_ok (m_pure_apply _ sH)] at h
    obtain ⟨explicitArgs, sC, hC, h⟩ := m_bind_inv h
    obtain ⟨l2, eC, _⟩ := (emits_buildHelperArgs c llvmFunc sortedArgs 0).run _ _ _ hC
    have hl2 := buildHelperArgs_length c llvmFunc _ _ _ _ _ hC
    obtain ⟨callValue, sD, hD, h⟩ := m_bind_inv h
    obtain ⟨hv, eD⟩ := createCallTo_inv hD
    have e1 := mapGenTreeToValue_inv h
    refine ⟨l, l2,
      sG.newInst sG.builder { opcode := .Store, ty := .void, operands := [ss, sym] },
      sC.newInst sC.builder
        { opcode := .Call, ty := llvmFunc.fty.returnType,
          operands := .function llvmFunc.name llvmFunc.fty :: explicitArgs },
      _, ss, T, explicitArgs, ?_, hss, rfl, by rw [hT]; rfl, rfl, rfl, by rw [hl2, hlen]⟩
    rw [e1, eD]
    show sC.emitted ++ _ = _
    rw [eC, eH]
    show sG.emitted ++ _ ++ _ ++ _ = _
    rw [eG, eBs]
    rfl

/-- Witness of C29: a helper without the shadow-stack convention, called with one argument
in a method with 8 bytes of shadow-stack locals. -/
theorem helper_call_shadow_stack_witness :
    helperRequiresShadowStack sampleFrameCompiler sampleHelperCall.d.gtCallMethHnd = false ∧
    (buildHelperFuncCall sampleFrameCompiler sampleHelperCall sampleHelperState).state.emitted.map
        (fun i => (i.opcode, i.operands.length))
      = [(.GEP, 2), (.Store, 2), (.Call, 2)] ∧
    ∃ (l largs : List Instruction) (storeInst callInst : Instruction) (callee ss : Value)
        (T : LType) (explicit : List Value),
      (buildHelperFuncCall sampleFrameCompiler sampleHelperCall sampleHelperState).state.emitted
        = sampleHelperState.emitted ++ l ++ [storeInst] ++ largs ++ [callInst] ∧
      IsCalleeShadowStack sampleFrameCompiler (.argument 0 getInt8PtrTy) l ss ∧
      storeInst.opcode = .Store ∧
      storeInst.operands = [ss, .globalVariable "t_pShadowStackTop" T] ∧
      callInst.opcode = .Call ∧ callInst.operands = callee :: explicit ∧
      explicit.length = sampleHelperCall.ArgTable.length :=
  ⟨by decide, by decide!,
    (helper_call_shadow_stack sampleFrameCompiler sampleHelperCall sampleHelperState
      (buildHelperFuncCall sampleFrameCompiler sampleHelperCall sampleHelperState).state
      { name := "Sample__Method", fty := .func .void [getInt8PtrTy] } (.argument 0 getInt8PtrTy)
      (by decide) (by decide) (by decide) (by decide) (by decide!)).2 (by decide)⟩

/-! ## The writes of `storeObjAtAddress`, field by field -/

theorem advancedBy_mono {l l2 : List Instruction} {b a : Value} {o : Nat}
    (hsub : ∀ i ∈ l, i ∈ l2) (h : AdvancedBy l b o a) : AdvancedBy l2 b o a := by
  rcases h with h | ⟨ho, g, hg, hrest⟩
  · exact Or.inl h
  · exact Or.inr ⟨ho, g, hsub g hg, hrest⟩

theorem addressAt_mono {l l2 : List Instruction} (hsub : ∀ i ∈ l, i ∈ l2) :
    ∀ (path : List Nat) (b a : Value), AddressAt l b path a → AddressAt l2 b path a
  | [], _, _, h => h
  | _ :: rest, _, _, ⟨m, hm, hrest⟩ => ⟨m, advancedBy_mono hsub hm, addressAt_mono hsub rest m _ hrest⟩

theorem castOf_mono {l l2 : List Instruction} {a b : Value}
    (hsub : ∀ i ∈ l, i ∈ l2) (h : CastOf l a b) : CastOf l2 a b := by
  rcases h with h | ⟨g, hg, hrest⟩
  · exact Or.inl h
  · exact Or.inr ⟨g, hsub g hg, hrest⟩

theorem writesLeaf_mono {l l2 : List Instruction} {base : Value} {path : List Nat}
    {fd : FieldDesc} {w : Instruction} (hsub : ∀ i ∈ l, i ∈ l2)
    (h : WritesLeaf l base path fd w) : WritesLeaf l2 base path fd w := by
  obtain ⟨addr, ha, hcase⟩ := h
  refine ⟨addr, addressAt_mono hsub path base addr ha, ?_⟩
  rcases hcase with hgc | ⟨hn, v, ta, h1, h2, h3⟩
  · exact Or.inl hgc
  · exact Or.inr ⟨hn, v, ta, h1, h2, castOf_mono hsub h3⟩

theorem writesLeaf_advance {l : List Instruction} {base a : Value} {o : Nat} {path : List Nat}
    {fd : FieldDesc} {w : Instruction} (hadv : AdvancedBy l base o a)
    (h : WritesLeaf l a path fd w) : WritesLeaf l base (o :: path) fd w := by
  obtain ⟨addr, ha, hcase⟩ := h
  exact ⟨addr, ⟨a, hadv, ha⟩, hcase⟩

theorem forall2_writesLeaf_mono {l l2 : List Instruction} {base : Value}
    (hsub : ∀ i ∈ l, i ∈ l2) {ws : List Instruction} {leaves : List (List Nat × FieldDesc)}
    (h : List.Forall₂ (fun w (leaf : List Nat × FieldDesc) => WritesLeaf l base leaf.1 leaf.2 w)
      ws leaves) :
    List.Forall₂ (fun w (leaf : List Nat × FieldDesc) => WritesLeaf l2 base leaf.1 leaf.2 w)
      ws leaves :=
  h.imp (fun _ _ hw => writesLeaf_mono hsub hw)

theorem filter_fieldWrite_nil {l : List Instruction}
    (h : l.filterMap Instruction.fieldWrite = []) :
    l.filter (fun i => i.fieldWrite.isSome) = [] := by
  rw [List.filterMap_eq_nil_iff] at h
  rw [List.filter_eq_nil_iff]
  intro i hi
  rw [h i hi]
  simp

theorem writesAt_of_writes {α : Type} {m : M α} (base : Value) (h : Writes [] m) :
    WritesAt base [] m := by
  constructor
  intro s a s1 hrun
  obtain ⟨l, hl, hw⟩ := h.run s a s1 hrun
  refine ⟨l, hl, ?_⟩
  rw [filter_fieldWrite_nil hw]
  exact List.Forall₂.nil

theorem writesAt_bind {α β : Type} {base : Value} {w1 w2 : List (List Nat × FieldDesc)}
    {m : M α} {f : α → M β}
    (hm : WritesAt base w1 m) (hf : ∀ a, WritesAt base w2 (f a)) :
    WritesAt base (w1 ++ w2) (m >>= f) := by
  constructor
  intro s b s2 h
  obtain ⟨a, s1, h1, h2⟩ := m_bind_inv h
  obtain ⟨l1, e1, p1⟩ := hm.run s a s1 h1
  obtain ⟨l2, e2, p2⟩ := (hf a).run s1 b s2 h2
  refine ⟨l1 ++ l2, by rw [e2, e1, List.append_assoc], ?_⟩
  rw [List.filter_append]
  exact List.rel_append
    (forall2_writesLeaf_mono (fun i hi => List.mem_append_left _ hi) p1)
    (forall2_writesLeaf_mono (fun i hi => List.mem_append_right _ hi) p2)

theorem writesAt_bind_silent {α β : Type} {base : Value} {w : List (List Nat × FieldDesc)}
    {m : M α} {f : α → M β}
    (hm : Writes [] m) (hf : ∀ a, WritesAt base w (f a)) : WritesAt base w (m >>= f) :=
  writesAt_bind (writesAt_of_writes base hm) hf

theorem writesAt_bind_last {α β : Type} {base : Value} {w : List (List Nat × FieldDesc)}
    {m : M α} {f : α → M β}
    (hm : WritesAt base w m) (hf : ∀ a, Writes [] (f a)) : WritesAt base w (m >>= f) := by
  have := writesAt_bind hm (fun a => writesAt_of_writes base (hf a))
  rwa [List.append_nil] at this

theorem writesAt_bind_ret {α β : Type} {base : Value} {w : List (List Nat × FieldDesc)}
    {Q : α → Prop} {m : M α} {f : α → M β} (hm : Writes [] m) (hq : Returns Q m)
    (hf : ∀ a, Q a → WritesAt base w (f a)) : WritesAt base w (m >>= f) := by
  constructor
  intro s b s2 h
  obtain ⟨a, s1, h1, h2⟩ := m_bind_inv h
  obtain ⟨l1, e1, p1⟩ := hm.run s a s1 h1
  obtain ⟨l2, e2, p2⟩ := (hf a (hq.run s a s1 h1)).run s1 b s2 h2
  refine ⟨l1 ++ l2, by rw [e2, e1, List.append_assoc], ?_⟩
  rw [List.filter_append, filter_fieldWrite_nil p1, List.nil_append]
  exact forall2_writesLeaf_mono (fun i hi => List.mem_append_right _ hi) p2

theorem writesAt_unreached {α : Type} (base : Value) (w : List (List Nat × FieldDesc)) :
    WritesAt base w (unreached : M α) :=
  ⟨fun _ _ _ h => by cases h⟩

/-- What follows `gepOrAddr` writes relative to the address it returns; relative to the base
each path is one offset longer. -/
theorem writesAt_gepOrAddr {β : Type} {base : Value} {o : Nat}
    {w : List (List Nat × FieldDesc)} {f : Value → M β}
    (hf : ∀ a, WritesAt a w (f a)) :
    WritesAt base (w.map (fun p => (o :: p.1, p.2))) (gepOrAddr base o >>= f) := by
  constructor
  intro s b s2 h
  obtain ⟨a, s1, h1, h2⟩ := m_bind_inv h
  obtain ⟨l2, e2, p2⟩ := (hf a).run s1 b s2 h2
  have hg : ∃ l1, s1.emitted = s.emitted ++ l1 ∧ l1.filterMap Instruction.fieldWrite = [] ∧
      AdvancedBy l1 base o a := by
    obtain ⟨l1, e1, p1⟩ := (writes_gepOrAddr base o).run s a s1 h1
    refine ⟨l1, e1, p1, ?_⟩
    unfold gepOrAddr at h1
    by_cases ho : o = 0
    · rw [if_pos ho] at h1
      exact Or.inl ⟨ho, (m_pure_inv h1).1⟩
    · rw [if_neg ho] at h1
      obtain ⟨hr, hs⟩ := create_inv h1
      have hem : s1.emitted = s.emitted ++
          [s.newInst s.builder { opcode := .GEP, ty := base.getType, operands := [base, getInt32 o] }] := by
        rw [hs]
        rfl
      rw [e1] at hem
      have hl1 := List.append_cancel_left hem
      refine Or.inr ⟨ho, _, by rw [hl1]; exact List.mem_singleton_self _, rfl, rfl, ?_⟩
      rw [hr]
      rfl
  obtain ⟨l1, e1, p1, hadv⟩ := hg
  refine ⟨l1 ++ l2, by rw [e2, e1, List.append_assoc], ?_⟩
  rw [List.filter_append, filter_fieldWrite_nil p1, List.nil_append, List.forall₂_map_right_iff]
  exact p2.imp (fun _ _ hw =>
    writesLeaf_advance (advancedBy_mono (fun i hi => List.mem_append_left _ hi) hadv)
      (writesLeaf_mono (fun i hi => List.mem_append_right _ hi) hw))

theorem writesAt_single {base : Value} {fd : FieldDesc} {pre : List Instruction}
    {w : Instruction} (hpre : pre.filterMap Instruction.fieldWrite = [])
    (hw : w.fieldWrite.isSome = true) (hleaf : WritesLeaf (pre ++ [w]) base [] fd w) :
    List.Forall₂ (fun i (leaf : List Nat × FieldDesc) =>
        WritesLeaf (pre ++ [w]) base leaf.1 leaf.2 i)
      ((pre ++ [w]).filter (fun i => i.fieldWrite.isSome)) [([], fd)] := by
  rw [List.filter_append, filter_fieldWrite_nil hpre, List.nil_append]
  have hf : [w].filter (fun i => i.fieldWrite.isSome) = [w] := by
    rw [List.filter_eq_self]
    intro a ha
    rw [List.mem_singleton.mp ha]
    exact hw
  rw [hf]
  exact List.Forall₂.cons hleaf List.Forall₂.nil

/-- The write of a garbage-collected pointer field: one call of the checked write barrier
with the field address and the value as a byte pointer. -/
theorem writesAt_barrier {α : Type} (address fieldData : Value) (fd : FieldDesc) (x : α)
    (hg : fd.isGcPointer = true) :
    WritesAt address [([], fd)] (do
      let f ← getOrCreateRhpCheckedAssignRef
      let fieldPtr ← castIfNecessary fieldData getInt8PtrTy
      let _ ← createCallTo f [address, fieldPtr]
      pure x) := by
  constructor
  intro s r s4 h
  obtain ⟨f, s1, hF, h⟩ := m_bind_inv h
  obtain ⟨fieldPtr, s2, hC, h⟩ := m_bind_inv h
  obtain ⟨cv, s3, hK, h⟩ := m_bind_inv h
  obtain ⟨_, e4⟩ := m_pure_inv h
  unfold getOrCreateRhpCheckedAssignRef at hF
  obtain ⟨e1, _, hname, _⟩ := getOrCreateFunction_inv hF
  obtain ⟨lc, e2, pc⟩ := (writes_castIfNecessary fieldData getInt8PtrTy).run s1 fieldPtr s2 hC
  have hty := castIfNecessary_type hC
  obtain ⟨_, e3⟩ := createCallTo_inv hK
  have hem : s4.emitted = s.emitted ++ (lc ++ [s2.newInst s2.builder
      { opcode := .Call, ty := f.fty.returnType,
        operands := .function f.name f.fty :: [address, fieldPtr] }]) := by
    rw [e4, e3, ← List.append_assoc, ← e1, ← e2]
    rfl
  refine ⟨_, hem, writesAt_single pc ?_ ⟨address, rfl, Or.inl ⟨hg, f.fty, fieldPtr, rfl, ?_, hty⟩⟩⟩
  · simp [Llvm.newInst, Instruction.fieldWrite, Instruction.isCallTo, hname]
  · show [Value.function f.name f.fty, address, fieldPtr] = _
    rw [hname]

/-- The write of any other leaf field: one store of the value through the field address,
itself or converted to a pointer to the value's type. -/
theorem writesAt_store {α : Type} (address fieldData : Value) (fd : FieldDesc) (x : α)
    (hg : fd.isGcPointer = false) :
    WritesAt address [([], fd)] (do
      let typedAddress ← castIfNecessary address fieldData.getType.getPointerTo
      let _ ← createStore fieldData typedAddress
      pure x) := by
  constructor
  intro s r s4 h
  obtain ⟨typedAddress, s2, hC, h⟩ := m_bind_inv h
  obtain ⟨cv, s3, hK, h⟩ := m_bind_inv h
  obtain ⟨_, e4⟩ := m_pure_inv h
  obtain ⟨lc, e2, pc⟩ := (writes_castIfNecessary _ _).run s typedAddress s2 hC
  obtain ⟨_, e3⟩ := create_inv hK
  have hem : s4.emitted = s.emitted ++ (lc ++ [s2.newInst s2.builder
      { opcode := .Store, ty := .void, operands := [fieldData, typedAddress] }]) := by
    rw [e4, e3, ← List.append_assoc, ← e2]
    rfl
  have hcast : CastOf lc address typedAddress := by
    rcases castIfNecessary_inv hC with ⟨hr, _, _⟩ | ⟨i, hop, hity, hops, _, hr, hs⟩
    · exact Or.inl hr
    · have hl : s2.emitted = s.emitted ++ [s.newInst s.builder i] := by
        rw [hs]
        rfl
      rw [e2] at hl
      have hlc := List.append_cancel_left hl
      refine Or.inr ⟨s.newInst s.builder i, by rw [hlc]; exact List.mem_singleton_self _,
        hop, hops, ?_⟩
      rw [hr]
      show _ = Value.inst s.nextValueId i.ty
      rw [hity]
  refine ⟨_, hem, writesAt_single pc ?_
    ⟨address, rfl, Or.inr ⟨hg, fieldData, typedAddress, rfl, rfl,
      castOf_mono (fun i hi => List.mem_append_left _ hi) hcast⟩⟩⟩
  simp [Llvm.newInst, Instruction.fieldWrite, Instruction.isCallTo]

/-- The field writes of one iteration of the loop of `storeObjAtAddress`, relative to the
base address: those of the recursive call on the field's address for a field whose value is a
target struct, otherwise one write at the field's address. -/
theorem writesAt_storeObjField (c : Compiler) (baseAddress data : Value) (p : Bool)
    (fd : FieldDesc) (recurse : Value → Value → M Unit) (wsub : List (List Nat × FieldDesc))
    (hrec : ∀ a v, v.getType = fieldValueType c data.getType fd → WritesAt a wsub (recurse a v))
    (n : Nat) :
    WritesAt baseAddress
      ((if (fieldValueType c data.getType fd).isStructTy then wsub else [([], fd)]).map
        (fun q => (fd.fieldOffset :: q.1, q.2)))
      (storeObjField c baseAddress data p fd recurse n) := by
  have tail : ∀ (address fieldData : Value) (bytes : Nat),
      fieldData.getType = fieldValueType c data.getType fd →
      WritesAt address (if (fieldValueType c data.getType fd).isStructTy then wsub
              else [([], fd)])
        (if fieldData.getType.isStructTy = true then do
            jitAssert c fd.classHandle.isSome
            recurse address fieldData
            pure (bytes + fieldData.getType.getPrimitiveSizeInBits / 8)
          else
            if fd.isGcPointer = true then do
              let f ← getOrCreateRhpCheckedAssignRef
              let fieldPtr ← castIfNecessary fieldData getInt8PtrTy
              let _ ← createCallTo f [address, fieldPtr]
              pure (bytes + c.TARGET_POINTER_SIZE)
            else do
              let typedAddress ← castIfNecessary address fieldData.getType.getPointerTo
              let _ ← createStore fieldData typedAddress
              pure (bytes + fieldData.getType.getPrimitiveSizeInBits / 8)) := by
    intro address fieldData bytes hty
    rw [← hty]
    by_cases hs : fieldData.getType.isStructTy = true
    · rw [if_pos hs, if_pos hs]
      exact writesAt_bind_silent (writes_jitAssert _ _)
        (fun _ => writesAt_bind_last (hrec address fieldData hty) (fun _ => writes_pure _))
    · rw [if_neg hs, if_neg hs]
      by_cases hg : fd.isGcPointer = true
      · rw [if_pos hg]
        exact writesAt_barrier address fieldData fd _ hg
      · rw [if_neg hg]
        exact writesAt_store address fieldData fd _ (by simpa using hg)
  have mid : ∀ (address : Value) (bytes : Nat),
      WritesAt address (if (fieldValueType c data.getType fd).isStructTy then wsub
              else [([], fd)])
        (if data.getType.isStructTy = true then
          create
              { opcode := .ExtractValue (c.getElementContainingOffset data.getType fd.fieldOffset),
                ty := c.getStructElementType data.getType
                  (c.getElementContainingOffset data.getType fd.fieldOffset),
                operands := [data] } >>= fun fieldData =>
            if fieldData.getType.isStructTy = true then do
              jitAssert c fd.classHandle.isSome
              recurse address fieldData
              pure (bytes + fieldData.getType.getPrimitiveSizeInBits / 8)
            else
              if fd.isGcPointer = true then do
                let f ← getOrCreateRhpCheckedAssignRef
                let fieldPtr ← castIfNecessary fieldData getInt8PtrTy
                let _ ← createCallTo f [address, fieldPtr]
                pure (bytes + c.TARGET_POINTER_SIZE)
              else do
                let typedAddress ← castIfNecessary address fieldData.getType.getPointerTo
                let _ ← createStore fieldData typedAddress
                pure (bytes + fieldData.getType.getPrimitiveSizeInBits / 8)
        else
          (pure data : M Value) >>= fun fieldData =>
            if fieldData.getType.isStructTy = true then do
              jitAssert c fd.classHandle.isSome
              recurse address fieldData
              pure (bytes + fieldData.getType.getPrimitiveSizeInBits / 8)
            else
              if fd.isGcPointer = true then do
                let f ← getOrCreateRhpCheckedAssignRef
                let fieldPtr ← castIfNecessary fieldData getInt8PtrTy
                let _ ← createCallTo f [address, fieldPtr]
                pure (bytes + c.TARGET_POINTER_SIZE)
              else do
                let typedAddress ← castIfNecessary address fieldData.getType.getPointerTo
                let _ ← createStore fieldData typedAddress
                pure (bytes + fieldData.getType.getPrimitiveSizeInBits / 8)) := by
    intro address bytes
    by_cases hd : data.getType.isStructTy = true
    · rw [if_pos hd]
      refine writesAt_bind_ret
        (writes_of_emits (emits_create (fun _ _ => fieldWrite_extract rfl)))
        (returns_create _) (fun fieldData hfd => tail address fieldData bytes ?_)
      rw [hfd]
      unfold fieldValueType
      rw [if_pos hd]
    · rw [if_neg hd]
      refine writesAt_bind_ret (writes_pure _) (returns_pure _)
        (fun fieldData hfd => tail address fieldData bytes ?_)
      rw [hfd]
      unfold fieldValueType
      rw [if_neg hd]
  unfold storeObjField
  dsimp only
  refine writesAt_gepOrAddr (fun address => ?_)
  by_cases hp : p = true ∧ fd.fieldOffset > n
  · rw [if_pos hp]
    refine writesAt_bind_silent (writes_buildMemCpy _ _ _ _) (fun copied => ?_)
    exact writesAt_bind_silent (writes_pure _) (fun y => mid address y)
  · rw [if_neg hp]
    exact writesAt_bind_silent (writes_pure _) (fun y => mid address y)

theorem map_leafPath_ite (b : Bool) (l : List (List Nat × FieldDesc)) (fd : FieldDesc) :
    (if b = true then l.map (fun q => (fd.fieldOffset :: q.1, q.2)) else [([fd.fieldOffset], fd)]) =
      (if b = true then l else [([], fd)]).map (fun q => (fd.fieldOffset :: q.1, q.2)) := by
  cases b <;> rfl

mutual
/-- The field writes of `storeObjAtAddress` are, one for one and in layout order, writes of the
leaf fields of the layout, each at the base address advanced by the offsets that lead to it. -/
theorem writesAt_storeObjAtAddress (c : Compiler) :
    ∀ (sd : StructDesc) (baseAddress data : Value),
      WritesAt baseAddress (leafPaths c data.getType sd)
        (storeObjAtAddress c baseAddress data sd)
  | .mk fields p, baseAddress, data => by
    rw [storeObjAtAddress, leafPaths]
    exact writesAt_bind_last (writesAt_storeObjFields c p fields baseAddress data 0)
      (fun _ => writes_storeObjTail _ _ _ _)
theorem writesAt_storeObjFields (c : Compiler) (p : Bool) :
    ∀ (fields : List (FieldDesc × Option StructDesc)) (baseAddress data : Value) (n : Nat),
      WritesAt baseAddress (leafPathsOf c data.getType fields)
        (storeObjFields c baseAddress data p fields n)
  | [], baseAddress, _, n => by
    rw [storeObjFields, leafPathsOf]
    exact writesAt_of_writes baseAddress (writes_pure n)
  | (fd, none) :: rest, baseAddress, data, n => by
    rw [storeObjFields, leafPathsOf]
    have h1 := writesAt_storeObjField c baseAddress data p fd (fun _ _ => unreached) []
      (fun a _ _ => writesAt_unreached a _) n
    rw [← map_leafPath_ite] at h1
    exact writesAt_bind h1 (fun n1 => writesAt_storeObjFields c p rest baseAddress data n1)
  | (fd, some sd) :: rest, baseAddress, data, n => by
    rw [storeObjFields, leafPathsOf, map_leafPath_ite]
    exact writesAt_bind
      (writesAt_storeObjField c baseAddress data p fd _ _
        (fun a v hv => by
          rw [← hv]
          exact writesAt_storeObjAtAddress c sd a v) n)
      (fun n1 => writesAt_storeObjFields c p rest baseAddress data n1)
end

mutual
theorem leafPaths_fields (c : Compiler) :
    ∀ (sd : StructDesc) (dataTy : LType),
      (leafPaths c dataTy sd).map Prod.snd = leafFields c dataTy sd
  | .mk fields _, dataTy => by
    rw [leafPaths, leafFields]
    exact leafPathsOf_fields c fields dataTy
theorem leafPathsOf_fields (c : Compiler) :
    ∀ (fields : List (FieldDesc × Option StructDesc)) (dataTy : LType),
      (leafPathsOf c dataTy fields).map Prod.snd = leafFieldsOf c dataTy fields
  | [], _ => by
    rw [leafPathsOf, leafFieldsOf]
    rfl
  | (fd, none) :: rest, dataTy => by
    rw [leafPathsOf, leafFieldsOf, List.map_append, leafPathsOf_fields c rest dataTy]
    cases (fieldValueType c dataTy fd).isStructTy <;> rfl
  | (fd, some sd) :: rest, dataTy => by
    rw [leafPathsOf, leafFieldsOf, List.map_append, leafPathsOf_fields c rest dataTy]
    cases hb : (fieldValueType c dataTy fd).isStructTy
    · rfl
    · simp only [if_true]
      rw [List.map_map, ← leafPaths_fields c sd (fieldValueType c dataTy fd)]
      rfl
end

/-- C30: a returning `storeObjAtAddress` writes each leaf field of the layout exactly once,
recursing through nested aggregate fields: the field writes among the instructions it creates
(calls of the checked write barrier and plain stores) correspond one for one, in layout
order, to the leaf fields.  The write of a garbage-collected pointer leaf is a call of the
checked write barrier with the field address and the value as a byte pointer, not a store;
the write of any other leaf is a plain store through the field address.  The field address is
the base address advanced by the offset of each field on the way to the leaf, outermost
first, an offset of 0 leaving the address as it is. -/
theorem storeObj_leaf_writes (c : Compiler) (sd : StructDesc) (baseAddress data : Value)
    (s s1 : Llvm) (h : storeObjAtAddress c baseAddress data sd s = .ok () s1) :
    ∃ l, s1.emitted = s.emitted ++ l ∧
      List.Forall₂
        (fun w (leaf : List Nat × FieldDesc) => WritesLeaf l baseAddress leaf.1 leaf.2 w)
        (l.filter (fun i => i.fieldWrite.isSome)) (leafPaths c data.getType sd) ∧
      (leafPaths c data.getType sd).map Prod.snd = leafFields c data.getType sd := by
  obtain ⟨l, hl, hw⟩ := (writesAt_storeObjAtAddress c sd baseAddress data).run s () s1 h
  exact ⟨l, hl, hw, leafPaths_fields c sd data.getType⟩

/-- Witness of C30: the store of a struct of a garbage-collected pointer at offset 0 and, at
offset 8, a nested struct of an `INT` at offset 0 and a garbage-collected pointer at offset 4
returns, and its leaves are the pointer at the base, the `INT` at the base advanced by 8 and
the pointer at the base advanced by 8 and then by 4. -/
theorem storeObj_leaf_writes_witness :
    storeObjAtAddress sampleNestedCompiler (.argument 0 getInt8PtrTy) (.argument 1 (.struct 0))
        sampleNestedDesc sampleFunctionState
      = .ok () (storeObjAtAddress sampleNestedCompiler (.argument 0 getInt8PtrTy)
          (.argument 1 (.struct 0)) sampleNestedDesc sampleFunctionState).state ∧
    (leafPaths sampleNestedCompiler (.struct 0) sampleNestedDesc).map
        (fun q => (q.1, q.2.isGcPointer)) = [([0], true), ([8, 0], false), ([8, 4], true)] ∧
    ((storeObjAtAddress sampleNestedCompiler (.argument 0 getInt8PtrTy)
        (.argument 1 (.struct 0)) sampleNestedDesc sampleFunctionState).state.emitted.filter
          (fun i => i.fieldWrite.isSome)).map (fun i => (i.opcode, i.operands.drop 1))
      = [(.Call, [.argument 0 getInt8PtrTy, .inst 0 getInt8PtrTy]),
         (.Store, [.inst 5 (.ptr (.int 32))]),
         (.Call, [.inst 7 getInt8PtrTy, .inst 8 getInt8PtrTy])] ∧
    ∃ l, (storeObjAtAddress sampleNestedCompiler (.argument 0 getInt8PtrTy)
          (.argument 1 (.struct 0)) sampleNestedDesc sampleFunctionState).state.emitted
        = sampleFunctionState.emitted ++ l ∧
      List.Forall₂
        (fun w (leaf : List Nat × FieldDesc) =>
          WritesLeaf l (.argument 0 getInt8PtrTy) leaf.1 leaf.2 w)
        (l.filter (fun i => i.fieldWrite.isSome))
        (leafPaths sampleNestedCompiler (.struct 0) sampleNestedDesc) :=
  ⟨by decide!, by decide!, by decide!,
    (storeObj_leaf_writes sampleNestedCompiler sampleNestedDesc (.argument 0 getInt8PtrTy)
      (.argument 1 (.struct 0)) sampleFunctionState _ (by decide!)).imp
      (fun _ hl => ⟨hl.1, hl.2.1⟩)⟩

/-! ## Instructions that access no memory -/

theorem emits_noAccess_emitNullCheckForIndir {c : Compiler} (hname : ThrowHelperIsNoBarrier c)
    (indir : GenTree) (addr : Value) :
    Emits (fun i => i.isAccess = false) (emitNullCheckForIndir c indir addr) := by
  constructor
  intro s a s1 h
  rcases emitNullCheckForIndir_inv hname h with ⟨_, e⟩ |
    ⟨_, _, _, l, callI, fty, ss, addr8, f, arg0, he, hl, hop, hops, _⟩
  · exact ⟨[], by rw [e]; simp, by simp⟩
  · refine ⟨l ++ [callI], by rw [he, List.append_assoc], fun i hi => ?_⟩
    rcases List.mem_append.mp hi with hi | hi
    · exact hl i hi
    · rw [List.mem_singleton.mp hi]
      exact isAccess_of_call hop hops (by decide) (by decide)

theorem emits_noAccess_consumeValue (c : Compiler) (node : GenTree) (T : Option LType) :
    Emits (fun i => i.isAccess = false) (consumeValue c node T) :=
  emits_mono (fun _ h => isAccess_of_conversion h) (emits_consumeValue c node T)

/-! ## Initialising block stores -/

/-- C37: a returning `buildStoreInd`, whose address and data operands are consumed as
`addrValue` and `dataValue`.  The last instruction created is the write and no instruction
created before it accesses memory (no store, no call of a write barrier).  With the barrier
form no-barrier the write is a plain store of the data through the address, which was
consumed as a pointer to the stored type.  With the form unchecked it is a call of
`RhpAssignRef`, and with the form checked or unknown a call of `RhpCheckedAssignRef`, with
the address, consumed as a byte pointer, and the data. -/
theorem storeInd_barrier_form (c : Compiler) (hname : ThrowHelperIsNoBarrier c)
    (storeIndOp addr data : GenTree) (s s1 : Llvm)
    (ha : storeIndOp.gtOp1 = some addr) (hd : storeIndOp.gtOp2 = some data)
    (h : buildStoreInd c storeIndOp s = .ok () s1) :
    ∃ (pre : List Instruction) (w : Instruction) (addrValue dataValue : Value) (sA sB : Llvm),
      consumeValue c addr
        (some (if c.gcIsWriteBarrierCandidate storeIndOp = .WBF_NoBarrier then
          (c.getLlvmTypeForVarType storeIndOp.TypeGet).getPointerTo else getInt8PtrTy)) s
        = .ok addrValue sA ∧
      consumeValue c data (some (c.getLlvmTypeForVarType storeIndOp.TypeGet)) sA
        = .ok dataValue sB ∧
      dataValue.getType = c.getLlvmTypeForVarType storeIndOp.TypeGet ∧
      s1.emitted = s.emitted ++ pre ++ [w] ∧ (∀ i ∈ pre, i.isAccess = false) ∧
      (c.gcIsWriteBarrierCandidate storeIndOp = .WBF_NoBarrier →
        w.opcode = .Store ∧ w.operands = [dataValue, addrValue] ∧
        addrValue.getType = (c.getLlvmTypeForVarType storeIndOp.TypeGet).getPointerTo) ∧
      (c.gcIsWriteBarrierCandidate storeIndOp = .WBF_BarrierUnchecked →
        w.opcode = .Call ∧ addrValue.getType = getInt8PtrTy ∧
        ∃ fty, w.operands = [.function "RhpAssignRef" fty, addrValue, dataValue]) ∧
      (c.gcIsWriteBarrierCandidate storeIndOp = .WBF_BarrierChecked ∨
          c.gcIsWriteBarrierCandidate storeIndOp = .WBF_BarrierUnknown →
        w.opcode = .Call ∧ addrValue.getType = getInt8PtrTy ∧
        ∃ fty, w.operands = [.function "RhpCheckedAssignRef" fty, addrValue, dataValue]) := by
  unfold buildStoreInd at h
  dsimp only at h
  rw [ha, hd] at h
  rw [m_bind_ok (deref_some addr s)] at h
  obtain ⟨addrValue, sA, hA, h⟩ := m_bind_inv h
  rw [m_bind_ok (deref_some data sA)] at h
  obtain ⟨dataValue, sB, hB, h⟩ := m_bind_inv h
  obtain ⟨_, sC, hC, h⟩ := m_bind_inv h
  obtain ⟨lA, eA, pA⟩ := (emits_noAccess_consumeValue c addr _).run _ _ _ hA
  obtain ⟨lB, eB, pB⟩ := (emits_noAccess_consumeValue c data _).run _ _ _ hB
  obtain ⟨lC, eC, pC⟩ := (emits_noAccess_emitNullCheckForIndir hname storeIndOp addrValue).run
    _ _ _ hC
  have hpre : ∀ i ∈ lA ++ lB ++ lC, i.isAccess = false := by
    intro i hi
    rcases List.mem_append.mp hi with hi | hi
    · rcases List.mem_append.mp hi with hi | hi
      · exact pA i hi
      · exact pB i hi
    · exact pC i hi
  have hemC : sC.emitted = s.emitted ++ (lA ++ lB ++ lC) := by
    rw [eC, eB, eA]
    simp only [List.append_assoc]
  have htyA := consumeValue_some_type hA
  have htyB := consumeValue_some_type hB
  cases hw : c.gcIsWriteBarrierCandidate storeIndOp <;> rw [hw] at h <;> dsimp only at h
  · -- no barrier
    obtain ⟨r, sD, hD, h⟩ := m_bind_inv h
    obtain ⟨_, eD⟩ := create_inv hD
    have e1 := (m_pure_inv h).2
    rw [hw] at htyA hA
    refine ⟨lA ++ lB ++ lC,
      sC.newInst sC.builder { opcode := .Store, ty := .void, operands := [dataValue, addrValue] },
      addrValue, dataValue, sA, sB, hA, hB, htyB, ?_, hpre,
      fun _ => ⟨rfl, rfl, htyA⟩, (fun hx => by cases hx), (fun hx => by rcases hx with hx | hx <;> cases hx)⟩
    rw [e1, eD]
    show sC.emitted ++ [_] = _
    rw [hemC]
  · -- unknown
    obtain ⟨f, sF, hF, h⟩ := m_bind_inv h
    obtain ⟨r, sD, hD, h⟩ := m_bind_inv h
    obtain ⟨_, eD⟩ := createCallTo_inv hD
    have e1 := (m_pure_inv h).2
    unfold getOrCreateRhpCheckedAssignRef at hF
    obtain ⟨eF, _, hname2, _⟩ := getOrCreateFunction_inv hF
    rw [hw] at htyA hA
    refine ⟨lA ++ lB ++ lC,
      sF.newInst sF.builder { opcode := .Call, ty := f.fty.returnType,
                              operands := .function f.name f.fty :: [addrValue, dataValue] },
      addrValue, dataValue, sA, sB, hA, hB, htyB, ?_, hpre,
      (fun hx => by cases hx), (fun hx => by cases hx),
      fun _ => ⟨rfl, htyA, f.fty, ?_⟩⟩
    · rw [e1, eD]
      show sF.emitted ++ [_] = _
      rw [eF, hemC]
    · show [Value.function f.name f.fty, addrValue, dataValue] = _
      rw [hname2]
  · -- checked
    obtain ⟨f, sF, hF, h⟩ := m_bind_inv h
    obtain ⟨r, sD, hD, h⟩ := m_bind_inv h
    obtain ⟨_, eD⟩ := createCallTo_inv hD
    have e1 := (m_pure_inv h).2
    unfold getOrCreateRhpCheckedAssignRef at hF
    obtain ⟨eF, _, hname2, _⟩ := getOrCreateFunction_inv hF
    rw [hw] at htyA hA
    refine ⟨lA ++ lB ++ lC,
      sF.newInst sF.builder { opcode := .Call, ty := f.fty.returnType,
                              operands := .function f.name f.fty :: [addrValue, dataValue] },
      addrValue, dataValue, sA, sB, hA, hB, htyB, ?_, hpre,
      (fun hx => by cases hx), (fun hx => by cases hx),
      fun _ => ⟨rfl, htyA, f.fty, ?_⟩⟩
    · rw [e1, eD]
      show sF.emitted ++ [_] = _
      rw [eF, hemC]
    · show [Value.function f.name f.fty, addrValue, dataValue] = _
      rw [hname2]
  · -- unchecked
    obtain ⟨f, sF, hF, h⟩ := m_bind_inv h
    obtain ⟨r, sD, hD, h⟩ := m_bind_inv h
    obtain ⟨_, eD⟩ := createCallTo_inv hD
    have e1 := (m_pure_inv h).2
    unfold getOrCreateRhpAssignRef at hF
    obtain ⟨eF, _, hname2, _⟩ := getOrCreateFunction_inv hF
    rw [hw] at htyA hA
    refine ⟨lA ++ lB ++ lC,
      sF.newInst sF.builder { opcode := .Call, ty := f.fty.returnType,
                              operands := .function f.name f.fty :: [addrValue, dataValue] },
      addrValue, dataValue, sA, sB, hA, hB, htyB, ?_, hpre,
      (fun hx => by cases hx), fun _ => ⟨rfl, htyA, f.fty, ?_⟩,
      (fun hx => by rcases hx with hx | hx <;> cases hx)⟩
    · rw [e1, eD]
      show sF.emitted ++ [_] = _
      rw [eF, hemC]
    · show [Value.function f.name f.fty, addrValue, dataValue] = _
      rw [hname2]
  · cases h

/-- Witness of C37: with the barrier form unchecked, the store of a managed reference through
an address returns, and the only memory access it creates is the call of `RhpAssignRef` with
the address as a byte pointer and the data. -/
theorem storeInd_barrier_form_witness :
    ThrowHelperIsNoBarrier (sampleBarrierCompiler .WBF_BarrierUnchecked) ∧
    buildStoreInd (sampleBarrierCompiler .WBF_BarrierUnchecked) sampleStoreIndNode
        sampleStoreIndState
      = .ok () (buildStoreInd (sampleBarrierCompiler .WBF_BarrierUnchecked) sampleStoreIndNode
          sampleStoreIndState).state ∧
    ((buildStoreInd (sampleBarrierCompiler .WBF_BarrierUnchecked) sampleStoreIndNode
        sampleStoreIndState).state.emitted.filter Instruction.isAccess).map
          (fun i => (i.opcode, i.operands))
      = [(.Call, [.function "RhpAssignRef" (.func .void [getInt8PtrTy, getInt8PtrTy]),
                  .inst 5 getInt8PtrTy, .inst 4 getInt8PtrTy])] ∧
    ∃ (pre : List Instruction) (w : Instruction) (addrValue dataValue : Value),
      (buildStoreInd (sampleBarrierCompiler .WBF_BarrierUnchecked) sampleStoreIndNode
          sampleStoreIndState).state.emitted = sampleStoreIndState.emitted ++ pre ++ [w] ∧
      (∀ i ∈ pre, i.isAccess = false) ∧ w.opcode = .Call ∧
      ∃ fty, w.operands = [.function "RhpAssignRef" fty, addrValue, dataValue] := by
  refine ⟨⟨by decide, by decide⟩, by decide!, by decide!, ?_⟩
  obtain ⟨pre, w, a, d, _, _, _, _, _, hem, hpre, _, hU, _⟩ :=
    storeInd_barrier_form (sampleBarrierCompiler .WBF_BarrierUnchecked)
      ⟨by decide, by decide⟩ sampleStoreIndNode
      (.leaf { id := 1, gtOper := .GT_LCL_VAR, gtType := .TYP_BYREF })
      (.leaf { id := 2, gtOper := .GT_LCL_VAR, gtType := .TYP_REF })
      sampleStoreIndState
      (buildStoreInd (sampleBarrierCompiler .WBF_BarrierUnchecked) sampleStoreIndNode
        sampleStoreIndState).state rfl rfl (by decide!)
  exact ⟨pre, w, a, d, hem, hpre, (hU rfl).1, (hU rfl).2.2⟩

/-! ## The order of the arguments of a helper call -/

theorem foldl_set_length (tab : List (Nat × GenTree)) :
    ∀ acc : List (Option (Nat × GenTree)),
      (tab.foldl (fun a e => a.set e.1 (some e)) acc).length = acc.length := by
  induction tab with
  | nil => intro acc; rfl
  | cons e rest ih =>
    intro acc
    rw [List.foldl_cons, ih, List.length_set]

theorem foldl_set_untouched (tab : List (Nat × GenTree)) (i : Nat) :
    ∀ acc : List (Option (Nat × GenTree)), i ∉ tab.map Prod.fst →
      (tab.foldl (fun a e => a.set e.1 (some e)) acc)[i]? = acc[i]? := by
  induction tab with
  | nil => intro acc _; rfl
  | cons e rest ih =>
    intro acc hi
    rw [List.map_cons, List.mem_cons, not_or] at hi
    rw [List.foldl_cons, ih _ hi.2, List.getElem?_set_ne (Ne.symm hi.1)]

theorem foldl_set_entry (tab : List (Nat × GenTree)) :
    ∀ acc : List (Option (Nat × GenTree)), (tab.map Prod.fst).Nodup →
      (∀ e ∈ tab, e.1 < acc.length) → ∀ e ∈ tab,
      (tab.foldl (fun a e => a.set e.1 (some e)) acc)[e.1]? = some (some e) := by
  induction tab with
  | nil => intro acc _ _ e he; cases he
  | cons e0 rest ih =>
    intro acc hnd hlt e he
    rw [List.map_cons, List.nodup_cons] at hnd
    rw [List.foldl_cons]
    rcases List.mem_cons.mp he with he | he
    · rw [he, foldl_set_untouched rest e0.1 _ hnd.1, List.getElem?_set_self]
      exact hlt e0 (List.mem_cons_self _ _)
    · exact ih _ hnd.2
        (fun x hx => by rw [List.length_set]; exact hlt x (List.mem_cons_of_mem _ hx)) e he

/-- The loop of lines 993 to 999 is a fold of the table: a returning `sortHelperArgs` leaves
the state as it is and returns the vector in which every table entry was put at the index
`argNum`, in table order. -/
theorem sortHelperArgs_eq {tab : List (Nat × GenTree)} :
    ∀ {sorted r : List (Option (Nat × GenTree))} {s s1 : Llvm},
      sortHelperArgs sorted tab s = .ok r s1 →
      r = tab.foldl (fun a e => a.set e.1 (some e)) sorted := by
  induction tab with
  | nil =>
    intro sorted r s s1 h
    unfold sortHelperArgs at h
    exact (m_pure_inv h).1
  | cons e rest ih =>
    intro sorted r s s1 h
    unfold sortHelperArgs at h
    split at h
    · rw [List.foldl_cons]
      exact ih h
    · cases h

/-- When the `argNum` values of the table are a permutation of the indices, entry `i` of the
sorted vector is the table entry whose `argNum` is `i`. -/
theorem sortHelperArgs_perm {tab : List (Nat × GenTree)} {r : List (Option (Nat × GenTree))}
    {s s1 : Llvm}
    (hperm : (tab.map Prod.fst).Perm (List.range tab.length))
    (h : sortHelperArgs (List.replicate tab.length none) tab s = .ok r s1) :
    ∀ i, i < tab.length → ∃ entry ∈ tab, entry.1 = i ∧ r[i]? = some (some entry) := by
  intro i hi
  have hnd : (tab.map Prod.fst).Nodup := hperm.nodup_iff.mpr (List.nodup_range _)
  have hlt : ∀ e ∈ tab, e.1 < (List.replicate tab.length (none : Option (Nat × GenTree))).length := by
    intro e he
    rw [List.length_replicate]
    exact List.mem_range.mp (hperm.mem_iff.mp (List.mem_map_of_mem _ he))
  have hmem : i ∈ tab.map Prod.fst := hperm.mem_iff.mpr (List.mem_range.mpr hi)
  obtain ⟨entry, he, hfst⟩ := List.mem_map.mp hmem
  refine ⟨entry, he, hfst, ?_⟩
  rw [sortHelperArgs_eq h, ← hfst]
  exact foldl_set_entry tab _ hnd hlt entry he

/-- The loop of lines 1029 to 1043 handles the first entry of the sorted vector as it would
handle it alone, and then handles the rest at the next formal index. -/
theorem buildHelperArgs_cons {c : Compiler} {llvmFunc : LFunction} {argIx : Nat}
    {x : Option (Nat × GenTree)} {xs : List (Option (Nat × GenTree))} {s s1 : Llvm}
    {r : List Value} (h : buildHelperArgs c llvmFunc argIx (x :: xs) s = .ok r s1) :
    ∃ (y : Value) (sA : Llvm) (rest : List Value),
      buildHelperArgs c llvmFunc argIx [x] s = .ok [y] sA ∧
      buildHelperArgs c llvmFunc (argIx + 1) xs sA = .ok rest s1 ∧ r = y :: rest := by
  unfold buildHelperArgs at h
  obtain ⟨entry, sE, hE, h⟩ := m_bind_inv h
  dsimp only at h
  by_cases hc : entry.2.OperGet = .GT_CNS_INT ∧ entry.2.IsIconHandle = true
  · rw [if_pos hc] at h
    obtain ⟨u, s0, h0, h⟩ := m_bind_inv h
    obtain ⟨sym, s2, h2, h⟩ := m_bind_inv h
    obtain ⟨symCast, s3, h3, h⟩ := m_bind_inv h
    obtain ⟨loaded, s4, h4, h⟩ := m_bind_inv h
    obtain ⟨pt, s5, h5, h⟩ := m_bind_inv h
    obtain ⟨y, sA, h6, h⟩ := m_bind_inv h
    obtain ⟨rest, sB, hB, h⟩ := m_bind_inv h
    obtain ⟨er, es⟩ := m_pure_inv h
    refine ⟨y, sA, rest, ?_, by rw [es]; exact hB, er⟩
    unfold buildHelperArgs
    rw [m_bind_ok hE]
    dsimp only
    rw [if_pos hc, m_bind_ok h0, m_bind_ok h2, m_bind_ok h3, m_bind_ok h4, m_bind_ok h5,
      m_bind_ok h6]
    unfold buildHelperArgs
    rfl
  · rw [if_neg hc] at h
    obtain ⟨pt, s5, h5, h⟩ := m_bind_inv h
    obtain ⟨y, sA, h6, h⟩ := m_bind_inv h
    obtain ⟨rest, sB, hB, h⟩ := m_bind_inv h
    obtain ⟨er, es⟩ := m_pure_inv h
    refine ⟨y, sA, rest, ?_, by rw [es]; exact hB, er⟩
    unfold buildHelperArgs
    rw [m_bind_ok hE]
    dsimp only
    rw [if_neg hc, m_bind_ok h5, m_bind_ok h6]
    unfold buildHelperArgs
    rfl

/-- The loop of lines 1029 to 1043 as a chain of single steps: there are states `st 0`,
`st 1`, ... from the starting state to the final one such that the value at position `i` is
the one the loop computes for entry `i` of the sorted vector, handled alone at its formal
index, in the state `st i`, leaving the state `st (i + 1)`. -/
theorem buildHelperArgs_chain {c : Compiler} {llvmFunc : LFunction} :
    ∀ (l : List (Option (Nat × GenTree))) (argIx : Nat) (s s1 : Llvm) (r : List Value),
      buildHelperArgs c llvmFunc argIx l s = .ok r s1 →
      ∃ st : Nat → Llvm, st 0 = s ∧ st l.length = s1 ∧
        ∀ (i : Nat) (x : Option (Nat × GenTree)), l[i]? = some x →
          ∃ v : Value, r[i]? = some v ∧
            buildHelperArgs c llvmFunc (argIx + i) [x] (st i) = .ok [v] (st (i + 1))
  | [], _, s, s1, _, h => by
    unfold buildHelperArgs at h
    obtain ⟨_, e⟩ := m_pure_inv h
    exact ⟨fun _ => s, rfl, e.symm, fun i x hx => by simp at hx⟩
  | x0 :: xs, argIx, s, s1, r, h => by
    obtain ⟨y, sA, rest, h1, h2, er⟩ := buildHelperArgs_cons h
    obtain ⟨st, e0, en, hst⟩ := buildHelperArgs_chain xs (argIx + 1) sA s1 rest h2
    refine ⟨fun k => Nat.casesOn k s (fun j => st j), rfl, en, fun i x hx => ?_⟩
    cases i with
    | zero =>
      rw [List.getElem?_cons_zero] at hx
      rw [← Option.some.inj hx, er]
      refine ⟨y, List.getElem?_cons_zero, ?_⟩
      show buildHelperArgs c llvmFunc (argIx + 0) [x0] s = .ok [y] (st 0)
      rw [e0]
      exact h1
    | succ j =>
      rw [List.getElem?_cons_succ] at hx
      obtain ⟨v, hv, hrun⟩ := hst j x hx
      refine ⟨v, by rw [er, List.getElem?_cons_succ]; exact hv, ?_⟩
      show buildHelperArgs c llvmFunc (argIx + (j + 1)) [x] (st j) = .ok [v] (st (j + 1))
      rw [show argIx + (j + 1) = argIx + 1 + j by omega]
      exact hrun

/-- A single step of the loop of lines 1029 to 1043 for an operand that is no handle constant
is `consumeValue` of the operand with the type of the callee's formal parameter. -/
theorem buildHelperArgs_single {c : Compiler} {llvmFunc : LFunction} {argIx : Nat}
    {entry : Nat × GenTree} {s s1 : Llvm} {v : Value}
    (hc : ¬ (entry.2.OperGet = .GT_CNS_INT ∧ entry.2.IsIconHandle = true))
    (h : buildHelperArgs c llvmFunc argIx [some entry] s = .ok [v] s1) :
    ∃ T, llvmFunc.fty.paramTypes[argIx]? = some T ∧
      consumeValue c entry.2 (some T) s = .ok v s1 := by
  unfold buildHelperArgs at h
  rw [m_bind_ok (deref_some entry s)] at h
  dsimp only at h
  rw [if_neg hc] at h
  obtain ⟨T, sT, hT, h⟩ := m_bind_inv h
  obtain ⟨eT, eS⟩ := deref_inv hT
  obtain ⟨y, sA, hy, h⟩ := m_bind_inv h
  obtain ⟨rest, sB, hB, h⟩ := m_bind_inv h
  unfold buildHelperArgs at hB
  obtain ⟨er, eB⟩ := m_pure_inv hB
  obtain ⟨e1, e2⟩ := m_pure_inv h
  rw [er] at e1
  have ev : v = y := (List.cons.inj e1).1
  rw [eS] at hy
  rw [ev, e2, eB]
  exact ⟨T, eT, hy⟩

/-- The states of a chain of steps of the loop of lines 1029 to 1043 all have the node-to-value
map of the first. -/
theorem buildHelperArgs_chain_map {c : Compiler} {llvmFunc : LFunction} {base : Nat}
    {l : List (Option (Nat × GenTree))} {r : List Value} {st : Nat → Llvm}
    (hst : ∀ (i : Nat) (x : Option (Nat × GenTree)), l[i]? = some x →
      ∃ v : Value, r[i]? = some v ∧
        buildHelperArgs c llvmFunc (base + i) [x] (st i) = .ok [v] (st (i + 1))) :
    ∀ k, k ≤ l.length → ∀ key,
      tableLookup (st k).sdsuMap key = tableLookup (st 0).sdsuMap key := by
  intro k
  induction k with
  | zero => intro _ _; rfl
  | succ j ih =>
    intro hk key
    have hj : j < l.length := hk
    obtain ⟨v, _, hrun⟩ := hst j _ (List.getElem?_eq_getElem hj)
    have hstep := effect_ok (effect_buildHelperArgs c llvmFunc _ (base + j)) hrun
    rw [hstep.2.1 key (List.not_mem_nil key)]
    exact ih (Nat.le_of_lt hj) key

/-- C38: a returning `buildHelperFuncCall` for a helper other than the static-base helper,
whose argument table has `argNum` values that are a permutation of the indices of the table.
The call is the last instruction created; its callee is the function `llvmFunc` and its
actual arguments are the optional shadow-stack argument followed by as many explicit
arguments as the table has entries.  The explicit arguments are computed one after the other
through the states `st 0`, ..., `st argCount`, which all have the node-to-value map of the
starting state: `st 0` is the state after the instructions `pre0` that precede the arguments,
the call is created in `st argCount`, and the explicit argument at position `i` is the value
the argument loop computes in `st i`, leaving `st (i + 1)`, for the table entry whose `argNum`
is `i`, at the formal index of that position.  For an operand that is no handle constant
that value is `consumeValue` of the entry's operand with the type of the callee's formal
parameter.  All this holds whatever the order of the table. -/
theorem helper_args_by_argNum (c : Compiler) (call : GenTree) (s s1 : Llvm)
    (hns : call.d.gtCallMethHnd ≠ c.eeFindHelper .CORINFO_HELP_READYTORUN_STATIC_BASE)
    (hperm : (call.ArgTable.map Prod.fst).Perm (List.range call.ArgTable.length))
    (h : buildHelperFuncCall c call s = .ok () s1) :
    ∃ (pre0 pre : List Instruction) (callInst : Instruction)
        (lead explicit : List Value) (llvmFunc : LFunction) (st : Nat → Llvm),
      s1.emitted = s.emitted ++ pre ++ [callInst] ∧ callInst.opcode = .Call ∧
      callInst.operands = .function llvmFunc.name llvmFunc.fty :: (lead ++ explicit) ∧
      lead.length = (if helperRequiresShadowStack c call.d.gtCallMethHnd = true then 1 else 0) ∧
      explicit.length = call.ArgTable.length ∧
      (st 0).emitted = s.emitted ++ pre0 ∧
      (st call.ArgTable.length).emitted = s.emitted ++ pre ∧
      (∀ k, k ≤ call.ArgTable.length → ∀ key,
        tableLookup (st k).sdsuMap key = tableLookup s.sdsuMap key) ∧
      ∀ i, i < call.ArgTable.length → ∃ entry ∈ call.ArgTable, entry.1 = i ∧
        ∃ v : Value, explicit[i]? = some v ∧
          buildHelperArgs c llvmFunc (lead.length + i) [some entry] (st i)
            = .ok [v] (st (i + 1)) ∧
          (¬ (entry.2.OperGet = .GT_CNS_INT ∧ entry.2.IsIconHandle = true) →
            ∃ T, llvmFunc.fty.paramTypes[lead.length + i]? = some T ∧
              consumeValue c entry.2 (some T) (st i) = .ok v (st (i + 1))) := by
  unfold buildHelperFuncCall at h
  cases hr : rejectedHelpers.any (fun x => call.d.gtCallMethHnd == c.eeFindHelper x)
  swap
  · rw [hr] at h
    simp only [if_true] at h
    obtain ⟨_, _, hx, _⟩ := m_bind_inv h
    cases hx
  rw [hr] at h
  simp only [Bool.false_eq_true, if_false] at h
  rw [m_bind_ok (m_pure_apply _ s), if_neg hns] at h
  obtain ⟨sortedArgs, s0, h0, h⟩ := m_bind_inv h
  have hlen := sortHelperArgs_length h0
  rw [List.length_replicate] at hlen
  have hsorted := sortHelperArgs_perm hperm h0
  rw [sortHelperArgs_inv h0] at h
  obtain ⟨llvmFunc, sA, hA, h⟩ := m_bind_inv h
  obtain ⟨eA, _, _⟩ := getOrCreateFunction_inv hA
  have mA := (effect_ok (effect_getOrCreateFunction _ _ _) hA).2.1
  have h := modifyState_bind_inv h
  obtain ⟨ss, sB, hB, h⟩ := m_bind_inv h
  have mB := (effect_ok (effect_getShadowStackForCallee c) hB).2.1
  obtain ⟨_, a0, _, _, hgep⟩ := getShadowStackForCallee_inv hB
  obtain ⟨l, eB, _⟩ := (emits_gepOrAddr a0 c.shadowStackLocalsSize).run _ _ _ hgep
  have eBs : sB.emitted = s.emitted ++ l := by
    rw [eB]
    show sA.emitted ++ l = _
    rw [eA]
  have mBs : ∀ key, tableLookup sB.sdsuMap key = tableLookup s.sdsuMap key := by
    intro key
    rw [mB key (List.not_mem_nil key)]
    show tableLookup sA.sdsuMap key = _
    rw [mA key (List.not_mem_nil key)]
  have hargs : ∀ (base : Nat) (explicitArgs : List Value) (sX sC : Llvm),
      (∀ key, tableLookup sX.sdsuMap key = tableLookup s.sdsuMap key) →
      buildHelperArgs c llvmFunc base sortedArgs sX = .ok explicitArgs sC →
      explicitArgs.length = call.ArgTable.length ∧
      ∃ st : Nat → Llvm, st 0 = sX ∧ st call.ArgTable.length = sC ∧
        (∀ k, k ≤ call.ArgTable.length → ∀ key,
          tableLookup (st k).sdsuMap key = tableLookup s.sdsuMap key) ∧
        ∀ i, i < call.ArgTable.length → ∃ entry ∈ call.ArgTable, entry.1 = i ∧
          ∃ v : Value, explicitArgs[i]? = some v ∧
            buildHelperArgs c llvmFunc (base + i) [some entry] (st i) = .ok [v] (st (i + 1)) ∧
            (¬ (entry.2.OperGet = .GT_CNS_INT ∧ entry.2.IsIconHandle = true) →
              ∃ T, llvmFunc.fty.paramTypes[base + i]? = some T ∧
                consumeValue c entry.2 (some T) (st i) = .ok v (st (i + 1))) := by
    intro base explicitArgs sX sC hmX hC
    refine ⟨by rw [buildHelperArgs_length c llvmFunc _ _ _ _ _ hC, hlen], ?_⟩
    obtain ⟨st, e0, en, hst⟩ := buildHelperArgs_chain sortedArgs base sX sC explicitArgs hC
    refine ⟨st, e0, by rw [← hlen]; exact en, fun k hk key => ?_, fun i hi => ?_⟩
    · rw [buildHelperArgs_chain_map hst k (by rw [hlen]; exact hk) key, e0]
      exact hmX key
    · obtain ⟨entry, he, hfst, hget⟩ := hsorted i hi
      obtain ⟨v, hv, hrun⟩ := hst i _ hget
      exact ⟨entry, he, hfst, v, hv, hrun, fun hc => buildHelperArgs_single hc hrun⟩
  cases hrq : helperRequiresShadowStack c call.d.gtCallMethHnd
  · rw [hrq] at h
    simp only [Bool.not_false, Bool.false_eq_true, if_false, if_true] at h
    obtain ⟨sym, sG, hG, h⟩ := m_bind_inv h
    have mG := (effect_ok (effect_getOrCreateExternalSymbol _ _) hG).2.1
    obtain ⟨eG, _⟩ := getOrCreateExternalSymbol_inv hG
    obtain ⟨_, sH, hH, h⟩ := m_bind_inv h
    obtain ⟨_, eH⟩ := create_inv hH
    rw [m_bind_ok (m_pure_apply _ sH)] at h
    obtain ⟨explicitArgs, sC, hC, h⟩ := m_bind_inv h
    obtain ⟨l2, eC, _⟩ := (emits_buildHelperArgs c llvmFunc sortedArgs 0).run _ _ _ hC
    obtain ⟨callValue, sD, hD, h⟩ := m_bind_inv h
    obtain ⟨hv, eD⟩ := createCallTo_inv hD
    have e1 := mapGenTreeToValue_inv h
    have mH : ∀ key, tableLookup sH.sdsuMap key = tableLookup s.sdsuMap key := by
      intro key
      rw [eH]
      show tableLookup sG.sdsuMap key = _
      rw [mG key (List.not_mem_nil key)]
      exact mBs key
    have eHs : sH.emitted = s.emitted ++
        (l ++ [sG.newInst sG.builder { opcode := .Store, ty := .void, operands := [ss, sym] }]) := by
      rw [eH]
      show sG.emitted ++ [_] = _
      rw [eG, eBs, List.append_assoc]
    obtain ⟨hl, st, e0, en, hmap, hnth⟩ := hargs 0 explicitArgs sH sC mH hC
    refine ⟨l ++ [sG.newInst sG.builder { opcode := .Store, ty := .void, operands := [ss, sym] }],
      l ++ [sG.newInst sG.builder { opcode := .Store, ty := .void, operands := [ss, sym] }]
        ++ l2,
      sC.newInst sC.builder
        { opcode := .Call, ty := llvmFunc.fty.returnType,
          operands := .function llvmFunc.name llvmFunc.fty :: explicitArgs },
      [], explicitArgs, llvmFunc, st, ?_, rfl, rfl, rfl, hl, by rw [e0]; exact eHs, ?_, hmap, hnth⟩
    · rw [e1, eD]
      show sC.emitted ++ _ = _
      rw [eC, eHs]
      simp only [List.append_assoc]
      rfl
    · rw [en, eC, eHs]
      simp only [List.append_assoc]
  · rw [hrq] at h
    simp only [Bool.not_true, Bool.false_eq_true, if_false, if_true] at h
    rw [m_bind_ok (m_pure_apply _ sB)] at h
    obtain ⟨explicitArgs, sC, hC, h⟩ := m_bind_inv h
    obtain ⟨l2, eC, _⟩ := (emits_buildHelperArgs c llvmFunc sortedArgs 1).run _ _ _ hC
    obtain ⟨callValue, sD, hD, h⟩ := m_bind_inv h
    obtain ⟨hv, eD⟩ := createCallTo_inv hD
    have e1 := mapGenTreeToValue_inv h
    obtain ⟨hl, st, e0, en, hmap, hnth⟩ := hargs 1 explicitArgs sB sC mBs hC
    refine ⟨l, l ++ l2,
      sC.newInst sC.builder
        { opcode := .Call, ty := llvmFunc.fty.returnType,
          operands := .function llvmFunc.name llvmFunc.fty :: ss :: explicitArgs },
      [ss], explicitArgs, llvmFunc, st, ?_, rfl, rfl, rfl, hl, by rw [e0]; exact eBs, ?_, hmap,
      hnth⟩
    · rw [e1, eD]
      show sC.emitted ++ _ = _
      rw [eC, eBs]
      simp only [List.append_assoc]
      rfl
    · rw [en, eC, eBs]
      simp only [List.append_assoc]

/-- Witness of C38: a helper call whose argument table lists the entry with `argNum` 1 before
the entry with `argNum` 0 returns, and the call passes the value of the entry with `argNum` 0
first: the explicit argument at position `i` is `consumeValue` of the operand of the entry
with `argNum` `i`, in a state that has the node-to-value map of the starting state. -/
theorem helper_args_by_argNum_witness :
    sampleSwappedHelperCall.ArgTable.map Prod.fst = [1, 0] ∧
    buildHelperFuncCall sampleCompiler sampleSwappedHelperCall sampleTwoArgState
      = .ok () (buildHelperFuncCall sampleCompiler sampleSwappedHelperCall
          sampleTwoArgState).state ∧
    ((buildHelperFuncCall sampleCompiler sampleSwappedHelperCall
        sampleTwoArgState).state.emitted.filter (fun i => i.opcode == .Call)).map
          (fun i => i.operands.drop 1)
      = [[.argument 1 (.int 32), .argument 2 (.int 64)]] ∧
    ∃ (pre : List Instruction) (callInst : Instruction)
        (lead explicit : List Value) (llvmFunc : LFunction) (st : Nat → Llvm),
      (buildHelperFuncCall sampleCompiler sampleSwappedHelperCall
          sampleTwoArgState).state.emitted = sampleTwoArgState.emitted ++ pre ++ [callInst] ∧
      callInst.operands = .function llvmFunc.name llvmFunc.fty :: (lead ++ explicit) ∧
      lead.length = 0 ∧ explicit.length = 2 ∧
      (∀ k, k ≤ 2 → ∀ key,
        tableLookup (st k).sdsuMap key = tableLookup sampleTwoArgState.sdsuMap key) ∧
      ∀ i, i < 2 → ∃ entry ∈ sampleSwappedHelperCall.ArgTable, entry.1 = i ∧
        ∃ (v : Value) (T : LType), explicit[i]? = some v ∧
          llvmFunc.fty.paramTypes[lead.length + i]? = some T ∧
          consumeValue sampleCompiler entry.2 (some T) (st i) = .ok v (st (i + 1)) := by
  refine ⟨by decide, by decide!, by decide!, ?_⟩
  obtain ⟨_, pre, callInst, lead, explicit, f, st, hem, _, hops, hlead, hlen, _, _, hmap,
      hall⟩ :=
    helper_args_by_argNum sampleCompiler sampleSwappedHelperCall sampleTwoArgState
      (buildHelperFuncCall sampleCompiler sampleSwappedHelperCall sampleTwoArgState).state
      (by decide) (by decide) (by decide!)
  refine ⟨pre, callInst, lead, explicit, f, st, hem, hops, hlead, hlen, hmap, fun i hi => ?_⟩
  obtain ⟨entry, he, hfst, v, hv, _, hcons⟩ := hall i hi
  have hno : ¬ (entry.2.OperGet = .GT_CNS_INT ∧ entry.2.IsIconHandle = true) := by
    have hall2 : ∀ e ∈ sampleSwappedHelperCall.ArgTable, e.2.OperGet ≠ .GT_CNS_INT := by
      decide
    exact fun hc => hall2 entry he hc.1
  obtain ⟨T, hT, hrun⟩ := hcons hno
  exact ⟨entry, he, hfst, v, T, hv, hT, hrun⟩

/-! ## Stores to and reads of locals -/

theorem isLlvmFrameLocal_inv {c : Compiler} {d : LclVarDsc} {s s1 : Llvm} {b : Bool}
    (h : isLlvmFrameLocal c d s = .ok b s1) :
    s1 = s ∧ b = (!d.lvInSsa && decide (d.lvRefCnt > 0)) := by
  unfold isLlvmFrameLocal at h
  obtain ⟨h, _⟩ := jitAssert_bind_inv h
  obtain ⟨h1, h2⟩ := m_pure_inv h
  exact ⟨h2, h1⟩

theorem lvaGetDesc_inv {n : Nat} {s s1 : Llvm} {d : LclVarDsc}
    (h : lvaGetDesc n s = .ok d s1) : s1 = s ∧ s.lvaTable[n]? = some d := by
  unfold lvaGetDesc at h
  split at h
  · rename_i d2 hd
    injection h with h1 h2
    exact ⟨h2.symm, by rw [hd, h1]⟩
  · cases h

theorem consumeValue_frame {c : Compiler} {node : GenTree} {T : Option LType} {r : Value}
    {s s1 : Llvm} (h : consumeValue c node T s = .ok r s1) :
    s1.lvaTable = s.lvaTable ∧ s1.m_allocas = s.m_allocas ∧ s1.localsMap = s.localsMap ∧
    s1.sdsuMap = s.sdsuMap ∧ s1.builder = s.builder := by
  obtain ⟨raw, _, hcase⟩ := consumeValue_inv h
  rcases hcase with ⟨_, e⟩ | ⟨op, ty, _, _, _, _, e⟩
  · rw [e]
    exact ⟨rfl, rfl, rfl, rfl, rfl⟩
  · rw [e]
    exact ⟨rfl, rfl, rfl, rfl, rfl⟩

/-- The local is a frame local: `isLlvmFrameLocal`, lines 1775 to 1779, without its
assertion. -/
theorem isLlvmFrameLocal_bind_inv {α : Type} {c : Compiler} {d : LclVarDsc} {f : Bool → M α}
    {s s1 : Llvm} {r : α} (h : (isLlvmFrameLocal c d >>= f) s = .ok r s1) :
    f (!d.lvInSsa && decide (d.lvRefCnt > 0)) s = .ok r s1 := by
  obtain ⟨b, s2, hb, h⟩ := m_bind_inv h
  obtain ⟨e1, e2⟩ := isLlvmFrameLocal_inv hb
  rw [e1, e2] at h
  exact h

/-- A returning `buildStoreLocalVar` of a local with descriptor `d`: the value `v` is the
null constant of the local's type for the zero-initialisation shape and the operand consumed
as the local's type otherwise; for a frame local one store of `v` through the local's slot is
created and nothing else changes, for any other local the entry of the local and the node's
SSA number is set to `v`. -/
theorem buildStoreLocalVar_inv {c : Compiler} {st op1 : GenTree} {d : LclVarDsc} {s s1 : Llvm}
    (hop : st.gtOp1 = some op1) (hd : s.lvaTable[st.d.lclNum]? = some d)
    (h : buildStoreLocalVar c st s = .ok () s1) :
    ∃ (v : Value) (sA : Llvm),
      ((st.TypeGet = .TYP_STRUCT ∧ op1.IsIntegralConst 0 = true ∧
          v = .nullValue (c.getLlvmTypeForLclVar d) ∧ sA = s) ∨
       (¬ (st.TypeGet = .TYP_STRUCT ∧ op1.IsIntegralConst 0 = true) ∧
          consumeValue c op1 (some (c.getLlvmTypeForLclVar d)) s = .ok v sA)) ∧
      (((!d.lvInSsa && decide (d.lvRefCnt > 0)) = true ∧
          ∃ slot, s.m_allocas[st.d.lclNum]? = some (some slot) ∧
            s1 = sA.insert sA.builder { opcode := .Store, ty := .void, operands := [v, slot] }) ∨
       ((!d.lvInSsa && decide (d.lvRefCnt > 0)) = false ∧
          (c.debug = true → tableLookup s.localsMap (st.d.lclNum, st.d.ssaNum) = none) ∧
          s1 = { sA with localsMap := tableSet sA.localsMap (st.d.lclNum, st.d.ssaNum) v })) := by
  have htail : ∀ (y : Value) (sA : Llvm),
      sA.m_allocas = s.m_allocas → sA.localsMap = s.localsMap →
      (isLlvmFrameLocal c d >>= fun b =>
        if b = true then do
          let s ← getState
          let slot ← deref s.m_allocas[st.d.lclNum]?
          let addr ← deref slot
          let _ ← createStore y addr
          pure ()
        else do
          let s ← getState
          let m ← tableSetChecked c s.localsMap (st.d.lclNum, st.d.ssaNum) y
          modifyState fun s1 => { s1 with localsMap := m }) sA = .ok () s1 →
      (((!d.lvInSsa && decide (d.lvRefCnt > 0)) = true ∧
          ∃ slot, s.m_allocas[st.d.lclNum]? = some (some slot) ∧
            s1 = sA.insert sA.builder { opcode := .Store, ty := .void, operands := [y, slot] }) ∨
       ((!d.lvInSsa && decide (d.lvRefCnt > 0)) = false ∧
          (c.debug = true → tableLookup s.localsMap (st.d.lclNum, st.d.ssaNum) = none) ∧
          s1 = { sA with localsMap := tableSet sA.localsMap (st.d.lclNum, st.d.ssaNum) y })) := by
    intro y sA hal hlm h
    have h := isLlvmFrameLocal_bind_inv h
    cases hb : (!d.lvInSsa && decide (d.lvRefCnt > 0))
    · rw [hb] at h
      simp only [Bool.false_eq_true, if_false] at h
      have h := getState_bind_inv h
      obtain ⟨m, sM, hM, h⟩ := m_bind_inv h
      unfold tableSetChecked at hM
      obtain ⟨hM, hfresh⟩ := jitAssert_bind_inv hM
      obtain ⟨em, es⟩ := m_pure_inv hM
      rw [es, em] at h
      injection h with _ h
      refine Or.inr ⟨rfl, fun hdbg => ?_, h.symm⟩
      have := hfresh hdbg
      rw [hlm] at this
      simpa using this
    · rw [hb] at h
      simp only [if_true] at h
      have h := getState_bind_inv h
      obtain ⟨slotO, hs, h⟩ := deref_bind_inv h
      obtain ⟨slot, hs2, h⟩ := deref_bind_inv h
      obtain ⟨r, sD, hD, h⟩ := m_bind_inv h
      obtain ⟨_, eD⟩ := create_inv hD
      have e1 := (m_pure_inv h).2
      refine Or.inl ⟨rfl, slot, ?_, ?_⟩
      · rw [← hal, hs, hs2]
      · rw [e1, eD]
  unfold buildStoreLocalVar at h
  dsimp only at h
  obtain ⟨d2, sx, hx, h⟩ := m_bind_inv h
  obtain ⟨ex, hd2⟩ := lvaGetDesc_inv hx
  rw [hd] at hd2
  have ed : d2 = d := (Option.some.inj hd2).symm
  rw [ex, ed, hop, m_bind_ok (deref_some _ _)] at h
  by_cases hz : st.TypeGet = .TYP_STRUCT ∧ op1.IsIntegralConst 0 = true
  · rw [if_pos hz, m_bind_ok (m_pure_apply _ s)] at h
    exact ⟨_, s, Or.inl ⟨hz.1, hz.2, rfl, rfl⟩, htail _ s rfl rfl h⟩
  · rw [if_neg hz] at h
    obtain ⟨v, sA, hA, h⟩ := m_bind_inv h
    obtain ⟨_, hal, hlm, _, _⟩ := consumeValue_frame hA
    exact ⟨v, sA, Or.inr ⟨hz, hA⟩, htail v sA hal hlm h⟩

theorem createLoad_inv {ptr r : Value} {s s1 : Llvm} (h : createLoad ptr s = .ok r s1) :
    ∃ T, ptr.getType = .ptr T ∧ r = .inst s.nextValueId T ∧
      s1 = s.insert s.builder { opcode := .Load, ty := T, operands := [ptr] } := by
  unfold createLoad at h
  cases hT : ptr.getType <;> rw [hT] at h <;> try (cases h; done)
  rename_i T
  obtain ⟨h1, h2⟩ := create_inv h
  exact ⟨T, rfl, h1, h2⟩

/-- A returning `buildLocalVar` of a local with descriptor `d`: the value read is the result
of one load through the local's slot for a frame local and the entry of the local and the
node's SSA number for any other local; it is recorded for the node, after one truncation to
32 bits when the local is a `LONG` and the node an `INT`. -/
theorem buildLocalVar_inv {c : Compiler} {rd : GenTree} {d : LclVarDsc} {s s1 : Llvm}
    (hd : s.lvaTable[rd.d.lclNum]? = some d)
    (h : buildLocalVar c rd s = .ok () s1) :
    ∃ (ref : Value) (sR : Llvm),
      (((!d.lvInSsa && decide (d.lvRefCnt > 0)) = true ∧
          ∃ slot T, s.m_allocas[rd.d.lclNum]? = some (some slot) ∧ slot.getType = .ptr T ∧
            ref = .inst s.nextValueId T ∧
            sR = s.insert s.builder { opcode := .Load, ty := T, operands := [slot] }) ∨
       ((!d.lvInSsa && decide (d.lvRefCnt > 0)) = false ∧
          tableLookup s.localsMap (rd.d.lclNum, rd.d.ssaNum) = some ref ∧ sR = s)) ∧
      (((d.lvType = .TYP_LONG ∧ rd.TypeGet = .TYP_INT) ∧
          s1 = { sR.insert sR.builder { opcode := .Trunc, ty := getInt32Ty, operands := [ref] } with
                 sdsuMap := tableSet sR.sdsuMap rd.id (.inst sR.nextValueId getInt32Ty),
                 sdsuWrites := sR.sdsuWrites ++ [rd.id] }) ∨
       (¬ (d.lvType = .TYP_LONG ∧ rd.TypeGet = .TYP_INT) ∧
          s1 = { sR with sdsuMap := tableSet sR.sdsuMap rd.id ref,
                         sdsuWrites := sR.sdsuWrites ++ [rd.id] })) := by
  have htail : ∀ (y : Value) (sR : Llvm),
      (if d.lvType = .TYP_LONG ∧ rd.TypeGet = .TYP_INT then
          create { opcode := .Trunc, ty := getInt32Ty, operands := [y] } >>= fun y2 =>
            mapGenTreeToValue c rd y2
        else (pure y : M Value) >>= fun y2 => mapGenTreeToValue c rd y2) sR = .ok () s1 →
      (((d.lvType = .TYP_LONG ∧ rd.TypeGet = .TYP_INT) ∧
          s1 = { sR.insert sR.builder { opcode := .Trunc, ty := getInt32Ty, operands := [y] } with
                 sdsuMap := tableSet sR.sdsuMap rd.id (.inst sR.nextValueId getInt32Ty),
                 sdsuWrites := sR.sdsuWrites ++ [rd.id] }) ∨
       (¬ (d.lvType = .TYP_LONG ∧ rd.TypeGet = .TYP_INT) ∧
          s1 = { sR with sdsuMap := tableSet sR.sdsuMap rd.id y,
                         sdsuWrites := sR.sdsuWrites ++ [rd.id] })) := by
    intro y sR h
    by_cases hc : d.lvType = .TYP_LONG ∧ rd.TypeGet = .TYP_INT
    · rw [if_pos hc] at h
      obtain ⟨y2, sT, hT, h⟩ := m_bind_inv h
      obtain ⟨e1, e2⟩ := create_inv hT
      have e3 := mapGenTreeToValue_inv h
      refine Or.inl ⟨hc, ?_⟩
      rw [e3, e2, e1]
      rfl
    · rw [if_neg hc, m_bind_ok (m_pure_apply _ sR)] at h
      exact Or.inr ⟨hc, mapGenTreeToValue_inv h⟩
  unfold buildLocalVar at h
  dsimp only at h
  obtain ⟨d2, sx, hx, h⟩ := m_bind_inv h
  obtain ⟨ex, hd2⟩ := lvaGetDesc_inv hx
  rw [hd] at hd2
  have ed : d2 = d := (Option.some.inj hd2).symm
  rw [ex, ed] at h
  have h := getState_bind_inv h
  have h := isLlvmFrameLocal_bind_inv h
  cases hb : (!d.lvInSsa && decide (d.lvRefCnt > 0))
  · rw [hb] at h
    simp only [Bool.false_eq_true, if_false] at h
    obtain ⟨ref, sR, hR, h⟩ := m_bind_inv h
    unfold tableGet at hR
    obtain ⟨hl, es⟩ := deref_inv hR
    rw [es] at h
    exact ⟨ref, s, Or.inr ⟨rfl, hl, rfl⟩, htail ref s h⟩
  · rw [hb] at h
    simp only [if_true] at h
    obtain ⟨slotO, hs, h⟩ := deref_bind_inv h
    obtain ⟨slot, hs2, h⟩ := deref_bind_inv h
    obtain ⟨ref, sR, hR, h⟩ := m_bind_inv h
    obtain ⟨T, hT, er, es⟩ := createLoad_inv hR
    exact ⟨ref, sR, Or.inl ⟨rfl, slot, T, by rw [hs, hs2], hT, er, es⟩, htail ref sR h⟩

/-- C40: a returning `buildStoreLocalVar` of a local followed by a returning `buildLocalVar`
of the same local and SSA number; `v` is the value stored (the null constant for the
zero-initialisation shape, the operand consumed as the local's type otherwise).  For a local
that is not a frame local the store sets the entry of the local and SSA number to `v`, and
the read creates no instruction and records `v` for its node, except that for a `LONG` local
read by an `INT` node it creates one truncation of `v` to 32 bits and records that.  For a
frame local the store creates, after the conversion of its operand, one store of `v` through
the local's slot and leaves the map of locals unchanged, and the read creates one load
through the same slot, followed only by that truncation. -/
theorem local_store_read (c : Compiler) (st rd op1 : GenTree) (d : LclVarDsc) (s s1 s2 : Llvm)
    (hop : st.gtOp1 = some op1) (hd : s.lvaTable[st.d.lclNum]? = some d)
    (hl : rd.d.lclNum = st.d.lclNum) (hs : rd.d.ssaNum = st.d.ssaNum)
    (h1 : buildStoreLocalVar c st s = .ok () s1)
    (h2 : buildLocalVar c rd s1 = .ok () s2) :
    ∃ v : Value,
      (v = .nullValue (c.getLlvmTypeForLclVar d) ∨
        ∃ sA, consumeValue c op1 (some (c.getLlvmTypeForLclVar d)) s = .ok v sA) ∧
      ((!d.lvInSsa && decide (d.lvRefCnt > 0)) = false →
        s1.localsMap = tableSet s.localsMap (st.d.lclNum, st.d.ssaNum) v ∧
        tableLookup s1.localsMap (st.d.lclNum, st.d.ssaNum) = some v ∧
        (¬ (d.lvType = .TYP_LONG ∧ rd.TypeGet = .TYP_INT) →
          s2.emitted = s1.emitted ∧ tableLookup s2.sdsuMap rd.id = some v) ∧
        (d.lvType = .TYP_LONG ∧ rd.TypeGet = .TYP_INT →
          ∃ t : Instruction, s2.emitted = s1.emitted ++ [t] ∧ t.opcode = .Trunc ∧
            t.operands = [v] ∧ t.ty = getInt32Ty ∧
            tableLookup s2.sdsuMap rd.id = some (.inst t.id getInt32Ty))) ∧
      ((!d.lvInSsa && decide (d.lvRefCnt > 0)) = true →
        ∃ (slot : Value) (lconv ltail : List Instruction) (storeI loadI : Instruction),
          s.m_allocas[st.d.lclNum]? = some (some slot) ∧
          s1.emitted = s.emitted ++ lconv ++ [storeI] ∧
          (∀ i ∈ lconv, i.opcode.isConversion = true) ∧
          storeI.opcode = .Store ∧ storeI.operands = [v, slot] ∧
          s1.localsMap = s.localsMap ∧
          s2.emitted = s1.emitted ++ [loadI] ++ ltail ∧
          loadI.opcode = .Load ∧ loadI.operands = [slot] ∧
          (∀ i ∈ ltail, i.opcode = .Trunc) ∧ s2.localsMap = s.localsMap) := by
  obtain ⟨v, sA, hval, hcase⟩ := buildStoreLocalVar_inv hop hd h1
  have hA : sA.lvaTable = s.lvaTable ∧ sA.m_allocas = s.m_allocas ∧
      sA.localsMap = s.localsMap ∧
      ∃ lconv, sA.emitted = s.emitted ++ lconv ∧ ∀ i ∈ lconv, i.opcode.isConversion = true := by
    rcases hval with ⟨_, _, _, e⟩ | ⟨_, hc⟩
    · rw [e]
      exact ⟨rfl, rfl, rfl, [], by simp, by simp⟩
    · obtain ⟨a1, a2, a3, _, _⟩ := consumeValue_frame hc
      exact ⟨a1, a2, a3, (emits_consumeValue c op1 _).run _ _ _ hc⟩
  obtain ⟨hAl, hAm, hAk, lconv, hAe, hconv⟩ := hA
  have hv : v = .nullValue (c.getLlvmTypeForLclVar d) ∨
      ∃ sA, consumeValue c op1 (some (c.getLlvmTypeForLclVar d)) s = .ok v sA := by
    rcases hval with ⟨_, _, e, _⟩ | ⟨_, hc⟩
    · exact Or.inl e
    · exact Or.inr ⟨sA, hc⟩
  refine ⟨v, hv, fun hb => ?_, fun hb => ?_⟩
  · rcases hcase with ⟨hb2, _⟩ | ⟨_, _, e1⟩
    · rw [hb] at hb2
      cases hb2
    have hd1 : s1.lvaTable[rd.d.lclNum]? = some d := by
      rw [e1, hl]
      show sA.lvaTable[st.d.lclNum]? = _
      rw [hAl, hd]
    have hmap : s1.localsMap = tableSet s.localsMap (st.d.lclNum, st.d.ssaNum) v := by
      rw [e1]
      show tableSet sA.localsMap _ _ = _
      rw [hAk]
    have hlook : tableLookup s1.localsMap (st.d.lclNum, st.d.ssaNum) = some v := by
      rw [hmap, tableLookup_tableSet, if_pos rfl]
    obtain ⟨ref, sR, hread, hrec⟩ := buildLocalVar_inv hd1 h2
    rcases hread with ⟨hb2, _⟩ | ⟨_, hl2, eR⟩
    · rw [hb] at hb2
      cases hb2
    rw [hl, hs, hlook] at hl2
    have eref : ref = v := (Option.some.inj hl2).symm
    rw [eR, eref] at hrec
    refine ⟨hmap, hlook, fun hn => ?_, fun hc => ?_⟩
    · rcases hrec with ⟨hc, _⟩ | ⟨_, e2⟩
      · exact absurd hc hn
      · rw [e2]
        refine ⟨rfl, ?_⟩
        show tableLookup (tableSet _ rd.id _) rd.id = _
        rw [tableLookup_tableSet, if_pos rfl]
    · rcases hrec with ⟨_, e2⟩ | ⟨hn, _⟩
      · refine ⟨s1.newInst s1.builder { opcode := .Trunc, ty := getInt32Ty, operands := [v] },
          ?_, rfl, rfl, rfl, ?_⟩
        · rw [e2]
          rfl
        · rw [e2]
          show tableLookup (tableSet _ rd.id _) rd.id = _
          rw [tableLookup_tableSet, if_pos rfl]
          rfl
      · exact absurd hc hn
  · rcases hcase with ⟨_, slot, hslot, e1⟩ | ⟨hb2, _⟩
    swap
    · rw [hb] at hb2
      cases hb2
    have hd1 : s1.lvaTable[rd.d.lclNum]? = some d := by
      rw [e1, hl]
      show sA.lvaTable[st.d.lclNum]? = _
      rw [hAl, hd]
    have hal1 : s1.m_allocas = s.m_allocas := by
      rw [e1]
      exact hAm
    have hlm1 : s1.localsMap = s.localsMap := by
      rw [e1]
      exact hAk
    obtain ⟨ref, sR, hread, hrec⟩ := buildLocalVar_inv hd1 h2
    rcases hread with ⟨_, slot2, T, hslot2, _, eref, eR⟩ | ⟨hb2, _⟩
    swap
    · rw [hb] at hb2
      cases hb2
    rw [hal1, hl, hslot] at hslot2
    have eslot : slot2 = slot := (Option.some.inj (Option.some.inj hslot2)).symm
    rw [eslot] at eR
    have hR : sR.emitted = s1.emitted ++
        [s1.newInst s1.builder { opcode := .Load, ty := T, operands := [slot] }] ∧
        sR.localsMap = s1.localsMap := by
      rw [eR]
      exact ⟨rfl, rfl⟩
    have hs1 : s1.emitted = s.emitted ++ lconv ++
        [sA.newInst sA.builder { opcode := .Store, ty := .void, operands := [v, slot] }] := by
      rw [e1]
      show sA.emitted ++ [_] = _
      rw [hAe]
    rcases hrec with ⟨_, e2⟩ | ⟨_, e2⟩
    · refine ⟨slot, lconv,
        [sR.newInst sR.builder { opcode := .Trunc, ty := getInt32Ty, operands := [ref] }],
        _, s1.newInst s1.builder { opcode := .Load, ty := T, operands := [slot] }, hslot, hs1, hconv, rfl, rfl, hlm1, ?_, rfl, rfl, ?_, ?_⟩
      · rw [e2]
        show sR.emitted ++ [_] = _
        rw [hR.1]
      · intro i hi
        rw [List.mem_singleton.mp hi]
        rfl
      · rw [e2]
        show sR.localsMap = _
        rw [hR.2, hlm1]
    · refine ⟨slot, lconv, [], _,
        s1.newInst s1.builder { opcode := .Load, ty := T, operands := [slot] }, hslot, hs1, hconv, rfl, rfl, hlm1, ?_, rfl, rfl, ?_, ?_⟩
      · rw [e2]
        show sR.emitted = _
        rw [hR.1, List.append_nil]
      · intro i hi
        cases hi
      · rw [e2]
        show sR.localsMap = _
        rw [hR.2, hlm1]

/-- Witness of C40: in a state whose local 0 is a `LONG` in SSA, the store of a 64-bit value
to its SSA number 2 and the read of that SSA number by an `INT` node both return; the store
creates nothing and sets the entry to the value, and the read creates one truncation of the
value and records it. -/
theorem local_store_read_witness :
    buildStoreLocalVar sampleCompiler sampleStoreLclNode sampleLongLocalState
      = .ok () (buildStoreLocalVar sampleCompiler sampleStoreLclNode sampleLongLocalState).state ∧
    buildLocalVar sampleCompiler sampleReadLclNode
        (buildStoreLocalVar sampleCompiler sampleStoreLclNode sampleLongLocalState).state
      = .ok () (buildLocalVar sampleCompiler sampleReadLclNode
          (buildStoreLocalVar sampleCompiler sampleStoreLclNode sampleLongLocalState).state).state ∧
    (buildStoreLocalVar sampleCompiler sampleStoreLclNode sampleLongLocalState).state.localsMap
      = [((0, 2), .inst 4 (.int 64))] ∧
    (buildLocalVar sampleCompiler sampleReadLclNode
        (buildStoreLocalVar sampleCompiler sampleStoreLclNode sampleLongLocalState).state).state.emitted.map
          (fun i => (i.id, i.opcode, i.operands))
      = [(5, .Trunc, [.inst 4 (.int 64)])] ∧
    ∃ (v : Value) (t : Instruction),
      (buildStoreLocalVar sampleCompiler sampleStoreLclNode sampleLongLocalState).state.localsMap
        = tableSet sampleLongLocalState.localsMap (0, 2) v ∧
      (buildLocalVar sampleCompiler sampleReadLclNode
          (buildStoreLocalVar sampleCompiler sampleStoreLclNode sampleLongLocalState).state).state.emitted
        = (buildStoreLocalVar sampleCompiler sampleStoreLclNode sampleLongLocalState).state.emitted
            ++ [t] ∧
      t.opcode = .Trunc ∧ t.operands = [v] := by
  refine ⟨by decide!, by decide!, by decide!, by decide!, ?_⟩
  obtain ⟨v, _, hn, _⟩ :=
    local_store_read sampleCompiler sampleStoreLclNode sampleReadLclNode
      (.leaf { id := 2, gtOper := .GT_LCL_VAR, gtType := .TYP_LONG })
      { lvType := .TYP_LONG, lvRefCnt := 1, lvInSsa := true }
      sampleLongLocalState
      (buildStoreLocalVar sampleCompiler sampleStoreLclNode sampleLongLocalState).state
      (buildLocalVar sampleCompiler sampleReadLclNode
        (buildStoreLocalVar sampleCompiler sampleStoreLclNode sampleLongLocalState).state).state
      rfl rfl rfl rfl (by decide!) (by decide!)
  obtain ⟨hm, _, _, ht⟩ := hn (by decide)
  obtain ⟨t, he, hop, hops, _⟩ := ht ⟨by decide, by decide⟩
  exact ⟨v, t, hm, he, hop, hops⟩

/-! ## The padding copies of `storeObjAtAddress` -/

theorem gapCopy_mono {l l2 : List Instruction} {b : Value} {m : Instruction}
    (hsub : ∀ i ∈ l, i ∈ l2) (h : GapCopy l b m) : GapCopy l2 b m := by
  obtain ⟨start, stop, dest, src, sz, hlt, hops, hd, hs, hsz⟩ := h
  exact ⟨start, stop, dest, src, sz, hlt, hops, advancedBy_mono hsub hd,
    advancedBy_mono hsub hs, hsz⟩

theorem trailingCopy_mono {l l2 : List Instruction} {b : Value} {m : Instruction}
    (hsub : ∀ i ∈ l, i ∈ l2) (h : TrailingCopy l b m) : TrailingCopy l2 b m := by
  obtain ⟨start, stop, dest, src, sz, hlt, hops, hd, ⟨g, hg, hrest⟩, hsz⟩ := h
  exact ⟨start, stop, dest, src, sz, hlt, hops, advancedBy_mono hsub hd,
    ⟨g, hsub g hg, hrest⟩, hsz⟩

theorem paddingCopy_mono {l l2 : List Instruction} {base : Value} {m : Instruction}
    (hsub : ∀ i ∈ l, i ∈ l2) (h : PaddingCopy l base m) : PaddingCopy l2 base m := by
  obtain ⟨path, b, ha, hcase⟩ := h
  refine ⟨path, b, addressAt_mono hsub path base b ha, ?_⟩
  rcases hcase with hg | ht
  · exact Or.inl (gapCopy_mono hsub hg)
  · exact Or.inr (trailingCopy_mono hsub ht)

theorem copies_of_emits {α : Type} {m : M α} (base : Value)
    (h : Emits (fun i => i.opcode ≠ .MemCpy) m) : Copies base m := by
  constructor
  intro s a s1 hrun
  obtain ⟨l, hl, hP⟩ := h.run s a s1 hrun
  exact ⟨l, hl, fun i hi hc => absurd hc (hP i hi)⟩

theorem copies_bind {α β : Type} {base : Value} {m : M α} {f : α → M β}
    (hm : Copies base m) (hf : ∀ a, Copies base (f a)) : Copies base (m >>= f) := by
  constructor
  intro s b s2 h
  obtain ⟨a, s1, h1, h2⟩ := m_bind_inv h
  obtain ⟨l1, e1, p1⟩ := hm.run s a s1 h1
  obtain ⟨l2, e2, p2⟩ := (hf a).run s1 b s2 h2
  refine ⟨l1 ++ l2, by rw [e2, e1, List.append_assoc], fun i hi hc => ?_⟩
  rcases List.mem_append.mp hi with hi | hi
  · exact paddingCopy_mono (fun x hx => List.mem_append_left _ hx) (p1 i hi hc)
  · exact paddingCopy_mono (fun x hx => List.mem_append_right _ hx) (p2 i hi hc)

theorem copies_unreached {α : Type} (base : Value) : Copies base (unreached : M α) :=
  ⟨fun _ _ _ h => by cases h⟩

theorem copiesFrom_of_emits {α : Type} {m : M α} {base address : Value} {fo : Nat}
    (h : Emits (fun i => i.opcode ≠ .MemCpy) m) : CopiesFrom base address fo m := by
  constructor
  intro s a s1 hrun
  obtain ⟨l, hl, hP⟩ := h.run s a s1 hrun
  exact ⟨l, hl, fun i hi hc => absurd hc (hP i hi)⟩

theorem copiesFrom_of_copies {α : Type} {m : M α} {base address : Value} {fo : Nat}
    (h : Copies address m) : CopiesFrom base address fo m := by
  constructor
  intro s a s1 hrun
  obtain ⟨l, hl, hP⟩ := h.run s a s1 hrun
  exact ⟨l, hl, fun i hi hc => Or.inl (hP i hi hc)⟩

theorem copiesFrom_bind {α β : Type} {base address : Value} {fo : Nat} {m : M α}
    {f : α → M β} (hm : CopiesFrom base address fo m)
    (hf : ∀ a, CopiesFrom base address fo (f a)) : CopiesFrom base address fo (m >>= f) := by
  constructor
  intro s b s2 h
  obtain ⟨a, s1, h1, h2⟩ := m_bind_inv h
  obtain ⟨l1, e1, p1⟩ := hm.run s a s1 h1
  obtain ⟨l2, e2, p2⟩ := (hf a).run s1 b s2 h2
  refine ⟨l1 ++ l2, by rw [e2, e1, List.append_assoc], fun i hi hc => ?_⟩
  rcases List.mem_append.mp hi with hi | hi
  · rcases p1 i hi hc with hp | ⟨start, dest, sz, hlt, hops, hd, hsz⟩
    · exact Or.inl (paddingCopy_mono (fun x hx => List.mem_append_left _ hx) hp)
    · exact Or.inr ⟨start, dest, sz, hlt, hops,
        advancedBy_mono (fun x hx => List.mem_append_left _ hx) hd, hsz⟩
  · rcases p2 i hi hc with hp | ⟨start, dest, sz, hlt, hops, hd, hsz⟩
    · exact Or.inl (paddingCopy_mono (fun x hx => List.mem_append_right _ hx) hp)
    · exact Or.inr ⟨start, dest, sz, hlt, hops,
        advancedBy_mono (fun x hx => List.mem_append_right _ hx) hd, hsz⟩

/-- A returning `gepOrAddr` created nothing and returned the address for offset 0, and
otherwise created one address computation that advances the address by the offset. -/
theorem gepOrAddr_advanced {addr r : Value} {o : Nat} {s s1 : Llvm}
    (h : gepOrAddr addr o s = .ok r s1) :
    ∃ l, s1.emitted = s.emitted ++ l ∧ (∀ i ∈ l, i.opcode = .GEP) ∧ AdvancedBy l addr o r := by
  by_cases ho : o = 0
  · rw [(gepOrAddr_run addr o s).1 ho] at h
    injection h with h1 h2
    exact ⟨[], by rw [← h2]; simp, by simp, Or.inl ⟨ho, h1.symm⟩⟩
  · rw [(gepOrAddr_run addr o s).2 ho] at h
    injection h with h1 h2
    refine ⟨[s.newInst s.builder
        { opcode := .GEP, ty := addr.getType, operands := [addr, getInt32 o] }],
      by rw [← h2]; rfl, fun i hi => by rw [List.mem_singleton.mp hi]; rfl,
      Or.inr ⟨ho, _, List.mem_singleton_self _, rfl, rfl, ?_⟩⟩
    rw [← h1]
    rfl

theorem memcpy_size {a b : Nat} (hab : a < b) (hb : b < 2 ^ 32) :
    (b + 2 ^ 32 - a % 2 ^ 32) % 2 ^ 32 = b - a := by
  have ha : a < 2 ^ 32 := Nat.lt_trans hab hb
  rw [Nat.mod_eq_of_lt ha]
  have e : b + 2 ^ 32 - a = (b - a) + 2 ^ 32 := by omega
  rw [e, Nat.add_mod_right, Nat.mod_eq_of_lt (by omega)]

/-- The byte copy of `buildMemCpy` copies to the base advanced by the start offset from the
source address it is given. -/
theorem buildMemCpy_inv {base src : Value} {a b : Nat} {s s1 : Llvm} {r : Nat}
    (h : buildMemCpy base a b src s = .ok r s1) :
    ∃ (lg : List Instruction) (m : Instruction) (dest : Value) (sz : Nat),
      s1.emitted = s.emitted ++ (lg ++ [m]) ∧ (∀ i ∈ lg, i.opcode = .GEP) ∧
      m.opcode = .MemCpy ∧ m.operands = [dest, src, getInt64 (Int.ofNat sz)] ∧
      AdvancedBy lg base a dest ∧ (a < b → b < 2 ^ 32 → sz = b - a) := by
  unfold buildMemCpy at h
  obtain ⟨dest, sG, hG, h⟩ := m_bind_inv h
  obtain ⟨lg, eG, pG, hadv⟩ := gepOrAddr_advanced hG
  dsimp only at h
  obtain ⟨_, sM, hM, h⟩ := m_bind_inv h
  obtain ⟨_, eM⟩ := create_inv hM
  have e1 := (m_pure_inv h).2
  refine ⟨lg, sG.newInst sG.builder
      { opcode := .MemCpy, ty := .void,
        operands := [dest, src, getInt64 (Int.ofNat ((b + 2 ^ 32 - a % 2 ^ 32) % 2 ^ 32))],
        align := some 1 },
    dest, (b + 2 ^ 32 - a % 2 ^ 32) % 2 ^ 32, ?_, pG, rfl, rfl, hadv,
    fun hab hb => memcpy_size hab hb⟩
  rw [e1, eM]
  show sG.emitted ++ [_] = _
  rw [eG, List.append_assoc]

theorem copiesFrom_buildMemCpy {base address : Value} {n fo : Nat} (hlt : n < fo) :
    CopiesFrom base address fo (buildMemCpy base n fo address) := by
  constructor
  intro s r s1 h
  obtain ⟨lg, m, dest, sz, hem, pG, hop, hops, hadv, hsz⟩ := buildMemCpy_inv h
  refine ⟨lg ++ [m], hem, fun i hi hc => ?_⟩
  rcases List.mem_append.mp hi with hi | hi
  · rw [pG i hi] at hc
    cases hc
  · rw [List.mem_singleton.mp hi]
    exact Or.inr ⟨n, dest, sz, hlt, hops,
      advancedBy_mono (fun x hx => List.mem_append_left _ hx) hadv, fun hb => hsz hlt hb⟩

/-- What follows `gepOrAddr` in the handling of a field copies relative to the address it
returns; relative to the base these are padding copies. -/
theorem copies_gepOrAddr {β : Type} {base : Value} {fo : Nat} {f : Value → M β}
    (hf : ∀ a, CopiesFrom base a fo (f a)) : Copies base (gepOrAddr base fo >>= f) := by
  constructor
  intro s b s2 h
  obtain ⟨a, s1, h1, h2⟩ := m_bind_inv h
  obtain ⟨lg, eG, pG, hadv⟩ := gepOrAddr_advanced h1
  obtain ⟨l2, e2, p2⟩ := (hf a).run s1 b s2 h2
  refine ⟨lg ++ l2, by rw [e2, eG, List.append_assoc], fun i hi hc => ?_⟩
  have hadv2 : AdvancedBy (lg ++ l2) base fo a :=
    advancedBy_mono (fun x hx => List.mem_append_left _ hx) hadv
  rcases List.mem_append.mp hi with hi | hi
  · rw [pG i hi] at hc
    cases hc
  · rcases p2 i hi hc with hp | ⟨start, dest, sz, hlt, hops, hd, hsz⟩
    · obtain ⟨path, b2, ha, hcase⟩ := paddingCopy_mono
        (fun x hx => List.mem_append_right lg hx) hp
      exact ⟨fo :: path, b2, ⟨a, hadv2, ha⟩, hcase⟩
    · exact ⟨[], base, rfl, Or.inl ⟨start, fo, dest, a, sz, hlt, hops,
        advancedBy_mono (fun x hx => List.mem_append_right lg hx) hd, hadv2, hsz⟩⟩

theorem noCopy_of_conversion {i : Instruction} (h : i.opcode.isConversion = true) :
    i.opcode ≠ .MemCpy := by
  intro hc
  rw [hc] at h
  cases h

set_option maxRecDepth 8192 in
theorem copies_storeObjField (c : Compiler) (baseAddress data : Value) (p : Bool)
    (fd : FieldDesc) (recurse : Value → Value → M Unit)
    (hrec : ∀ a v, Copies a (recurse a v)) (n : Nat) :
    Copies baseAddress (storeObjField c baseAddress data p fd recurse n) := by
  unfold storeObjField
  dsimp only
  refine copies_gepOrAddr (fun address => ?_)
  have hrest : ∀ {α : Type} (m : M α),
      Emits (fun i => i.opcode ≠ .MemCpy) m → CopiesFrom baseAddress address fd.fieldOffset m :=
    fun _ h => copiesFrom_of_emits h
  split
  · rename_i hp
    refine copiesFrom_bind (copiesFrom_buildMemCpy hp.2) (fun _ => ?_)
    repeat (first
      | exact hrest _ (emits_pure _)
      | exact hrest _ (emits_jitAssert _ _)
      | exact hrest _ (emits_create (fun _ _ h => Opcode.noConfusion h))
      | exact hrest _ (emits_getOrCreateFunction _ _ _)
      | exact hrest _ (emits_mono (fun _ h => noCopy_of_conversion h) (emits_castIfNecessary _ _))
      | exact copiesFrom_of_copies (hrec _ _)
      | apply copiesFrom_bind
      | intro _
      | split
      | dsimp only)
  · repeat (first
      | exact hrest _ (emits_pure _)
      | exact hrest _ (emits_jitAssert _ _)
      | exact hrest _ (emits_create (fun _ _ h => Opcode.noConfusion h))
      | exact hrest _ (emits_getOrCreateFunction _ _ _)
      | exact hrest _ (emits_mono (fun _ h => noCopy_of_conversion h) (emits_castIfNecessary _ _))
      | exact copiesFrom_of_copies (hrec _ _)
      | apply copiesFrom_bind
      | intro _
      | split
      | dsimp only)

/-- The trailing copy of `storeObjAtAddress` copies to the base advanced by the bytes stored
from the result of an address computation that advances the base by the bytes stored. -/
theorem copies_storeObjTail (baseAddress data : Value) (p : Bool) (n : Nat) :
    Copies baseAddress (storeObjTail baseAddress data p n) := by
  unfold storeObjTail
  dsimp only
  split
  · rename_i hp
    constructor
    intro s r s1 h
    obtain ⟨src, sG, hG, h⟩ := m_bind_inv h
    obtain ⟨esrc, eG⟩ := create_inv hG
    obtain ⟨copied, sM, hM, h⟩ := m_bind_inv h
    obtain ⟨lg, m, dest, sz, hem, pG, hop, hops, hadv, hsz⟩ := buildMemCpy_inv hM
    have e1 := (m_pure_inv h).2
    refine ⟨s.newInst s.builder
        { opcode := .GEP, ty := baseAddress.getType,
          operands := [baseAddress, getInt32 n] } :: (lg ++ [m]), ?_, fun i hi hc => ?_⟩
    · rw [e1, hem, eG]
      show s.emitted ++ [_] ++ _ = _
      rw [List.append_assoc]
      rfl
    · rcases List.mem_cons.mp hi with hi | hi
      · rw [hi] at hc
        cases hc
      rcases List.mem_append.mp hi with hi | hi
      · rw [pG i hi] at hc
        cases hc
      rw [List.mem_singleton.mp hi]
      refine ⟨[], baseAddress, rfl, Or.inr ⟨n, data.getType.getPrimitiveSizeInBits / 8, dest,
        src, sz, hp.2, hops,
        advancedBy_mono (fun x hx => List.mem_cons_of_mem _ (List.mem_append_left _ hx)) hadv,
        ⟨_, List.mem_cons_self _ _, rfl, rfl, ?_⟩, fun hb => hsz hp.2 hb⟩⟩
      rw [esrc]
      rfl
  · exact copies_of_emits _ (emits_pure _)

mutual
/-- Every byte copy of `storeObjAtAddress` is a padding copy of the object stored to. -/
theorem copies_storeObjAtAddress (c : Compiler) :
    ∀ (sd : StructDesc) (baseAddress data : Value),
      Copies baseAddress (storeObjAtAddress c baseAddress data sd)
  | .mk fields p, baseAddress, data => by
    rw [storeObjAtAddress]
    exact copies_bind (copies_storeObjFields c p fields baseAddress data 0)
      (fun _ => copies_storeObjTail _ _ _ _)
theorem copies_storeObjFields (c : Compiler) (p : Bool) :
    ∀ (fields : List (FieldDesc × Option StructDesc)) (baseAddress data : Value) (n : Nat),
      Copies baseAddress (storeObjFields c baseAddress data p fields n)
  | [], baseAddress, _, n => by
    rw [storeObjFields]
    exact copies_of_emits baseAddress (emits_pure n)
  | (fd, none) :: rest, baseAddress, data, n => by
    rw [storeObjFields]
    exact copies_bind
      (copies_storeObjField c baseAddress data p fd _ (fun a _ => copies_unreached a) n)
      (fun n1 => copies_storeObjFields c p rest baseAddress data n1)
  | (fd, some sd) :: rest, baseAddress, data, n => by
    rw [storeObjFields]
    exact copies_bind
      (copies_storeObjField c baseAddress data p fd _
        (fun a v => copies_storeObjAtAddress c sd a v) n)
      (fun n1 => copies_storeObjFields c p rest baseAddress data n1)
end

/-- C39: every byte copy a returning `storeObjAtAddress` creates is a padding copy of the
object stored to or of a nested object, whose address is the base advanced by the offsets of
the fields that contain it.  A gap copy copies `fieldOffset - bytesStored` bytes to the
object's address advanced by `bytesStored` from the object's address advanced by
`fieldOffset`; a trailing copy copies to the object's address advanced by `bytesStored` from
the result of an address computation that advances the object's address by `bytesStored` as
well.  The source of every copy is thus an address computed from the destination object,
never a value taken from the data. -/
theorem padding_copy_source (c : Compiler) (sd : StructDesc) (baseAddress data : Value)
    (s s1 : Llvm) (h : storeObjAtAddress c baseAddress data sd s = .ok () s1) :
    ∃ l, s1.emitted = s.emitted ++ l ∧
      ∀ i ∈ l, i.opcode = .MemCpy → PaddingCopy l baseAddress i :=
  (copies_storeObjAtAddress c sd baseAddress data).run s () s1 h

/-- Witness of C39: the store of a struct with significant padding whose second field is at
offset 8 returns; its one byte copy copies 8 bytes to the base from the base advanced by 8
(instruction 7). -/
theorem padding_copy_source_witness :
    storeObjAtAddress samplePaddedCompiler (.argument 0 getInt8PtrTy) (.argument 1 (.struct 0))
        samplePaddedDesc sampleFunctionState
      = .ok () (storeObjAtAddress samplePaddedCompiler (.argument 0 getInt8PtrTy)
          (.argument 1 (.struct 0)) samplePaddedDesc sampleFunctionState).state ∧
    ((storeObjAtAddress samplePaddedCompiler (.argument 0 getInt8PtrTy)
        (.argument 1 (.struct 0)) samplePaddedDesc sampleFunctionState).state.emitted.filter
          (fun i => i.opcode == .MemCpy || i.id == 7)).map (fun i => (i.id, i.opcode, i.operands))
      = [(7, .GEP, [.argument 0 getInt8PtrTy, getInt32 8]),
         (8, .MemCpy, [.argument 0 getInt8PtrTy, .inst 7 getInt8PtrTy, getInt64 8])] ∧
    ∃ l, (storeObjAtAddress samplePaddedCompiler (.argument 0 getInt8PtrTy)
          (.argument 1 (.struct 0)) samplePaddedDesc sampleFunctionState).state.emitted
        = sampleFunctionState.emitted ++ l ∧
      ∀ i ∈ l, i.opcode = .MemCpy → PaddingCopy l (.argument 0 getInt8PtrTy) i :=
  ⟨by decide!, by decide!,
    padding_copy_source samplePaddedCompiler samplePaddedDesc (.argument 0 getInt8PtrTy)
      (.argument 1 (.struct 0)) sampleFunctionState _ (by decide!)⟩

/-! ## The bytes covered by `storeObjAtAddress` -/

/-- C31, the code at the failing inputs.  A layout with significant padding whose fields, a
nested struct (a garbage-collected pointer at offset 0 and an `INT` at offset 4) at offset 0 and an `INT`
at offset 8, are in ascending order without overlap or gap: after the nested field
`bytesStored` is 0, not 8, because the size added for it is `getPrimitiveSizeInBits` of a
struct type, which is 0; the store then copies 8 bytes to offset 0 before the field at offset
8, over the two fields at offsets 0 and 4 it has just written.  A layout with significant
padding of a garbage-collected pointer at offset 0 and an `INT` at offset 4, for data of a
12-byte struct type: `bytesStored` ends at 8 and no trailing copy is created, because the
size of the data is again taken as `getPrimitiveSizeInBits` of a struct type. -/
theorem padding_copy_overlaps_nested_field :
    (LType.struct 0).getPrimitiveSizeInBits = 0 ∧
    (storeObjFields samplePaddedCompiler (.argument 0 getInt8PtrTy) (.argument 1 (.struct 0))
        true (samplePaddedDesc.fields.take 1) 0 sampleFunctionState).value? = some 0 ∧
    (storeObjAtAddress samplePaddedCompiler (.argument 0 getInt8PtrTy) (.argument 1 (.struct 0))
        samplePaddedDesc sampleFunctionState).isOk = true ∧
    ((storeObjAtAddress samplePaddedCompiler (.argument 0 getInt8PtrTy)
        (.argument 1 (.struct 0)) samplePaddedDesc sampleFunctionState).state.emitted.filter
          (fun i => i.opcode == .Store || i.opcode == .Call || i.opcode == .MemCpy ||
            i.opcode == .GEP || i.opcode == .BitCast)).map
              (fun i => (i.id, i.opcode, i.operands.drop (if i.opcode == .Call then 1 else 0)))
      = [(2, .Call, [.argument 0 getInt8PtrTy, .inst 1 getInt8PtrTy]),
         (3, .GEP, [.argument 0 getInt8PtrTy, getInt32 4]),
         (5, .BitCast, [.inst 3 getInt8PtrTy]),
         (6, .Store, [.inst 4 (.int 32), .inst 5 (.ptr (.int 32))]),
         (7, .GEP, [.argument 0 getInt8PtrTy, getInt32 8]),
         (8, .MemCpy, [.argument 0 getInt8PtrTy, .inst 7 getInt8PtrTy, getInt64 8]),
         (10, .BitCast, [.inst 7 getInt8PtrTy]),
         (11, .Store, [.inst 9 (.int 32), .inst 10 (.ptr (.int 32))])] ∧
    (storeObjFields sampleGcCompiler (.argument 0 getInt8PtrTy) (.argument 1 (.struct 0))
        true sampleTrailingDesc.fields 0 sampleFunctionState).value? = some 8 ∧
    (storeObjAtAddress sampleGcCompiler (.argument 0 getInt8PtrTy)
        (.argument 1 (.struct 0)) sampleTrailingDesc sampleFunctionState).isOk = true ∧
    (storeObjAtAddress sampleGcCompiler (.argument 0 getInt8PtrTy)
        (.argument 1 (.struct 0)) sampleTrailingDesc sampleFunctionState).state.emitted.filter
          (fun i => i.opcode == .MemCpy) = [] := by
  decide!

/-! ## The initial values of locals -/

theorem functionGetArg_inv {k : Nat} {s s1 : Llvm} {r : Value}
    (h : functionGetArg k s = .ok r s1) :
    s1 = s ∧ ∃ f, s.function = some f ∧ f.getArg k = some r := by
  unfold functionGetArg at h
  cases hf : s.function with
  | none =>
    rw [hf] at h
    cases h
  | some f =>
    rw [hf] at h
    simp only [] at h
    obtain ⟨h1, h2⟩ := deref_inv h
    exact ⟨h2, f, rfl, h1⟩

/-- The decision of lines 146 to 193 of `initializeLocals`, read off a returning
`initialValueOf`: the state is untouched; a parameter gets the function argument with its
argument number; a local in SSA gets nothing when it has no SSA data or its first definition
has an assignment, and otherwise zero exactly when its must-initialise flag is set; any other
local gets zero exactly when it has no explicit initialisation, needs no explicit zero
initialisation, and is untracked or flagged must-initialise. -/
theorem initialValueOf_inv {c : Compiler} {n : Nat} {d : LclVarDsc} {z : Value} {s s1 : Llvm}
    {dec : Option (Option Value)} (h : initialValueOf c n d z s = .ok dec s1) :
    s1 = s ∧
    ((d.lvIsParam = true ∧ ∃ k f arg, d.lvLlvmArgNum = some k ∧ s.function = some f ∧
        f.getArg k = some arg ∧ dec = some (some arg)) ∨
     (d.lvIsParam = false ∧ d.lvInSsa = true ∧
        ((d.lvPerSsaData.head? = none ∧ dec = none) ∨
         (∃ fd, d.lvPerSsaData.head? = some fd ∧ fd.hasAssignment = true ∧ dec = none ∧
            (c.debug = true → d.lvMustInit = false)) ∨
         (∃ fd, d.lvPerSsaData.head? = some fd ∧ fd.hasAssignment = false ∧
            dec = some (if d.lvMustInit = true then some z else none)))) ∨
     (d.lvIsParam = false ∧ d.lvInSsa = false ∧
        dec = some (if (!d.lvHasExplicitInit && !c.fgVarNeedsExplicitZeroInit n &&
                        (!d.lvTracked || d.lvMustInit)) = true then some z else none))) := by
  unfold initialValueOf at h
  cases hp : d.lvIsParam
  · rw [hp] at h
    simp only [Bool.false_eq_true, if_false] at h
    cases hs : d.lvInSsa
    · rw [hs] at h
      simp only [Bool.false_eq_true, if_false] at h
      cases he : d.lvHasExplicitInit <;> cases hz : c.fgVarNeedsExplicitZeroInit n <;>
        cases ht : d.lvTracked <;> cases hm : d.lvMustInit <;>
        rw [he] at h <;> simp only [hz, ht, hm] at h <;>
        simp only [Bool.not_false, Bool.not_true, Bool.false_eq_true, Bool.or_false,
          Bool.or_true, Bool.or_self, if_true, if_false] at h <;>
        obtain ⟨e1, e2⟩ := m_pure_inv h <;>
        exact ⟨e2, Or.inr (Or.inr ⟨rfl, rfl, by rw [e1]; rfl⟩)⟩
    · rw [hs] at h
      simp only [if_true] at h
      cases hh : d.lvPerSsaData.head? with
      | none =>
        rw [hh] at h
        obtain ⟨e1, e2⟩ := m_pure_inv h
        exact ⟨e2, Or.inr (Or.inl ⟨rfl, rfl, Or.inl ⟨rfl, e1⟩⟩)⟩
      | some fd =>
        rw [hh] at h
        dsimp only at h
        cases ha : fd.hasAssignment
        · rw [ha] at h
          simp only [Bool.not_false, Bool.not_true, Bool.false_eq_true, if_false] at h
          cases hm : d.lvMustInit
          · rw [hm] at h
            simp only [Bool.false_eq_true, if_false] at h
            obtain ⟨e1, e2⟩ := m_pure_inv h
            exact ⟨e2, Or.inr (Or.inl ⟨rfl, rfl, Or.inr (Or.inr ⟨fd, rfl, ha, by rw [e1]; rfl⟩)⟩)⟩
          · rw [hm] at h
            simp only [if_true] at h
            obtain ⟨e1, e2⟩ := m_pure_inv h
            exact ⟨e2, Or.inr (Or.inl ⟨rfl, rfl, Or.inr (Or.inr ⟨fd, rfl, ha, by rw [e1]; rfl⟩)⟩)⟩
        · rw [ha] at h
          simp only [Bool.not_true, Bool.not_false, if_true] at h
          obtain ⟨h, hass⟩ := jitAssert_bind_inv h
          obtain ⟨e1, e2⟩ := m_pure_inv h
          refine ⟨e2, Or.inr (Or.inl ⟨rfl, rfl, Or.inr (Or.inl ⟨fd, rfl, ha, e1, fun hd => ?_⟩)⟩)⟩
          have := hass hd
          simpa using this
  · rw [hp] at h
    simp only [if_true] at h
    obtain ⟨h, _⟩ := jitAssert_bind_inv h
    obtain ⟨k, hk, h⟩ := deref_bind_inv h
    obtain ⟨arg, sA, hA, h⟩ := m_bind_inv h
    obtain ⟨eA, f, hf, hg⟩ := functionGetArg_inv hA
    obtain ⟨e1, e2⟩ := m_pure_inv h
    exact ⟨by rw [e2, eA], Or.inl ⟨rfl, k, f, arg, hk, hf, hg, e1⟩⟩

/-- The end of the loop body of `initializeLocals`, lines 205 to 221, for the initial value
`v`: a frame local gets an allocation in the prolog, recorded as its slot, and a store of `v`
through it; any other local gets `v` as the entry of its first SSA number. -/
theorem initializeLocal_finish {c : Compiler} {n : Nat} {d : LclVarDsc} {v : Value}
    {sV s1 : Llvm}
    (h : (do
      jitAssert c (v.getType == c.getLlvmTypeForLclVar d)
      if (← isLlvmFrameLocal c d) then do
        let allocaInst ← createProlog
          { opcode := .Alloca (c.getLlvmTypeForLclVar d),
            ty := (c.getLlvmTypeForLclVar d).getPointerTo }
        modifyState (fun s => { s with m_allocas := s.m_allocas.set n (some allocaInst) })
        let _ ← createProlog { opcode := .Store, ty := .void, operands := [v, allocaInst] }
        pure ()
      else do
        jitAssert c d.lvInSsa
        let s ← getState
        let m ← tableSetChecked c s.localsMap (n, FIRST_SSA_NUM) v
        modifyState (fun s1 => { s1 with localsMap := m }) : M Unit) sV = .ok () s1) :
    ((!d.lvInSsa && decide (d.lvRefCnt > 0)) = true ∧
      s1 = ({ sV.insert sV.prologBuilder
                { opcode := .Alloca (c.getLlvmTypeForLclVar d),
                  ty := (c.getLlvmTypeForLclVar d).getPointerTo } with
              m_allocas := sV.m_allocas.set n
                (some (.inst sV.nextValueId (c.getLlvmTypeForLclVar d).getPointerTo)) }).insert
            sV.prologBuilder
            { opcode := .Store, ty := .void,
              operands := [v, .inst sV.nextValueId (c.getLlvmTypeForLclVar d).getPointerTo] }) ∨
    ((!d.lvInSsa && decide (d.lvRefCnt > 0)) = false ∧
      (c.debug = true → tableLookup sV.localsMap (n, FIRST_SSA_NUM) = none) ∧
      s1 = { sV with localsMap := tableSet sV.localsMap (n, FIRST_SSA_NUM) v }) := by
  obtain ⟨h, _⟩ := jitAssert_bind_inv h
  have h := isLlvmFrameLocal_bind_inv h
  cases hb : (!d.lvInSsa && decide (d.lvRefCnt > 0))
  · rw [hb] at h
    simp only [Bool.false_eq_true, if_false] at h
    obtain ⟨h, _⟩ := jitAssert_bind_inv h
    have h := getState_bind_inv h
    obtain ⟨m, sM, hM, h⟩ := m_bind_inv h
    unfold tableSetChecked at hM
    obtain ⟨hM, hfresh⟩ := jitAssert_bind_inv hM
    obtain ⟨em, es⟩ := m_pure_inv hM
    rw [es, em] at h
    injection h with _ h
    refine Or.inr ⟨rfl, fun hdbg => ?_, h.symm⟩
    have := hfresh hdbg
    simpa using this
  · rw [hb] at h
    simp only [if_true] at h
    obtain ⟨a, sA, hA, h⟩ := m_bind_inv h
    injection hA with ea esA
    have h := modifyState_bind_inv h
    obtain ⟨r, sD, hD, h⟩ := m_bind_inv h
    injection hD with _ esD
    have e1 := (m_pure_inv h).2
    refine Or.inl ⟨rfl, ?_⟩
    rw [e1, ← esD, ← esA, ← ea]
    rfl

/-- A returning loop body of `initializeLocals` for the local `n` with descriptor `d`.  It
leaves the state as it is when the local has no references, cannot be stored on the stack or
gets no initial value.  Otherwise it finalises the must-initialise flag, takes the chosen
value or, if there is none, the result of freezing an undefined value in the prolog, and
gives the local its slot or its entry. -/
theorem initializeLocal_inv {c : Compiler} {n : Nat} {d : LclVarDsc} {s s1 : Llvm}
    (hd : s.lvaTable[n]? = some d) (h : initializeLocal c n s = .ok () s1) :
    ((d.lvRefCnt = 0 ∨ c.canStoreLocalOnLlvmStack d = false ∨
        initialValueOf c n d (.nullValue (c.getLlvmTypeForLclVar d)) s = .ok none s) ∧ s1 = s) ∨
    (d.lvRefCnt ≠ 0 ∧ c.canStoreLocalOnLlvmStack d = true ∧
      ∃ (iv : Option Value) (v : Value) (sV : Llvm),
        initialValueOf c n d (.nullValue (c.getLlvmTypeForLclVar d)) s = .ok (some iv) s ∧
        ((iv = some v ∧ sV = s.withLocal n (d.finalised c iv)) ∨
         (iv = none ∧ v = .inst s.nextValueId (c.getLlvmTypeForLclVar d) ∧
            sV = (s.withLocal n (d.finalised c iv)).insert s.prologBuilder
              { opcode := .Freeze, ty := c.getLlvmTypeForLclVar d,
                operands := [.undef (c.getLlvmTypeForLclVar d)] })) ∧
        (((!d.lvInSsa && decide (d.lvRefCnt > 0)) = true ∧
          s1 = ({ sV.insert sV.prologBuilder
                    { opcode := .Alloca (c.getLlvmTypeForLclVar d),
                      ty := (c.getLlvmTypeForLclVar d).getPointerTo } with
                  m_allocas := sV.m_allocas.set n
                    (some (.inst sV.nextValueId (c.getLlvmTypeForLclVar d).getPointerTo)) }).insert
                sV.prologBuilder
                { opcode := .Store, ty := .void,
                  operands :=
                    [v, .inst sV.nextValueId (c.getLlvmTypeForLclVar d).getPointerTo] }) ∨
         ((!d.lvInSsa && decide (d.lvRefCnt > 0)) = false ∧
          (c.debug = true → tableLookup sV.localsMap (n, FIRST_SSA_NUM) = none) ∧
          s1 = { sV with localsMap := tableSet sV.localsMap (n, FIRST_SSA_NUM) v }))) := by
  unfold initializeLocal at h
  obtain ⟨d2, sx, hx, h⟩ := m_bind_inv h
  obtain ⟨ex, hd2⟩ := lvaGetDesc_inv hx
  rw [hd] at hd2
  have ed : d2 = d := (Option.some.inj hd2).symm
  rw [ex, ed] at h
  by_cases hr : d.lvRefCnt = 0
  · rw [if_pos hr] at h
    exact Or.inl ⟨Or.inl hr, (m_pure_inv h).2⟩
  rw [if_neg hr] at h
  cases hc : c.canStoreLocalOnLlvmStack d
  · rw [hc] at h
    simp only [Bool.not_false, if_true] at h
    exact Or.inl ⟨Or.inr (Or.inl rfl), (m_pure_inv h).2⟩
  rw [hc] at h
  simp only [Bool.not_true, Bool.false_eq_true, if_false] at h
  obtain ⟨dec, sD, hD, h⟩ := m_bind_inv h
  have esD := (initialValueOf_inv hD).1
  rw [esD] at h hD
  cases dec with
  | none =>
    dsimp only at h
    exact Or.inl ⟨Or.inr (Or.inr hD), (m_pure_inv h).2⟩
  | some iv =>
    dsimp only at h
    have h := modifyState_bind_inv h
    refine Or.inr ⟨hr, rfl, ?_⟩
    cases iv with
    | some v =>
      dsimp only at h
      rw [m_bind_ok (m_pure_apply _ _)] at h
      exact ⟨some v, v, _, hD, Or.inl ⟨rfl, rfl⟩, initializeLocal_finish h⟩
    | none =>
      dsimp only at h
      obtain ⟨y, sY, hY, h⟩ := m_bind_inv h
      injection hY with ey esY
      rw [← ey, ← esY] at h
      exact ⟨none, _, _, hD, Or.inr ⟨rfl, rfl, rfl⟩, initializeLocal_finish h⟩

theorem placeAll_append (b : IRBuilder) (l1 l2 : List Instruction) (bs : List LBasicBlock) :
    placeAll b (l1 ++ l2) bs = placeAll b l2 (placeAll b l1 bs) := by
  unfold placeAll
  rw [List.foldl_append]

theorem prologStep_refl (s : Llvm) : PrologStep [] s s :=
  ⟨by simp, rfl, rfl, rfl, rfl, rfl, rfl, rfl⟩

theorem prologStep_trans {l1 l2 : List Instruction} {s s1 s2 : Llvm}
    (h1 : PrologStep l1 s s1) (h2 : PrologStep l2 s1 s2) : PrologStep (l1 ++ l2) s s2 := by
  obtain ⟨a1, a2, a3, a4, a5, a6, a7, a8⟩ := h1
  obtain ⟨b1, b2, b3, b4, b5, b6, b7, b8⟩ := h2
  refine ⟨by rw [b1, a1, List.append_assoc], ?_, b3.trans a3, b4.trans a4, b5.trans a5,
    b6.trans a6, b7.trans a7, b8.trans a8⟩
  rw [b2, a2, a3, placeAll_append]

theorem localFrame_refl (j : Nat) (s : Llvm) : LocalFrame j s s :=
  ⟨rfl, rfl, fun _ => rfl⟩

theorem localFrame_trans {j : Nat} {s s1 s2 : Llvm} (h1 : LocalFrame j s s1)
    (h2 : LocalFrame j s1 s2) : LocalFrame j s s2 :=
  ⟨h2.1.trans h1.1, h2.2.1.trans h1.2.1, fun k => (h2.2.2 k).trans (h1.2.2 k)⟩

theorem frameLocal_flag {d : LclVarDsc} (hr : d.lvRefCnt ≠ 0) :
    (!d.lvInSsa && decide (d.lvRefCnt > 0)) = !d.lvInSsa := by
  have : decide (d.lvRefCnt > 0) = true := decide_eq_true (Nat.pos_of_ne_zero hr)
  rw [this, Bool.and_true]

/-- One iteration of the loop of `initializeLocals`, for the local `n` with descriptor `d`:
the instructions it creates are created by the prolog builder, every other local is left as
it is, and the local `n` is skipped or initialised. -/
theorem initializeLocal_step {c : Compiler} {n : Nat} {d : LclVarDsc} {s s1 : Llvm}
    (hd : s.lvaTable[n]? = some d) (hn : n < s.m_allocas.length)
    (h : initializeLocal c n s = .ok () s1) :
    ∃ ln, PrologStep ln s s1 ∧ (∀ j, j ≠ n → LocalFrame j s s1) ∧
      LocalInit c n d s.function s.localsMap s.m_allocas[n]? ln s1 := by
  have hlt : n < s.lvaTable.length := by
    by_contra hge
    rw [List.getElem?_eq_none (Nat.le_of_not_lt hge)] at hd
    cases hd
  rcases initializeLocal_inv hd h with ⟨hskip, e⟩ | ⟨hr, hc, iv, v, sV, hdec, hval, hfin⟩
  · rw [e]
    refine ⟨[], prologStep_refl s, fun j _ => localFrame_refl j s, Or.inl ⟨?_, hd, rfl, fun _ => rfl⟩⟩
    rcases hskip with h1 | h1 | h1
    · exact Or.inl h1
    · exact Or.inr (Or.inl h1)
    · exact Or.inr (Or.inr ⟨s, rfl, h1⟩)
  have hV : ∃ pre, PrologStep pre s sV ∧
      sV.lvaTable = s.lvaTable.set n (d.finalised c iv) ∧ sV.m_allocas = s.m_allocas ∧
      sV.localsMap = s.localsMap ∧ ChosenValue c d pre iv v := by
    rcases hval with ⟨e1, e2⟩ | ⟨e1, e2, e3⟩
    · rw [e2]
      exact ⟨[], ⟨by simp [Llvm.withLocal], rfl, rfl, rfl,
        by simp [Llvm.withLocal], rfl, rfl, rfl⟩, rfl, rfl, rfl, Or.inl e1⟩
    · rw [e3]
      refine ⟨[s.newInst s.prologBuilder
          { opcode := .Freeze, ty := c.getLlvmTypeForLclVar d,
            operands := [.undef (c.getLlvmTypeForLclVar d)] }],
        ⟨rfl, rfl, rfl, rfl, by simp [Llvm.withLocal, Llvm.insert], rfl, rfl, rfl⟩,
        rfl, rfl, rfl, Or.inr ⟨e1, _, List.mem_singleton_self _, rfl, rfl, ?_⟩⟩
      rw [e2]
      rfl
  obtain ⟨pre, hP, hVl, hVa, hVm, hch⟩ := hV
  have hflag := frameLocal_flag hr
  have hframe_l : ∀ j, j ≠ n → (s.lvaTable.set n (d.finalised c iv))[j]? = s.lvaTable[j]? :=
    fun j hj => List.getElem?_set_ne (Ne.symm hj)
  rcases hfin with ⟨hb, e1⟩ | ⟨hb, hfresh, e1⟩
  · -- a frame local
    rw [hflag] at hb
    have hssa : d.lvInSsa = false := by simpa using hb
    have hS : PrologStep
        [sV.newInst sV.prologBuilder
            { opcode := .Alloca (c.getLlvmTypeForLclVar d),
              ty := (c.getLlvmTypeForLclVar d).getPointerTo },
         (sV.insert sV.prologBuilder
            { opcode := .Alloca (c.getLlvmTypeForLclVar d),
              ty := (c.getLlvmTypeForLclVar d).getPointerTo }).newInst sV.prologBuilder
            { opcode := .Store, ty := .void,
              operands := [v, .inst sV.nextValueId (c.getLlvmTypeForLclVar d).getPointerTo] }]
        sV s1 := by
      rw [e1]
      exact ⟨by simp [Llvm.insert, Llvm.newInst], rfl, rfl, rfl, rfl, by simp [Llvm.insert], rfl, rfl⟩
    have h1l : s1.lvaTable = s.lvaTable.set n (d.finalised c iv) := by
      rw [e1]
      exact hVl
    have h1a : s1.m_allocas = s.m_allocas.set n
        (some (.inst sV.nextValueId (c.getLlvmTypeForLclVar d).getPointerTo)) := by
      rw [e1]
      show sV.m_allocas.set n _ = _
      rw [hVa]
    have h1m : s1.localsMap = s.localsMap := by
      rw [e1]
      exact hVm
    refine ⟨_, prologStep_trans hP hS, fun j hj => ⟨?_, ?_, fun k => by rw [h1m]⟩,
      Or.inr ⟨hr, hc, iv, v, ⟨s, rfl, hdec⟩, ?_, ?_, Or.inl ⟨hssa, ?_, fun k => by rw [h1m]⟩⟩⟩
    · rw [h1l, hframe_l j hj]
    · rw [h1a, List.getElem?_set_ne (Ne.symm hj)]
    · rw [h1l, List.getElem?_set_self hlt]
    · rcases hch with hch | ⟨hi, fr, hfr, hrest⟩
      · exact Or.inl hch
      · exact Or.inr ⟨hi, fr, List.mem_append_left _ hfr, hrest⟩
    · refine ⟨pre, [], _, _, by rw [List.append_nil], rfl, rfl, rfl, ?_⟩
      rw [h1a, List.getElem?_set_self hn]
      rfl
  · -- a local in SSA
    rw [hflag] at hb
    have hssa : d.lvInSsa = true := by simpa using hb
    have hS : PrologStep [] sV s1 := by
      rw [e1]
      exact ⟨by simp, rfl, rfl, rfl, rfl, rfl, rfl, rfl⟩
    have h1l : s1.lvaTable = s.lvaTable.set n (d.finalised c iv) := by
      rw [e1]
      exact hVl
    have h1a : s1.m_allocas = s.m_allocas := by
      rw [e1]
      exact hVa
    have h1m : s1.localsMap = tableSet s.localsMap (n, FIRST_SSA_NUM) v := by
      rw [e1]
      show tableSet sV.localsMap _ _ = _
      rw [hVm]
    have hlook : ∀ j k, (j, k) ≠ (n, FIRST_SSA_NUM) →
        tableLookup s1.localsMap (j, k) = tableLookup s.localsMap (j, k) := by
      intro j k hne
      rw [h1m, tableLookup_tableSet, if_neg (Ne.symm hne)]
    have hP2 := prologStep_trans hP hS
    rw [List.append_nil] at hP2
    refine ⟨pre, hP2, fun j hj => ⟨?_, by rw [h1a], fun k => hlook j k ?_⟩,
      Or.inr ⟨hr, hc, iv, v, ⟨s, rfl, hdec⟩, ?_, hch, Or.inr ⟨hssa, ?_, fun k hk => hlook n k ?_,
        by rw [h1a], fun hdbg => ?_⟩⟩⟩
    · rw [h1l, hframe_l j hj]
    · intro he
      exact hj (Prod.mk.inj he).1
    · rw [h1l, List.getElem?_set_self hlt]
    · rw [h1m, tableLookup_tableSet, if_pos rfl]
    · intro he
      exact hk (Prod.mk.inj he).2
    · have := hfresh hdbg
      rw [hVm] at this
      exact this

theorem chosenValue_mono {c : Compiler} {d : LclVarDsc} {l : List Instruction}
    {iv : Option Value} {v : Value} (pre post : List Instruction)
    (h : ChosenValue c d l iv v) : ChosenValue c d (pre ++ l ++ post) iv v := by
  rcases h with h | ⟨hi, fr, hfr, hrest⟩
  · exact Or.inl h
  · exact Or.inr ⟨hi, fr, List.mem_append_left _ (List.mem_append_right _ hfr), hrest⟩

theorem slotWith_mono {l : List Instruction} {a1 a2 : List (Option Value)} {n : Nat}
    {T : LType} {v : Value} (pre post : List Instruction) (ha : a2[n]? = a1[n]?)
    (h : SlotWith l a1 n T v) : SlotWith (pre ++ l ++ post) a2 n T v := by
  obtain ⟨l1, l2, a, st, e, h1, h2, h3, h4⟩ := h
  refine ⟨pre ++ l1, l2 ++ post, a, st, ?_, h1, h2, h3, ha.trans h4⟩
  rw [e]
  simp only [List.append_assoc]

/-- What the loop did for a local stays true when further steps leave the local alone and
further instructions are created around its own. -/
theorem localInit_mono {c : Compiler} {n : Nat} {d : LclVarDsc} {fn : Option LFunction}
    {m0 : List ((Nat × Nat) × Value)} {a0 : Option (Option Value)} {l : List Instruction}
    {sF sG : Llvm} (pre post : List Instruction) (hf : LocalFrame n sF sG)
    (h : LocalInit c n d fn m0 a0 l sF) : LocalInit c n d fn m0 a0 (pre ++ l ++ post) sG := by
  obtain ⟨f1, f2, f3⟩ := hf
  rcases h with ⟨h1, h2, h3, h4⟩ | ⟨h1, h2, iv, v, h3, h4, h5, h6⟩
  · exact Or.inl ⟨h1, f1.trans h2, f2.trans h3, fun k => (f3 k).trans (h4 k)⟩
  · refine Or.inr ⟨h1, h2, iv, v, h3, f1.trans h4, chosenValue_mono pre post h5, ?_⟩
    rcases h6 with ⟨g1, g2, g3⟩ | ⟨g1, g2, g3, g4, g5⟩
    · exact Or.inl ⟨g1, slotWith_mono pre post f2 g2, fun k => (f3 k).trans (g3 k)⟩
    · exact Or.inr ⟨g1, (f3 _).trans g2, fun k hk => (f3 k).trans (g3 k hk), f2.trans g4, g5⟩

/-- What the loop did for a local, stated against an earlier state that differs from the
starting one in other locals only. -/
theorem localInit_shift {c : Compiler} {n : Nat} {d : LclVarDsc} {l : List Instruction}
    {s sA sF : Llvm} (hfn : sA.function = s.function) (hf : LocalFrame n s sA)
    (h : LocalInit c n d sA.function sA.localsMap sA.m_allocas[n]? l sF) :
    LocalInit c n d s.function s.localsMap s.m_allocas[n]? l sF := by
  obtain ⟨_, f2, f3⟩ := hf
  rw [hfn, f2] at h
  rcases h with ⟨h1, h2, h3, h4⟩ | ⟨h1, h2, iv, v, h3, h4, h5, h6⟩
  · exact Or.inl ⟨h1, h2, h3, fun k => (h4 k).trans (f3 k)⟩
  · refine Or.inr ⟨h1, h2, iv, v, h3, h4, h5, ?_⟩
    rcases h6 with ⟨g1, g2, g3⟩ | ⟨g1, g2, g3, g4, g5⟩
    · exact Or.inl ⟨g1, g2, fun k => (g3 k).trans (f3 k)⟩
    · exact Or.inr ⟨g1, g2, fun k hk => (g3 k hk).trans (f3 k), g4,
        fun hdbg => (f3 _).symm.trans (g5 hdbg)⟩

/-- The loop of `initializeLocals` over the locals `ns`: the instructions it creates are
created by the prolog builder, the locals outside `ns` are left alone, and every local of
`ns` is skipped or initialised. -/
theorem initializeLocal_loop (c : Compiler) :
    ∀ (ns : List Nat) (s s1 : Llvm), ns.Nodup →
      (∀ n ∈ ns, n < s.lvaTable.length) → s.m_allocas.length = s.lvaTable.length →
      forEach (initializeLocal c) ns s = .ok () s1 →
      ∃ L, PrologStep L s s1 ∧ (∀ j, j ∉ ns → LocalFrame j s s1) ∧
        ∀ n ∈ ns, ∀ d, s.lvaTable[n]? = some d →
          LocalInit c n d s.function s.localsMap s.m_allocas[n]? L s1
  | [], s, s1, _, _, _, h => by
    obtain ⟨-, e⟩ := m_pure_inv h
    subst e
    exact ⟨[], prologStep_refl _, fun j _ => localFrame_refl j _,
      fun n hn => absurd hn (List.not_mem_nil n)⟩
  | x :: xs, s, s1, hnd, hlt, hlen, h => by
    obtain ⟨u, sA, hx, hxs⟩ := m_bind_inv h
    cases u
    have hxlt : x < s.lvaTable.length := hlt x (List.mem_cons_self x xs)
    have hdx : s.lvaTable[x]? = some (s.lvaTable.get ⟨x, hxlt⟩) := List.getElem?_eq_getElem hxlt
    obtain ⟨lx, hPx, hFx, hIx⟩ := initializeLocal_step hdx (hlen ▸ hxlt) hx
    have hnd2 := List.nodup_cons.mp hnd
    obtain ⟨L, hP, hF, hI⟩ := initializeLocal_loop c xs sA s1 hnd2.2
      (fun n hn => by
        rw [hPx.2.2.2.2.1]
        exact hlt n (List.mem_cons_of_mem x hn))
      (by rw [hPx.2.2.2.2.1, hPx.2.2.2.2.2.1, hlen]) hxs
    refine ⟨lx ++ L, prologStep_trans hPx hP, fun j hj => ?_, fun n hn d hd => ?_⟩
    · have hjx : j ≠ x := fun e => hj (e ▸ List.mem_cons_self x xs)
      have hjxs : j ∉ xs := fun e => hj (List.mem_cons_of_mem x e)
      exact localFrame_trans (hFx j hjx) (hF j hjxs)
    · rcases List.mem_cons.mp hn with e | hmem
      · subst e
        have hdd : s.lvaTable.get ⟨n, hxlt⟩ = d := Option.some.inj (hdx.symm.trans hd)
        rw [hdd] at hIx
        have := localInit_mono [] L (hF n hnd2.1) hIx
        rwa [List.nil_append] at this
      · have hnx : n ≠ x := fun e => hnd2.1 (e ▸ hmem)
        have hfr := hFx n hnx
        have h1 := hI n hmem d (hfr.1.trans hd)
        have h2 := localInit_shift hPx.2.2.2.1 hfr h1
        have := localInit_mono lx [] (localFrame_refl n s1) h2
        rwa [List.append_nil] at this

/-- A returning `initializeLocals`: the instructions it creates are created by the prolog
builder, and every local of the table is skipped or initialised, starting from an empty slot
vector. -/
theorem initializeLocals_inv {c : Compiler} {s s1 : Llvm}
    (h : initializeLocals c s = .ok () s1) :
    ∃ L, s1.emitted = s.emitted ++ L ∧ s1.blocks = placeAll s.prologBuilder L s.blocks ∧
      s1.prologBuilder = s.prologBuilder ∧ s1.function = s.function ∧
      s1.nextBlockId = s.nextBlockId ∧
      s1.blkToLlvmBlkVectorMap = s.blkToLlvmBlkVectorMap ∧
      ∀ n d, s.lvaTable[n]? = some d →
        LocalInit c n d s.function s.localsMap (some none) L s1 := by
  unfold LlvmCodegen.initializeLocals at h
  have h := modifyState_bind_inv (getState_bind_inv h)
  obtain ⟨L, hP, -, hI⟩ := initializeLocal_loop c (List.range s.lvaTable.length)
    { s with m_allocas := List.replicate s.lvaTable.length none } s1
    (List.nodup_range _) (fun n hn => List.mem_range.mp hn) (List.length_replicate _ _) h
  obtain ⟨p1, p2, p3, p4, -, -, p7, p8⟩ := hP
  refine ⟨L, p1, p2, p3, p4, p7, p8, fun n d hd => ?_⟩
  have hlt : n < s.lvaTable.length := by
    by_contra hge
    rw [List.getElem?_eq_none (Nat.le_of_not_lt hge)] at hd
    cases hd
  have := hI n (List.mem_range.mpr hlt) d hd
  have ha : (List.replicate s.lvaTable.length (none : Option Value))[n]? = some none := by
    rw [List.getElem?_eq_getElem (by rw [List.length_replicate]; exact hlt)]
    simp
  exact ha ▸ this

theorem insertBefore_none (i : Instruction) :
    ∀ l : List Instruction, insertBefore i none l = l ++ [i]
  | [] => rfl
  | x :: xs => by
    unfold insertBefore
    rw [if_neg (fun e => Option.noConfusion e), insertBefore_none i xs]
    rfl

/-- A builder at the end of the block `p` appends what it places to that block. -/
theorem find_placeAll (b : IRBuilder) (p : Nat) (hb : b.block = some p) (hbf : b.before = none) :
    ∀ (L : List Instruction) (bs : List LBasicBlock),
      (placeAll b L bs).find? (fun x => x.id = p) =
        (bs.find? (fun x => x.id = p)).map (fun x => { x with insts := x.insts ++ L })
  | [], bs => by
    cases h : bs.find? (fun x => x.id = p) with
    | none => simp [placeAll, h]
    | some x => simp [placeAll, h]
  | i :: L, bs => by
    have e : insertAt b i bs = insertAt { block := some p, before := none } i bs := by
      simp [insertAt, hb, hbf]
    have h1 : placeAll b (i :: L) bs = placeAll b L (insertAt b i bs) := rfl
    rw [h1, find_placeAll b p hb hbf L, e, find_insertAt p none i p bs, if_pos rfl]
    cases h : bs.find? (fun x => x.id = p) with
    | none => rfl
    | some x => simp [insertBefore_none]

/-- A returning `getLLVMBasicBlockForBlock`: the block the map holds, in the same state, or a
new block appended to the function and recorded in the map. -/
theorem getLLVMBasicBlockForBlock_inv {c : Compiler} {k : Nat} {s s1 : Llvm} {b : Nat}
    (h : getLLVMBasicBlockForBlock c (some k) s = .ok b s1) :
    (tableLookup s.blkToLlvmBlkVectorMap k = some b ∧ s1 = s) ∨
    (tableLookup s.blkToLlvmBlkVectorMap k = none ∧ b = s.nextBlockId ∧
      s1 = { s with
          blocks := s.blocks ++ [{ id := s.nextBlockId, name := llvmBlockName k,
                                   parent := match s.function with
                                     | some f => f.name
                                     | none => "" }],
          nextBlockId := s.nextBlockId + 1,
          blkToLlvmBlkVectorMap := tableSet s.blkToLlvmBlkVectorMap k s.nextBlockId }) := by
  cases hl : tableLookup s.blkToLlvmBlkVectorMap k with
  | some b0 =>
    have hrun : getLLVMBasicBlockForBlock c (some k) s = .ok b0 s := by
      simp only [getLLVMBasicBlockForBlock, m_bind_apply, getState, deref, m_pure_apply, hl]
    rw [hrun] at h
    injection h with h1 h2
    exact Or.inl ⟨by rw [h1], h2.symm⟩
  | none =>
    have hrun : getLLVMBasicBlockForBlock c (some k) s = .ok s.nextBlockId
        { s with
          blocks := s.blocks ++ [{ id := s.nextBlockId, name := llvmBlockName k,
                                   parent := match s.function with
                                     | some f => f.name
                                     | none => "" }],
          nextBlockId := s.nextBlockId + 1,
          blkToLlvmBlkVectorMap := tableSet s.blkToLlvmBlkVectorMap k s.nextBlockId } := by
      simp only [getLLVMBasicBlockForBlock, m_bind_apply, getState, deref, m_pure_apply, hl,
        createBasicBlock, tableSetChecked, jitAssert, Option.isNone_none,
        Bool.not_true, Bool.and_false, Bool.false_eq_true, if_false, modifyState] <;> rfl
    rw [hrun] at h
    injection h with h1 h2
    exact Or.inr ⟨rfl, h1.symm, h2.symm⟩

theorem generateProlog_inv {c : Compiler} {s s1 : Llvm}
    (hfresh : s.getBlock s.nextBlockId = none) (h : generateProlog c s = .ok () s1) :
    ∃ (L : List Instruction) (br : Instruction) (block0 : Nat),
      s1.getBlock s.nextBlockId =
        some { id := s.nextBlockId, name := "Prolog",
               parent := (match s.function with
                 | some f => f.name
                 | none => ""),
               insts := L ++ [br] } ∧
      br.opcode = .Br ∧ br.targets = [block0] ∧
      tableLookup s1.blkToLlvmBlkVectorMap c.fgFirstBB = some block0 ∧
      s1.emitted = s.emitted ++ L ++ [br] ∧ s1.function = s.function ∧
      ∀ n d, s.lvaTable[n]? = some d →
        LocalInit c n d s.function s.localsMap (some none) L s1 := by
  unfold LlvmCodegen.generateProlog at h
  replace h := getState_bind_inv h
  obtain ⟨pb, sA, hA, h⟩ := m_bind_inv h
  have hA2 : Outcome.ok s.nextBlockId
      { s with blocks := s.blocks ++ [{ id := s.nextBlockId, name := "Prolog",
                                        parent := (match s.function with
                                          | some f => f.name
                                          | none => "") }],
               nextBlockId := s.nextBlockId + 1 } = Outcome.ok pb sA := hA
  clear hA
  injection hA2 with epb eA
  subst epb
  replace h := modifyState_bind_inv h
  obtain ⟨u, sC, hIL, h⟩ := m_bind_inv h
  cases u
  obtain ⟨block0, sD, hBB, h⟩ := m_bind_inv h
  obtain ⟨br, sE, hBr, h⟩ := m_bind_inv h
  have hBr2 : Outcome.ok (Value.inst sD.nextValueId LType.void)
      (sD.insert sD.prologBuilder { opcode := .Br, ty := .void, targets := [block0] }) =
      Outcome.ok br sE := hBr
  clear hBr
  injection hBr2 with ebr eE
  subst ebr
  replace h := modifyState_bind_inv h
  have h2 : Outcome.ok () _ = Outcome.ok () s1 := h
  clear h
  injection h2 with _ e1
  obtain ⟨L, p1, p2, p3, p4, p5, p6, hI⟩ := initializeLocals_inv hIL
  clear hIL
  subst eA
  -- the prolog block after the loop
  have hs : s.blocks.find? (fun x => x.id = s.nextBlockId) = none := hfresh
  have hC : sC.blocks.find? (fun x => decide (x.id = s.nextBlockId)) =
      some { id := s.nextBlockId, name := "Prolog",
             parent := (match s.function with
               | some f => f.name
               | none => ""),
             insts := L } := by
    rw [p2, find_placeAll _ s.nextBlockId rfl rfl]
    show Option.map _ ((s.blocks ++ [_]).find? _) = _
    rw [List.find?_append, hs]
    simp
  -- the block lookup leaves the prolog block, the locals and the builder alone
  have hD : sD.blocks.find? (fun x => decide (x.id = s.nextBlockId)) =
        sC.blocks.find? (fun x => decide (x.id = s.nextBlockId)) ∧
      sD.prologBuilder = sC.prologBuilder ∧ sD.emitted = sC.emitted ∧
      sD.function = sC.function ∧ sD.lvaTable = sC.lvaTable ∧ sD.m_allocas = sC.m_allocas ∧
      sD.localsMap = sC.localsMap ∧
      tableLookup sD.blkToLlvmBlkVectorMap c.fgFirstBB = some block0 := by
    rcases getLLVMBasicBlockForBlock_inv hBB with ⟨hl, e⟩ | ⟨-, eb, e⟩
    · rw [e]
      exact ⟨rfl, rfl, rfl, rfl, rfl, rfl, rfl, hl⟩
    · rw [e]
      refine ⟨?_, rfl, rfl, rfl, rfl, rfl, rfl, ?_⟩
      · show (sC.blocks ++ [_]).find? _ = _
        rw [List.find?_append, hC]
        rfl
      · show tableLookup (tableSet _ _ _) _ = _
        rw [tableLookup_tableSet, if_pos rfl, eb]
  obtain ⟨d1, d2, d3, d4, d5, d6, d7, d8⟩ := hD
  have hE : sE.blocks.find? (fun x => decide (x.id = s.nextBlockId)) =
      some { id := s.nextBlockId, name := "Prolog",
             parent := (match s.function with
               | some f => f.name
               | none => ""),
             insts := L ++ [sD.newInst sD.prologBuilder
               { opcode := .Br, ty := .void, targets := [block0] }] } := by
    rw [← eE]
    show (placeAll sD.prologBuilder [_] sD.blocks).find? _ = _
    rw [find_placeAll sD.prologBuilder s.nextBlockId (by rw [d2, p3]) (by rw [d2, p3]), d1, hC]
    rfl
  refine ⟨L, sD.newInst sD.prologBuilder { opcode := .Br, ty := .void, targets := [block0] },
    block0, ?_, rfl, rfl, ?_, ?_, ?_, fun n d hd => ?_⟩
  · rw [← e1]
    exact hE
  · rw [← e1, ← eE]
    exact d8
  · rw [← e1, ← eE]
    show sD.emitted ++ [_] = _
    rw [d3, p1]
  · rw [← e1, ← eE]
    show sD.function = _
    rw [d4, p4]
  · have hf : LocalFrame n sC s1 := by
      refine ⟨?_, ?_, fun k => ?_⟩
      · rw [← e1, ← eE]
        show sD.lvaTable[n]? = _
        rw [d5]
      · rw [← e1, ← eE]
        show sD.m_allocas[n]? = _
        rw [d6]
      · rw [← e1, ← eE]
        show tableLookup sD.localsMap _ = _
        rw [d7]
    have := localInit_mono [] [] hf (hI n d hd)
    rwa [List.nil_append, List.append_nil] at this

/-! ## The initial values of locals: the choice and its outcome -/

theorem getArg_argument {f : LFunction} {k : Nat} {arg : Value} (h : f.getArg k = some arg) :
    ∃ T, arg = .argument k T := by
  unfold LFunction.getArg at h
  split at h
  · rename_i r params _
    cases hp : params[k]? with
    | none =>
      rw [hp] at h
      cases h
    | some t =>
      rw [hp] at h
      exact ⟨t, (Option.some.inj h).symm⟩
  · cases h

/-- A returning decision of lines 146 to 193 that gives an initial value is the choice
`InitialChoice`. -/
theorem initialChoice_of_run {c : Compiler} {n : Nat} {d : LclVarDsc} {z : Value} {s s1 : Llvm}
    {iv : Option Value} (h : initialValueOf c n d z s = .ok (some iv) s1) :
    InitialChoice c n d z s.function iv ∧ ¬ d.noInitialValue := by
  obtain ⟨-, hcase⟩ := initialValueOf_inv h
  rcases hcase with ⟨hp, k, f, arg, h1, h2, h3, h4⟩ | ⟨hp, hs, hcase⟩ | ⟨hp, hs, h4⟩
  · refine ⟨Or.inl ⟨hp, k, f, arg, h1, h2, h3, Option.some.inj h4⟩, fun hn => ?_⟩
    rw [hn.1] at hp
    cases hp
  · rcases hcase with ⟨_, h4⟩ | ⟨fd, _, _, h4, _⟩ | ⟨fd, h1, h2, h4⟩
    · cases h4
    · cases h4
    · refine ⟨Or.inr (Or.inl ⟨hp, hs, ⟨fd, h1, h2⟩, Option.some.inj h4⟩), fun hn => ?_⟩
      have := hn.2.2 fd h1
      rw [h2] at this
      cases this
  · refine ⟨Or.inr (Or.inr ⟨hp, hs, Option.some.inj h4⟩), fun hn => ?_⟩
    rw [hn.2.1] at hs
    cases hs

/-- A returning decision of lines 146 to 193 that gives no initial value is the `continue`
of lines 160 and 168. -/
theorem noInitialValue_of_run {c : Compiler} {n : Nat} {d : LclVarDsc} {z : Value} {s s1 : Llvm}
    (h : initialValueOf c n d z s = .ok none s1) : d.noInitialValue := by
  obtain ⟨-, hcase⟩ := initialValueOf_inv h
  rcases hcase with ⟨hp, k, f, arg, h1, h2, h3, h4⟩ | ⟨hp, hs, hcase⟩ | ⟨hp, hs, h4⟩
  · cases h4
  · rcases hcase with ⟨h1, _⟩ | ⟨fd, h1, h2, _, _⟩ | ⟨fd, h1, h2, h4⟩
    · refine ⟨hp, hs, fun fd hfd => ?_⟩
      rw [h1] at hfd
      cases hfd
    · refine ⟨hp, hs, fun fd2 hfd => ?_⟩
      rw [h1] at hfd
      rw [← Option.some.inj hfd]
      exact h2
    · cases h4
  · cases h4

/-- The decision of lines 146 to 193 returns the choice `InitialChoice`, in the same
state. -/
theorem initialValueOf_of_choice {c : Compiler} {n : Nat} {d : LclVarDsc} {z : Value}
    {s : Llvm} {iv : Option Value} (h : InitialChoice c n d z s.function iv) :
    initialValueOf c n d z s = .ok (some iv) s := by
  rcases h with ⟨hp, k, f, arg, h1, h2, h3, h4⟩ | ⟨hp, hs, ⟨fd, h1, h2⟩, h4⟩ | ⟨hp, hs, h4⟩
  · simp [initialValueOf, hp, h1, jitAssert, deref, functionGetArg, h2, h3, h4, m_bind_apply,
      m_pure_apply]
  · rw [h4]
    cases hm : d.lvMustInit <;>
      simp [initialValueOf, hp, hs, h1, h2, hm, m_pure_apply]
  · rw [h4]
    cases he : d.lvHasExplicitInit <;> cases hz : c.fgVarNeedsExplicitZeroInit n <;>
      cases ht : d.lvTracked <;> cases hm : d.lvMustInit <;>
      simp [initialValueOf, hp, hs, he, hz, ht, hm, m_pure_apply]

/-- The choice is idempotent under the finalisation of the must-initialise flag: made again
for the finalised descriptor, with the same zero constant, it is the same choice. -/
theorem initialChoice_idem {c : Compiler} {n : Nat} {d : LclVarDsc} {fn : Option LFunction}
    {iv : Option Value}
    (h : InitialChoice c n d (.nullValue (c.getLlvmTypeForLclVar d)) fn iv) :
    InitialChoice c n (d.finalised c iv) (.nullValue (c.getLlvmTypeForLclVar d)) fn iv := by
  rcases h with ⟨hp, k, f, arg, h1, h2, h3, h4⟩ | ⟨hp, hs, hfd, h4⟩ | ⟨hp, hs, h4⟩
  · exact Or.inl ⟨hp, k, f, arg, h1, h2, h3, h4⟩
  · refine Or.inr (Or.inl ⟨hp, hs, hfd, ?_⟩)
    show iv = if decide (iv = some _) = true then _ else _
    rw [h4]
    cases hm : d.lvMustInit <;> simp
  · refine Or.inr (Or.inr ⟨hp, hs, ?_⟩)
    show iv = if (!d.lvHasExplicitInit && !c.fgVarNeedsExplicitZeroInit n &&
      (!d.lvTracked || decide (iv = some _))) = true then _ else _
    rw [h4]
    cases he : d.lvHasExplicitInit <;> cases hz : c.fgVarNeedsExplicitZeroInit n <;>
      cases ht : d.lvTracked <;> cases hm : d.lvMustInit <;> simp

/-- What the loop of `initializeLocals` did for a local, by the local's descriptor: a local
without references, not storable on the stack or without initial value to give is left with
its descriptor, slot and map entries; any other local has its flag finalised for the choice
`iv` and is initialised with the value `v` that goes with the choice. -/
theorem localInit_outcome {c : Compiler} {n : Nat} {d : LclVarDsc} {s sF : Llvm}
    {a0 : Option (Option Value)} {L : List Instruction}
    (hI : LocalInit c n d s.function s.localsMap a0 L sF) :
    ((d.lvRefCnt = 0 ∨ c.canStoreLocalOnLlvmStack d = false ∨ d.noInitialValue) ∧
      sF.lvaTable[n]? = some d ∧ sF.m_allocas[n]? = a0 ∧
      ∀ k, tableLookup sF.localsMap (n, k) = tableLookup s.localsMap (n, k)) ∨
    (d.lvRefCnt ≠ 0 ∧ c.canStoreLocalOnLlvmStack d = true ∧ ¬ d.noInitialValue ∧
      ∃ (iv : Option Value) (v : Value),
        InitialChoice c n d (.nullValue (c.getLlvmTypeForLclVar d)) s.function iv ∧
        sF.lvaTable[n]? = some (d.finalised c iv) ∧
        (iv = some v ∨ (iv = none ∧ FrozenUndef L (c.getLlvmTypeForLclVar d) v)) ∧
        InitialisedWith L sF n d (c.getLlvmTypeForLclVar d) v ∧
        (d.lvInSsa = false →
          ∀ k, tableLookup sF.localsMap (n, k) = tableLookup s.localsMap (n, k)) ∧
        (d.lvInSsa = true → sF.m_allocas[n]? = a0 ∧
          ∀ k, k ≠ FIRST_SSA_NUM →
            tableLookup sF.localsMap (n, k) = tableLookup s.localsMap (n, k))) := by
  rcases hI with ⟨h1, h2, h3, h4⟩ | ⟨h1, h2, iv, v, ⟨t, ht, hrun⟩, h4, h5, h6⟩
  · refine Or.inl ⟨?_, h2, h3, h4⟩
    rcases h1 with h1 | h1 | ⟨t, _, hrun⟩
    · exact Or.inl h1
    · exact Or.inr (Or.inl h1)
    · exact Or.inr (Or.inr (noInitialValue_of_run hrun))
  · obtain ⟨hch, hno⟩ := initialChoice_of_run hrun
    rw [ht] at hch
    refine Or.inr ⟨h1, h2, hno, iv, v, hch, h4, h5, ?_, ?_, ?_⟩
    · rcases h6 with ⟨g1, g2, _⟩ | ⟨g1, g2, _⟩
      · exact Or.inl ⟨g1, g2⟩
      · exact Or.inr ⟨g1, g2⟩
    · intro hs
      rcases h6 with ⟨_, _, g3⟩ | ⟨g1, _⟩
      · exact g3
      · rw [hs] at g1
        cases g1
    · intro hs
      rcases h6 with ⟨g1, _⟩ | ⟨_, _, g3, g4, _⟩
      · rw [hs] at g1
        cases g1
      · exact ⟨g4, g3⟩

/-- The outcome of a returning `initializeLocals` for the local `n` with descriptor `d`. -/
theorem initializeLocals_outcome {c : Compiler} {n : Nat} {d : LclVarDsc} {s s1 : Llvm}
    (h : initializeLocals c s = .ok () s1) (hd : s.lvaTable[n]? = some d) :
    ∃ L, s1.emitted = s.emitted ++ L ∧ s1.function = s.function ∧
      (((d.lvRefCnt = 0 ∨ c.canStoreLocalOnLlvmStack d = false ∨ d.noInitialValue) ∧
          LeftAlone n d s s1) ∨
       (d.lvRefCnt ≠ 0 ∧ c.canStoreLocalOnLlvmStack d = true ∧ ¬ d.noInitialValue ∧
        ∃ (iv : Option Value) (v : Value),
          InitialChoice c n d (.nullValue (c.getLlvmTypeForLclVar d)) s.function iv ∧
          s1.lvaTable[n]? = some (d.finalised c iv) ∧
          (iv = some v ∨ (iv = none ∧ FrozenUndef L (c.getLlvmTypeForLclVar d) v)) ∧
          InitialisedWith L s1 n d (c.getLlvmTypeForLclVar d) v ∧
          (d.lvInSsa = false →
            ∀ k, tableLookup s1.localsMap (n, k) = tableLookup s.localsMap (n, k)) ∧
          (d.lvInSsa = true → s1.m_allocas[n]? = some none ∧
            ∀ k, k ≠ FIRST_SSA_NUM →
              tableLookup s1.localsMap (n, k) = tableLookup s.localsMap (n, k)))) := by
  obtain ⟨L, p1, _, _, p4, _, _, hI⟩ := initializeLocals_inv h
  refine ⟨L, p1, p4, ?_⟩
  rcases localInit_outcome (hI n d hd) with ⟨g1, g2, g3, g4⟩ | hproc
  · exact Or.inl ⟨g1, g2, g3, g4⟩
  · exact Or.inr hproc

/-! ## C33: the initial value of a processed local -/

/-- The value that goes with a choice is the function argument, the zero constant, or the
result of a freeze: never the bare undefined value. -/
theorem chosen_not_undef {c : Compiler} {n : Nat} {d : LclVarDsc} {z : Value}
    {fn : Option LFunction} {iv : Option Value} {v : Value} {L : List Instruction} {T : LType}
    (hz : ∀ T1, z ≠ .undef T1) (hch : InitialChoice c n d z fn iv)
    (hval : iv = some v ∨ (iv = none ∧ FrozenUndef L T v)) : ∀ T1, v ≠ .undef T1 := by
  intro T1 hv
  rcases hval with hval | ⟨_, fr, _, _, _, e⟩
  · rcases hch with ⟨_, k, f, arg, _, _, h3, h4⟩ | ⟨_, _, _, h4⟩ | ⟨_, _, h4⟩
    · rw [hval] at h4
      obtain ⟨T, e⟩ := getArg_argument h3
      rw [← Option.some.inj h4, hv] at e
      cases e
    · rw [hval] at h4
      split at h4
      · exact hz T1 ((Option.some.inj h4).symm.trans hv)
      · cases h4
    · rw [hval] at h4
      split at h4
      · exact hz T1 ((Option.some.inj h4).symm.trans hv)
      · cases h4
  · rw [hv] at e
    cases e

/-- C33: a returning `initializeLocals` and a local `n` with a nonzero reference count that
can be stored on the target stack; `L` are the instructions created.  A parameter is
initialised with the argument of the current function whose index is `lvLlvmArgNum`.  A local
in SSA, no parameter, whose first SSA definition is absent or has an explicit assignment is
left alone: same descriptor, no slot, and its map entries as before.  A local in SSA, no
parameter, whose first definition is implicit gets as the entry of its first SSA number a
value that is the zero constant of its type if and only if the must-initialise flag is set,
and that is the result of a freeze of the undefined value otherwise.  In every case the
local is left alone or initialised with a value that is not a bare undefined value. -/
theorem initial_value_choice (c : Compiler) (n : Nat) (d : LclVarDsc) (s s1 : Llvm)
    (h : initializeLocals c s = .ok () s1) (hd : s.lvaTable[n]? = some d)
    (hr : d.lvRefCnt ≠ 0) (hc : c.canStoreLocalOnLlvmStack d = true) :
    ∃ L, s1.emitted = s.emitted ++ L ∧
      (d.lvIsParam = true →
        ∃ k f arg, d.lvLlvmArgNum = some k ∧ s.function = some f ∧ f.getArg k = some arg ∧
          InitialisedWith L s1 n d (c.getLlvmTypeForLclVar d) arg) ∧
      (d.lvIsParam = false → d.lvInSsa = true →
        (∀ fd, d.lvPerSsaData.head? = some fd → fd.hasAssignment = true) →
        LeftAlone n d s s1) ∧
      (d.lvIsParam = false → d.lvInSsa = true →
        (∃ fd, d.lvPerSsaData.head? = some fd ∧ fd.hasAssignment = false) →
        ∃ v, tableLookup s1.localsMap (n, FIRST_SSA_NUM) = some v ∧
          (v = .nullValue (c.getLlvmTypeForLclVar d) ↔ d.lvMustInit = true) ∧
          (d.lvMustInit = false → FrozenUndef L (c.getLlvmTypeForLclVar d) v)) ∧
      (LeftAlone n d s s1 ∨
        ∃ v, InitialisedWith L s1 n d (c.getLlvmTypeForLclVar d) v ∧ ∀ T1, v ≠ .undef T1) := by
  obtain ⟨L, p1, _, hout⟩ := initializeLocals_outcome h hd
  refine ⟨L, p1, ?_⟩
  rcases hout with ⟨hskip, hla⟩ | ⟨_, _, hno, iv, v, hch, _, hval, hinit, _, _⟩
  · have hn : d.noInitialValue := by
      rcases hskip with h1 | h1 | h1
      · exact absurd h1 hr
      · rw [hc] at h1
        cases h1
      · exact h1
    refine ⟨fun hp => ?_, fun _ _ _ => hla, fun _ _ hfd => ?_, Or.inl hla⟩
    · rw [hn.1] at hp
      cases hp
    · obtain ⟨fd, h1, h2⟩ := hfd
      have := hn.2.2 fd h1
      rw [h2] at this
      cases this
  · refine ⟨fun hp => ?_, fun hp hs hall => absurd ⟨hp, hs, hall⟩ hno, fun hp hs _ => ?_,
      Or.inr ⟨v, hinit, chosen_not_undef (fun T1 e => Value.noConfusion e) hch hval⟩⟩
    · rcases hch with ⟨_, k, f, arg, h1, h2, h3, h4⟩ | ⟨hp2, _⟩ | ⟨hp2, _⟩
      · refine ⟨k, f, arg, h1, h2, h3, ?_⟩
        rcases hval with hval | ⟨hval, _⟩
        · rw [hval] at h4
          rw [← Option.some.inj h4]
          exact hinit
        · rw [hval] at h4
          cases h4
      · rw [hp] at hp2
        cases hp2
      · rw [hp] at hp2
        cases hp2
    · have hlook : tableLookup s1.localsMap (n, FIRST_SSA_NUM) = some v := by
        rcases hinit with ⟨g1, _⟩ | ⟨_, g2⟩
        · rw [hs] at g1
          cases g1
        · exact g2
      have hiv : iv = if d.lvMustInit = true then
          some (.nullValue (c.getLlvmTypeForLclVar d)) else none := by
        rcases hch with ⟨hp2, _⟩ | ⟨_, _, _, h4⟩ | ⟨_, hs2, _⟩
        · rw [hp] at hp2
          cases hp2
        · exact h4
        · rw [hs] at hs2
          cases hs2
      refine ⟨v, hlook, ?_, fun hm => ?_⟩
      · cases hm : d.lvMustInit
        · rw [hm] at hiv
          rw [if_neg (fun e => Bool.noConfusion e)] at hiv
          rcases hval with hval | ⟨_, fr, _, _, _, e⟩
          · rw [hiv] at hval
            cases hval
          · constructor
            · intro ev
              rw [ev] at e
              cases e
            · intro e2
              cases e2
        · rw [hm, if_pos rfl] at hiv
          rcases hval with hval | ⟨hval, _⟩
          · rw [hiv] at hval
            exact ⟨fun _ => rfl, fun _ => (Option.some.inj hval).symm⟩
          · rw [hiv] at hval
            cases hval
      · rw [hm, if_neg (fun e => Bool.noConfusion e)] at hiv
        rcases hval with hval | ⟨_, hfr⟩
        · rw [hiv] at hval
          cases hval
        · exact hfr

/-- Witness of C33: in the sample state the local 1, a `LONG` in SSA with an implicit first
definition and no must-initialise flag, gets as the entry of its first SSA number the result
of a freeze of the undefined 64-bit value. -/
theorem initial_value_choice_witness :
    initializeLocals sampleCompiler samplePrologState
      = .ok () (initializeLocals sampleCompiler samplePrologState).state ∧
    (initializeLocals sampleCompiler samplePrologState).state.emitted.map
        (fun i => (i.id, i.opcode, i.operands))
      = [(0, .Freeze, [.undef (.int 64)]), (1, .Alloca (.int 32), []),
         (2, .Store, [.nullValue (.int 32), .inst 1 (.ptr (.int 32))])] ∧
    ∃ L v, (initializeLocals sampleCompiler samplePrologState).state.emitted
        = samplePrologState.emitted ++ L ∧
      tableLookup (initializeLocals sampleCompiler samplePrologState).state.localsMap
        (1, FIRST_SSA_NUM) = some v ∧
      FrozenUndef L (.int 64) v := by
  refine ⟨by decide!, by decide!, ?_⟩
  obtain ⟨L, h1, _, _, h3, _⟩ :=
    initial_value_choice sampleCompiler 1
      { lvType := .TYP_LONG, lvRefCnt := 2, lvInSsa := true,
        lvPerSsaData := [{ hasAssignment := false }], lvTracked := true }
      samplePrologState (initializeLocals sampleCompiler samplePrologState).state
      (by decide!) rfl (by decide) rfl
  obtain ⟨v, hv, _, hfr⟩ := h3 rfl rfl ⟨{ hasAssignment := false }, rfl, rfl⟩
  exact ⟨L, v, h1, hv, hfr rfl⟩

/-! ## C34: the zero initialisation of untracked locals -/

theorem slotWith_store_mem {l : List Instruction} {allocas : List (Option Value)} {n : Nat}
    {T : LType} {v : Value} (h : SlotWith l allocas n T v) :
    ∃ st ∈ l, st.opcode = .Store ∧ st.operands.head? = some v := by
  obtain ⟨l1, l2, a, st, e, _, h2, h3, _⟩ := h
  refine ⟨st, ?_, h2, by rw [h3]; rfl⟩
  rw [e]
  simp

/-- Counterexample to C34 as stated: with a compiler for which the local needs its explicit
zero initialisation in the body, the local 2 of the sample state (not in SSA, no parameter,
no explicit initialisation, untracked, referenced, storable) is processed by
`initializeLocals`, and the value stored in its slot is the result of the freeze of the
undefined value, instruction 1, not the zero constant. -/
theorem untracked_local_zero_init_counterexample :
    samplePrologState.lvaTable[2]? = some { lvType := .TYP_INT, lvRefCnt := 1 } ∧
    sampleExplicitZeroCompiler.canStoreLocalOnLlvmStack { lvType := .TYP_INT, lvRefCnt := 1 }
      = true ∧
    initializeLocals sampleExplicitZeroCompiler samplePrologState
      = .ok () (initializeLocals sampleExplicitZeroCompiler samplePrologState).state ∧
    (initializeLocals sampleExplicitZeroCompiler samplePrologState).state.emitted.map
        (fun i => (i.id, i.opcode, i.operands))
      = [(0, .Freeze, [.undef (.int 64)]), (1, .Freeze, [.undef (.int 32)]),
         (2, .Alloca (.int 32), []),
         (3, .Store, [.inst 1 (.int 32), .inst 2 (.ptr (.int 32))])] ∧
    (initializeLocals sampleExplicitZeroCompiler samplePrologState).state.m_allocas[2]?
      = some (some (.inst 2 (.ptr (.int 32)))) ∧
    ¬ SlotWith (initializeLocals sampleExplicitZeroCompiler samplePrologState).state.emitted
        (initializeLocals sampleExplicitZeroCompiler samplePrologState).state.m_allocas 2
        (.int 32) (.nullValue (.int 32)) := by
  refine ⟨by decide!, by decide!, by decide!, by decide!, by decide!, fun hslot => ?_⟩
  obtain ⟨st, hmem, hop, hhead⟩ := slotWith_store_mem hslot
  have hall : ∀ i ∈ (initializeLocals sampleExplicitZeroCompiler samplePrologState).state.emitted,
      i.opcode = .Store → i.operands.head? ≠ some (.nullValue (.int 32)) := by
    decide!
  exact hall st hmem hop hhead

/-- C34 as the code has it: a returning `initializeLocals` and a local `n` that is processed
(nonzero reference count, storable on the target stack), is not in SSA, is no parameter, has
no explicit initialisation and is untracked; `L` are the instructions created.  When the
local needs no explicit zero initialisation in the body (`fgVarNeedsExplicitZeroInit` is
false for it), the value stored in its slot in the prolog is the zero constant of its type.
When it does, the value stored is the result of a freeze of the undefined value of its
type. -/
theorem untracked_local_zero_init (c : Compiler) (n : Nat) (d : LclVarDsc) (s s1 : Llvm)
    (h : initializeLocals c s = .ok () s1) (hd : s.lvaTable[n]? = some d)
    (hr : d.lvRefCnt ≠ 0) (hc : c.canStoreLocalOnLlvmStack d = true)
    (hp : d.lvIsParam = false) (hs : d.lvInSsa = false)
    (he : d.lvHasExplicitInit = false) (ht : d.lvTracked = false) :
    ∃ L, s1.emitted = s.emitted ++ L ∧
      (c.fgVarNeedsExplicitZeroInit n = false →
        SlotWith L s1.m_allocas n (c.getLlvmTypeForLclVar d)
          (.nullValue (c.getLlvmTypeForLclVar d))) ∧
      (c.fgVarNeedsExplicitZeroInit n = true →
        ∃ v, FrozenUndef L (c.getLlvmTypeForLclVar d) v ∧
          SlotWith L s1.m_allocas n (c.getLlvmTypeForLclVar d) v) := by
  obtain ⟨L, p1, _, hout⟩ := initializeLocals_outcome h hd
  refine ⟨L, p1, ?_⟩
  rcases hout with ⟨hskip, _⟩ | ⟨_, _, _, iv, v, hch, _, hval, hinit, _, _⟩
  · rcases hskip with h1 | h1 | h1
    · exact absurd h1 hr
    · rw [hc] at h1
      cases h1
    · have := h1.2.1
      rw [hs] at this
      cases this
  · have hslot : SlotWith L s1.m_allocas n (c.getLlvmTypeForLclVar d) v := by
      rcases hinit with ⟨_, g⟩ | ⟨g, _⟩
      · exact g
      · rw [hs] at g
        cases g
    have hiv : iv = if (!d.lvHasExplicitInit && !c.fgVarNeedsExplicitZeroInit n &&
        (!d.lvTracked || d.lvMustInit)) = true then
          some (.nullValue (c.getLlvmTypeForLclVar d)) else none := by
      rcases hch with ⟨hp2, _⟩ | ⟨_, hs2, _⟩ | ⟨_, _, h4⟩
      · rw [hp] at hp2
        cases hp2
      · rw [hs] at hs2
        cases hs2
      · exact h4
    rw [he, ht] at hiv
    refine ⟨fun hz => ?_, fun hz => ?_⟩
    · rw [hz] at hiv
      simp only [Bool.not_false, Bool.true_and, Bool.true_or, if_true] at hiv
      rcases hval with hval | ⟨hval, _⟩
      · rw [hiv] at hval
        rw [Option.some.inj hval]
        exact hslot
      · rw [hiv] at hval
        cases hval
    · rw [hz] at hiv
      simp only [Bool.not_true, Bool.and_false, Bool.false_and, Bool.false_eq_true,
        if_false] at hiv
      rcases hval with hval | ⟨_, hfr⟩
      · rw [hiv] at hval
        cases hval
      · exact ⟨v, hfr, hslot⟩

/-- Witness of C34: with the sample compiler, for which no local needs an explicit zero
initialisation in the body, the slot of the local 2 of the sample state is initialised with
the zero constant of `i32`. -/
theorem untracked_local_zero_init_witness :
    initializeLocals sampleCompiler samplePrologState
      = .ok () (initializeLocals sampleCompiler samplePrologState).state ∧
    ∃ L, (initializeLocals sampleCompiler samplePrologState).state.emitted
        = samplePrologState.emitted ++ L ∧
      SlotWith L (initializeLocals sampleCompiler samplePrologState).state.m_allocas 2
        (.int 32) (.nullValue (.int 32)) := by
  refine ⟨by decide!, ?_⟩
  obtain ⟨L, h1, h2, _⟩ :=
    untracked_local_zero_init sampleCompiler 2 { lvType := .TYP_INT, lvRefCnt := 1 }
      samplePrologState (initializeLocals sampleCompiler samplePrologState).state
      (by decide!) rfl (by decide) rfl rfl rfl rfl rfl
  exact ⟨L, h1, h2 rfl⟩

/-! ## C36: the finalisation of the must-initialise flag -/

/-- C36: a returning `initializeLocals` and a local `n` with descriptor `d`.  A local that is
skipped (no references, not storable on the target stack, or no initial value to give) keeps
its descriptor, flag included.  A local that is processed to the end, with the choice `iv` of
lines 146 to 193 and the initial value `v`, has afterwards the descriptor `d1` that differs
from `d` in the must-initialise flag only; the flag is set if and only if `v` is the zero
constant of the local's type, so it is not set for a parameter; and the decision made again
for `d1`, with the same zero constant, in the state after `initializeLocals`, returns the same
choice `iv`, for which line 196 sets the same flag. -/
theorem mustInit_finalised (c : Compiler) (n : Nat) (d : LclVarDsc) (s s1 : Llvm)
    (h : initializeLocals c s = .ok () s1) (hd : s.lvaTable[n]? = some d) :
    ((d.lvRefCnt = 0 ∨ c.canStoreLocalOnLlvmStack d = false ∨ d.noInitialValue) →
      s1.lvaTable[n]? = some d) ∧
    (d.lvRefCnt ≠ 0 → c.canStoreLocalOnLlvmStack d = true → ¬ d.noInitialValue →
      ∃ (L : List Instruction) (iv : Option Value) (v : Value) (d1 : LclVarDsc),
        s1.emitted = s.emitted ++ L ∧
        initialValueOf c n d (.nullValue (c.getLlvmTypeForLclVar d)) s = .ok (some iv) s ∧
        InitialisedWith L s1 n d (c.getLlvmTypeForLclVar d) v ∧
        s1.lvaTable[n]? = some d1 ∧
        d1 = { d with lvMustInit := d1.lvMustInit } ∧
        (d1.lvMustInit = true ↔ v = .nullValue (c.getLlvmTypeForLclVar d)) ∧
        (d.lvIsParam = true → d1.lvMustInit = false) ∧
        initialValueOf c n d1 (.nullValue (c.getLlvmTypeForLclVar d)) s1 = .ok (some iv) s1 ∧
        { d1 with lvMustInit := decide (iv = some (.nullValue (c.getLlvmTypeForLclVar d))) }
          = d1) := by
  obtain ⟨L, p1, p4, hout⟩ := initializeLocals_outcome h hd
  rcases hout with ⟨hskip, hla⟩ | ⟨hr, hc, hno, iv, v, hch, hfin, hval, hinit, _, _⟩
  · refine ⟨fun _ => hla.1, fun hr hc hno => ?_⟩
    rcases hskip with h1 | h1 | h1
    · exact absurd h1 hr
    · rw [hc] at h1
      cases h1
    · exact absurd h1 hno
  · refine ⟨fun hskip => ?_, fun _ _ _ => ?_⟩
    · rcases hskip with h1 | h1 | h1
      · exact absurd h1 hr
      · rw [hc] at h1
        cases h1
      · exact absurd h1 hno
    · have hflag : (d.finalised c iv).lvMustInit = true ↔
          v = .nullValue (c.getLlvmTypeForLclVar d) := by
        show decide (iv = some _) = true ↔ _
        rw [decide_eq_true_iff]
        rcases hval with hval | ⟨hval, fr, _, _, _, e⟩
        · rw [hval]
          exact ⟨fun e => Option.some.inj e, fun e => by rw [e]⟩
        · rw [hval, e]
          exact ⟨fun e => Option.noConfusion e, fun e => Value.noConfusion e⟩
      refine ⟨L, iv, v, d.finalised c iv, p1, initialValueOf_of_choice hch, hinit, hfin, rfl,
        hflag, fun hp => ?_, ?_, rfl⟩
      · cases hm : (d.finalised c iv).lvMustInit
        · rfl
        · have hv := hflag.mp hm
          rcases hch with ⟨_, k, f, arg, _, _, h3, h4⟩ | ⟨hp2, _⟩ | ⟨hp2, _⟩
          · obtain ⟨T, e⟩ := getArg_argument h3
            rcases hval with hval | ⟨hval, _⟩
            · rw [hval] at h4
              rw [← Option.some.inj h4, hv] at e
              cases e
            · rw [hval] at h4
              cases h4
          · rw [hp] at hp2
            cases hp2
          · rw [hp] at hp2
            cases hp2
      · have hidem := initialChoice_idem hch
        rw [← p4] at hidem
        exact initialValueOf_of_choice hidem

/-- Witness of C36: the local 2 of the sample state, for which the zero constant is chosen,
has the must-initialise flag set after `initializeLocals`, and the decision made again for
the finalised descriptor chooses the zero constant again. -/
theorem mustInit_finalised_witness :
    initializeLocals sampleCompiler samplePrologState
      = .ok () (initializeLocals sampleCompiler samplePrologState).state ∧
    (initializeLocals sampleCompiler samplePrologState).state.lvaTable.map
        (fun d => d.lvMustInit) = [false, false, true, false, false] ∧
    ∃ (iv : Option Value) (d1 : LclVarDsc),
      (initializeLocals sampleCompiler samplePrologState).state.lvaTable[2]? = some d1 ∧
      d1 = { lvType := .TYP_INT, lvRefCnt := 1, lvMustInit := d1.lvMustInit } ∧
      initialValueOf sampleCompiler 2 d1 (.nullValue (.int 32))
        (initializeLocals sampleCompiler samplePrologState).state
        = .ok (some iv) (initializeLocals sampleCompiler samplePrologState).state := by
  refine ⟨by decide!, by decide!, ?_⟩
  obtain ⟨_, hproc⟩ :=
    mustInit_finalised sampleCompiler 2 { lvType := .TYP_INT, lvRefCnt := 1 }
      samplePrologState (initializeLocals sampleCompiler samplePrologState).state
      (by decide!) rfl
  obtain ⟨_, iv, _, d1, _, _, _, h1, h2, _, _, h3, _⟩ :=
    hproc (by decide) rfl (fun hn => Bool.noConfusion hn.2.1)
  exact ⟨iv, d1, h1, h2, h3⟩

/-! ## C35: slots for frame locals, map entries for the others -/

/-- A returning read of a local with descriptor `d`: a frame local is read by one load
through its slot, any other local is read from the map of locals and no load is created. -/
theorem buildLocalVar_access {c : Compiler} {rd : GenTree} {d : LclVarDsc} {t t1 : Llvm}
    (hd : t.lvaTable[rd.d.lclNum]? = some d) (h : buildLocalVar c rd t = .ok () t1) :
    ((!d.lvInSsa && decide (d.lvRefCnt > 0)) = true ∧
      ∃ (slot : Value) (ld : Instruction) (T : LType),
        t.m_allocas[rd.d.lclNum]? = some (some slot) ∧ ld.opcode = .Load ∧
        ld.operands = [slot] ∧ ReadYields (.inst ld.id T) rd (t.emitted ++ [ld]) t1) ∨
    ((!d.lvInSsa && decide (d.lvRefCnt > 0)) = false ∧
      ∃ ref, tableLookup t.localsMap (rd.d.lclNum, rd.d.ssaNum) = some ref ∧
        ReadYields ref rd t.emitted t1) := by
  obtain ⟨ref, sR, hread, hrec⟩ := buildLocalVar_inv hd h
  have hy : ReadYields ref rd sR.emitted t1 := by
    rcases hrec with ⟨_, e⟩ | ⟨_, e⟩
    · refine Or.inr ⟨sR.newInst sR.builder
        { opcode := .Trunc, ty := getInt32Ty, operands := [ref] }, ?_, rfl, rfl, ?_⟩
      · rw [e]
        rfl
      · rw [e]
        show tableLookup (tableSet _ rd.id _) rd.id = _
        rw [tableLookup_tableSet, if_pos rfl]
        rfl
    · refine Or.inl ⟨?_, ?_⟩
      · rw [e]
      · rw [e]
        show tableLookup (tableSet _ rd.id _) rd.id = _
        rw [tableLookup_tableSet, if_pos rfl]
  rcases hread with ⟨hb, slot, T, hslot, _, eref, eR⟩ | ⟨hb, hl, eR⟩
  · refine Or.inl ⟨hb, slot,
      t.newInst t.builder { opcode := .Load, ty := T, operands := [slot] }, T, hslot, rfl, rfl,
      ?_⟩
    rw [eR, eref] at hy
    exact hy
  · rw [eR] at hy
    exact Or.inr ⟨hb, ref, hl, hy⟩

/-- A returning store to a local with descriptor `d`, after the conversions `lconv` of the
operand: a frame local is written by one store of the value through its slot and the map of
locals is as before, for any other local no store is created and the value becomes the
entry of the local and the node's SSA number. -/
theorem buildStoreLocalVar_access {c : Compiler} {st op1 : GenTree} {d : LclVarDsc}
    {t t1 : Llvm} (hop : st.gtOp1 = some op1) (hd : t.lvaTable[st.d.lclNum]? = some d)
    (h : buildStoreLocalVar c st t = .ok () t1) :
    ∃ (lconv : List Instruction) (v : Value),
      (∀ i ∈ lconv, i.opcode.isConversion = true) ∧
      (((!d.lvInSsa && decide (d.lvRefCnt > 0)) = true ∧
          ∃ (slot : Value) (w : Instruction),
            t.m_allocas[st.d.lclNum]? = some (some slot) ∧
            t1.emitted = t.emitted ++ lconv ++ [w] ∧ w.opcode = .Store ∧
            w.operands = [v, slot] ∧ t1.localsMap = t.localsMap) ∨
       ((!d.lvInSsa && decide (d.lvRefCnt > 0)) = false ∧
          t1.emitted = t.emitted ++ lconv ∧
          t1.localsMap = tableSet t.localsMap (st.d.lclNum, st.d.ssaNum) v)) := by
  obtain ⟨v, sA, hval, hcase⟩ := buildStoreLocalVar_inv hop hd h
  have hA : sA.localsMap = t.localsMap ∧
      ∃ lconv, sA.emitted = t.emitted ++ lconv ∧ ∀ i ∈ lconv, i.opcode.isConversion = true := by
    rcases hval with ⟨_, _, _, e⟩ | ⟨_, hc⟩
    · rw [e]
      exact ⟨rfl, [], by simp, by simp⟩
    · obtain ⟨_, _, a3, _, _⟩ := consumeValue_frame hc
      exact ⟨a3, (emits_consumeValue c op1 _).run _ _ _ hc⟩
  obtain ⟨hAk, lconv, hAe, hconv⟩ := hA
  refine ⟨lconv, v, hconv, ?_⟩
  rcases hcase with ⟨hb, slot, hslot, e1⟩ | ⟨hb, _, e1⟩
  · refine Or.inl ⟨hb, slot,
      sA.newInst sA.builder { opcode := .Store, ty := .void, operands := [v, slot] }, hslot,
      ?_, rfl, rfl, ?_⟩
    · rw [e1]
      show sA.emitted ++ [_] = _
      rw [hAe]
    · rw [e1]
      exact hAk
  · refine Or.inr ⟨hb, ?_, ?_⟩
    · rw [e1]
      exact hAe
    · rw [e1]
      show tableSet sA.localsMap _ _ = _
      rw [hAk]

/-- C35: a returning `generateProlog`, started where the id of the next block is fresh, and a
local `n` that `initializeLocals` processes to the end (referenced, storable on the target
stack, with an initial value to give).  The prolog block holds the instructions `L` of
`initializeLocals` followed by the branch `br` to the target block of the first block of
the method, and the local keeps its descriptor up to the
must-initialise flag.  The local has a slot if and only if it is not in SSA.  Not in SSA:
among `L` there is one allocation of the local's type immediately followed by a store of the
initial value through it, the allocation is the local's slot, and the local's map entries
are as before.  In SSA: the local has no slot, its first SSA number has an entry in the map
of locals, and its other entries are as before.  In any state in which the local's
descriptor and slot are as the prolog left them: `buildLocalVar` reads a local not in SSA by
one load through that slot and reads a local in SSA from the map, creating no load; and
`buildStoreLocalVar` writes a local not in SSA by one store through that slot, leaving the
map alone, and a local in SSA by setting the entry of the node's SSA number, creating no
store. -/
theorem prolog_slot_or_map (c : Compiler) (n : Nat) (d : LclVarDsc) (s s1 : Llvm)
    (hfresh : s.getBlock s.nextBlockId = none) (h : generateProlog c s = .ok () s1)
    (hd : s.lvaTable[n]? = some d) (hr : d.lvRefCnt ≠ 0)
    (hc : c.canStoreLocalOnLlvmStack d = true) (hno : ¬ d.noInitialValue) :
    ∃ (L : List Instruction) (br : Instruction) (pb : LBasicBlock) (d1 : LclVarDsc),
      s1.getBlock s.nextBlockId = some pb ∧ pb.name = "Prolog" ∧ pb.insts = L ++ [br] ∧
      br.opcode = .Br ∧
      (∃ b0, br.targets = [b0] ∧ tableLookup s1.blkToLlvmBlkVectorMap c.fgFirstBB = some b0) ∧
      s1.lvaTable[n]? = some d1 ∧ d1 = { d with lvMustInit := d1.lvMustInit } ∧
      ((∃ a, s1.m_allocas[n]? = some (some a)) ↔ d.lvInSsa = false) ∧
      (d.lvInSsa = false →
        (∃ v, SlotWith L s1.m_allocas n (c.getLlvmTypeForLclVar d) v) ∧
        ∀ k, tableLookup s1.localsMap (n, k) = tableLookup s.localsMap (n, k)) ∧
      (d.lvInSsa = true →
        s1.m_allocas[n]? = some none ∧
        (∃ v, tableLookup s1.localsMap (n, FIRST_SSA_NUM) = some v) ∧
        ∀ k, k ≠ FIRST_SSA_NUM →
          tableLookup s1.localsMap (n, k) = tableLookup s.localsMap (n, k)) ∧
      (∀ (rd : GenTree) (t t1 : Llvm), rd.d.lclNum = n →
        t.lvaTable[n]? = s1.lvaTable[n]? → t.m_allocas[n]? = s1.m_allocas[n]? →
        buildLocalVar c rd t = .ok () t1 →
        (d.lvInSsa = false →
          ∃ (slot : Value) (ld : Instruction) (T : LType),
            s1.m_allocas[n]? = some (some slot) ∧ ld.opcode = .Load ∧ ld.operands = [slot] ∧
            ReadYields (.inst ld.id T) rd (t.emitted ++ [ld]) t1) ∧
        (d.lvInSsa = true →
          ∃ ref, tableLookup t.localsMap (n, rd.d.ssaNum) = some ref ∧
            ReadYields ref rd t.emitted t1)) ∧
      (∀ (st op1 : GenTree) (t t1 : Llvm), st.gtOp1 = some op1 → st.d.lclNum = n →
        t.lvaTable[n]? = s1.lvaTable[n]? → t.m_allocas[n]? = s1.m_allocas[n]? →
        buildStoreLocalVar c st t = .ok () t1 →
        ∃ (lconv : List Instruction) (v : Value),
          (∀ i ∈ lconv, i.opcode.isConversion = true) ∧
          (d.lvInSsa = false →
            ∃ (slot : Value) (w : Instruction),
              s1.m_allocas[n]? = some (some slot) ∧
              t1.emitted = t.emitted ++ lconv ++ [w] ∧ w.opcode = .Store ∧
              w.operands = [v, slot] ∧ t1.localsMap = t.localsMap) ∧
          (d.lvInSsa = true →
            t1.emitted = t.emitted ++ lconv ∧
            t1.localsMap = tableSet t.localsMap (n, st.d.ssaNum) v)) := by
  obtain ⟨L, br, block0, hblk, hbr, htg, hmap, _, _, hI⟩ := generateProlog_inv hfresh h
  rcases localInit_outcome (hI n d hd) with ⟨hskip, _⟩ |
    ⟨_, _, _, iv, v, _, hfin, _, hinit, hns, hss⟩
  · rcases hskip with h1 | h1 | h1
    · exact absurd h1 hr
    · rw [hc] at h1
      cases h1
    · exact absurd h1 hno
  have hflag : (!(d.finalised c iv).lvInSsa && decide ((d.finalised c iv).lvRefCnt > 0))
      = !d.lvInSsa := frameLocal_flag hr
  refine ⟨L, br, _, d.finalised c iv, hblk, rfl, rfl, hbr, ⟨block0, htg, hmap⟩, hfin, rfl,
    ?_, ?_, ?_, ?_, ?_⟩
  · constructor
    · rintro ⟨a, ha⟩
      cases hs : d.lvInSsa
      · rfl
      · rw [(hss hs).1] at ha
        cases ha
    · intro hs
      rcases hinit with ⟨_, l1, l2, a, st, _, _, _, _, g⟩ | ⟨g, _⟩
      · exact ⟨_, g⟩
      · rw [hs] at g
        cases g
  · intro hs
    refine ⟨?_, hns hs⟩
    rcases hinit with ⟨_, g⟩ | ⟨g, _⟩
    · exact ⟨v, g⟩
    · rw [hs] at g
      cases g
  · intro hs
    refine ⟨(hss hs).1, ?_, (hss hs).2⟩
    rcases hinit with ⟨g, _⟩ | ⟨_, g⟩
    · rw [hs] at g
      cases g
    · exact ⟨v, g⟩
  · intro rd t t1 hn hl ha hrun
    subst hn
    rw [hfin] at hl
    rcases buildLocalVar_access hl hrun with ⟨hb, slot, ld, T, g1, g2, g3, g4⟩ | ⟨hb, ref, g1, g2⟩
    · rw [hflag] at hb
      refine ⟨fun _ => ⟨slot, ld, T, ha ▸ g1, g2, g3, g4⟩, fun hs => ?_⟩
      rw [hs] at hb
      cases hb
    · rw [hflag] at hb
      refine ⟨fun hs => ?_, fun _ => ⟨ref, g1, g2⟩⟩
      rw [hs] at hb
      cases hb
  · intro st op1 t t1 hop hn hl ha hrun
    subst hn
    rw [hfin] at hl
    obtain ⟨lconv, w, hconv, hcase⟩ := buildStoreLocalVar_access hop hl hrun
    refine ⟨lconv, w, hconv, ?_⟩
    rcases hcase with ⟨hb, slot, i, g1, g2, g3, g4, g5⟩ | ⟨hb, g1, g2⟩
    · rw [hflag] at hb
      refine ⟨fun _ => ⟨slot, i, ha ▸ g1, g2, g3, g4, g5⟩, fun hs => ?_⟩
      rw [hs] at hb
      cases hb
    · rw [hflag] at hb
      refine ⟨fun hs => ?_, fun _ => ⟨g1, g2⟩⟩
      rw [hs] at hb
      cases hb

/-- Witness of C35: the prolog of the sample state.  The prolog block holds the freeze of
local 1, the allocation and the store of local 2, and the branch; the local 2, not in SSA,
has the allocation as its slot. -/
theorem prolog_slot_or_map_witness :
    generateProlog sampleCompiler samplePrologState
      = .ok () (generateProlog sampleCompiler samplePrologState).state ∧
    (generateProlog sampleCompiler samplePrologState).state.blocks.map
        (fun b => (b.id, b.name, b.insts.map (fun i => (i.id, i.opcode))))
      = [(0, "Prolog", [(0, .Freeze), (1, .Alloca (.int 32)), (2, .Store), (3, .Br)]),
         (1, "BB01", [])] ∧
    ∃ (L : List Instruction) (br : Instruction) (pb : LBasicBlock) (v : Value),
      (generateProlog sampleCompiler samplePrologState).state.getBlock 0 = some pb ∧
      pb.insts = L ++ [br] ∧ br.opcode = .Br ∧
      SlotWith L (generateProlog sampleCompiler samplePrologState).state.m_allocas 2
        (.int 32) v := by
  refine ⟨by decide!, by decide!, ?_⟩
  obtain ⟨L, br, pb, _, h1, _, h2, h3, _, _, _, _, h4, _⟩ :=
    prolog_slot_or_map sampleCompiler 2 { lvType := .TYP_INT, lvRefCnt := 1 }
      samplePrologState (generateProlog sampleCompiler samplePrologState).state
      rfl (by decide!) rfl (by decide) rfl (fun hn => Bool.noConfusion hn.2.1)
  obtain ⟨⟨v, hv⟩, _⟩ := h4 rfl
  exact ⟨L, br, pb, v, h1, h2, h3, hv⟩

/-! ## C15: the order of the arguments of a user call -/

theorem withMap_ok {α : Type} (a : α) (s : Llvm) (map : List (Nat × Value)) :
    (Outcome.ok a s).withMap map = .ok a { s with sdsuMap := map } := rfl

theorem withMap_failed {α : Type} (k : Failure) (s : Llvm) (map : List (Nat × Value)) :
    (Outcome.failed k s : Outcome α).withMap map = .failed k { s with sdsuMap := map } := rfl

theorem mapFree_pure {α : Type} (a : α) : MapFree (pure a : M α) :=
  ⟨fun _ _ => rfl⟩

theorem mapFree_unreached {α : Type} : MapFree (unreached : M α) :=
  ⟨fun _ _ => rfl⟩

theorem deleteBody_withMap (s : Llvm) (map : List (Nat × Value)) :
    Llvm.deleteBody { s with sdsuMap := map } = { s.deleteBody with sdsuMap := map } := by
  cases s
  unfold Llvm.deleteBody
  dsimp only
  split <;> rfl

theorem mapFree_failFunctionCompilation {α : Type} : MapFree (failFunctionCompilation : M α) := by
  constructor
  intro s map
  unfold failFunctionCompilation
  rw [withMap_failed, deleteBody_withMap]

theorem mapFree_jitAssert (c : Compiler) (b : Bool) : MapFree (jitAssert c b) := by
  constructor
  intro s map
  unfold jitAssert
  split <;> rfl

theorem mapFree_deref {α : Type} (o : Option α) : MapFree (deref o) := by
  cases o
  · exact mapFree_unreached
  · exact mapFree_pure _

theorem mapFree_modifyState {g : Llvm → Llvm}
    (h : ∀ (s : Llvm) (map : List (Nat × Value)),
      g { s with sdsuMap := map } = { g s with sdsuMap := map }) :
    MapFree (modifyState g) := by
  constructor
  intro s map
  unfold modifyState
  rw [withMap_ok, h]

theorem mapFree_bind {α β : Type} {m : M α} {f : α → M β}
    (hm : MapFree m) (hf : ∀ a, MapFree (f a)) : MapFree (m >>= f) := by
  constructor
  intro s map
  rw [m_bind_apply, m_bind_apply, hm.run s map]
  cases m s with
  | ok a s1 => exact (hf a).run s1 map
  | failed k s1 => rfl

theorem mapFree_getState_bind {α : Type} {f : Llvm → M α}
    (h1 : ∀ (s : Llvm) (map : List (Nat × Value)), f { s with sdsuMap := map } = f s)
    (h2 : ∀ s, MapFree (f s)) : MapFree (getState >>= f) := by
  constructor
  intro s map
  have e1 : (getState >>= f) { s with sdsuMap := map }
      = f { s with sdsuMap := map } { s with sdsuMap := map } := rfl
  have e2 : (getState >>= f) s = f s s := rfl
  rw [e1, e2, h1]
  exact (h2 s).run s map

theorem mapFree_createWith (b : IRBuilder) (i : Instruction) : MapFree (createWith b i) :=
  ⟨fun _ _ => rfl⟩

theorem mapFree_create (i : Instruction) : MapFree (create i) :=
  ⟨fun _ _ => rfl⟩

theorem mapFree_createProlog (i : Instruction) : MapFree (createProlog i) :=
  ⟨fun _ _ => rfl⟩

theorem mapFree_createBasicBlock (name parent : String) :
    MapFree (createBasicBlock name parent) :=
  ⟨fun _ _ => rfl⟩

theorem mapFree_createFunction (fty : LType) (l : Linkage) (name : String) :
    MapFree (createFunction fty l name) :=
  ⟨fun _ _ => rfl⟩

theorem mapFree_lvaGetDesc (n : Nat) : MapFree (lvaGetDesc n) := by
  constructor
  intro s map
  cases s
  unfold lvaGetDesc
  dsimp only
  split <;> rfl

theorem mapFree_functionGetArg (i : Nat) : MapFree (functionGetArg i) := by
  constructor
  intro s map
  have key : ∀ (o : Option LFunction) (t : Llvm),
      (match o with
        | some f => deref (f.getArg i) { t with sdsuMap := map }
        | none => unreached { t with sdsuMap := map })
      = (match o with
        | some f => deref (f.getArg i) t
        | none => unreached t).withMap map := by
    intro o t
    cases o with
    | none => rfl
    | some f => exact (mapFree_deref (f.getArg i)).run t map
  exact key s.function s

theorem mapFree_tableGet {κ ν : Type} [DecidableEq κ] (m : List (κ × ν)) (k : κ) :
    MapFree (tableGet m k) :=
  mapFree_deref _

theorem mapFree_tableSetChecked {κ ν : Type} [DecidableEq κ] (c : Compiler) (m : List (κ × ν))
    (k : κ) (v : ν) : MapFree (tableSetChecked c m k v) :=
  mapFree_bind (mapFree_jitAssert c _) (fun _ => mapFree_pure _)

theorem mapFree_forEach {α : Type} {f : α → M Unit} (hf : ∀ a, MapFree (f a)) (l : List α) :
    MapFree (forEach f l) := by
  induction l with
  | nil => exact mapFree_pure ()
  | cons x xs ih => exact mapFree_bind (hf x) (fun _ => ih)

theorem mapFree_mapEach {α β : Type} {f : α → M β} (hf : ∀ a, MapFree (f a)) (l : List α) :
    MapFree (mapEach f l) := by
  induction l with
  | nil => exact mapFree_pure []
  | cons x xs ih =>
    exact mapFree_bind (hf x) (fun _ => mapFree_bind ih (fun _ => mapFree_pure _))

/-- A wider allowance of raw reads keeps the classification. -/
theorem reads_mono {c : Compiler} {raw raw1 : GenTree → Prop} (h : ∀ op, raw op → raw1 op)
    {α : Type} {m : M α} (hm : Reads c raw α m) : Reads c raw1 α m := by
  induction hm with
  | consume node T => exact Reads.consume node T
  | direct node hn => exact Reads.direct node (h node hn)
  | record node v => exact Reads.record node v
  | free α m hf => exact Reads.free α m hf
  | state α f h1 _ ih => exact Reads.state α f h1 ih
  | bind α β m f _ _ ih1 ih2 => exact Reads.bind α β m f ih1 ih2

theorem reads_free {c : Compiler} {raw : GenTree → Prop} {α : Type} {m : M α}
    (h : MapFree m) : Reads c raw α m :=
  Reads.free α m h

theorem reads_bind {c : Compiler} {raw : GenTree → Prop} {α β : Type} {m : M α} {f : α → M β}
    (h1 : Reads c raw α m) (h2 : ∀ a, Reads c raw β (f a)) : Reads c raw β (m >>= f) :=
  Reads.bind α β m f h1 h2

theorem reads_state {c : Compiler} {raw : GenTree → Prop} {α : Type} {f : Llvm → M α}
    (h1 : ∀ (s : Llvm) (map : List (Nat × Value)), f { s with sdsuMap := map } = f s)
    (h2 : ∀ s, Reads c raw α (f s)) : Reads c raw α (getState >>= f) :=
  Reads.state α f h1 h2

/-- The step after a dereference is classified for the dereferenced value only. -/
theorem reads_deref_bind {c : Compiler} {raw : GenTree → Prop} {α β : Type} {o : Option α}
    {f : α → M β} (h : ∀ a, o = some a → Reads c raw β (f a)) :
    Reads c raw β (deref o >>= f) := by
  cases o with
  | none => exact Reads.free _ _ ⟨fun _ _ => rfl⟩
  | some a =>
    have e : (deref (some a) >>= f) = f a := rfl
    rw [e]
    exact h a rfl

theorem reads_forEach {c : Compiler} {raw : GenTree → Prop} {α : Type} {f : α → M Unit}
    (hf : ∀ a, Reads c raw Unit (f a)) (l : List α) : Reads c raw Unit (forEach f l) := by
  induction l with
  | nil => exact reads_free (mapFree_pure ())
  | cons x xs ih => exact reads_bind (hf x) (fun _ => ih)

theorem reads_mapEach {c : Compiler} {raw : GenTree → Prop} {α β : Type} {f : α → M β}
    (hf : ∀ a, Reads c raw β (f a)) (l : List α) : Reads c raw (List β) (mapEach f l) := by
  induction l with
  | nil => exact reads_free (mapFree_pure [])
  | cons x xs ih =>
    exact reads_bind (hf x) (fun _ => reads_bind ih (fun _ => reads_free (mapFree_pure _)))
set_option maxRecDepth 8192 in
theorem mapFree_createLoad (ptr : Value) :
    MapFree (createLoad ptr) := by
  unfold LlvmCodegen.createLoad
  repeat (first
    | exact mapFree_pure _
    | exact mapFree_failFunctionCompilation
    | exact mapFree_unreached
    | exact mapFree_modifyState (fun _ _ => rfl)
    | exact mapFree_jitAssert _ _
    | exact mapFree_deref _
    | exact mapFree_create _
    | exact fun _ _ => rfl
    | with_reducible apply mapFree_getState_bind
    | apply mapFree_bind
    | intro _
    | split
    | dsimp only)

set_option maxRecDepth 8192 in
theorem mapFree_createLoadTyped (ty : LType) (ptr : Value) :
    MapFree (createLoadTyped ty ptr) := by
  unfold LlvmCodegen.createLoadTyped
  repeat (first
    | exact mapFree_pure _
    | exact mapFree_failFunctionCompilation
    | exact mapFree_unreached
    | exact mapFree_modifyState (fun _ _ => rfl)
    | exact mapFree_jitAssert _ _
    | exact mapFree_deref _
    | exact mapFree_create _
    | exact fun _ _ => rfl
    | with_reducible apply mapFree_getState_bind
    | apply mapFree_bind
    | intro _
    | split
    | dsimp only)

set_option maxRecDepth 8192 in
theorem mapFree_createStore (v ptr : Value) :
    MapFree (createStore v ptr) := by
  unfold LlvmCodegen.createStore
  repeat (first
    | exact mapFree_pure _
    | exact mapFree_failFunctionCompilation
    | exact mapFree_unreached
    | exact mapFree_modifyState (fun _ _ => rfl)
    | exact mapFree_jitAssert _ _
    | exact mapFree_deref _
    | exact mapFree_create _
    | exact fun _ _ => rfl
    | with_reducible apply mapFree_getState_bind
    | apply mapFree_bind
    | intro _
    | split
    | dsimp only)

set_option maxRecDepth 8192 in
theorem mapFree_createCall (callee : Value) (fty : LType) (args : List Value) :
    MapFree (createCall callee fty args) := by
  unfold LlvmCodegen.createCall
  repeat (first
    | exact mapFree_pure _
    | exact mapFree_failFunctionCompilation
    | exact mapFree_unreached
    | exact mapFree_modifyState (fun _ _ => rfl)
    | exact mapFree_jitAssert _ _
    | exact mapFree_deref _
    | exact mapFree_create _
    | exact fun _ _ => rfl
    | with_reducible apply mapFree_getState_bind
    | apply mapFree_bind
    | intro _
    | split
    | dsimp only)

set_option maxRecDepth 8192 in
theorem mapFree_createCallTo (f : LFunction) (args : List Value) :
    MapFree (createCallTo f args) := by
  unfold LlvmCodegen.createCallTo
  repeat (first
    | exact mapFree_pure _
    | exact mapFree_failFunctionCompilation
    | exact mapFree_unreached
    | exact mapFree_modifyState (fun _ _ => rfl)
    | exact mapFree_jitAssert _ _
    | exact mapFree_deref _
    | exact mapFree_createCall _ _ _
    | exact fun _ _ => rfl
    | with_reducible apply mapFree_getState_bind
    | apply mapFree_bind
    | intro _
    | split
    | dsimp only)

set_option maxRecDepth 8192 in
theorem mapFree_AddCodeReloc (handle : Nat) :
    MapFree (AddCodeReloc handle) := by
  unfold LlvmCodegen.AddCodeReloc
  repeat (first
    | exact mapFree_pure _
    | exact mapFree_failFunctionCompilation
    | exact mapFree_unreached
    | exact mapFree_modifyState (fun _ _ => rfl)
    | exact mapFree_jitAssert _ _
    | exact mapFree_deref _
    | exact fun _ _ => rfl
    | with_reducible apply mapFree_getState_bind
    | apply mapFree_bind
    | intro _
    | split
    | dsimp only)

set_option maxRecDepth 8192 in
theorem mapFree_getCast (source : Value) (targetType : LType) :
    MapFree (getCast source targetType) := by
  unfold LlvmCodegen.getCast
  repeat (first
    | exact mapFree_pure _
    | exact mapFree_failFunctionCompilation
    | exact mapFree_unreached
    | exact mapFree_modifyState (fun _ _ => rfl)
    | exact mapFree_jitAssert _ _
    | exact mapFree_deref _
    | exact fun _ _ => rfl
    | with_reducible apply mapFree_getState_bind
    | apply mapFree_bind
    | intro _
    | split
    | dsimp only)

set_option maxRecDepth 8192 in
theorem mapFree_castIfNecessary (source : Value) (targetType : LType) :
    MapFree (castIfNecessary source targetType) := by
  unfold LlvmCodegen.castIfNecessary
  repeat (first
    | exact mapFree_pure _
    | exact mapFree_failFunctionCompilation
    | exact mapFree_unreached
    | exact mapFree_modifyState (fun _ _ => rfl)
    | exact mapFree_jitAssert _ _
    | exact mapFree_deref _
    | exact mapFree_create _
    | exact mapFree_getCast _ _
    | exact fun _ _ => rfl
    | with_reducible apply mapFree_getState_bind
    | apply mapFree_bind
    | intro _
    | split
    | dsimp only)

set_option maxRecDepth 8192 in
theorem mapFree_gepOrAddr (addr : Value) (offset : Nat) :
    MapFree (gepOrAddr addr offset) := by
  unfold LlvmCodegen.gepOrAddr
  repeat (first
    | exact mapFree_pure _
    | exact mapFree_failFunctionCompilation
    | exact mapFree_unreached
    | exact mapFree_modifyState (fun _ _ => rfl)
    | exact mapFree_jitAssert _ _
    | exact mapFree_deref _
    | exact mapFree_create _
    | exact fun _ _ => rfl
    | with_reducible apply mapFree_getState_bind
    | apply mapFree_bind
    | intro _
    | split
    | dsimp only)

set_option maxRecDepth 8192 in
theorem mapFree_getTotalLocalOffset (c : Compiler) :
    MapFree (getTotalLocalOffset c) := by
  unfold LlvmCodegen.getTotalLocalOffset
  repeat (first
    | exact mapFree_pure _
    | exact mapFree_failFunctionCompilation
    | exact mapFree_unreached
    | exact mapFree_modifyState (fun _ _ => rfl)
    | exact mapFree_jitAssert _ _
    | exact mapFree_deref _
    | exact fun _ _ => rfl
    | with_reducible apply mapFree_getState_bind
    | apply mapFree_bind
    | intro _
    | split
    | dsimp only)

set_option maxRecDepth 8192 in
theorem mapFree_getShadowStackForCallee (c : Compiler) :
    MapFree (getShadowStackForCallee c) := by
  unfold LlvmCodegen.getShadowStackForCallee
  repeat (first
    | exact mapFree_pure _
    | exact mapFree_failFunctionCompilation
    | exact mapFree_unreached
    | exact mapFree_modifyState (fun _ _ => rfl)
    | exact mapFree_jitAssert _ _
    | exact mapFree_deref _
    | exact mapFree_getTotalLocalOffset _
    | exact mapFree_functionGetArg _
    | exact mapFree_gepOrAddr _ _
    | exact fun _ _ => rfl
    | with_reducible apply mapFree_getState_bind
    | apply mapFree_bind
    | intro _
    | split
    | dsimp only)

set_option maxRecDepth 8192 in
theorem mapFree_getLLVMBasicBlockForBlock (c : Compiler) (block : Option Nat) :
    MapFree (getLLVMBasicBlockForBlock c block) := by
  unfold LlvmCodegen.getLLVMBasicBlockForBlock
  repeat (first
    | exact mapFree_pure _
    | exact mapFree_failFunctionCompilation
    | exact mapFree_unreached
    | exact mapFree_modifyState (fun _ _ => rfl)
    | exact mapFree_jitAssert _ _
    | exact mapFree_deref _
    | exact mapFree_createBasicBlock _ _
    | exact mapFree_tableSetChecked _ _ _ _
    | exact fun _ _ => rfl
    | with_reducible apply mapFree_getState_bind
    | apply mapFree_bind
    | intro _
    | split
    | dsimp only)

set_option maxRecDepth 8192 in
theorem mapFree_isLlvmFrameLocal (c : Compiler) (varDsc : LclVarDsc) :
    MapFree (isLlvmFrameLocal c varDsc) := by
  unfold LlvmCodegen.isLlvmFrameLocal
  repeat (first
    | exact mapFree_pure _
    | exact mapFree_failFunctionCompilation
    | exact mapFree_unreached
    | exact mapFree_modifyState (fun _ _ => rfl)
    | exact mapFree_jitAssert _ _
    | exact mapFree_deref _
    | exact fun _ _ => rfl
    | with_reducible apply mapFree_getState_bind
    | apply mapFree_bind
    | intro _
    | split
    | dsimp only)

set_option maxRecDepth 8192 in
theorem mapFree_getOrCreateExternalSymbol (symbolName : String) (symbolType : Option LType) :
    MapFree (getOrCreateExternalSymbol symbolName symbolType) := by
  unfold LlvmCodegen.getOrCreateExternalSymbol
  repeat (first
    | exact mapFree_pure _
    | exact mapFree_failFunctionCompilation
    | exact mapFree_unreached
    | exact mapFree_modifyState (fun _ _ => rfl)
    | exact mapFree_jitAssert _ _
    | exact mapFree_deref _
    | exact fun _ _ => rfl
    | with_reducible apply mapFree_getState_bind
    | apply mapFree_bind
    | intro _
    | split
    | dsimp only)

set_option maxRecDepth 8192 in
theorem mapFree_getOrCreateFunction (name : String) (fty : LType) (linkage : Linkage) :
    MapFree (getOrCreateFunction name fty linkage) := by
  unfold LlvmCodegen.getOrCreateFunction
  repeat (first
    | exact mapFree_pure _
    | exact mapFree_failFunctionCompilation
    | exact mapFree_unreached
    | exact mapFree_modifyState (fun _ _ => rfl)
    | exact mapFree_jitAssert _ _
    | exact mapFree_deref _
    | exact mapFree_createFunction _ _ _
    | exact fun _ _ => rfl
    | with_reducible apply mapFree_getState_bind
    | apply mapFree_bind
    | intro _
    | split
    | dsimp only)

set_option maxRecDepth 8192 in
theorem mapFree_getOrCreateRhpAssignRef :
    MapFree (getOrCreateRhpAssignRef) := by
  unfold LlvmCodegen.getOrCreateRhpAssignRef
  repeat (first
    | exact mapFree_pure _
    | exact mapFree_failFunctionCompilation
    | exact mapFree_unreached
    | exact mapFree_modifyState (fun _ _ => rfl)
    | exact mapFree_jitAssert _ _
    | exact mapFree_deref _
    | exact mapFree_getOrCreateFunction _ _ _
    | exact fun _ _ => rfl
    | with_reducible apply mapFree_getState_bind
    | apply mapFree_bind
    | intro _
    | split
    | dsimp only)

set_option maxRecDepth 8192 in
theorem mapFree_getOrCreateRhpCheckedAssignRef :
    MapFree (getOrCreateRhpCheckedAssignRef) := by
  unfold LlvmCodegen.getOrCreateRhpCheckedAssignRef
  repeat (first
    | exact mapFree_pure _
    | exact mapFree_failFunctionCompilation
    | exact mapFree_unreached
    | exact mapFree_modifyState (fun _ _ => rfl)
    | exact mapFree_jitAssert _ _
    | exact mapFree_deref _
    | exact mapFree_getOrCreateFunction _ _ _
    | exact fun _ _ => rfl
    | with_reducible apply mapFree_getState_bind
    | apply mapFree_bind
    | intro _
    | split
    | dsimp only)

set_option maxRecDepth 8192 in
theorem mapFree_buildThrowException (c : Compiler) (builder : IRBuilder) (helperClass helperMethodName : String) (shadowStack : Value) :
    MapFree (buildThrowException c builder helperClass helperMethodName shadowStack) := by
  unfold LlvmCodegen.buildThrowException
  repeat (first
    | exact mapFree_pure _
    | exact mapFree_failFunctionCompilation
    | exact mapFree_unreached
    | exact mapFree_modifyState (fun _ _ => rfl)
    | exact mapFree_jitAssert _ _
    | exact mapFree_deref _
    | exact mapFree_createFunction _ _ _
    | exact mapFree_AddCodeReloc _
    | exact mapFree_createWith _ _
    | exact fun _ _ => rfl
    | with_reducible apply mapFree_getState_bind
    | apply mapFree_bind
    | intro _
    | split
    | dsimp only)

set_option maxRecDepth 8192 in
theorem mapFree_getOrCreateThrowIfNullFunction (c : Compiler) :
    MapFree (getOrCreateThrowIfNullFunction c) := by
  unfold LlvmCodegen.getOrCreateThrowIfNullFunction
  repeat (first
    | exact mapFree_pure _
    | exact mapFree_failFunctionCompilation
    | exact mapFree_unreached
    | exact mapFree_modifyState (fun _ _ => rfl)
    | exact mapFree_jitAssert _ _
    | exact mapFree_deref _
    | exact mapFree_createFunction _ _ _
    | exact mapFree_createBasicBlock _ _
    | exact mapFree_createWith _ _
    | exact mapFree_buildThrowException _ _ _ _ _
    | exact fun _ _ => rfl
    | with_reducible apply mapFree_getState_bind
    | apply mapFree_bind
    | intro _
    | split
    | dsimp only)

set_option maxRecDepth 8192 in
theorem mapFree_buildLlvmCallOrInvoke (callee : LFunction) (args : List Value) :
    MapFree (buildLlvmCallOrInvoke callee args) := by
  unfold LlvmCodegen.buildLlvmCallOrInvoke
  repeat (first
    | exact mapFree_pure _
    | exact mapFree_failFunctionCompilation
    | exact mapFree_unreached
    | exact mapFree_modifyState (fun _ _ => rfl)
    | exact mapFree_jitAssert _ _
    | exact mapFree_deref _
    | exact mapFree_createCallTo _ _
    | exact fun _ _ => rfl
    | with_reducible apply mapFree_getState_bind
    | apply mapFree_bind
    | intro _
    | split
    | dsimp only)

set_option maxRecDepth 8192 in
theorem mapFree_emitDoNothingCall :
    MapFree (emitDoNothingCall) := by
  unfold LlvmCodegen.emitDoNothingCall
  repeat (first
    | exact mapFree_pure _
    | exact mapFree_failFunctionCompilation
    | exact mapFree_unreached
    | exact mapFree_modifyState (fun _ _ => rfl)
    | exact mapFree_jitAssert _ _
    | exact mapFree_deref _
    | exact mapFree_createFunction _ _ _
    | exact mapFree_createCallTo _ _
    | exact fun _ _ => rfl
    | with_reducible apply mapFree_getState_bind
    | apply mapFree_bind
    | intro _
    | split
    | dsimp only)

set_option maxRecDepth 8192 in
theorem mapFree_emitNullCheckForIndir (c : Compiler) (indir : GenTree) (addrValue : Value) :
    MapFree (emitNullCheckForIndir c indir addrValue) := by
  unfold LlvmCodegen.emitNullCheckForIndir
  repeat (first
    | exact mapFree_pure _
    | exact mapFree_failFunctionCompilation
    | exact mapFree_unreached
    | exact mapFree_modifyState (fun _ _ => rfl)
    | exact mapFree_jitAssert _ _
    | exact mapFree_deref _
    | exact mapFree_getOrCreateThrowIfNullFunction _
    | exact mapFree_castIfNecessary _ _
    | exact mapFree_getShadowStackForCallee _
    | exact mapFree_buildLlvmCallOrInvoke _ _
    | exact fun _ _ => rfl
    | with_reducible apply mapFree_getState_bind
    | apply mapFree_bind
    | intro _
    | split
    | dsimp only)

set_option maxRecDepth 8192 in
theorem mapFree_getOrCreateLlvmFunction (c : Compiler) (symbolName : String) (call : GenTree) :
    MapFree (getOrCreateLlvmFunction c symbolName call) := by
  unfold LlvmCodegen.getOrCreateLlvmFunction
  repeat (first
    | exact mapFree_pure _
    | exact mapFree_failFunctionCompilation
    | exact mapFree_unreached
    | exact mapFree_modifyState (fun _ _ => rfl)
    | exact mapFree_jitAssert _ _
    | exact mapFree_deref _
    | exact mapFree_createFunction _ _ _
    | exact fun _ _ => rfl
    | with_reducible apply mapFree_getState_bind
    | apply mapFree_bind
    | intro _
    | split
    | dsimp only)

theorem mapFree_sortHelperArgs (l : List (Nat × GenTree)) :
    ∀ sorted, MapFree (sortHelperArgs sorted l) := by
  induction l with
  | nil => exact fun _ => mapFree_pure _
  | cons x xs ih =>
    intro sorted
    unfold LlvmCodegen.sortHelperArgs
    split
    · exact ih _
    · exact mapFree_unreached

set_option maxRecDepth 8192 in
theorem mapFree_buildMemCpy (baseAddress : Value) (startOffset endOffset : Nat) (srcAddress : Value) :
    MapFree (buildMemCpy baseAddress startOffset endOffset srcAddress) := by
  unfold LlvmCodegen.buildMemCpy
  repeat (first
    | exact mapFree_pure _
    | exact mapFree_failFunctionCompilation
    | exact mapFree_unreached
    | exact mapFree_modifyState (fun _ _ => rfl)
    | exact mapFree_jitAssert _ _
    | exact mapFree_deref _
    | exact mapFree_gepOrAddr _ _
    | exact mapFree_create _
    | exact fun _ _ => rfl
    | with_reducible apply mapFree_getState_bind
    | apply mapFree_bind
    | intro _
    | split
    | dsimp only)

set_option maxRecDepth 8192 in
theorem mapFree_storeObjField (c : Compiler) (baseAddress data : Value) (p : Bool)
    (fieldDesc : FieldDesc) (recurse : Value → Value → M Unit)
    (hrec : ∀ a v, MapFree (recurse a v)) (bytesStored : Nat) :
    MapFree (storeObjField c baseAddress data p fieldDesc recurse bytesStored) := by
  unfold LlvmCodegen.storeObjField
  repeat (first
    | exact mapFree_pure _
    | exact mapFree_jitAssert _ _
    | exact mapFree_create _
    | exact mapFree_gepOrAddr _ _
    | exact mapFree_buildMemCpy _ _ _ _
    | exact mapFree_getOrCreateRhpCheckedAssignRef
    | exact mapFree_castIfNecessary _ _
    | exact mapFree_createCallTo _ _
    | exact mapFree_createStore _ _
    | exact hrec _ _
    | exact fun _ _ => rfl
    | with_reducible apply mapFree_getState_bind
    | apply mapFree_bind
    | intro _
    | split
    | dsimp only)

set_option maxRecDepth 8192 in
theorem mapFree_storeObjTail (baseAddress data : Value) (p : Bool) (bytesStored : Nat) :
    MapFree (storeObjTail baseAddress data p bytesStored) := by
  unfold LlvmCodegen.storeObjTail
  repeat (first
    | exact mapFree_pure _
    | exact mapFree_failFunctionCompilation
    | exact mapFree_unreached
    | exact mapFree_modifyState (fun _ _ => rfl)
    | exact mapFree_jitAssert _ _
    | exact mapFree_deref _
    | exact mapFree_create _
    | exact mapFree_buildMemCpy _ _ _ _
    | exact fun _ _ => rfl
    | with_reducible apply mapFree_getState_bind
    | apply mapFree_bind
    | intro _
    | split
    | dsimp only)

mutual
theorem mapFree_storeObjAtAddress (c : Compiler) (baseAddress data : Value) :
    ∀ sd, MapFree (storeObjAtAddress c baseAddress data sd)
  | .mk fields p => by
    rw [LlvmCodegen.storeObjAtAddress]
    exact mapFree_bind (mapFree_storeObjFields c baseAddress data p fields 0)
      (fun _ => mapFree_storeObjTail _ _ _ _)
theorem mapFree_storeObjFields (c : Compiler) (baseAddress data : Value) (p : Bool) :
    ∀ fields n, MapFree (storeObjFields c baseAddress data p fields n)
  | [], n => by
    rw [LlvmCodegen.storeObjFields]
    exact mapFree_pure n
  | (fd, none) :: rest, n => by
    rw [LlvmCodegen.storeObjFields]
    exact mapFree_bind
      (mapFree_storeObjField c baseAddress data p fd _ (fun _ _ => mapFree_unreached) n)
      (fun n1 => mapFree_storeObjFields c baseAddress data p rest n1)
  | (fd, some sd) :: rest, n => by
    rw [LlvmCodegen.storeObjFields]
    exact mapFree_bind
      (mapFree_storeObjField c baseAddress data p fd _
        (fun a v => mapFree_storeObjAtAddress c a v sd) n)
      (fun n1 => mapFree_storeObjFields c baseAddress data p rest n1)
end

set_option maxRecDepth 8192 in
theorem mapFree_buildJTrue (c : Compiler) (node : GenTree) (opValue : Value) :
    MapFree (buildJTrue c node opValue) := by
  unfold LlvmCodegen.buildJTrue
  repeat (first
    | exact mapFree_pure _
    | exact mapFree_failFunctionCompilation
    | exact mapFree_unreached
    | exact mapFree_modifyState (fun _ _ => rfl)
    | exact mapFree_jitAssert _ _
    | exact mapFree_deref _
    | exact mapFree_getLLVMBasicBlockForBlock _ _
    | exact mapFree_create _
    | exact fun _ _ => rfl
    | with_reducible apply mapFree_getState_bind
    | apply mapFree_bind
    | intro _
    | split
    | dsimp only)

set_option maxRecDepth 8192 in
theorem reads_buildLocalVar (c : Compiler) (lclVar : GenTree) :
    Reads c (fun _ => False) _ (buildLocalVar c lclVar) := by
  unfold LlvmCodegen.buildLocalVar
  repeat (first
    | exact Reads.consume _ _
    | exact Reads.record _ _
    | exact reads_free (mapFree_pure _)
    | exact reads_free (mapFree_failFunctionCompilation)
    | exact reads_free (mapFree_unreached)
    | exact reads_free (mapFree_modifyState (fun _ _ => rfl))
    | exact reads_free (mapFree_jitAssert _ _)
    | exact reads_free (mapFree_deref _)
    | exact reads_free (mapFree_lvaGetDesc _)
    | exact reads_free (mapFree_isLlvmFrameLocal _ _)
    | exact reads_free (mapFree_createLoad _)
    | exact reads_free (mapFree_tableGet _ _)
    | exact reads_free (mapFree_create _)
    | exact fun _ _ => rfl
    | with_reducible apply reads_state
    | apply reads_bind
    | intro _
    | split
    | dsimp only)

set_option maxRecDepth 8192 in
theorem reads_buildStoreLocalVar (c : Compiler) (lclVar : GenTree) :
    Reads c (fun _ => False) _ (buildStoreLocalVar c lclVar) := by
  unfold LlvmCodegen.buildStoreLocalVar
  repeat (first
    | exact Reads.consume _ _
    | exact Reads.record _ _
    | exact reads_free (mapFree_pure _)
    | exact reads_free (mapFree_failFunctionCompilation)
    | exact reads_free (mapFree_unreached)
    | exact reads_free (mapFree_modifyState (fun _ _ => rfl))
    | exact reads_free (mapFree_jitAssert _ _)
    | exact reads_free (mapFree_deref _)
    | exact reads_free (mapFree_lvaGetDesc _)
    | exact reads_free (mapFree_isLlvmFrameLocal _ _)
    | exact reads_free (mapFree_createStore _ _)
    | exact reads_free (mapFree_tableSetChecked _ _ _ _)
    | exact fun _ _ => rfl
    | with_reducible apply reads_state
    | apply reads_bind
    | intro _
    | split
    | dsimp only)

set_option maxRecDepth 8192 in
theorem reads_buildEmptyPhi (c : Compiler) (phi : GenTree) :
    Reads c (fun _ => False) _ (buildEmptyPhi c phi) := by
  unfold LlvmCodegen.buildEmptyPhi
  repeat (first
    | exact Reads.consume _ _
    | exact Reads.record _ _
    | exact reads_free (mapFree_pure _)
    | exact reads_free (mapFree_failFunctionCompilation)
    | exact reads_free (mapFree_unreached)
    | exact reads_free (mapFree_modifyState (fun _ _ => rfl))
    | exact reads_free (mapFree_jitAssert _ _)
    | exact reads_free (mapFree_deref _)
    | exact reads_free (mapFree_lvaGetDesc _)
    | exact reads_free (mapFree_create _)
    | exact fun _ _ => rfl
    | with_reducible apply reads_state
    | apply reads_bind
    | intro _
    | split
    | dsimp only)

set_option maxRecDepth 8192 in
theorem reads_buildLocalField (c : Compiler) (lclFld : GenTree) :
    Reads c (fun _ => False) _ (buildLocalField c lclFld) := by
  unfold LlvmCodegen.buildLocalField
  repeat (first
    | exact Reads.consume _ _
    | exact Reads.record _ _
    | exact reads_free (mapFree_pure _)
    | exact reads_free (mapFree_failFunctionCompilation)
    | exact reads_free (mapFree_unreached)
    | exact reads_free (mapFree_modifyState (fun _ _ => rfl))
    | exact reads_free (mapFree_jitAssert _ _)
    | exact reads_free (mapFree_deref _)
    | exact reads_free (mapFree_lvaGetDesc _)
    | exact reads_free (mapFree_isLlvmFrameLocal _ _)
    | exact reads_free (mapFree_castIfNecessary _ _)
    | exact reads_free (mapFree_gepOrAddr _ _)
    | exact reads_free (mapFree_createLoad _)
    | exact fun _ _ => rfl
    | with_reducible apply reads_state
    | apply reads_bind
    | intro _
    | split
    | dsimp only)

set_option maxRecDepth 8192 in
theorem reads_buildLocalVarAddr (c : Compiler) (lclAddr : GenTree) :
    Reads c (fun _ => False) _ (buildLocalVarAddr c lclAddr) := by
  unfold LlvmCodegen.buildLocalVarAddr
  repeat (first
    | exact Reads.consume _ _
    | exact Reads.record _ _
    | exact reads_free (mapFree_pure _)
    | exact reads_free (mapFree_failFunctionCompilation)
    | exact reads_free (mapFree_unreached)
    | exact reads_free (mapFree_modifyState (fun _ _ => rfl))
    | exact reads_free (mapFree_jitAssert _ _)
    | exact reads_free (mapFree_deref _)
    | exact reads_free (mapFree_castIfNecessary _ _)
    | exact reads_free (mapFree_gepOrAddr _ _)
    | exact fun _ _ => rfl
    | with_reducible apply reads_state
    | apply reads_bind
    | intro _
    | split
    | dsimp only)

set_option maxRecDepth 8192 in
theorem reads_buildAdd (c : Compiler) (node : GenTree) :
    Reads c (fun _ => False) _ (buildAdd c node) := by
  unfold LlvmCodegen.buildAdd
  repeat (first
    | exact Reads.consume _ _
    | exact Reads.record _ _
    | exact reads_free (mapFree_pure _)
    | exact reads_free (mapFree_failFunctionCompilation)
    | exact reads_free (mapFree_unreached)
    | exact reads_free (mapFree_modifyState (fun _ _ => rfl))
    | exact reads_free (mapFree_jitAssert _ _)
    | exact reads_free (mapFree_deref _)
    | exact reads_free (mapFree_castIfNecessary _ _)
    | exact reads_free (mapFree_create _)
    | exact fun _ _ => rfl
    | with_reducible apply reads_state
    | apply reads_bind
    | intro _
    | split
    | dsimp only)

set_option maxRecDepth 8192 in
theorem reads_buildDiv (c : Compiler) (node : GenTree) :
    Reads c (fun _ => False) _ (buildDiv c node) := by
  unfold LlvmCodegen.buildDiv
  repeat (first
    | exact Reads.consume _ _
    | exact Reads.record _ _
    | exact reads_free (mapFree_pure _)
    | exact reads_free (mapFree_failFunctionCompilation)
    | exact reads_free (mapFree_unreached)
    | exact reads_free (mapFree_modifyState (fun _ _ => rfl))
    | exact reads_free (mapFree_jitAssert _ _)
    | exact reads_free (mapFree_deref _)
    | exact reads_free (mapFree_create _)
    | exact fun _ _ => rfl
    | with_reducible apply reads_state
    | apply reads_bind
    | intro _
    | split
    | dsimp only)

set_option maxRecDepth 8192 in
theorem reads_buildCast (c : Compiler) (cast : GenTree) :
    Reads c (fun _ => False) _ (buildCast c cast) := by
  unfold LlvmCodegen.buildCast
  repeat (first
    | exact Reads.consume _ _
    | exact Reads.record _ _
    | exact reads_free (mapFree_pure _)
    | exact reads_free (mapFree_failFunctionCompilation)
    | exact reads_free (mapFree_unreached)
    | exact reads_free (mapFree_modifyState (fun _ _ => rfl))
    | exact reads_free (mapFree_jitAssert _ _)
    | exact reads_free (mapFree_deref _)
    | exact reads_free (mapFree_create _)
    | exact fun _ _ => rfl
    | with_reducible apply reads_state
    | apply reads_bind
    | intro _
    | split
    | dsimp only)

set_option maxRecDepth 8192 in
theorem reads_buildLclHeap (c : Compiler) (lclHeap : GenTree) :
    Reads c (fun _ => False) _ (buildLclHeap c lclHeap) := by
  unfold LlvmCodegen.buildLclHeap
  repeat (first
    | exact Reads.consume _ _
    | exact Reads.record _ _
    | exact reads_free (mapFree_pure _)
    | exact reads_free (mapFree_failFunctionCompilation)
    | exact reads_free (mapFree_unreached)
    | exact reads_free (mapFree_modifyState (fun _ _ => rfl))
    | exact reads_free (mapFree_jitAssert _ _)
    | exact reads_free (mapFree_deref _)
    | exact reads_free (mapFree_create _)
    | exact fun _ _ => rfl
    | with_reducible apply reads_state
    | apply reads_bind
    | intro _
    | split
    | dsimp only)

set_option maxRecDepth 8192 in
theorem reads_buildCmp (c : Compiler) (node : GenTree) :
    Reads c (fun _ => False) _ (buildCmp c node) := by
  unfold LlvmCodegen.buildCmp
  repeat (first
    | exact Reads.consume _ _
    | exact Reads.record _ _
    | exact reads_free (mapFree_pure _)
    | exact reads_free (mapFree_failFunctionCompilation)
    | exact reads_free (mapFree_unreached)
    | exact reads_free (mapFree_modifyState (fun _ _ => rfl))
    | exact reads_free (mapFree_jitAssert _ _)
    | exact reads_free (mapFree_deref _)
    | exact reads_free (mapFree_create _)
    | exact fun _ _ => rfl
    | with_reducible apply reads_state
    | apply reads_bind
    | intro _
    | split
    | dsimp only)

set_option maxRecDepth 8192 in
theorem reads_buildCnsDouble (c : Compiler) (node : GenTree) :
    Reads c (fun _ => False) _ (buildCnsDouble c node) := by
  unfold LlvmCodegen.buildCnsDouble
  repeat (first
    | exact Reads.consume _ _
    | exact Reads.record _ _
    | exact reads_free (mapFree_pure _)
    | exact reads_free (mapFree_failFunctionCompilation)
    | exact reads_free (mapFree_unreached)
    | exact reads_free (mapFree_modifyState (fun _ _ => rfl))
    | exact reads_free (mapFree_jitAssert _ _)
    | exact reads_free (mapFree_deref _)
    | exact fun _ _ => rfl
    | with_reducible apply reads_state
    | apply reads_bind
    | intro _
    | split
    | dsimp only)

set_option maxRecDepth 8192 in
theorem reads_buildCnsInt (c : Compiler) (node : GenTree) :
    Reads c (fun _ => False) _ (buildCnsInt c node) := by
  unfold LlvmCodegen.buildCnsInt
  repeat (first
    | exact Reads.consume _ _
    | exact Reads.record _ _
    | exact reads_free (mapFree_pure _)
    | exact reads_free (mapFree_failFunctionCompilation)
    | exact reads_free (mapFree_unreached)
    | exact reads_free (mapFree_modifyState (fun _ _ => rfl))
    | exact reads_free (mapFree_jitAssert _ _)
    | exact reads_free (mapFree_deref _)
    | exact reads_free (mapFree_AddCodeReloc _)
    | exact reads_free (mapFree_getOrCreateExternalSymbol _ _)
    | exact reads_free (mapFree_createLoad _)
    | exact reads_free (mapFree_create _)
    | exact fun _ _ => rfl
    | with_reducible apply reads_state
    | apply reads_bind
    | intro _
    | split
    | dsimp only)

set_option maxRecDepth 8192 in
theorem reads_buildCnsLng (c : Compiler) (node : GenTree) :
    Reads c (fun _ => False) _ (buildCnsLng c node) := by
  unfold LlvmCodegen.buildCnsLng
  repeat (first
    | exact Reads.consume _ _
    | exact Reads.record _ _
    | exact reads_free (mapFree_pure _)
    | exact reads_free (mapFree_failFunctionCompilation)
    | exact reads_free (mapFree_unreached)
    | exact reads_free (mapFree_modifyState (fun _ _ => rfl))
    | exact reads_free (mapFree_jitAssert _ _)
    | exact reads_free (mapFree_deref _)
    | exact fun _ _ => rfl
    | with_reducible apply reads_state
    | apply reads_bind
    | intro _
    | split
    | dsimp only)

set_option maxRecDepth 8192 in
theorem reads_buildFieldListStore (c : Compiler) (allocaAsBytePtr : Value) (use : UseData × GenTree) :
    Reads c (fun _ => False) _ (buildFieldListStore c allocaAsBytePtr use) := by
  unfold LlvmCodegen.buildFieldListStore
  repeat (first
    | exact Reads.consume _ _
    | exact Reads.record _ _
    | exact reads_free (mapFree_pure _)
    | exact reads_free (mapFree_failFunctionCompilation)
    | exact reads_free (mapFree_unreached)
    | exact reads_free (mapFree_modifyState (fun _ _ => rfl))
    | exact reads_free (mapFree_jitAssert _ _)
    | exact reads_free (mapFree_deref _)
    | exact reads_free (mapFree_gepOrAddr _ _)
    | exact reads_free (mapFree_castIfNecessary _ _)
    | exact reads_free (mapFree_createStore _ _)
    | exact fun _ _ => rfl
    | with_reducible apply reads_state
    | apply reads_bind
    | intro _
    | split
    | dsimp only)

set_option maxRecDepth 8192 in
theorem reads_buildFieldList (c : Compiler) (fieldList : GenTree) (llvmType : LType) :
    Reads c (fun _ => False) _ (buildFieldList c fieldList llvmType) := by
  unfold LlvmCodegen.buildFieldList
  repeat (first
    | exact Reads.consume _ _
    | exact Reads.record _ _
    | exact reads_free (mapFree_pure _)
    | exact reads_free (mapFree_failFunctionCompilation)
    | exact reads_free (mapFree_unreached)
    | exact reads_free (mapFree_modifyState (fun _ _ => rfl))
    | exact reads_free (mapFree_jitAssert _ _)
    | exact reads_free (mapFree_deref _)
    | exact reads_free (mapFree_create _)
    | exact reads_forEach (reads_buildFieldListStore _ _) _
    | exact reads_free (mapFree_createLoad _)
    | exact fun _ _ => rfl
    | with_reducible apply reads_state
    | apply reads_bind
    | intro _
    | split
    | dsimp only)

set_option maxRecDepth 8192 in
theorem reads_buildUserFuncCallArg (c : Compiler) (use : UseData × GenTree) :
    Reads c (fun _ => False) _ (buildUserFuncCallArg c use) := by
  unfold LlvmCodegen.buildUserFuncCallArg
  repeat (first
    | exact Reads.consume _ _
    | exact Reads.record _ _
    | exact reads_free (mapFree_pure _)
    | exact reads_free (mapFree_failFunctionCompilation)
    | exact reads_free (mapFree_unreached)
    | exact reads_free (mapFree_modifyState (fun _ _ => rfl))
    | exact reads_free (mapFree_jitAssert _ _)
    | exact reads_free (mapFree_deref _)
    | exact reads_buildFieldList _ _ _
    | exact fun _ _ => rfl
    | with_reducible apply reads_state
    | apply reads_bind
    | intro _
    | split
    | dsimp only)

/-- The operand that `buildUserFuncCall` reads raw: the callee node of an indirect or virtual
call. -/
theorem reads_buildUserFuncCall (c : Compiler) (call : GenTree) :
    Reads c (fun op => (call.d.isVirtualVtable = true ∨ call.d.gtCallType = .CT_INDIRECT) ∧
        (if call.d.isVirtualVtable then call.gtControlExpr else call.gtCallAddr) = some op) _
      (buildUserFuncCall c call) := by
  unfold LlvmCodegen.buildUserFuncCall
  have tail : ∀ callee : Value × LType,
      Reads c (fun op => (call.d.isVirtualVtable = true ∨ call.d.gtCallType = .CT_INDIRECT) ∧
        (if call.d.isVirtualVtable then call.gtControlExpr else call.gtCallAddr) = some op) Unit
        (mapEach (buildUserFuncCallArg c) call.Uses >>= fun argVec =>
          createCall callee.1 callee.2 argVec >>= fun llvmCall =>
            mapGenTreeToValue c call llvmCall) := by
    intro callee
    apply reads_bind
    · exact reads_mapEach (fun use => reads_mono (fun _ h => h.elim)
        (reads_buildUserFuncCallArg c use)) _
    · intro _
      exact reads_bind (reads_free (mapFree_createCall _ _ _)) (fun _ => Reads.record _ _)
  dsimp only
  by_cases hu : call.d.gtCallType = .CT_USER_FUNC ∨ call.d.gtCallType = .CT_INDIRECT
  · rw [if_pos hu]
    by_cases hv : call.d.isVirtualVtable = true ∨ call.d.gtCallType = .CT_INDIRECT
    · rw [if_pos hv]
      apply reads_deref_bind
      intro calleeNode hnode
      apply reads_bind (Reads.direct calleeNode ⟨hv, hnode⟩)
      intro _
      apply reads_bind (reads_free (mapFree_castIfNecessary _ _))
      intro _
      apply reads_bind (reads_free (mapFree_pure _))
      intro _
      exact tail _
    · rw [if_neg hv]
      apply reads_bind (reads_free (mapFree_AddCodeReloc _))
      intro _
      apply reads_bind (reads_free (mapFree_getOrCreateLlvmFunction _ _ _))
      intro _
      apply reads_bind (reads_free (mapFree_pure _))
      intro _
      exact tail _
  · rw [if_neg hu]
    apply reads_bind (reads_free mapFree_unreached)
    intro _
    exact tail _

theorem reads_buildHelperArgs (c : Compiler) (llvmFunc : LFunction)
    (l : List (Option (Nat × GenTree))) :
    ∀ argIx, Reads c (fun _ => False) _ (buildHelperArgs c llvmFunc argIx l) := by
  induction l with
  | nil => exact fun _ => reads_free (mapFree_pure _)
  | cons x xs ih =>
    intro argIx
    unfold LlvmCodegen.buildHelperArgs
    repeat (first
      | exact Reads.consume _ _
      | exact reads_free (mapFree_pure _)
      | exact reads_free (mapFree_deref _)
      | exact reads_free (mapFree_AddCodeReloc _)
      | exact reads_free (mapFree_getOrCreateExternalSymbol _ _)
      | exact reads_free (mapFree_castIfNecessary _ _)
      | exact reads_free (mapFree_createLoad _)
      | exact ih _
      | apply reads_bind
      | intro _
      | split
      | dsimp only)

set_option maxRecDepth 8192 in
theorem reads_buildHelperFuncCall (c : Compiler) (call : GenTree) :
    Reads c (fun _ => False) _ (buildHelperFuncCall c call) := by
  unfold LlvmCodegen.buildHelperFuncCall
  repeat (first
    | exact Reads.consume _ _
    | exact Reads.record _ _
    | exact reads_free (mapFree_pure _)
    | exact reads_free (mapFree_failFunctionCompilation)
    | exact reads_free (mapFree_unreached)
    | exact reads_free (mapFree_modifyState (fun _ _ => rfl))
    | exact reads_free (mapFree_jitAssert _ _)
    | exact reads_free (mapFree_deref _)
    | exact reads_free (mapFree_getOrCreateFunction _ _ _)
    | exact reads_free (mapFree_AddCodeReloc _)
    | exact reads_free (mapFree_getShadowStackForCallee _)
    | exact reads_free (mapFree_createCallTo _ _)
    | exact reads_free (mapFree_sortHelperArgs _ _)
    | exact reads_free (mapFree_getOrCreateExternalSymbol _ _)
    | exact reads_free (mapFree_createStore _ _)
    | exact reads_buildHelperArgs _ _ _ _
    | exact fun _ _ => rfl
    | with_reducible apply reads_state
    | apply reads_bind
    | intro _
    | split
    | dsimp only)

set_option maxRecDepth 8192 in
theorem reads_buildInd (c : Compiler) (indNode : GenTree) :
    Reads c (fun _ => False) _ (buildInd c indNode) := by
  unfold LlvmCodegen.buildInd
  repeat (first
    | exact Reads.consume _ _
    | exact Reads.record _ _
    | exact reads_free (mapFree_pure _)
    | exact reads_free (mapFree_failFunctionCompilation)
    | exact reads_free (mapFree_unreached)
    | exact reads_free (mapFree_modifyState (fun _ _ => rfl))
    | exact reads_free (mapFree_jitAssert _ _)
    | exact reads_free (mapFree_deref _)
    | exact reads_free (mapFree_emitNullCheckForIndir _ _ _)
    | exact reads_free (mapFree_createLoadTyped _ _)
    | exact fun _ _ => rfl
    | with_reducible apply reads_state
    | apply reads_bind
    | intro _
    | split
    | dsimp only)

set_option maxRecDepth 8192 in
theorem reads_buildBlk (c : Compiler) (blkNode : GenTree) :
    Reads c (fun _ => False) _ (buildBlk c blkNode) := by
  unfold LlvmCodegen.buildBlk
  repeat (first
    | exact Reads.consume _ _
    | exact Reads.record _ _
    | exact reads_free (mapFree_pure _)
    | exact reads_free (mapFree_failFunctionCompilation)
    | exact reads_free (mapFree_unreached)
    | exact reads_free (mapFree_modifyState (fun _ _ => rfl))
    | exact reads_free (mapFree_jitAssert _ _)
    | exact reads_free (mapFree_deref _)
    | exact reads_free (mapFree_emitNullCheckForIndir _ _ _)
    | exact reads_free (mapFree_createLoadTyped _ _)
    | exact fun _ _ => rfl
    | with_reducible apply reads_state
    | apply reads_bind
    | intro _
    | split
    | dsimp only)

set_option maxRecDepth 8192 in
theorem reads_buildStoreInd (c : Compiler) (storeIndOp : GenTree) :
    Reads c (fun _ => False) _ (buildStoreInd c storeIndOp) := by
  unfold LlvmCodegen.buildStoreInd
  repeat (first
    | exact Reads.consume _ _
    | exact Reads.record _ _
    | exact reads_free (mapFree_pure _)
    | exact reads_free (mapFree_failFunctionCompilation)
    | exact reads_free (mapFree_unreached)
    | exact reads_free (mapFree_modifyState (fun _ _ => rfl))
    | exact reads_free (mapFree_jitAssert _ _)
    | exact reads_free (mapFree_deref _)
    | exact reads_free (mapFree_emitNullCheckForIndir _ _ _)
    | exact reads_free (mapFree_getOrCreateRhpAssignRef)
    | exact reads_free (mapFree_getOrCreateRhpCheckedAssignRef)
    | exact reads_free (mapFree_createCallTo _ _)
    | exact reads_free (mapFree_createStore _ _)
    | exact fun _ _ => rfl
    | with_reducible apply reads_state
    | apply reads_bind
    | intro _
    | split
    | dsimp only)

set_option maxRecDepth 8192 in
theorem reads_buildStoreBlk (c : Compiler) (blockOp : GenTree) :
    Reads c (fun _ => False) _ (buildStoreBlk c blockOp) := by
  unfold LlvmCodegen.buildStoreBlk
  repeat (first
    | exact Reads.consume _ _
    | exact Reads.record _ _
    | exact reads_free (mapFree_pure _)
    | exact reads_free (mapFree_failFunctionCompilation)
    | exact reads_free (mapFree_unreached)
    | exact reads_free (mapFree_modifyState (fun _ _ => rfl))
    | exact reads_free (mapFree_jitAssert _ _)
    | exact reads_free (mapFree_deref _)
    | exact reads_free (mapFree_emitNullCheckForIndir _ _ _)
    | exact reads_free (mapFree_create _)
    | exact reads_free (mapFree_storeObjAtAddress _ _ _ _)
    | exact reads_free (mapFree_castIfNecessary _ _)
    | exact reads_free (mapFree_createStore _ _)
    | exact fun _ _ => rfl
    | with_reducible apply reads_state
    | apply reads_bind
    | intro _
    | split
    | dsimp only)

set_option maxRecDepth 8192 in
theorem reads_buildUnaryOperation (c : Compiler) (node : GenTree) :
    Reads c (fun _ => False) _ (buildUnaryOperation c node) := by
  unfold LlvmCodegen.buildUnaryOperation
  repeat (first
    | exact Reads.consume _ _
    | exact Reads.record _ _
    | exact reads_free (mapFree_pure _)
    | exact reads_free (mapFree_failFunctionCompilation)
    | exact reads_free (mapFree_unreached)
    | exact reads_free (mapFree_modifyState (fun _ _ => rfl))
    | exact reads_free (mapFree_jitAssert _ _)
    | exact reads_free (mapFree_deref _)
    | exact reads_free (mapFree_create _)
    | exact fun _ _ => rfl
    | with_reducible apply reads_state
    | apply reads_bind
    | intro _
    | split
    | dsimp only)

set_option maxRecDepth 8192 in
theorem reads_buildBinaryOperation (c : Compiler) (node : GenTree) :
    Reads c (fun _ => False) _ (buildBinaryOperation c node) := by
  unfold LlvmCodegen.buildBinaryOperation
  repeat (first
    | exact Reads.consume _ _
    | exact Reads.record _ _
    | exact reads_free (mapFree_pure _)
    | exact reads_free (mapFree_failFunctionCompilation)
    | exact reads_free (mapFree_unreached)
    | exact reads_free (mapFree_modifyState (fun _ _ => rfl))
    | exact reads_free (mapFree_jitAssert _ _)
    | exact reads_free (mapFree_deref _)
    | exact reads_free (mapFree_create _)
    | exact fun _ _ => rfl
    | with_reducible apply reads_state
    | apply reads_bind
    | intro _
    | split
    | dsimp only)

set_option maxRecDepth 8192 in
theorem reads_buildShift (c : Compiler) (node : GenTree) :
    Reads c (fun _ => False) _ (buildShift c node) := by
  unfold LlvmCodegen.buildShift
  repeat (first
    | exact Reads.consume _ _
    | exact Reads.record _ _
    | exact reads_free (mapFree_pure _)
    | exact reads_free (mapFree_failFunctionCompilation)
    | exact reads_free (mapFree_unreached)
    | exact reads_free (mapFree_modifyState (fun _ _ => rfl))
    | exact reads_free (mapFree_jitAssert _ _)
    | exact reads_free (mapFree_deref _)
    | exact reads_free (mapFree_create _)
    | exact fun _ _ => rfl
    | with_reducible apply reads_state
    | apply reads_bind
    | intro _
    | split
    | dsimp only)

set_option maxRecDepth 8192 in
theorem reads_buildReturn (c : Compiler) (node : GenTree) :
    Reads c (fun _ => False) _ (buildReturn c node) := by
  unfold LlvmCodegen.buildReturn
  repeat (first
    | exact Reads.consume _ _
    | exact Reads.record _ _
    | exact reads_free (mapFree_pure _)
    | exact reads_free (mapFree_failFunctionCompilation)
    | exact reads_free (mapFree_unreached)
    | exact reads_free (mapFree_modifyState (fun _ _ => rfl))
    | exact reads_free (mapFree_jitAssert _ _)
    | exact reads_free (mapFree_deref _)
    | exact reads_free (mapFree_create _)
    | exact fun _ _ => rfl
    | with_reducible apply reads_state
    | apply reads_bind
    | intro _
    | split
    | dsimp only)

set_option maxRecDepth 8192 in
theorem reads_buildNullCheck (c : Compiler) (nullCheckNode : GenTree) :
    Reads c (fun _ => False) _ (buildNullCheck c nullCheckNode) := by
  unfold LlvmCodegen.buildNullCheck
  repeat (first
    | exact Reads.consume _ _
    | exact Reads.record _ _
    | exact reads_free (mapFree_pure _)
    | exact reads_free (mapFree_failFunctionCompilation)
    | exact reads_free (mapFree_unreached)
    | exact reads_free (mapFree_modifyState (fun _ _ => rfl))
    | exact reads_free (mapFree_jitAssert _ _)
    | exact reads_free (mapFree_deref _)
    | exact reads_free (mapFree_emitNullCheckForIndir _ _ _)
    | exact fun _ _ => rfl
    | with_reducible apply reads_state
    | apply reads_bind
    | intro _
    | split
    | dsimp only)

/-- The operand that `buildCall` reads raw: the callee node of an indirect or virtual call
that it hands to `buildUserFuncCall`. -/
theorem reads_buildCall (c : Compiler) (node : GenTree) :
    Reads c (fun op =>
        ((node.d.gtCallType = .CT_USER_FUNC ∨ node.d.gtCallType = .CT_INDIRECT) ∧
          node.d.isVirtualStub = false) ∧
        (node.d.isVirtualVtable = true ∨ node.d.gtCallType = .CT_INDIRECT) ∧
        (if node.d.isVirtualVtable then node.gtControlExpr else node.gtCallAddr) = some op) _
      (buildCall c node) := by
  unfold LlvmCodegen.buildCall
  by_cases hh : node.d.gtCallType = .CT_HELPER
  · rw [if_pos hh]
    exact reads_mono (fun _ h => h.elim) (reads_buildHelperFuncCall c node)
  · rw [if_neg hh]
    by_cases hu : (node.d.gtCallType = .CT_USER_FUNC ∨ node.d.gtCallType = .CT_INDIRECT) ∧
        node.d.isVirtualStub = false
    · rw [if_pos hu]
      exact reads_mono (fun _ h => ⟨hu, h⟩) (reads_buildUserFuncCall c node)
    · rw [if_neg hu]
      exact reads_free mapFree_failFunctionCompilation

/-- Every opcode handler takes the values of its operands from the node-to-value map through
`consumeValue`, except for the operands in `rawOperands`. -/
theorem reads_visitNode (c : Compiler) (node : GenTree) :
    Reads c (rawOperands node) Unit (visitNode c node) := by
  have no : ∀ {m : M Unit}, Reads c (fun _ => False) Unit m → Reads c (rawOperands node) Unit m :=
    fun h => reads_mono (fun _ h => h.elim) h
  unfold LlvmCodegen.visitNode
  cases hop : node.OperGet <;> simp only
  case GT_ADD => exact no (reads_buildAdd c node)
  case GT_DIV => exact no (reads_buildDiv c node)
  case GT_CALL => exact reads_mono (fun _ h => Or.inr ⟨hop, h⟩) (reads_buildCall c node)
  case GT_CAST => exact no (reads_buildCast c node)
  case GT_LCLHEAP => exact no (reads_buildLclHeap c node)
  case GT_CNS_DBL => exact no (reads_buildCnsDouble c node)
  case GT_CNS_INT => exact no (reads_buildCnsInt c node)
  case GT_CNS_LNG => exact no (reads_buildCnsLng c node)
  case GT_IL_OFFSET => exact reads_free (mapFree_modifyState (fun _ _ => rfl))
  case GT_IND => exact no (reads_buildInd c node)
  case GT_JTRUE =>
    apply reads_deref_bind
    intro op1 hop1
    exact reads_bind (Reads.direct op1 (Or.inl ⟨hop, hop1⟩))
      (fun _ => reads_free (mapFree_buildJTrue _ _ _))
  case GT_LCL_FLD => exact no (reads_buildLocalField c node)
  case GT_LCL_VAR => exact no (reads_buildLocalVar c node)
  case GT_LCL_VAR_ADDR | GT_LCL_FLD_ADDR => exact no (reads_buildLocalVarAddr c node)
  case GT_LSH | GT_RSH | GT_RSZ => exact no (reads_buildShift c node)
  case GT_EQ | GT_NE | GT_LE | GT_LT | GT_GE | GT_GT => exact no (reads_buildCmp c node)
  case GT_NEG | GT_NOT => exact no (reads_buildUnaryOperation c node)
  case GT_NO_OP => exact reads_free mapFree_emitDoNothingCall
  case GT_NULLCHECK => exact no (reads_buildNullCheck c node)
  case GT_OBJ | GT_BLK => exact no (reads_buildBlk c node)
  case GT_PHI => exact no (reads_buildEmptyPhi c node)
  case GT_PHI_ARG | GT_PUTARG_TYPE | GT_FIELD_LIST | GT_INIT_VAL =>
    exact reads_free (mapFree_pure ())
  case GT_RETURN => exact no (reads_buildReturn c node)
  case GT_STORE_LCL_VAR => exact no (reads_buildStoreLocalVar c node)
  case GT_STOREIND => exact no (reads_buildStoreInd c node)
  case GT_STORE_BLK | GT_STORE_OBJ => exact no (reads_buildStoreBlk c node)
  case GT_AND | GT_OR | GT_XOR => exact no (reads_buildBinaryOperation c node)
  case GT_SUB | GT_MUL | GT_OTHER => exact reads_free mapFree_failFunctionCompilation

/-! ## Raw reads are not reads through `consumeValue` -/

theorem mapFree_consumeValueTrueNodeType (c : Compiler) (node : GenTree) (v : Value) :
    MapFree (consumeValueTrueNodeType c node v) := by
  unfold LlvmCodegen.consumeValueTrueNodeType
  repeat (first
    | exact mapFree_pure _
    | exact mapFree_jitAssert _ _
    | exact mapFree_lvaGetDesc _
    | apply mapFree_bind
    | intro _
    | split
    | dsimp only)

set_option maxRecDepth 8192 in
theorem mapFree_consumeValueTo (c : Compiler) (node : GenTree) (v : Value) (T : LType) :
    MapFree (consumeValueTo c node v T) := by
  unfold LlvmCodegen.consumeValueTo
  repeat (first
    | exact mapFree_pure _
    | exact mapFree_jitAssert _ _
    | exact mapFree_create _
    | exact mapFree_consumeValueTrueNodeType _ _ _
    | apply mapFree_bind
    | intro _
    | split
    | dsimp only)

theorem mapTwin_of_free {α : Type} {m : M α} (hm : MapFree m) : SameOnTwins m := by
  intro sA sB ⟨mB, hB, hk⟩
  subst hB
  have e1 := hm.run sA mB
  have e2 := hm.run sA sA.sdsuMap
  cases hA : m sA with
  | failed k s1 => left; rfl
  | ok a sA1 =>
    right; right
    rw [hA] at e1
    have e3 : m sA = (m sA).withMap sA.sdsuMap := e2
    rw [hA, withMap_ok] at e3
    have e4 : sA1.sdsuMap = sA.sdsuMap := by
      injection e3 with _ h
      exact (congrArg Llvm.sdsuMap h : _)
    refine ⟨a, sA1, { sA1 with sdsuMap := mB }, rfl, e1, mB, rfl, ?_⟩
    rw [e4]
    exact hk

theorem consumeValueTo_wide (c : Compiler) (hd : c.debug = true) (node : GenTree) (v : Value)
    (T : LType) (s : Llvm) (hv : v.getType = .int 64) (hT : T ≠ .int 64) :
    (consumeValueTo c node v T s).isOk = false := by
  unfold consumeValueTo
  rw [hv]
  simp [Ne.symm hT, getInt32Ty, LType.isPointerTy, LType.isIntegerTy,
    LType.getPrimitiveSizeInBits, jitAssert, hd, m_bind_apply, Outcome.isOk]

theorem consumeValueTo_narrow (c : Compiler) (hd : c.debug = true) (node : GenTree) (v : Value)
    (s : Llvm) (hv : v.getType = .int 16) :
    (consumeValueTo c node v (.int 64) s).isOk = false := by
  unfold consumeValueTo
  rw [hv]
  simp [getInt32Ty, LType.isPointerTy, LType.isIntegerTy,
    LType.getPrimitiveSizeInBits, jitAssert, hd, m_bind_apply, Outcome.isOk]

/-- The part of `consumeValue` after the raw read. -/
theorem consumeValue_apply (c : Compiler) (node : GenTree) (T : Option LType) (s : Llvm)
    (v : Value) (h : tableLookup s.sdsuMap node.id = some v) :
    consumeValue c node T s =
      (match T with
        | none =>
          if !v.getType.isIntegerTy then pure v
          else consumeValueTo c node v (c.getLlvmTypeForVarType (c.genActualType node.TypeGet))
        | some t => consumeValueTo c node v t) s := by
  unfold consumeValue
  exact (m_bind_ok (getGenTreeValue_of_lookup h)).trans (by cases T <;> rfl)

theorem consumeValue_none (c : Compiler) (node : GenTree) (T : Option LType) (s : Llvm)
    (h : tableLookup s.sdsuMap node.id = none) : (consumeValue c node T s).isOk = false := by
  unfold consumeValue
  rw [m_bind_apply]
  simp [getGenTreeValue, tableGet, h, deref, unreached, Outcome.isOk]

theorem sameOnTwins_consumeValue (c : Compiler) (hd : c.debug = true) (node : GenTree)
    (T : Option LType) : SameOnTwins (consumeValue c node T) := by
  intro sA sB ⟨mB, hB, hk⟩
  rcases hk node.id with heq | ⟨vA, vB, hA, hBv, tA, tB⟩
  · cases hl : tableLookup sA.sdsuMap node.id with
    | none => exact Or.inl (consumeValue_none c node T sA hl)
    | some v =>
      have hlB : tableLookup sB.sdsuMap node.id = some v := by
        rw [hB]
        exact heq ▸ hl
      rw [consumeValue_apply c node T sA v hl, consumeValue_apply c node T sB v hlB]
      have hfree : MapFree (match T with
          | none =>
            if !v.getType.isIntegerTy then pure v
            else consumeValueTo c node v (c.getLlvmTypeForVarType (c.genActualType node.TypeGet))
          | some t => consumeValueTo c node v t) := by
        cases T with
        | none =>
          dsimp only
          split
          · exact mapFree_pure _
          · exact mapFree_consumeValueTo _ _ _ _
        | some t => exact mapFree_consumeValueTo _ _ _ _
      exact mapTwin_of_free hfree sA sB ⟨mB, hB, hk⟩
  · have hlB : tableLookup sB.sdsuMap node.id = some vB := by
      rw [hB]
      exact hBv
    rw [consumeValue_apply c node T sA vA hA, consumeValue_apply c node T sB vB hlB]
    have iA : (!vA.getType.isIntegerTy) = false := by rw [tA]; rfl
    have iB : (!vB.getType.isIntegerTy) = false := by rw [tB]; rfl
    cases T with
    | none =>
      dsimp only
      rw [iA, iB]
      simp only [Bool.false_eq_true, if_false]
      by_cases ht : c.getLlvmTypeForVarType (c.genActualType node.TypeGet) = .int 64
      · rw [ht]
        exact Or.inr (Or.inl (consumeValueTo_narrow c hd node vB sB tB))
      · exact Or.inl (consumeValueTo_wide c hd node vA _ sA tA ht)
    | some t =>
      dsimp only
      by_cases ht : t = .int 64
      · rw [ht]
        exact Or.inr (Or.inl (consumeValueTo_narrow c hd node vB sB tB))
      · exact Or.inl (consumeValueTo_wide c hd node vA _ sA tA ht)

theorem sameOnTwins_mapGenTreeToValue (c : Compiler) (node : GenTree) (v : Value) :
    SameOnTwins (mapGenTreeToValue c node v) := by
  intro sA sB ⟨mB, hB, hk⟩
  subst hB
  have hn : (tableLookup mB node.id).isNone = (tableLookup sA.sdsuMap node.id).isNone := by
    rcases hk node.id with heq | ⟨vA, vB, hA, hBv, _, _⟩
    · rw [heq]
    · rw [hA, hBv]
      rfl
  rw [mapGenTreeToValue_apply, mapGenTreeToValue_apply]
  dsimp only
  rw [hn]
  by_cases hc : (c.debug && !(tableLookup sA.sdsuMap node.id).isNone) = true
  · rw [if_pos hc]
    exact Or.inl rfl
  · rw [if_neg hc, if_neg hc]
    refine Or.inr (Or.inr ⟨(), _, _, rfl, rfl, tableSet mB node.id v, rfl, ?_⟩)
    intro key
    dsimp only
    rw [tableLookup_tableSet, tableLookup_tableSet]
    by_cases hkey : node.id = key
    · rw [if_pos hkey, if_pos hkey]
      exact Or.inl rfl
    · rw [if_neg hkey, if_neg hkey]
      exact hk key

/-- A step that takes values from the node-to-value map through `consumeValue` only cannot
tell twin states apart without failing, under a compiler that checks its assertions. -/
theorem sameOnTwins_of_reads {c : Compiler} (hd : c.debug = true) {α : Type} {m : M α}
    (h : Reads c (fun _ => False) α m) : SameOnTwins m := by
  induction h with
  | consume node T => exact sameOnTwins_consumeValue c hd node T
  | direct node hn => exact hn.elim
  | record node v => exact sameOnTwins_mapGenTreeToValue c node v
  | free α m hf => exact mapTwin_of_free hf
  | state α f h1 _ ih =>
    intro sA sB ⟨mB, hB, hk⟩
    have eA : (getState >>= f) sA = f sA sA := rfl
    have eB : (getState >>= f) sB = f sA sB := by
      have e : (getState >>= f) sB = f sB sB := rfl
      rw [e, hB, h1]
    rw [eA, eB]
    exact ih sA sA sB ⟨mB, hB, hk⟩
  | bind α β m f _ _ ih1 ih2 =>
    intro sA sB ht
    rcases ih1 sA sB ht with hA | hB | ⟨a, sA1, sB1, hA, hB, ht1⟩
    · left
      rw [m_bind_apply]
      cases hm : m sA with
      | ok a s1 => rw [hm] at hA; cases hA
      | failed k s1 => rfl
    · right; left
      rw [m_bind_apply]
      cases hm : m sB with
      | ok a s1 => rw [hm] at hB; cases hB
      | failed k s1 => rfl
    · rw [m_bind_ok hA, m_bind_ok hB]
      exact ih2 a sA1 sB1 ht1

/-- The raw read of a node is not a read through `consumeValue`: it returns the 64-bit and
the 16-bit value of twin states as they are. -/
theorem not_reads_getGenTreeValue (c : Compiler) (hd : c.debug = true) (node : GenTree) :
    ¬ Reads c (fun _ => False) Value (getGenTreeValue node) := by
  intro h
  have hs := sameOnTwins_of_reads hd h
    { sdsuMap := [(node.id, .argument 0 (.int 64))] }
    { sdsuMap := [(node.id, .argument 0 (.int 16))] }
    ⟨[(node.id, .argument 0 (.int 16))], rfl, fun key => by
      by_cases hkey : node.id = key
      · exact Or.inr ⟨.argument 0 (.int 64), .argument 0 (.int 16),
          by simp [tableLookup, hkey], by simp [tableLookup, hkey], rfl, rfl⟩
      · exact Or.inl (by simp [tableLookup, hkey])⟩
  have eA : getGenTreeValue node ({ sdsuMap := [(node.id, .argument 0 (.int 64))] } : Llvm)
      = .ok (.argument 0 (.int 64)) { sdsuMap := [(node.id, .argument 0 (.int 64))] } :=
    getGenTreeValue_of_lookup (by simp [tableLookup])
  have eB : getGenTreeValue node ({ sdsuMap := [(node.id, .argument 0 (.int 16))] } : Llvm)
      = .ok (.argument 0 (.int 16)) { sdsuMap := [(node.id, .argument 0 (.int 16))] } :=
    getGenTreeValue_of_lookup (by simp [tableLookup])
  rw [eA, eB] at hs
  rcases hs with h1 | h1 | ⟨a, sA1, sB1, h1, h2, _⟩
  · cases h1
  · cases h1
  · injection h1 with h1 _
    injection h2 with h2 _
    rw [← h1] at h2
    cases h2

/-- The conditional-branch handler does not take its condition through `consumeValue`: on the
sample block it branches on a 64-bit and on a 16-bit condition value as they are. -/
theorem not_reads_sampleJTrue :
    ¬ Reads sampleCompiler (fun _ => False) Unit (visitNode sampleCompiler sampleJTrueNode) := by
  intro h
  have hs := sameOnTwins_of_reads (by rfl) h
    { sampleBranchState with sdsuMap := [(3, .argument 0 (.int 64))] }
    { sampleBranchState with sdsuMap := [(3, .argument 0 (.int 16))] }
    ⟨[(3, .argument 0 (.int 16))], rfl, fun key => by
      by_cases hkey : 3 = key
      · exact Or.inr ⟨.argument 0 (.int 64), .argument 0 (.int 16),
          by simp [tableLookup, hkey], by simp [tableLookup, hkey], rfl, rfl⟩
      · exact Or.inl (by simp [tableLookup, hkey])⟩
  have okA : (visitNode sampleCompiler sampleJTrueNode
      { sampleBranchState with sdsuMap := [(3, .argument 0 (.int 64))] }).isOk = true := by
    decide!
  have okB : (visitNode sampleCompiler sampleJTrueNode
      { sampleBranchState with sdsuMap := [(3, .argument 0 (.int 16))] }).isOk = true := by
    decide!
  have hne : (visitNode sampleCompiler sampleJTrueNode
      { sampleBranchState with sdsuMap := [(3, .argument 0 (.int 64))] }).state.emitted
      ≠ (visitNode sampleCompiler sampleJTrueNode
      { sampleBranchState with sdsuMap := [(3, .argument 0 (.int 16))] }).state.emitted := by
    decide!
  rcases hs with h1 | h1 | ⟨a, sA1, sB1, h1, h2, mB, hB, _⟩
  · rw [okA] at h1
    cases h1
  · rw [okB] at h1
    cases h1
  · rw [h1, h2] at hne
    apply hne
    show sA1.emitted = sB1.emitted
    rw [hB]

/-- Counterexample to C28 as stated.  The conditional-branch handler branches on the raw
1-bit value of its condition and creates no conversion, whereas `consumeValue` of the
condition, without a demanded type, creates a zero extension and returns its 32-bit result.
The handler of an indirect call converts the raw 64-bit callee value to a function pointer,
whereas `consumeValue` of the callee with that pointer type as the demanded type stops at
its assertion.  The conditional-branch handler is not a step that takes its values from the
node-to-value map through `consumeValue` only. -/
theorem raw_operand_reads_counterexample :
    tableLookup sampleBranchState.sdsuMap sampleCmpNode.id = some (.inst 0 getInt1Ty) ∧
    (visitNode sampleCompiler sampleJTrueNode sampleBranchState).isOk = true ∧
    (visitNode sampleCompiler sampleJTrueNode sampleBranchState).state.emitted.map
        (fun i => (i.opcode, i.operands))
      = [(.CondBr, [.inst 0 getInt1Ty])] ∧
    consumeValue sampleCompiler sampleCmpNode none sampleBranchState
      = .ok (.inst 1 getInt32Ty)
          (sampleBranchState.insert sampleBranchState.builder
            { opcode := .ZExt, ty := getInt32Ty, operands := [.inst 0 getInt1Ty] }) ∧
    (buildUserFuncCall sampleCompiler sampleIndirectCall sampleWideCalleeState).isOk = true ∧
    (buildUserFuncCall sampleCompiler sampleIndirectCall sampleWideCalleeState).state.emitted.map
        (fun i => (i.opcode, i.operands))
      = [(.IntToPtr, [.argument 1 (.int 64)]),
         (.Call, [.inst 0 (createFunctionTypeForCall sampleCompiler sampleIndirectCall).getPointerTo])] ∧
    consumeValue sampleCompiler sampleCalleeNode
        (some (createFunctionTypeForCall sampleCompiler sampleIndirectCall).getPointerTo)
        sampleWideCalleeState
      = .failed .assertion sampleWideCalleeState ∧
    ¬ Reads sampleCompiler (fun _ => False) Unit (visitNode sampleCompiler sampleJTrueNode) :=
  ⟨by decide!, by decide!, by decide!, by decide!, by decide!, by decide!, by decide!,
    not_reads_sampleJTrue⟩

/-- C28 as the code has it.  Every opcode handler takes the values it uses from the
node-to-value map through `consumeValue`, except for the two operands of `rawOperands`, which
are read with `getGenTreeValue`: the condition of a conditional branch and the callee of an
indirect or virtual call.  A returning conditional-branch handler created exactly one
instruction, the conditional branch, whose condition is the raw value recorded for the
condition node, whatever its type.  A returning handler of an indirect or virtual call
created the call last, and its callee is the raw value recorded for the callee node when that
value already is a pointer to the call's function type, and otherwise the result of one cast
of the raw value to that pointer type, a pointer cast of a pointer or an integer-to-pointer
conversion of an integer of any width, created before the arguments are consumed. -/
theorem raw_operand_reads (c : Compiler) (node : GenTree) (s s1 : Llvm) :
    Reads c (rawOperands node) Unit (visitNode c node) ∧
    (∀ cond v, node.OperGet = .GT_JTRUE → node.gtOp1 = some cond →
      tableLookup s.sdsuMap cond.id = some v → visitNode c node s = .ok () s1 →
      ∃ br : Instruction, s1.emitted = s.emitted ++ [br] ∧ br.opcode = .CondBr ∧
        br.operands = [v]) ∧
    (∀ calleeNode v,
      (node.d.gtCallType = .CT_INDIRECT ∨
        (node.d.gtCallType = .CT_USER_FUNC ∧ node.d.isVirtualVtable = true)) →
      (if node.d.isVirtualVtable = true then node.gtControlExpr else node.gtCallAddr)
        = some calleeNode →
      tableLookup s.sdsuMap calleeNode.id = some v →
      buildUserFuncCall c node s = .ok () s1 →
      ∃ (lcast largs : List Instruction) (callInst : Instruction) (callee : Value)
          (args : List Value),
        s1.emitted = s.emitted ++ lcast ++ largs ++ [callInst] ∧
        callInst.opcode = .Call ∧ callInst.operands = callee :: args ∧
        ((v.getType = (createFunctionTypeForCall c node).getPointerTo ∧ callee = v ∧
            lcast = []) ∨
         (v.getType ≠ (createFunctionTypeForCall c node).getPointerTo ∧
           ∃ castInst : Instruction, lcast = [castInst] ∧ castInst.operands = [v] ∧
             castInst.ty = (createFunctionTypeForCall c node).getPointerTo ∧
             ((v.getType.isPointerTy = true ∧ castInst.opcode = .BitCast) ∨
              (v.getType.isIntegerTy = true ∧ castInst.opcode = .IntToPtr)) ∧
             callee = .inst castInst.id castInst.ty))) := by
  refine ⟨reads_visitNode c node, ?_, ?_⟩
  · intro cond v hop h1 hv h
    unfold visitNode at h
    rw [hop] at h
    dsimp only at h
    rw [h1, m_bind_ok (deref_some _ _), m_bind_ok (getGenTreeValue_of_lookup hv)] at h
    unfold buildJTrue at h
    have h := getState_bind_inv h
    obtain ⟨cb, _, h⟩ := deref_bind_inv h
    obtain ⟨jd, sA, hA, h⟩ := m_bind_inv h
    obtain ⟨nx, sB, hB, h⟩ := m_bind_inv h
    obtain ⟨r, sC, hC, h⟩ := m_bind_inv h
    obtain ⟨_, eC⟩ := create_inv hC
    rw [(m_pure_inv h).2, eC]
    refine ⟨sB.newInst sB.builder
      { opcode := .CondBr, ty := .void, operands := [v], targets := [jd, nx] }, ?_, rfl, rfl⟩
    show sB.emitted ++ _ = _
    rw [getLLVMBasicBlockForBlock_emitted hB, getLLVMBasicBlockForBlock_emitted hA]
  · intro calleeNode v hkind hcallee hv h
    have hc1 : node.d.gtCallType = .CT_USER_FUNC ∨ node.d.gtCallType = .CT_INDIRECT := by
      rcases hkind with hk | hk
      · exact Or.inr hk
      · exact Or.inl hk.1
    have hc2 : node.d.isVirtualVtable = true ∨ node.d.gtCallType = .CT_INDIRECT := by
      rcases hkind with hk | hk
      · exact Or.inr hk
      · exact Or.inl hk.2
    unfold buildUserFuncCall at h
    rw [if_pos hc1, if_pos hc2] at h
    dsimp only at h
    rw [hcallee, m_bind_ok (deref_some _ _), m_bind_ok (getGenTreeValue_of_lookup hv)] at h
    obtain ⟨funcPtr, sA, hA, h⟩ := m_bind_inv h
    obtain ⟨pair, sA2, hp, h⟩ := m_bind_inv h
    obtain ⟨ep, es⟩ := m_pure_inv hp
    rw [es, ep] at h
    dsimp only at h
    obtain ⟨argVec, sB, hB, h⟩ := m_bind_inv h
    obtain ⟨largs, eB, _⟩ := (emits_mapEach (emits_any_buildUserFuncCallArg c) node.Uses).run _ _ _ hB
    obtain ⟨r, sC, hC, h⟩ := m_bind_inv h
    obtain ⟨_, eC⟩ := create_inv hC
    have e1 := mapGenTreeToValue_inv h
    have hem : ∀ lcast, sA.emitted = s.emitted ++ lcast →
        s1.emitted = s.emitted ++ lcast ++ largs ++
          [sB.newInst sB.builder
            { opcode := .Call, ty := (createFunctionTypeForCall c node).returnType,
              operands := funcPtr :: argVec }] := by
      intro lcast hl
      rw [e1, eC]
      show sB.emitted ++ _ = _
      rw [eB, hl]
    unfold castIfNecessary at hA
    obtain ⟨o, sG, hG, hA⟩ := m_bind_inv hA
    obtain ⟨eG, hcase⟩ := getCast_inv hG
    rcases hcase with ⟨en, hty⟩ | ⟨ci, es2, _, hcty, hcops, hne⟩
    · rw [en] at hA
      obtain ⟨er, esA⟩ := m_pure_inv hA
      refine ⟨[], largs, _, funcPtr, argVec, hem [] (by rw [esA, eG]; simp), rfl, rfl,
        Or.inl ⟨hty, er, rfl⟩⟩
    · rw [es2] at hA hG
      obtain ⟨er, esA⟩ := create_inv hA
      have hk := @getCast_toPtr_inv v _ _ _ ci (by rfl) hG
      refine ⟨[sG.newInst sG.builder ci], largs, _, funcPtr, argVec,
        hem _ (by rw [esA, eG]; rfl), rfl, rfl,
        Or.inr ⟨hne, sG.newInst sG.builder ci, rfl, hcops, hcty,
          hk, er⟩⟩

/-- Witness of the amended C28: the conditional branch on a comparison reads the condition
raw and nothing else, and branches on the recorded 1-bit value. -/
theorem raw_operand_reads_witness :
    Reads sampleCompiler (rawOperands sampleJTrueNode) Unit
      (visitNode sampleCompiler sampleJTrueNode) ∧
    (∃ br : Instruction,
      (visitNode sampleCompiler sampleJTrueNode sampleBranchState).state.emitted
        = sampleBranchState.emitted ++ [br] ∧ br.opcode = .CondBr ∧
      br.operands = [.inst 0 getInt1Ty]) :=
  ⟨(raw_operand_reads sampleCompiler sampleJTrueNode sampleBranchState
      (visitNode sampleCompiler sampleJTrueNode sampleBranchState).state).1,
   (raw_operand_reads sampleCompiler sampleJTrueNode sampleBranchState
      (visitNode sampleCompiler sampleJTrueNode sampleBranchState).state).2.1
      sampleCmpNode (.inst 0 getInt1Ty) (by decide) rfl (by decide) (by decide!)⟩

end LlvmCodegen
